import Mathlib

/-!
# llvmpipe tiling engine (`lp_setup.c`): scene pool, setup state machine, clear coalescing

A shallow embedding of `src/mesalib/src/gallium/drivers/llvmpipe/lp_setup.c`.

* C pointers into the scene pool are indices (`setup->scene : Option Nat`), `NULL` is `none`.
* A function that would dereference a null or dangling pointer returns `none`.
* `assert` is compiled out (release build): it is a no-op in the model and the asserted
  facts are proved as theorems instead.
* Calls that can fail for lack of memory (`lp_scene_create`, `lp_fence_create`,
  `lp_scene_alloc`, binning one command into one tile, taking a reference) read their outcome
  from `oracle`, a script of outcomes supplied by the environment; an exhausted script means
  success.  Theorems quantify over every script.
* `trace` is ghost state: the calls made to the scene / fence / rasterizer modules, in order.
* `next_serial` is ghost state: the number of arena blocks handed out so far; a block is named
  by its serial number.  The bytes of the stored constant buffers and the stored
  fragment-state record are part of the model.  The viewport and blend-colour blocks are
  written once, by the copy that follows their allocation, and their bytes are not modelled:
  that such a block was allocated by a call stands for its holding the values current at
  that call.
* The structures declared in headers that are not under src/ (`lp_setup_context.h`,
  `p_state.h`, `lp_jit.h`) are rebuilt from the members `lp_setup.c` reads or writes.
-/

namespace LpSetup

/-! ## Data model -/

/-- The enum `setup_state`; the order is that of the `states[]` name table. -/
inductive setup_state
  | SETUP_FLUSHED
  | SETUP_CLEARED
  | SETUP_ACTIVE
  deriving DecidableEq, Repr

/-- The surface formats the engine distinguishes; every other format is `other code`. -/
inductive pipe_format
  | PIPE_FORMAT_Z24X8_UNORM
  | PIPE_FORMAT_X8Z24_UNORM
  | other (code : Nat)
  deriving DecidableEq, Repr

/-- A render-target view: `struct pipe_surface` (format and the resource it views). -/
structure pipe_surface where
  format : pipe_format
  texture : Nat
  deriving DecidableEq, Repr

/-- The bound render targets: `struct pipe_framebuffer_state`. -/
structure pipe_framebuffer_state where
  width : Nat
  height : Nat
  nr_cbufs : Nat
  cbufs : List (Option pipe_surface)
  zsbuf : Option pipe_surface
  deriving DecidableEq, Repr

/-- Inclusive rectangle `struct u_rect`. -/
structure u_rect where
  x0 : Int
  x1 : Int
  y0 : Int
  y1 : Int
  deriving DecidableEq, Repr

/-- Modelled from the spec: a fence is a completion signal counted by each consumer worker
assigned to a scene (`lp_fence.c` is not under src/): `rank` signals are required, `count`
have arrived. -/
structure lp_fence where
  rank : Nat
  count : Nat
  deriving DecidableEq, Repr

/-- Modelled from the spec: `is_signalled()` of a fence, all required signals have arrived. -/
def lp_fence_signalled (f : lp_fence) : Bool :=
  decide (f.rank ≤ f.count)

/-- Modelled from the spec: `wait()` blocks until the fence is signalled, so on return every
required signal has arrived. -/
def lp_fence_wait (f : lp_fence) : lp_fence :=
  if f.rank ≤ f.count then f else { f with count := f.rank }

/-- Modelled from the spec: a new fence sized to `rank` signals, none received. -/
def lp_fence_create (rank : Nat) : lp_fence :=
  { rank := rank, count := 0 }

/-- A packed colour (`union util_color`), as the number its bytes spell. -/
abbrev util_color := Nat

/-- The commands this file bins, with their operands by value
(`LP_RAST_OP_*` with `union lp_rast_cmd_arg`). -/
inductive lp_rast_cmd
  | LP_RAST_OP_CLEAR_COLOR (cbuf : Nat) (color_val : util_color)
  | LP_RAST_OP_CLEAR_ZSTENCIL (zsvalue : Nat) (zsmask : Nat)
  | LP_RAST_OP_BEGIN_QUERY (pq : Nat)
  | LP_RAST_OP_END_QUERY (pq : Nat)
  deriving DecidableEq, Repr

/-- Modelled from the spec: a scene is an append-only command buffer with one ordered command
list per tile (`bins`), an arena (`data`: the blocks handed out, by serial number), a
completion fence, the render targets it was begun against, the shaders and resources it holds
references to, and the snapshot of the active queries (`lp_scene.h` is not under src/). -/
structure lp_scene where
  fence : Option lp_fence
  permit_linear_rasterizer : Bool
  fb : pipe_framebuffer_state
  bins : List (List lp_rast_cmd)
  data : List Nat
  frag_shaders : List Nat
  resources : List (Nat × Bool)
  had_queries : Bool
  num_active_queries : Nat
  active_queries : List (Option Nat)
  deriving DecidableEq, Repr

/-- Calls into the scene, fence and rasterizer modules, as recorded in `trace`.
The `slot` is the index of the scene in the pool. -/
inductive event
  | scene_create (ok : Bool)
  | fence_create (rank : Nat) (ok : Bool)
  | fence_wait (slot : Nat)
  | scene_begin_binning (slot : Nat)
  | scene_end_binning (slot : Nat)
  | scene_end_rasterization (slot : Nat)
  | rast_queue_scene (slot : Nat)
  | scene_alloc (slot : Nat) (ok : Bool)
  | add_frag_shader_reference (slot : Nat) (variant : Nat) (ok : Bool)
  | add_resource_reference (slot : Nat) (res : Nat) (writeable : Bool) (ok : Bool)
  | fence_reference (pq : Nat) (slot : Nat)
  | rast_fence (pq : Nat)
  deriving DecidableEq, Repr

/-- The value of a primitive strategy pointer (`setup->point`, `line`, `triangle`, `rect`):
null, one of the four first-call stubs of this file, or a strategy chosen by
`lp_setup_choose_*` (defined in other files). -/
inductive prim_fn
  | null
  | first_point
  | first_line
  | first_triangle
  | first_rectangle
  | chosen (id : Nat)
  deriving DecidableEq, Repr

/-- The pending-clear accumulator `setup->clear`. -/
structure clear_state where
  flags : Nat
  color_val : List util_color
  zsmask : Nat
  zsvalue : Nat
  deriving DecidableEq, Repr

/-- A constant buffer binding (`struct pipe_constant_buffer`); `user_buffer` holds the bytes
of the user memory it points to. -/
structure pipe_constant_buffer where
  buffer : Option Nat
  buffer_offset : Nat
  buffer_size : Nat
  user_buffer : Option (List Nat)
  deriving DecidableEq, Repr

/-- A pointer stored in the JIT context: null, the static `fake_const_buf`, a block of a scene
arena (serial number and byte offset), or resource memory at an offset. -/
inductive data_ptr
  | null
  | fake_const_buf
  | arena (serial : Nat) (offset : Nat)
  | resource (res : Nat) (offset : Nat)
  deriving DecidableEq, Repr

/-- One `constants[i]` / `ssbos[i]` entry of the JIT context: pointer and element count. -/
structure lp_jit_buffer where
  ptr : data_ptr
  num_elements : Nat
  deriving DecidableEq, Repr

/-- The fields of `struct lp_jit_context` written by this file; floats are bit patterns.
`tex_img_sam` stands for the texture, image and sampler tables. -/
structure lp_jit_context where
  constants : List lp_jit_buffer
  ssbos : List lp_jit_buffer
  viewports : data_ptr
  u8_blend_color : data_ptr
  f_blend_color : data_ptr
  alpha_ref_value : Nat
  stencil_ref_front : Nat
  stencil_ref_back : Nat
  sample_mask : Nat
  aniso_filter_table : Nat
  tex_img_sam : Nat
  deriving DecidableEq, Repr

/-- The fragment-state descriptor `struct lp_rast_state`: JIT context and the address of the
shader variant. -/
structure lp_rast_state where
  jit_context : lp_jit_context
  variant : Nat
  deriving DecidableEq, Repr

/-- A record stored in a scene arena: the serial number of its block and its contents. -/
structure stored_rast_state where
  serial : Nat
  val : lp_rast_state
  deriving DecidableEq, Repr

/-- The member `setup->fs`. -/
structure fs_state where
  current : lp_rast_state
  stored : Option stored_rast_state
  current_tex : List (Option Nat)
  current_tex_num : Nat
  deriving DecidableEq, Repr

/-- One entry of `setup->constants[]`; `stored_data` is the arena block (serial, bytes). -/
structure constants_state where
  current : pipe_constant_buffer
  stored_size : Nat
  stored_data : Option (Nat × List Nat)
  deriving DecidableEq, Repr

/-- A shader buffer binding (`struct pipe_shader_buffer`). -/
structure pipe_shader_buffer where
  buffer : Option Nat
  buffer_offset : Nat
  buffer_size : Nat
  deriving DecidableEq, Repr

/-- An image binding: the fields of `struct pipe_image_view` read by this file. -/
structure pipe_image_view where
  resource : Option Nat
  shader_access : Nat
  deriving DecidableEq, Repr

/-- The member `setup->blend_color`: four float bit patterns and the stored arena block. -/
structure blend_color_state where
  current : List Nat
  stored : Option Nat
  deriving DecidableEq, Repr

/-- Depth range of one viewport (`struct lp_jit_viewport`), as float bit patterns. -/
structure lp_jit_viewport where
  min_depth : Nat
  max_depth : Nat
  deriving DecidableEq, Repr

/-- The part of the llvmpipe context (`setup->pipe`) read by `try_update_scene_state`:
the `LP_NEW_FS_CONSTANTS` bit of its dirty mask and its fragment constant buffers. -/
structure llvmpipe_context where
  dirty_fs_constants : Bool
  constants : List pipe_constant_buffer
  deriving DecidableEq, Repr

/-- The query types the engine distinguishes (`enum pipe_query_type`); every other type is
`other code`. -/
inductive pipe_query_type
  | PIPE_QUERY_OCCLUSION_COUNTER
  | PIPE_QUERY_OCCLUSION_PREDICATE
  | PIPE_QUERY_OCCLUSION_PREDICATE_CONSERVATIVE
  | PIPE_QUERY_TIMESTAMP
  | PIPE_QUERY_TIME_ELAPSED
  | PIPE_QUERY_PIPELINE_STATISTICS
  | other (code : Nat)
  deriving DecidableEq, Repr

/-- A query object as seen by the engine: its address and its type. -/
structure llvmpipe_query where
  ptr : Nat
  type : pipe_query_type
  deriving DecidableEq, Repr

/-- The setup context `struct lp_setup_context` (the members this file reads or writes).
`scenes` holds the first `num_active_scenes` slots of the pool array; `oracle`, `trace` and
`next_serial` are ghost state (see the header of this file). -/
structure lp_setup_context where
  num_threads : Nat
  scenes : List lp_scene
  scene : Option Nat
  state : setup_state
  fb : pipe_framebuffer_state
  framebuffer : u_rect
  clear : clear_state
  dirty : Nat
  fs : fs_state
  constants : List constants_state
  ssbos : List pipe_shader_buffer
  ssbo_write_mask : Nat
  images : List pipe_image_view
  blend_color : blend_color_state
  viewports : List lp_jit_viewport
  vpwh : u_rect
  scissors : List u_rect
  draw_regions : List u_rect
  scissor_test : Bool
  permit_linear_rasterizer : Bool
  point_tri_clip : Bool
  rasterizer_discard : Bool
  point : prim_fn
  line : prim_fn
  triangle : prim_fn
  rect : prim_fn
  active_binned_queries : Nat
  active_queries : List (Option Nat)
  pipe : llvmpipe_context
  oracle : List Bool
  trace : List event
  next_serial : Nat
  deriving DecidableEq, Repr

/-- Modelled from the spec: what the headers and modules that are not under src/ provide to
this file.  `MAX_SCENES` is the pool capacity, `LP_MAX_ACTIVE_BINNED_QUERIES` the bound of the
active-query list, the other `*_MAX_*` fields the sizes of the context's arrays, `num_tiles` the number of tile bins of a scene begun against a framebuffer,
the `util_pack*` functions pack clear values and masks into the surface's bit layout (depth
and colour are passed as bit patterns), `llvmpipe_resource_data` gives the bytes of a
resource (`none` when it has no storage), `u_rect_possible_intersection a b` is the value
left in `b` by the helper of that name. -/
structure lp_headers where
  MAX_SCENES : Nat
  LP_MAX_ACTIVE_BINNED_QUERIES : Nat
  LP_MAX_TGSI_CONST_BUFFERS : Nat
  LP_MAX_TGSI_SHADER_BUFFERS : Nat
  LP_MAX_TGSI_SHADER_IMAGES : Nat
  PIPE_MAX_SHADER_SAMPLER_VIEWS : Nat
  PIPE_MAX_VIEWPORTS : Nat
  LP_MAX_TGSI_CONST_BUFFER_SIZE : Nat
  lp_get_constant_buffer_stride : Nat
  num_tiles : pipe_framebuffer_state → Nat
  util_pack_color_union : pipe_format → Nat → util_color
  util_pack64_z_stencil : pipe_format → Nat → Nat → Nat
  util_pack64_mask_z_stencil : pipe_format → Nat → Nat → Nat
  util_pack_mask_z_stencil : pipe_format → Nat → Nat → Nat
  llvmpipe_resource_data : Nat → Option (List Nat)
  lp_build_sample_aniso_filter_table : Nat
  u_rect_possible_intersection : u_rect → u_rect → u_rect

/-! ## Constants of the headers -/

/-- Modelled from the spec: one dirty bit per state category; the `LP_SETUP_NEW_*` masks are
declared in `lp_setup_context.h`, which is not under src/. -/
def LP_SETUP_NEW_FS : Nat := 0x01

/-- Modelled from the spec: dirty bit of the constants category. -/
def LP_SETUP_NEW_CONSTANTS : Nat := 0x02

/-- Modelled from the spec: dirty bit of the blend-colour category. -/
def LP_SETUP_NEW_BLEND_COLOR : Nat := 0x04

/-- Modelled from the spec: dirty bit of the scissor category. -/
def LP_SETUP_NEW_SCISSOR : Nat := 0x08

/-- Modelled from the spec: dirty bit of the viewport category. -/
def LP_SETUP_NEW_VIEWPORTS : Nat := 0x10

/-- Modelled from the spec: dirty bit of the SSBO category. -/
def LP_SETUP_NEW_SSBOS : Nat := 0x20

/-- The value `~0` of an `unsigned` (32 bits): every dirty bit set. -/
def ALL_ONES : Nat := 0xFFFFFFFF

/-- Modelled from the spec: the clear-target flag of the depth buffer; the `PIPE_CLEAR_*` macros
are defined in `p_defines.h`, which is not under src/. -/
def PIPE_CLEAR_DEPTH : Nat := 1

/-- Modelled from the spec: the clear-target flag of the stencil buffer (`p_defines.h`). -/
def PIPE_CLEAR_STENCIL : Nat := 2

/-- Modelled from the spec: the flags of depth and stencil together (`p_defines.h`). -/
def PIPE_CLEAR_DEPTHSTENCIL : Nat := PIPE_CLEAR_DEPTH ||| PIPE_CLEAR_STENCIL

/-- Flag of colour buffer 0; the source asserts `PIPE_CLEAR_COLOR0 == 1 << 2`. -/
def PIPE_CLEAR_COLOR0 : Nat := 1 <<< 2

/-- Modelled from the spec: the number of colour buffers of a framebuffer (`p_state.h` is not
under src/; the source speaks of at most 9 clears: eight colour buffers and depth/stencil). -/
def PIPE_MAX_COLOR_BUFS : Nat := 8

/-- Modelled from the spec: the flags of all eight colour buffers, bits 2 to 9
(`p_defines.h`). -/
def PIPE_CLEAR_COLOR : Nat := 0x3fc

/-! ## Scene, arena and oracle helpers -/

/-- Reads the next outcome of the environment script; an exhausted script means success. -/
def take_oracle (s : lp_setup_context) : Bool × lp_setup_context :=
  match s.oracle with
  | [] => (true, s)
  | b :: rest => (b, { s with oracle := rest })

/-- Appends a call to the ghost trace. -/
def record (e : event) (s : lp_setup_context) : lp_setup_context :=
  { s with trace := s.trace ++ [e] }

/-- Applies `f` to the scene in pool slot `i` (a write through a scene pointer). -/
def modify_scene (f : lp_scene → lp_scene) : Nat → List lp_scene → List lp_scene
  | _, [] => []
  | 0, sc :: rest => f sc :: rest
  | i + 1, sc :: rest => sc :: modify_scene f i rest

/-- A write through `setup->scenes[i]`. -/
def with_scene (i : Nat) (f : lp_scene → lp_scene) (s : lp_setup_context) : lp_setup_context :=
  { s with scenes := modify_scene f i s.scenes }

/-- The number of pool slots in use, `setup->num_active_scenes`. -/
def num_active_scenes (s : lp_setup_context) : Nat :=
  s.scenes.length

/-- The framebuffer description of zeroed memory. -/
def empty_fb : pipe_framebuffer_state :=
  { width := 0, height := 0, nr_cbufs := 0, cbufs := List.replicate PIPE_MAX_COLOR_BUFS none,
    zsbuf := none }

/-- Modelled from the spec: a scene as `lp_scene_create` returns it: no fence, no bins, an
empty arena, no references. -/
def empty_scene : lp_scene :=
  { fence := none, permit_linear_rasterizer := false, fb := empty_fb, bins := [], data := [],
    frag_shaders := [], resources := [], had_queries := false, num_active_queries := 0,
    active_queries := [] }

/-- Modelled from the spec: `lp_scene_end_rasterization` reclaims a finished scene in place
(ended/reset): its fence is dropped, its bins and arena are emptied and the references it
held are released. -/
def lp_scene_end_rasterization (sc : lp_scene) : lp_scene :=
  { empty_scene with permit_linear_rasterizer := sc.permit_linear_rasterizer }

/-- Modelled from the spec: `lp_scene_begin_binning` binds the scene to the render targets,
with one empty command list per tile. -/
def lp_scene_begin_binning (h : lp_headers) (fb : pipe_framebuffer_state) (sc : lp_scene) :
    lp_scene :=
  { sc with fb := fb, bins := List.replicate (h.num_tiles fb) [] }

/-- Modelled from the spec: `lp_scene_create` allocates a scene, or returns NULL (`none`) when
the allocation fails. -/
def lp_scene_create (s : lp_setup_context) : Option lp_scene × lp_setup_context :=
  let r := take_oracle s
  (if r.1 then some empty_scene else none, record (event.scene_create r.1) r.2)

/-- Modelled from the spec: `lp_scene_alloc` / `lp_scene_alloc_aligned` hand out a block of
the arena of the scene in slot `i` (identified by a fresh serial number), or NULL (`none`)
when the arena is exhausted. -/
def lp_scene_alloc (i : Nat) (s : lp_setup_context) : Option Nat × lp_setup_context :=
  let r := take_oracle s
  let s1 := record (event.scene_alloc i r.1) r.2
  if r.1 then
    (some s1.next_serial,
      with_scene i (fun sc => { sc with data := sc.data ++ [s1.next_serial] })
        { s1 with next_serial := s1.next_serial + 1 })
  else (none, s1)

/-- Modelled from the spec: binning one command into the tiles of a scene in order; each tile
may fail for lack of memory (one oracle outcome per tile), which stops the loop and leaves
the command in the tiles already visited. -/
def bin_everywhere_loop (cmd : lp_rast_cmd) :
    List (List lp_rast_cmd) → List Bool → Bool × List (List lp_rast_cmd) × List Bool
  | [], o => (true, [], o)
  | b :: bs, [] =>
    let r := bin_everywhere_loop cmd bs []
    (r.1, (b ++ [cmd]) :: r.2.1, r.2.2)
  | b :: bs, true :: o =>
    let r := bin_everywhere_loop cmd bs o
    (r.1, (b ++ [cmd]) :: r.2.1, r.2.2)
  | b :: bs, false :: o => (false, b :: bs, o)

/-- Modelled from the spec: `lp_scene_bin_everywhere` appends a command to every tile's bin
of the scene in slot `i`; FALSE when a tile could not take it.  Callers have resolved the
scene pointer to the valid slot `i`. -/
def lp_scene_bin_everywhere (i : Nat) (cmd : lp_rast_cmd) (s : lp_setup_context) :
    Bool × lp_setup_context :=
  match s.scenes.get? i with
  | none => (true, s)
  | some sc =>
    let r := bin_everywhere_loop cmd sc.bins s.oracle
    (r.1, with_scene i (fun c => { c with bins := r.2.1 }) { s with oracle := r.2.2 })

/-- Modelled from the spec: taking a scene reference to a shader variant; may fail. -/
def lp_scene_add_frag_shader_reference (i : Nat) (variant : Nat) (s : lp_setup_context) :
    Bool × lp_setup_context :=
  let r := take_oracle s
  let s1 := record (event.add_frag_shader_reference i variant r.1) r.2
  if r.1 then (true, with_scene i (fun sc => { sc with frag_shaders := sc.frag_shaders ++ [variant] }) s1)
  else (false, s1)

/-- Modelled from the spec: taking a scene reference to an external resource, for reading or
for writing; may fail. -/
def lp_scene_add_resource_reference (i : Nat) (res : Nat) (writeable : Bool)
    (s : lp_setup_context) : Bool × lp_setup_context :=
  let r := take_oracle s
  let s1 := record (event.add_resource_reference i res writeable r.1) r.2
  if r.1 then
    (true, with_scene i (fun sc => { sc with resources := sc.resources ++ [(res, writeable)] }) s1)
  else (false, s1)

/-! ## The scene pool (`lp_setup_wait_empty_scene`, `lp_setup_get_empty_scene`) -/

/-- Blocks on the fence of slot 0 (if it has one), reclaims the scene, and selects slot 0.
`none`: `scenes[0]` is dereferenced while the pool is empty. -/
def lp_setup_wait_empty_scene (s : lp_setup_context) : Option (Nat × lp_setup_context) :=
  match s.scenes with
  | [] => none
  | sc0 :: _ =>
    match sc0.fence with
    | some f =>
      let s1 := record (event.fence_wait 0)
        (with_scene 0 (fun sc => { sc with fence := some (lp_fence_wait f) }) s)
      let s2 := record (event.scene_end_rasterization 0) (with_scene 0 lp_scene_end_rasterization s1)
      some (0, s2)
    | none => some (0, s)

/-- The scan loop of `lp_setup_get_empty_scene` from slot `i` on: stops at the first slot
whose fence is unset, or is signalled (that scene is reclaimed in place); returns the index
where it stopped (the pool size if it never did), the pool and the trace. -/
def scan_scenes (i : Nat) : List lp_scene → List event → Nat × List lp_scene × List event
  | [], tr => (i, [], tr)
  | sc :: rest, tr =>
    match sc.fence with
    | some f =>
      if lp_fence_signalled f then
        (i, lp_scene_end_rasterization sc :: rest, tr ++ [event.scene_end_rasterization i])
      else
        let r := scan_scenes (i + 1) rest tr
        (r.1, sc :: r.2.1, r.2.2)
    | none => (i, sc :: rest, tr)

/-- The slot chosen by the code after the scan loop of `lp_setup_get_empty_scene`:
wait on slot 0 when at capacity, allocate when the scan found nothing (falling back to the
wait when the allocation fails), otherwise the slot the scan stopped at. -/
def choose_scene (h : lp_headers) (i : Nat) (s : lp_setup_context) :
    Option (Nat × lp_setup_context) :=
  if num_active_scenes s + 1 > h.MAX_SCENES then
    lp_setup_wait_empty_scene s
  else if i = num_active_scenes s then
    match lp_scene_create s with
    | (none, s1) => lp_setup_wait_empty_scene s1
    | (some scene, s1) => some (num_active_scenes s1, { s1 with scenes := s1.scenes ++ [scene] })
  else some (i, s)

/-- The function `lp_setup_get_empty_scene`: selects a pool scene, makes it the current scene
and begins binning on it. -/
def lp_setup_get_empty_scene (h : lp_headers) (s : lp_setup_context) :
    Option lp_setup_context :=
  let r := scan_scenes 0 s.scenes s.trace
  match choose_scene h r.1 { s with scenes := r.2.1, trace := r.2.2 } with
  | none => none
  | some (i, s1) =>
    if i < s1.scenes.length then
      some (record (event.scene_begin_binning i)
        (with_scene i
          (fun sc => lp_scene_begin_binning h s1.fb
            { sc with permit_linear_rasterizer := s1.permit_linear_rasterizer })
          { s1 with scene := some i }))
    else none

/-! ## Snapshotting dirty state into the scene (`try_update_scene_state`) -/

/-- Modelled from the spec: the access flag of a writable image binding (`p_defines.h`, not
under src/). -/
def PIPE_IMAGE_ACCESS_WRITE : Nat := 2

/-- Modelled from the spec: the macro `DIV_ROUND_UP` (`u_math.h`, not under src/), division
rounding up. -/
def DIV_ROUND_UP (a b : Nat) : Nat :=
  (a + b - 1) / b

/-- Modelled from the spec: the binding `util_copy_constant_buffer` (`u_inlines.h`, not under
src/) leaves for a null source. -/
def null_constant_buffer : pipe_constant_buffer :=
  { buffer := none, buffer_offset := 0, buffer_size := 0, user_buffer := none }

/-- The two loops of `lp_setup_set_fs_constants`: the first `num` slots take `buffers[i]`,
the remaining slots the null binding. -/
def set_fs_constants_loop :
    List constants_state → Nat → List pipe_constant_buffer → List constants_state
  | [], _, _ => []
  | c :: cs, 0, _ => { c with current := null_constant_buffer } :: set_fs_constants_loop cs 0 []
  | c :: cs, n + 1, [] =>
    { c with current := null_constant_buffer } :: set_fs_constants_loop cs n []
  | c :: cs, n + 1, b :: bs => { c with current := b } :: set_fs_constants_loop cs n bs

/-- The setter `lp_setup_set_fs_constants`. -/
def lp_setup_set_fs_constants (num : Nat) (buffers : List pipe_constant_buffer)
    (s : lp_setup_context) : lp_setup_context :=
  { s with constants := set_fs_constants_loop s.constants num buffers,
           dirty := s.dirty ||| LP_SETUP_NEW_CONSTANTS }

/-- A write to `setup->fs.current.jit_context`. -/
def with_jit (f : lp_jit_context → lp_jit_context) (s : lp_setup_context) : lp_setup_context :=
  { s with fs := { s.fs with current := { s.fs.current with jit_context := f s.fs.current.jit_context } } }

/-- A write of the dirty mask: `setup->dirty |= bits`. -/
def mark_dirty (bits : Nat) (s : lp_setup_context) : lp_setup_context :=
  { s with dirty := s.dirty ||| bits }

/-- The block `if (setup->dirty & LP_SETUP_NEW_VIEWPORTS)` for the scene in slot `sl`. -/
def update_viewports (sl : Nat) (s : lp_setup_context) : Bool × lp_setup_context :=
  if s.dirty &&& LP_SETUP_NEW_VIEWPORTS ≠ 0 then
    match lp_scene_alloc sl s with
    | (none, s1) => (false, s1)
    | (some stored, s1) =>
      (true, mark_dirty LP_SETUP_NEW_FS
        (with_jit (fun j => { j with viewports := data_ptr.arena stored 0 }) s1))
  else (true, s)

/-- The block `if (setup->dirty & LP_SETUP_NEW_BLEND_COLOR)`: the float colours are stored
after the 4 x 16 ubyte colours of the same block. -/
def update_blend_color (sl : Nat) (s : lp_setup_context) : Bool × lp_setup_context :=
  if s.dirty &&& LP_SETUP_NEW_BLEND_COLOR ≠ 0 then
    match lp_scene_alloc sl s with
    | (none, s1) => (false, s1)
    | (some stored, s1) =>
      (true, mark_dirty LP_SETUP_NEW_FS
        (with_jit (fun j => { j with u8_blend_color := data_ptr.arena stored 0,
                                     f_blend_color := data_ptr.arena stored (4 * 16) })
          { s1 with blend_color := { s1.blend_color with stored := some stored } }))
  else (true, s)

/-- The bytes `current_data` points to for a constant binding: resource memory, else user
memory, else NULL. -/
def constant_current_data (h : lp_headers) (cb : pipe_constant_buffer) : Option (List Nat) :=
  match cb.buffer with
  | some buffer => h.llvmpipe_resource_data buffer
  | none => cb.user_buffer

/-- The end of one iteration of the constants loop: slot `i` becomes `c1`, the JIT entry
points to `p` with `DIV_ROUND_UP(stored_size, stride)` elements, and the fragment state is
marked dirty. -/
def finish_constant (h : lp_headers) (i : Nat) (c1 : constants_state) (p : data_ptr)
    (s1 : lp_setup_context) : lp_setup_context :=
  let entry : lp_jit_buffer :=
    { ptr := p, num_elements := DIV_ROUND_UP c1.stored_size h.lp_get_constant_buffer_stride }
  mark_dirty LP_SETUP_NEW_FS
    (with_jit (fun j => { j with constants := j.constants.set i entry })
      { s1 with constants := s1.constants.set i c1 })

/-- One iteration of the constants loop, for slot `i` holding `c`. -/
def update_constant (h : lp_headers) (sl : Nat) (i : Nat) (c : constants_state)
    (s : lp_setup_context) : Bool × lp_setup_context :=
  let current_size := min c.current.buffer_size h.LP_MAX_TGSI_CONST_BUFFER_SIZE
  let finish := finish_constant h i
  match constant_current_data h c.current with
  | some data =>
    if current_size ≥ 4 then
      let bytes := (data.drop c.current.buffer_offset).take current_size
      let differs : Bool :=
        match c.stored_data with
        | none => true
        | some sd => decide (c.stored_size ≠ current_size) || decide (sd.2.take current_size ≠ bytes)
      if differs then
        match lp_scene_alloc sl s with
        | (none, s1) => (false, s1)
        | (some stored, s1) =>
          (true, finish { c with stored_size := current_size, stored_data := some (stored, bytes) }
            (data_ptr.arena stored 0) s1)
      else
        (true, finish c
          (match c.stored_data with
           | some sd => data_ptr.arena sd.1 0
           | none => data_ptr.null) s)
    else
      (true, finish { c with stored_size := 0, stored_data := none } data_ptr.fake_const_buf s)
  | none =>
    (true, finish { c with stored_size := 0, stored_data := none } data_ptr.fake_const_buf s)

/-- The constants loop from slot `i`, `n` slots to go; stops with FALSE at the first failed
allocation. -/
def update_constants_loop (h : lp_headers) (sl : Nat) :
    Nat → Nat → lp_setup_context → Bool × lp_setup_context
  | 0, _, s => (true, s)
  | n + 1, i, s =>
    match s.constants.get? i with
    | none => (true, s)
    | some c =>
      let r := update_constant h sl i c s
      if r.1 then update_constants_loop h sl n (i + 1) r.2 else (false, r.2)

/-- The block `if (setup->dirty & LP_SETUP_NEW_CONSTANTS)`. -/
def update_constants (h : lp_headers) (sl : Nat) (s : lp_setup_context) :
    Bool × lp_setup_context :=
  if s.dirty &&& LP_SETUP_NEW_CONSTANTS ≠ 0 then
    update_constants_loop h sl s.constants.length 0 s
  else (true, s)

/-- The JIT entry of one SSBO binding. -/
def ssbo_jit_buffer (h : lp_headers) (b : pipe_shader_buffer) : lp_jit_buffer :=
  match b.buffer with
  | some buffer =>
    match h.llvmpipe_resource_data buffer with
    | some _ => { ptr := data_ptr.resource buffer b.buffer_offset, num_elements := b.buffer_size }
    | none => { ptr := data_ptr.null, num_elements := 0 }
  | none => { ptr := data_ptr.null, num_elements := 0 }

/-- The block `if (setup->dirty & LP_SETUP_NEW_SSBOS)`. -/
def update_ssbos (h : lp_headers) (s : lp_setup_context) : lp_setup_context :=
  if s.dirty &&& LP_SETUP_NEW_SSBOS ≠ 0 then
    match s.ssbos with
    | [] => s
    | _ :: _ =>
      mark_dirty LP_SETUP_NEW_FS
        (with_jit (fun j => { j with ssbos := s.ssbos.map (ssbo_jit_buffer h) }) s)
  else s

/-- The loop over `setup->fs.current_tex`: a read reference for every non-null texture. -/
def add_tex_references (sl : Nat) : List (Option Nat) → lp_setup_context → Bool × lp_setup_context
  | [], s => (true, s)
  | none :: rest, s => add_tex_references sl rest s
  | some tex :: rest, s =>
    let r := lp_scene_add_resource_reference sl tex false s
    if r.1 then add_tex_references sl rest r.2 else (false, r.2)

/-- The loop over `setup->ssbos` from index `i`: a reference for every non-null buffer,
writable iff bit `i` of `ssbo_write_mask` is set. -/
def add_ssbo_references (sl : Nat) (mask : Nat) :
    Nat → List pipe_shader_buffer → lp_setup_context → Bool × lp_setup_context
  | _, [], s => (true, s)
  | i, b :: rest, s =>
    match b.buffer with
    | none => add_ssbo_references sl mask (i + 1) rest s
    | some buffer =>
      let r := lp_scene_add_resource_reference sl buffer (decide (mask &&& (1 <<< i) ≠ 0)) s
      if r.1 then add_ssbo_references sl mask (i + 1) rest r.2 else (false, r.2)

/-- The loop over `setup->images`: a reference for every non-null resource, writable iff
`shader_access` has `PIPE_IMAGE_ACCESS_WRITE`. -/
def add_image_references (sl : Nat) :
    List pipe_image_view → lp_setup_context → Bool × lp_setup_context
  | [], s => (true, s)
  | im :: rest, s =>
    match im.resource with
    | none => add_image_references sl rest s
    | some res =>
      let r := lp_scene_add_resource_reference sl res
        (decide (im.shader_access &&& PIPE_IMAGE_ACCESS_WRITE ≠ 0)) s
      if r.1 then add_image_references sl rest r.2 else (false, r.2)

/-- The three reference loops that follow `setup->fs.stored = stored`: textures, SSBOs and
images, stopping with FALSE at the first reference that cannot be taken. -/
def update_fs_references (sl : Nat) (s : lp_setup_context) : Bool × lp_setup_context :=
  let r1 := add_tex_references sl s.fs.current_tex s
  if r1.1 then
    let r2 := add_ssbo_references sl r1.2.ssbo_write_mask 0 r1.2.ssbos r1.2
    if r2.1 then add_image_references sl r2.2.images r2.2 else (false, r2.2)
  else (false, r1.2)

/-- The record written into the block `serial` of the arena: a copy of the current JIT
context with the anisotropic filter table filled in, and the current variant. -/
def new_stored_rast_state (h : lp_headers) (serial : Nat) (s : lp_setup_context) :
    stored_rast_state :=
  { serial := serial,
    val := { jit_context :=
               { s.fs.current.jit_context with
                 aniso_filter_table := h.lp_build_sample_aniso_filter_table },
             variant := s.fs.current.variant } }

/-- The body of the fragment-state block once the record was allocated: the variant is
referenced, `setup->fs.stored` is set, then the resources are referenced. -/
def update_fs_store (h : lp_headers) (sl : Nat) (serial : Nat) (s : lp_setup_context) :
    Bool × lp_setup_context :=
  let r := lp_scene_add_frag_shader_reference sl s.fs.current.variant s
  if r.1 then
    update_fs_references sl
      { r.2 with fs := { r.2.fs with stored := some (new_stored_rast_state h serial s) } }
  else (false, r.2)

/-- The test `!setup->fs.stored || memcmp(setup->fs.stored, &setup->fs.current, ...) != 0`. -/
def fs_differs (s : lp_setup_context) : Bool :=
  match s.fs.stored with
  | none => true
  | some st => decide (st.val ≠ s.fs.current)

/-- The block `if (setup->dirty & LP_SETUP_NEW_FS)`: a new record is stored only when none is
stored or the stored bytes differ from the current descriptor. -/
def update_fs (h : lp_headers) (sl : Nat) (s : lp_setup_context) : Bool × lp_setup_context :=
  if s.dirty &&& LP_SETUP_NEW_FS ≠ 0 then
    if fs_differs s then
      match lp_scene_alloc sl s with
      | (none, s1) => (false, s1)
      | (some serial, s1) => update_fs_store h sl serial s1
    else (true, s)
  else (true, s)

/-- The write `draw_regions[0] = intersection(vpwh, draw_regions[0])`. -/
def vp_scissor (h : lp_headers) (s : lp_setup_context) : lp_setup_context :=
  if s.vpwh ≠ s.framebuffer then
    match s.draw_regions with
    | [] => s
    | r0 :: rest => { s with draw_regions := h.u_rect_possible_intersection s.vpwh r0 :: rest }
  else s

/-- The block `if (setup->dirty & LP_SETUP_NEW_SCISSOR)`. -/
def update_scissor (h : lp_headers) (s : lp_setup_context) : lp_setup_context :=
  if s.dirty &&& LP_SETUP_NEW_SCISSOR ≠ 0 then
    let s1 := { s with draw_regions := s.scissors.map (fun sc =>
      if s.scissor_test then h.u_rect_possible_intersection sc s.framebuffer
      else s.framebuffer) }
    if s1.permit_linear_rasterizer then vp_scissor h s1
    else if s1.point_tri_clip then vp_scissor h s1
    else s1
  else s

/-- The function `try_update_scene_state`: stores all dirty state in the current scene.
`none`: the scene pointer is null or dangling. -/
def try_update_scene_state (h : lp_headers) (s : lp_setup_context) :
    Option (Bool × lp_setup_context) :=
  match s.scene with
  | none => none
  | some sl =>
    if sl < s.scenes.length then
      let r1 := update_viewports sl s
      if r1.1 then
        let r2 := update_blend_color sl r1.2
        if r2.1 then
          let s3 := if r2.2.pipe.dirty_fs_constants then
              lp_setup_set_fs_constants r2.2.pipe.constants.length r2.2.pipe.constants r2.2
            else r2.2
          let r4 := update_constants h sl s3
          if r4.1 then
            let r5 := update_fs h sl (update_ssbos h r4.2)
            if r5.1 then some (true, { update_scissor h r5.2 with dirty := 0 })
            else some (false, r5.2)
          else some (false, r4.2)
        else some (false, r2.2)
      else some (false, r1.2)
    else none

/-! ## The setup state machine -/

/-- The function `lp_setup_reset`: drops every snapshot pointer, marks everything dirty,
forgets the current scene, zeroes the clear accumulator and rebinds the four first-call
stubs. -/
def lp_setup_reset (s : lp_setup_context) : lp_setup_context :=
  { s with
    constants := s.constants.map (fun c => { c with stored_size := 0, stored_data := none }),
    fs := { s.fs with stored := none },
    dirty := ALL_ONES,
    scene := none,
    clear := { flags := 0, color_val := List.replicate s.clear.color_val.length 0,
               zsmask := 0, zsvalue := 0 },
    line := prim_fn.first_line,
    point := prim_fn.first_point,
    triangle := prim_fn.first_triangle,
    rect := prim_fn.first_rectangle }

/-- The function `lp_setup_rasterize_scene`: snapshots the active queries into the scene,
ends binning, queues the scene to the rasterizer and resets the context.
`none`: the scene pointer is null or dangling. -/
def lp_setup_rasterize_scene (s : lp_setup_context) : Option lp_setup_context :=
  match s.scene with
  | none => none
  | some sl =>
    if sl < s.scenes.length then
      let s1 := with_scene sl
        (fun sc => { sc with
          num_active_queries := s.active_binned_queries,
          active_queries := s.active_queries.take s.active_binned_queries ++
                            sc.active_queries.drop s.active_binned_queries }) s
      let s2 := record (event.scene_end_binning sl) s1
      let s3 := record (event.rast_queue_scene sl) s2
      some (lp_setup_reset s3)
    else none

/-- The colour-buffer loop of `begin_binning` from `cbuf`, `n` buffers to go: for every
buffer whose accumulator bit is set, a `lp_rast_clear_rb` record is allocated and a
clear-colour command is binned everywhere. -/
def begin_binning_clear_color (sl : Nat) :
    Nat → Nat → lp_setup_context → Bool × lp_setup_context
  | 0, _, s => (true, s)
  | n + 1, cbuf, s =>
    if s.clear.flags &&& (1 <<< (2 + cbuf)) ≠ 0 then
      match lp_scene_alloc sl s with
      | (none, s1) => (false, s1)
      | (some _, s1) =>
        let r := lp_scene_bin_everywhere sl
          (lp_rast_cmd.LP_RAST_OP_CLEAR_COLOR cbuf (s1.clear.color_val.getD cbuf 0)) s1
        if r.1 then begin_binning_clear_color sl n (cbuf + 1) r.2 else (false, r.2)
    else begin_binning_clear_color sl n (cbuf + 1) s

/-- The part of `begin_binning` after the fence was created and the state stored: replays
the accumulated clears into the scene in slot `sl` and zeroes the accumulator. -/
def begin_binning_clears (sl : Nat) (s : lp_setup_context) : Bool × lp_setup_context :=
  let r1 := if s.clear.flags &&& PIPE_CLEAR_COLOR ≠ 0 then
      begin_binning_clear_color sl s.fb.nr_cbufs 0 s
    else (true, s)
  if r1.1 then
    let r2 := if r1.2.fb.zsbuf.isSome && decide (r1.2.clear.flags &&& PIPE_CLEAR_DEPTHSTENCIL ≠ 0) then
        lp_scene_bin_everywhere sl
          (lp_rast_cmd.LP_RAST_OP_CLEAR_ZSTENCIL r1.2.clear.zsvalue r1.2.clear.zsmask) r1.2
      else (true, r1.2)
    if r2.1 then
      (true, with_scene sl
        (fun sc => { sc with had_queries := decide (r2.2.active_binned_queries ≠ 0) })
        { r2.2 with clear := { r2.2.clear with flags := 0, zsmask := 0, zsvalue := 0 } })
    else (false, r2.2)
  else (false, r1.2)

/-- The function `begin_binning`: creates the completion fence of the current scene (sized
`MAX2(1, num_threads)`), stores the dirty state, then replays the accumulated clears.
`none`: the scene pointer is null or dangling. -/
def begin_binning (h : lp_headers) (s : lp_setup_context) : Option (Bool × lp_setup_context) :=
  match s.scene with
  | none => none
  | some sl =>
    if sl < s.scenes.length then
      let r := take_oracle s
      let rank := max 1 s.num_threads
      let s1 := record (event.fence_create rank r.1) r.2
      if r.1 then
        let s2 := with_scene sl (fun sc => { sc with fence := some (lp_fence_create rank) }) s1
        match try_update_scene_state h s2 with
        | none => none
        | some (false, s3) => some (false, s3)
        | some (true, s3) => some (begin_binning_clears sl s3)
      else some (false, with_scene sl (fun sc => { sc with fence := none }) s1)
    else none

/-- The function `execute_clears`: bins and flushes any outstanding clears. -/
def execute_clears (h : lp_headers) (s : lp_setup_context) : Option (Bool × lp_setup_context) :=
  begin_binning h s

/-- The `fail:` label of `set_scene_state`: the owned scene, if any, is released with
`lp_scene_end_rasterization`, the state becomes FLUSHED and the context is reset. -/
def set_scene_state_fail (s : lp_setup_context) : lp_setup_context :=
  let s1 := match s.scene with
    | some sl =>
      record (event.scene_end_rasterization sl)
        (with_scene sl lp_scene_end_rasterization { s with scene := none })
    | none => s
  lp_setup_reset { s1 with state := setup_state.SETUP_FLUSHED }

/-- The first step of `set_scene_state`: coming from FLUSHED, wait for a free/empty scene
(whatever the requested state is). -/
def set_scene_state_acquire (h : lp_headers) (s : lp_setup_context) : Option lp_setup_context :=
  if s.state = setup_state.SETUP_FLUSHED then lp_setup_get_empty_scene h s else some s

/-- The `switch (new_state)` of `set_scene_state` with its two exits: the assignment
`setup->state = new_state` with TRUE, or the `fail:` label with FALSE. -/
def set_scene_state_switch (h : lp_headers) (old_state new_state : setup_state)
    (s1 : lp_setup_context) : Option (Bool × lp_setup_context) :=
  match new_state with
  | setup_state.SETUP_CLEARED => some (true, { s1 with state := new_state })
  | setup_state.SETUP_ACTIVE =>
    match begin_binning h s1 with
    | none => none
    | some (false, s2) => some (false, set_scene_state_fail s2)
    | some (true, s2) => some (true, { s2 with state := new_state })
  | setup_state.SETUP_FLUSHED =>
    match (if old_state = setup_state.SETUP_CLEARED then execute_clears h s1
           else some (true, s1)) with
    | none => none
    | some (false, s2) => some (false, set_scene_state_fail s2)
    | some (true, s2) =>
      match lp_setup_rasterize_scene s2 with
      | none => none
      | some s3 => some (true, { s3 with state := new_state })

/-- The function `set_scene_state`: the transition of the state machine to `new_state`.
The result is the returned boolean and the context; `none` when a null or dangling scene
pointer is dereferenced.  The debug printing under `LP_DEBUG` is not modelled. -/
def set_scene_state (h : lp_headers) (s : lp_setup_context) (new_state : setup_state) :
    Option (Bool × lp_setup_context) :=
  let old_state := s.state
  if old_state = new_state then some (true, s)
  else
    match set_scene_state_acquire h s with
    | none => none
    | some s1 => set_scene_state_switch h old_state new_state s1

/-- The function `lp_setup_flush`. -/
def lp_setup_flush (h : lp_headers) (s : lp_setup_context) : Option lp_setup_context :=
  (set_scene_state h s setup_state.SETUP_FLUSHED).map Prod.snd

/-- The function `lp_setup_bind_framebuffer`: flushes any old scene, then records the new
render targets and the framebuffer rectangle. -/
def lp_setup_bind_framebuffer (h : lp_headers) (fb : pipe_framebuffer_state)
    (s : lp_setup_context) : Option lp_setup_context :=
  match set_scene_state h s setup_state.SETUP_FLUSHED with
  | none => none
  | some (_, s1) =>
    some { s1 with
      fb := fb,
      framebuffer := { x0 := 0, y0 := 0, x1 := (fb.width : Int) - 1, y1 := (fb.height : Int) - 1 },
      dirty := s1.dirty ||| LP_SETUP_NEW_SCISSOR }

/-! ## Clears -/

/-- The operator `~` on a `uint32_t`. -/
def not32 (x : Nat) : Nat :=
  0xFFFFFFFF - x % 2 ^ 32

/-- The operator `~` on a `uint64_t`. -/
def not64 (x : Nat) : Nat :=
  0xFFFFFFFFFFFFFFFF - x % 2 ^ 64

/-- The function `lp_setup_try_clear_color_buffer`: bins a clear command when a scene is
active, else queues the clear in the accumulator.  `color` is the bit pattern of the
`pipe_color_union`.  `none`: `fb.cbufs[cbuf]` or the scene pointer is null. -/
def lp_setup_try_clear_color_buffer (h : lp_headers) (color : Nat) (cbuf : Nat)
    (s : lp_setup_context) : Option (Bool × lp_setup_context) :=
  match s.fb.cbufs.get? cbuf with
  | some (some surf) =>
    let uc := h.util_pack_color_union surf.format color
    if s.state = setup_state.SETUP_ACTIVE then
      match s.scene with
      | none => none
      | some sl =>
        if sl < s.scenes.length then
          match lp_scene_alloc sl s with
          | (none, s1) => some (false, s1)
          | (some _, s1) =>
            some (lp_scene_bin_everywhere sl (lp_rast_cmd.LP_RAST_OP_CLEAR_COLOR cbuf uc) s1)
        else none
    else
      match set_scene_state h s setup_state.SETUP_CLEARED with
      | none => none
      | some (_, s1) =>
        some (true, { s1 with clear := { s1.clear with
          flags := s1.clear.flags ||| (1 <<< (cbuf + 2)),
          color_val := s1.clear.color_val.set cbuf uc } })
  | _ => none

/-- The packed depth/stencil value and mask computed at the top of `lp_setup_try_clear_zs`
(the locals `zsvalue` and `zsmask` after the padding special case). `depth` is the bit pattern
of the double. -/
def clear_zs_value_mask (h : lp_headers) (format : pipe_format) (depth stencil flags : Nat) :
    Nat × Nat :=
  let zmask32 := if flags &&& PIPE_CLEAR_DEPTH ≠ 0 then 0xFFFFFFFF else 0
  let smask8 := if flags &&& PIPE_CLEAR_STENCIL ≠ 0 then 0xFF else 0
  let zsvalue := h.util_pack64_z_stencil format depth stencil % 2 ^ 64
  let zsmask := h.util_pack64_mask_z_stencil format zmask32 smask8 % 2 ^ 64
  let zsvalue := zsvalue &&& zsmask
  if format = pipe_format.PIPE_FORMAT_Z24X8_UNORM ∨ format = pipe_format.PIPE_FORMAT_X8Z24_UNORM then
    let zsmask_full := h.util_pack_mask_z_stencil format 0xFFFFFFFF 0xFF % 2 ^ 32
    (zsvalue, zsmask ||| not32 zsmask_full)
  else (zsvalue, zsmask)

/-- The function `lp_setup_try_clear_zs`: bins a depth/stencil clear when a scene is active,
else merges it into the accumulator by mask.  `none`: `fb.zsbuf` or the scene pointer is
null. -/
def lp_setup_try_clear_zs (h : lp_headers) (depth stencil flags : Nat)
    (s : lp_setup_context) : Option (Bool × lp_setup_context) :=
  match s.fb.zsbuf with
  | none => none
  | some zsbuf =>
    let vm := clear_zs_value_mask h zsbuf.format depth stencil flags
    let zsvalue := vm.1
    let zsmask := vm.2
    if s.state = setup_state.SETUP_ACTIVE then
      match s.scene with
      | none => none
      | some sl =>
        if sl < s.scenes.length then
          some (lp_scene_bin_everywhere sl
            (lp_rast_cmd.LP_RAST_OP_CLEAR_ZSTENCIL zsvalue zsmask) s)
        else none
    else
      match set_scene_state h s setup_state.SETUP_CLEARED with
      | none => none
      | some (_, s1) =>
        some (true, { s1 with clear := { s1.clear with
          flags := s1.clear.flags ||| flags,
          zsmask := s1.clear.zsmask ||| zsmask,
          zsvalue := (s1.clear.zsvalue &&& not64 zsmask) ||| (zsvalue &&& zsmask) } })

/-- The depth/stencil part of `lp_setup_clear`: on a failed first attempt the scene is
flushed and the clear is tried once more (the `assert(0)` after it is compiled out). -/
def lp_setup_clear_zs (h : lp_headers) (depth stencil flags : Nat) (s : lp_setup_context) :
    Option lp_setup_context :=
  if flags &&& PIPE_CLEAR_DEPTHSTENCIL ≠ 0 then
    let flagszs := flags &&& PIPE_CLEAR_DEPTHSTENCIL
    match lp_setup_try_clear_zs h depth stencil flagszs s with
    | none => none
    | some (true, s1) => some s1
    | some (false, s1) =>
      match set_scene_state h s1 setup_state.SETUP_FLUSHED with
      | none => none
      | some (_, s2) => (lp_setup_try_clear_zs h depth stencil flagszs s2).map Prod.snd
  else some s

/-- The colour loop of `lp_setup_clear` from buffer `i`, `n` buffers to go. -/
def lp_setup_clear_color (h : lp_headers) (color flags : Nat) :
    Nat → Nat → lp_setup_context → Option lp_setup_context
  | 0, _, s => some s
  | n + 1, i, s =>
    if flags &&& (1 <<< (2 + i)) ≠ 0 ∧ (s.fb.cbufs.getD i none).isSome then
      match lp_setup_try_clear_color_buffer h color i s with
      | none => none
      | some (true, s1) => lp_setup_clear_color h color flags n (i + 1) s1
      | some (false, s1) =>
        match set_scene_state h s1 setup_state.SETUP_FLUSHED with
        | none => none
        | some (_, s2) =>
          match lp_setup_try_clear_color_buffer h color i s2 with
          | none => none
          | some (_, s3) => lp_setup_clear_color h color flags n (i + 1) s3
    else lp_setup_clear_color h color flags n (i + 1) s

/-- The function `lp_setup_clear`. -/
def lp_setup_clear (h : lp_headers) (color depth stencil flags : Nat) (s : lp_setup_context) :
    Option lp_setup_context :=
  match lp_setup_clear_zs h depth stencil flags s with
  | none => none
  | some s1 =>
    if flags &&& PIPE_CLEAR_COLOR ≠ 0 then
      lp_setup_clear_color h color flags s1.fb.nr_cbufs 0 s1
    else some s1

/-! ## Binding the fragment shader variant -/

/-- The function `lp_setup_set_fs_variant`. -/
def lp_setup_set_fs_variant (variant : Nat) (s : lp_setup_context) : lp_setup_context :=
  { s with fs := { s.fs with current := { s.fs.current with variant := variant } },
           dirty := s.dirty ||| LP_SETUP_NEW_FS }

/-! ## State update, restart and queries -/

/-- The function `lp_setup_update_state` from the test `update_scene && state != ACTIVE` on.
The block before it re-validates driver state of the llvmpipe context through the public
setters and copies slot indices; it is not part of this model. -/
def lp_setup_update_state (h : lp_headers) (update_scene : Bool) (s : lp_setup_context) :
    Option (Bool × lp_setup_context) :=
  match (if update_scene && decide (s.state ≠ setup_state.SETUP_ACTIVE) then
           set_scene_state h s setup_state.SETUP_ACTIVE
         else some (true, s)) with
  | none => none
  | some (false, s1) => some (false, s1)
  | some (true, s1) =>
    if update_scene && s1.scene.isSome then
      match try_update_scene_state h s1 with
      | none => none
      | some (true, s2) => some (true, s2)
      | some (false, s2) =>
        match set_scene_state h s2 setup_state.SETUP_FLUSHED with
        | none => none
        | some (false, s3) => some (false, s3)
        | some (true, s3) =>
          match set_scene_state h s3 setup_state.SETUP_ACTIVE with
          | none => none
          | some (false, s4) => some (false, s4)
          | some (true, s4) =>
            if s4.scene.isNone then some (false, s4)
            else try_update_scene_state h s4
    else some (true, s1)

/-- The function `lp_setup_flush_and_restart`. -/
def lp_setup_flush_and_restart (h : lp_headers) (s : lp_setup_context) :
    Option (Bool × lp_setup_context) :=
  match set_scene_state h s setup_state.SETUP_FLUSHED with
  | none => none
  | some (false, s1) => some (false, s1)
  | some (true, s1) => lp_setup_update_state h true s1

/-- The test on `pq->type` shared by `lp_setup_begin_query` and the removal at the end of
`lp_setup_end_query`: the query types kept in the active-query list. -/
def is_binned_query_type (ty : pipe_query_type) : Bool :=
  match ty with
  | pipe_query_type.PIPE_QUERY_OCCLUSION_COUNTER => true
  | pipe_query_type.PIPE_QUERY_OCCLUSION_PREDICATE => true
  | pipe_query_type.PIPE_QUERY_OCCLUSION_PREDICATE_CONSERVATIVE => true
  | pipe_query_type.PIPE_QUERY_PIPELINE_STATISTICS => true
  | pipe_query_type.PIPE_QUERY_TIME_ELAPSED => true
  | _ => false

/-- Binning a query command into the current scene with one flush-and-restart retry;
the boolean tells whether the command was binned (then `had_queries` is set). -/
def bin_query_cmd (h : lp_headers) (cmd : lp_rast_cmd) (sl : Nat) (s : lp_setup_context) :
    Option (Bool × lp_setup_context) :=
  let mark := fun (x : lp_setup_context) =>
    match x.scene with
    | some i => with_scene i (fun sc => { sc with had_queries := true }) x
    | none => x
  let r := lp_scene_bin_everywhere sl cmd s
  if r.1 then some (true, mark r.2)
  else
    match lp_setup_flush_and_restart h r.2 with
    | none => none
    | some (false, s1) => some (false, s1)
    | some (true, s1) =>
      match s1.scene with
      | none => none
      | some sl1 =>
        if sl1 < s1.scenes.length then
          let r1 := lp_scene_bin_everywhere sl1 cmd s1
          if r1.1 then some (true, mark r1.2) else some (false, r1.2)
        else none

/-- The function `lp_setup_begin_query`. -/
def lp_setup_begin_query (h : lp_headers) (pq : llvmpipe_query) (s : lp_setup_context) :
    Option lp_setup_context :=
  match set_scene_state h s setup_state.SETUP_ACTIVE with
  | none => none
  | some (_, s1) =>
    if !is_binned_query_type pq.type then some s1
    else if s1.active_binned_queries ≥ h.LP_MAX_ACTIVE_BINNED_QUERIES then some s1
    else
      let s2 := { s1 with
        active_queries := s1.active_queries.set s1.active_binned_queries (some pq.ptr),
        active_binned_queries := s1.active_binned_queries + 1 }
      match s2.scene with
      | none => some s2
      | some sl =>
        if sl < s2.scenes.length then
          (bin_query_cmd h (lp_rast_cmd.LP_RAST_OP_BEGIN_QUERY pq.ptr) sl s2).map Prod.snd
        else none

/-- The search loop of `lp_setup_end_query` from index `i`, `n` entries to go: the index of
the first entry equal to `pq`, or `i + n` when there is none. -/
def find_active_query (pq : Nat) (l : List (Option Nat)) : Nat → Nat → Nat
  | 0, i => i
  | n + 1, i => if l.getD i none = some pq then i else find_active_query pq l n (i + 1)

/-- The code after the `fail:` label of `lp_setup_end_query`: a query of a binned type is
removed from the active list by moving the last entry into its slot. -/
def remove_active_query (pq : llvmpipe_query) (s : lp_setup_context) : lp_setup_context :=
  if is_binned_query_type pq.type then
    let i := find_active_query pq.ptr s.active_queries s.active_binned_queries 0
    if i = s.active_binned_queries then s
    else
      let n := s.active_binned_queries - 1
      { s with
        active_binned_queries := n,
        active_queries := (s.active_queries.set i (s.active_queries.getD n none)).set n none }
  else s

/-- The function `lp_setup_end_query`.  The write of the clock into a timestamp query of a
scene without tiles touches only the query object and is not modelled. -/
def lp_setup_end_query (h : lp_headers) (pq : llvmpipe_query) (s : lp_setup_context) :
    Option lp_setup_context :=
  match set_scene_state h s setup_state.SETUP_ACTIVE with
  | none => none
  | some (_, s1) =>
    match s1.scene with
    | some sl =>
      if sl < s1.scenes.length then
        let s2 := record (event.fence_reference pq.ptr sl) s1
        if is_binned_query_type pq.type ||
            decide (pq.type = pipe_query_type.PIPE_QUERY_TIMESTAMP) then
          match bin_query_cmd h (lp_rast_cmd.LP_RAST_OP_END_QUERY pq.ptr) sl s2 with
          | none => none
          | some (_, s3) => some (remove_active_query pq s3)
        else some (remove_active_query pq s2)
      else none
    | none => some (remove_active_query pq (record (event.rast_fence pq.ptr) s1))

/-! ## Creation -/

/-- The JIT context of zeroed memory. -/
def zero_jit_context (h : lp_headers) : lp_jit_context :=
  { constants := List.replicate h.LP_MAX_TGSI_CONST_BUFFERS { ptr := data_ptr.null, num_elements := 0 },
    ssbos := List.replicate h.LP_MAX_TGSI_SHADER_BUFFERS { ptr := data_ptr.null, num_elements := 0 },
    viewports := data_ptr.null, u8_blend_color := data_ptr.null, f_blend_color := data_ptr.null,
    alpha_ref_value := 0, stencil_ref_front := 0, stencil_ref_back := 0, sample_mask := 0,
    aniso_filter_table := 0, tex_img_sam := 0 }

/-- The context `CALLOC_STRUCT(lp_setup_context)` returns: every member zero. -/
def zero_context (h : lp_headers) (pipe : llvmpipe_context) (oracle : List Bool) :
    lp_setup_context :=
  { num_threads := 0, scenes := [], scene := none, state := setup_state.SETUP_FLUSHED,
    fb := empty_fb, framebuffer := { x0 := 0, x1 := 0, y0 := 0, y1 := 0 },
    clear := { flags := 0, color_val := List.replicate PIPE_MAX_COLOR_BUFS 0, zsmask := 0,
               zsvalue := 0 },
    dirty := 0,
    fs := { current := { jit_context := zero_jit_context h, variant := 0 }, stored := none,
            current_tex := List.replicate h.PIPE_MAX_SHADER_SAMPLER_VIEWS none,
            current_tex_num := 0 },
    constants := List.replicate h.LP_MAX_TGSI_CONST_BUFFERS
      { current := null_constant_buffer, stored_size := 0, stored_data := none },
    ssbos := List.replicate h.LP_MAX_TGSI_SHADER_BUFFERS
      { buffer := none, buffer_offset := 0, buffer_size := 0 },
    ssbo_write_mask := 0,
    images := List.replicate h.LP_MAX_TGSI_SHADER_IMAGES { resource := none, shader_access := 0 },
    blend_color := { current := [0, 0, 0, 0], stored := none },
    viewports := List.replicate h.PIPE_MAX_VIEWPORTS { min_depth := 0, max_depth := 0 },
    vpwh := { x0 := 0, x1 := 0, y0 := 0, y1 := 0 },
    scissors := List.replicate h.PIPE_MAX_VIEWPORTS { x0 := 0, x1 := 0, y0 := 0, y1 := 0 },
    draw_regions := List.replicate h.PIPE_MAX_VIEWPORTS { x0 := 0, x1 := 0, y0 := 0, y1 := 0 },
    scissor_test := false, permit_linear_rasterizer := false, point_tri_clip := false,
    rasterizer_discard := false,
    point := prim_fn.null, line := prim_fn.null, triangle := prim_fn.null, rect := prim_fn.null,
    active_binned_queries := 0,
    active_queries := List.replicate h.LP_MAX_ACTIVE_BINNED_QUERIES none,
    pipe := pipe, oracle := oracle, trace := [], next_serial := 0 }

/-- The function `lp_setup_create`: `none` is the NULL it returns when the context, the vbuf
stage or the first scene cannot be allocated (one oracle outcome each). -/
def lp_setup_create (h : lp_headers) (num_threads : Nat) (pipe : llvmpipe_context)
    (oracle : List Bool) : Option lp_setup_context :=
  let r0 := take_oracle (zero_context h pipe oracle)
  if r0.1 then
    let s1 := { r0.2 with num_threads := num_threads }
    let r1 := take_oracle s1
    if r1.1 then
      match lp_scene_create r1.2 with
      | (none, _) => none
      | (some scene, s2) =>
        some { s2 with
          scenes := [scene],
          triangle := prim_fn.first_triangle,
          line := prim_fn.first_line,
          point := prim_fn.first_point,
          dirty := ALL_ONES,
          framebuffer := { s2.framebuffer with x1 := -1, y1 := -1 } }
    else none
  else none

/-! ## The reference query and the setters of rasterizer state, blend colour and scissors -/

/-- Modelled from the spec: the answer `unreferenced` of the reference queries; the
`LP_REFERENCED_*` macros are defined in a header that is not under src/. -/
def LP_UNREFERENCED : Nat := 0

/-- Modelled from the spec: the answer bit `read` of the reference queries. -/
def LP_REFERENCED_FOR_READ : Nat := 1

/-- Modelled from the spec: the answer bit `write` of the reference queries. -/
def LP_REFERENCED_FOR_WRITE : Nat := 2

/-- Modelled from the spec: `lp_scene_is_resource_referenced` (`lp_scene.c` is not under
src/): whether the scene holds a reference to the resource, and whether for writing. -/
def lp_scene_is_resource_referenced (sc : lp_scene) (res : Nat) : Nat :=
  if (res, true) ∈ sc.resources then LP_REFERENCED_FOR_READ ||| LP_REFERENCED_FOR_WRITE
  else if (res, false) ∈ sc.resources then LP_REFERENCED_FOR_READ
  else LP_UNREFERENCED

/-- The two render-target tests of `lp_setup_is_resource_referenced` on one framebuffer:
the loop `if (cbufs[i] && cbufs[i]->texture == texture)` over `i < nr_cbufs`, then the test
of `zsbuf`. -/
def fb_has_texture (fb : pipe_framebuffer_state) (texture : Nat) : Bool :=
  (List.range fb.nr_cbufs).any (fun i =>
    match fb.cbufs.getD i none with
    | some surf => decide (surf.texture = texture)
    | none => false) ||
  (match fb.zsbuf with
   | some zsbuf => decide (zsbuf.texture = texture)
   | none => false)

/-- The loop of `lp_setup_is_resource_referenced` over the pool scenes: the render targets of
the scene, then the references it holds (`scene_referenced` stands for
`lp_scene_is_resource_referenced`); the first nonzero answer is returned. -/
def scenes_referenced (scene_referenced : lp_scene → Nat → Nat) (texture : Nat) :
    List lp_scene → Nat
  | [] => LP_UNREFERENCED
  | scene :: rest =>
    if fb_has_texture scene.fb texture then LP_REFERENCED_FOR_READ ||| LP_REFERENCED_FOR_WRITE
    else if scene_referenced scene texture ≠ 0 then scene_referenced scene texture
    else scenes_referenced scene_referenced texture rest

/-- The function `lp_setup_is_resource_referenced`; `scene_referenced` stands for
`lp_scene_is_resource_referenced`, which is defined outside this file. -/
def lp_setup_is_resource_referenced (scene_referenced : lp_scene → Nat → Nat)
    (s : lp_setup_context) (texture : Nat) : Nat :=
  if fb_has_texture s.fb texture then LP_REFERENCED_FOR_READ ||| LP_REFERENCED_FOR_WRITE
  else scenes_referenced scene_referenced texture s.scenes

/-- The fields of `struct pipe_rasterizer_state` whose copies are members of the model of the
context: `scissor` and `point_size_per_vertex`. -/
structure pipe_rasterizer_state where
  scissor : Bool
  point_size_per_vertex : Bool
  deriving DecidableEq, Repr

/-- The function `lp_setup_bind_rasterizer`.  The other members it copies from `rast`
(`ccw_is_frontface`, `cullmode`, `multisample`, `pixel_offset`, `bottom_edge_rule`,
`flatshade_first`, `line_width`, `rectangular_lines`, `point_size`, `sprite_coord_enable`,
`sprite_coord_origin`, `point_size_per_vertex`, `legacy_points`) are read by the primitive
setup files only and are not members of the model. -/
def lp_setup_bind_rasterizer (rast : pipe_rasterizer_state) (s : lp_setup_context) :
    lp_setup_context :=
  let s1 := { s with triangle := prim_fn.first_triangle, rect := prim_fn.first_rectangle }
  let s2 := if s1.scissor_test ≠ rast.scissor then
      { s1 with dirty := s1.dirty ||| LP_SETUP_NEW_SCISSOR, scissor_test := rast.scissor }
    else s1
  { s2 with point_tri_clip := rast.point_size_per_vertex }

/-- The function `lp_setup_set_blend_color`; `blend_color` holds the bit patterns of the four
floats of `struct pipe_blend_color`, compared bytewise. -/
def lp_setup_set_blend_color (blend_color : List Nat) (s : lp_setup_context) :
    lp_setup_context :=
  if s.blend_color.current ≠ blend_color then
    { s with blend_color := { s.blend_color with current := blend_color },
             dirty := s.dirty ||| LP_SETUP_NEW_BLEND_COLOR }
  else s

/-- A scissor rectangle `struct pipe_scissor_state`: `minx`, `miny` inclusive, `maxx`, `maxy`
exclusive. -/
structure pipe_scissor_state where
  minx : Nat
  miny : Nat
  maxx : Nat
  maxy : Nat
  deriving DecidableEq, Repr

/-- The body of the loop of `lp_setup_set_scissors`: the inclusive rectangle of a scissor. -/
def scissor_rect (sc : pipe_scissor_state) : u_rect :=
  { x0 := (sc.minx : Int), x1 := (sc.maxx : Int) - 1,
    y0 := (sc.miny : Int), y1 := (sc.maxy : Int) - 1 }

/-- The function `lp_setup_set_scissors`: the first `PIPE_MAX_VIEWPORTS` entries of
`setup->scissors` are overwritten, then the scissor category is marked dirty.
`none`: the array passed in has fewer than `PIPE_MAX_VIEWPORTS` entries. -/
def lp_setup_set_scissors (h : lp_headers) (scissors : List pipe_scissor_state)
    (s : lp_setup_context) : Option lp_setup_context :=
  if h.PIPE_MAX_VIEWPORTS ≤ scissors.length then
    some { s with
      scissors :=
        (scissors.take h.PIPE_MAX_VIEWPORTS).map scissor_rect ++
          s.scissors.drop h.PIPE_MAX_VIEWPORTS,
      dirty := s.dirty ||| LP_SETUP_NEW_SCISSOR }
  else none

/-- The function `lp_setup_set_rasterizer_discard`. -/
def lp_setup_set_rasterizer_discard (rasterizer_discard : Bool) (s : lp_setup_context) :
    lp_setup_context :=
  if s.rasterizer_discard ≠ rasterizer_discard then
    { s with
      rasterizer_discard := rasterizer_discard,
      line := prim_fn.first_line,
      point := prim_fn.first_point,
      triangle := prim_fn.first_triangle,
      rect := prim_fn.first_rectangle }
  else s

/-! ## The other setters -/

/-- The function `lp_setup_set_setup_variant`: its only write is to `setup->setup.variant`,
which is not a member of the model, so the modelled members are unchanged. -/
def lp_setup_set_setup_variant (_variant : Nat) (s : lp_setup_context) : lp_setup_context :=
  s

/-- The function `lp_setup_set_fs_ssbos`: the first `num` slots take `buffers[i]`, the
remaining slots the null binding `util_copy_shader_buffer` leaves for a null source. -/
def lp_setup_set_fs_ssbos (num : Nat) (buffers : List pipe_shader_buffer)
    (ssbo_write_mask : Nat) (s : lp_setup_context) : lp_setup_context :=
  { s with
    ssbos := (List.range s.ssbos.length).map (fun i =>
      if i < num then buffers.getD i { buffer := none, buffer_offset := 0, buffer_size := 0 }
      else { buffer := none, buffer_offset := 0, buffer_size := 0 }),
    ssbo_write_mask := ssbo_write_mask,
    dirty := s.dirty ||| LP_SETUP_NEW_SSBOS }

/-- The function `lp_setup_set_fs_images`: the first `num` slots take `images[i]`, the
remaining slots the null view; `tables` stands for the JIT tables after the writes of the
loop to `jit_context.images[i]`. -/
def lp_setup_set_fs_images (num : Nat) (images : List pipe_image_view) (tables : Nat)
    (s : lp_setup_context) : lp_setup_context :=
  { s with
    images := (List.range s.images.length).map (fun i =>
      if i < num then images.getD i { resource := none, shader_access := 0 }
      else { resource := none, shader_access := 0 }),
    fs := { s.fs with current := { s.fs.current with
      jit_context := { s.fs.current.jit_context with tex_img_sam := tables } } },
    dirty := s.dirty ||| LP_SETUP_NEW_FS }

/-- Whether the bit pattern of a `float` (IEEE-754 binary32) is a NaN: the exponent bits are
all ones and the mantissa is not zero. -/
def float_is_nan (a : Nat) : Bool :=
  decide ((a / 2 ^ 23) % 256 = 255) && decide (a % 2 ^ 23 ≠ 0)

/-- The operator `!=` on two `float`s given by their bit patterns: a NaN differs from every
value, +0.0 and -0.0 are equal, and every other pair is compared bit for bit. -/
def float_ne (a b : Nat) : Bool :=
  if float_is_nan a || float_is_nan b then true
  else if a % 2 ^ 31 = 0 ∧ b % 2 ^ 31 = 0 then false
  else decide (a % 2 ^ 32 ≠ b % 2 ^ 32)

/-- The function `lp_setup_set_alpha_ref_value`; the value is the bit pattern of the float,
compared with the operator `!=` of floats. -/
def lp_setup_set_alpha_ref_value (alpha_ref_value : Nat) (s : lp_setup_context) :
    lp_setup_context :=
  if float_ne s.fs.current.jit_context.alpha_ref_value alpha_ref_value then
    { s with
      fs := { s.fs with current := { s.fs.current with
        jit_context := { s.fs.current.jit_context with alpha_ref_value := alpha_ref_value } } },
      dirty := s.dirty ||| LP_SETUP_NEW_FS }
  else s

/-- The function `lp_setup_set_stencil_ref_values`, called with `refs[0]` and `refs[1]`. -/
def lp_setup_set_stencil_ref_values (front back : Nat) (s : lp_setup_context) :
    lp_setup_context :=
  if s.fs.current.jit_context.stencil_ref_front ≠ front ∨
      s.fs.current.jit_context.stencil_ref_back ≠ back then
    { s with
      fs := { s.fs with current := { s.fs.current with
        jit_context := { s.fs.current.jit_context with
          stencil_ref_front := front, stencil_ref_back := back } } },
      dirty := s.dirty ||| LP_SETUP_NEW_FS }
  else s

/-- The function `lp_setup_set_sample_mask`. -/
def lp_setup_set_sample_mask (sample_mask : Nat) (s : lp_setup_context) : lp_setup_context :=
  if s.fs.current.jit_context.sample_mask ≠ sample_mask then
    { s with
      fs := { s.fs with current := { s.fs.current with
        jit_context := { s.fs.current.jit_context with sample_mask := sample_mask } } },
      dirty := s.dirty ||| LP_SETUP_NEW_FS }
  else s

/-- The function `lp_setup_set_vertex_info`: its only write is to `setup->vertex_info`,
which is not a member of the model, so the modelled members are unchanged. -/
def lp_setup_set_vertex_info (_vertex_info : Nat) (s : lp_setup_context) : lp_setup_context :=
  s

/-- The function `lp_setup_set_linear_mode`; `sse2` tells whether the build has
`PIPE_ARCH_SSE` and the CPU has SSE2. -/
def lp_setup_set_linear_mode (mode sse2 : Bool) (s : lp_setup_context) : lp_setup_context :=
  { s with permit_linear_rasterizer := mode && sse2 }

/-- The depth-range loop of `lp_setup_set_viewports` over the first `num` viewports:
an entry is stored only when `min_depth` or `max_depth` differs as a float (operator `!=`);
the boolean tells whether one did. -/
def set_viewports_loop :
    List lp_jit_viewport → Nat → List lp_jit_viewport → List lp_jit_viewport × Bool
  | [], _, _ => ([], false)
  | v :: vs, 0, _ => (v :: vs, false)
  | v :: vs, _ + 1, [] => (v :: vs, false)
  | v :: vs, n + 1, d :: ds =>
    let r := set_viewports_loop vs n ds
    let differs := float_ne v.min_depth d.min_depth || float_ne v.max_depth d.max_depth
    ((if differs then d else v) :: r.1, differs || r.2)

/-- The function `lp_setup_set_viewports`; `vpwh` is the rectangle it computes from the first
viewport (float arithmetic, not modelled) and `depths` the depth ranges that
`util_viewport_zmin_zmax` returns for the viewports passed in. -/
def lp_setup_set_viewports (num_viewports : Nat) (vpwh : u_rect)
    (depths : List lp_jit_viewport) (s : lp_setup_context) : lp_setup_context :=
  let r := set_viewports_loop s.viewports num_viewports depths
  { s with
    vpwh := vpwh,
    viewports := r.1,
    dirty := if r.2 then (s.dirty ||| LP_SETUP_NEW_SCISSOR) ||| LP_SETUP_NEW_VIEWPORTS
             else s.dirty ||| LP_SETUP_NEW_SCISSOR }

/-- The function `lp_setup_set_fragment_sampler_views`: for every slot below
`MAX2(num, current_tex_num)` the texture of the view is referenced, or the reference is
dropped when the view is null or beyond `num`; `views[i]` is the texture of the view
(`none` for a null view) and `tables` stands for the JIT tables after the writes to
`jit_context.textures[i]`. -/
def lp_setup_set_fragment_sampler_views (num : Nat) (views : List (Option Nat)) (tables : Nat)
    (s : lp_setup_context) : lp_setup_context :=
  { s with
    fs := { s.fs with
      current_tex := (List.range s.fs.current_tex.length).map (fun i =>
        if i < max num s.fs.current_tex_num then
          (if i < num then views.getD i none else none)
        else s.fs.current_tex.getD i none),
      current_tex_num := num,
      current := { s.fs.current with
        jit_context := { s.fs.current.jit_context with tex_img_sam := tables } } },
    dirty := s.dirty ||| LP_SETUP_NEW_FS }

/-- The function `lp_setup_set_fragment_sampler_state`; `tables` stands for the JIT tables
after the writes of the loop to `jit_context.samplers[i]`. -/
def lp_setup_set_fragment_sampler_state (tables : Nat) (s : lp_setup_context) :
    lp_setup_context :=
  { s with
    fs := { s.fs with current := { s.fs.current with
      jit_context := { s.fs.current.jit_context with tex_img_sam := tables } } },
    dirty := s.dirty ||| LP_SETUP_NEW_FS }

/-- A call of one of the setters of this file, with its arguments. -/
inductive setter_op
  | set_setup_variant (variant : Nat)
  | set_fs_variant (variant : Nat)
  | set_fs_constants (num : Nat) (buffers : List pipe_constant_buffer)
  | set_fs_ssbos (num : Nat) (buffers : List pipe_shader_buffer) (ssbo_write_mask : Nat)
  | set_fs_images (num : Nat) (images : List pipe_image_view) (tables : Nat)
  | set_alpha_ref_value (alpha_ref_value : Nat)
  | set_stencil_ref_values (front back : Nat)
  | set_blend_color (blend_color : List Nat)
  | set_scissors (scissors : List pipe_scissor_state)
  | set_sample_mask (sample_mask : Nat)
  | set_rasterizer_discard (rasterizer_discard : Bool)
  | set_vertex_info (vertex_info : Nat)
  | set_linear_mode (mode sse2 : Bool)
  | set_viewports (num_viewports : Nat) (vpwh : u_rect) (depths : List lp_jit_viewport)
  | set_fragment_sampler_views (num : Nat) (views : List (Option Nat)) (tables : Nat)
  | set_fragment_sampler_state (tables : Nat)
  | bind_rasterizer (rast : pipe_rasterizer_state)

/-- One setter applied to a context; `none` when the setter reads beyond the array it is
passed. -/
def apply_setter (h : lp_headers) (op : setter_op) (s : lp_setup_context) :
    Option lp_setup_context :=
  match op with
  | setter_op.set_setup_variant v => some (lp_setup_set_setup_variant v s)
  | setter_op.set_fs_variant v => some (lp_setup_set_fs_variant v s)
  | setter_op.set_fs_constants num buffers => some (lp_setup_set_fs_constants num buffers s)
  | setter_op.set_fs_ssbos num buffers mask => some (lp_setup_set_fs_ssbos num buffers mask s)
  | setter_op.set_fs_images num images tables =>
    some (lp_setup_set_fs_images num images tables s)
  | setter_op.set_alpha_ref_value v => some (lp_setup_set_alpha_ref_value v s)
  | setter_op.set_stencil_ref_values front back =>
    some (lp_setup_set_stencil_ref_values front back s)
  | setter_op.set_blend_color c => some (lp_setup_set_blend_color c s)
  | setter_op.set_scissors scissors => lp_setup_set_scissors h scissors s
  | setter_op.set_sample_mask m => some (lp_setup_set_sample_mask m s)
  | setter_op.set_rasterizer_discard b => some (lp_setup_set_rasterizer_discard b s)
  | setter_op.set_vertex_info v => some (lp_setup_set_vertex_info v s)
  | setter_op.set_linear_mode mode sse2 => some (lp_setup_set_linear_mode mode sse2 s)
  | setter_op.set_viewports num vpwh depths =>
    some (lp_setup_set_viewports num vpwh depths s)
  | setter_op.set_fragment_sampler_views num views tables =>
    some (lp_setup_set_fragment_sampler_views num views tables s)
  | setter_op.set_fragment_sampler_state tables =>
    some (lp_setup_set_fragment_sampler_state tables s)
  | setter_op.bind_rasterizer rast => some (lp_setup_bind_rasterizer rast s)

/-- The function `lp_setup_rasterize_scene` up to and including the call
`lp_rast_queue_scene`, that is, before `lp_setup_reset` runs.
`none`: the scene pointer is null or dangling. -/
def rasterize_scene_queue (s : lp_setup_context) : Option lp_setup_context :=
  match s.scene with
  | none => none
  | some sl =>
    if sl < s.scenes.length then
      let s1 := with_scene sl
        (fun sc => { sc with
          num_active_queries := s.active_binned_queries,
          active_queries := s.active_queries.take s.active_binned_queries ++
                            sc.active_queries.drop s.active_binned_queries }) s
      let s2 := record (event.scene_end_binning sl) s1
      some (record (event.rast_queue_scene sl) s2)
    else none

/-! ## The scissor planes -/

/-- Modelled from the spec: the members of `struct lp_rast_plane` (`lp_rast.h` is not under
src/): the edge function value `c` (an `int64_t`), its steps `dcdx` and `dcdy` (`int32_t`)
and the trivial-reject offset `eo` (`uint32_t`). -/
structure lp_rast_plane where
  c : Int
  dcdx : Int
  dcdy : Int
  eo : Nat
  deriving DecidableEq, Repr

/-- The value of an `int` (32 bits, two's complement) that holds `x` after wrap-around. -/
def to_int32 (x : Int) : Int :=
  (x + 2147483648) % 4294967296 - 2147483648

/-- The value of an `int64_t` that holds `x` after wrap-around. -/
def to_int64 (x : Int) : Int :=
  (x + 9223372036854775808) % 18446744073709551616 - 9223372036854775808

/-- The expression `x << 8` on an `int`. -/
def shl8_int32 (x : Int) : Int :=
  to_int32 (x * 256)

/-- The expression `~0U << 8` stored in an `int32_t` member. -/
def all_ones_shl8 : Int :=
  to_int32 ((((0xFFFFFFFF : Nat) <<< 8) % 2 ^ 32 : Nat) : Int)

/-- The writes `plane_s->... = ...; plane_s++` of one block: the plane at the cursor is
overwritten and the cursor advances.  `none`: the cursor is beyond the array. -/
def write_plane (p : lp_rast_plane) (st : List lp_rast_plane × Nat) :
    Option (List lp_rast_plane × Nat) :=
  if st.2 < st.1.length then some (st.1.set st.2 p, st.2 + 1) else none

/-- The function `lp_setup_add_scissor_planes`: `plane_s` is the array the planes are written
to, from its start; the result is the array afterwards. -/
def lp_setup_add_scissor_planes (scissor : u_rect) (plane_s : List lp_rast_plane)
    (s_planes : Fin 4 → Bool) (multisample : Bool) : Option (List lp_rast_plane) :=
  let adj : Int := if multisample then 127 else 0
  let st0 : Option (List lp_rast_plane × Nat) := some (plane_s, 0)
  let st1 := if s_planes 0 then
      st0.bind (write_plane
        { dcdx := all_ones_shl8, dcdy := 0,
          c := to_int64 (- to_int64 (shl8_int32 (to_int32 (scissor.x0 - 1)) + adj)),
          eo := 1 <<< 8 })
    else st0
  let st2 := if s_planes 1 then
      st1.bind (write_plane
        { dcdx := 1 <<< 8, dcdy := 0,
          c := to_int64 (shl8_int32 scissor.x1 + to_int32 (127 + adj)),
          eo := 0 <<< 8 })
    else st1
  let st3 := if s_planes 2 then
      st2.bind (write_plane
        { dcdx := 0, dcdy := 1 <<< 8,
          c := to_int64 (- to_int64 (shl8_int32 (to_int32 (scissor.y0 - 1)) + adj)),
          eo := 1 <<< 8 })
    else st2
  let st4 := if s_planes 3 then
      st3.bind (write_plane
        { dcdx := 0, dcdy := all_ones_shl8,
          c := to_int64 (shl8_int32 scissor.y1 + to_int32 (127 + adj)),
          eo := 0 })
    else st3
  st4.map Prod.fst

/-- The planes of the specification, in the order left, right, top, bottom, one for every
flag that is set; `adj` is 127 with multisampling and 0 without. -/
def scissor_planes_spec (scissor : u_rect) (s_planes : Fin 4 → Bool) (multisample : Bool) :
    List lp_rast_plane :=
  let adj : Int := if multisample then 127 else 0
  (if s_planes 0 then
    [{ dcdx := -256, dcdy := 0, c := -((scissor.x0 - 1) * 256 + adj), eo := 256 }] else []) ++
  (if s_planes 1 then
    [{ dcdx := 256, dcdy := 0, c := scissor.x1 * 256 + 127 + adj, eo := 0 }] else []) ++
  (if s_planes 2 then
    [{ dcdx := 0, dcdy := 256, c := -((scissor.y0 - 1) * 256 + adj), eo := 256 }] else []) ++
  (if s_planes 3 then
    [{ dcdx := 0, dcdy := -256, c := scissor.y1 * 256 + 127 + adj, eo := 0 }] else [])

/-- The number of flags of `s_planes[4]` that are set. -/
def count_planes (s_planes : Fin 4 → Bool) : Nat :=
  (if s_planes 0 then 1 else 0) + (if s_planes 1 then 1 else 0) +
  (if s_planes 2 then 1 else 0) + (if s_planes 3 then 1 else 0)

/-! ## Sequences of public operations -/

/-- The public operations of the engine that drive the state machine, and `rast_signal`, the
one step of the environment: a consumer worker signals the fence of the scene in a slot. -/
inductive setup_op
  | clear (color depth stencil flags : Nat)
  | flush
  | bind_framebuffer (fb : pipe_framebuffer_state)
  | update_state (update_scene : Bool)
  | begin_query (pq : llvmpipe_query)
  | end_query (pq : llvmpipe_query)
  | flush_and_restart
  | rast_signal (slot : Nat)
  deriving DecidableEq, Repr

/-- Modelled from the spec: `signal()` of a fence, one more worker has finished. -/
def lp_fence_signal (f : lp_fence) : lp_fence :=
  { f with count := f.count + 1 }

/-- One operation applied to a context; `none` when the operation dereferences a null
pointer. -/
def apply_op (h : lp_headers) (op : setup_op) (s : lp_setup_context) : Option lp_setup_context :=
  match op with
  | setup_op.clear color depth stencil flags => lp_setup_clear h color depth stencil flags s
  | setup_op.flush => lp_setup_flush h s
  | setup_op.bind_framebuffer fb => lp_setup_bind_framebuffer h fb s
  | setup_op.update_state u => (lp_setup_update_state h u s).map Prod.snd
  | setup_op.begin_query pq => lp_setup_begin_query h pq s
  | setup_op.end_query pq => lp_setup_end_query h pq s
  | setup_op.flush_and_restart => (lp_setup_flush_and_restart h s).map Prod.snd
  | setup_op.rast_signal slot =>
    some (with_scene slot (fun sc => { sc with fence := sc.fence.map lp_fence_signal }) s)

/-- A sequence of operations applied from left to right. -/
def run_ops (h : lp_headers) : List setup_op → lp_setup_context → Option lp_setup_context
  | [], s => some s
  | op :: rest, s =>
    match apply_op h op s with
    | none => none
    | some s1 => run_ops h rest s1

/-- A public operation: one of the operations of `setup_op`, or a setter. -/
inductive public_op
  | engine (op : setup_op)
  | setter (op : setter_op)

/-- One public operation applied to a context. -/
def apply_public (h : lp_headers) (op : public_op) (s : lp_setup_context) :
    Option lp_setup_context :=
  match op with
  | public_op.engine o => apply_op h o s
  | public_op.setter o => apply_setter h o s

/-- A sequence of public operations applied from left to right. -/
def run_public (h : lp_headers) : List public_op → lp_setup_context → Option lp_setup_context
  | [], s => some s
  | op :: rest, s =>
    match apply_public h op s with
    | none => none
    | some s1 => run_public h rest s1

/-! ## Predicates used in the proofs: frames, provenance, invariant -/

/-- The bins of every pool scene. -/
def bins_of (s : lp_setup_context) : List (List (List lp_rast_cmd)) :=
  s.scenes.map (fun sc => sc.bins)

/-- The fence of every pool scene. -/
def fences_of (s : lp_setup_context) : List (Option lp_fence) :=
  s.scenes.map (fun sc => sc.fence)

/-- The scenes handed to the rasterizer according to a trace, in order. -/
def queue_events (tr : List event) : List Nat :=
  tr.filterMap (fun e =>
    match e with
    | event.rast_queue_scene slot => some slot
    | _ => none)

/-- Whether an event is a hand-over to the rasterizer. -/
def is_queue_event (e : event) : Bool :=
  match e with
  | event.rast_queue_scene _ => true
  | _ => false

/-- The members of the context that the arena, reference and snapshot helpers never write;
they hand no scene to the rasterizer. -/
structure keeps (s t : lp_setup_context) : Prop where
  scene : t.scene = s.scene
  state : t.state = s.state
  clear : t.clear = s.clear
  fb : t.fb = s.fb
  num_threads : t.num_threads = s.num_threads
  len : t.scenes.length = s.scenes.length
  fences : fences_of t = fences_of s
  queries : t.active_binned_queries = s.active_binned_queries ∧ t.active_queries = s.active_queries
  prims : t.point = s.point ∧ t.line = s.line ∧ t.triangle = s.triangle ∧ t.rect = s.rect
  queued : queue_events t.trace = queue_events s.trace

/-- The members kept by every helper that does not bin a command: those of `keeps` and the
bins of every scene. -/
structure keeps_bins (s t : lp_setup_context) : Prop where
  base : keeps s t
  bins : bins_of t = bins_of s

/-- A context that differs from `s` at most in the pool, the current-scene pointer and the
ghost members. -/
def pool_only (s t : lp_setup_context) : Prop :=
  t = { s with scenes := t.scenes, scene := t.scene, oracle := t.oracle, trace := t.trace,
               next_serial := t.next_serial }

/-- A pool slot is free when its scene has no fence or a signalled one. -/
def scene_free (sc : lp_scene) : Bool :=
  match sc.fence with
  | none => true
  | some f => lp_fence_signalled f

/-- The lowest index of a free slot, the pool size when every slot is busy. -/
def first_free : List lp_scene → Nat
  | [] => 0
  | sc :: rest => if scene_free sc then 0 else first_free rest + 1

/-- What a successful pool step guarantees: only pool and ghost members changed, nothing was
handed to the rasterizer, the pool did not shrink, and slot `i` holds a scene without fence. -/
structure selects (s t : lp_setup_context) (i : Nat) : Prop where
  only : pool_only s t
  queued : queue_events t.trace = queue_events s.trace
  len : s.scenes.length ≤ t.scenes.length
  free : ∃ sc, t.scenes.get? i = some sc ∧ sc.fence = none

/-- The members that binning leaves alone even though it writes fences, bins and the clear
accumulator. -/
structure steady (s t : lp_setup_context) : Prop where
  scene : t.scene = s.scene
  state : t.state = s.state
  fb : t.fb = s.fb
  num_threads : t.num_threads = s.num_threads
  len : t.scenes.length = s.scenes.length
  queries : t.active_binned_queries = s.active_binned_queries ∧ t.active_queries = s.active_queries
  prims : t.point = s.point ∧ t.line = s.line ∧ t.triangle = s.triangle ∧ t.rect = s.rect
  queued : queue_events t.trace = queue_events s.trace

/-- The derived state right after `lp_setup_reset`: no current scene, everything dirty, no
snapshot kept, the clear accumulator all zero and the four first-call stubs bound. -/
structure is_reset (t : lp_setup_context) : Prop where
  scene : t.scene = none
  dirty : t.dirty = ALL_ONES
  fs_stored : t.fs.stored = none
  constants : ∀ c ∈ t.constants, c.stored_data = none ∧ c.stored_size = 0
  clear_flags : t.clear.flags = 0
  clear_zsmask : t.clear.zsmask = 0
  clear_zsvalue : t.clear.zsvalue = 0
  clear_color : ∀ v ∈ t.clear.color_val, v = 0
  point : t.point = prim_fn.first_point
  line : t.line = prim_fn.first_line
  triangle : t.triangle = prim_fn.first_triangle
  rect : t.rect = prim_fn.first_rectangle

/-- The invariant of the state machine: FLUSHED exactly when no scene is owned, and pending
clears only in CLEARED. -/
def sm_inv (s : lp_setup_context) : Prop :=
  (s.state = setup_state.SETUP_FLUSHED ↔ s.scene = none) ∧
  (s.state ≠ setup_state.SETUP_CLEARED → s.clear.flags = 0)

/-- Where a selected scene comes from, given the pool `l` before the call and the calls
`evs` made by it: slot `i` was newly created, or it held a scene without fence, or a scene
whose fence was signalled or waited for and that was reclaimed. -/
def came_free (l : List lp_scene) (i : Nat) (evs : List event) : Prop :=
  (i = l.length ∧ event.scene_create true ∈ evs) ∨
  ∃ old, l.get? i = some old ∧
    (old.fence = none ∨
     ∃ f, old.fence = some f ∧
       (lp_fence_signalled f = true ∨ event.fence_wait i ∈ evs) ∧
       event.scene_end_rasterization i ∈ evs)

/-- The bins of the scene in slot `sl` (no bins when the slot does not exist). -/
def scene_bins (s : lp_setup_context) (sl : Nat) : List (List lp_rast_cmd) :=
  ((s.scenes.get? sl).map (fun sc => sc.bins)).getD []

/-- The clear commands the accumulator stands for, in the words of the specification: one
clear-colour command for each colour buffer index below `fb.nr_cbufs` whose accumulator bit
`1 << (2 + cbuf)` is set, in ascending order, carrying `clear.color_val[cbuf]`; followed by
one depth/stencil clear carrying `(clear.zsvalue, clear.zsmask)` iff `fb.zsbuf` is bound
and a depth/stencil flag is set. -/
def accumulated_clear_cmds (s : lp_setup_context) : List lp_rast_cmd :=
  ((List.range s.fb.nr_cbufs).filter
      (fun cbuf => decide (s.clear.flags &&& (1 <<< (2 + cbuf)) ≠ 0))).map
    (fun cbuf => lp_rast_cmd.LP_RAST_OP_CLEAR_COLOR cbuf (s.clear.color_val.getD cbuf 0)) ++
  (if s.fb.zsbuf.isSome ∧ s.clear.flags &&& PIPE_CLEAR_DEPTHSTENCIL ≠ 0 then
     [lp_rast_cmd.LP_RAST_OP_CLEAR_ZSTENCIL s.clear.zsvalue s.clear.zsmask]
   else [])

/-- The clear-colour commands for the buffers `cbuf, ..., cbuf + n - 1`. -/
def color_clear_cmds (s : lp_setup_context) (cbuf n : Nat) : List lp_rast_cmd :=
  ((List.range' cbuf n).filter
      (fun c => decide (s.clear.flags &&& (1 <<< (2 + c)) ≠ 0))).map
    (fun c => lp_rast_cmd.LP_RAST_OP_CLEAR_COLOR c (s.clear.color_val.getD c 0))

/-- What a deferred clear of colour buffer `cbuf` does to the accumulator: for a bound
buffer the flag bit is set and the packed colour stored, otherwise nothing changes. -/
def color_accumulate (h : lp_headers) (fb : pipe_framebuffer_state) (color cbuf : Nat)
    (c : clear_state) : clear_state :=
  match fb.cbufs.get? cbuf with
  | some (some surf) =>
    { c with flags := c.flags ||| (1 <<< (cbuf + 2)),
             color_val := c.color_val.set cbuf (h.util_pack_color_union surf.format color) }
  | _ => c

/-- What a deferred depth/stencil clear does to the accumulator when a depth/stencil buffer
is bound: the flags are added and value and mask merged bitwise. -/
def zs_accumulate (h : lp_headers) (fb : pipe_framebuffer_state) (depth stencil flags : Nat)
    (c : clear_state) : clear_state :=
  match fb.zsbuf with
  | some zsbuf =>
    { c with flags := c.flags ||| flags,
             zsmask := c.zsmask ||| (clear_zs_value_mask h zsbuf.format depth stencil flags).2,
             zsvalue :=
               (c.zsvalue &&& not64 (clear_zs_value_mask h zsbuf.format depth stencil flags).2) |||
               ((clear_zs_value_mask h zsbuf.format depth stencil flags).1 &&&
                 (clear_zs_value_mask h zsbuf.format depth stencil flags).2) }
  | none => c

/-- The accumulator after the colour loop of `lp_setup_clear` over the buffers
`i, ..., i + n - 1`, every clear of the loop deferred. -/
def color_loop_accumulate (h : lp_headers) (fb : pipe_framebuffer_state) (color flags : Nat) :
    Nat → Nat → clear_state → clear_state
  | 0, _, c => c
  | n + 1, i, c =>
    if flags &&& (1 <<< (2 + i)) ≠ 0 ∧ (fb.cbufs.getD i none).isSome then
      color_loop_accumulate h fb color flags n (i + 1) (color_accumulate h fb color i c)
    else color_loop_accumulate h fb color flags n (i + 1) c

/-- Whether the colour loop of `lp_setup_clear` over the buffers `i, ..., i + n - 1` calls
`lp_setup_try_clear_color_buffer` at all. -/
def color_loop_hits (fb : pipe_framebuffer_state) (flags : Nat) : Nat → Nat → Bool
  | 0, _ => false
  | n + 1, i =>
    (decide (flags &&& (1 <<< (2 + i)) ≠ 0) && (fb.cbufs.getD i none).isSome) ||
      color_loop_hits fb flags n (i + 1)

/-- The accumulator after a whole `lp_setup_clear`, every clear of it deferred. -/
def clear_accumulate (h : lp_headers) (fb : pipe_framebuffer_state)
    (color depth stencil flags : Nat) (c : clear_state) : clear_state :=
  let c1 := if flags &&& PIPE_CLEAR_DEPTHSTENCIL ≠ 0 then
      zs_accumulate h fb depth stencil (flags &&& PIPE_CLEAR_DEPTHSTENCIL) c
    else c
  if flags &&& PIPE_CLEAR_COLOR ≠ 0 then
    color_loop_accumulate h fb color flags fb.nr_cbufs 0 c1
  else c1

/-- Whether `lp_setup_clear` calls one of the two try-clear functions at all. -/
def clear_hits (fb : pipe_framebuffer_state) (flags : Nat) : Bool :=
  decide (flags &&& PIPE_CLEAR_DEPTHSTENCIL ≠ 0) ||
    (decide (flags &&& PIPE_CLEAR_COLOR ≠ 0) && color_loop_hits fb flags fb.nr_cbufs 0)

/-- `t1` is what the transition to CLEARED makes of `s`. -/
structure cleared_of (h : lp_headers) (s t1 : lp_setup_context) : Prop where
  run : set_scene_state h s setup_state.SETUP_CLEARED = some (true, t1)
  state : t1.state = setup_state.SETUP_CLEARED
  clear : t1.clear = s.clear
  fb : t1.fb = s.fb

/-- What a deferred colour clear of buffer `cbuf` leaves in the accumulator: the flag bit of
the buffer is set and `color_val[cbuf]` is `v`. -/
def color_pending (cbuf : Nat) (v : util_color) (c : clear_state) : Prop :=
  cbuf < c.color_val.length ∧ c.flags &&& (1 <<< (2 + cbuf)) ≠ 0 ∧ c.color_val.get? cbuf = some v

/-- Every pending outcome of the environment script is a success. -/
def all_succeed (s : lp_setup_context) : Prop :=
  ∀ b ∈ s.oracle, b = true

/-- The clear-colour commands `lp_setup_clear` issues for the buffers `i, ..., i + n - 1`: one
for every requested buffer that is bound, carrying the packed colour. -/
def immediate_color_cmds (h : lp_headers) (fb : pipe_framebuffer_state) (color flags : Nat)
    (i n : Nat) : List lp_rast_cmd :=
  (List.range' i n).filterMap (fun k =>
    if flags &&& (1 <<< (2 + k)) ≠ 0 then
      (fb.cbufs.getD k none).map
        (fun surf => lp_rast_cmd.LP_RAST_OP_CLEAR_COLOR k (h.util_pack_color_union surf.format color))
    else none)

/-- The depth/stencil command `lp_setup_clear` bins into an active scene: one
LP_RAST_OP_CLEAR_ZSTENCIL when depth or stencil is requested and a buffer is bound. -/
def immediate_zs_cmds (h : lp_headers) (fb : pipe_framebuffer_state)
    (depth stencil flags : Nat) : List lp_rast_cmd :=
  match fb.zsbuf with
  | some z =>
    if flags &&& PIPE_CLEAR_DEPTHSTENCIL ≠ 0 then
      [lp_rast_cmd.LP_RAST_OP_CLEAR_ZSTENCIL
        (clear_zs_value_mask h z.format depth stencil (flags &&& PIPE_CLEAR_DEPTHSTENCIL)).1
        (clear_zs_value_mask h z.format depth stencil (flags &&& PIPE_CLEAR_DEPTHSTENCIL)).2]
    else []
  | none => []

/-- The commands a clear request stands for when it is bound immediately: the depth/stencil
command, then one clear-colour command per requested bound colour buffer below
`fb.nr_cbufs`. -/
def immediate_clear_cmds (h : lp_headers) (fb : pipe_framebuffer_state)
    (color depth stencil flags : Nat) : List lp_rast_cmd :=
  immediate_zs_cmds h fb depth stencil flags ++
    immediate_color_cmds h fb color flags 0 fb.nr_cbufs

/-- The reference calls of the texture loop, all successful. -/
def tex_reference_events (sl : Nat) (l : List (Option Nat)) : List event :=
  l.filterMap (fun o => o.map (fun tex => event.add_resource_reference sl tex false true))

/-- The reference calls of the SSBO loop from index `i`, all successful. -/
def ssbo_reference_events (sl mask : Nat) : Nat → List pipe_shader_buffer → List event
  | _, [] => []
  | i, b :: rest =>
    (match b.buffer with
     | none => []
     | some buffer =>
       [event.add_resource_reference sl buffer (decide (mask &&& (1 <<< i) ≠ 0)) true]) ++
    ssbo_reference_events sl mask (i + 1) rest

/-- The reference calls of the image loop, all successful. -/
def image_reference_events (sl : Nat) (l : List pipe_image_view) : List event :=
  l.filterMap (fun im => im.resource.map (fun res =>
    event.add_resource_reference sl res (decide (im.shader_access &&& PIPE_IMAGE_ACCESS_WRITE ≠ 0))
      true))

/-- The calls made when a new fragment-state record is stored and every call succeeds. -/
def fs_store_events (sl : Nat) (s : lp_setup_context) : List event :=
  [event.scene_alloc sl true, event.add_frag_shader_reference sl s.fs.current.variant true] ++
  tex_reference_events sl s.fs.current_tex ++
  ssbo_reference_events sl s.ssbo_write_mask 0 s.ssbos ++
  image_reference_events sl s.images

/-- A call that failed to take a reference. -/
def is_failed_reference (e : event) : Bool :=
  match e with
  | event.add_frag_shader_reference _ _ false => true
  | event.add_resource_reference _ _ _ false => true
  | _ => false

/-- The outcome of a sequence of reference calls: only pool and ghost members change; on
success the calls made are the expected ones, all successful; on failure the last call made
is a failed one. -/
def ref_outcome (s : lp_setup_context) (r : Bool × lp_setup_context) (expected : List event) :
    Prop :=
  pool_only s r.2 ∧ (r.1 = true → r.2.trace = s.trace ++ expected) ∧
  (r.1 = false → ∃ pre e, r.2.trace = s.trace ++ pre ++ [e] ∧ is_failed_reference e = true)

/-- A context that differs from `s` at most in `fs.stored`, the pool and the ghost members. -/
def stored_only (s t : lp_setup_context) : Prop :=
  pool_only { s with fs := { s.fs with stored := t.fs.stored } } t

/-- What the blocks of `try_update_scene_state` before the fragment-state block leave alone:
the stored record, the bindings the record refers to, a dirty fragment-state bit; the calls
they make are arena allocations in the scene of slot `sl`. -/
structure snap (sl : Nat) (s t : lp_setup_context) : Prop where
  stored : t.fs.stored = s.fs.stored
  dirty_fs : s.dirty &&& LP_SETUP_NEW_FS ≠ 0 → t.dirty &&& LP_SETUP_NEW_FS ≠ 0
  current_tex : t.fs.current_tex = s.fs.current_tex
  variant : t.fs.current.variant = s.fs.current.variant
  ssbos : t.ssbos = s.ssbos
  ssbo_write_mask : t.ssbo_write_mask = s.ssbo_write_mask
  images : t.images = s.images
  allocs : ∃ evs, t.trace = s.trace ++ evs ∧ ∀ e ∈ evs, ∃ ok, e = event.scene_alloc sl ok

/-- The invariant behind `assert(setup->fs.stored)`: while no fragment-state record is stored,
the fragment-state category is dirty. -/
def fs_inv (s : lp_setup_context) : Prop :=
  s.fs.stored = none → s.dirty &&& LP_SETUP_NEW_FS ≠ 0

/-- The pool is not empty and the current scene, if any, is one of its slots: no scene
pointer of the context dangles. -/
def pool_ok (s : lp_setup_context) : Prop :=
  s.scenes ≠ [] ∧ ∀ sl, s.scene = some sl → sl < s.scenes.length

/-- The active-query list and its count are the same in both contexts. -/
def same_queries (s t : lp_setup_context) : Prop :=
  t.active_binned_queries = s.active_binned_queries ∧ t.active_queries = s.active_queries

/-- The invariant of the active-query list: the count does not exceed
`LP_MAX_ACTIVE_BINNED_QUERIES`, the size of the array. -/
def queries_inv (h : lp_headers) (s : lp_setup_context) : Prop :=
  s.active_binned_queries ≤ h.LP_MAX_ACTIVE_BINNED_QUERIES ∧
  s.active_queries.length = h.LP_MAX_ACTIVE_BINNED_QUERIES

/-- The size `current_size` the constants loop computes for a slot:
`MIN2(current.buffer_size, LP_MAX_TGSI_CONST_BUFFER_SIZE)`. -/
def constant_current_size (h : lp_headers) (c : constants_state) : Nat :=
  min c.current.buffer_size h.LP_MAX_TGSI_CONST_BUFFER_SIZE

/-- The `current_size` bytes at `current_data + current.buffer_offset`. -/
def constant_current_bytes (h : lp_headers) (c : constants_state) (data : List Nat) :
    List Nat :=
  (data.drop c.current.buffer_offset).take (constant_current_size h c)

/-- The comparison of old and new buffer contents in the words of the specification: the
sizes differ, or nothing is stored, or the stored bytes differ from the current bytes. -/
def constant_differs (h : lp_headers) (c : constants_state) (data : List Nat) : Prop :=
  c.stored_size ≠ constant_current_size h c ∨ c.stored_data = none ∨
  ∃ sd, c.stored_data = some sd ∧
    sd.2.take (constant_current_size h c) ≠ constant_current_bytes h c data

/-- The array `setup->constants` as the constants loop of `try_update_scene_state` finds it:
the bindings are refreshed from the pipe context when that has its fragment constants
dirty. -/
def constants_at_loop (s : lp_setup_context) : List constants_state :=
  if s.pipe.dirty_fs_constants then
    set_fs_constants_loop s.constants s.pipe.constants.length s.pipe.constants
  else s.constants

/-- What one iteration of the constants loop makes of a slot that held `c`: `c1` is the slot
and `e` its JIT entry afterwards; blocks allocated by the iteration have serial numbers from
`lo` on. -/
def constant_outcome (h : lp_headers) (lo : Nat) (c c1 : constants_state)
    (e : lp_jit_buffer) : Prop :=
  (∀ data, constant_current_data h c.current = some data → 4 ≤ constant_current_size h c →
    (constant_differs h c data → ∃ serial, lo ≤ serial ∧
      c1 = { c with stored_size := constant_current_size h c,
                    stored_data := some (serial, constant_current_bytes h c data) } ∧
      e = { ptr := data_ptr.arena serial 0,
            num_elements :=
              DIV_ROUND_UP (constant_current_size h c) h.lp_get_constant_buffer_stride }) ∧
    (¬ constant_differs h c data → c1 = c ∧ ∃ sd, c.stored_data = some sd ∧
      e = { ptr := data_ptr.arena sd.1 0,
            num_elements := DIV_ROUND_UP c.stored_size h.lp_get_constant_buffer_stride })) ∧
  ((constant_current_data h c.current = none ∨ constant_current_size h c < 4) →
    c1 = { c with stored_size := 0, stored_data := none } ∧
    e = { ptr := data_ptr.fake_const_buf, num_elements := 0 })

/-- What the blocks before the constants loop leave alone. -/
structure before_constants (s t : lp_setup_context) : Prop where
  constants : t.constants = s.constants
  pipe : t.pipe = s.pipe
  jit : t.fs.current.jit_context.constants = s.fs.current.jit_context.constants
  serial : s.next_serial ≤ t.next_serial
  dirty : ∀ c, s.dirty &&& c ≠ 0 → t.dirty &&& c ≠ 0

/-! ## The order of the calls -/

/-- What the engine holds according to the calls it made: no scene, or the scene of a pool
slot, with or without a completion fence. -/
inductive scene_phase
  | idle
  | owned (slot : Nat) (fenced : Bool)
  deriving DecidableEq, Repr

/-- The effect of one call on the phase; `none` when the call is out of order: a scene is
acquired (`lp_scene_begin_binning`) only while none is owned, a fence is created only for
the owned scene, `lp_scene_end_rasterization` releases the owned scene or reclaims a scene
while none is owned, and `lp_rast_queue_scene` hands over the owned scene, which must have
got a fence since it was acquired.  The other calls leave the phase alone. -/
def phase_step (p : scene_phase) (e : event) : Option scene_phase :=
  match e with
  | event.scene_begin_binning sl =>
    (match p with
     | scene_phase.idle => some (scene_phase.owned sl false)
     | scene_phase.owned _ _ => none)
  | event.fence_create _ ok =>
    (match p with
     | scene_phase.idle => none
     | scene_phase.owned sl _ => some (scene_phase.owned sl ok))
  | event.scene_end_rasterization sl =>
    (match p with
     | scene_phase.idle => some scene_phase.idle
     | scene_phase.owned sl1 _ => if sl = sl1 then some scene_phase.idle else none)
  | event.rast_queue_scene sl =>
    (match p with
     | scene_phase.idle => none
     | scene_phase.owned sl1 fenced =>
       if sl = sl1 ∧ fenced = true then some scene_phase.idle else none)
  | _ => some p

/-- The phase after a sequence of calls, starting with no scene owned; `none` when some call
of the sequence was out of order. -/
def phase_of_trace (tr : List event) : Option scene_phase :=
  tr.foldl (fun st e => st.bind (fun p => phase_step p e)) (some scene_phase.idle)

/-- Whether the scene in pool slot `sl` has a completion fence (`scene->fence != NULL`). -/
def scene_fenced (s : lp_setup_context) (sl : Nat) : Bool :=
  match s.scenes.get? sl with
  | some sc => sc.fence.isSome
  | none => false

/-- The phase the context is in: which scene `setup->scene` points to and whether that scene
has a fence. -/
def phase_of (s : lp_setup_context) : scene_phase :=
  match s.scene with
  | none => scene_phase.idle
  | some sl => scene_phase.owned sl (scene_fenced s sl)

/-- The invariant behind the hand-over of scenes: the calls made so far are in order and lead
to the phase the context is in, and in state ACTIVE the current scene has a fence. -/
structure fence_inv (s : lp_setup_context) : Prop where
  phase : phase_of_trace s.trace = some (phase_of s)
  active : s.state = setup_state.SETUP_ACTIVE →
    ∃ sl, s.scene = some sl ∧ scene_fenced s sl = true

/-- No snapshot is retained outside state ACTIVE: everything is dirty, no fragment state is
stored and no constant buffer is stored. -/
def unsnapped (s : lp_setup_context) : Prop :=
  s.state ≠ setup_state.SETUP_ACTIVE →
    s.dirty = ALL_ONES ∧ s.fs.stored = none ∧
    ∀ c ∈ s.constants, c.stored_data = none ∧ c.stored_size = 0

/-- A step that leaves the state machine alone: state, current scene, the presence of fences,
the phase of the calls and the stored snapshots are unchanged, and dirty bits are only
added. -/
structure frame_step (s t : lp_setup_context) : Prop where
  state : t.state = s.state
  scene : t.scene = s.scene
  fenced : ∀ sl, scene_fenced t sl = scene_fenced s sl
  quiet : phase_of_trace t.trace = phase_of_trace s.trace
  stored : t.fs.stored = s.fs.stored
  constants : t.constants.map (fun c => (c.stored_size, c.stored_data)) =
    s.constants.map (fun c => (c.stored_size, c.stored_data))
  dirty : ∃ bits, bits ≤ ALL_ONES ∧ t.dirty = s.dirty ||| bits

/-- The steps every public operation is made of: a transition of the state machine (to
CLEARED only from a state other than ACTIVE), a snapshot in state ACTIVE, or a step that
leaves the state machine alone. -/
inductive engine_move (h : lp_headers) : lp_setup_context → lp_setup_context → Prop
  | transition (s t : lp_setup_context) (new_state : setup_state) (b : Bool) :
    sm_inv s →
    (new_state = setup_state.SETUP_CLEARED → s.state ≠ setup_state.SETUP_ACTIVE) →
    set_scene_state h s new_state = some (b, t) → engine_move h s t
  | snapshot (s t : lp_setup_context) (b : Bool) :
    s.state = setup_state.SETUP_ACTIVE →
    try_update_scene_state h s = some (b, t) → engine_move h s t
  | frame (s t : lp_setup_context) : frame_step s t → engine_move h s t

/-- A sequence of steps of the engine. -/
def engine_moves (h : lp_headers) (s t : lp_setup_context) : Prop :=
  Relation.ReflTransGen (engine_move h) s t

/-- Whether a call leaves the phase alone. -/
def is_quiet_event (e : event) : Bool :=
  match e with
  | event.scene_begin_binning _ => false
  | event.fence_create _ _ => false
  | event.scene_end_rasterization _ => false
  | event.rast_queue_scene _ => false
  | _ => true

/-- Whether a call acquires, releases or hands over a scene: `lp_scene_begin_binning`,
`lp_scene_end_rasterization` or `lp_rast_queue_scene`. -/
def is_handover_event (e : event) : Bool :=
  match e with
  | event.scene_begin_binning _ => true
  | event.scene_end_rasterization _ => true
  | event.rast_queue_scene _ => true
  | _ => false

/-- Whether a call is the creation of a fence. -/
def is_fence_event (e : event) : Bool :=
  match e with
  | event.fence_create _ _ => true
  | _ => false

/-! ## What a snapshot has captured -/

/-- The arena of the scene in pool slot `sl` holds the block `serial`. -/
def block_in_slot (s : lp_setup_context) (sl serial : Nat) : Prop :=
  ∃ sc, s.scenes.get? sl = some sc ∧ serial ∈ sc.data

/-- The block `serial` belongs to the arena of the current scene. -/
def in_current_scene (s : lp_setup_context) (serial : Nat) : Prop :=
  ∃ sl, s.scene = some sl ∧ block_in_slot s sl serial

/-- The fragment-state category is captured: a record is stored, it has the current variant,
and its JIT context is the current one, up to the anisotropic filter table, which is either
the table built for the record or that of the current context. -/
def fs_captured (h : lp_headers) (t : lp_setup_context) : Prop :=
  ∃ st, t.fs.stored = some st ∧ st.val.variant = t.fs.current.variant ∧
    st.val.jit_context =
      { t.fs.current.jit_context with
        aniso_filter_table := st.val.jit_context.aniso_filter_table } ∧
    (st.val.jit_context.aniso_filter_table = h.lp_build_sample_aniso_filter_table ∨
     st.val.jit_context.aniso_filter_table = t.fs.current.jit_context.aniso_filter_table)

/-- The viewport category is captured: the current JIT context, and with it the stored
record, points for the depth ranges to a block of the current scene that was allocated when
`lo` blocks had been handed out, or later. -/
def viewports_captured (h : lp_headers) (lo : Nat) (t : lp_setup_context) : Prop :=
  fs_captured h t ∧
  ∃ serial, lo ≤ serial ∧ in_current_scene t serial ∧
    t.fs.current.jit_context.viewports = data_ptr.arena serial 0

/-- The blend-colour category is captured: one block of the current scene, allocated when
`lo` blocks had been handed out or later, holds the ubyte colours at its start and the float
colours 4 x 16 bytes further, and the current JIT context, and with it the stored record,
points to them. -/
def blend_color_captured (h : lp_headers) (lo : Nat) (t : lp_setup_context) : Prop :=
  fs_captured h t ∧
  ∃ serial, lo ≤ serial ∧ in_current_scene t serial ∧ t.blend_color.stored = some serial ∧
    t.fs.current.jit_context.u8_blend_color = data_ptr.arena serial 0 ∧
    t.fs.current.jit_context.f_blend_color = data_ptr.arena serial (4 * 16)

/-- The JIT entry that captures an SSBO binding: the resource memory at the offset of the
binding with `buffer_size` elements when the buffer has storage, else NULL with no
elements. -/
def ssbo_entry_spec (h : lp_headers) (b : pipe_shader_buffer) : lp_jit_buffer :=
  match b.buffer with
  | none => { ptr := data_ptr.null, num_elements := 0 }
  | some buffer =>
    if (h.llvmpipe_resource_data buffer).isSome then
      { ptr := data_ptr.resource buffer b.buffer_offset, num_elements := b.buffer_size }
    else { ptr := data_ptr.null, num_elements := 0 }

/-- The SSBO category is captured: for every binding the entry of the current JIT context is
the expected one, and the stored record agrees with the current context. -/
def ssbos_captured (h : lp_headers) (t : lp_setup_context) : Prop :=
  ∀ i b, t.ssbos.get? i = some b →
    fs_captured h t ∧ t.fs.current.jit_context.ssbos.get? i = some (ssbo_entry_spec h b)

/-- A constant slot `c` with JIT entry `e` holds a snapshot of its binding: when the binding
has data of at least four bytes, `stored_size` is the current size, the stored block starts
with the current bytes and the entry points to the block; else nothing is stored and the
entry points to `fake_const_buf`, with no elements. -/
def constant_captured (h : lp_headers) (c : constants_state) (e : lp_jit_buffer) : Prop :=
  (∀ data, constant_current_data h c.current = some data →
    4 ≤ min c.current.buffer_size h.LP_MAX_TGSI_CONST_BUFFER_SIZE →
    c.stored_size = min c.current.buffer_size h.LP_MAX_TGSI_CONST_BUFFER_SIZE ∧
    ∃ sd, c.stored_data = some sd ∧
      sd.2.take (min c.current.buffer_size h.LP_MAX_TGSI_CONST_BUFFER_SIZE) =
        (data.drop c.current.buffer_offset).take
          (min c.current.buffer_size h.LP_MAX_TGSI_CONST_BUFFER_SIZE) ∧
      e = { ptr := data_ptr.arena sd.1 0,
            num_elements :=
              (min c.current.buffer_size h.LP_MAX_TGSI_CONST_BUFFER_SIZE +
                h.lp_get_constant_buffer_stride - 1) / h.lp_get_constant_buffer_stride }) ∧
  ((constant_current_data h c.current = none ∨
      min c.current.buffer_size h.LP_MAX_TGSI_CONST_BUFFER_SIZE < 4) →
    c.stored_size = 0 ∧ c.stored_data = none ∧
    e = { ptr := data_ptr.fake_const_buf, num_elements := 0 })

/-- The constants category is captured: every slot holds a snapshot of its binding, its
entry of the current JIT context points to it, and the stored record agrees with the current
context. -/
def constants_captured (h : lp_headers) (t : lp_setup_context) : Prop :=
  ∀ i c, t.constants.get? i = some c →
    fs_captured h t ∧
    ∀ e, t.fs.current.jit_context.constants.get? i = some e → constant_captured h c e

/-- The draw regions that capture the scissor category: for every viewport the framebuffer
rectangle, intersected with the scissor of the viewport when the scissor test is on; the
first region is intersected with the rectangle of the first viewport when the linear
rasterizer is permitted or points are clipped as triangles and that rectangle is not the
framebuffer rectangle. -/
def draw_regions_spec (h : lp_headers) (s : lp_setup_context) : List u_rect :=
  let regions := s.scissors.map (fun sc =>
    if s.scissor_test then h.u_rect_possible_intersection sc s.framebuffer
    else s.framebuffer)
  if (s.permit_linear_rasterizer || s.point_tri_clip) && decide (s.vpwh ≠ s.framebuffer) then
    match regions with
    | [] => []
    | r0 :: rest => h.u_rect_possible_intersection s.vpwh r0 :: rest
  else regions

/-- Every snapshot the context points to lives in the current scene: the stored
fragment-state record and the stored block of every constant slot. -/
def snapshot_in_scene (s : lp_setup_context) : Prop :=
  (∀ st, s.fs.stored = some st → in_current_scene s st.serial) ∧
  (∀ c ∈ s.constants, ∀ sd, c.stored_data = some sd → in_current_scene s sd.1)

/-- The state the snapshot is taken of, which `try_update_scene_state` and the transitions of
the state machine only read: the SSBO, image and texture bindings, the depth ranges, the
scissors with their test flag, the framebuffer and viewport rectangles, the two flags that
ask for the viewport scissor, the pipe context, the current blend colour and the current
variant. -/
def snapshot_sources (s : lp_setup_context) :
    List pipe_shader_buffer × Nat × List pipe_image_view × List (Option Nat) ×
    List lp_jit_viewport × List u_rect × Bool × u_rect × u_rect × Bool × Bool ×
    llvmpipe_context × List Nat × Nat :=
  (s.ssbos, s.ssbo_write_mask, s.images, s.fs.current_tex, s.viewports, s.scissors,
   s.scissor_test, s.framebuffer, s.vpwh, s.permit_linear_rasterizer, s.point_tri_clip,
   s.pipe, s.blend_color.current, s.fs.current.variant)

/-- A step that leaves every snapshot alone: the current scene, the fragment state, the
constant slots, the blend colour, the draw regions, the dirty mask and the sources are
unchanged, the pool keeps its size, the scene in slot `sl` keeps its blocks and the count of
blocks handed out does not decrease. -/
structure kept (sl : Nat) (s a : lp_setup_context) : Prop where
  scene : a.scene = s.scene
  len : a.scenes.length = s.scenes.length
  fs : a.fs = s.fs
  constants : a.constants = s.constants
  blend_color : a.blend_color = s.blend_color
  draw_regions : a.draw_regions = s.draw_regions
  dirty : a.dirty = s.dirty
  sources : snapshot_sources a = snapshot_sources s
  data : ∀ serial, block_in_slot s sl serial → block_in_slot a sl serial
  serial : s.next_serial ≤ a.next_serial

/-- What the blocks of `try_update_scene_state` before the fragment-state block leave alone.
The flags tell which categories the step may capture: viewports (`v`), blend colour (`b`),
constants (`c`), SSBOs (`sb`); the other categories keep their snapshot.  A step that changes
the current fragment state marks it dirty; dirty bits are never cleared, and the bits of
blend colour, SSBOs and scissor are never set. -/
structure capture_frame (sl : Nat) (v b c sb : Bool) (s a : lp_setup_context) : Prop where
  scene : a.scene = s.scene
  len : a.scenes.length = s.scenes.length
  sources : snapshot_sources a = snapshot_sources s
  data : ∀ serial, block_in_slot s sl serial → block_in_slot a sl serial
  dirty_up : ∀ bit, s.dirty &&& bit ≠ 0 → a.dirty &&& bit ≠ 0
  dirty_down : ∀ bit, LP_SETUP_NEW_FS &&& bit = 0 → LP_SETUP_NEW_CONSTANTS &&& bit = 0 →
    a.dirty &&& bit ≠ 0 → s.dirty &&& bit ≠ 0
  dirty_constants : c = false → a.dirty &&& LP_SETUP_NEW_CONSTANTS ≠ 0 →
    s.dirty &&& LP_SETUP_NEW_CONSTANTS ≠ 0
  current : a.fs.current = s.fs.current ∨ a.dirty &&& LP_SETUP_NEW_FS ≠ 0
  stored : a.fs.stored = s.fs.stored
  regions : a.draw_regions = s.draw_regions
  viewports : v = false →
    a.fs.current.jit_context.viewports = s.fs.current.jit_context.viewports
  blend : b = false → a.blend_color.stored = s.blend_color.stored ∧
    a.fs.current.jit_context.u8_blend_color = s.fs.current.jit_context.u8_blend_color ∧
    a.fs.current.jit_context.f_blend_color = s.fs.current.jit_context.f_blend_color
  constants : c = false → a.constants = s.constants ∧
    a.fs.current.jit_context.constants = s.fs.current.jit_context.constants
  ssbos : sb = false →
    a.fs.current.jit_context.ssbos = s.fs.current.jit_context.ssbos
  serial : s.next_serial ≤ a.next_serial

/-- The blocks the constant slots point to are blocks of the scene in slot `sl`. -/
def constants_in_slot (sl : Nat) (s : lp_setup_context) : Prop :=
  ∀ c ∈ s.constants, ∀ sd, c.stored_data = some sd → block_in_slot s sl sd.1

/-- Every category of dirty state whose bit is set in the mask `d` is captured in `t`: the
viewports and the blend colour (in blocks allocated when `lo` blocks had been handed out, or
later), the constant buffers, the SSBOs, the fragment state and the draw regions. -/
def dirty_captured (h : lp_headers) (lo d : Nat) (t : lp_setup_context) : Prop :=
  (d &&& LP_SETUP_NEW_VIEWPORTS ≠ 0 → viewports_captured h lo t) ∧
  (d &&& LP_SETUP_NEW_BLEND_COLOR ≠ 0 → blend_color_captured h lo t) ∧
  (d &&& LP_SETUP_NEW_CONSTANTS ≠ 0 → constants_captured h t) ∧
  (d &&& LP_SETUP_NEW_SSBOS ≠ 0 → ssbos_captured h t) ∧
  (d &&& LP_SETUP_NEW_FS ≠ 0 → fs_captured h t) ∧
  (d &&& LP_SETUP_NEW_SCISSOR ≠ 0 → t.draw_regions = draw_regions_spec h t)

/-- A step that only reads the state the snapshot is taken of, and may hand out blocks. -/
def reads_only (s t : lp_setup_context) : Prop :=
  snapshot_sources t = snapshot_sources s ∧ s.next_serial ≤ t.next_serial

/-! ## Concrete runs -/

/-- A small configuration of the headers: a pool of two scenes, two tiles per scene. -/
def demo_headers : lp_headers :=
  { MAX_SCENES := 2, LP_MAX_ACTIVE_BINNED_QUERIES := 4, LP_MAX_TGSI_CONST_BUFFERS := 2,
    LP_MAX_TGSI_SHADER_BUFFERS := 2, LP_MAX_TGSI_SHADER_IMAGES := 2,
    PIPE_MAX_SHADER_SAMPLER_VIEWS := 2, PIPE_MAX_VIEWPORTS := 2,
    LP_MAX_TGSI_CONST_BUFFER_SIZE := 64, lp_get_constant_buffer_stride := 16,
    num_tiles := fun _ => 2,
    util_pack_color_union := fun _ c => c,
    util_pack64_z_stencil := fun _ d st => d + st * 2 ^ 24,
    util_pack64_mask_z_stencil := fun _ zm sm => zm % 2 ^ 24 + sm * 2 ^ 24,
    util_pack_mask_z_stencil := fun _ zm _ => zm % 2 ^ 24,
    llvmpipe_resource_data := fun _ => none,
    lp_build_sample_aniso_filter_table := 7,
    u_rect_possible_intersection := fun _ b => b }

/-- An llvmpipe context without pending constant-buffer changes. -/
def demo_pipe : llvmpipe_context :=
  { dirty_fs_constants := false, constants := [] }

/-- A 4x4 framebuffer with one colour buffer and a depth/stencil buffer. -/
def demo_fb : pipe_framebuffer_state :=
  { width := 4, height := 4, nr_cbufs := 1,
    cbufs := [some { format := pipe_format.other 1, texture := 10 }, none, none, none, none,
              none, none, none],
    zsbuf := some { format := pipe_format.other 2, texture := 11 } }

/-- Bind a framebuffer, clear colour, depth and stencil, start a scene, flush. -/
def demo_ops : List setup_op :=
  [setup_op.bind_framebuffer demo_fb, setup_op.clear 5 9 3 7, setup_op.update_state true,
   setup_op.flush]

/-- The context reached by `demo_ops` on a fresh context (every allocation succeeds). -/
def demo_final : lp_setup_context :=
  ((lp_setup_create demo_headers 1 demo_pipe []).bind (run_ops demo_headers demo_ops)).getD
    (zero_context demo_headers demo_pipe [])

/-- A freshly created context (every allocation succeeded). -/
def demo_fresh : lp_setup_context :=
  (lp_setup_create demo_headers 1 demo_pipe []).getD (zero_context demo_headers demo_pipe [])

/-- The result of the transition FLUSHED -> CLEARED on the fresh context. -/
def demo_cleared : lp_setup_context :=
  ((set_scene_state demo_headers demo_fresh setup_state.SETUP_CLEARED).getD (false, demo_fresh)).2

/-- A fresh context for which the next allocation (the fence of `begin_binning`) fails. -/
def demo_fence_fails : lp_setup_context :=
  { demo_fresh with oracle := [false] }

/-- The result of the failed transition FLUSHED -> ACTIVE on `demo_fence_fails`. -/
def demo_unwound : lp_setup_context :=
  ((set_scene_state demo_headers demo_fence_fails setup_state.SETUP_ACTIVE).getD
    (true, demo_fresh)).2

/-- The fresh context after a clear of colour, depth and stencil and the start of a scene:
state ACTIVE, the clears binned in scene 0. -/
def demo_active : lp_setup_context :=
  ((lp_setup_create demo_headers 1 demo_pipe []).bind
    (run_ops demo_headers (demo_ops.take 3))).getD demo_fresh

/-- The result of the transition ACTIVE -> FLUSHED on `demo_active`. -/
def demo_flushed : lp_setup_context :=
  ((set_scene_state demo_headers demo_active setup_state.SETUP_FLUSHED).getD
    (false, demo_fresh)).2

/-- One scene flushed and still being rasterized, then a transition to ACTIVE that allocates
a second scene and fails while snapshotting state into it (the eighteenth outcome of the
script is a failure): the pool is at capacity with slot 0 busy and slot 1 free. -/
def demo_busy_free : lp_setup_context :=
  ((lp_setup_create demo_headers 1 demo_pipe (List.replicate 17 true ++ [false])).bind
    (run_ops demo_headers (demo_ops ++ [setup_op.update_state true]))).getD demo_fresh

/-- Two scenes flushed and still being rasterized: the pool is at capacity, every slot busy. -/
def demo_busy_busy : lp_setup_context :=
  ((lp_setup_create demo_headers 1 demo_pipe []).bind
    (run_ops demo_headers (demo_ops ++ [setup_op.update_state true, setup_op.flush]))).getD
    demo_fresh

/-- One scene flushed and still being rasterized, the pool below capacity, and the next
allocation (`lp_scene_create`) fails. -/
def demo_busy_nomem : lp_setup_context :=
  { demo_final with oracle := [false] }

/-- The result of `lp_setup_get_empty_scene` on a context, for evaluation. -/
def got_scene (s : lp_setup_context) : lp_setup_context :=
  (lp_setup_get_empty_scene demo_headers s).getD demo_fresh

/-- The fresh context after binding the framebuffer and clearing colour, depth and stencil:
state CLEARED with the clears pending. -/
def demo_pending : lp_setup_context :=
  ((lp_setup_create demo_headers 1 demo_pipe []).bind
    (run_ops demo_headers (demo_ops.take 2))).getD demo_fresh

/-- The result of the transition CLEARED -> ACTIVE on `demo_pending`. -/
def demo_activated : lp_setup_context :=
  ((set_scene_state demo_headers demo_pending setup_state.SETUP_ACTIVE).getD
    (false, demo_fresh)).2

/-- The fresh context with the framebuffer bound: state FLUSHED, nothing pending. -/
def demo_bound : lp_setup_context :=
  ((lp_setup_create demo_headers 1 demo_pipe []).bind
    (run_ops demo_headers (demo_ops.take 1))).getD demo_fresh

/-- The context `demo_pending` after binding the fragment shader variant 77 and a draw's
`lp_setup_update_state(setup, TRUE)`: state ACTIVE, the fragment state stored in scene 0. -/
def demo_drawn : lp_setup_context :=
  ((lp_setup_update_state demo_headers true (lp_setup_set_fs_variant 77 demo_pending)).getD
    (false, demo_fresh)).2

/-- The context `demo_drawn` after `lp_setup_set_fs_variant` with the variant that is
already bound. -/
def demo_rebound : lp_setup_context :=
  lp_setup_set_fs_variant 77 demo_drawn

/-- The context `demo_rebound` (state ACTIVE, fragment state dirty) with a script of
allocation outcomes. -/
def demo_restart (oracle : List Bool) : lp_setup_context :=
  { demo_rebound with oracle := oracle }

/-- A context created without worker threads (the scenes are rasterized by the calling
thread), after binding the framebuffer, clearing and starting a scene. -/
def demo_unthreaded : lp_setup_context :=
  ((lp_setup_create demo_headers 0 demo_pipe []).bind
    (run_ops demo_headers (demo_ops.take 3))).getD demo_fresh

/-- The context `demo_active` when the scene is out of memory: the next allocation or
binning call fails. -/
def demo_full : lp_setup_context :=
  { demo_active with oracle := [false] }

/-- The context `demo_pending` with a texture, two shader buffers (the second one written)
and a written image bound. -/
def demo_textured : lp_setup_context :=
  { demo_pending with
    fs := { demo_pending.fs with current_tex := [some 21, none] },
    ssbos := [{ buffer := some 31, buffer_offset := 0, buffer_size := 16 },
              { buffer := some 32, buffer_offset := 0, buffer_size := 16 }],
    ssbo_write_mask := 2,
    images := [{ resource := some 41, shader_access := PIPE_IMAGE_ACCESS_WRITE },
               { resource := none, shader_access := 0 }] }

/-- The result of `try_update_scene_state` on `demo_textured`. -/
def demo_snapshot : lp_setup_context :=
  ((try_update_scene_state demo_headers demo_textured).getD (false, demo_fresh)).2

/-- The result of the failed first snapshot on `demo_restart [false]`. -/
def demo_snapshot_failed : lp_setup_context :=
  ((try_update_scene_state demo_headers (demo_restart [false])).getD (true, demo_fresh)).2

/-- The result of the failed depth/stencil clear on `demo_full`. -/
def demo_zs_failed : lp_setup_context :=
  ((lp_setup_try_clear_zs demo_headers 9 3 (7 &&& PIPE_CLEAR_DEPTHSTENCIL) demo_full).getD
    (true, demo_fresh)).2

/-- The result of the failed clear of colour buffer 0 on `demo_full`. -/
def demo_color_failed : lp_setup_context :=
  ((lp_setup_try_clear_color_buffer demo_headers 5 0 demo_full).getD (true, demo_fresh)).2

/-- The context `demo_active` after the first point, line, triangle and rectangle were
drawn: every first-call stub has been replaced by a chosen strategy. -/
def demo_chosen : lp_setup_context :=
  { demo_active with
    point := prim_fn.chosen 1, line := prim_fn.chosen 2, triangle := prim_fn.chosen 3,
    rect := prim_fn.chosen 4 }

/-- A rasterizer state. -/
def demo_rast : pipe_rasterizer_state :=
  { scissor := true, point_size_per_vertex := false }

/-- The scissors that `demo_active` holds already (each the inclusive rectangle
`0..0 x 0..0`). -/
def demo_scissors : List pipe_scissor_state :=
  [{ minx := 0, miny := 0, maxx := 1, maxy := 1 }, { minx := 0, miny := 0, maxx := 1, maxy := 1 }]

/-- The context `demo_bound` with a depth buffer in the padded format Z24X8. -/
def demo_padded : lp_setup_context :=
  { demo_bound with
    fb := { demo_bound.fb with
      zsbuf := some { format := pipe_format.PIPE_FORMAT_Z24X8_UNORM, texture := 11 } } }

/-- An occlusion query. -/
def demo_query : llvmpipe_query :=
  { ptr := 51, type := pipe_query_type.PIPE_QUERY_OCCLUSION_COUNTER }

/-- The context `demo_active` after `lp_setup_begin_query` of `demo_query`: one query is
active. -/
def demo_querying : lp_setup_context :=
  ((lp_setup_create demo_headers 1 demo_pipe []).bind
    (run_ops demo_headers (demo_ops.take 3 ++ [setup_op.begin_query demo_query]))).getD
    demo_fresh

/-- The result of the transition ACTIVE -> FLUSHED on `demo_querying`. -/
def demo_queried : lp_setup_context :=
  ((set_scene_state demo_headers demo_querying setup_state.SETUP_FLUSHED).getD
    (false, demo_fresh)).2

/-- Two constant bindings in user memory: eight bytes, and two bytes (less than a float). -/
def demo_user_constants : List pipe_constant_buffer :=
  [{ buffer := none, buffer_offset := 0, buffer_size := 8,
     user_buffer := some [1, 2, 3, 4, 5, 6, 7, 8] },
   { buffer := none, buffer_offset := 0, buffer_size := 2, user_buffer := some [9, 9] }]

/-- The context `demo_pending` with `demo_user_constants` bound. -/
def demo_constants : lp_setup_context :=
  lp_setup_set_fs_constants 2 demo_user_constants demo_pending

/-- The result of `try_update_scene_state` on `demo_constants`. -/
def demo_constants_stored : lp_setup_context :=
  ((try_update_scene_state demo_headers demo_constants).getD (false, demo_fresh)).2

/-- Slot 0 of `demo_constants`: eight bytes bound, nothing stored. -/
def demo_constant_slot : constants_state :=
  { current := { buffer := none, buffer_offset := 0, buffer_size := 8,
                 user_buffer := some [1, 2, 3, 4, 5, 6, 7, 8] },
    stored_size := 0, stored_data := none }

/-- Slot 1 of `demo_constants`: two bytes bound, nothing stored. -/
def demo_constant_short : constants_state :=
  { current := { buffer := none, buffer_offset := 0, buffer_size := 2,
                 user_buffer := some [9, 9] },
    stored_size := 0, stored_data := none }

/-- Bind a framebuffer, bind a shader variant and scissors, clear, start a scene, change the
blend colour, flush, change the alpha reference value. -/
def demo_public_ops : List public_op :=
  [public_op.engine (setup_op.bind_framebuffer demo_fb),
   public_op.setter (setter_op.set_fs_variant 3),
   public_op.setter (setter_op.set_scissors demo_scissors),
   public_op.engine (setup_op.clear 5 9 3 7),
   public_op.engine (setup_op.update_state true),
   public_op.setter (setter_op.set_blend_color [1, 2, 3, 4]),
   public_op.engine setup_op.flush,
   public_op.setter (setter_op.set_alpha_ref_value 9)]

/-- The context reached by `demo_public_ops` on a fresh context. -/
def demo_public : lp_setup_context :=
  (run_public demo_headers demo_public_ops demo_fresh).getD demo_fresh

/-- The context reached by the first six operations of `demo_public_ops`: a scene is being
binned. -/
def demo_public_active : lp_setup_context :=
  (run_public demo_headers (demo_public_ops.take 6) demo_fresh).getD demo_fresh

/-- A 4x4 framebuffer whose colour buffer is the texture 21. -/
def demo_fb_tex : pipe_framebuffer_state :=
  { width := 4, height := 4, nr_cbufs := 1,
    cbufs := [some { format := pipe_format.other 1, texture := 21 }, none, none, none, none,
              none, none, none],
    zsbuf := none }

/-- From `demo_textured` (texture 21 bound for sampling): draw and flush a first scene, bind
texture 21 as colour buffer, draw and flush a second scene, bind the first framebuffer
again.  Both scenes are still with the rasterizer. -/
def demo_hidden_ops : List setup_op :=
  [setup_op.update_state true, setup_op.flush, setup_op.bind_framebuffer demo_fb_tex,
   setup_op.update_state true, setup_op.flush, setup_op.bind_framebuffer demo_fb]

/-- The context reached by `demo_hidden_ops` from `demo_textured`: scene 0 samples texture 21,
scene 1 renders to it. -/
def demo_hidden : lp_setup_context :=
  (run_ops demo_headers demo_hidden_ops demo_textured).getD demo_fresh

/-- The first pool scene of `demo_hidden`. -/
def demo_hidden_first : lp_scene :=
  demo_hidden.scenes.getD 0 empty_scene

/-- A scissor rectangle with the inclusive corners (2, 1) and (5, 7). -/
def demo_scissor : u_rect :=
  { x0 := 2, x1 := 5, y0 := 1, y1 := 7 }

/-- The flags of the left, top and bottom plane. -/
def demo_s_planes : Fin 4 → Bool :=
  fun i => decide (i ≠ 1)

/-- An array of four planes of zeroed memory. -/
def demo_planes : List lp_rast_plane :=
  List.replicate 4 { c := 0, dcdx := 0, dcdy := 0, eo := 0 }

/-- The configuration `demo_headers` in which resource 31 has storage and two rectangles
are intersected coordinate by coordinate. -/
def demo_capture_headers : lp_headers :=
  { demo_headers with
    llvmpipe_resource_data := fun r => if r = 31 then some [1, 2, 3, 4, 5, 6, 7, 8] else none,
    u_rect_possible_intersection := fun a b =>
      { x0 := max a.x0 b.x0, x1 := min a.x1 b.x1, y0 := max a.y0 b.y0, y1 := min a.y1 b.y1 } }

/-- Bind a framebuffer, then a variant, an SSBO on resource 31 and one without storage, eight
bytes of user constants, a viewport narrower than the framebuffer, two scissors with the
scissor test on, the linear rasterizer and a blend colour. -/
def demo_capture_ops : List public_op :=
  [public_op.engine (setup_op.bind_framebuffer demo_fb),
   public_op.setter (setter_op.set_fs_variant 3),
   public_op.setter (setter_op.set_fs_ssbos 2
     [{ buffer := some 31, buffer_offset := 4, buffer_size := 16 },
      { buffer := some 32, buffer_offset := 0, buffer_size := 8 }] 1),
   public_op.setter (setter_op.set_fs_constants 1
     [{ buffer := none, buffer_offset := 2, buffer_size := 8,
        user_buffer := some [9, 8, 7, 6, 5, 4, 3, 2, 1, 0] }]),
   public_op.setter (setter_op.set_viewports 1 { x0 := 1, x1 := 2, y0 := 0, y1 := 3 }
     [{ min_depth := 0, max_depth := 1065353216 }]),
   public_op.setter (setter_op.set_scissors
     [{ minx := 0, miny := 1, maxx := 4, maxy := 3 }, { minx := 2, miny := 0, maxx := 9, maxy := 9 }]),
   public_op.setter (setter_op.bind_rasterizer { scissor := true, point_size_per_vertex := false }),
   public_op.setter (setter_op.set_linear_mode true true),
   public_op.setter (setter_op.set_blend_color [1, 2, 3, 4])]

/-- The context reached by `demo_capture_ops` on a fresh context: state FLUSHED, every
category dirty. -/
def demo_capture : lp_setup_context :=
  (run_public demo_capture_headers demo_capture_ops demo_fresh).getD demo_fresh

/-- The result of a draw's `lp_setup_update_state(setup, TRUE)` on `demo_capture`. -/
def demo_captured : lp_setup_context :=
  ((lp_setup_update_state demo_capture_headers true demo_capture).getD (false, demo_fresh)).2

/-! # Theorems -/

/-! ## Frame lemmas: what the helpers leave alone -/

theorem queue_events_append_other (tr : List event) (e : event) (he : is_queue_event e = false) :
    queue_events (tr ++ [e]) = queue_events tr := by
  unfold queue_events
  cases e <;> simp_all [is_queue_event, List.filterMap_append]

theorem queue_events_append_queue (tr : List event) (slot : Nat) :
    queue_events (tr ++ [event.rast_queue_scene slot]) = queue_events tr ++ [slot] := by
  simp [queue_events, List.filterMap_append]

theorem keeps_refl (s : lp_setup_context) : keeps s s :=
  ⟨rfl, rfl, rfl, rfl, rfl, rfl, rfl, ⟨rfl, rfl⟩, ⟨rfl, rfl, rfl, rfl⟩, rfl⟩

theorem keeps_trans {s t u : lp_setup_context} (a : keeps s t) (b : keeps t u) : keeps s u :=
  ⟨b.scene.trans a.scene, b.state.trans a.state, b.clear.trans a.clear, b.fb.trans a.fb,
   b.num_threads.trans a.num_threads, b.len.trans a.len, b.fences.trans a.fences,
   ⟨b.queries.1.trans a.queries.1, b.queries.2.trans a.queries.2⟩,
   ⟨b.prims.1.trans a.prims.1, b.prims.2.1.trans a.prims.2.1,
    b.prims.2.2.1.trans a.prims.2.2.1, b.prims.2.2.2.trans a.prims.2.2.2⟩,
   b.queued.trans a.queued⟩

theorem modify_scene_length (f : lp_scene → lp_scene) (i : Nat) (l : List lp_scene) :
    (modify_scene f i l).length = l.length := by
  induction l generalizing i with
  | nil => cases i <;> rfl
  | cons sc rest ih =>
    cases i with
    | zero => rfl
    | succ j => simp [modify_scene, ih]

theorem modify_scene_map {α : Type} (g : lp_scene → α) (f : lp_scene → lp_scene)
    (hf : ∀ sc, g (f sc) = g sc) (i : Nat) (l : List lp_scene) :
    (modify_scene f i l).map g = l.map g := by
  induction l generalizing i with
  | nil => cases i <;> rfl
  | cons sc rest ih =>
    cases i with
    | zero => simp [modify_scene, hf]
    | succ j => simp [modify_scene, ih]

theorem modify_scene_get (f : lp_scene → lp_scene) (i : Nat) (l : List lp_scene) :
    (modify_scene f i l).get? i = (l.get? i).map f := by
  induction l generalizing i with
  | nil => cases i <;> rfl
  | cons sc rest ih =>
    cases i with
    | zero => rfl
    | succ j => simpa [modify_scene] using ih j

theorem modify_scene_get_ne (f : lp_scene → lp_scene) (i j : Nat) (hij : j ≠ i)
    (l : List lp_scene) : (modify_scene f i l).get? j = l.get? j := by
  induction l generalizing i j with
  | nil => cases i <;> rfl
  | cons sc rest ih =>
    cases i with
    | zero =>
      cases j with
      | zero => exact absurd rfl hij
      | succ k => rfl
    | succ i1 =>
      cases j with
      | zero => rfl
      | succ k =>
        have hk : k ≠ i1 := fun e => hij (by rw [e])
        simpa [modify_scene] using ih i1 k hk

theorem keeps_with_scene (i : Nat) (f : lp_scene → lp_scene)
    (hf : ∀ sc, (f sc).fence = sc.fence) (s : lp_setup_context) : keeps s (with_scene i f s) :=
  ⟨rfl, rfl, rfl, rfl, rfl, modify_scene_length f i s.scenes,
   modify_scene_map (fun sc => sc.fence) f hf i s.scenes, ⟨rfl, rfl⟩, ⟨rfl, rfl, rfl, rfl⟩,
   rfl⟩

theorem keeps_take_oracle (s : lp_setup_context) : keeps s (take_oracle s).2 := by
  unfold take_oracle
  split <;> exact ⟨rfl, rfl, rfl, rfl, rfl, rfl, rfl, ⟨rfl, rfl⟩, ⟨rfl, rfl, rfl, rfl⟩, rfl⟩

theorem keeps_record (e : event) (he : is_queue_event e = false) (s : lp_setup_context) :
    keeps s (record e s) :=
  ⟨rfl, rfl, rfl, rfl, rfl, rfl, rfl, ⟨rfl, rfl⟩, ⟨rfl, rfl, rfl, rfl⟩,
   queue_events_append_other s.trace e he⟩

theorem keeps_with_scene_of {s t : lp_setup_context} (h1 : keeps s t) (i : Nat)
    (f : lp_scene → lp_scene) (hf : ∀ sc, (f sc).fence = sc.fence) :
    keeps s (with_scene i f t) :=
  keeps_trans h1 (keeps_with_scene i f hf t)

theorem keeps_bins_refl (s : lp_setup_context) : keeps_bins s s :=
  ⟨keeps_refl s, rfl⟩

theorem keeps_bins_trans {s t u : lp_setup_context} (a : keeps_bins s t) (b : keeps_bins t u) :
    keeps_bins s u :=
  ⟨keeps_trans a.base b.base, b.bins.trans a.bins⟩

theorem keeps_bins_with_scene_of {s t : lp_setup_context} (h1 : keeps_bins s t) (i : Nat)
    (f : lp_scene → lp_scene) (hf : ∀ sc, (f sc).fence = sc.fence)
    (hb : ∀ sc, (f sc).bins = sc.bins) : keeps_bins s (with_scene i f t) :=
  ⟨keeps_with_scene_of h1.base i f hf,
   (modify_scene_map (fun sc => sc.bins) f hb i t.scenes).trans h1.bins⟩

theorem keeps_bins_take_oracle (s : lp_setup_context) : keeps_bins s (take_oracle s).2 := by
  refine ⟨keeps_take_oracle s, ?_⟩
  unfold take_oracle
  split <;> rfl

theorem keeps_bins_record (e : event) (he : is_queue_event e = false) (s : lp_setup_context) :
    keeps_bins s (record e s) :=
  ⟨keeps_record e he s, rfl⟩

theorem keeps_bins_lp_scene_alloc (i : Nat) (s : lp_setup_context) :
    keeps_bins s (lp_scene_alloc i s).2 := by
  have h1 := keeps_bins_take_oracle s
  unfold lp_scene_alloc
  generalize take_oracle s = r at h1 ⊢
  obtain ⟨ok, s1⟩ := r
  have h2 : keeps_bins s (record (event.scene_alloc i ok) s1) :=
    keeps_bins_trans h1 (keeps_bins_record (event.scene_alloc i ok) rfl _)
  cases ok
  · exact h2
  · refine keeps_bins_with_scene_of (keeps_bins_trans h2 ?_) i _ (fun _ => rfl) (fun _ => rfl)
    exact ⟨⟨rfl, rfl, rfl, rfl, rfl, rfl, rfl, ⟨rfl, rfl⟩, ⟨rfl, rfl, rfl, rfl⟩, rfl⟩, rfl⟩

theorem keeps_bins_add_frag_shader_reference (i v : Nat) (s : lp_setup_context) :
    keeps_bins s (lp_scene_add_frag_shader_reference i v s).2 := by
  have h1 := keeps_bins_take_oracle s
  unfold lp_scene_add_frag_shader_reference
  generalize take_oracle s = r at h1 ⊢
  obtain ⟨ok, s1⟩ := r
  have h2 : keeps_bins s (record (event.add_frag_shader_reference i v ok) s1) :=
    keeps_bins_trans h1 (keeps_bins_record (event.add_frag_shader_reference i v ok) rfl _)
  cases ok
  · exact h2
  · exact keeps_bins_with_scene_of h2 i _ (fun _ => rfl) (fun _ => rfl)

theorem keeps_bins_add_resource_reference (i res : Nat) (w : Bool) (s : lp_setup_context) :
    keeps_bins s (lp_scene_add_resource_reference i res w s).2 := by
  have h1 := keeps_bins_take_oracle s
  unfold lp_scene_add_resource_reference
  generalize take_oracle s = r at h1 ⊢
  obtain ⟨ok, s1⟩ := r
  have h2 : keeps_bins s (record (event.add_resource_reference i res w ok) s1) :=
    keeps_bins_trans h1 (keeps_bins_record (event.add_resource_reference i res w ok) rfl _)
  cases ok
  · exact h2
  · exact keeps_bins_with_scene_of h2 i _ (fun _ => rfl) (fun _ => rfl)

theorem keeps_bin_everywhere (i : Nat) (cmd : lp_rast_cmd) (s : lp_setup_context) :
    keeps s (lp_scene_bin_everywhere i cmd s).2 := by
  unfold lp_scene_bin_everywhere
  cases s.scenes.get? i with
  | none => exact keeps_refl s
  | some sc =>
    refine keeps_with_scene_of ?_ i _ (fun _ => rfl)
    exact ⟨rfl, rfl, rfl, rfl, rfl, rfl, rfl, ⟨rfl, rfl⟩, ⟨rfl, rfl, rfl, rfl⟩, rfl⟩

theorem keeps_bins_with_jit (f : lp_jit_context → lp_jit_context) (s : lp_setup_context) :
    keeps_bins s (with_jit f s) :=
  ⟨⟨rfl, rfl, rfl, rfl, rfl, rfl, rfl, ⟨rfl, rfl⟩, ⟨rfl, rfl, rfl, rfl⟩, rfl⟩, rfl⟩

theorem keeps_bins_mark_dirty (bits : Nat) (s : lp_setup_context) :
    keeps_bins s (mark_dirty bits s) :=
  ⟨⟨rfl, rfl, rfl, rfl, rfl, rfl, rfl, ⟨rfl, rfl⟩, ⟨rfl, rfl, rfl, rfl⟩, rfl⟩, rfl⟩

theorem keeps_bins_update_viewports (sl : Nat) (s : lp_setup_context) :
    keeps_bins s (update_viewports sl s).2 := by
  have h1 := keeps_bins_lp_scene_alloc sl s
  unfold update_viewports
  split
  · generalize lp_scene_alloc sl s = r at h1 ⊢
    obtain ⟨p, s1⟩ := r
    cases p with
    | none => exact h1
    | some stored =>
      exact keeps_bins_trans h1
        (keeps_bins_trans (keeps_bins_with_jit _ s1) (keeps_bins_mark_dirty _ _))
  · exact keeps_bins_refl s

theorem keeps_bins_update_blend_color (sl : Nat) (s : lp_setup_context) :
    keeps_bins s (update_blend_color sl s).2 := by
  have h1 := keeps_bins_lp_scene_alloc sl s
  unfold update_blend_color
  split
  · generalize lp_scene_alloc sl s = r at h1 ⊢
    obtain ⟨p, s1⟩ := r
    cases p with
    | none => exact h1
    | some stored =>
      refine keeps_bins_trans h1 (keeps_bins_trans ?_
        (keeps_bins_trans (keeps_bins_with_jit _ _) (keeps_bins_mark_dirty _ _)))
      exact ⟨⟨rfl, rfl, rfl, rfl, rfl, rfl, rfl, ⟨rfl, rfl⟩, ⟨rfl, rfl, rfl, rfl⟩, rfl⟩, rfl⟩
  · exact keeps_bins_refl s

theorem keeps_bins_set_fs_constants (n : Nat) (b : List pipe_constant_buffer)
    (s : lp_setup_context) : keeps_bins s (lp_setup_set_fs_constants n b s) :=
  ⟨⟨rfl, rfl, rfl, rfl, rfl, rfl, rfl, ⟨rfl, rfl⟩, ⟨rfl, rfl, rfl, rfl⟩, rfl⟩, rfl⟩

theorem keeps_bins_finish_constant (h : lp_headers) (i : Nat) (c : constants_state)
    (p : data_ptr) (s : lp_setup_context) : keeps_bins s (finish_constant h i c p s) :=
  ⟨⟨rfl, rfl, rfl, rfl, rfl, rfl, rfl, ⟨rfl, rfl⟩, ⟨rfl, rfl, rfl, rfl⟩, rfl⟩, rfl⟩

theorem keeps_bins_update_constant (h : lp_headers) (sl i : Nat) (c : constants_state)
    (s : lp_setup_context) : keeps_bins s (update_constant h sl i c s).2 := by
  have h1 := keeps_bins_lp_scene_alloc sl s
  unfold update_constant
  dsimp only
  split
  · split
    · split
      · generalize lp_scene_alloc sl s = r at h1 ⊢
        obtain ⟨p, s1⟩ := r
        cases p with
        | none => exact h1
        | some stored => exact keeps_bins_trans h1 (keeps_bins_finish_constant _ _ _ _ _)
      · exact keeps_bins_finish_constant _ _ _ _ _
    · exact keeps_bins_finish_constant _ _ _ _ _
  · exact keeps_bins_finish_constant _ _ _ _ _

theorem keeps_bins_update_constants_loop (h : lp_headers) (sl n i : Nat) (s : lp_setup_context) :
    keeps_bins s (update_constants_loop h sl n i s).2 := by
  induction n generalizing i s with
  | zero => exact keeps_bins_refl s
  | succ n ih =>
    unfold update_constants_loop
    cases hc : s.constants.get? i with
    | none => exact keeps_bins_refl s
    | some c =>
      have h1 := keeps_bins_update_constant h sl i c s
      dsimp only
      split
      · exact keeps_bins_trans h1 (ih _ _)
      · exact h1

theorem keeps_bins_update_constants (h : lp_headers) (sl : Nat) (s : lp_setup_context) :
    keeps_bins s (update_constants h sl s).2 := by
  unfold update_constants
  split
  · exact keeps_bins_update_constants_loop h sl _ _ s
  · exact keeps_bins_refl s

theorem keeps_bins_update_ssbos (h : lp_headers) (s : lp_setup_context) :
    keeps_bins s (update_ssbos h s) := by
  unfold update_ssbos
  split
  · split
    · exact keeps_bins_refl s
    · exact keeps_bins_trans (keeps_bins_with_jit _ s) (keeps_bins_mark_dirty _ _)
  · exact keeps_bins_refl s

theorem keeps_bins_add_tex_references (sl : Nat) (l : List (Option Nat)) (s : lp_setup_context) :
    keeps_bins s (add_tex_references sl l s).2 := by
  induction l generalizing s with
  | nil => exact keeps_bins_refl s
  | cons a rest ih =>
    cases a with
    | none => exact ih s
    | some tex =>
      have h1 := keeps_bins_add_resource_reference sl tex false s
      unfold add_tex_references
      dsimp only
      split
      · exact keeps_bins_trans h1 (ih _)
      · exact h1

theorem keeps_bins_add_ssbo_references (sl mask i : Nat) (l : List pipe_shader_buffer)
    (s : lp_setup_context) : keeps_bins s (add_ssbo_references sl mask i l s).2 := by
  induction l generalizing s i with
  | nil => exact keeps_bins_refl s
  | cons b rest ih =>
    unfold add_ssbo_references
    cases hb : b.buffer with
    | none => exact ih _ s
    | some buffer =>
      have h1 := keeps_bins_add_resource_reference sl buffer (decide (mask &&& (1 <<< i) ≠ 0)) s
      dsimp only
      split
      · exact keeps_bins_trans h1 (ih _ _)
      · exact h1

theorem keeps_bins_add_image_references (sl : Nat) (l : List pipe_image_view)
    (s : lp_setup_context) : keeps_bins s (add_image_references sl l s).2 := by
  induction l generalizing s with
  | nil => exact keeps_bins_refl s
  | cons im rest ih =>
    unfold add_image_references
    cases hb : im.resource with
    | none => exact ih s
    | some res =>
      have h1 := keeps_bins_add_resource_reference sl res
        (decide (im.shader_access &&& PIPE_IMAGE_ACCESS_WRITE ≠ 0)) s
      dsimp only
      split
      · exact keeps_bins_trans h1 (ih _)
      · exact h1

theorem keeps_bins_update_fs_references (sl : Nat) (s : lp_setup_context) :
    keeps_bins s (update_fs_references sl s).2 := by
  unfold update_fs_references
  have h1 := keeps_bins_add_tex_references sl s.fs.current_tex s
  generalize add_tex_references sl s.fs.current_tex s = r1 at h1 ⊢
  obtain ⟨ok1, s1⟩ := r1
  cases ok1 with
  | false => exact h1
  | true =>
    dsimp only
    simp only [if_true]
    have h2 := keeps_bins_add_ssbo_references sl s1.ssbo_write_mask 0 s1.ssbos s1
    generalize add_ssbo_references sl s1.ssbo_write_mask 0 s1.ssbos s1 = r2 at h2 ⊢
    obtain ⟨ok2, s2⟩ := r2
    cases ok2 with
    | false => exact keeps_bins_trans h1 h2
    | true =>
      exact keeps_bins_trans (keeps_bins_trans h1 h2) (keeps_bins_add_image_references sl _ _)

theorem keeps_bins_update_fs_store (h : lp_headers) (sl serial : Nat) (s : lp_setup_context) :
    keeps_bins s (update_fs_store h sl serial s).2 := by
  unfold update_fs_store
  have h1 := keeps_bins_add_frag_shader_reference sl s.fs.current.variant s
  generalize lp_scene_add_frag_shader_reference sl s.fs.current.variant s = r at h1 ⊢
  obtain ⟨ok, s1⟩ := r
  cases ok with
  | false => exact h1
  | true =>
    dsimp only
    simp only [if_true]
    refine keeps_bins_trans (keeps_bins_trans h1 ?_) (keeps_bins_update_fs_references sl _)
    exact ⟨⟨rfl, rfl, rfl, rfl, rfl, rfl, rfl, ⟨rfl, rfl⟩, ⟨rfl, rfl, rfl, rfl⟩, rfl⟩, rfl⟩

theorem keeps_bins_update_fs (h : lp_headers) (sl : Nat) (s : lp_setup_context) :
    keeps_bins s (update_fs h sl s).2 := by
  have h1 := keeps_bins_lp_scene_alloc sl s
  unfold update_fs
  split
  · split
    · generalize lp_scene_alloc sl s = r at h1 ⊢
      obtain ⟨p, s1⟩ := r
      cases p with
      | none => exact h1
      | some serial => exact keeps_bins_trans h1 (keeps_bins_update_fs_store h sl serial s1)
    · exact keeps_bins_refl s
  · exact keeps_bins_refl s

theorem keeps_bins_vp_scissor (h : lp_headers) (s : lp_setup_context) :
    keeps_bins s (vp_scissor h s) := by
  unfold vp_scissor
  split
  · split
    · exact keeps_bins_refl s
    · exact ⟨⟨rfl, rfl, rfl, rfl, rfl, rfl, rfl, ⟨rfl, rfl⟩, ⟨rfl, rfl, rfl, rfl⟩, rfl⟩, rfl⟩
  · exact keeps_bins_refl s

theorem keeps_bins_update_scissor (h : lp_headers) (s : lp_setup_context) :
    keeps_bins s (update_scissor h s) := by
  unfold update_scissor
  have h0 : keeps_bins s { s with draw_regions := s.scissors.map (fun sc =>
      if s.scissor_test then h.u_rect_possible_intersection sc s.framebuffer
      else s.framebuffer) } :=
    ⟨⟨rfl, rfl, rfl, rfl, rfl, rfl, rfl, ⟨rfl, rfl⟩, ⟨rfl, rfl, rfl, rfl⟩, rfl⟩, rfl⟩
  split
  · dsimp only
    split
    · exact keeps_bins_trans h0 (keeps_bins_vp_scissor h _)
    · split
      · exact keeps_bins_trans h0 (keeps_bins_vp_scissor h _)
      · exact h0
  · exact keeps_bins_refl s

/-- Whatever `try_update_scene_state` returns, it leaves the state machine, the clear
accumulator, the fences and the bins alone; on success no category is dirty. -/
theorem try_update_scene_state_keeps (h : lp_headers) (s t : lp_setup_context) (b : Bool)
    (hr : try_update_scene_state h s = some (b, t)) :
    keeps_bins s t ∧ (b = true → t.dirty = 0) := by
  unfold try_update_scene_state at hr
  cases hsc : s.scene with
  | none => simp [hsc] at hr
  | some sl =>
    simp only [hsc] at hr
    split at hr
    · have h1 := keeps_bins_update_viewports sl s
      generalize update_viewports sl s = r1 at h1 hr
      obtain ⟨ok1, s1⟩ := r1
      cases ok1 with
      | false =>
        simp at hr
        obtain ⟨hb, ht⟩ := hr
        subst hb; subst ht
        exact ⟨h1, by simp⟩
      | true =>
        simp only [if_true] at hr
        have h2 := keeps_bins_update_blend_color sl s1
        generalize update_blend_color sl s1 = r2 at h2 hr
        obtain ⟨ok2, s2⟩ := r2
        cases ok2 with
        | false =>
          simp at hr
          obtain ⟨hb, ht⟩ := hr
          subst hb; subst ht
          exact ⟨keeps_bins_trans h1 h2, by simp⟩
        | true =>
          simp only [if_true] at hr
          have h3 : keeps_bins s2 (if s2.pipe.dirty_fs_constants then
              lp_setup_set_fs_constants s2.pipe.constants.length s2.pipe.constants s2
            else s2) := by
            split
            · exact keeps_bins_set_fs_constants _ _ _
            · exact keeps_bins_refl _
          generalize (if s2.pipe.dirty_fs_constants then
              lp_setup_set_fs_constants s2.pipe.constants.length s2.pipe.constants s2
            else s2) = s3 at h3 hr
          have h4 := keeps_bins_update_constants h sl s3
          generalize update_constants h sl s3 = r4 at h4 hr
          obtain ⟨ok4, s4⟩ := r4
          cases ok4 with
          | false =>
            simp at hr
            obtain ⟨hb, ht⟩ := hr
            subst hb; subst ht
            exact ⟨keeps_bins_trans (keeps_bins_trans (keeps_bins_trans h1 h2) h3) h4, by simp⟩
          | true =>
            simp only [if_true] at hr
            have h5 := keeps_bins_trans (keeps_bins_update_ssbos h s4)
              (keeps_bins_update_fs h sl (update_ssbos h s4))
            generalize update_fs h sl (update_ssbos h s4) = r5 at h5 hr
            obtain ⟨ok5, s5⟩ := r5
            have h05 := keeps_bins_trans
              (keeps_bins_trans (keeps_bins_trans (keeps_bins_trans h1 h2) h3) h4) h5
            cases ok5 with
            | false =>
              simp at hr
              obtain ⟨hb, ht⟩ := hr
              subst hb; subst ht
              exact ⟨h05, by simp⟩
            | true =>
              simp only [if_true, Option.some.injEq, Prod.mk.injEq] at hr
              obtain ⟨hb, ht⟩ := hr
              subst hb; subst ht
              refine ⟨keeps_bins_trans h05 (keeps_bins_trans (keeps_bins_update_scissor h s5) ?_),
                fun _ => rfl⟩
              exact ⟨⟨rfl, rfl, rfl, rfl, rfl, rfl, rfl, ⟨rfl, rfl⟩, ⟨rfl, rfl, rfl, rfl⟩, rfl⟩, rfl⟩
    · simp at hr

/-! ## The scene pool: what `lp_setup_get_empty_scene` selects -/

theorem pool_only_refl (s : lp_setup_context) : pool_only s s := rfl

theorem pool_only_trans {s t u : lp_setup_context} (a : pool_only s t) (b : pool_only t u) :
    pool_only s u := by
  unfold pool_only at *
  rw [b, a]

theorem pool_only_with_scene (i : Nat) (f : lp_scene → lp_scene) (s : lp_setup_context) :
    pool_only s (with_scene i f s) := rfl

theorem pool_only_record (e : event) (s : lp_setup_context) : pool_only s (record e s) := rfl

theorem pool_only_take_oracle (s : lp_setup_context) : pool_only s (take_oracle s).2 := by
  unfold take_oracle
  split <;> rfl

theorem first_free_le (l : List lp_scene) : first_free l ≤ l.length := by
  induction l with
  | nil => simp [first_free]
  | cons sc rest ih =>
    unfold first_free
    split
    · omega
    · simp only [List.length_cons]
      omega

/-- The scan stops at the lowest-index free slot. -/
theorem scan_scenes_index (i : Nat) (l : List lp_scene) (tr : List event) :
    (scan_scenes i l tr).1 = i + first_free l := by
  induction l generalizing i with
  | nil => simp [scan_scenes, first_free]
  | cons sc rest ih =>
    unfold scan_scenes first_free scene_free
    cases hf : sc.fence with
    | none => simp
    | some f =>
      cases hs : lp_fence_signalled f with
      | true => simp [hs]
      | false =>
        simp only [hs, Bool.false_eq_true, if_false]
        rw [ih]
        omega

theorem scan_scenes_length (i : Nat) (l : List lp_scene) (tr : List event) :
    (scan_scenes i l tr).2.1.length = l.length := by
  induction l generalizing i with
  | nil => simp [scan_scenes]
  | cons sc rest ih =>
    unfold scan_scenes
    cases hf : sc.fence with
    | none => simp
    | some f =>
      cases hs : lp_fence_signalled f with
      | true => simp [hs]
      | false => simp [hs, ih]

theorem scan_scenes_queued (i : Nat) (l : List lp_scene) (tr : List event) :
    queue_events (scan_scenes i l tr).2.2 = queue_events tr := by
  induction l generalizing i with
  | nil => simp [scan_scenes]
  | cons sc rest ih =>
    unfold scan_scenes
    cases hf : sc.fence with
    | none => simp
    | some f =>
      cases hs : lp_fence_signalled f with
      | true =>
        simpa [hs] using queue_events_append_other tr (event.scene_end_rasterization i) rfl
      | false => simp [hs, ih]

/-- The slot where the scan stopped holds a scene without fence. -/
theorem scan_scenes_found (i : Nat) (l : List lp_scene) (tr : List event)
    (hlt : first_free l < l.length) :
    ∃ sc, (scan_scenes i l tr).2.1.get? (first_free l) = some sc ∧ sc.fence = none := by
  induction l generalizing i with
  | nil => simp at hlt
  | cons sc rest ih =>
    unfold scan_scenes first_free scene_free
    cases hf : sc.fence with
    | none => exact ⟨sc, by simp, hf⟩
    | some f =>
      cases hs : lp_fence_signalled f with
      | true => exact ⟨lp_scene_end_rasterization sc, by simp [hs], rfl⟩
      | false =>
        have hlt1 : first_free rest < rest.length := by
          simp [first_free, scene_free, hf, hs] at hlt
          exact hlt
        obtain ⟨c, h1, h2⟩ := ih (i + 1) hlt1
        exact ⟨c, by simpa [hs] using h1, h2⟩

theorem wait_empty_scene_some (s t : lp_setup_context) (i : Nat)
    (hr : lp_setup_wait_empty_scene s = some (i, t)) :
    i = 0 ∧ selects s t 0 ∧ t.scene = s.scene ∧ t.scenes.length = s.scenes.length := by
  unfold lp_setup_wait_empty_scene at hr
  split at hr
  · simp at hr
  · rename_i sc0 rest hsc
    split at hr
    · rename_i f hf
      simp only [Option.some.injEq, Prod.mk.injEq] at hr
      obtain ⟨hi, ht⟩ := hr
      subst ht
      refine ⟨hi.symm, ⟨rfl, ?_, ?_, ?_⟩, rfl, ?_⟩
      · simp [record, with_scene, queue_events, List.filterMap_append]
      · simp [record, with_scene, modify_scene_length]
      · refine ⟨lp_scene_end_rasterization { sc0 with fence := some (lp_fence_wait f) }, ?_, rfl⟩
        simp [record, with_scene, hsc, modify_scene]
      · simp [record, with_scene, modify_scene_length]
    · rename_i hf
      simp only [Option.some.injEq, Prod.mk.injEq] at hr
      obtain ⟨hi, ht⟩ := hr
      subst ht
      exact ⟨hi.symm, ⟨pool_only_refl s, rfl, le_refl _, ⟨sc0, by simp [hsc], hf⟩⟩, rfl, rfl⟩

theorem wait_empty_scene_total (s : lp_setup_context) (hne : s.scenes ≠ []) :
    ∃ t, lp_setup_wait_empty_scene s = some (0, t) := by
  unfold lp_setup_wait_empty_scene
  split
  · rename_i hsc
    exact absurd hsc hne
  · split
    · exact ⟨_, rfl⟩
    · exact ⟨_, rfl⟩

theorem lp_scene_create_spec (s : lp_setup_context) :
    pool_only s (lp_scene_create s).2 ∧
    queue_events (lp_scene_create s).2.trace = queue_events s.trace ∧
    (lp_scene_create s).2.scenes = s.scenes ∧ (lp_scene_create s).2.scene = s.scene ∧
    (∀ sc, (lp_scene_create s).1 = some sc → sc = empty_scene) := by
  unfold lp_scene_create take_oracle
  cases s.oracle with
  | nil =>
    refine ⟨rfl, ?_, rfl, rfl, ?_⟩
    · exact queue_events_append_other _ _ rfl
    · intro sc hsc
      simpa using hsc.symm
  | cons b rest =>
    refine ⟨rfl, ?_, rfl, rfl, ?_⟩
    · exact queue_events_append_other _ _ rfl
    · intro sc hsc
      cases b <;> simp at hsc
      exact hsc.symm

theorem choose_scene_some (h : lp_headers) (k i : Nat) (s t : lp_setup_context)
    (hr : choose_scene h k s = some (i, t))
    (hfree : k < s.scenes.length → ∃ sc, s.scenes.get? k = some sc ∧ sc.fence = none)
    (hk : k ≤ s.scenes.length) :
    selects s t i ∧ t.scene = s.scene := by
  unfold choose_scene at hr
  split at hr
  · obtain ⟨hi, hs, hsc, _⟩ := wait_empty_scene_some s t i hr
    subst hi
    exact ⟨hs, hsc⟩
  · split at hr
    · obtain ⟨h1, h2, h3, h4, h5⟩ := lp_scene_create_spec s
      generalize lp_scene_create s = r at hr h1 h2 h3 h4 h5
      obtain ⟨o, s1⟩ := r
      cases o with
      | none =>
        simp only at hr
        obtain ⟨hi, hs, hsc, _⟩ := wait_empty_scene_some s1 t i hr
        subst hi
        refine ⟨⟨pool_only_trans h1 hs.only, hs.queued.trans h2, ?_, hs.free⟩, hsc.trans h4⟩
        have := hs.len
        simp only [] at h3
        rw [h3] at this
        exact this
      | some scn =>
        simp only [Option.some.injEq, Prod.mk.injEq] at hr
        obtain ⟨hi, ht⟩ := hr
        subst ht
        subst hi
        have hscn := h5 scn rfl
        simp only [] at h3 h4 h2
        refine ⟨⟨pool_only_trans h1 rfl, h2, ?_, ⟨scn, ?_, ?_⟩⟩, h4⟩
        · simp [h3]
        · simp [num_active_scenes, h3]
        · rw [hscn]
          rfl
    · simp only [Option.some.injEq, Prod.mk.injEq] at hr
      obtain ⟨hi, ht⟩ := hr
      subst ht
      subst hi
      rename_i hne
      have hlt : k < s.scenes.length := by
        unfold num_active_scenes at hne
        omega
      exact ⟨⟨pool_only_refl s, rfl, le_refl _, hfree hlt⟩, rfl⟩

theorem choose_scene_total (h : lp_headers) (k : Nat) (s : lp_setup_context)
    (hne : s.scenes ≠ []) : ∃ i t, choose_scene h k s = some (i, t) := by
  unfold choose_scene
  split
  · obtain ⟨t, ht⟩ := wait_empty_scene_total s hne
    exact ⟨0, t, ht⟩
  · split
    · obtain ⟨_, _, h3, _, _⟩ := lp_scene_create_spec s
      generalize lp_scene_create s = r at h3
      obtain ⟨o, s1⟩ := r
      cases o with
      | none =>
        simp only [] at h3
        obtain ⟨t, ht⟩ := wait_empty_scene_total s1 (by rw [h3]; exact hne)
        exact ⟨0, t, ht⟩
      | some scn => exact ⟨_, _, rfl⟩
    · exact ⟨_, _, rfl⟩

/-- The outcome of `lp_setup_get_empty_scene`: only pool and ghost members change, nothing is
handed to the rasterizer, the pool does not shrink, and the current scene is a pool scene
without fence, bound to the framebuffer, with one empty bin per tile. -/
theorem get_empty_scene_some (h : lp_headers) (s t : lp_setup_context)
    (hr : lp_setup_get_empty_scene h s = some t) :
    pool_only s t ∧ queue_events t.trace = queue_events s.trace ∧
    s.scenes.length ≤ t.scenes.length ∧
    ∃ i sc, t.scene = some i ∧ t.scenes.get? i = some sc ∧ sc.fence = none ∧
      sc.bins = List.replicate (h.num_tiles s.fb) [] ∧ sc.fb = s.fb := by
  unfold lp_setup_get_empty_scene at hr
  have hidx := scan_scenes_index 0 s.scenes s.trace
  have hlen := scan_scenes_length 0 s.scenes s.trace
  have hq := scan_scenes_queued 0 s.scenes s.trace
  have hfound := scan_scenes_found 0 s.scenes s.trace
  have hle := first_free_le s.scenes
  generalize scan_scenes 0 s.scenes s.trace = r at hr hidx hlen hq hfound
  obtain ⟨k, l, tr⟩ := r
  simp only [] at hr hidx hlen hq hfound
  simp only [Nat.zero_add] at hidx
  subst hidx
  cases hc : choose_scene h (first_free s.scenes) { s with scenes := l, trace := tr } with
  | none => simp [hc] at hr
  | some x =>
    obtain ⟨i, s1⟩ := x
    simp only [hc] at hr
    have hsel := choose_scene_some h (first_free s.scenes) i _ s1 hc
      (fun hlt => hfound (by simpa [hlen] using hlt)) (by simpa [hlen] using hle)
    obtain ⟨hsel, hscene⟩ := hsel
    split at hr
    · rename_i hi
      simp only [Option.some.injEq] at hr
      subst hr
      obtain ⟨sc, hget, hfence⟩ := hsel.free
      have hfb : s1.fb = s.fb := by
        have := hsel.only
        unfold pool_only at this
        rw [this]
      refine ⟨?_, ?_, ?_, i, ?_⟩
      · exact pool_only_trans (pool_only_trans (s := s) (t := { s with scenes := l, trace := tr })
          rfl hsel.only) rfl
      · simp only [record, with_scene]
        rw [queue_events_append_other _ (event.scene_begin_binning i) rfl]
        exact hsel.queued.trans hq
      · have := hsel.len
        simp only [record, with_scene, modify_scene_length]
        simp only [hlen] at this
        exact this
      · refine ⟨lp_scene_begin_binning h s1.fb
          { sc with permit_linear_rasterizer := s1.permit_linear_rasterizer }, rfl, ?_, hfence,
          ?_, ?_⟩
        · simp only [record, with_scene, modify_scene_get, hget, Option.map_some']
        · simp [lp_scene_begin_binning, hfb]
        · simp [lp_scene_begin_binning, hfb]
    · simp at hr

theorem get_empty_scene_total (h : lp_headers) (s : lp_setup_context) (hne : s.scenes ≠ []) :
    ∃ t, lp_setup_get_empty_scene h s = some t := by
  unfold lp_setup_get_empty_scene
  have hidx := scan_scenes_index 0 s.scenes s.trace
  have hlen := scan_scenes_length 0 s.scenes s.trace
  have hfound := scan_scenes_found 0 s.scenes s.trace
  have hle := first_free_le s.scenes
  generalize scan_scenes 0 s.scenes s.trace = r at hidx hlen hfound
  obtain ⟨k, l, tr⟩ := r
  simp only [] at hidx hlen hfound
  simp only [Nat.zero_add] at hidx
  subst hidx
  have hne1 : l ≠ [] := by
    intro hl
    rw [hl] at hlen
    exact hne (List.length_eq_zero.mp hlen.symm)
  obtain ⟨i, s1, hc⟩ := choose_scene_total h (first_free s.scenes)
    { s with scenes := l, trace := tr } hne1
  have hsel := choose_scene_some h (first_free s.scenes) i _ s1 hc
    (fun hlt => hfound (by simpa [hlen] using hlt)) (by simpa [hlen] using hle)
  obtain ⟨sc, hget, _⟩ := hsel.1.free
  have hi : i < s1.scenes.length := by
    by_contra hcon
    have : s1.scenes.get? i = none := List.get?_eq_none.mpr (by omega)
    rw [this] at hget
    exact Option.noConfusion hget
  simp only [hc, hi, if_true]
  exact ⟨_, rfl⟩

/-! ## Frame of `begin_binning` -/

theorem steady_of_keeps {s t : lp_setup_context} (k : keeps s t) : steady s t :=
  ⟨k.scene, k.state, k.fb, k.num_threads, k.len, k.queries, k.prims, k.queued⟩

theorem steady_refl (s : lp_setup_context) : steady s s :=
  steady_of_keeps (keeps_refl s)

theorem steady_trans {s t u : lp_setup_context} (a : steady s t) (b : steady t u) : steady s u :=
  ⟨b.scene.trans a.scene, b.state.trans a.state, b.fb.trans a.fb,
   b.num_threads.trans a.num_threads, b.len.trans a.len,
   ⟨b.queries.1.trans a.queries.1, b.queries.2.trans a.queries.2⟩,
   ⟨b.prims.1.trans a.prims.1, b.prims.2.1.trans a.prims.2.1,
    b.prims.2.2.1.trans a.prims.2.2.1, b.prims.2.2.2.trans a.prims.2.2.2⟩,
   b.queued.trans a.queued⟩

theorem steady_with_scene (i : Nat) (f : lp_scene → lp_scene) (s : lp_setup_context) :
    steady s (with_scene i f s) :=
  ⟨rfl, rfl, rfl, rfl, modify_scene_length f i s.scenes, ⟨rfl, rfl⟩, ⟨rfl, rfl, rfl, rfl⟩, rfl⟩

theorem keeps_begin_binning_clear_color (sl n cbuf : Nat) (s : lp_setup_context) :
    keeps s (begin_binning_clear_color sl n cbuf s).2 := by
  induction n generalizing cbuf s with
  | zero => exact keeps_refl s
  | succ n ih =>
    unfold begin_binning_clear_color
    split
    · have h1 := (keeps_bins_lp_scene_alloc sl s).base
      generalize lp_scene_alloc sl s = r at h1 ⊢
      obtain ⟨o, s1⟩ := r
      cases o with
      | none => exact h1
      | some p =>
        dsimp only
        have h2 := keeps_bin_everywhere sl
          (lp_rast_cmd.LP_RAST_OP_CLEAR_COLOR cbuf (s1.clear.color_val.getD cbuf 0)) s1
        split
        · exact keeps_trans (keeps_trans h1 h2) (ih _ _)
        · exact keeps_trans h1 h2
    · exact ih _ _

/-- The clear replay keeps the state machine members; on success the accumulator's flags,
mask and value are zero. -/
theorem begin_binning_clears_spec (sl : Nat) (s : lp_setup_context) :
    steady s (begin_binning_clears sl s).2 ∧
    ((begin_binning_clears sl s).1 = true →
      (begin_binning_clears sl s).2.clear.flags = 0 ∧
      (begin_binning_clears sl s).2.clear.zsmask = 0 ∧
      (begin_binning_clears sl s).2.clear.zsvalue = 0) := by
  unfold begin_binning_clears
  have h1 : keeps s (if s.clear.flags &&& PIPE_CLEAR_COLOR ≠ 0 then
      begin_binning_clear_color sl s.fb.nr_cbufs 0 s else (true, s)).2 := by
    split
    · exact keeps_begin_binning_clear_color sl _ _ s
    · exact keeps_refl s
  generalize (if s.clear.flags &&& PIPE_CLEAR_COLOR ≠ 0 then
      begin_binning_clear_color sl s.fb.nr_cbufs 0 s else (true, s)) = r1 at h1 ⊢
  obtain ⟨ok1, s1⟩ := r1
  cases ok1 with
  | false => exact ⟨steady_of_keeps h1, by simp⟩
  | true =>
    dsimp only
    simp only [if_true]
    have h2 : keeps s1 (if s1.fb.zsbuf.isSome &&
        decide (s1.clear.flags &&& PIPE_CLEAR_DEPTHSTENCIL ≠ 0) then
        lp_scene_bin_everywhere sl
          (lp_rast_cmd.LP_RAST_OP_CLEAR_ZSTENCIL s1.clear.zsvalue s1.clear.zsmask) s1
      else (true, s1)).2 := by
      split
      · exact keeps_bin_everywhere sl _ s1
      · exact keeps_refl s1
    generalize (if s1.fb.zsbuf.isSome &&
        decide (s1.clear.flags &&& PIPE_CLEAR_DEPTHSTENCIL ≠ 0) then
        lp_scene_bin_everywhere sl
          (lp_rast_cmd.LP_RAST_OP_CLEAR_ZSTENCIL s1.clear.zsvalue s1.clear.zsmask) s1
      else (true, s1)) = r2 at h2 ⊢
    obtain ⟨ok2, s2⟩ := r2
    cases ok2 with
    | false => exact ⟨steady_of_keeps (keeps_trans h1 h2), by simp⟩
    | true =>
      dsimp only
      simp only [if_true]
      refine ⟨steady_trans (steady_of_keeps (keeps_trans h1 h2))
        (steady_trans ?_ (steady_with_scene sl _ _)), fun _ => ⟨rfl, rfl, rfl⟩⟩
      exact ⟨rfl, rfl, rfl, rfl, rfl, ⟨rfl, rfl⟩, ⟨rfl, rfl, rfl, rfl⟩, rfl⟩

/-- The outcome of `begin_binning`: it needs a valid current scene, keeps the state machine
members, and on success leaves the accumulator's flags, mask and value zero. -/
theorem begin_binning_some (h : lp_headers) (s t : lp_setup_context) (b : Bool)
    (hr : begin_binning h s = some (b, t)) :
    steady s t ∧ (∃ sl, s.scene = some sl ∧ sl < s.scenes.length) ∧
    (b = true → t.clear.flags = 0 ∧ t.clear.zsmask = 0 ∧ t.clear.zsvalue = 0) := by
  unfold begin_binning at hr
  cases hsc : s.scene with
  | none => simp [hsc] at hr
  | some sl =>
    simp only [hsc] at hr
    split at hr
    · rename_i hlt
      refine ⟨?_, ⟨sl, rfl, hlt⟩, ?_⟩
      all_goals
        have h0 := steady_of_keeps (keeps_take_oracle s)
        generalize take_oracle s = r at hr h0
        obtain ⟨ok, s0⟩ := r
        have h1 : steady s (record (event.fence_create (max 1 s.num_threads) ok) s0) :=
          steady_trans h0 (steady_of_keeps
            (keeps_record (event.fence_create (max 1 s.num_threads) ok) rfl s0))
        cases ok with
        | false =>
          simp only [Bool.false_eq_true, if_false, Option.some.injEq, Prod.mk.injEq] at hr
          obtain ⟨hb, ht⟩ := hr
          subst hb; subst ht
          first
            | exact steady_trans h1 (steady_with_scene sl _ _)
            | simp
        | true =>
          simp only [if_true] at hr
          have h2 : steady s (with_scene sl
              (fun sc => { sc with fence := some (lp_fence_create (max 1 s.num_threads)) })
              (record (event.fence_create (max 1 s.num_threads) true) s0)) :=
            steady_trans h1 (steady_with_scene sl _ _)
          cases htu : try_update_scene_state h (with_scene sl
              (fun sc => { sc with fence := some (lp_fence_create (max 1 s.num_threads)) })
              (record (event.fence_create (max 1 s.num_threads) true) s0)) with
          | none => simp [htu] at hr
          | some x =>
            obtain ⟨b3, s3⟩ := x
            have h3 := (try_update_scene_state_keeps h _ s3 b3 htu).1.base
            simp only [htu] at hr
            cases b3 with
            | false =>
              simp only [Option.some.injEq, Prod.mk.injEq] at hr
              obtain ⟨hb, ht⟩ := hr
              subst hb; subst ht
              first
                | exact steady_trans h2 (steady_of_keeps h3)
                | simp
            | true =>
              simp only [Option.some.injEq] at hr
              have h4 := begin_binning_clears_spec sl s3
              rw [hr] at h4
              first
                | exact steady_trans (steady_trans h2 (steady_of_keeps h3)) h4.1
                | exact h4.2
    · simp at hr

/-! ## Reset, hand-over and failure -/

theorem is_reset_lp_setup_reset (s : lp_setup_context) : is_reset (lp_setup_reset s) := by
  refine ⟨rfl, rfl, rfl, ?_, rfl, rfl, rfl, ?_, rfl, rfl, rfl, rfl⟩
  · intro c hc
    simp only [lp_setup_reset, List.mem_map] at hc
    obtain ⟨c0, _, rfl⟩ := hc
    exact ⟨rfl, rfl⟩
  · intro v hv
    simp only [lp_setup_reset] at hv
    exact List.eq_of_mem_replicate hv

theorem is_reset_with_state (t : lp_setup_context) (st : setup_state) (ht : is_reset t) :
    is_reset { t with state := st } :=
  ⟨ht.scene, ht.dirty, ht.fs_stored, ht.constants, ht.clear_flags, ht.clear_zsmask,
   ht.clear_zsvalue, ht.clear_color, ht.point, ht.line, ht.triangle, ht.rect⟩

/-- The `fail:` exit from a context owning scene `sl`: FLUSHED, reset, the scene released
with `lp_scene_end_rasterization` as the last call, nothing handed to the rasterizer. -/
theorem set_scene_state_fail_spec (s : lp_setup_context) (sl : Nat) (hsc : s.scene = some sl)
    (hlt : sl < s.scenes.length) :
    (set_scene_state_fail s).state = setup_state.SETUP_FLUSHED ∧
    is_reset (set_scene_state_fail s) ∧
    (set_scene_state_fail s).trace = s.trace ++ [event.scene_end_rasterization sl] ∧
    (set_scene_state_fail s).fb = s.fb ∧
    (set_scene_state_fail s).scenes.length = s.scenes.length ∧
    (set_scene_state_fail s).num_threads = s.num_threads ∧
    (∃ sc, (set_scene_state_fail s).scenes.get? sl = some sc ∧ sc.fence = none ∧ sc.bins = []) := by
  unfold set_scene_state_fail
  simp only [hsc]
  refine ⟨rfl, is_reset_lp_setup_reset _, rfl, rfl, ?_, rfl, ?_⟩
  · simp [lp_setup_reset, record, with_scene, modify_scene_length]
  · obtain ⟨sc, hget⟩ : ∃ sc, s.scenes.get? sl = some sc := by
      cases hg : s.scenes.get? sl with
      | none =>
        have := List.get?_eq_none.mp hg
        omega
      | some sc => exact ⟨sc, rfl⟩
    refine ⟨lp_scene_end_rasterization sc, ?_, rfl, rfl⟩
    simp only [lp_setup_reset, record, with_scene]
    rw [modify_scene_get, hget]
    rfl

/-- The hand-over `lp_setup_rasterize_scene`: the current scene gets the snapshot of the
active queries, binning is ended, the scene is queued, then the context is reset. -/
theorem rasterize_scene_some (s t : lp_setup_context)
    (hr : lp_setup_rasterize_scene s = some t) :
    ∃ sl, s.scene = some sl ∧ sl < s.scenes.length ∧ is_reset t ∧ t.state = s.state ∧
      t.trace = s.trace ++ [event.scene_end_binning sl, event.rast_queue_scene sl] ∧
      t.fb = s.fb ∧ t.scenes.length = s.scenes.length ∧ t.num_threads = s.num_threads ∧
      t.active_binned_queries = s.active_binned_queries ∧
      t.active_queries = s.active_queries := by
  unfold lp_setup_rasterize_scene at hr
  cases hsc : s.scene with
  | none => simp [hsc] at hr
  | some sl =>
    simp only [hsc] at hr
    split at hr
    · rename_i hlt
      simp only [Option.some.injEq] at hr
      subst hr
      refine ⟨sl, rfl, hlt, is_reset_lp_setup_reset _, rfl, ?_, rfl, ?_, rfl, rfl, rfl⟩
      · simp [lp_setup_reset, record, with_scene]
      · simp [lp_setup_reset, record, with_scene, modify_scene_length]
    · simp at hr

/-! ## The transitions of `set_scene_state` -/

theorem set_scene_state_same (h : lp_headers) (s : lp_setup_context) (new_state : setup_state)
    (he : s.state = new_state) : set_scene_state h s new_state = some (true, s) := by
  simp [set_scene_state, he]

/-- The acquisition step changes only pool and ghost members; coming from FLUSHED the
current scene becomes a pool scene without fence and with empty bins, otherwise nothing
changes at all. -/
theorem acquire_some (h : lp_headers) (s s1 : lp_setup_context)
    (hr : set_scene_state_acquire h s = some s1) :
    pool_only s s1 ∧ queue_events s1.trace = queue_events s.trace ∧
    s.scenes.length ≤ s1.scenes.length ∧
    (s.state ≠ setup_state.SETUP_FLUSHED → s1 = s) ∧
    (s.state = setup_state.SETUP_FLUSHED →
      ∃ i sc, s1.scene = some i ∧ s1.scenes.get? i = some sc ∧ sc.fence = none ∧
        sc.bins = List.replicate (h.num_tiles s.fb) [] ∧ sc.fb = s.fb) := by
  unfold set_scene_state_acquire at hr
  split at hr
  · rename_i hfl
    obtain ⟨h1, h2, h3, h4⟩ := get_empty_scene_some h s s1 hr
    exact ⟨h1, h2, h3, fun hne => absurd hfl hne, fun _ => h4⟩
  · rename_i hfl
    simp only [Option.some.injEq] at hr
    subst hr
    exact ⟨pool_only_refl _, rfl, le_refl _, fun _ => rfl, fun he => absurd he hfl⟩

theorem pool_only_fields {s t : lp_setup_context} (hp : pool_only s t) :
    t.state = s.state ∧ t.clear = s.clear ∧ t.fb = s.fb ∧ t.num_threads = s.num_threads ∧
    t.dirty = s.dirty ∧ t.fs = s.fs ∧ t.constants = s.constants ∧
    (t.active_binned_queries = s.active_binned_queries ∧ t.active_queries = s.active_queries) ∧
    (t.point = s.point ∧ t.line = s.line ∧ t.triangle = s.triangle ∧ t.rect = s.rect) := by
  unfold pool_only at hp
  rw [hp]
  exact ⟨rfl, rfl, rfl, rfl, rfl, rfl, rfl, ⟨rfl, rfl⟩, ⟨rfl, rfl, rfl, rfl⟩⟩

/-- The FALSE exit of the switch: some step of `begin_binning` failed on a context that
owned scene `sl`, and the result is the `fail:` unwinding of that context. -/
theorem switch_false (h : lp_headers) (old_state new_state : setup_state)
    (s1 t : lp_setup_context)
    (hr : set_scene_state_switch h old_state new_state s1 = some (false, t)) :
    ∃ s2 sl, steady s1 s2 ∧ s2.scene = some sl ∧ sl < s2.scenes.length ∧
      t = set_scene_state_fail s2 := by
  unfold set_scene_state_switch at hr
  cases new_state with
  | SETUP_CLEARED => simp at hr
  | SETUP_ACTIVE =>
    simp only at hr
    cases hb : begin_binning h s1 with
    | none => simp [hb] at hr
    | some x =>
      obtain ⟨b, s2⟩ := x
      obtain ⟨hst, ⟨sl, hsl, hlt⟩, _⟩ := begin_binning_some h s1 s2 b hb
      cases b with
      | true => simp [hb] at hr
      | false =>
        simp only [hb, Option.some.injEq, Prod.mk.injEq, true_and] at hr
        exact ⟨s2, sl, hst, hst.scene.trans hsl, by rw [hst.len]; exact hlt, hr.symm⟩
  | SETUP_FLUSHED =>
    simp only at hr
    split at hr
    · simp at hr
    · rename_i s2 heq
      simp only [Option.some.injEq, Prod.mk.injEq, true_and] at hr
      split at heq
      · unfold execute_clears at heq
        obtain ⟨hst, ⟨sl, hsl, hlt⟩, _⟩ := begin_binning_some h s1 s2 false heq
        exact ⟨s2, sl, hst, hst.scene.trans hsl, by rw [hst.len]; exact hlt, hr.symm⟩
      · simp at heq
    · rename_i s2 heq
      split at hr <;> simp at hr

/-- The TRUE exit of the switch towards FLUSHED: the owned scene `sl` was handed over. -/
theorem switch_flushed_true (h : lp_headers) (old_state : setup_state)
    (s1 t : lp_setup_context)
    (hr : set_scene_state_switch h old_state setup_state.SETUP_FLUSHED s1 = some (true, t)) :
    ∃ s2 s3, steady s1 s2 ∧ lp_setup_rasterize_scene s2 = some s3 ∧
      t = { s3 with state := setup_state.SETUP_FLUSHED } := by
  unfold set_scene_state_switch at hr
  simp only at hr
  split at hr
  · simp at hr
  · simp at hr
  · rename_i s2 heq
    have hst : steady s1 s2 := by
      split at heq
      · unfold execute_clears at heq
        exact (begin_binning_some h s1 s2 true heq).1
      · simp only [Option.some.injEq, Prod.mk.injEq, true_and] at heq
        subst heq
        exact steady_refl _
    cases hrs : lp_setup_rasterize_scene s2 with
    | none => simp [hrs] at hr
    | some s3 =>
      simp only [hrs, Option.some.injEq, Prod.mk.injEq, true_and] at hr
      exact ⟨s2, s3, hst, hrs, hr.symm⟩

/-- The shape of a transition that really changes the state: acquisition, then the switch. -/
theorem set_scene_state_ne (h : lp_headers) (s : lp_setup_context) (new_state : setup_state)
    (hne : s.state ≠ new_state) (r : Bool × lp_setup_context)
    (hr : set_scene_state h s new_state = some r) :
    ∃ s1, set_scene_state_acquire h s = some s1 ∧
      set_scene_state_switch h s.state new_state s1 = some r := by
  unfold set_scene_state at hr
  simp only [hne, if_false] at hr
  cases ha : set_scene_state_acquire h s with
  | none => simp [ha] at hr
  | some s1 =>
    simp only [ha] at hr
    exact ⟨s1, rfl, hr⟩

/-- Every FALSE return of `set_scene_state` leaves the context unwound. -/
theorem set_scene_state_false (h : lp_headers) (s t : lp_setup_context)
    (new_state : setup_state) (hr : set_scene_state h s new_state = some (false, t)) :
    t.state = setup_state.SETUP_FLUSHED ∧ is_reset t ∧
    queue_events t.trace = queue_events s.trace ∧ t.fb = s.fb ∧
    s.scenes.length ≤ t.scenes.length ∧ t.num_threads = s.num_threads ∧
    ∃ sl pre, t.trace = pre ++ [event.scene_end_rasterization sl] ∧
      (s.state ≠ setup_state.SETUP_FLUSHED → s.scene = some sl) ∧
      (s.state = setup_state.SETUP_FLUSHED →
        ∃ s1, lp_setup_get_empty_scene h s = some s1 ∧ s1.scene = some sl) ∧
      ∃ sc, t.scenes.get? sl = some sc ∧ sc.fence = none ∧ sc.bins = [] := by
  have hne : s.state ≠ new_state := by
    intro he
    rw [set_scene_state_same h s new_state he] at hr
    simp at hr
  obtain ⟨s1, ha, hsw⟩ := set_scene_state_ne h s new_state hne _ hr
  obtain ⟨hp, hq, hlen, hsame, _⟩ := acquire_some h s s1 ha
  obtain ⟨s2, sl, hst, hsl, hlt, ht⟩ := switch_false h s.state new_state s1 t hsw
  obtain ⟨f1, f2, f3, f4, f5, f6, f7⟩ := set_scene_state_fail_spec s2 sl hsl hlt
  obtain ⟨p1, p2, p3, p4, _⟩ := pool_only_fields hp
  subst ht
  refine ⟨f1, f2, ?_, ?_, ?_, ?_, sl, s2.trace, f3, ?_, ?_, f7⟩
  · rw [f3, queue_events_append_other _ (event.scene_end_rasterization sl) rfl, hst.queued, hq]
  · rw [f4, hst.fb, p3]
  · rw [f5, hst.len]
    exact hlen
  · rw [f6, hst.num_threads, p4]
  · intro hfl
    have := hsame hfl
    subst this
    rw [← hst.scene]
    exact hsl
  · intro hfl
    refine ⟨s1, ?_, ?_⟩
    · unfold set_scene_state_acquire at ha
      simpa [hfl] using ha
    · rw [← hst.scene]
      exact hsl

/-- A successful transition reaches the requested state. -/
theorem set_scene_state_true_state (h : lp_headers) (s t : lp_setup_context)
    (new_state : setup_state) (hr : set_scene_state h s new_state = some (true, t)) :
    t.state = new_state := by
  by_cases he : s.state = new_state
  · rw [set_scene_state_same h s new_state he] at hr
    simp only [Option.some.injEq, Prod.mk.injEq, true_and] at hr
    subst hr
    exact he
  · obtain ⟨s1, _, hsw⟩ := set_scene_state_ne h s new_state he _ hr
    unfold set_scene_state_switch at hsw
    cases new_state with
    | SETUP_CLEARED =>
      simp only [Option.some.injEq, Prod.mk.injEq, true_and] at hsw
      subst hsw
      rfl
    | SETUP_ACTIVE =>
      simp only at hsw
      split at hsw
      · simp at hsw
      · simp at hsw
      · simp only [Option.some.injEq, Prod.mk.injEq, true_and] at hsw
        subst hsw
        rfl
    | SETUP_FLUSHED =>
      simp only at hsw
      split at hsw
      · simp at hsw
      · simp at hsw
      · split at hsw
        · simp at hsw
        · simp only [Option.some.injEq, Prod.mk.injEq, true_and] at hsw
          subst hsw
          rfl

/-- A successful transition to FLUSHED from another state hands the owned scene over:
`lp_scene_end_binning` then `lp_rast_queue_scene` are the last two calls, nothing else was
queued, and the context is reset. -/
theorem set_scene_state_flushed_true (h : lp_headers) (s t : lp_setup_context)
    (hne : s.state ≠ setup_state.SETUP_FLUSHED)
    (hr : set_scene_state h s setup_state.SETUP_FLUSHED = some (true, t)) :
    t.state = setup_state.SETUP_FLUSHED ∧ is_reset t ∧ t.fb = s.fb ∧
    t.scenes.length = s.scenes.length ∧ t.num_threads = s.num_threads ∧
    t.active_binned_queries = s.active_binned_queries ∧ t.active_queries = s.active_queries ∧
    ∃ sl pre, s.scene = some sl ∧ sl < s.scenes.length ∧
      t.trace = pre ++ [event.scene_end_binning sl, event.rast_queue_scene sl] ∧
      queue_events pre = queue_events s.trace := by
  obtain ⟨s1, ha, hsw⟩ := set_scene_state_ne h s _ hne _ hr
  obtain ⟨_, _, _, hsame, _⟩ := acquire_some h s s1 ha
  have := hsame hne
  subst this
  obtain ⟨s2, s3, hst, hrs, ht⟩ := switch_flushed_true h _ _ t hsw
  obtain ⟨sl, hsl, hlt, r1, r2, r3, r4, r5, r6, r7, r8⟩ := rasterize_scene_some s2 s3 hrs
  subst ht
  refine ⟨rfl, is_reset_with_state s3 _ r1, ?_, ?_, ?_, ?_, ?_, sl, s2.trace, ?_, ?_, r3,
    hst.queued⟩
  · exact r4.trans hst.fb
  · exact r5.trans hst.len
  · exact r6.trans hst.num_threads
  · exact r7.trans hst.queries.1
  · exact r8.trans hst.queries.2
  · rw [← hst.scene]
    exact hsl
  · rw [← hst.len]
    exact hlt

/-- The transition to CLEARED never fails and runs only the acquisition step. -/
theorem set_scene_state_cleared (h : lp_headers) (s t : lp_setup_context) (b : Bool)
    (hne : s.state ≠ setup_state.SETUP_CLEARED)
    (hr : set_scene_state h s setup_state.SETUP_CLEARED = some (b, t)) :
    b = true ∧ ∃ s1, set_scene_state_acquire h s = some s1 ∧
      t = { s1 with state := setup_state.SETUP_CLEARED } := by
  obtain ⟨s1, ha, hsw⟩ := set_scene_state_ne h s _ hne _ hr
  unfold set_scene_state_switch at hsw
  simp only [Option.some.injEq, Prod.mk.injEq] at hsw
  exact ⟨hsw.1.symm, s1, ha, hsw.2.symm⟩

/-- A successful transition to ACTIVE is the acquisition step followed by a successful
`begin_binning`. -/
theorem set_scene_state_active_true (h : lp_headers) (s t : lp_setup_context)
    (hne : s.state ≠ setup_state.SETUP_ACTIVE)
    (hr : set_scene_state h s setup_state.SETUP_ACTIVE = some (true, t)) :
    ∃ s1 s2, set_scene_state_acquire h s = some s1 ∧ begin_binning h s1 = some (true, s2) ∧
      t = { s2 with state := setup_state.SETUP_ACTIVE } := by
  obtain ⟨s1, ha, hsw⟩ := set_scene_state_ne h s _ hne _ hr
  unfold set_scene_state_switch at hsw
  simp only at hsw
  cases hb : begin_binning h s1 with
  | none => simp [hb] at hsw
  | some x =>
    obtain ⟨b, s2⟩ := x
    cases b with
    | false => simp [hb] at hsw
    | true =>
      simp only [hb, Option.some.injEq, Prod.mk.injEq, true_and] at hsw
      exact ⟨s1, s2, ha, hb, hsw.symm⟩

/-! ## The state-machine invariant over sequences of operations -/

theorem sm_inv_of_keeps {s t : lp_setup_context} (k : keeps s t) (hi : sm_inv s) : sm_inv t := by
  unfold sm_inv at *
  rw [k.state, k.scene, k.clear]
  exact hi

theorem sm_inv_of_reset {t : lp_setup_context} (hs : t.state = setup_state.SETUP_FLUSHED)
    (hr : is_reset t) : sm_inv t := by
  unfold sm_inv
  exact ⟨⟨fun _ => hr.scene, fun _ => hs⟩, fun _ => hr.clear_flags⟩

theorem set_scene_state_inv (h : lp_headers) (s t : lp_setup_context) (new_state : setup_state)
    (b : Bool) (hr : set_scene_state h s new_state = some (b, t)) (hi : sm_inv s) :
    sm_inv t := by
  by_cases he : s.state = new_state
  · rw [set_scene_state_same h s new_state he] at hr
    simp only [Option.some.injEq, Prod.mk.injEq] at hr
    rw [← hr.2]
    exact hi
  · cases b with
    | false =>
      obtain ⟨h1, h2, _⟩ := set_scene_state_false h s t new_state hr
      exact sm_inv_of_reset h1 h2
    | true =>
      cases new_state with
      | SETUP_FLUSHED =>
        obtain ⟨h1, h2, _⟩ := set_scene_state_flushed_true h s t he hr
        exact sm_inv_of_reset h1 h2
      | SETUP_CLEARED =>
        obtain ⟨_, s1, ha, ht⟩ := set_scene_state_cleared h s t true he hr
        obtain ⟨hp, _, _, hsame, hfl⟩ := acquire_some h s s1 ha
        subst ht
        unfold sm_inv
        refine ⟨⟨fun hc => by simp at hc, fun hn => ?_⟩, fun hc => absurd rfl hc⟩
        exfalso
        simp only [] at hn
        by_cases hf : s.state = setup_state.SETUP_FLUSHED
        · obtain ⟨i, _, hsc, _⟩ := hfl hf
          rw [hn] at hsc
          exact Option.noConfusion hsc
        · have := hsame hf
          subst this
          exact hf (hi.1.mpr hn)
      | SETUP_ACTIVE =>
        obtain ⟨s1, s2, ha, hb, ht⟩ := set_scene_state_active_true h s t he hr
        obtain ⟨hst, ⟨sl, hsl, _⟩, hcl⟩ := begin_binning_some h s1 s2 true hb
        subst ht
        unfold sm_inv
        refine ⟨⟨fun hc => by simp at hc, fun hn => ?_⟩, fun _ => (hcl rfl).1⟩
        exfalso
        simp only [] at hn
        rw [hst.scene, hsl] at hn
        exact Option.noConfusion hn

theorem try_clear_color_buffer_inv (h : lp_headers) (color cbuf : Nat)
    (s t : lp_setup_context) (b : Bool)
    (hr : lp_setup_try_clear_color_buffer h color cbuf s = some (b, t)) (hi : sm_inv s) :
    sm_inv t := by
  unfold lp_setup_try_clear_color_buffer at hr
  split at hr
  · rename_i surf _
    simp only at hr
    split at hr
    · split at hr
      · simp at hr
      · rename_i sl _
        split at hr
        · have h1 := (keeps_bins_lp_scene_alloc sl s).base
          generalize lp_scene_alloc sl s = r at hr h1
          obtain ⟨o, s1⟩ := r
          cases o with
          | none =>
            simp only [Option.some.injEq, Prod.mk.injEq] at hr
            rw [← hr.2]
            exact sm_inv_of_keeps h1 hi
          | some p =>
            simp only [Option.some.injEq] at hr
            have h2 := keeps_bin_everywhere sl
              (lp_rast_cmd.LP_RAST_OP_CLEAR_COLOR cbuf (h.util_pack_color_union surf.format color)) s1
            rw [hr] at h2
            exact sm_inv_of_keeps (keeps_trans h1 h2) hi
        · simp at hr
    · rename_i hna
      cases hs : set_scene_state h s setup_state.SETUP_CLEARED with
      | none => simp [hs] at hr
      | some x =>
        obtain ⟨b1, s1⟩ := x
        simp only [hs, Option.some.injEq, Prod.mk.injEq] at hr
        have hi1 := set_scene_state_inv h s s1 _ b1 hs hi
        have hst : s1.state = setup_state.SETUP_CLEARED := by
          by_cases he : s.state = setup_state.SETUP_CLEARED
          · rw [set_scene_state_same h s _ he] at hs
            simp only [Option.some.injEq, Prod.mk.injEq] at hs
            rw [← hs.2]
            exact he
          · obtain ⟨hb1, _⟩ := set_scene_state_cleared h s s1 b1 he hs
            subst hb1
            exact set_scene_state_true_state h s s1 _ hs
        rw [← hr.2]
        unfold sm_inv at *
        simp only []
        rw [hst]
        rw [hst] at hi1
        exact ⟨hi1.1, fun hc => absurd rfl hc⟩
  · simp at hr

theorem try_clear_zs_inv (h : lp_headers) (depth stencil flags : Nat)
    (s t : lp_setup_context) (b : Bool)
    (hr : lp_setup_try_clear_zs h depth stencil flags s = some (b, t)) (hi : sm_inv s) :
    sm_inv t := by
  unfold lp_setup_try_clear_zs at hr
  split at hr
  · simp at hr
  · rename_i zsbuf _
    simp only at hr
    split at hr
    · split at hr
      · simp at hr
      · rename_i sl _
        split at hr
        · simp only [Option.some.injEq] at hr
          have h2 := keeps_bin_everywhere sl
            (lp_rast_cmd.LP_RAST_OP_CLEAR_ZSTENCIL
              (clear_zs_value_mask h zsbuf.format depth stencil flags).1
              (clear_zs_value_mask h zsbuf.format depth stencil flags).2) s
          rw [hr] at h2
          exact sm_inv_of_keeps h2 hi
        · simp at hr
    · cases hs : set_scene_state h s setup_state.SETUP_CLEARED with
      | none => simp [hs] at hr
      | some x =>
        obtain ⟨b1, s1⟩ := x
        simp only [hs, Option.some.injEq, Prod.mk.injEq] at hr
        have hi1 := set_scene_state_inv h s s1 _ b1 hs hi
        have hst : s1.state = setup_state.SETUP_CLEARED := by
          by_cases he : s.state = setup_state.SETUP_CLEARED
          · rw [set_scene_state_same h s _ he] at hs
            simp only [Option.some.injEq, Prod.mk.injEq] at hs
            rw [← hs.2]
            exact he
          · obtain ⟨hb1, _⟩ := set_scene_state_cleared h s s1 b1 he hs
            subst hb1
            exact set_scene_state_true_state h s s1 _ hs
        rw [← hr.2]
        unfold sm_inv at *
        simp only []
        rw [hst]
        rw [hst] at hi1
        exact ⟨hi1.1, fun hc => absurd rfl hc⟩

theorem lp_setup_clear_zs_inv (h : lp_headers) (depth stencil flags : Nat)
    (s t : lp_setup_context) (hr : lp_setup_clear_zs h depth stencil flags s = some t)
    (hi : sm_inv s) : sm_inv t := by
  unfold lp_setup_clear_zs at hr
  split at hr
  · simp only at hr
    split at hr
    · simp at hr
    · rename_i s1 h1
      simp only [Option.some.injEq] at hr
      rw [← hr]
      exact try_clear_zs_inv h _ _ _ s s1 true h1 hi
    · rename_i s1 h1
      have hi1 := try_clear_zs_inv h _ _ _ s s1 false h1 hi
      split at hr
      · simp at hr
      · rename_i b2 s2 h2
        have hi2 := set_scene_state_inv h s1 s2 _ b2 h2 hi1
        cases h3 : lp_setup_try_clear_zs h depth stencil (flags &&& PIPE_CLEAR_DEPTHSTENCIL) s2 with
        | none => simp [h3] at hr
        | some x =>
          obtain ⟨b3, s3⟩ := x
          simp only [h3, Option.map_some', Option.some.injEq] at hr
          rw [← hr]
          exact try_clear_zs_inv h _ _ _ s2 s3 b3 h3 hi2
  · simp only [Option.some.injEq] at hr
    rw [← hr]
    exact hi

theorem lp_setup_clear_color_inv (h : lp_headers) (color flags n i : Nat)
    (s t : lp_setup_context) (hr : lp_setup_clear_color h color flags n i s = some t)
    (hi : sm_inv s) : sm_inv t := by
  induction n generalizing i s with
  | zero =>
    simp only [lp_setup_clear_color, Option.some.injEq] at hr
    rw [← hr]
    exact hi
  | succ n ih =>
    unfold lp_setup_clear_color at hr
    split at hr
    · split at hr
      · simp at hr
      · rename_i s1 h1
        exact ih _ _ hr (try_clear_color_buffer_inv h _ _ s s1 true h1 hi)
      · rename_i s1 h1
        have hi1 := try_clear_color_buffer_inv h _ _ s s1 false h1 hi
        split at hr
        · simp at hr
        · rename_i b2 s2 h2
          have hi2 := set_scene_state_inv h s1 s2 _ b2 h2 hi1
          split at hr
          · simp at hr
          · rename_i b3 s3 h3
            exact ih _ _ hr (try_clear_color_buffer_inv h _ _ s2 s3 b3 h3 hi2)
    · exact ih _ _ hr hi

theorem lp_setup_clear_inv (h : lp_headers) (color depth stencil flags : Nat)
    (s t : lp_setup_context) (hr : lp_setup_clear h color depth stencil flags s = some t)
    (hi : sm_inv s) : sm_inv t := by
  unfold lp_setup_clear at hr
  split at hr
  · simp at hr
  · rename_i s1 h1
    have hi1 := lp_setup_clear_zs_inv h _ _ _ s s1 h1 hi
    split at hr
    · exact lp_setup_clear_color_inv h _ _ _ _ s1 t hr hi1
    · simp only [Option.some.injEq] at hr
      rw [← hr]
      exact hi1

theorem lp_setup_flush_inv (h : lp_headers) (s t : lp_setup_context)
    (hr : lp_setup_flush h s = some t) (hi : sm_inv s) : sm_inv t := by
  unfold lp_setup_flush at hr
  cases h1 : set_scene_state h s setup_state.SETUP_FLUSHED with
  | none => simp [h1] at hr
  | some x =>
    obtain ⟨b, s1⟩ := x
    simp only [h1, Option.map_some', Option.some.injEq] at hr
    rw [← hr]
    exact set_scene_state_inv h s s1 _ b h1 hi

theorem lp_setup_bind_framebuffer_inv (h : lp_headers) (fb : pipe_framebuffer_state)
    (s t : lp_setup_context) (hr : lp_setup_bind_framebuffer h fb s = some t)
    (hi : sm_inv s) : sm_inv t := by
  unfold lp_setup_bind_framebuffer at hr
  cases h1 : set_scene_state h s setup_state.SETUP_FLUSHED with
  | none => simp [h1] at hr
  | some x =>
    obtain ⟨b, s1⟩ := x
    simp only [h1, Option.some.injEq] at hr
    rw [← hr]
    exact set_scene_state_inv h s s1 _ b h1 hi

theorem try_update_scene_state_inv (h : lp_headers) (s t : lp_setup_context) (b : Bool)
    (hr : try_update_scene_state h s = some (b, t)) (hi : sm_inv s) : sm_inv t :=
  sm_inv_of_keeps (try_update_scene_state_keeps h s t b hr).1.base hi

theorem lp_setup_update_state_inv (h : lp_headers) (u : Bool) (s t : lp_setup_context)
    (b : Bool) (hr : lp_setup_update_state h u s = some (b, t)) (hi : sm_inv s) :
    sm_inv t := by
  unfold lp_setup_update_state at hr
  split at hr
  · simp at hr
  · rename_i s1 h1
    simp only [Option.some.injEq, Prod.mk.injEq] at hr
    rw [← hr.2]
    split at h1
    · exact set_scene_state_inv h s s1 _ false h1 hi
    · simp at h1
  · rename_i s1 h1
    have hi1 : sm_inv s1 := by
      split at h1
      · exact set_scene_state_inv h s s1 _ true h1 hi
      · simp only [Option.some.injEq, Prod.mk.injEq, true_and] at h1
        rw [← h1]
        exact hi
    split at hr
    · split at hr
      · simp at hr
      · rename_i s2 h2
        simp only [Option.some.injEq, Prod.mk.injEq] at hr
        rw [← hr.2]
        exact try_update_scene_state_inv h s1 s2 true h2 hi1
      · rename_i s2 h2
        have hi2 := try_update_scene_state_inv h s1 s2 false h2 hi1
        split at hr
        · simp at hr
        · rename_i s3 h3
          simp only [Option.some.injEq, Prod.mk.injEq] at hr
          rw [← hr.2]
          exact set_scene_state_inv h s2 s3 _ false h3 hi2
        · rename_i s3 h3
          have hi3 := set_scene_state_inv h s2 s3 _ true h3 hi2
          split at hr
          · simp at hr
          · rename_i s4 h4
            simp only [Option.some.injEq, Prod.mk.injEq] at hr
            rw [← hr.2]
            exact set_scene_state_inv h s3 s4 _ false h4 hi3
          · rename_i s4 h4
            have hi4 := set_scene_state_inv h s3 s4 _ true h4 hi3
            split at hr
            · simp only [Option.some.injEq, Prod.mk.injEq] at hr
              rw [← hr.2]
              exact hi4
            · exact try_update_scene_state_inv h s4 t b hr hi4
    · simp only [Option.some.injEq, Prod.mk.injEq] at hr
      rw [← hr.2]
      exact hi1

theorem lp_setup_flush_and_restart_inv (h : lp_headers) (s t : lp_setup_context) (b : Bool)
    (hr : lp_setup_flush_and_restart h s = some (b, t)) (hi : sm_inv s) : sm_inv t := by
  unfold lp_setup_flush_and_restart at hr
  split at hr
  · simp at hr
  · rename_i s1 h1
    simp only [Option.some.injEq, Prod.mk.injEq] at hr
    rw [← hr.2]
    exact set_scene_state_inv h s s1 _ false h1 hi
  · rename_i s1 h1
    exact lp_setup_update_state_inv h true s1 t b hr (set_scene_state_inv h s s1 _ true h1 hi)

theorem sm_inv_mark_had_queries (x : lp_setup_context) (hi : sm_inv x) :
    sm_inv (match x.scene with
      | some i => with_scene i (fun sc => { sc with had_queries := true }) x
      | none => x) := by
  split
  · rename_i i _
    exact sm_inv_of_keeps
      (keeps_with_scene i (fun sc => { sc with had_queries := true }) (fun _ => rfl) x) hi
  · exact hi

theorem bin_query_cmd_inv (h : lp_headers) (cmd : lp_rast_cmd) (sl : Nat)
    (s t : lp_setup_context) (b : Bool) (hr : bin_query_cmd h cmd sl s = some (b, t))
    (hi : sm_inv s) : sm_inv t := by
  unfold bin_query_cmd at hr
  simp only at hr
  have h1 := sm_inv_of_keeps (keeps_bin_everywhere sl cmd s) hi
  generalize lp_scene_bin_everywhere sl cmd s = r at hr h1
  obtain ⟨ok, s1⟩ := r
  cases ok with
  | true =>
    simp only [if_true, Option.some.injEq, Prod.mk.injEq] at hr
    rw [← hr.2]
    exact sm_inv_mark_had_queries s1 h1
  | false =>
    simp only [Bool.false_eq_true, if_false] at hr
    split at hr
    · simp at hr
    · rename_i s2 h2
      simp only [Option.some.injEq, Prod.mk.injEq] at hr
      rw [← hr.2]
      exact lp_setup_flush_and_restart_inv h s1 s2 false h2 h1
    · rename_i s2 h2
      have hi2 := lp_setup_flush_and_restart_inv h s1 s2 true h2 h1
      split at hr
      · simp at hr
      · rename_i sl1 _
        split at hr
        · have h3 := sm_inv_of_keeps (keeps_bin_everywhere sl1 cmd s2) hi2
          generalize lp_scene_bin_everywhere sl1 cmd s2 = r1 at hr h3
          obtain ⟨ok1, s3⟩ := r1
          cases ok1 with
          | true =>
            simp only [if_true, Option.some.injEq, Prod.mk.injEq] at hr
            rw [← hr.2]
            exact sm_inv_mark_had_queries s3 h3
          | false =>
            simp only [Bool.false_eq_true, if_false, Option.some.injEq, Prod.mk.injEq] at hr
            rw [← hr.2]
            exact h3
        · simp at hr

theorem remove_active_query_inv (pq : llvmpipe_query) (s : lp_setup_context) (hi : sm_inv s) :
    sm_inv (remove_active_query pq s) := by
  unfold remove_active_query
  split
  · simp only
    split
    · exact hi
    · exact hi
  · exact hi

theorem lp_setup_begin_query_inv (h : lp_headers) (pq : llvmpipe_query)
    (s t : lp_setup_context) (hr : lp_setup_begin_query h pq s = some t) (hi : sm_inv s) :
    sm_inv t := by
  unfold lp_setup_begin_query at hr
  split at hr
  · simp at hr
  · rename_i b1 s1 h1
    have hi1 := set_scene_state_inv h s s1 _ b1 h1 hi
    split at hr
    · simp only [Option.some.injEq] at hr
      rw [← hr]
      exact hi1
    · split at hr
      · simp only [Option.some.injEq] at hr
        rw [← hr]
        exact hi1
      · simp only at hr
        have hi2 : sm_inv { s1 with
            active_queries := s1.active_queries.set s1.active_binned_queries (some pq.ptr),
            active_binned_queries := s1.active_binned_queries + 1 } := hi1
        split at hr
        · simp only [Option.some.injEq] at hr
          rw [← hr]
          exact hi2
        · rename_i sl _
          split at hr
          · cases h3 : bin_query_cmd h (lp_rast_cmd.LP_RAST_OP_BEGIN_QUERY pq.ptr) sl
                { s1 with
                  active_queries := s1.active_queries.set s1.active_binned_queries (some pq.ptr),
                  active_binned_queries := s1.active_binned_queries + 1 } with
            | none => simp [h3] at hr
            | some x =>
              obtain ⟨b3, s3⟩ := x
              simp only [h3, Option.map_some', Option.some.injEq] at hr
              rw [← hr]
              exact bin_query_cmd_inv h _ sl _ s3 b3 h3 hi2
          · simp at hr

theorem lp_setup_end_query_inv (h : lp_headers) (pq : llvmpipe_query)
    (s t : lp_setup_context) (hr : lp_setup_end_query h pq s = some t) (hi : sm_inv s) :
    sm_inv t := by
  unfold lp_setup_end_query at hr
  split at hr
  · simp at hr
  · rename_i b1 s1 h1
    have hi1 := set_scene_state_inv h s s1 _ b1 h1 hi
    split at hr
    · rename_i sl _
      split at hr
      · simp only at hr
        have hi2 : sm_inv (record (event.fence_reference pq.ptr sl) s1) := hi1
        split at hr
        · split at hr
          · simp at hr
          · rename_i b3 s3 h3
            simp only [Option.some.injEq] at hr
            rw [← hr]
            exact remove_active_query_inv pq s3 (bin_query_cmd_inv h _ sl _ s3 b3 h3 hi2)
        · simp only [Option.some.injEq] at hr
          rw [← hr]
          exact remove_active_query_inv pq _ hi2
      · simp at hr
    · simp only [Option.some.injEq] at hr
      rw [← hr]
      exact remove_active_query_inv pq _ hi1

theorem apply_op_inv (h : lp_headers) (op : setup_op) (s t : lp_setup_context)
    (hr : apply_op h op s = some t) (hi : sm_inv s) : sm_inv t := by
  cases op with
  | clear color depth stencil flags => exact lp_setup_clear_inv h _ _ _ _ s t hr hi
  | flush => exact lp_setup_flush_inv h s t hr hi
  | bind_framebuffer fb => exact lp_setup_bind_framebuffer_inv h fb s t hr hi
  | update_state u =>
    simp only [apply_op] at hr
    cases h1 : lp_setup_update_state h u s with
    | none => simp [h1] at hr
    | some x =>
      obtain ⟨b, s1⟩ := x
      simp only [h1, Option.map_some', Option.some.injEq] at hr
      rw [← hr]
      exact lp_setup_update_state_inv h u s s1 b h1 hi
  | begin_query pq => exact lp_setup_begin_query_inv h pq s t hr hi
  | end_query pq => exact lp_setup_end_query_inv h pq s t hr hi
  | flush_and_restart =>
    simp only [apply_op] at hr
    cases h1 : lp_setup_flush_and_restart h s with
    | none => simp [h1] at hr
    | some x =>
      obtain ⟨b, s1⟩ := x
      simp only [h1, Option.map_some', Option.some.injEq] at hr
      rw [← hr]
      exact lp_setup_flush_and_restart_inv h s s1 b h1 hi
  | rast_signal slot =>
    simp only [apply_op, Option.some.injEq] at hr
    rw [← hr]
    unfold sm_inv at *
    exact hi

theorem run_ops_inv (h : lp_headers) (ops : List setup_op) (s t : lp_setup_context)
    (hr : run_ops h ops s = some t) (hi : sm_inv s) : sm_inv t := by
  induction ops generalizing s with
  | nil =>
    simp only [run_ops, Option.some.injEq] at hr
    rw [← hr]
    exact hi
  | cons op rest ih =>
    unfold run_ops at hr
    cases h1 : apply_op h op s with
    | none => simp [h1] at hr
    | some s1 =>
      simp only [h1] at hr
      exact ih s1 hr (apply_op_inv h op s s1 h1 hi)

theorem lp_setup_create_inv (h : lp_headers) (num_threads : Nat) (pipe : llvmpipe_context)
    (oracle : List Bool) (s0 : lp_setup_context)
    (hc : lp_setup_create h num_threads pipe oracle = some s0) : sm_inv s0 := by
  unfold lp_setup_create at hc
  simp only at hc
  split at hc
  · split at hc
    · split at hc
      · simp at hc
      · rename_i scene s2 hsc
        simp only [Option.some.injEq] at hc
        have h2 := lp_scene_create_spec
          (take_oracle { (take_oracle (zero_context h pipe oracle)).2 with
            num_threads := num_threads }).2
        rw [hsc] at h2
        obtain ⟨hp, _, _, hscene, _⟩ := h2
        obtain ⟨p1, p2, _⟩ := pool_only_fields hp
        have hto1 := keeps_take_oracle { (take_oracle (zero_context h pipe oracle)).2 with
            num_threads := num_threads }
        have hto0 := keeps_take_oracle (zero_context h pipe oracle)
        rw [← hc]
        unfold sm_inv
        simp only [] at hscene p1 p2 ⊢
        rw [hscene, p1, p2, hto1.scene, hto1.state, hto1.clear]
        simp only []
        rw [hto0.scene, hto0.state, hto0.clear]
        simp [zero_context]
    · simp at hc
  · simp at hc

/-! ## The scene pool: provenance of the selected scene -/

/-- Every slot below the first free one is busy: it has an unsignalled fence. -/
theorem first_free_busy (l : List lp_scene) (j : Nat) (hj : j < first_free l) :
    ∃ sc f, l.get? j = some sc ∧ sc.fence = some f ∧ lp_fence_signalled f = false := by
  induction l generalizing j with
  | nil => simp [first_free] at hj
  | cons sc rest ih =>
    unfold first_free at hj
    split at hj
    · omega
    · rename_i hfree
      cases j with
      | zero =>
        unfold scene_free at hfree
        cases hf : sc.fence with
        | none => simp [hf] at hfree
        | some f =>
          simp only [hf] at hfree
          exact ⟨sc, f, rfl, hf, by simpa using hfree⟩
      | succ j1 =>
        obtain ⟨c, f, h1, h2, h3⟩ := ih j1 (by omega)
        exact ⟨c, f, by simpa using h1, h2, h3⟩

/-- When every slot is busy the scan changes nothing and stops at the pool size. -/
theorem scan_scenes_all_busy (i : Nat) (l : List lp_scene) (tr : List event)
    (hb : first_free l = l.length) : scan_scenes i l tr = (i + l.length, l, tr) := by
  induction l generalizing i with
  | nil => rfl
  | cons sc rest ih =>
    unfold first_free at hb
    split at hb
    · simp at hb
    · rename_i hfree
      simp only [List.length_cons, Nat.add_right_cancel_iff] at hb
      unfold scene_free at hfree
      unfold scan_scenes
      cases hf : sc.fence with
      | none => simp [hf] at hfree
      | some f =>
        simp only [hf] at hfree
        simp only [hfree, Bool.false_eq_true, if_false, ih (i + 1) hb, List.length_cons]
        congr 1
        omega

/-- What the scan does: it appends at most the reclaim of the slot where it stops, leaves
every other slot alone, and the slot where it stops either had no fence (and is untouched)
or had a signalled fence and was reclaimed. -/
theorem scan_scenes_prov (i : Nat) (l : List lp_scene) (tr : List event) :
    ∃ evs, (scan_scenes i l tr).2.2 = tr ++ evs ∧
      (∀ e ∈ evs, e = event.scene_end_rasterization (i + first_free l)) ∧
      (∀ j, j ≠ first_free l → (scan_scenes i l tr).2.1.get? j = l.get? j) ∧
      (∀ old, l.get? (first_free l) = some old →
        (old.fence = none ∧ (scan_scenes i l tr).2.1.get? (first_free l) = some old) ∨
        (∃ f, old.fence = some f ∧ lp_fence_signalled f = true ∧
          event.scene_end_rasterization (i + first_free l) ∈ evs)) := by
  induction l generalizing i with
  | nil => exact ⟨[], by simp [scan_scenes], by simp, by simp [scan_scenes], by simp⟩
  | cons sc rest ih =>
    unfold scan_scenes first_free scene_free
    cases hf : sc.fence with
    | none =>
      refine ⟨[], by simp, by simp, by simp, ?_⟩
      intro old hold
      simp only [if_true, List.get?_cons_zero, Option.some.injEq] at hold
      subst hold
      exact Or.inl ⟨hf, by simp⟩
    | some f =>
      cases hs : lp_fence_signalled f with
      | true =>
        refine ⟨[event.scene_end_rasterization i], by simp [hs], by simp [hs], ?_, ?_⟩
        · intro j hj
          simp only [hs, if_true] at hj ⊢
          cases j with
          | zero => exact absurd rfl hj
          | succ j1 => simp
        · intro old hold
          simp only [hs, if_true, List.get?_cons_zero, Option.some.injEq] at hold
          subst hold
          exact Or.inr ⟨f, hf, hs, by simp [hs]⟩
      | false =>
        obtain ⟨evs, h1, h2, h3, h4⟩ := ih (i + 1)
        have hidx : i + (first_free rest + 1) = i + 1 + first_free rest := by omega
        refine ⟨evs, by simpa [hs] using h1, ?_, ?_, ?_⟩
        · intro e he
          simp only [hs, Bool.false_eq_true, if_false, hidx]
          exact h2 e he
        · intro j hj
          simp only [hs, Bool.false_eq_true, if_false] at hj ⊢
          cases j with
          | zero => simp
          | succ j1 =>
            have := h3 j1 (by omega)
            simpa using this
        · intro old hold
          simp only [hs, Bool.false_eq_true, if_false, List.get?_cons_succ] at hold ⊢
          rcases h4 old hold with ⟨a, b⟩ | ⟨g, a, b, c⟩
          · exact Or.inl ⟨a, by simpa using b⟩
          · exact Or.inr ⟨g, a, b, by rw [hidx]; exact c⟩

/-- What the blocking path does: it selects slot 0, and either slot 0 had no fence and
nothing happens, or its fence is waited for and the scene is then reclaimed. -/
theorem wait_empty_scene_prov (s t : lp_setup_context) (i : Nat)
    (hr : lp_setup_wait_empty_scene s = some (i, t)) :
    i = 0 ∧ t.oracle = s.oracle ∧ ∃ sc0, s.scenes.get? 0 = some sc0 ∧
      ((sc0.fence = none ∧ t = s) ∨
       (∃ f, sc0.fence = some f ∧
         t.trace = s.trace ++ [event.fence_wait 0, event.scene_end_rasterization 0])) := by
  unfold lp_setup_wait_empty_scene at hr
  split at hr
  · simp at hr
  · rename_i sc0 rest hsc
    split at hr
    · rename_i f hf
      simp only [Option.some.injEq, Prod.mk.injEq] at hr
      obtain ⟨hi, ht⟩ := hr
      subst ht
      exact ⟨hi.symm, rfl, sc0, by simp [hsc], Or.inr ⟨f, hf, by simp [record, with_scene]⟩⟩
    · rename_i hf
      simp only [Option.some.injEq, Prod.mk.injEq] at hr
      obtain ⟨hi, ht⟩ := hr
      subst ht
      exact ⟨hi.symm, rfl, sc0, by simp [hsc], Or.inl ⟨hf, rfl⟩⟩

theorem came_free_slot0 (l l1 : List lp_scene) (evs1 evs : List event)
    (h3 : ∀ j, j ≠ first_free l → l1.get? j = l.get? j)
    (h4 : ∀ old, l.get? (first_free l) = some old →
      (old.fence = none ∧ l1.get? (first_free l) = some old) ∨
      (∃ f, old.fence = some f ∧ lp_fence_signalled f = true ∧
        event.scene_end_rasterization (0 + first_free l) ∈ evs1))
    (hlen : l1.length = l.length) (sc0 : lp_scene) (h0 : l1.get? 0 = some sc0)
    (hsub : ∀ e ∈ evs1, e ∈ evs)
    (hw : sc0.fence = none ∨
      (event.fence_wait 0 ∈ evs ∧ event.scene_end_rasterization 0 ∈ evs)) :
    came_free l 0 evs := by
  have hpos : 0 < l.length := by
    rw [← hlen]
    by_contra hc
    have : l1.get? 0 = none := List.get?_eq_none.mpr (by omega)
    rw [this] at h0
    exact Option.noConfusion h0
  obtain ⟨old, hold⟩ : ∃ old, l.get? 0 = some old := by
    cases hg : l.get? 0 with
    | none =>
      have := List.get?_eq_none.mp hg
      omega
    | some old => exact ⟨old, rfl⟩
  right
  refine ⟨old, hold, ?_⟩
  by_cases hk : first_free l = 0
  · rw [hk] at h4
    rcases h4 old hold with ⟨a, _⟩ | ⟨f, a, b, c⟩
    · exact Or.inl a
    · exact Or.inr ⟨f, a, Or.inl b, hsub _ (by simpa using c)⟩
  · have h5 := h3 0 (fun e => hk e.symm)
    rw [h0, hold] at h5
    simp only [Option.some.injEq] at h5
    subst h5
    rcases hw with a | ⟨a, b⟩
    · exact Or.inl a
    · cases hf : sc0.fence with
      | none => exact Or.inl rfl
      | some f => exact Or.inr ⟨f, rfl, Or.inr a, b⟩

/-- The provenance of the scene selected by `lp_setup_get_empty_scene`, and when the call
tries to allocate: only if the scan found no free slot below capacity; the pool grows by one
scene exactly when that allocation succeeded. -/
theorem get_empty_scene_prov (h : lp_headers) (s t : lp_setup_context)
    (hr : lp_setup_get_empty_scene h s = some t) :
    ∃ i evs, t.scene = some i ∧ t.trace = s.trace ++ evs ∧ came_free s.scenes i evs ∧
      (∀ ok, event.scene_create ok ∈ evs →
        first_free s.scenes = s.scenes.length ∧ s.scenes.length + 1 ≤ h.MAX_SCENES) ∧
      (t.scenes.length = s.scenes.length ∧ event.scene_create true ∉ evs ∨
       t.scenes.length = s.scenes.length + 1 ∧ event.scene_create true ∈ evs) := by
  unfold lp_setup_get_empty_scene at hr
  have hidx := scan_scenes_index 0 s.scenes s.trace
  have hlen := scan_scenes_length 0 s.scenes s.trace
  obtain ⟨evs1, p1, p2, p3, p4⟩ := scan_scenes_prov 0 s.scenes s.trace
  have hle := first_free_le s.scenes
  have hnc : ∀ ok, event.scene_create ok ∉ evs1 := by
    intro ok hm
    have := p2 _ hm
    exact event.noConfusion this
  generalize scan_scenes 0 s.scenes s.trace = r at hr hidx hlen p1 p3 p4
  obtain ⟨k, l, tr⟩ := r
  simp only [] at hr hidx hlen p1 p3 p4
  simp only [Nat.zero_add] at hidx
  subst hidx
  subst p1
  cases hc : choose_scene h (first_free s.scenes)
      { s with scenes := l, trace := s.trace ++ evs1 } with
  | none => simp [hc] at hr
  | some x =>
    obtain ⟨i, s1⟩ := x
    simp only [hc] at hr
    split at hr
    · simp only [Option.some.injEq] at hr
      subst hr
      refine ⟨i, ?_⟩
      unfold choose_scene at hc
      split at hc
      · obtain ⟨_, _, _, hl1⟩ := wait_empty_scene_some _ s1 i hc
        obtain ⟨hi, _, sc0, hg, hw⟩ := wait_empty_scene_prov _ s1 i hc
        subst hi
        simp only [] at hg hl1
        rcases hw with ⟨hf, ht⟩ | ⟨f, hf, ht⟩
        · subst ht
          refine ⟨evs1 ++ [event.scene_begin_binning 0], rfl, by simp [record, with_scene], ?_,
            ?_, ?_⟩
          · exact came_free_slot0 s.scenes l evs1 _ p3 p4 hlen sc0 hg
              (fun e he => by simp [he]) (Or.inl hf)
          · intro ok hm
            simp only [List.mem_append, List.mem_singleton] at hm
            rcases hm with hm | hm
            · exact absurd hm (hnc ok)
            · exact event.noConfusion hm
          · left
            refine ⟨by simp [record, with_scene, modify_scene_length, hlen], ?_⟩
            intro hm
            simp only [List.mem_append, List.mem_singleton] at hm
            rcases hm with hm | hm
            · exact absurd hm (hnc true)
            · exact event.noConfusion hm
        · refine ⟨evs1 ++ [event.fence_wait 0, event.scene_end_rasterization 0,
            event.scene_begin_binning 0], rfl, ?_, ?_, ?_, ?_⟩
          · simp only [record, with_scene, ht]
            simp
          · exact came_free_slot0 s.scenes l evs1 _ p3 p4 hlen sc0 hg
              (fun e he => by simp [he]) (Or.inr ⟨by simp, by simp⟩)
          · intro ok hm
            simp only [List.mem_append, List.mem_cons, List.mem_singleton] at hm
            rcases hm with hm | hm | hm | hm | hm
            · exact absurd hm (hnc ok)
            · exact event.noConfusion hm
            · exact event.noConfusion hm
            · exact event.noConfusion hm
            · simp at hm
          · left
            refine ⟨by simp [record, with_scene, modify_scene_length, hl1, hlen], ?_⟩
            intro hm
            simp only [List.mem_append, List.mem_cons, List.mem_singleton] at hm
            rcases hm with hm | hm | hm | hm | hm
            · exact absurd hm (hnc true)
            · exact event.noConfusion hm
            · exact event.noConfusion hm
            · exact event.noConfusion hm
            · simp at hm
      · rename_i hncap
        split at hc
        · rename_i hk
          have hcond : first_free s.scenes = s.scenes.length ∧
              s.scenes.length + 1 ≤ h.MAX_SCENES := by
            simp only [num_active_scenes, hlen] at hk hncap
            exact ⟨hk, by omega⟩
          have hcr : ∀ (o : Option lp_scene) (s2 : lp_setup_context),
              lp_scene_create { s with scenes := l, trace := s.trace ++ evs1 } = (o, s2) →
              s2.scenes = l ∧ s2.trace = s.trace ++ evs1 ++ [event.scene_create o.isSome] := by
            intro o s2 ho
            unfold lp_scene_create take_oracle record at ho
            cases hor : s.oracle with
            | nil =>
              simp only [hor, if_true, Prod.mk.injEq] at ho
              obtain ⟨ho1, ho2⟩ := ho
              subst ho1; subst ho2
              exact ⟨rfl, rfl⟩
            | cons b rest =>
              simp only [hor, Prod.mk.injEq] at ho
              obtain ⟨ho1, ho2⟩ := ho
              subst ho1; subst ho2
              cases b <;> exact ⟨rfl, rfl⟩
          cases hcs : lp_scene_create { s with scenes := l, trace := s.trace ++ evs1 } with
          | mk o s2 =>
            obtain ⟨c1, c2⟩ := hcr o s2 hcs
            rw [hcs] at hc
            cases o with
            | none =>
              simp only at hc
              obtain ⟨_, _, _, hl1⟩ := wait_empty_scene_some _ s1 i hc
              obtain ⟨hi, _, sc0, hg, hw⟩ := wait_empty_scene_prov _ s1 i hc
              subst hi
              rw [c1] at hg hl1
              rcases hw with ⟨hf, ht⟩ | ⟨f, hf, ht⟩
              · subst ht
                refine ⟨evs1 ++ [event.scene_create false, event.scene_begin_binning 0], rfl,
                  ?_, ?_, fun _ _ => hcond, ?_⟩
                · simp only [record, with_scene, c2]
                  simp
                · exact came_free_slot0 s.scenes l evs1 _ p3 p4 hlen sc0 hg
                    (fun e he => by simp [he]) (Or.inl hf)
                · left
                  refine ⟨by simp [record, with_scene, modify_scene_length, c1, hlen], ?_⟩
                  intro hm
                  simp only [List.mem_append, List.mem_cons, List.mem_singleton] at hm
                  rcases hm with hm | hm | hm | hm
                  · exact absurd hm (hnc true)
                  · simp at hm
                  · exact event.noConfusion hm
                  · simp at hm
              · refine ⟨evs1 ++ [event.scene_create false, event.fence_wait 0,
                  event.scene_end_rasterization 0, event.scene_begin_binning 0], rfl, ?_, ?_,
                  fun _ _ => hcond, ?_⟩
                · simp only [record, with_scene, ht, c2]
                  simp
                · exact came_free_slot0 s.scenes l evs1 _ p3 p4 hlen sc0 hg
                    (fun e he => by simp [he]) (Or.inr ⟨by simp, by simp⟩)
                · left
                  refine ⟨by simp [record, with_scene, modify_scene_length, hl1, hlen], ?_⟩
                  intro hm
                  simp only [List.mem_append, List.mem_cons, List.mem_singleton] at hm
                  rcases hm with hm | hm | hm | hm | hm | hm
                  · exact absurd hm (hnc true)
                  · simp at hm
                  · exact event.noConfusion hm
                  · exact event.noConfusion hm
                  · exact event.noConfusion hm
                  · simp at hm
            | some scn =>
              simp only [Option.some.injEq, Prod.mk.injEq] at hc
              obtain ⟨hi, ht⟩ := hc
              subst ht
              subst hi
              refine ⟨evs1 ++ [event.scene_create true, event.scene_begin_binning
                (num_active_scenes s2)], rfl, ?_, ?_, fun _ _ => hcond, ?_⟩
              · simp only [record, with_scene, c2]
                simp
              · left
                refine ⟨?_, by simp⟩
                simp [num_active_scenes, c1, hlen]
              · right
                exact ⟨by simp [record, with_scene, modify_scene_length, c1, hlen], by simp⟩
        · rename_i hnk
          simp only [Option.some.injEq, Prod.mk.injEq] at hc
          obtain ⟨hi, ht⟩ := hc
          subst ht
          subst hi
          refine ⟨evs1 ++ [event.scene_begin_binning (first_free s.scenes)], rfl,
            by simp [record, with_scene], ?_, ?_, ?_⟩
          · have hlt : first_free s.scenes < s.scenes.length := by
              simp only [num_active_scenes, hlen] at hnk
              omega
            obtain ⟨old, hold⟩ : ∃ old, s.scenes.get? (first_free s.scenes) = some old := by
              cases hg : s.scenes.get? (first_free s.scenes) with
              | none =>
                have := List.get?_eq_none.mp hg
                omega
              | some old => exact ⟨old, rfl⟩
            right
            refine ⟨old, hold, ?_⟩
            rcases p4 old hold with ⟨a, _⟩ | ⟨f, a, b, c⟩
            · exact Or.inl a
            · exact Or.inr ⟨f, a, Or.inl b, by simp only [Nat.zero_add] at c; simp [c]⟩
          · intro ok hm
            simp only [List.mem_append, List.mem_singleton] at hm
            rcases hm with hm | hm
            · exact absurd hm (hnc ok)
            · exact event.noConfusion hm
          · left
            refine ⟨by simp [record, with_scene, modify_scene_length, hlen], ?_⟩
            intro hm
            simp only [List.mem_append, List.mem_singleton] at hm
            rcases hm with hm | hm
            · exact absurd hm (hnc true)
            · exact event.noConfusion hm
    · simp at hr

/-- A non-empty pool whose slots are all busy starts with a scene that has a fence. -/
theorem busy_pool_head (l : List lp_scene) (hne : l ≠ []) (hb : first_free l = l.length) :
    ∃ sc0 rest f, l = sc0 :: rest ∧ sc0.fence = some f := by
  cases l with
  | nil => exact absurd rfl hne
  | cons sc0 rest =>
    obtain ⟨c, f, h1, h2, _⟩ := first_free_busy (sc0 :: rest) 0 (by rw [hb]; simp)
    simp only [List.get?_cons_zero, Option.some.injEq] at h1
    subst h1
    exact ⟨sc0, rest, f, rfl, h2⟩

/-- At capacity with every slot busy: nothing is allocated, the fence of slot 0 is waited
for, the scene is reclaimed and selected. -/
theorem get_empty_scene_at_capacity_busy (h : lp_headers) (s : lp_setup_context)
    (hne : s.scenes ≠ []) (hb : first_free s.scenes = s.scenes.length)
    (hcap : h.MAX_SCENES < s.scenes.length + 1) :
    ∃ t sc, lp_setup_get_empty_scene h s = some t ∧ t.scene = some 0 ∧
      t.scenes.length = s.scenes.length ∧ t.oracle = s.oracle ∧
      t.trace = s.trace ++ [event.fence_wait 0, event.scene_end_rasterization 0,
        event.scene_begin_binning 0] ∧
      t.scenes.get? 0 = some sc ∧ sc.fence = none := by
  obtain ⟨sc0, rest, f, hsc, hf⟩ := busy_pool_head s.scenes hne hb
  have hcap1 : h.MAX_SCENES < rest.length + 1 + 1 := by
    rw [hsc] at hcap
    simpa using hcap
  unfold lp_setup_get_empty_scene
  rw [scan_scenes_all_busy 0 _ _ hb]
  simp only [choose_scene, num_active_scenes, gt_iff_lt, List.length_cons, hcap1, if_true,
    lp_setup_wait_empty_scene, hsc, hf]
  simp only [record, with_scene, modify_scene, List.length_cons, Nat.zero_lt_succ, if_true]
  exact ⟨_, _, rfl, rfl, rfl, rfl, by simp, rfl, rfl⟩

/-- Below capacity with every slot busy and a failing `lp_scene_create`: the pool keeps its
size, the fence of slot 0 is waited for, the scene is reclaimed and selected. -/
theorem get_empty_scene_create_fails (h : lp_headers) (s : lp_setup_context)
    (o : List Bool) (hne : s.scenes ≠ []) (hb : first_free s.scenes = s.scenes.length)
    (hcap : s.scenes.length + 1 ≤ h.MAX_SCENES) (ho : s.oracle = false :: o) :
    ∃ t sc, lp_setup_get_empty_scene h s = some t ∧ t.scene = some 0 ∧
      t.scenes.length = s.scenes.length ∧ t.oracle = o ∧
      t.trace = s.trace ++ [event.scene_create false, event.fence_wait 0,
        event.scene_end_rasterization 0, event.scene_begin_binning 0] ∧
      t.scenes.get? 0 = some sc ∧ sc.fence = none := by
  obtain ⟨sc0, rest, f, hsc, hf⟩ := busy_pool_head s.scenes hne hb
  have hncap : ¬ (h.MAX_SCENES < rest.length + 1 + 1) := by
    rw [hsc] at hcap
    simp only [List.length_cons] at hcap
    omega
  unfold lp_setup_get_empty_scene
  rw [scan_scenes_all_busy 0 _ _ hb]
  simp only [choose_scene, num_active_scenes, gt_iff_lt, List.length_cons, hncap, if_false,
    Nat.zero_add, if_true, lp_scene_create, take_oracle, ho, Bool.false_eq_true,
    lp_setup_wait_empty_scene, record, hsc, hf]
  simp only [record, with_scene, modify_scene, List.length_cons, Nat.zero_lt_succ, if_true]
  exact ⟨_, _, rfl, rfl, rfl, rfl, by simp, rfl, rfl⟩

/-! ## Replay of the accumulated clears -/

theorem scene_bins_of_bins_of {s t : lp_setup_context} (hb : bins_of t = bins_of s) (sl : Nat) :
    scene_bins t sl = scene_bins s sl := by
  unfold scene_bins
  have h1 : (bins_of t).get? sl = (bins_of s).get? sl := by rw [hb]
  simp only [bins_of, List.get?_eq_getElem?, List.getElem?_map] at h1
  simp only [List.get?_eq_getElem?]
  rw [h1]

theorem bin_everywhere_loop_true (cmd : lp_rast_cmd) (bins : List (List lp_rast_cmd))
    (o : List Bool) (hr : (bin_everywhere_loop cmd bins o).1 = true) :
    (bin_everywhere_loop cmd bins o).2.1 = bins.map (fun b => b ++ [cmd]) := by
  induction bins generalizing o with
  | nil => cases o <;> rfl
  | cons b bs ih =>
    cases o with
    | nil =>
      simp only [bin_everywhere_loop] at hr ⊢
      rw [ih [] hr]
      rfl
    | cons x o1 =>
      cases x with
      | false => simp [bin_everywhere_loop] at hr
      | true =>
        simp only [bin_everywhere_loop] at hr ⊢
        rw [ih o1 hr]
        rfl

/-- A successful `lp_scene_bin_everywhere` appends the command to every bin of the scene. -/
theorem bin_everywhere_bins (sl : Nat) (cmd : lp_rast_cmd) (s : lp_setup_context)
    (hr : (lp_scene_bin_everywhere sl cmd s).1 = true) :
    scene_bins (lp_scene_bin_everywhere sl cmd s).2 sl =
      (scene_bins s sl).map (fun b => b ++ [cmd]) := by
  unfold lp_scene_bin_everywhere at hr ⊢
  cases hg : s.scenes.get? sl with
  | none =>
    simp only []
    unfold scene_bins
    rw [hg]
    rfl
  | some sc =>
    simp only [hg] at hr ⊢
    unfold scene_bins
    simp only [with_scene]
    rw [modify_scene_get, hg]
    simp only [Option.map_some', Option.getD_some]
    exact bin_everywhere_loop_true cmd sc.bins s.oracle hr

theorem land_color_bit_zero (flags c : Nat) (hz : flags &&& PIPE_CLEAR_COLOR = 0)
    (hc : c < PIPE_MAX_COLOR_BUFS) : flags &&& (1 <<< (2 + c)) = 0 := by
  have key : ∀ m : Nat, PIPE_CLEAR_COLOR &&& m = m → flags &&& m = 0 := by
    intro m hm
    rw [← hm, ← Nat.land_assoc, hz]
    simp
  unfold PIPE_MAX_COLOR_BUFS at hc
  interval_cases c <;> exact key _ (by decide)

theorem color_clear_cmds_congr {s t : lp_setup_context} (hc : t.clear = s.clear)
    (cbuf n : Nat) : color_clear_cmds t cbuf n = color_clear_cmds s cbuf n := by
  unfold color_clear_cmds
  rw [hc]

theorem color_clear_cmds_set (s : lp_setup_context) (cbuf n : Nat)
    (hbit : s.clear.flags &&& (1 <<< (2 + cbuf)) ≠ 0) :
    color_clear_cmds s cbuf (n + 1) =
      lp_rast_cmd.LP_RAST_OP_CLEAR_COLOR cbuf (s.clear.color_val.getD cbuf 0) ::
        color_clear_cmds s (cbuf + 1) n := by
  unfold color_clear_cmds
  rw [List.range'_succ, List.filter_cons_of_pos (by simpa using hbit), List.map_cons]

theorem color_clear_cmds_unset (s : lp_setup_context) (cbuf n : Nat)
    (hbit : ¬ s.clear.flags &&& (1 <<< (2 + cbuf)) ≠ 0) :
    color_clear_cmds s cbuf (n + 1) = color_clear_cmds s (cbuf + 1) n := by
  unfold color_clear_cmds
  rw [List.range'_succ, List.filter_cons_of_neg (by simpa using hbit)]

/-- The successful colour loop appends exactly the clear-colour commands of its range. -/
theorem begin_binning_clear_color_bins (sl n cbuf : Nat) (s : lp_setup_context)
    (hr : (begin_binning_clear_color sl n cbuf s).1 = true) :
    scene_bins (begin_binning_clear_color sl n cbuf s).2 sl =
      (scene_bins s sl).map (fun b => b ++ color_clear_cmds s cbuf n) := by
  induction n generalizing cbuf s with
  | zero => simp [begin_binning_clear_color, color_clear_cmds]
  | succ n ih =>
    unfold begin_binning_clear_color at hr ⊢
    split at hr
    · rename_i hbit
      rw [if_pos hbit]
      have h1 := keeps_bins_lp_scene_alloc sl s
      generalize lp_scene_alloc sl s = r at hr h1 ⊢
      obtain ⟨o, s1⟩ := r
      cases o with
      | none => simp at hr
      | some p =>
        simp only at hr ⊢
        have hcl : s1.clear = s.clear := h1.base.clear
        cases hb : (lp_scene_bin_everywhere sl
            (lp_rast_cmd.LP_RAST_OP_CLEAR_COLOR cbuf (s1.clear.color_val.getD cbuf 0)) s1).1 with
        | false =>
          rw [hb] at hr
          simp at hr
        | true =>
          simp only [hb, if_true] at hr ⊢
          have h2 := bin_everywhere_bins sl _ s1 hb
          have hk := keeps_bin_everywhere sl
            (lp_rast_cmd.LP_RAST_OP_CLEAR_COLOR cbuf (s1.clear.color_val.getD cbuf 0)) s1
          rw [ih (cbuf + 1) _ hr, h2, scene_bins_of_bins_of h1.bins sl, List.map_map,
            color_clear_cmds_congr (hk.clear.trans hcl), color_clear_cmds_set s cbuf n hbit, hcl]
          apply List.map_congr_left
          intro b _
          simp [Function.comp]
    · rename_i hbit
      rw [if_neg hbit, ih (cbuf + 1) s hr, color_clear_cmds_unset s cbuf n hbit]

theorem color_clear_cmds_nil (s : lp_setup_context) (cbuf n : Nat)
    (hz : s.clear.flags &&& PIPE_CLEAR_COLOR = 0) (hn : cbuf + n ≤ PIPE_MAX_COLOR_BUFS) :
    color_clear_cmds s cbuf n = [] := by
  induction n generalizing cbuf with
  | zero => simp [color_clear_cmds]
  | succ n ih =>
    have hbit : ¬ s.clear.flags &&& (1 <<< (2 + cbuf)) ≠ 0 := by
      have := land_color_bit_zero s.clear.flags cbuf hz (by omega)
      simp [this]
    rw [color_clear_cmds_unset s cbuf n hbit]
    exact ih (cbuf + 1) (by omega)

theorem accumulated_clear_cmds_eq (s : lp_setup_context) :
    accumulated_clear_cmds s =
      color_clear_cmds s 0 s.fb.nr_cbufs ++
      (if s.fb.zsbuf.isSome ∧ s.clear.flags &&& PIPE_CLEAR_DEPTHSTENCIL ≠ 0 then
         [lp_rast_cmd.LP_RAST_OP_CLEAR_ZSTENCIL s.clear.zsvalue s.clear.zsmask]
       else []) := by
  unfold accumulated_clear_cmds color_clear_cmds
  rw [List.range_eq_range']

theorem scene_bins_with_scene (i sl : Nat) (f : lp_scene → lp_scene)
    (hf : ∀ sc, (f sc).bins = sc.bins) (s : lp_setup_context) :
    scene_bins (with_scene i f s) sl = scene_bins s sl :=
  scene_bins_of_bins_of (s := s) (t := with_scene i f s)
    (modify_scene_map (fun sc => sc.bins) f hf i s.scenes) sl

theorem scene_bins_finish (sl : Nat) (x : lp_setup_context) (hq : Bool) (c : clear_state) :
    scene_bins (with_scene sl (fun sc => { sc with had_queries := hq }) { x with clear := c }) sl =
      scene_bins x sl :=
  scene_bins_with_scene sl sl (fun sc => { sc with had_queries := hq }) (fun _ => rfl)
    { x with clear := c }

/-- The successful clear replay appends the accumulated clears, colour buffers first, to
every bin of the scene. -/
theorem begin_binning_clears_bins (sl : Nat) (s : lp_setup_context)
    (hnr : s.fb.nr_cbufs ≤ PIPE_MAX_COLOR_BUFS)
    (hr : (begin_binning_clears sl s).1 = true) :
    scene_bins (begin_binning_clears sl s).2 sl =
      (scene_bins s sl).map (fun b => b ++ accumulated_clear_cmds s) := by
  unfold begin_binning_clears at hr ⊢
  have h1 : keeps s (if s.clear.flags &&& PIPE_CLEAR_COLOR ≠ 0 then
      begin_binning_clear_color sl s.fb.nr_cbufs 0 s else (true, s)).2 := by
    split
    · exact keeps_begin_binning_clear_color sl _ _ s
    · exact keeps_refl s
  have hb1 : (if s.clear.flags &&& PIPE_CLEAR_COLOR ≠ 0 then
      begin_binning_clear_color sl s.fb.nr_cbufs 0 s else (true, s)).1 = true →
      scene_bins (if s.clear.flags &&& PIPE_CLEAR_COLOR ≠ 0 then
        begin_binning_clear_color sl s.fb.nr_cbufs 0 s else (true, s)).2 sl =
      (scene_bins s sl).map (fun b => b ++ color_clear_cmds s 0 s.fb.nr_cbufs) := by
    split
    · exact begin_binning_clear_color_bins sl _ _ s
    · rename_i hz
      intro _
      have hz1 : s.clear.flags &&& PIPE_CLEAR_COLOR = 0 := by
        by_contra hc
        exact hz hc
      rw [color_clear_cmds_nil s 0 _ hz1 (by omega)]
      simp
  generalize (if s.clear.flags &&& PIPE_CLEAR_COLOR ≠ 0 then
      begin_binning_clear_color sl s.fb.nr_cbufs 0 s else (true, s)) = r1 at h1 hb1 hr ⊢
  obtain ⟨ok1, s1⟩ := r1
  cases ok1 with
  | false => simp at hr
  | true =>
    simp only [if_true] at hr ⊢
    have hb1 := hb1 rfl
    simp only [] at hb1 h1
    have hfb : s1.fb = s.fb := h1.fb
    have hcl : s1.clear = s.clear := h1.clear
    rw [accumulated_clear_cmds_eq]
    by_cases hzs : s.fb.zsbuf.isSome ∧ s.clear.flags &&& PIPE_CLEAR_DEPTHSTENCIL ≠ 0
    · have hcond : (s1.fb.zsbuf.isSome &&
          decide (s1.clear.flags &&& PIPE_CLEAR_DEPTHSTENCIL ≠ 0)) = true := by
        rw [hfb, hcl]
        simp only [Bool.and_eq_true, decide_eq_true_eq]
        exact hzs
      rw [if_pos hcond] at hr ⊢
      rw [if_pos hzs]
      cases hb2 : (lp_scene_bin_everywhere sl
          (lp_rast_cmd.LP_RAST_OP_CLEAR_ZSTENCIL s1.clear.zsvalue s1.clear.zsmask) s1).1 with
      | false =>
        rw [hb2] at hr
        simp at hr
      | true =>
        simp only [hb2, if_true]
        refine Eq.trans (scene_bins_finish sl _ _ _) ?_
        have h2 := bin_everywhere_bins sl _ s1 hb2
        rw [h2, hb1, List.map_map, hcl]
        apply List.map_congr_left
        intro b _
        simp [Function.comp]
    · have hcond : ¬ (s1.fb.zsbuf.isSome &&
          decide (s1.clear.flags &&& PIPE_CLEAR_DEPTHSTENCIL ≠ 0)) = true := by
        rw [hfb, hcl]
        simp only [Bool.and_eq_true, decide_eq_true_eq]
        exact hzs
      rw [if_neg hcond]
      rw [if_neg hzs]
      simp only [if_true]
      refine Eq.trans (scene_bins_finish sl _ _ _) ?_
      rw [hb1]
      simp

theorem accumulated_clear_cmds_congr {s t : lp_setup_context} (hc : t.clear = s.clear)
    (hf : t.fb = s.fb) : accumulated_clear_cmds t = accumulated_clear_cmds s := by
  unfold accumulated_clear_cmds
  rw [hc, hf]

/-- A successful `begin_binning` appends the accumulated clears to every bin of the current
scene and nothing else. -/
theorem begin_binning_bins (h : lp_headers) (s t : lp_setup_context)
    (hnr : s.fb.nr_cbufs ≤ PIPE_MAX_COLOR_BUFS)
    (hr : begin_binning h s = some (true, t)) :
    ∃ sl, s.scene = some sl ∧ sl < s.scenes.length ∧
      scene_bins t sl = (scene_bins s sl).map (fun b => b ++ accumulated_clear_cmds s) := by
  unfold begin_binning at hr
  cases hsc : s.scene with
  | none => simp [hsc] at hr
  | some sl =>
    simp only [hsc] at hr
    split at hr
    · rename_i hlt
      refine ⟨sl, rfl, hlt, ?_⟩
      have h0 := keeps_bins_take_oracle s
      generalize take_oracle s = r at hr h0
      obtain ⟨ok, s0⟩ := r
      cases ok with
      | false => simp at hr
      | true =>
        simp only [if_true] at hr
        have h1 : keeps_bins s (record (event.fence_create (max 1 s.num_threads) true) s0) :=
          keeps_bins_trans h0 (keeps_bins_record (event.fence_create (max 1 s.num_threads) true)
            rfl s0)
        have hb2 : scene_bins (with_scene sl
            (fun sc => { sc with fence := some (lp_fence_create (max 1 s.num_threads)) })
            (record (event.fence_create (max 1 s.num_threads) true) s0)) sl = scene_bins s sl :=
          (scene_bins_with_scene sl sl
            (fun sc => { sc with fence := some (lp_fence_create (max 1 s.num_threads)) })
            (fun _ => rfl) _).trans (scene_bins_of_bins_of h1.bins sl)
        have hc2 : (with_scene sl
            (fun sc => { sc with fence := some (lp_fence_create (max 1 s.num_threads)) })
            (record (event.fence_create (max 1 s.num_threads) true) s0)).clear = s.clear :=
          h1.base.clear
        have hf2 : (with_scene sl
            (fun sc => { sc with fence := some (lp_fence_create (max 1 s.num_threads)) })
            (record (event.fence_create (max 1 s.num_threads) true) s0)).fb = s.fb :=
          h1.base.fb
        generalize (with_scene sl
            (fun sc => { sc with fence := some (lp_fence_create (max 1 s.num_threads)) })
            (record (event.fence_create (max 1 s.num_threads) true) s0)) = s2 at hr hb2 hc2 hf2
        cases htu : try_update_scene_state h s2 with
        | none => simp [htu] at hr
        | some x =>
          obtain ⟨b3, s3⟩ := x
          have h3 := (try_update_scene_state_keeps h s2 s3 b3 htu).1
          simp only [htu] at hr
          cases b3 with
          | false => simp at hr
          | true =>
            simp only [Option.some.injEq] at hr
            have hok : (begin_binning_clears sl s3).1 = true := by rw [hr]
            have hc3 : s3.clear = s.clear := h3.base.clear.trans hc2
            have hf3 : s3.fb = s.fb := h3.base.fb.trans hf2
            have h4 := begin_binning_clears_bins sl s3 (by rw [hf3]; exact hnr) hok
            rw [hr] at h4
            simp only [] at h4
            rw [h4, scene_bins_of_bins_of h3.bins sl, hb2, accumulated_clear_cmds_congr hc3 hf3]
    · simp at hr

/-! ## Deferred clears -/

/-- Outside ACTIVE the transition to CLEARED succeeds and keeps the accumulator and the
framebuffer. -/
theorem set_scene_state_cleared_total (h : lp_headers) (s : lp_setup_context)
    (hna : s.state ≠ setup_state.SETUP_ACTIVE) (hne : s.scenes ≠ []) :
    ∃ t1, set_scene_state h s setup_state.SETUP_CLEARED = some (true, t1) ∧
      t1.state = setup_state.SETUP_CLEARED ∧ t1.clear = s.clear ∧ t1.fb = s.fb := by
  by_cases hc : s.state = setup_state.SETUP_CLEARED
  · exact ⟨s, set_scene_state_same h s _ hc, hc, rfl, rfl⟩
  · have hfl : s.state = setup_state.SETUP_FLUSHED := by
      cases hs : s.state with
      | SETUP_FLUSHED => rfl
      | SETUP_CLEARED => exact absurd hs hc
      | SETUP_ACTIVE => exact absurd hs hna
    obtain ⟨s1, hg⟩ := get_empty_scene_total h s hne
    obtain ⟨hp, _⟩ := get_empty_scene_some h s s1 hg
    obtain ⟨_, p2, p3, _⟩ := pool_only_fields hp
    refine ⟨{ s1 with state := setup_state.SETUP_CLEARED }, ?_, rfl, p2, p3⟩
    simp [set_scene_state, set_scene_state_acquire, set_scene_state_switch, hfl, hg]

/-! ## Deferred clears as updates of the accumulator -/

theorem cleared_of_self (h : lp_headers) (u : lp_setup_context)
    (hu : u.state = setup_state.SETUP_CLEARED) : cleared_of h u u :=
  ⟨set_scene_state_same h u _ hu, hu, rfl, rfl⟩

theorem cleared_of_total (h : lp_headers) (s : lp_setup_context)
    (hna : s.state ≠ setup_state.SETUP_ACTIVE) (hne : s.scenes ≠ []) :
    ∃ t1, cleared_of h s t1 := by
  obtain ⟨t1, h1, h2, h3, h4⟩ := set_scene_state_cleared_total h s hna hne
  exact ⟨t1, h1, h2, h3, h4⟩

theorem getD_isSome_get? {α : Type} (l : List (Option α)) (i : Nat)
    (hs : (l.getD i none).isSome = true) : ∃ x, l.get? i = some (some x) := by
  rw [List.getD_eq_getElem?_getD] at hs
  cases hg : l[i]? with
  | none => simp [hg] at hs
  | some o =>
    cases o with
    | none => simp [hg] at hs
    | some x => exact ⟨x, by simp [hg]⟩

theorem try_clear_color_deferred (h : lp_headers) (color cbuf : Nat) (s t1 : lp_setup_context)
    (hna : s.state ≠ setup_state.SETUP_ACTIVE) (hc : cleared_of h s t1)
    (hs : (s.fb.cbufs.getD cbuf none).isSome = true) :
    lp_setup_try_clear_color_buffer h color cbuf s =
      some (true, { t1 with clear := color_accumulate h s.fb color cbuf s.clear }) := by
  obtain ⟨surf, hg⟩ := getD_isSome_get? _ _ hs
  unfold lp_setup_try_clear_color_buffer color_accumulate
  simp only [hg, hna, if_false, hc.run, hc.clear]

theorem try_clear_zs_deferred (h : lp_headers) (depth stencil flags : Nat)
    (s t1 : lp_setup_context)
    (hna : s.state ≠ setup_state.SETUP_ACTIVE) (hc : cleared_of h s t1)
    (hz : s.fb.zsbuf.isSome = true) :
    lp_setup_try_clear_zs h depth stencil flags s =
      some (true, { t1 with clear := zs_accumulate h s.fb depth stencil flags s.clear }) := by
  cases hzb : s.fb.zsbuf with
  | none => simp [hzb] at hz
  | some z =>
    unfold lp_setup_try_clear_zs zs_accumulate
    simp only [hzb, hna, if_false, hc.run, hc.clear]

theorem clear_color_cleared (h : lp_headers) (color flags n i : Nat) (u : lp_setup_context)
    (hu : u.state = setup_state.SETUP_CLEARED) :
    lp_setup_clear_color h color flags n i u =
      some { u with clear := color_loop_accumulate h u.fb color flags n i u.clear } := by
  induction n generalizing i u with
  | zero => rfl
  | succ n ih =>
    unfold lp_setup_clear_color color_loop_accumulate
    by_cases hcond : flags &&& (1 <<< (2 + i)) ≠ 0 ∧ (u.fb.cbufs.getD i none).isSome
    · rw [if_pos hcond, if_pos hcond]
      have hna : u.state ≠ setup_state.SETUP_ACTIVE := by rw [hu]; decide
      rw [try_clear_color_deferred h color i u u hna (cleared_of_self h u hu) hcond.2]
      simp only []
      exact ih (i + 1) { u with clear := color_accumulate h u.fb color i u.clear } hu
    · rw [if_neg hcond, if_neg hcond]
      exact ih (i + 1) u hu

theorem clear_color_deferred (h : lp_headers) (color flags n i : Nat) (s t1 : lp_setup_context)
    (hna : s.state ≠ setup_state.SETUP_ACTIVE) (hc : cleared_of h s t1) :
    lp_setup_clear_color h color flags n i s =
      some (if color_loop_hits s.fb flags n i then
        { t1 with clear := color_loop_accumulate h s.fb color flags n i s.clear }
      else s) := by
  induction n generalizing i with
  | zero => rfl
  | succ n ih =>
    unfold lp_setup_clear_color color_loop_accumulate color_loop_hits
    by_cases hcond : flags &&& (1 <<< (2 + i)) ≠ 0 ∧ (s.fb.cbufs.getD i none).isSome
    · rw [if_pos hcond, if_pos hcond]
      rw [try_clear_color_deferred h color i s t1 hna hc hcond.2]
      simp only []
      rw [clear_color_cleared h color flags n (i + 1)
        { t1 with clear := color_accumulate h s.fb color i s.clear } hc.state]
      have hb : (decide (flags &&& (1 <<< (2 + i)) ≠ 0) && (s.fb.cbufs.getD i none).isSome) = true := by
        rw [Bool.and_eq_true]
        exact ⟨decide_eq_true hcond.1, hcond.2⟩
      rw [hb, Bool.true_or, if_pos rfl]
      simp only [hc.fb]
    · rw [if_neg hcond, if_neg hcond, ih (i + 1)]
      have : (decide (flags &&& (1 <<< (2 + i)) ≠ 0) && (s.fb.cbufs.getD i none).isSome) = false := by
        by_contra hx
        simp only [Bool.not_eq_false, Bool.and_eq_true, decide_eq_true_eq] at hx
        exact hcond hx
      rw [this, Bool.false_or]

theorem clear_zs_deferred (h : lp_headers) (depth stencil flags : Nat) (s t1 : lp_setup_context)
    (hna : s.state ≠ setup_state.SETUP_ACTIVE) (hc : cleared_of h s t1)
    (hz : flags &&& PIPE_CLEAR_DEPTHSTENCIL ≠ 0 → s.fb.zsbuf.isSome = true) :
    lp_setup_clear_zs h depth stencil flags s =
      some (if flags &&& PIPE_CLEAR_DEPTHSTENCIL ≠ 0 then
        { t1 with clear :=
            zs_accumulate h s.fb depth stencil (flags &&& PIPE_CLEAR_DEPTHSTENCIL) s.clear }
      else s) := by
  unfold lp_setup_clear_zs
  dsimp only
  by_cases hf : flags &&& PIPE_CLEAR_DEPTHSTENCIL ≠ 0
  · rw [if_pos hf, if_pos hf, try_clear_zs_deferred h depth stencil _ s t1 hna hc (hz hf)]
  · rw [if_neg hf, if_neg hf]

/-- Outside ACTIVE, `lp_setup_clear` is the transition to CLEARED (when it clears anything)
followed by a pure update of the accumulator. -/
theorem lp_setup_clear_deferred (h : lp_headers) (color depth stencil flags : Nat)
    (s t1 : lp_setup_context)
    (hna : s.state ≠ setup_state.SETUP_ACTIVE) (hc : cleared_of h s t1)
    (hz : flags &&& PIPE_CLEAR_DEPTHSTENCIL ≠ 0 → s.fb.zsbuf.isSome = true) :
    lp_setup_clear h color depth stencil flags s =
      some (if clear_hits s.fb flags then
        { t1 with clear := clear_accumulate h s.fb color depth stencil flags s.clear }
      else s) := by
  have hh : clear_hits s.fb flags = (decide (flags &&& PIPE_CLEAR_DEPTHSTENCIL ≠ 0) ||
      (decide (flags &&& PIPE_CLEAR_COLOR ≠ 0) && color_loop_hits s.fb flags s.fb.nr_cbufs 0)) := rfl
  unfold lp_setup_clear clear_accumulate
  rw [clear_zs_deferred h depth stencil flags s t1 hna hc hz, hh]
  dsimp only
  by_cases hf : flags &&& PIPE_CLEAR_DEPTHSTENCIL ≠ 0
  · rw [decide_eq_true hf, Bool.true_or, if_pos rfl]
    simp only [if_pos hf]
    by_cases hcol : flags &&& PIPE_CLEAR_COLOR ≠ 0
    · rw [if_pos hcol, if_pos hcol, clear_color_cleared h color flags _ 0
        { t1 with clear :=
            zs_accumulate h s.fb depth stencil (flags &&& PIPE_CLEAR_DEPTHSTENCIL) s.clear }
        hc.state]
      simp only [hc.fb]
    · rw [if_neg hcol, if_neg hcol]
  · rw [decide_eq_false hf, Bool.false_or]
    simp only [if_neg hf]
    by_cases hcol : flags &&& PIPE_CLEAR_COLOR ≠ 0
    · rw [if_pos hcol, if_pos hcol, clear_color_deferred h color flags _ 0 s t1 hna hc,
        decide_eq_true hcol, Bool.true_and]
    · rw [if_neg hcol, if_neg hcol, decide_eq_false hcol, Bool.false_and]
      rfl

theorem testBit_not64 (m i : Nat) :
    (not64 m).testBit i = (decide (i < 64) && !m.testBit i) := by
  unfold not64
  have hlt : m % 2 ^ 64 < 2 ^ 64 := Nat.mod_lt _ (by decide)
  have h1 : 0xFFFFFFFFFFFFFFFF - m % 2 ^ 64 = 2 ^ 64 - (m % 2 ^ 64 + 1) := by omega
  rw [h1, Nat.testBit_two_pow_sub_succ hlt, Nat.testBit_mod_two_pow]
  by_cases hi : i < 64 <;> simp [hi]

theorem zs_merge_idem (z v1 v2 m : Nat) :
    (((z &&& not64 m) ||| (v1 &&& m)) &&& not64 m) ||| (v2 &&& m) =
      (z &&& not64 m) ||| (v2 &&& m) := by
  apply Nat.eq_of_testBit_eq
  intro i
  simp only [Nat.testBit_lor, Nat.testBit_land, testBit_not64]
  cases z.testBit i <;> cases v1.testBit i <;> cases v2.testBit i <;> cases m.testBit i <;>
    cases decide (i < 64) <;> rfl

theorem zs_merge_comm (z va vb ma mb : Nat) (hd : ma &&& mb = 0)
    (ha : ma < 2 ^ 64) (hb : mb < 2 ^ 64) :
    (((z &&& not64 ma) ||| (va &&& ma)) &&& not64 mb) ||| (vb &&& mb) =
    (((z &&& not64 mb) ||| (vb &&& mb)) &&& not64 ma) ||| (va &&& ma) := by
  apply Nat.eq_of_testBit_eq
  intro i
  have hdi : (ma.testBit i && mb.testBit i) = false := by
    rw [← Nat.testBit_land, hd]; simp
  have hai : i ≥ 64 → ma.testBit i = false := fun hi =>
    Nat.testBit_lt_two_pow (lt_of_lt_of_le ha (Nat.pow_le_pow_right (by decide) hi))
  have hbi : i ≥ 64 → mb.testBit i = false := fun hi =>
    Nat.testBit_lt_two_pow (lt_of_lt_of_le hb (Nat.pow_le_pow_right (by decide) hi))
  simp only [Nat.testBit_lor, Nat.testBit_land, testBit_not64]
  by_cases hi : i < 64
  · simp only [hi, decide_True, Bool.true_and]
    revert hdi
    cases z.testBit i <;> cases va.testBit i <;> cases vb.testBit i <;> cases ma.testBit i <;>
      cases mb.testBit i <;> simp
  · have h1 := hai (by omega)
    have h2 := hbi (by omega)
    simp [hi, h1, h2]

theorem land_bit_ne_zero_iff (x k : Nat) : x &&& (1 <<< k) ≠ 0 ↔ x.testBit k = true := by
  rw [Nat.one_shiftLeft, Nat.and_two_pow]
  cases x.testBit k <;> simp

theorem lor_lor_self (a b : Nat) : (a ||| b) ||| b = a ||| b := by
  rw [Nat.lor_assoc, Nat.or_self]

theorem lor_right_comm3 (a b c : Nat) : (a ||| b) ||| c = (a ||| c) ||| b := by
  rw [Nat.lor_assoc, Nat.lor_comm b c, Nat.lor_assoc]

theorem clear_zs_mask_indep (h : lp_headers) (format : pipe_format)
    (d1 st1 d2 st2 flags : Nat) :
    (clear_zs_value_mask h format d1 st1 flags).2 =
      (clear_zs_value_mask h format d2 st2 flags).2 := by
  unfold clear_zs_value_mask
  dsimp only
  split <;> rfl

theorem clear_zs_mask_lt (h : lp_headers) (format : pipe_format) (d st flags : Nat) :
    (clear_zs_value_mask h format d st flags).2 < 2 ^ 64 := by
  unfold clear_zs_value_mask
  dsimp only
  split
  · apply Nat.or_lt_two_pow
    · exact Nat.mod_lt _ (by decide)
    · unfold not32
      omega
  · exact Nat.mod_lt _ (by decide)

theorem color_accumulate_some (h : lp_headers) (fb : pipe_framebuffer_state)
    (color i : Nat) (c : clear_state) (surf : pipe_surface)
    (hg : fb.cbufs.get? i = some (some surf)) :
    color_accumulate h fb color i c =
      { c with flags := c.flags ||| (1 <<< (i + 2)),
               color_val := c.color_val.set i (h.util_pack_color_union surf.format color) } := by
  unfold color_accumulate
  rw [hg]

theorem color_accumulate_none (h : lp_headers) (fb : pipe_framebuffer_state)
    (color i : Nat) (c : clear_state)
    (hg : ∀ surf, fb.cbufs.get? i ≠ some (some surf)) :
    color_accumulate h fb color i c = c := by
  unfold color_accumulate
  split
  · rename_i surf hs
    exact absurd hs (hg surf)
  · rfl

theorem color_accumulate_cases (fb : pipe_framebuffer_state) (i : Nat) :
    (∃ surf, fb.cbufs.get? i = some (some surf)) ∨
    (∀ surf, fb.cbufs.get? i ≠ some (some surf)) := by
  cases hg : fb.cbufs.get? i with
  | none => exact Or.inr (fun _ hx => Option.noConfusion hx)
  | some o =>
    cases o with
    | none => exact Or.inr (fun _ hx => Option.noConfusion (Option.some.inj hx))
    | some surf => exact Or.inl ⟨surf, rfl⟩

theorem color_accumulate_absorb (h : lp_headers) (fb : pipe_framebuffer_state)
    (c1 c2 i : Nat) (c : clear_state) :
    color_accumulate h fb c2 i (color_accumulate h fb c1 i c) = color_accumulate h fb c2 i c := by
  rcases color_accumulate_cases fb i with ⟨surf, hg⟩ | hg
  · simp only [color_accumulate_some h fb _ i _ surf hg, lor_lor_self, List.set_set]
  · simp only [color_accumulate_none h fb _ i _ hg]

theorem color_accumulate_comm (h : lp_headers) (fb : pipe_framebuffer_state)
    (a b i j : Nat) (hij : i ≠ j) (c : clear_state) :
    color_accumulate h fb a i (color_accumulate h fb b j c) =
      color_accumulate h fb b j (color_accumulate h fb a i c) := by
  rcases color_accumulate_cases fb i with ⟨si, hi⟩ | hi <;>
  rcases color_accumulate_cases fb j with ⟨sj, hj⟩ | hj
  · simp only [color_accumulate_some h fb _ i _ si hi, color_accumulate_some h fb _ j _ sj hj,
      clear_state.mk.injEq, and_true]
    exact ⟨lor_right_comm3 _ _ _, List.set_comm _ _ _ (Ne.symm hij)⟩
  · simp only [color_accumulate_none h fb _ j _ hj]
  · simp only [color_accumulate_none h fb _ i _ hi]
  · simp only [color_accumulate_none h fb _ i _ hi]

theorem zs_color_comm (h : lp_headers) (fb : pipe_framebuffer_state)
    (d st f a i : Nat) (c : clear_state) :
    zs_accumulate h fb d st f (color_accumulate h fb a i c) =
      color_accumulate h fb a i (zs_accumulate h fb d st f c) := by
  rcases color_accumulate_cases fb i with ⟨si, hi⟩ | hi
  · simp only [color_accumulate_some h fb _ i _ si hi]
    unfold zs_accumulate
    split
    · simp only [clear_state.mk.injEq, and_true, and_self]
      exact lor_right_comm3 _ _ _
    · rfl
  · simp only [color_accumulate_none h fb _ i _ hi]

theorem zs_accumulate_absorb (h : lp_headers) (fb : pipe_framebuffer_state)
    (d1 st1 d2 st2 f : Nat) (c : clear_state) :
    zs_accumulate h fb d2 st2 f (zs_accumulate h fb d1 st1 f c) =
      zs_accumulate h fb d2 st2 f c := by
  unfold zs_accumulate
  split
  · rename_i z hz
    simp only [clear_state.mk.injEq, lor_lor_self, true_and]
    rw [clear_zs_mask_indep h z.format d1 st1 d2 st2 f]
    exact ⟨lor_lor_self _ _, zs_merge_idem _ _ _ _⟩
  · rfl

theorem zs_accumulate_comm (h : lp_headers) (fb : pipe_framebuffer_state)
    (da sta fa db stb fb2 : Nat) (c : clear_state)
    (hd : ∀ z, fb.zsbuf = some z →
      (clear_zs_value_mask h z.format da sta fa).2 &&&
        (clear_zs_value_mask h z.format db stb fb2).2 = 0) :
    zs_accumulate h fb da sta fa (zs_accumulate h fb db stb fb2 c) =
      zs_accumulate h fb db stb fb2 (zs_accumulate h fb da sta fa c) := by
  unfold zs_accumulate
  split
  · rename_i z hz
    simp only [clear_state.mk.injEq, true_and]
    refine ⟨lor_right_comm3 _ _ _, lor_right_comm3 _ _ _, ?_⟩
    have := hd z hz
    rw [Nat.land_comm] at this
    exact zs_merge_comm _ _ _ _ _ this (clear_zs_mask_lt _ _ _ _ _) (clear_zs_mask_lt _ _ _ _ _)
  · rfl

theorem color_loop_comm_of_step (h : lp_headers) (fb : pipe_framebuffer_state)
    (color flags : Nat) (f : clear_state → clear_state) (n i : Nat)
    (hf : ∀ j, i ≤ j → flags &&& (1 <<< (2 + j)) ≠ 0 →
      ∀ c, f (color_accumulate h fb color j c) = color_accumulate h fb color j (f c))
    (c : clear_state) :
    f (color_loop_accumulate h fb color flags n i c) =
      color_loop_accumulate h fb color flags n i (f c) := by
  induction n generalizing i c with
  | zero => rfl
  | succ n ih =>
    unfold color_loop_accumulate
    by_cases hcond : flags &&& (1 <<< (2 + i)) ≠ 0 ∧ (fb.cbufs.getD i none).isSome
    · rw [if_pos hcond, if_pos hcond,
        ih (i + 1) (fun j hj hb => hf j (by omega) hb), hf i (Nat.le_refl i) hcond.1]
    · rw [if_neg hcond, if_neg hcond]
      exact ih (i + 1) (fun j hj hb => hf j (by omega) hb) c

theorem color_loop_no_hits (h : lp_headers) (fb : pipe_framebuffer_state)
    (color flags n i : Nat) (c : clear_state) (hh : color_loop_hits fb flags n i = false) :
    color_loop_accumulate h fb color flags n i c = c := by
  induction n generalizing i with
  | zero => rfl
  | succ n ih =>
    unfold color_loop_hits at hh
    rw [Bool.or_eq_false_iff] at hh
    unfold color_loop_accumulate
    have hcond : ¬ (flags &&& (1 <<< (2 + i)) ≠ 0 ∧ (fb.cbufs.getD i none).isSome) := by
      intro hx
      have : (decide (flags &&& (1 <<< (2 + i)) ≠ 0) && (fb.cbufs.getD i none).isSome) = true := by
        rw [Bool.and_eq_true]
        exact ⟨decide_eq_true hx.1, hx.2⟩
      rw [hh.1] at this
      exact Bool.noConfusion this
    rw [if_neg hcond]
    exact ih (i + 1) hh.2

theorem color_loop_accumulate_pos (h : lp_headers) (fb : pipe_framebuffer_state)
    (color flags n i : Nat) (c : clear_state)
    (hcond : flags &&& (1 <<< (2 + i)) ≠ 0 ∧ (fb.cbufs.getD i none).isSome) :
    color_loop_accumulate h fb color flags (n + 1) i c =
      color_loop_accumulate h fb color flags n (i + 1) (color_accumulate h fb color i c) := by
  rw [color_loop_accumulate, if_pos hcond]

theorem color_loop_accumulate_neg (h : lp_headers) (fb : pipe_framebuffer_state)
    (color flags n i : Nat) (c : clear_state)
    (hcond : ¬ (flags &&& (1 <<< (2 + i)) ≠ 0 ∧ (fb.cbufs.getD i none).isSome)) :
    color_loop_accumulate h fb color flags (n + 1) i c =
      color_loop_accumulate h fb color flags n (i + 1) c := by
  rw [color_loop_accumulate, if_neg hcond]

theorem color_loop_absorb (h : lp_headers) (fb : pipe_framebuffer_state)
    (c1 c2 flags n i : Nat) (c : clear_state) :
    color_loop_accumulate h fb c2 flags n i (color_loop_accumulate h fb c1 flags n i c) =
      color_loop_accumulate h fb c2 flags n i c := by
  induction n generalizing i c with
  | zero => rfl
  | succ n ih =>
    by_cases hcond : flags &&& (1 <<< (2 + i)) ≠ 0 ∧ (fb.cbufs.getD i none).isSome
    · simp only [color_loop_accumulate_pos h fb _ flags n i _ hcond]
      rw [color_loop_comm_of_step h fb c1 flags (color_accumulate h fb c2 i) n (i + 1)
        (fun j hj _ c0 => color_accumulate_comm h fb c2 c1 i j (by omega) c0),
        color_accumulate_absorb, ih]
    · simp only [color_loop_accumulate_neg h fb _ flags n i _ hcond]
      exact ih (i + 1) c

theorem color_loops_comm (h : lp_headers) (fb : pipe_framebuffer_state)
    (ca fa cb fb2 : Nat) (hd : fa &&& fb2 = 0) (n i m k : Nat) (c : clear_state) :
    color_loop_accumulate h fb ca fa n i (color_loop_accumulate h fb cb fb2 m k c) =
      color_loop_accumulate h fb cb fb2 m k (color_loop_accumulate h fb ca fa n i c) := by
  refine color_loop_comm_of_step h fb cb fb2 (color_loop_accumulate h fb ca fa n i) m k ?_ c
  intro j _ hbj c0
  refine (color_loop_comm_of_step h fb ca fa (color_accumulate h fb cb j) n i ?_ c0).symm
  intro l _ hal c3
  have hne : j ≠ l := by
    intro hjl
    subst hjl
    rw [land_bit_ne_zero_iff] at hbj hal
    have : (fa &&& fb2).testBit (2 + j) = true := by
      rw [Nat.testBit_land, hbj, hal]
      rfl
    rw [hd] at this
    simp at this
  exact color_accumulate_comm h fb cb ca j l hne c3

theorem zs_color_loop_comm (h : lp_headers) (fb : pipe_framebuffer_state)
    (d st f color flags n i : Nat) (c : clear_state) :
    zs_accumulate h fb d st f (color_loop_accumulate h fb color flags n i c) =
      color_loop_accumulate h fb color flags n i (zs_accumulate h fb d st f c) :=
  color_loop_comm_of_step h fb color flags (zs_accumulate h fb d st f) n i
    (fun j _ _ c0 => zs_color_comm h fb d st f color j c0) c

/-- The depth/stencil part of `clear_accumulate`. -/
theorem clear_accumulate_eq (h : lp_headers) (fb : pipe_framebuffer_state)
    (color depth stencil flags : Nat) (c : clear_state) :
    clear_accumulate h fb color depth stencil flags c =
      (if flags &&& PIPE_CLEAR_COLOR ≠ 0 then
         color_loop_accumulate h fb color flags fb.nr_cbufs 0
       else id)
        ((if flags &&& PIPE_CLEAR_DEPTHSTENCIL ≠ 0 then
            zs_accumulate h fb depth stencil (flags &&& PIPE_CLEAR_DEPTHSTENCIL)
          else id) c) := by
  unfold clear_accumulate
  dsimp only
  by_cases h1 : flags &&& PIPE_CLEAR_DEPTHSTENCIL ≠ 0 <;>
  by_cases h2 : flags &&& PIPE_CLEAR_COLOR ≠ 0 <;>
  simp only [if_pos, if_neg, h1, h2, not_false_eq_true, id, not_true_eq_false, ne_eq]

theorem clear_accumulate_absorb (h : lp_headers) (fb : pipe_framebuffer_state)
    (c1 d1 st1 c2 d2 st2 flags : Nat) (c : clear_state) :
    clear_accumulate h fb c2 d2 st2 flags (clear_accumulate h fb c1 d1 st1 flags c) =
      clear_accumulate h fb c2 d2 st2 flags c := by
  simp only [clear_accumulate_eq]
  by_cases h1 : flags &&& PIPE_CLEAR_DEPTHSTENCIL ≠ 0 <;>
  by_cases h2 : flags &&& PIPE_CLEAR_COLOR ≠ 0
  · simp only [if_pos h1, if_pos h2]
    rw [zs_color_loop_comm, zs_accumulate_absorb, color_loop_absorb]
  · simp only [if_pos h1, if_neg h2, id]
    rw [zs_accumulate_absorb]
  · simp only [if_neg h1, if_pos h2, id]
    rw [color_loop_absorb]
  · simp only [if_neg h1, if_neg h2, id]

theorem clear_accumulate_no_hits (h : lp_headers) (fb : pipe_framebuffer_state)
    (color depth stencil flags : Nat) (c : clear_state) (hh : clear_hits fb flags = false) :
    clear_accumulate h fb color depth stencil flags c = c := by
  unfold clear_hits at hh
  rw [Bool.or_eq_false_iff, decide_eq_false_iff_not, Bool.and_eq_false_iff] at hh
  rw [clear_accumulate_eq, if_neg hh.1]
  by_cases h2 : flags &&& PIPE_CLEAR_COLOR ≠ 0
  · rw [if_pos h2]
    rcases hh.2 with hx | hx
    · rw [decide_eq_false_iff_not] at hx
      exact absurd h2 hx
    · exact color_loop_no_hits h fb color flags _ _ _ hx
  · rw [if_neg h2]
    rfl

theorem clear_accumulate_comm (h : lp_headers) (fb : pipe_framebuffer_state)
    (ca da sta fa cb db stb fb2 : Nat) (c : clear_state) (hd : fa &&& fb2 = 0)
    (hm : ∀ z, fb.zsbuf = some z → fa &&& PIPE_CLEAR_DEPTHSTENCIL ≠ 0 →
      fb2 &&& PIPE_CLEAR_DEPTHSTENCIL ≠ 0 →
      (clear_zs_value_mask h z.format da sta (fa &&& PIPE_CLEAR_DEPTHSTENCIL)).2 &&&
        (clear_zs_value_mask h z.format db stb (fb2 &&& PIPE_CLEAR_DEPTHSTENCIL)).2 = 0) :
    clear_accumulate h fb ca da sta fa (clear_accumulate h fb cb db stb fb2 c) =
      clear_accumulate h fb cb db stb fb2 (clear_accumulate h fb ca da sta fa c) := by
  simp only [clear_accumulate_eq]
  by_cases a1 : fa &&& PIPE_CLEAR_DEPTHSTENCIL ≠ 0 <;>
  by_cases a2 : fa &&& PIPE_CLEAR_COLOR ≠ 0 <;>
  by_cases b1 : fb2 &&& PIPE_CLEAR_DEPTHSTENCIL ≠ 0 <;>
  by_cases b2 : fb2 &&& PIPE_CLEAR_COLOR ≠ 0 <;>
  simp only [if_pos a1, if_neg a1, if_pos a2, if_neg a2, if_pos b1, if_neg b1, if_pos b2,
    if_neg b2, id] <;>
  first
  | rfl
  | (rw [zs_color_loop_comm, zs_accumulate_comm h fb da sta _ db stb _ c
        (fun z hz => hm z hz a1 b1), color_loops_comm h fb ca fa cb fb2 hd,
        ← zs_color_loop_comm])
  | (rw [zs_color_loop_comm, zs_accumulate_comm h fb da sta _ db stb _ c
        (fun z hz => hm z hz a1 b1)])
  | (rw [zs_accumulate_comm h fb da sta _ db stb _ c (fun z hz => hm z hz a1 b1),
        ← zs_color_loop_comm])
  | (rw [zs_accumulate_comm h fb da sta _ db stb _ c (fun z hz => hm z hz a1 b1)])
  | (rw [zs_color_loop_comm, color_loops_comm h fb ca fa cb fb2 hd])
  | (rw [color_loops_comm h fb ca fa cb fb2 hd, ← zs_color_loop_comm])
  | (rw [color_loops_comm h fb ca fa cb fb2 hd])
  | (rw [zs_color_loop_comm])

theorem color_accumulate_length (h : lp_headers) (fb : pipe_framebuffer_state)
    (color i : Nat) (c : clear_state) :
    (color_accumulate h fb color i c).color_val.length = c.color_val.length := by
  rcases color_accumulate_cases fb i with ⟨si, hi⟩ | hi
  · rw [color_accumulate_some h fb _ i _ si hi]
    simp
  · rw [color_accumulate_none h fb _ i _ hi]

theorem color_pending_step (h : lp_headers) (fb : pipe_framebuffer_state)
    (color cbuf j : Nat) (v : util_color) (hne : j ≠ cbuf) (c : clear_state)
    (hp : color_pending cbuf v c) : color_pending cbuf v (color_accumulate h fb color j c) := by
  obtain ⟨h1, h2, h3⟩ := hp
  refine ⟨by rw [color_accumulate_length]; exact h1, ?_, ?_⟩
  · rcases color_accumulate_cases fb j with ⟨sj, hj⟩ | hj
    · rw [color_accumulate_some h fb _ j _ sj hj]
      rw [land_bit_ne_zero_iff] at h2 ⊢
      simp only [Nat.testBit_lor, h2, Bool.true_or]
    · rw [color_accumulate_none h fb _ j _ hj]
      exact h2
  · rcases color_accumulate_cases fb j with ⟨sj, hj⟩ | hj
    · rw [color_accumulate_some h fb _ j _ sj hj]
      simp only [List.get?_eq_getElem?] at h3 ⊢
      rw [List.getElem?_set, if_neg hne]
      exact h3
    · rw [color_accumulate_none h fb _ j _ hj]
      exact h3

theorem color_pending_loop_keeps (h : lp_headers) (fb : pipe_framebuffer_state)
    (color flags cbuf : Nat) (v : util_color) (n i : Nat) (hlt : cbuf < i) (c : clear_state)
    (hp : color_pending cbuf v c) :
    color_pending cbuf v (color_loop_accumulate h fb color flags n i c) := by
  induction n generalizing i c with
  | zero => exact hp
  | succ n ih =>
    by_cases hcond : flags &&& (1 <<< (2 + i)) ≠ 0 ∧ (fb.cbufs.getD i none).isSome
    · rw [color_loop_accumulate_pos h fb _ flags n i _ hcond]
      exact ih (i + 1) (by omega) _ (color_pending_step h fb color cbuf i v (by omega) c hp)
    · rw [color_loop_accumulate_neg h fb _ flags n i _ hcond]
      exact ih (i + 1) (by omega) c hp

theorem color_loop_accumulate_length (h : lp_headers) (fb : pipe_framebuffer_state)
    (color flags n i : Nat) (c : clear_state) :
    (color_loop_accumulate h fb color flags n i c).color_val.length = c.color_val.length := by
  induction n generalizing i c with
  | zero => rfl
  | succ n ih =>
    by_cases hcond : flags &&& (1 <<< (2 + i)) ≠ 0 ∧ (fb.cbufs.getD i none).isSome
    · rw [color_loop_accumulate_pos h fb _ flags n i _ hcond, ih, color_accumulate_length]
    · rw [color_loop_accumulate_neg h fb _ flags n i _ hcond, ih]

theorem color_pending_loop (h : lp_headers) (fb : pipe_framebuffer_state)
    (color flags cbuf : Nat) (surf : pipe_surface) (n i : Nat) (c : clear_state)
    (hi : i ≤ cbuf) (hn : cbuf < i + n) (hlen : cbuf < c.color_val.length)
    (hbit : flags &&& (1 <<< (2 + cbuf)) ≠ 0) (hg : fb.cbufs.get? cbuf = some (some surf)) :
    color_pending cbuf (h.util_pack_color_union surf.format color)
      (color_loop_accumulate h fb color flags n i c) := by
  induction n generalizing i c with
  | zero => omega
  | succ n ih =>
    by_cases hic : i = cbuf
    · subst hic
      have hcond : flags &&& (1 <<< (2 + i)) ≠ 0 ∧ (fb.cbufs.getD i none).isSome := by
        refine ⟨hbit, ?_⟩
        rw [List.getD_eq_getElem?_getD]
        simp only [List.get?_eq_getElem?] at hg
        rw [hg]
        rfl
      rw [color_loop_accumulate_pos h fb _ flags n i _ hcond]
      apply color_pending_loop_keeps h fb color flags i _ n (i + 1) (by omega)
      rw [color_accumulate_some h fb _ i _ surf hg]
      refine ⟨by simpa using hlen, ?_, ?_⟩
      · rw [land_bit_ne_zero_iff]
        simp only [Nat.testBit_lor]
        have : (1 <<< (i + 2)).testBit (2 + i) = true := by
          rw [Nat.one_shiftLeft, Nat.add_comm, Nat.testBit_two_pow_self]
        rw [this, Bool.or_true]
      · simp only [List.get?_eq_getElem?]
        rw [List.getElem?_set, if_pos rfl, if_pos hlen]
    · by_cases hcond : flags &&& (1 <<< (2 + i)) ≠ 0 ∧ (fb.cbufs.getD i none).isSome
      · rw [color_loop_accumulate_pos h fb _ flags n i _ hcond]
        exact ih (i + 1) _ (by omega) (by omega) (by rw [color_accumulate_length]; exact hlen)
      · rw [color_loop_accumulate_neg h fb _ flags n i _ hcond]
        exact ih (i + 1) c (by omega) (by omega) hlen

theorem zs_accumulate_color_val (h : lp_headers) (fb : pipe_framebuffer_state)
    (d st f : Nat) (c : clear_state) :
    (zs_accumulate h fb d st f c).color_val = c.color_val := by
  unfold zs_accumulate
  split <;> rfl

theorem land_color_ne_zero (flags c : Nat) (hc : c < PIPE_MAX_COLOR_BUFS)
    (hb : flags &&& (1 <<< (2 + c)) ≠ 0) : flags &&& PIPE_CLEAR_COLOR ≠ 0 :=
  fun hz => hb (land_color_bit_zero flags c hz hc)

theorem clear_accumulate_pending (h : lp_headers) (fb : pipe_framebuffer_state)
    (color depth stencil flags cbuf : Nat) (surf : pipe_surface) (c : clear_state)
    (hn : cbuf < fb.nr_cbufs) (hmax : cbuf < PIPE_MAX_COLOR_BUFS)
    (hlen : cbuf < c.color_val.length)
    (hbit : flags &&& (1 <<< (2 + cbuf)) ≠ 0) (hg : fb.cbufs.get? cbuf = some (some surf)) :
    color_pending cbuf (h.util_pack_color_union surf.format color)
      (clear_accumulate h fb color depth stencil flags c) := by
  rw [clear_accumulate_eq, if_pos (land_color_ne_zero flags cbuf hmax hbit)]
  apply color_pending_loop h fb color flags cbuf surf _ 0 _ (Nat.zero_le _) (by omega) _ hbit hg
  by_cases h1 : flags &&& PIPE_CLEAR_DEPTHSTENCIL ≠ 0
  · rw [if_pos h1, zs_accumulate_color_val]
    exact hlen
  · rw [if_neg h1]
    exact hlen

/-- With the clear of buffer `cbuf` pending below `fb.nr_cbufs`, the accumulated clears hold
exactly one clear-colour command for that buffer, and it carries the pending value. -/
theorem accumulated_one_color (t : lp_setup_context) (cbuf : Nat) (v : util_color)
    (hn : cbuf < t.fb.nr_cbufs) (hp : color_pending cbuf v t.clear) :
    (accumulated_clear_cmds t).count (lp_rast_cmd.LP_RAST_OP_CLEAR_COLOR cbuf v) = 1 ∧
    ∀ w, lp_rast_cmd.LP_RAST_OP_CLEAR_COLOR cbuf w ∈ accumulated_clear_cmds t → w = v := by
  obtain ⟨_, h2, h3⟩ := hp
  have hv : t.clear.color_val.getD cbuf 0 = v := by
    rw [List.getD_eq_getElem?_getD]
    simp only [List.get?_eq_getElem?] at h3
    rw [h3]
    rfl
  have hinj : Function.Injective
      (fun c => lp_rast_cmd.LP_RAST_OP_CLEAR_COLOR c (t.clear.color_val.getD c 0)) := by
    intro a b hab
    simp only [lp_rast_cmd.LP_RAST_OP_CLEAR_COLOR.injEq] at hab
    exact hab.1
  unfold accumulated_clear_cmds
  constructor
  · rw [List.count_append, ← hv]
    rw [List.count_map_of_injective _ _ hinj cbuf]
    rw [List.count_eq_one_of_mem ((List.nodup_range _).filter _)
      (by simp only [List.mem_filter, List.mem_range, decide_eq_true_eq]; exact ⟨hn, h2⟩)]
    split <;> simp
  · intro w hw
    rw [List.mem_append] at hw
    rcases hw with hw | hw
    · simp only [List.mem_map, List.mem_filter, lp_rast_cmd.LP_RAST_OP_CLEAR_COLOR.injEq] at hw
      obtain ⟨c, _, hc1, hc2⟩ := hw
      subst hc1
      rw [← hc2, hv]
    · split at hw <;> simp at hw

/-- From CLEARED, a successful transition to ACTIVE appends the accumulated clears to every
bin of the owned scene. -/
theorem activation_appends (h : lp_headers) (s t : lp_setup_context)
    (hs : s.state = setup_state.SETUP_CLEARED) (hnr : s.fb.nr_cbufs ≤ PIPE_MAX_COLOR_BUFS)
    (hr : set_scene_state h s setup_state.SETUP_ACTIVE = some (true, t)) :
    ∃ sl, s.scene = some sl ∧ t.scene = some sl ∧ t.state = setup_state.SETUP_ACTIVE ∧
      scene_bins t sl = (scene_bins s sl).map (fun b => b ++ accumulated_clear_cmds s) := by
  have hne : s.state ≠ setup_state.SETUP_ACTIVE := by rw [hs]; decide
  have hnf : s.state ≠ setup_state.SETUP_FLUSHED := by rw [hs]; decide
  obtain ⟨s1, s2, ha, hb, ht⟩ := set_scene_state_active_true h s t hne hr
  obtain ⟨_, _, _, hsame, _⟩ := acquire_some h s s1 ha
  have := hsame hnf
  subst this
  obtain ⟨hst, _, _⟩ := begin_binning_some h s1 s2 true hb
  obtain ⟨sl, hsl, _, hbins⟩ := begin_binning_bins h s1 s2 hnr hb
  subst ht
  exact ⟨sl, hsl, hst.scene.trans hsl, rfl, hbins⟩

theorem color_loop_hits_of (fb : pipe_framebuffer_state) (flags cbuf : Nat) (surf : pipe_surface)
    (n i : Nat) (hi : i ≤ cbuf) (hn : cbuf < i + n)
    (hbit : flags &&& (1 <<< (2 + cbuf)) ≠ 0) (hg : fb.cbufs.get? cbuf = some (some surf)) :
    color_loop_hits fb flags n i = true := by
  induction n generalizing i with
  | zero => omega
  | succ n ih =>
    unfold color_loop_hits
    by_cases hic : i = cbuf
    · subst hic
      have : (fb.cbufs.getD i none).isSome = true := by
        rw [List.getD_eq_getElem?_getD]
        simp only [List.get?_eq_getElem?] at hg
        rw [hg]
        rfl
      rw [decide_eq_true hbit, this]
      rfl
    · rw [ih (i + 1) (by omega) (by omega), Bool.or_true]

theorem clear_hits_of_color (fb : pipe_framebuffer_state) (flags cbuf : Nat) (surf : pipe_surface)
    (hn : cbuf < fb.nr_cbufs) (hmax : cbuf < PIPE_MAX_COLOR_BUFS)
    (hbit : flags &&& (1 <<< (2 + cbuf)) ≠ 0) (hg : fb.cbufs.get? cbuf = some (some surf)) :
    clear_hits fb flags = true := by
  unfold clear_hits
  rw [color_loop_hits_of fb flags cbuf surf _ 0 (Nat.zero_le _) (by omega) hbit hg,
    decide_eq_true (land_color_ne_zero flags cbuf hmax hbit)]
  simp

/-- Two `lp_setup_clear` calls in a row outside ACTIVE: one transition to CLEARED (when
either call clears anything) and the two accumulator updates in order. -/
theorem lp_setup_clear_seq (h : lp_headers) (s t1 : lp_setup_context)
    (hna : s.state ≠ setup_state.SETUP_ACTIVE) (hc : cleared_of h s t1)
    (ca da sta fa cb db stb fb2 : Nat)
    (hza : fa &&& PIPE_CLEAR_DEPTHSTENCIL ≠ 0 → s.fb.zsbuf.isSome = true)
    (hzb : fb2 &&& PIPE_CLEAR_DEPTHSTENCIL ≠ 0 → s.fb.zsbuf.isSome = true) :
    (lp_setup_clear h ca da sta fa s).bind (lp_setup_clear h cb db stb fb2) =
      some (if (clear_hits s.fb fa || clear_hits s.fb fb2) = true then
        { t1 with clear :=
            clear_accumulate h s.fb cb db stb fb2 (clear_accumulate h s.fb ca da sta fa s.clear) }
      else s) := by
  rw [lp_setup_clear_deferred h ca da sta fa s t1 hna hc hza]
  by_cases hh : clear_hits s.fb fa = true
  · rw [if_pos hh, Option.some_bind, hh, Bool.true_or, if_pos rfl]
    have hna1 : ({ t1 with clear := clear_accumulate h s.fb ca da sta fa s.clear } :
        lp_setup_context).state ≠ setup_state.SETUP_ACTIVE := by
      show t1.state ≠ setup_state.SETUP_ACTIVE
      rw [hc.state]; decide
    rw [lp_setup_clear_deferred h cb db stb fb2
      { t1 with clear := clear_accumulate h s.fb ca da sta fa s.clear }
      { t1 with clear := clear_accumulate h s.fb ca da sta fa s.clear } hna1
      (cleared_of_self h _ hc.state) (by show _ → t1.fb.zsbuf.isSome = true; rw [hc.fb]; exact hzb)]
    show some (if clear_hits t1.fb fb2 = true then
      { t1 with clear := clear_accumulate h t1.fb cb db stb fb2 (clear_accumulate h s.fb ca da sta fa s.clear) }
      else { t1 with clear := clear_accumulate h s.fb ca da sta fa s.clear }) = _
    rw [hc.fb]
    by_cases hb : clear_hits s.fb fb2 = true
    · rw [if_pos hb]
    · rw [if_neg hb, clear_accumulate_no_hits h s.fb cb db stb fb2 _ (by simpa using hb)]
  · rw [if_neg hh, Option.some_bind,
      lp_setup_clear_deferred h cb db stb fb2 s t1 hna hc hzb,
      clear_accumulate_no_hits h s.fb ca da sta fa _ (by simpa using hh)]
    have : clear_hits s.fb fa = false := by simpa using hh
    rw [this, Bool.false_or]

/-! ## Depth and stencil bits of a merged clear -/

theorem zs_two_merge_left (z vd vs md ms : Nat) (hd : md &&& ms = 0) (hmd : md < 2 ^ 64) :
    ((((z &&& not64 md) ||| (vd &&& md)) &&& not64 ms) ||| (vs &&& ms)) &&& md = vd &&& md := by
  apply Nat.eq_of_testBit_eq
  intro i
  have hdi : (md.testBit i && ms.testBit i) = false := by
    rw [← Nat.testBit_land, hd]; simp
  have hmi : i ≥ 64 → md.testBit i = false := fun hi =>
    Nat.testBit_lt_two_pow (lt_of_lt_of_le hmd (Nat.pow_le_pow_right (by decide) hi))
  simp only [Nat.testBit_lor, Nat.testBit_land, testBit_not64]
  by_cases hi : i < 64
  · simp only [hi, decide_True, Bool.true_and]
    revert hdi
    cases z.testBit i <;> cases vd.testBit i <;> cases vs.testBit i <;> cases md.testBit i <;>
      cases ms.testBit i <;> simp
  · have h1 := hmi (by omega)
    simp [h1]

theorem zs_two_merge_right (z vd vs md ms : Nat) :
    ((((z &&& not64 md) ||| (vd &&& md)) &&& not64 ms) ||| (vs &&& ms)) &&& ms = vs &&& ms := by
  apply Nat.eq_of_testBit_eq
  intro i
  simp only [Nat.testBit_lor, Nat.testBit_land, testBit_not64]
  cases z.testBit i <;> cases vd.testBit i <;> cases vs.testBit i <;> cases md.testBit i <;>
    cases ms.testBit i <;> cases decide (i < 64) <;> rfl

theorem clear_zs_value_land_mask (h : lp_headers) (format : pipe_format) (d st f : Nat) :
    (clear_zs_value_mask h format d st f).1 &&& (clear_zs_value_mask h format d st f).2 =
      (clear_zs_value_mask h format d st f).1 := by
  unfold clear_zs_value_mask
  dsimp only
  split
  · apply Nat.eq_of_testBit_eq
    intro i
    simp only [Nat.testBit_lor, Nat.testBit_land]
    cases (h.util_pack64_z_stencil format d st % 2 ^ 64).testBit i <;>
      cases Nat.testBit _ i <;> simp
  · apply Nat.eq_of_testBit_eq
    intro i
    simp only [Nat.testBit_land]
    cases (h.util_pack64_z_stencil format d st % 2 ^ 64).testBit i <;>
      cases Nat.testBit _ i <;> simp

theorem clear_zs_value_depth (h : lp_headers) (format : pipe_format) (d st : Nat) :
    (clear_zs_value_mask h format d st PIPE_CLEAR_DEPTH).1 =
      h.util_pack64_z_stencil format d st % 2 ^ 64 &&&
        (h.util_pack64_mask_z_stencil format 0xFFFFFFFF 0 % 2 ^ 64) := by
  unfold clear_zs_value_mask
  dsimp only
  have e1 : PIPE_CLEAR_DEPTH &&& PIPE_CLEAR_DEPTH ≠ 0 := by decide
  have e2 : ¬ PIPE_CLEAR_DEPTH &&& PIPE_CLEAR_STENCIL ≠ 0 := by decide
  rw [if_pos e1, if_neg e2]
  split <;> rfl

theorem clear_zs_value_stencil (h : lp_headers) (format : pipe_format) (d st : Nat) :
    (clear_zs_value_mask h format d st PIPE_CLEAR_STENCIL).1 =
      h.util_pack64_z_stencil format d st % 2 ^ 64 &&&
        (h.util_pack64_mask_z_stencil format 0 0xFF % 2 ^ 64) := by
  unfold clear_zs_value_mask
  dsimp only
  have e1 : ¬ PIPE_CLEAR_STENCIL &&& PIPE_CLEAR_DEPTH ≠ 0 := by decide
  have e2 : PIPE_CLEAR_STENCIL &&& PIPE_CLEAR_STENCIL ≠ 0 := by decide
  rw [if_neg e1, if_pos e2]
  split <;> rfl

theorem clear_accumulate_depth (h : lp_headers) (fb : pipe_framebuffer_state)
    (color d st : Nat) (c : clear_state) :
    clear_accumulate h fb color d st PIPE_CLEAR_DEPTH c =
      zs_accumulate h fb d st PIPE_CLEAR_DEPTH c := by
  rw [clear_accumulate_eq, if_neg (by decide), if_pos (by decide)]
  rfl

theorem clear_accumulate_stencil (h : lp_headers) (fb : pipe_framebuffer_state)
    (color d st : Nat) (c : clear_state) :
    clear_accumulate h fb color d st PIPE_CLEAR_STENCIL c =
      zs_accumulate h fb d st PIPE_CLEAR_STENCIL c := by
  rw [clear_accumulate_eq, if_neg (by decide), if_pos (by decide)]
  rfl

theorem zs_accumulate_some (h : lp_headers) (fb : pipe_framebuffer_state) (z : pipe_surface)
    (hz : fb.zsbuf = some z) (d st f : Nat) (c : clear_state) :
    zs_accumulate h fb d st f c =
      { c with flags := c.flags ||| f,
               zsmask := c.zsmask ||| (clear_zs_value_mask h z.format d st f).2,
               zsvalue :=
                 (c.zsvalue &&& not64 (clear_zs_value_mask h z.format d st f).2) |||
                 ((clear_zs_value_mask h z.format d st f).1 &&&
                   (clear_zs_value_mask h z.format d st f).2) } := by
  unfold zs_accumulate
  rw [hz]

theorem lor_depth_stencil_land (x : Nat) :
    (x ||| PIPE_CLEAR_DEPTH ||| PIPE_CLEAR_STENCIL) &&& PIPE_CLEAR_DEPTHSTENCIL ≠ 0 := by
  intro h0
  have h1 := congrArg (fun n => Nat.testBit n 0) h0
  simp [PIPE_CLEAR_DEPTH, PIPE_CLEAR_STENCIL, PIPE_CLEAR_DEPTHSTENCIL] at h1

theorem clear_hits_depth (fb : pipe_framebuffer_state) : clear_hits fb PIPE_CLEAR_DEPTH = true := by
  unfold clear_hits
  rw [decide_eq_true (by decide : PIPE_CLEAR_DEPTH &&& PIPE_CLEAR_DEPTHSTENCIL ≠ 0)]
  rfl

/-! ## Clears bound immediately in an active scene -/

theorem take_oracle_all (s : lp_setup_context) (ha : all_succeed s) :
    (take_oracle s).1 = true ∧ all_succeed (take_oracle s).2 := by
  unfold take_oracle all_succeed at *
  cases ho : s.oracle with
  | nil => exact ⟨rfl, by simp [ho]⟩
  | cons b rest =>
    rw [ho] at ha
    have hb := ha b (List.mem_cons_self _ _)
    subst hb
    exact ⟨rfl, fun x hx => ha x (List.mem_cons_of_mem _ hx)⟩

theorem all_succeed_with_scene (i : Nat) (f : lp_scene → lp_scene) (s : lp_setup_context)
    (ha : all_succeed s) : all_succeed (with_scene i f s) := ha

theorem all_succeed_record (e : event) (s : lp_setup_context) (ha : all_succeed s) :
    all_succeed (record e s) := ha

theorem lp_scene_alloc_all (i : Nat) (s : lp_setup_context) (ha : all_succeed s) :
    (lp_scene_alloc i s).1.isSome = true ∧ all_succeed (lp_scene_alloc i s).2 := by
  obtain ⟨h1, h2⟩ := take_oracle_all s ha
  unfold lp_scene_alloc
  dsimp only
  rw [h1, if_pos rfl]
  exact ⟨rfl, h2⟩

theorem bin_everywhere_loop_all (cmd : lp_rast_cmd) (bins : List (List lp_rast_cmd))
    (o : List Bool) (ha : ∀ b ∈ o, b = true) :
    (bin_everywhere_loop cmd bins o).1 = true ∧
    ∀ b ∈ (bin_everywhere_loop cmd bins o).2.2, b = true := by
  induction bins generalizing o with
  | nil => cases o <;> exact ⟨rfl, ha⟩
  | cons b bs ih =>
    cases o with
    | nil =>
      simp only [bin_everywhere_loop]
      exact ih [] ha
    | cons x o1 =>
      have hx := ha x (List.mem_cons_self _ _)
      subst hx
      simp only [bin_everywhere_loop]
      exact ih o1 (fun y hy => ha y (List.mem_cons_of_mem _ hy))

theorem bin_everywhere_all (i : Nat) (cmd : lp_rast_cmd) (s : lp_setup_context)
    (ha : all_succeed s) :
    (lp_scene_bin_everywhere i cmd s).1 = true ∧ all_succeed (lp_scene_bin_everywhere i cmd s).2 := by
  unfold lp_scene_bin_everywhere
  cases hg : s.scenes.get? i with
  | none => exact ⟨rfl, ha⟩
  | some sc =>
    dsimp only
    exact bin_everywhere_loop_all cmd sc.bins s.oracle ha

theorem try_clear_color_active (h : lp_headers) (color cbuf sl : Nat) (surf : pipe_surface)
    (s : lp_setup_context) (hst : s.state = setup_state.SETUP_ACTIVE)
    (hsc : s.scene = some sl) (hlt : sl < s.scenes.length) (ha : all_succeed s)
    (hg : s.fb.cbufs.get? cbuf = some (some surf)) :
    ∃ t, lp_setup_try_clear_color_buffer h color cbuf s = some (true, t) ∧ keeps s t ∧
      all_succeed t ∧
      scene_bins t sl = (scene_bins s sl).map (fun b => b ++
        [lp_rast_cmd.LP_RAST_OP_CLEAR_COLOR cbuf (h.util_pack_color_union surf.format color)]) := by
  unfold lp_setup_try_clear_color_buffer
  simp only [hg, hst, if_true, hsc, if_pos hlt]
  have h1 := keeps_bins_lp_scene_alloc sl s
  obtain ⟨h2, h3⟩ := lp_scene_alloc_all sl s ha
  generalize lp_scene_alloc sl s = r at h1 h2 h3
  obtain ⟨o, s1⟩ := r
  cases o with
  | none => simp at h2
  | some p =>
    dsimp only at h1 h3 ⊢
    obtain ⟨h4, h5⟩ := bin_everywhere_all sl
      (lp_rast_cmd.LP_RAST_OP_CLEAR_COLOR cbuf (h.util_pack_color_union surf.format color)) s1 h3
    refine ⟨(lp_scene_bin_everywhere sl
      (lp_rast_cmd.LP_RAST_OP_CLEAR_COLOR cbuf (h.util_pack_color_union surf.format color)) s1).2,
      ?_, keeps_trans h1.base (keeps_bin_everywhere sl _ s1), h5, ?_⟩
    · rw [← h4]
    · rw [bin_everywhere_bins sl _ s1 h4, scene_bins_of_bins_of h1.bins sl]

theorem try_clear_zs_active (h : lp_headers) (depth stencil flags sl : Nat) (z : pipe_surface)
    (s : lp_setup_context) (hst : s.state = setup_state.SETUP_ACTIVE)
    (hsc : s.scene = some sl) (hlt : sl < s.scenes.length) (ha : all_succeed s)
    (hz : s.fb.zsbuf = some z) :
    ∃ t, lp_setup_try_clear_zs h depth stencil flags s = some (true, t) ∧ keeps s t ∧
      all_succeed t ∧
      scene_bins t sl = (scene_bins s sl).map (fun b => b ++
        [lp_rast_cmd.LP_RAST_OP_CLEAR_ZSTENCIL
          (clear_zs_value_mask h z.format depth stencil flags).1
          (clear_zs_value_mask h z.format depth stencil flags).2]) := by
  unfold lp_setup_try_clear_zs
  simp only [hz, hst, if_true, hsc, if_pos hlt]
  obtain ⟨h4, h5⟩ := bin_everywhere_all sl
    (lp_rast_cmd.LP_RAST_OP_CLEAR_ZSTENCIL
      (clear_zs_value_mask h z.format depth stencil flags).1
      (clear_zs_value_mask h z.format depth stencil flags).2) s ha
  refine ⟨(lp_scene_bin_everywhere sl
    (lp_rast_cmd.LP_RAST_OP_CLEAR_ZSTENCIL
      (clear_zs_value_mask h z.format depth stencil flags).1
      (clear_zs_value_mask h z.format depth stencil flags).2) s).2,
    ?_, keeps_bin_everywhere sl _ s, h5, ?_⟩
  · rw [← h4]
  · rw [bin_everywhere_bins sl _ s h4]

theorem immediate_color_cmds_pos (h : lp_headers) (fb : pipe_framebuffer_state)
    (color flags i n : Nat) (surf : pipe_surface)
    (hbit : flags &&& (1 <<< (2 + i)) ≠ 0) (hg : fb.cbufs.get? i = some (some surf)) :
    immediate_color_cmds h fb color flags i (n + 1) =
      lp_rast_cmd.LP_RAST_OP_CLEAR_COLOR i (h.util_pack_color_union surf.format color) ::
        immediate_color_cmds h fb color flags (i + 1) n := by
  unfold immediate_color_cmds
  have hd : fb.cbufs.getD i none = some surf := by
    rw [List.getD_eq_getElem?_getD]
    simp only [List.get?_eq_getElem?] at hg
    rw [hg]
    rfl
  rw [List.range'_succ, List.filterMap_cons, if_pos hbit, hd]
  rfl

theorem immediate_color_cmds_neg (h : lp_headers) (fb : pipe_framebuffer_state)
    (color flags i n : Nat)
    (hcond : ¬ (flags &&& (1 <<< (2 + i)) ≠ 0 ∧ (fb.cbufs.getD i none).isSome)) :
    immediate_color_cmds h fb color flags i (n + 1) =
      immediate_color_cmds h fb color flags (i + 1) n := by
  unfold immediate_color_cmds
  rw [List.range'_succ, List.filterMap_cons]
  by_cases hbit : flags &&& (1 <<< (2 + i)) ≠ 0
  · rw [if_pos hbit]
    have : fb.cbufs.getD i none = none := by
      cases hx : fb.cbufs.getD i none with
      | none => rfl
      | some v => exact absurd ⟨hbit, by rw [hx]; rfl⟩ hcond
    rw [this]
    rfl
  · rw [if_neg hbit]

/-- In ACTIVE with every allocation succeeding, the colour loop of `lp_setup_clear` bins one
clear-colour command per requested bound buffer and changes nothing else. -/
theorem clear_color_active (h : lp_headers) (color flags sl n i : Nat)
    (s : lp_setup_context) (hst : s.state = setup_state.SETUP_ACTIVE)
    (hsc : s.scene = some sl) (hlt : sl < s.scenes.length) (ha : all_succeed s) :
    ∃ t, lp_setup_clear_color h color flags n i s = some t ∧ keeps s t ∧ all_succeed t ∧
      scene_bins t sl = (scene_bins s sl).map (fun b => b ++
        immediate_color_cmds h s.fb color flags i n) := by
  induction n generalizing i s with
  | zero =>
    refine ⟨s, rfl, keeps_refl s, ha, ?_⟩
    simp [immediate_color_cmds]
  | succ n ih =>
    unfold lp_setup_clear_color
    by_cases hcond : flags &&& (1 <<< (2 + i)) ≠ 0 ∧ (s.fb.cbufs.getD i none).isSome
    · rw [if_pos hcond]
      obtain ⟨surf, hg⟩ := getD_isSome_get? _ _ hcond.2
      obtain ⟨t1, e1, k1, a1, b1⟩ := try_clear_color_active h color i sl surf s hst hsc hlt ha hg
      rw [e1]
      dsimp only
      obtain ⟨t, e2, k2, a2, b2⟩ := ih (i + 1) t1 (k1.state.trans hst) (k1.scene.trans hsc)
        (by rw [k1.len]; exact hlt) a1
      refine ⟨t, e2, keeps_trans k1 k2, a2, ?_⟩
      rw [b2, b1, List.map_map, k1.fb, immediate_color_cmds_pos h s.fb color flags i n surf hcond.1 hg]
      apply List.map_congr_left
      intro b _
      simp [Function.comp]
    · rw [if_neg hcond, immediate_color_cmds_neg h s.fb color flags i n hcond]
      exact ih (i + 1) s hst hsc hlt ha

theorem immediate_color_cmds_nil (h : lp_headers) (fb : pipe_framebuffer_state)
    (color flags i n : Nat) (hzero : flags &&& PIPE_CLEAR_COLOR = 0)
    (hn : i + n ≤ PIPE_MAX_COLOR_BUFS) : immediate_color_cmds h fb color flags i n = [] := by
  induction n generalizing i with
  | zero => simp [immediate_color_cmds]
  | succ n ih =>
    have hbit : flags &&& (1 <<< (2 + i)) = 0 := land_color_bit_zero flags i hzero (by omega)
    rw [immediate_color_cmds_neg h fb color flags i n (fun hx => hx.1 hbit)]
    exact ih (i + 1) (by omega)

theorem clear_zs_active (h : lp_headers) (s : lp_setup_context) (sl : Nat)
    (depth stencil flags : Nat)
    (hst : s.state = setup_state.SETUP_ACTIVE) (hsc : s.scene = some sl)
    (hlt : sl < s.scenes.length) (ha : all_succeed s)
    (hz : flags &&& PIPE_CLEAR_DEPTHSTENCIL ≠ 0 → s.fb.zsbuf.isSome = true) :
    ∃ s1, lp_setup_clear_zs h depth stencil flags s = some s1 ∧ keeps s s1 ∧ all_succeed s1 ∧
      scene_bins s1 sl = (scene_bins s sl).map (fun b => b ++
        immediate_zs_cmds h s.fb depth stencil flags) := by
  unfold lp_setup_clear_zs immediate_zs_cmds
  by_cases hf : flags &&& PIPE_CLEAR_DEPTHSTENCIL ≠ 0
  · rw [if_pos hf]
    cases hzb : s.fb.zsbuf with
    | none =>
      have := hz hf
      rw [hzb] at this
      exact absurd this (by decide)
    | some z =>
      obtain ⟨t1, e1, k1, a1, b1⟩ := try_clear_zs_active h depth stencil
        (flags &&& PIPE_CLEAR_DEPTHSTENCIL) sl z s hst hsc hlt ha hzb
      dsimp only
      rw [e1]
      dsimp only
      rw [if_pos hf]
      exact ⟨t1, rfl, k1, a1, b1⟩
  · rw [if_neg hf]
    refine ⟨s, rfl, keeps_refl s, ha, ?_⟩
    cases s.fb.zsbuf with
    | none => simp
    | some z =>
      dsimp only
      rw [if_neg hf]
      simp

/-! ## The retry of a failed clear -/

/-- From ACTIVE the transition to FLUSHED cannot fail: the owned scene is handed to the
rasterizer and the context is reset. -/
theorem flush_from_active (h : lp_headers) (s : lp_setup_context) (sl : Nat)
    (hst : s.state = setup_state.SETUP_ACTIVE) (hsc : s.scene = some sl)
    (hlt : sl < s.scenes.length) :
    ∃ t, set_scene_state h s setup_state.SETUP_FLUSHED = some (true, t) ∧
      t.state = setup_state.SETUP_FLUSHED ∧ is_reset t ∧ t.fb = s.fb ∧
      t.scenes.length = s.scenes.length ∧ t.num_threads = s.num_threads ∧
      queue_events t.trace = queue_events s.trace ++ [sl] := by
  have hne : s.state ≠ setup_state.SETUP_FLUSHED := by rw [hst]; decide
  have hex : ∃ t, set_scene_state h s setup_state.SETUP_FLUSHED = some (true, t) := by
    simp [set_scene_state, set_scene_state_acquire, set_scene_state_switch, hst,
      lp_setup_rasterize_scene, hsc, hlt]
  obtain ⟨t, ht⟩ := hex
  obtain ⟨h1, h2, h3, h4, h5, _, _, sl2, pre, h6, _, h8, h9⟩ :=
    set_scene_state_flushed_true h s t hne ht
  refine ⟨t, ht, h1, h2, h3, h4, h5, ?_⟩
  have hsl : sl2 = sl := by
    rw [hsc] at h6
    exact (Option.some.inj h6).symm
  subst hsl
  have : pre ++ [event.scene_end_binning sl2, event.rast_queue_scene sl2] =
      (pre ++ [event.scene_end_binning sl2]) ++ [event.rast_queue_scene sl2] := by simp
  rw [h8, this, queue_events_append_queue,
    queue_events_append_other _ (event.scene_end_binning sl2) rfl, h9]

theorem try_clear_color_false (h : lp_headers) (color cbuf : Nat) (s s1 : lp_setup_context)
    (hr : lp_setup_try_clear_color_buffer h color cbuf s = some (false, s1)) :
    s.state = setup_state.SETUP_ACTIVE ∧ keeps s s1 ∧
    (∃ sl, s.scene = some sl ∧ sl < s.scenes.length) ∧
    ∃ surf, s.fb.cbufs.get? cbuf = some (some surf) := by
  unfold lp_setup_try_clear_color_buffer at hr
  split at hr
  · rename_i surf hg
    dsimp only at hr
    split at hr
    · rename_i hst
      split at hr
      · exact Option.noConfusion hr
      · rename_i sl hsc
        split at hr
        · rename_i hlt
          refine ⟨hst, ?_, ⟨sl, hsc, hlt⟩, surf, hg⟩
          have h1 := keeps_bins_lp_scene_alloc sl s
          generalize lp_scene_alloc sl s = r at h1 hr
          obtain ⟨o, s2⟩ := r
          cases o with
          | none =>
            simp only [Option.some.injEq, Prod.mk.injEq, true_and] at hr
            rw [← hr]
            exact h1.base
          | some p =>
            simp only [Option.some.injEq] at hr
            have h2 := keeps_bin_everywhere sl
              (lp_rast_cmd.LP_RAST_OP_CLEAR_COLOR cbuf (h.util_pack_color_union surf.format color)) s2
            rw [hr] at h2
            exact keeps_trans h1.base h2
        · exact Option.noConfusion hr
    · split at hr
      · exact Option.noConfusion hr
      · simp at hr
  · exact Option.noConfusion hr

theorem try_clear_zs_false (h : lp_headers) (depth stencil flags : Nat) (s s1 : lp_setup_context)
    (hr : lp_setup_try_clear_zs h depth stencil flags s = some (false, s1)) :
    s.state = setup_state.SETUP_ACTIVE ∧ keeps s s1 ∧
    (∃ sl, s.scene = some sl ∧ sl < s.scenes.length) ∧ s.fb.zsbuf.isSome = true := by
  unfold lp_setup_try_clear_zs at hr
  split at hr
  · exact Option.noConfusion hr
  · rename_i z hz
    dsimp only at hr
    split at hr
    · rename_i hst
      split at hr
      · exact Option.noConfusion hr
      · rename_i sl hsc
        split at hr
        · rename_i hlt
          refine ⟨hst, ?_, ⟨sl, hsc, hlt⟩, by rw [hz]; rfl⟩
          simp only [Option.some.injEq] at hr
          have h2 := keeps_bin_everywhere sl
            (lp_rast_cmd.LP_RAST_OP_CLEAR_ZSTENCIL
              (clear_zs_value_mask h z.format depth stencil flags).1
              (clear_zs_value_mask h z.format depth stencil flags).2) s
          rw [hr] at h2
          exact h2
        · exact Option.noConfusion hr
    · split at hr
      · exact Option.noConfusion hr
      · simp at hr

/-- From FLUSHED the transition to CLEARED acquires a scene with empty bins and queues
nothing. -/
theorem cleared_of_flushed (h : lp_headers) (u : lp_setup_context)
    (hst : u.state = setup_state.SETUP_FLUSHED) (hne : u.scenes ≠ []) :
    ∃ t1, cleared_of h u t1 ∧ queue_events t1.trace = queue_events u.trace ∧
      ∃ i, t1.scene = some i ∧ ∀ b ∈ scene_bins t1 i, b = [] := by
  have hna : u.state ≠ setup_state.SETUP_ACTIVE := by rw [hst]; decide
  obtain ⟨t1, hc⟩ := cleared_of_total h u hna hne
  obtain ⟨_, s1, ha, ht⟩ := set_scene_state_cleared h u t1 true (by rw [hst]; decide) hc.run
  obtain ⟨_, hq, _, _, hfl⟩ := acquire_some h u s1 ha
  obtain ⟨i, sc, q1, q2, _, q4, _⟩ := hfl hst
  subst ht
  refine ⟨_, hc, hq, i, q1, ?_⟩
  intro b hb
  unfold scene_bins at hb
  change b ∈ ((s1.scenes.get? i).map (fun sc => sc.bins)).getD [] at hb
  rw [q2] at hb
  simp only [Option.map_some', Option.getD_some, q4] at hb
  exact List.eq_of_mem_replicate hb

/-! ## References taken by the fragment-state snapshot -/

theorem pool_only_eq {s t : lp_setup_context} (hp : pool_only s t) :
    t.ssbos = s.ssbos ∧ t.ssbo_write_mask = s.ssbo_write_mask ∧ t.images = s.images ∧
    t.fs = s.fs ∧ t.dirty = s.dirty ∧ t.pipe = s.pipe ∧ t.constants = s.constants ∧
    t.blend_color = s.blend_color := by
  unfold pool_only at hp
  refine ⟨?_, ?_, ?_, ?_, ?_, ?_, ?_, ?_⟩ <;> rw [hp]

theorem lp_scene_alloc_spec (i : Nat) (s : lp_setup_context) :
    pool_only s (lp_scene_alloc i s).2 ∧
    (lp_scene_alloc i s).2.trace = s.trace ++ [event.scene_alloc i (lp_scene_alloc i s).1.isSome] := by
  unfold lp_scene_alloc take_oracle
  cases ho : s.oracle with
  | nil => exact ⟨by simp [pool_only, with_scene, record, ho], by simp [with_scene, record]⟩
  | cons b rest =>
    cases b with
    | true => exact ⟨by simp [pool_only, with_scene, record], by simp [with_scene, record]⟩
    | false => exact ⟨by simp [pool_only, with_scene, record], by simp [with_scene, record]⟩

theorem add_resource_reference_spec (i res : Nat) (w : Bool) (s : lp_setup_context) :
    pool_only s (lp_scene_add_resource_reference i res w s).2 ∧
    (lp_scene_add_resource_reference i res w s).2.trace =
      s.trace ++ [event.add_resource_reference i res w (lp_scene_add_resource_reference i res w s).1] := by
  unfold lp_scene_add_resource_reference take_oracle
  cases ho : s.oracle with
  | nil => exact ⟨by simp [pool_only, with_scene, record, ho], by simp [with_scene, record]⟩
  | cons b rest =>
    cases b with
    | true => exact ⟨by simp [pool_only, with_scene, record], by simp [with_scene, record]⟩
    | false => exact ⟨by simp [pool_only, with_scene, record], by simp [with_scene, record]⟩

theorem add_frag_shader_reference_spec (i v : Nat) (s : lp_setup_context) :
    pool_only s (lp_scene_add_frag_shader_reference i v s).2 ∧
    (lp_scene_add_frag_shader_reference i v s).2.trace =
      s.trace ++ [event.add_frag_shader_reference i v (lp_scene_add_frag_shader_reference i v s).1] := by
  unfold lp_scene_add_frag_shader_reference take_oracle
  cases ho : s.oracle with
  | nil => exact ⟨by simp [pool_only, with_scene, record, ho], by simp [with_scene, record]⟩
  | cons b rest =>
    cases b with
    | true => exact ⟨by simp [pool_only, with_scene, record], by simp [with_scene, record]⟩
    | false => exact ⟨by simp [pool_only, with_scene, record], by simp [with_scene, record]⟩

theorem ref_outcome_step (s : lp_setup_context) (r1 r2 : Bool × lp_setup_context)
    (e : event) (rest : List event) (hp : pool_only s r1.2)
    (ht : r1.2.trace = s.trace ++ [e]) (h2 : ref_outcome r1.2 r2 rest) :
    ref_outcome s r2 (e :: rest) := by
  obtain ⟨p2, a2, b2⟩ := h2
  refine ⟨pool_only_trans hp p2, fun hb => ?_, fun hb => ?_⟩
  · rw [a2 hb, ht]
    simp
  · obtain ⟨pre, e2, q1, q2⟩ := b2 hb
    exact ⟨e :: pre, e2, by rw [q1, ht]; simp, q2⟩

theorem add_tex_references_spec (sl : Nat) (l : List (Option Nat)) (s : lp_setup_context) :
    ref_outcome s (add_tex_references sl l s) (tex_reference_events sl l) := by
  induction l generalizing s with
  | nil => exact ⟨pool_only_refl s, fun _ => by simp [add_tex_references, tex_reference_events],
      fun hb => by simp [add_tex_references] at hb⟩
  | cons o rest ih =>
    cases o with
    | none =>
      simp only [add_tex_references, tex_reference_events, List.filterMap_cons, Option.map_none']
      exact ih s
    | some tex =>
      simp only [add_tex_references, tex_reference_events, List.filterMap_cons, Option.map_some']
      obtain ⟨hp, ht⟩ := add_resource_reference_spec sl tex false s
      cases hb : (lp_scene_add_resource_reference sl tex false s).1 with
      | true =>
        rw [hb] at ht
        simp only [if_true]
        exact ref_outcome_step s _ _ _ _ hp ht (ih _)
      | false =>
        rw [hb] at ht
        simp only [Bool.false_eq_true, if_false]
        exact ⟨hp, fun hx => by simp at hx, fun _ => ⟨[], event.add_resource_reference sl tex false false,
          by rw [ht, List.append_nil], rfl⟩⟩

theorem add_ssbo_references_spec (sl mask i : Nat) (l : List pipe_shader_buffer)
    (s : lp_setup_context) :
    ref_outcome s (add_ssbo_references sl mask i l s) (ssbo_reference_events sl mask i l) := by
  induction l generalizing s i with
  | nil => exact ⟨pool_only_refl s, fun _ => by simp [add_ssbo_references, ssbo_reference_events],
      fun hb => by simp [add_ssbo_references] at hb⟩
  | cons b rest ih =>
    cases hbuf : b.buffer with
    | none =>
      simp only [add_ssbo_references, ssbo_reference_events, hbuf, List.nil_append]
      exact ih (i + 1) s
    | some buffer =>
      simp only [add_ssbo_references, ssbo_reference_events, hbuf, List.singleton_append]
      obtain ⟨hp, ht⟩ := add_resource_reference_spec sl buffer
        (decide (mask &&& (1 <<< i) ≠ 0)) s
      cases hb : (lp_scene_add_resource_reference sl buffer
          (decide (mask &&& (1 <<< i) ≠ 0)) s).1 with
      | true =>
        rw [hb] at ht
        simp only [if_true]
        exact ref_outcome_step s _ _ _ _ hp ht (ih (i + 1) _)
      | false =>
        rw [hb] at ht
        simp only [Bool.false_eq_true, if_false]
        exact ⟨hp, fun hx => by simp at hx, fun _ => ⟨[], event.add_resource_reference sl buffer (decide (mask &&& (1 <<< i) ≠ 0)) false,
          by rw [ht, List.append_nil], rfl⟩⟩

theorem add_image_references_spec (sl : Nat) (l : List pipe_image_view) (s : lp_setup_context) :
    ref_outcome s (add_image_references sl l s) (image_reference_events sl l) := by
  induction l generalizing s with
  | nil => exact ⟨pool_only_refl s,
      fun _ => by simp [add_image_references, image_reference_events],
      fun hb => by simp [add_image_references] at hb⟩
  | cons im rest ih =>
    cases hres : im.resource with
    | none =>
      simp only [add_image_references, image_reference_events, List.filterMap_cons, hres,
        Option.map_none']
      exact ih s
    | some res =>
      simp only [add_image_references, image_reference_events, List.filterMap_cons, hres,
        Option.map_some']
      obtain ⟨hp, ht⟩ := add_resource_reference_spec sl res
        (decide (im.shader_access &&& PIPE_IMAGE_ACCESS_WRITE ≠ 0)) s
      cases hb : (lp_scene_add_resource_reference sl res
          (decide (im.shader_access &&& PIPE_IMAGE_ACCESS_WRITE ≠ 0)) s).1 with
      | true =>
        rw [hb] at ht
        simp only [if_true]
        exact ref_outcome_step s _ _ _ _ hp ht (ih _)
      | false =>
        rw [hb] at ht
        simp only [Bool.false_eq_true, if_false]
        exact ⟨hp, fun hx => by simp at hx, fun _ => ⟨[], event.add_resource_reference sl res
            (decide (im.shader_access &&& PIPE_IMAGE_ACCESS_WRITE ≠ 0)) false,
          by rw [ht, List.append_nil], rfl⟩⟩

theorem ref_outcome_append (s : lp_setup_context) (r1 r2 : Bool × lp_setup_context)
    (e1 e2 : List event) (h1 : ref_outcome s r1 e1) (hb1 : r1.1 = true)
    (h2 : ref_outcome r1.2 r2 e2) : ref_outcome s r2 (e1 ++ e2) := by
  obtain ⟨p1, a1, _⟩ := h1
  obtain ⟨p2, a2, b2⟩ := h2
  refine ⟨pool_only_trans p1 p2, fun hb => ?_, fun hb => ?_⟩
  · rw [a2 hb, a1 hb1, List.append_assoc]
  · obtain ⟨pre, e, q1, q2⟩ := b2 hb
    exact ⟨e1 ++ pre, e, by rw [q1, a1 hb1]; simp, q2⟩

theorem update_fs_references_spec (sl : Nat) (s : lp_setup_context) :
    ref_outcome s (update_fs_references sl s)
      (tex_reference_events sl s.fs.current_tex ++
        ssbo_reference_events sl s.ssbo_write_mask 0 s.ssbos ++
        image_reference_events sl s.images) := by
  unfold update_fs_references
  have h1 := add_tex_references_spec sl s.fs.current_tex s
  generalize add_tex_references sl s.fs.current_tex s = r1 at h1 ⊢
  obtain ⟨ok1, s1⟩ := r1
  cases ok1 with
  | false =>
    simp only [Bool.false_eq_true, if_false]
    exact ⟨h1.1, fun hx => by simp at hx, h1.2.2⟩
  | true =>
    simp only [if_true]
    obtain ⟨e1, e2, e3, _⟩ := pool_only_eq h1.1
    dsimp only at e1 e2 e3
    have h2 := add_ssbo_references_spec sl s1.ssbo_write_mask 0 s1.ssbos s1
    rw [e1, e2] at h2 ⊢
    generalize add_ssbo_references sl s.ssbo_write_mask 0 s.ssbos s1 = r2 at h2 ⊢
    obtain ⟨ok2, s2⟩ := r2
    have h12 := ref_outcome_append s (true, s1) (ok2, s2) _ _ h1 rfl h2
    cases ok2 with
    | false =>
      simp only [Bool.false_eq_true, if_false]
      exact ⟨h12.1, fun hx => by simp at hx, h12.2.2⟩
    | true =>
      simp only [if_true]
      obtain ⟨_, _, f3, _⟩ := pool_only_eq h12.1
      dsimp only at f3
      have h3 := add_image_references_spec sl s2.images s2
      rw [f3] at h3 ⊢
      exact ref_outcome_append s (true, s2) _ _ _ h12 rfl h3

theorem stored_only_of_pool_only {s t : lp_setup_context} (hp : pool_only s t) :
    stored_only s t := by
  unfold stored_only
  unfold pool_only at hp ⊢
  have hfs : t.fs = s.fs := by rw [hp]
  have : ({ s.fs with stored := t.fs.stored } : fs_state) = s.fs := by rw [hfs]
  rw [this]
  exact hp

theorem stored_only_trans {s t u : lp_setup_context} (a : stored_only s t) (b : stored_only t u) :
    stored_only s u := by
  unfold stored_only pool_only at *
  rw [b, a]

theorem stored_only_fields {s t : lp_setup_context} (hp : stored_only s t) :
    t.dirty = s.dirty ∧ t.fs.current = s.fs.current ∧ t.fs.current_tex = s.fs.current_tex ∧
    t.ssbos = s.ssbos ∧ t.ssbo_write_mask = s.ssbo_write_mask ∧ t.images = s.images ∧
    t.state = s.state ∧ t.clear = s.clear := by
  unfold stored_only pool_only at hp
  refine ⟨?_, ?_, ?_, ?_, ?_, ?_, ?_, ?_⟩ <;> rw [hp]

theorem update_fs_store_spec (h : lp_headers) (sl serial : Nat) (s : lp_setup_context) :
    stored_only s (update_fs_store h sl serial s).2 ∧
    ((update_fs_store h sl serial s).1 = true →
      (update_fs_store h sl serial s).2.fs.stored = some (new_stored_rast_state h serial s) ∧
      (update_fs_store h sl serial s).2.trace =
        s.trace ++ (event.add_frag_shader_reference sl s.fs.current.variant true ::
          (tex_reference_events sl s.fs.current_tex ++
            ssbo_reference_events sl s.ssbo_write_mask 0 s.ssbos ++
            image_reference_events sl s.images))) ∧
    ((update_fs_store h sl serial s).1 = false →
      ∃ pre e, (update_fs_store h sl serial s).2.trace = s.trace ++ pre ++ [e] ∧
        is_failed_reference e = true) ∧
    ((update_fs_store h sl serial s).2.fs.stored = s.fs.stored ∨
      (update_fs_store h sl serial s).2.fs.stored ≠ none) := by
  unfold update_fs_store
  obtain ⟨hp, ht⟩ := add_frag_shader_reference_spec sl s.fs.current.variant s
  generalize lp_scene_add_frag_shader_reference sl s.fs.current.variant s = r at hp ht ⊢
  obtain ⟨ok, s1⟩ := r
  cases ok with
  | false =>
    dsimp only at hp ht ⊢
    simp only [Bool.false_eq_true, if_false]
    refine ⟨stored_only_of_pool_only hp, fun hx => by simp at hx,
      fun _ => ⟨[], event.add_frag_shader_reference sl s.fs.current.variant false,
        by rw [ht, List.append_nil], rfl⟩, Or.inl ?_⟩
    rw [(pool_only_eq hp).2.2.2.1]
  | true =>
    dsimp only at hp ht ⊢
    simp only [if_true]
    obtain ⟨e1, e2, e3, e4, _⟩ := pool_only_eq hp
    have h2 := update_fs_references_spec sl
      { s1 with fs := { s1.fs with stored := some (new_stored_rast_state h serial s) } }
    generalize update_fs_references sl
      { s1 with fs := { s1.fs with stored := some (new_stored_rast_state h serial s) } } = r2
      at h2 ⊢
    obtain ⟨p2, a2, b2⟩ := h2
    have hst : r2.2.fs.stored = some (new_stored_rast_state h serial s) := by
      rw [(pool_only_eq p2).2.2.2.1]
    dsimp only at a2 b2
    rw [e1, e2, e3, e4, ht] at a2
    rw [ht] at b2
    refine ⟨?_, fun hx => ⟨hst, by rw [a2 hx]; simp⟩, fun hx => ?_, Or.inr (by rw [hst]; simp)⟩
    · unfold stored_only
      unfold pool_only at hp p2 ⊢
      rw [p2]
      dsimp only
      rw [hp]
    · obtain ⟨pre, e, q1, q2⟩ := b2 hx
      exact ⟨event.add_frag_shader_reference sl s.fs.current.variant true :: pre, e,
        by rw [q1]; simp, q2⟩

theorem new_stored_rast_state_congr (h : lp_headers) (serial : Nat) (s t : lp_setup_context)
    (hc : t.fs.current = s.fs.current) :
    new_stored_rast_state h serial t = new_stored_rast_state h serial s := by
  unfold new_stored_rast_state
  rw [hc]

/-- The fragment-state block: it is skipped unless the category is dirty and the stored record
differs; otherwise it stores a new record with the reference calls of `fs_store_events`, or
fails. -/
theorem update_fs_spec (h : lp_headers) (sl : Nat) (s : lp_setup_context) :
    stored_only s (update_fs h sl s).2 ∧
    ((update_fs h sl s).2.fs.stored = s.fs.stored ∨ (update_fs h sl s).2.fs.stored ≠ none) ∧
    (¬ (s.dirty &&& LP_SETUP_NEW_FS ≠ 0 ∧ fs_differs s = true) → update_fs h sl s = (true, s)) ∧
    (s.dirty &&& LP_SETUP_NEW_FS ≠ 0 → fs_differs s = true →
      ((update_fs h sl s).1 = true →
        (∃ serial, (update_fs h sl s).2.fs.stored = some (new_stored_rast_state h serial s)) ∧
        (update_fs h sl s).2.trace = s.trace ++ fs_store_events sl s) ∧
      ((update_fs h sl s).1 = false →
        (update_fs h sl s).2.trace = s.trace ++ [event.scene_alloc sl false] ∨
        ∃ pre e, (update_fs h sl s).2.trace = s.trace ++ pre ++ [e] ∧
          is_failed_reference e = true)) := by
  unfold update_fs
  by_cases hd : s.dirty &&& LP_SETUP_NEW_FS ≠ 0
  · rw [if_pos hd]
    by_cases hf : fs_differs s = true
    · rw [if_pos hf]
      obtain ⟨hp, ht⟩ := lp_scene_alloc_spec sl s
      generalize lp_scene_alloc sl s = r at hp ht
      obtain ⟨o, s1⟩ := r
      cases o with
      | none =>
        dsimp only at hp ht ⊢
        refine ⟨stored_only_of_pool_only hp, Or.inl (by rw [(pool_only_eq hp).2.2.2.1]),
          fun hx => absurd ⟨hd, hf⟩ hx, fun _ _ => ⟨fun hx => by simp at hx, fun _ => Or.inl ?_⟩⟩
        rw [ht]
        rfl
      | some serial =>
        dsimp only at hp ht ⊢
        obtain ⟨e1, e2, e3, e4, _⟩ := pool_only_eq hp
        obtain ⟨q1, q2, q3, q4⟩ := update_fs_store_spec h sl serial s1
        refine ⟨stored_only_trans (stored_only_of_pool_only hp) q1, ?_,
          fun hx => absurd ⟨hd, hf⟩ hx, fun _ _ => ⟨fun hx => ?_, fun hx => Or.inr ?_⟩⟩
        · rcases q4 with q4 | q4
          · exact Or.inl (by rw [q4, e4])
          · exact Or.inr q4
        · obtain ⟨a1, a2⟩ := q2 hx
          refine ⟨⟨serial, ?_⟩, ?_⟩
          · rw [a1, new_stored_rast_state_congr h serial s s1 (by rw [e4])]
          · rw [a2, ht, e1, e2, e3, e4]
            simp [fs_store_events]
        · obtain ⟨pre, e, b1, b2⟩ := q3 hx
          exact ⟨event.scene_alloc sl true :: pre, e, by rw [b1, ht]; simp, b2⟩
    · rw [if_neg hf]
      exact ⟨stored_only_of_pool_only (pool_only_refl s), Or.inl rfl, fun _ => rfl,
        fun _ hx => absurd hx hf⟩
  · rw [if_neg hd]
    exact ⟨stored_only_of_pool_only (pool_only_refl s), Or.inl rfl, fun _ => rfl,
      fun hx => absurd hx hd⟩

/-! ## The blocks of `try_update_scene_state` -/

theorem snap_refl (sl : Nat) (s : lp_setup_context) : snap sl s s :=
  ⟨rfl, fun hx => hx, rfl, rfl, rfl, rfl, rfl, ⟨[], by simp, by simp⟩⟩

theorem snap_trans {sl : Nat} {s t u : lp_setup_context} (a : snap sl s t) (b : snap sl t u) :
    snap sl s u := by
  obtain ⟨e1, h1, h2⟩ := a.allocs
  obtain ⟨e2, g1, g2⟩ := b.allocs
  refine ⟨b.stored.trans a.stored, fun hx => b.dirty_fs (a.dirty_fs hx),
    b.current_tex.trans a.current_tex, b.variant.trans a.variant, b.ssbos.trans a.ssbos,
    b.ssbo_write_mask.trans a.ssbo_write_mask, b.images.trans a.images,
    ⟨e1 ++ e2, by rw [g1, h1, List.append_assoc], ?_⟩⟩
  intro e he
  rcases List.mem_append.mp he with he | he
  · exact h2 e he
  · exact g2 e he

theorem dirty_fs_lor (d b : Nat) (hd : d &&& LP_SETUP_NEW_FS ≠ 0) :
    (d ||| b) &&& LP_SETUP_NEW_FS ≠ 0 := by
  have e : LP_SETUP_NEW_FS = 1 <<< 0 := rfl
  rw [e, land_bit_ne_zero_iff] at hd ⊢
  rw [Nat.testBit_lor, hd, Bool.true_or]

theorem dirty_fs_set (d : Nat) : (d ||| LP_SETUP_NEW_FS) &&& LP_SETUP_NEW_FS ≠ 0 := by
  have e : LP_SETUP_NEW_FS = 1 <<< 0 := rfl
  rw [e, land_bit_ne_zero_iff, Nat.testBit_lor]
  simp

theorem snap_lp_scene_alloc (sl : Nat) (s : lp_setup_context) :
    snap sl s (lp_scene_alloc sl s).2 := by
  obtain ⟨hp, ht⟩ := lp_scene_alloc_spec sl s
  obtain ⟨e1, e2, e3, e4, e5, _⟩ := pool_only_eq hp
  refine ⟨by rw [e4], fun hx => by rw [e5]; exact hx, by rw [e4], by rw [e4], e1, e2, e3,
    ⟨_, ht, ?_⟩⟩
  intro e he
  rw [List.mem_singleton] at he
  exact ⟨_, he⟩

theorem snap_with_jit (sl : Nat) (f : lp_jit_context → lp_jit_context) (s : lp_setup_context) :
    snap sl s (with_jit f s) :=
  ⟨rfl, fun hx => hx, rfl, rfl, rfl, rfl, rfl, ⟨[], by simp [with_jit], by simp⟩⟩

theorem snap_mark_dirty (sl bits : Nat) (s : lp_setup_context) : snap sl s (mark_dirty bits s) :=
  ⟨rfl, fun hx => dirty_fs_lor _ _ hx, rfl, rfl, rfl, rfl, rfl, ⟨[], by simp [mark_dirty], by simp⟩⟩

theorem snap_update_viewports (sl : Nat) (s : lp_setup_context) :
    snap sl s (update_viewports sl s).2 := by
  have h1 := snap_lp_scene_alloc sl s
  unfold update_viewports
  split
  · generalize lp_scene_alloc sl s = r at h1 ⊢
    obtain ⟨p, s1⟩ := r
    cases p with
    | none => exact h1
    | some stored =>
      exact snap_trans h1 (snap_trans (snap_with_jit sl _ s1) (snap_mark_dirty sl _ _))
  · exact snap_refl sl s

theorem snap_update_blend_color (sl : Nat) (s : lp_setup_context) :
    snap sl s (update_blend_color sl s).2 := by
  have h1 := snap_lp_scene_alloc sl s
  unfold update_blend_color
  split
  · generalize lp_scene_alloc sl s = r at h1 ⊢
    obtain ⟨p, s1⟩ := r
    cases p with
    | none => exact h1
    | some stored =>
      refine snap_trans h1 (snap_trans ?_ (snap_trans (snap_with_jit sl _ _) (snap_mark_dirty sl _ _)))
      exact ⟨rfl, fun hx => hx, rfl, rfl, rfl, rfl, rfl, ⟨[], by simp, by simp⟩⟩
  · exact snap_refl sl s

theorem snap_set_fs_constants (sl n : Nat) (b : List pipe_constant_buffer)
    (s : lp_setup_context) : snap sl s (lp_setup_set_fs_constants n b s) :=
  ⟨rfl, fun hx => dirty_fs_lor _ _ hx, rfl, rfl, rfl, rfl, rfl,
    ⟨[], by simp [lp_setup_set_fs_constants], by simp⟩⟩

theorem snap_finish_constant (h : lp_headers) (sl i : Nat) (c : constants_state)
    (p : data_ptr) (s : lp_setup_context) : snap sl s (finish_constant h i c p s) := by
  unfold finish_constant
  refine snap_trans ?_ (snap_trans (snap_with_jit sl _ _) (snap_mark_dirty sl _ _))
  exact ⟨rfl, fun hx => hx, rfl, rfl, rfl, rfl, rfl, ⟨[], by simp, by simp⟩⟩

theorem snap_update_constant (h : lp_headers) (sl i : Nat) (c : constants_state)
    (s : lp_setup_context) : snap sl s (update_constant h sl i c s).2 := by
  have h1 := snap_lp_scene_alloc sl s
  unfold update_constant
  dsimp only
  split
  · split
    · split
      · generalize lp_scene_alloc sl s = r at h1 ⊢
        obtain ⟨p, s1⟩ := r
        cases p with
        | none => exact h1
        | some stored => exact snap_trans h1 (snap_finish_constant h sl i _ _ s1)
      · exact snap_finish_constant h sl i _ _ s
    · exact snap_finish_constant h sl i _ _ s
  · exact snap_finish_constant h sl i _ _ s

theorem snap_update_constants_loop (h : lp_headers) (sl n i : Nat) (s : lp_setup_context) :
    snap sl s (update_constants_loop h sl n i s).2 := by
  induction n generalizing i s with
  | zero => exact snap_refl sl s
  | succ n ih =>
    unfold update_constants_loop
    split
    · exact snap_refl sl s
    · rename_i c _
      have h1 := snap_update_constant h sl i c s
      dsimp only
      split
      · exact snap_trans h1 (ih _ _)
      · exact h1

theorem snap_update_constants (h : lp_headers) (sl : Nat) (s : lp_setup_context) :
    snap sl s (update_constants h sl s).2 := by
  unfold update_constants
  split
  · exact snap_update_constants_loop h sl _ _ s
  · exact snap_refl sl s

theorem snap_update_ssbos (h : lp_headers) (sl : Nat) (s : lp_setup_context) :
    snap sl s (update_ssbos h s) := by
  unfold update_ssbos
  split
  · split
    · exact snap_refl sl s
    · exact snap_trans (snap_with_jit sl _ s) (snap_mark_dirty sl _ _)
  · exact snap_refl sl s

theorem vp_scissor_fields (h : lp_headers) (s : lp_setup_context) :
    (vp_scissor h s).fs = s.fs ∧ (vp_scissor h s).trace = s.trace ∧
    (vp_scissor h s).scene = s.scene := by
  unfold vp_scissor
  split
  · split
    · exact ⟨rfl, rfl, rfl⟩
    · exact ⟨rfl, rfl, rfl⟩
  · exact ⟨rfl, rfl, rfl⟩

theorem update_scissor_fields (h : lp_headers) (s : lp_setup_context) :
    (update_scissor h s).fs = s.fs ∧ (update_scissor h s).trace = s.trace ∧
    (update_scissor h s).scene = s.scene := by
  unfold update_scissor
  split
  · dsimp only
    split
    · exact vp_scissor_fields h _
    · split
      · exact vp_scissor_fields h _
      · exact ⟨rfl, rfl, rfl⟩
  · exact ⟨rfl, rfl, rfl⟩

/-- The structure of `try_update_scene_state`: the blocks before the fragment-state block
lead from `s` to some `s5`; either one of them failed, or the result is that of the
fragment-state block on `s5`, followed on success by the scissor block and `dirty = 0`. -/
theorem try_update_scene_state_spec (h : lp_headers) (s t : lp_setup_context) (b : Bool)
    (hr : try_update_scene_state h s = some (b, t)) :
    ∃ sl s5, s.scene = some sl ∧ sl < s.scenes.length ∧ snap sl s s5 ∧
      ((b = false ∧ t = s5) ∨
       ((update_fs h sl s5).1 = false ∧ b = false ∧ t = (update_fs h sl s5).2) ∨
       ((update_fs h sl s5).1 = true ∧ b = true ∧
         t = { update_scissor h (update_fs h sl s5).2 with dirty := 0 })) := by
  unfold try_update_scene_state at hr
  cases hsc : s.scene with
  | none => simp [hsc] at hr
  | some sl =>
    simp only [hsc] at hr
    split at hr
    · rename_i hlt
      have h1 := snap_update_viewports sl s
      generalize update_viewports sl s = r1 at h1 hr
      obtain ⟨ok1, s1⟩ := r1
      cases ok1 with
      | false =>
        simp at hr
        obtain ⟨hb, ht⟩ := hr
        subst hb; subst ht
        exact ⟨sl, _, rfl, hlt, h1, Or.inl ⟨rfl, rfl⟩⟩
      | true =>
        simp only [if_true] at hr
        have h2 := snap_update_blend_color sl s1
        generalize update_blend_color sl s1 = r2 at h2 hr
        obtain ⟨ok2, s2⟩ := r2
        cases ok2 with
        | false =>
          simp at hr
          obtain ⟨hb, ht⟩ := hr
          subst hb; subst ht
          exact ⟨sl, _, rfl, hlt, snap_trans h1 h2, Or.inl ⟨rfl, rfl⟩⟩
        | true =>
          simp only [if_true] at hr
          have h3 : snap sl s2 (if s2.pipe.dirty_fs_constants then
              lp_setup_set_fs_constants s2.pipe.constants.length s2.pipe.constants s2
            else s2) := by
            split
            · exact snap_set_fs_constants sl _ _ _
            · exact snap_refl sl _
          generalize (if s2.pipe.dirty_fs_constants then
              lp_setup_set_fs_constants s2.pipe.constants.length s2.pipe.constants s2
            else s2) = s3 at h3 hr
          have h4 := snap_update_constants h sl s3
          generalize update_constants h sl s3 = r4 at h4 hr
          obtain ⟨ok4, s4⟩ := r4
          cases ok4 with
          | false =>
            simp at hr
            obtain ⟨hb, ht⟩ := hr
            subst hb; subst ht
            exact ⟨sl, _, rfl, hlt, snap_trans (snap_trans (snap_trans h1 h2) h3) h4,
              Or.inl ⟨rfl, rfl⟩⟩
          | true =>
            simp only [if_true] at hr
            have h5 := snap_trans (snap_trans (snap_trans (snap_trans h1 h2) h3) h4)
              (snap_update_ssbos h sl s4)
            refine ⟨sl, update_ssbos h s4, rfl, hlt, h5, Or.inr ?_⟩
            cases hok : (update_fs h sl (update_ssbos h s4)).1 with
            | false =>
              rw [hok] at hr
              simp only [Bool.false_eq_true, if_false, Option.some.injEq, Prod.mk.injEq] at hr
              exact Or.inl ⟨rfl, hr.1.symm, hr.2.symm⟩
            | true =>
              rw [hok] at hr
              simp only [if_true, Option.some.injEq, Prod.mk.injEq] at hr
              exact Or.inr ⟨rfl, hr.1.symm, hr.2.symm⟩
    · simp at hr

theorem ssbo_reference_events_ok (sl mask i : Nat) (l : List pipe_shader_buffer) :
    ∀ e ∈ ssbo_reference_events sl mask i l, is_failed_reference e = false := by
  induction l generalizing i with
  | nil => simp [ssbo_reference_events]
  | cons b rest ih =>
    intro e he
    simp only [ssbo_reference_events, List.mem_append] at he
    rcases he with he | he
    · cases hb : b.buffer with
      | none => simp [hb] at he
      | some buffer =>
        simp only [hb, List.mem_singleton] at he
        rw [he]
        rfl
    · exact ih (i + 1) e he

theorem tex_reference_events_ok (sl : Nat) (l : List (Option Nat)) :
    ∀ e ∈ tex_reference_events sl l, is_failed_reference e = false := by
  intro e he
  unfold tex_reference_events at he
  rw [List.mem_filterMap] at he
  obtain ⟨o, _, ho⟩ := he
  cases o with
  | none => simp at ho
  | some tex =>
    simp only [Option.map_some', Option.some.injEq] at ho
    rw [← ho]
    rfl

theorem image_reference_events_ok (sl : Nat) (l : List pipe_image_view) :
    ∀ e ∈ image_reference_events sl l, is_failed_reference e = false := by
  intro e he
  unfold image_reference_events at he
  rw [List.mem_filterMap] at he
  obtain ⟨im, _, ho⟩ := he
  cases hres : im.resource with
  | none => simp [hres] at ho
  | some res =>
    simp only [hres, Option.map_some', Option.some.injEq] at ho
    rw [← ho]
    rfl

theorem fs_store_events_ok (sl : Nat) (s : lp_setup_context) :
    ∀ e ∈ fs_store_events sl s, is_failed_reference e = false := by
  intro e he
  unfold fs_store_events at he
  rcases List.mem_append.mp he with he | he
  · rcases List.mem_append.mp he with he | he
    · rcases List.mem_append.mp he with he | he
      · simp only [List.mem_cons, List.mem_singleton, List.not_mem_nil, or_false] at he
        rcases he with he | he
        · rw [he]; rfl
        · rw [he]; rfl
      · exact tex_reference_events_ok sl _ e he
    · exact ssbo_reference_events_ok sl _ 0 _ e he
  · exact image_reference_events_ok sl _ e he

theorem fs_store_events_congr (sl : Nat) {s t : lp_setup_context}
    (e1 : t.fs.current.variant = s.fs.current.variant)
    (e2 : t.fs.current_tex = s.fs.current_tex) (e3 : t.ssbos = s.ssbos)
    (e4 : t.ssbo_write_mask = s.ssbo_write_mask) (e5 : t.images = s.images) :
    fs_store_events sl t = fs_store_events sl s := by
  unfold fs_store_events
  rw [e1, e2, e3, e4, e5]

/-! ## The stored fragment state over sequences of operations -/

theorem fs_inv_of_pool_only {s t : lp_setup_context} (hp : pool_only s t) (hi : fs_inv s) :
    fs_inv t := by
  obtain ⟨_, _, _, e4, e5, _⟩ := pool_only_eq hp
  unfold fs_inv at *
  rw [e4, e5]
  exact hi

theorem fs_inv_of_reset {t : lp_setup_context} (hr : is_reset t) : fs_inv t := by
  intro _
  rw [hr.dirty]
  decide

theorem fs_inv_of_eq {s t : lp_setup_context} (h1 : t.fs.stored = s.fs.stored)
    (h2 : t.dirty = s.dirty) (hi : fs_inv s) : fs_inv t := by
  unfold fs_inv at *
  rw [h1, h2]
  exact hi

theorem try_update_scene_state_fs (h : lp_headers) (s t : lp_setup_context) (b : Bool)
    (hr : try_update_scene_state h s = some (b, t)) (hi : fs_inv s) :
    fs_inv t ∧ (b = true → t.fs.stored ≠ none ∧ t.dirty = 0) := by
  obtain ⟨sl, s5, _, _, hsn, hcase⟩ := try_update_scene_state_spec h s t b hr
  have hi5 : fs_inv s5 := by
    intro hx
    rw [hsn.stored] at hx
    exact hsn.dirty_fs (hi hx)
  obtain ⟨q1, q2, q3, q4⟩ := update_fs_spec h sl s5
  rcases hcase with ⟨hb, ht⟩ | ⟨hok, hb, ht⟩ | ⟨hok, hb, ht⟩
  · subst hb; subst ht
    exact ⟨hi5, fun hx => by simp at hx⟩
  · subst hb; subst ht
    refine ⟨?_, fun hx => by simp at hx⟩
    intro hx
    rw [(stored_only_fields q1).1]
    rcases q2 with q2 | q2
    · rw [q2] at hx
      exact hi5 hx
    · exact absurd hx q2
  · subst hb
    have hfs : t.fs = (update_fs h sl s5).2.fs := by
      rw [ht]
      exact (update_scissor_fields h _).1
    have hst : t.fs.stored ≠ none := by
      rw [hfs]
      by_cases hstore : s5.dirty &&& LP_SETUP_NEW_FS ≠ 0 ∧ fs_differs s5 = true
      · obtain ⟨⟨serial, a1⟩, _⟩ := (q4 hstore.1 hstore.2).1 hok
        rw [a1]
        simp
      · rw [q3 hstore]
        dsimp only
        intro hx
        apply hstore
        refine ⟨hi5 hx, ?_⟩
        unfold fs_differs
        rw [hx]
    refine ⟨fun hx => absurd hx hst, fun _ => ⟨hst, ?_⟩⟩
    rw [ht]

theorem pool_only_lp_scene_alloc (i : Nat) (s : lp_setup_context) :
    pool_only s (lp_scene_alloc i s).2 :=
  (lp_scene_alloc_spec i s).1

theorem pool_only_bin_everywhere (i : Nat) (cmd : lp_rast_cmd) (s : lp_setup_context) :
    pool_only s (lp_scene_bin_everywhere i cmd s).2 := by
  unfold lp_scene_bin_everywhere
  cases s.scenes.get? i with
  | none => exact pool_only_refl s
  | some sc => rfl

theorem pool_only_begin_binning_clear_color (sl n cbuf : Nat) (s : lp_setup_context) :
    pool_only s (begin_binning_clear_color sl n cbuf s).2 := by
  induction n generalizing cbuf s with
  | zero => exact pool_only_refl s
  | succ n ih =>
    unfold begin_binning_clear_color
    split
    · have h1 := pool_only_lp_scene_alloc sl s
      generalize lp_scene_alloc sl s = r at h1 ⊢
      obtain ⟨o, s1⟩ := r
      cases o with
      | none => exact h1
      | some p =>
        dsimp only
        have h2 := pool_only_bin_everywhere sl
          (lp_rast_cmd.LP_RAST_OP_CLEAR_COLOR cbuf (s1.clear.color_val.getD cbuf 0)) s1
        split
        · exact pool_only_trans h1 (pool_only_trans h2 (ih _ _))
        · exact pool_only_trans h1 h2
    · exact ih _ s

theorem begin_binning_clears_fs (sl : Nat) (s : lp_setup_context) :
    (begin_binning_clears sl s).2.fs = s.fs ∧ (begin_binning_clears sl s).2.dirty = s.dirty := by
  unfold begin_binning_clears
  have h1 : pool_only s (if s.clear.flags &&& PIPE_CLEAR_COLOR ≠ 0 then
      begin_binning_clear_color sl s.fb.nr_cbufs 0 s else (true, s)).2 := by
    split
    · exact pool_only_begin_binning_clear_color sl _ _ s
    · exact pool_only_refl s
  generalize (if s.clear.flags &&& PIPE_CLEAR_COLOR ≠ 0 then
      begin_binning_clear_color sl s.fb.nr_cbufs 0 s else (true, s)) = r1 at h1 ⊢
  obtain ⟨ok1, s1⟩ := r1
  obtain ⟨_, _, _, e4, e5, _⟩ := pool_only_eq h1
  cases ok1 with
  | false => exact ⟨e4, e5⟩
  | true =>
    dsimp only
    simp only [if_true]
    have h2 : pool_only s1 (if s1.fb.zsbuf.isSome &&
        decide (s1.clear.flags &&& PIPE_CLEAR_DEPTHSTENCIL ≠ 0) then
        lp_scene_bin_everywhere sl
          (lp_rast_cmd.LP_RAST_OP_CLEAR_ZSTENCIL s1.clear.zsvalue s1.clear.zsmask) s1
      else (true, s1)).2 := by
      split
      · exact pool_only_bin_everywhere sl _ s1
      · exact pool_only_refl s1
    generalize (if s1.fb.zsbuf.isSome &&
        decide (s1.clear.flags &&& PIPE_CLEAR_DEPTHSTENCIL ≠ 0) then
        lp_scene_bin_everywhere sl
          (lp_rast_cmd.LP_RAST_OP_CLEAR_ZSTENCIL s1.clear.zsvalue s1.clear.zsmask) s1
      else (true, s1)) = r2 at h2 ⊢
    obtain ⟨ok2, s2⟩ := r2
    obtain ⟨_, _, _, f4, f5, _⟩ := pool_only_eq h2
    dsimp only at e4 e5 f4 f5
    cases ok2 with
    | false => exact ⟨f4.trans e4, f5.trans e5⟩
    | true => exact ⟨f4.trans e4, f5.trans e5⟩

theorem begin_binning_fs (h : lp_headers) (s t : lp_setup_context) (b : Bool)
    (hr : begin_binning h s = some (b, t)) (hi : fs_inv s) :
    fs_inv t ∧ (b = true → t.fs.stored ≠ none ∧ t.dirty = 0) := by
  unfold begin_binning at hr
  cases hsc : s.scene with
  | none => simp [hsc] at hr
  | some sl =>
    simp only [hsc] at hr
    split at hr
    · have h0 := pool_only_take_oracle s
      generalize take_oracle s = r at hr h0
      obtain ⟨ok, s0⟩ := r
      cases ok with
      | false =>
        simp only [Bool.false_eq_true, if_false, Option.some.injEq, Prod.mk.injEq] at hr
        obtain ⟨hb, ht⟩ := hr
        subst hb; subst ht
        exact ⟨fs_inv_of_pool_only (pool_only_trans h0
          (pool_only_trans (pool_only_record _ _) (pool_only_with_scene _ _ _))) hi,
          fun hx => by simp at hx⟩
      | true =>
        simp only [if_true] at hr
        have hi2 : fs_inv (with_scene sl
            (fun sc => { sc with fence := some (lp_fence_create (max 1 s.num_threads)) })
            (record (event.fence_create (max 1 s.num_threads) true) s0)) :=
          fs_inv_of_pool_only (pool_only_trans h0
            (pool_only_trans (pool_only_record _ _) (pool_only_with_scene _ _ _))) hi
        generalize (with_scene sl
            (fun sc => { sc with fence := some (lp_fence_create (max 1 s.num_threads)) })
            (record (event.fence_create (max 1 s.num_threads) true) s0)) = s2 at hr hi2
        cases htu : try_update_scene_state h s2 with
        | none => simp [htu] at hr
        | some x =>
          obtain ⟨b3, s3⟩ := x
          obtain ⟨j3, k3⟩ := try_update_scene_state_fs h s2 s3 b3 htu hi2
          simp only [htu] at hr
          cases b3 with
          | false =>
            simp only [Option.some.injEq, Prod.mk.injEq] at hr
            obtain ⟨hb, ht⟩ := hr
            subst hb; subst ht
            exact ⟨j3, fun hx => by simp at hx⟩
          | true =>
            simp only [Option.some.injEq] at hr
            obtain ⟨f1, f2⟩ := begin_binning_clears_fs sl s3
            rw [hr] at f1 f2
            dsimp only at f1 f2
            obtain ⟨k4, k5⟩ := k3 rfl
            have hst : t.fs.stored ≠ none := by rw [f1]; exact k4
            exact ⟨fun hx => absurd hx hst, fun _ => ⟨hst, by rw [f2]; exact k5⟩⟩
    · simp at hr

theorem set_scene_state_fs (h : lp_headers) (s t : lp_setup_context) (new_state : setup_state)
    (b : Bool) (hr : set_scene_state h s new_state = some (b, t)) (hi : fs_inv s) :
    fs_inv t := by
  by_cases he : s.state = new_state
  · rw [set_scene_state_same h s new_state he] at hr
    simp only [Option.some.injEq, Prod.mk.injEq] at hr
    rw [← hr.2]
    exact hi
  · cases b with
    | false =>
      obtain ⟨_, h2, _⟩ := set_scene_state_false h s t new_state hr
      exact fs_inv_of_reset h2
    | true =>
      cases new_state with
      | SETUP_FLUSHED =>
        obtain ⟨_, h2, _⟩ := set_scene_state_flushed_true h s t he hr
        exact fs_inv_of_reset h2
      | SETUP_CLEARED =>
        obtain ⟨_, s1, ha, ht⟩ := set_scene_state_cleared h s t true he hr
        obtain ⟨hp, _⟩ := acquire_some h s s1 ha
        subst ht
        have hi1 : fs_inv s1 := fs_inv_of_pool_only hp hi
        exact hi1
      | SETUP_ACTIVE =>
        obtain ⟨s1, s2, ha, hb, ht⟩ := set_scene_state_active_true h s t he hr
        obtain ⟨hp, _⟩ := acquire_some h s s1 ha
        subst ht
        exact (begin_binning_fs h s1 s2 true hb (fs_inv_of_pool_only hp hi)).1

/-- A successful transition to ACTIVE leaves a stored fragment-state record and nothing
dirty. -/
theorem set_scene_state_active_fs (h : lp_headers) (s t : lp_setup_context)
    (hne : s.state ≠ setup_state.SETUP_ACTIVE)
    (hr : set_scene_state h s setup_state.SETUP_ACTIVE = some (true, t)) (hi : fs_inv s) :
    t.fs.stored ≠ none ∧ t.dirty = 0 := by
  obtain ⟨s1, s2, ha, hb, ht⟩ := set_scene_state_active_true h s t hne hr
  obtain ⟨hp, _⟩ := acquire_some h s s1 ha
  subst ht
  exact (begin_binning_fs h s1 s2 true hb (fs_inv_of_pool_only hp hi)).2 rfl

theorem try_clear_color_buffer_fs (h : lp_headers) (color cbuf : Nat)
    (s t : lp_setup_context) (b : Bool)
    (hr : lp_setup_try_clear_color_buffer h color cbuf s = some (b, t)) (hi : fs_inv s) :
    fs_inv t := by
  unfold lp_setup_try_clear_color_buffer at hr
  split at hr
  · rename_i surf _
    simp only at hr
    split at hr
    · split at hr
      · simp at hr
      · rename_i sl _
        split at hr
        · have h1 := pool_only_lp_scene_alloc sl s
          generalize lp_scene_alloc sl s = r at hr h1
          obtain ⟨o, s1⟩ := r
          cases o with
          | none =>
            simp only [Option.some.injEq, Prod.mk.injEq] at hr
            rw [← hr.2]
            exact fs_inv_of_pool_only h1 hi
          | some p =>
            simp only [Option.some.injEq] at hr
            have h2 := pool_only_bin_everywhere sl
              (lp_rast_cmd.LP_RAST_OP_CLEAR_COLOR cbuf (h.util_pack_color_union surf.format color)) s1
            rw [hr] at h2
            exact fs_inv_of_pool_only (pool_only_trans h1 h2) hi
        · simp at hr
    · cases hs : set_scene_state h s setup_state.SETUP_CLEARED with
      | none => simp [hs] at hr
      | some x =>
        obtain ⟨b1, s1⟩ := x
        simp only [hs, Option.some.injEq, Prod.mk.injEq] at hr
        have hi1 := set_scene_state_fs h s s1 _ b1 hs hi
        rw [← hr.2]
        exact hi1
  · simp at hr

theorem try_clear_zs_fs (h : lp_headers) (depth stencil flags : Nat)
    (s t : lp_setup_context) (b : Bool)
    (hr : lp_setup_try_clear_zs h depth stencil flags s = some (b, t)) (hi : fs_inv s) :
    fs_inv t := by
  unfold lp_setup_try_clear_zs at hr
  split at hr
  · simp at hr
  · rename_i zsbuf _
    simp only at hr
    split at hr
    · split at hr
      · simp at hr
      · rename_i sl _
        split at hr
        · simp only [Option.some.injEq] at hr
          have h2 := pool_only_bin_everywhere sl
            (lp_rast_cmd.LP_RAST_OP_CLEAR_ZSTENCIL
              (clear_zs_value_mask h zsbuf.format depth stencil flags).1
              (clear_zs_value_mask h zsbuf.format depth stencil flags).2) s
          rw [hr] at h2
          exact fs_inv_of_pool_only h2 hi
        · simp at hr
    · cases hs : set_scene_state h s setup_state.SETUP_CLEARED with
      | none => simp [hs] at hr
      | some x =>
        obtain ⟨b1, s1⟩ := x
        simp only [hs, Option.some.injEq, Prod.mk.injEq] at hr
        have hi1 := set_scene_state_fs h s s1 _ b1 hs hi
        rw [← hr.2]
        exact hi1

theorem lp_setup_clear_zs_fs (h : lp_headers) (depth stencil flags : Nat)
    (s t : lp_setup_context) (hr : lp_setup_clear_zs h depth stencil flags s = some t)
    (hi : fs_inv s) : fs_inv t := by
  unfold lp_setup_clear_zs at hr
  split at hr
  · simp only at hr
    split at hr
    · simp at hr
    · rename_i s1 h1
      simp only [Option.some.injEq] at hr
      rw [← hr]
      exact try_clear_zs_fs h _ _ _ s s1 true h1 hi
    · rename_i s1 h1
      have hi1 := try_clear_zs_fs h _ _ _ s s1 false h1 hi
      split at hr
      · simp at hr
      · rename_i b2 s2 h2
        have hi2 := set_scene_state_fs h s1 s2 _ b2 h2 hi1
        cases h3 : lp_setup_try_clear_zs h depth stencil (flags &&& PIPE_CLEAR_DEPTHSTENCIL) s2 with
        | none => simp [h3] at hr
        | some x =>
          obtain ⟨b3, s3⟩ := x
          simp only [h3, Option.map_some', Option.some.injEq] at hr
          rw [← hr]
          exact try_clear_zs_fs h _ _ _ s2 s3 b3 h3 hi2
  · simp only [Option.some.injEq] at hr
    rw [← hr]
    exact hi

theorem lp_setup_clear_color_fs (h : lp_headers) (color flags n i : Nat)
    (s t : lp_setup_context) (hr : lp_setup_clear_color h color flags n i s = some t)
    (hi : fs_inv s) : fs_inv t := by
  induction n generalizing i s with
  | zero =>
    simp only [lp_setup_clear_color, Option.some.injEq] at hr
    rw [← hr]
    exact hi
  | succ n ih =>
    unfold lp_setup_clear_color at hr
    split at hr
    · split at hr
      · simp at hr
      · rename_i s1 h1
        exact ih _ _ hr (try_clear_color_buffer_fs h _ _ s s1 true h1 hi)
      · rename_i s1 h1
        have hi1 := try_clear_color_buffer_fs h _ _ s s1 false h1 hi
        split at hr
        · simp at hr
        · rename_i b2 s2 h2
          have hi2 := set_scene_state_fs h s1 s2 _ b2 h2 hi1
          split at hr
          · simp at hr
          · rename_i b3 s3 h3
            exact ih _ _ hr (try_clear_color_buffer_fs h _ _ s2 s3 b3 h3 hi2)
    · exact ih _ _ hr hi

theorem lp_setup_clear_fs (h : lp_headers) (color depth stencil flags : Nat)
    (s t : lp_setup_context) (hr : lp_setup_clear h color depth stencil flags s = some t)
    (hi : fs_inv s) : fs_inv t := by
  unfold lp_setup_clear at hr
  split at hr
  · simp at hr
  · rename_i s1 h1
    have hi1 := lp_setup_clear_zs_fs h _ _ _ s s1 h1 hi
    split at hr
    · exact lp_setup_clear_color_fs h _ _ _ _ s1 t hr hi1
    · simp only [Option.some.injEq] at hr
      rw [← hr]
      exact hi1

theorem lp_setup_flush_fs (h : lp_headers) (s t : lp_setup_context)
    (hr : lp_setup_flush h s = some t) (hi : fs_inv s) : fs_inv t := by
  unfold lp_setup_flush at hr
  cases h1 : set_scene_state h s setup_state.SETUP_FLUSHED with
  | none => simp [h1] at hr
  | some x =>
    obtain ⟨b, s1⟩ := x
    simp only [h1, Option.map_some', Option.some.injEq] at hr
    rw [← hr]
    exact set_scene_state_fs h s s1 _ b h1 hi

theorem lp_setup_bind_framebuffer_fs (h : lp_headers) (fb : pipe_framebuffer_state)
    (s t : lp_setup_context) (hr : lp_setup_bind_framebuffer h fb s = some t)
    (hi : fs_inv s) : fs_inv t := by
  unfold lp_setup_bind_framebuffer at hr
  cases h1 : set_scene_state h s setup_state.SETUP_FLUSHED with
  | none => simp [h1] at hr
  | some x =>
    obtain ⟨b, s1⟩ := x
    simp only [h1, Option.some.injEq] at hr
    rw [← hr]
    have hi1 := set_scene_state_fs h s s1 _ b h1 hi
    intro hx
    exact dirty_fs_lor _ _ (hi1 hx)

theorem lp_setup_update_state_fs (h : lp_headers) (u : Bool) (s t : lp_setup_context)
    (b : Bool) (hr : lp_setup_update_state h u s = some (b, t)) (hi : fs_inv s) :
    fs_inv t := by
  unfold lp_setup_update_state at hr
  split at hr
  · simp at hr
  · rename_i s1 h1
    simp only [Option.some.injEq, Prod.mk.injEq] at hr
    rw [← hr.2]
    split at h1
    · exact set_scene_state_fs h s s1 _ false h1 hi
    · simp at h1
  · rename_i s1 h1
    have hi1 : fs_inv s1 := by
      split at h1
      · exact set_scene_state_fs h s s1 _ true h1 hi
      · simp only [Option.some.injEq, Prod.mk.injEq, true_and] at h1
        rw [← h1]
        exact hi
    split at hr
    · split at hr
      · simp at hr
      · rename_i s2 h2
        simp only [Option.some.injEq, Prod.mk.injEq] at hr
        rw [← hr.2]
        exact (try_update_scene_state_fs h s1 s2 true h2 hi1).1
      · rename_i s2 h2
        have hi2 := (try_update_scene_state_fs h s1 s2 false h2 hi1).1
        split at hr
        · simp at hr
        · rename_i s3 h3
          simp only [Option.some.injEq, Prod.mk.injEq] at hr
          rw [← hr.2]
          exact set_scene_state_fs h s2 s3 _ false h3 hi2
        · rename_i s3 h3
          have hi3 := set_scene_state_fs h s2 s3 _ true h3 hi2
          split at hr
          · simp at hr
          · rename_i s4 h4
            simp only [Option.some.injEq, Prod.mk.injEq] at hr
            rw [← hr.2]
            exact set_scene_state_fs h s3 s4 _ false h4 hi3
          · rename_i s4 h4
            have hi4 := set_scene_state_fs h s3 s4 _ true h4 hi3
            split at hr
            · simp only [Option.some.injEq, Prod.mk.injEq] at hr
              rw [← hr.2]
              exact hi4
            · exact (try_update_scene_state_fs h s4 t b hr hi4).1
    · simp only [Option.some.injEq, Prod.mk.injEq] at hr
      rw [← hr.2]
      exact hi1

theorem lp_setup_flush_and_restart_fs (h : lp_headers) (s t : lp_setup_context) (b : Bool)
    (hr : lp_setup_flush_and_restart h s = some (b, t)) (hi : fs_inv s) : fs_inv t := by
  unfold lp_setup_flush_and_restart at hr
  split at hr
  · simp at hr
  · rename_i s1 h1
    simp only [Option.some.injEq, Prod.mk.injEq] at hr
    rw [← hr.2]
    exact set_scene_state_fs h s s1 _ false h1 hi
  · rename_i s1 h1
    exact lp_setup_update_state_fs h true s1 t b hr (set_scene_state_fs h s s1 _ true h1 hi)

theorem fs_inv_mark_had_queries (x : lp_setup_context) (hi : fs_inv x) :
    fs_inv (match x.scene with
      | some i => with_scene i (fun sc => { sc with had_queries := true }) x
      | none => x) := by
  split
  · exact hi
  · exact hi

theorem bin_query_cmd_fs (h : lp_headers) (cmd : lp_rast_cmd) (sl : Nat)
    (s t : lp_setup_context) (b : Bool) (hr : bin_query_cmd h cmd sl s = some (b, t))
    (hi : fs_inv s) : fs_inv t := by
  unfold bin_query_cmd at hr
  simp only at hr
  have h1 := fs_inv_of_pool_only (pool_only_bin_everywhere sl cmd s) hi
  generalize lp_scene_bin_everywhere sl cmd s = r at hr h1
  obtain ⟨ok, s1⟩ := r
  cases ok with
  | true =>
    simp only [if_true, Option.some.injEq, Prod.mk.injEq] at hr
    rw [← hr.2]
    exact fs_inv_mark_had_queries s1 h1
  | false =>
    simp only [Bool.false_eq_true, if_false] at hr
    split at hr
    · simp at hr
    · rename_i s2 h2
      simp only [Option.some.injEq, Prod.mk.injEq] at hr
      rw [← hr.2]
      exact lp_setup_flush_and_restart_fs h s1 s2 false h2 h1
    · rename_i s2 h2
      have hi2 := lp_setup_flush_and_restart_fs h s1 s2 true h2 h1
      split at hr
      · simp at hr
      · rename_i sl1 _
        split at hr
        · have h3 := fs_inv_of_pool_only (pool_only_bin_everywhere sl1 cmd s2) hi2
          generalize lp_scene_bin_everywhere sl1 cmd s2 = r1 at hr h3
          obtain ⟨ok1, s3⟩ := r1
          cases ok1 with
          | true =>
            simp only [if_true, Option.some.injEq, Prod.mk.injEq] at hr
            rw [← hr.2]
            exact fs_inv_mark_had_queries s3 h3
          | false =>
            simp only [Bool.false_eq_true, if_false, Option.some.injEq, Prod.mk.injEq] at hr
            rw [← hr.2]
            exact h3
        · simp at hr

theorem remove_active_query_fs (pq : llvmpipe_query) (s : lp_setup_context) (hi : fs_inv s) :
    fs_inv (remove_active_query pq s) := by
  unfold remove_active_query
  split
  · simp only
    split
    · exact hi
    · exact hi
  · exact hi

theorem lp_setup_begin_query_fs (h : lp_headers) (pq : llvmpipe_query)
    (s t : lp_setup_context) (hr : lp_setup_begin_query h pq s = some t) (hi : fs_inv s) :
    fs_inv t := by
  unfold lp_setup_begin_query at hr
  split at hr
  · simp at hr
  · rename_i b1 s1 h1
    have hi1 := set_scene_state_fs h s s1 _ b1 h1 hi
    split at hr
    · simp only [Option.some.injEq] at hr
      rw [← hr]
      exact hi1
    · split at hr
      · simp only [Option.some.injEq] at hr
        rw [← hr]
        exact hi1
      · simp only at hr
        have hi2 : fs_inv { s1 with
            active_queries := s1.active_queries.set s1.active_binned_queries (some pq.ptr),
            active_binned_queries := s1.active_binned_queries + 1 } := hi1
        split at hr
        · simp only [Option.some.injEq] at hr
          rw [← hr]
          exact hi2
        · rename_i sl _
          split at hr
          · cases h3 : bin_query_cmd h (lp_rast_cmd.LP_RAST_OP_BEGIN_QUERY pq.ptr) sl
                { s1 with
                  active_queries := s1.active_queries.set s1.active_binned_queries (some pq.ptr),
                  active_binned_queries := s1.active_binned_queries + 1 } with
            | none => simp [h3] at hr
            | some x =>
              obtain ⟨b3, s3⟩ := x
              simp only [h3, Option.map_some', Option.some.injEq] at hr
              rw [← hr]
              exact bin_query_cmd_fs h _ sl _ s3 b3 h3 hi2
          · simp at hr

theorem lp_setup_end_query_fs (h : lp_headers) (pq : llvmpipe_query)
    (s t : lp_setup_context) (hr : lp_setup_end_query h pq s = some t) (hi : fs_inv s) :
    fs_inv t := by
  unfold lp_setup_end_query at hr
  split at hr
  · simp at hr
  · rename_i b1 s1 h1
    have hi1 := set_scene_state_fs h s s1 _ b1 h1 hi
    split at hr
    · rename_i sl _
      split at hr
      · simp only at hr
        have hi2 : fs_inv (record (event.fence_reference pq.ptr sl) s1) := hi1
        split at hr
        · split at hr
          · simp at hr
          · rename_i b3 s3 h3
            simp only [Option.some.injEq] at hr
            rw [← hr]
            exact remove_active_query_fs pq s3 (bin_query_cmd_fs h _ sl _ s3 b3 h3 hi2)
        · simp only [Option.some.injEq] at hr
          rw [← hr]
          exact remove_active_query_fs pq _ hi2
      · simp at hr
    · simp only [Option.some.injEq] at hr
      rw [← hr]
      exact remove_active_query_fs pq _ hi1

theorem apply_op_fs (h : lp_headers) (op : setup_op) (s t : lp_setup_context)
    (hr : apply_op h op s = some t) (hi : fs_inv s) : fs_inv t := by
  cases op with
  | clear color depth stencil flags => exact lp_setup_clear_fs h _ _ _ _ s t hr hi
  | flush => exact lp_setup_flush_fs h s t hr hi
  | bind_framebuffer fb => exact lp_setup_bind_framebuffer_fs h fb s t hr hi
  | update_state u =>
    simp only [apply_op] at hr
    cases h1 : lp_setup_update_state h u s with
    | none => simp [h1] at hr
    | some x =>
      obtain ⟨b, s1⟩ := x
      simp only [h1, Option.map_some', Option.some.injEq] at hr
      rw [← hr]
      exact lp_setup_update_state_fs h u s s1 b h1 hi
  | begin_query pq => exact lp_setup_begin_query_fs h pq s t hr hi
  | end_query pq => exact lp_setup_end_query_fs h pq s t hr hi
  | flush_and_restart =>
    simp only [apply_op] at hr
    cases h1 : lp_setup_flush_and_restart h s with
    | none => simp [h1] at hr
    | some x =>
      obtain ⟨b, s1⟩ := x
      simp only [h1, Option.map_some', Option.some.injEq] at hr
      rw [← hr]
      exact lp_setup_flush_and_restart_fs h s s1 b h1 hi
  | rast_signal slot =>
    simp only [apply_op, Option.some.injEq] at hr
    rw [← hr]
    exact hi

theorem run_ops_fs (h : lp_headers) (ops : List setup_op) (s t : lp_setup_context)
    (hr : run_ops h ops s = some t) (hi : fs_inv s) : fs_inv t := by
  induction ops generalizing s with
  | nil =>
    simp only [run_ops, Option.some.injEq] at hr
    rw [← hr]
    exact hi
  | cons op rest ih =>
    unfold run_ops at hr
    cases h1 : apply_op h op s with
    | none => simp [h1] at hr
    | some s1 =>
      simp only [h1] at hr
      exact ih s1 hr (apply_op_fs h op s s1 h1 hi)

theorem lp_setup_create_fs (h : lp_headers) (num_threads : Nat) (pipe : llvmpipe_context)
    (oracle : List Bool) (s0 : lp_setup_context)
    (hc : lp_setup_create h num_threads pipe oracle = some s0) : fs_inv s0 := by
  unfold lp_setup_create at hc
  simp only at hc
  split at hc
  · split at hc
    · split at hc
      · simp at hc
      · simp only [Option.some.injEq] at hc
        rw [← hc]
        intro _
        show ALL_ONES &&& LP_SETUP_NEW_FS ≠ 0
        decide
    · simp at hc
  · simp at hc

/-- A successful snapshot in state ACTIVE leaves a scene ready for binning. -/
theorem try_update_scene_state_ready (h : lp_headers) (s t : lp_setup_context)
    (hst : s.state = setup_state.SETUP_ACTIVE) (hf : fs_inv s)
    (hr : try_update_scene_state h s = some (true, t)) :
    t.state = setup_state.SETUP_ACTIVE ∧ t.scene ≠ none ∧ t.dirty = 0 ∧ t.fs.stored ≠ none := by
  have hk := (try_update_scene_state_keeps h s t true hr).1.base
  have hfs := (try_update_scene_state_fs h s t true hr hf).2 rfl
  refine ⟨by rw [hk.state, hst], ?_, hfs.2, hfs.1⟩
  rw [hk.scene]
  intro hn
  unfold try_update_scene_state at hr
  simp [hn] at hr

/-! ## Restart of the scene by `lp_setup_update_state` -/

theorem try_update_scene_state_total (h : lp_headers) (s : lp_setup_context) (sl : Nat)
    (hsc : s.scene = some sl) (hlt : sl < s.scenes.length) :
    ∃ r, try_update_scene_state h s = some r := by
  unfold try_update_scene_state
  rw [hsc]
  simp only [if_pos hlt]
  repeat' split
  all_goals exact ⟨_, rfl⟩

theorem try_update_scene_state_scene (h : lp_headers) (s : lp_setup_context)
    (r : Bool × lp_setup_context) (hr : try_update_scene_state h s = some r) :
    ∃ sl, s.scene = some sl ∧ sl < s.scenes.length := by
  unfold try_update_scene_state at hr
  cases hsc : s.scene with
  | none => simp [hsc] at hr
  | some sl =>
    simp only [hsc] at hr
    split at hr
    · rename_i hlt
      exact ⟨sl, rfl, hlt⟩
    · simp at hr

theorem begin_binning_total (h : lp_headers) (s : lp_setup_context) (sl : Nat)
    (hsc : s.scene = some sl) (hlt : sl < s.scenes.length) :
    ∃ r, begin_binning h s = some r := by
  unfold begin_binning
  rw [hsc]
  simp only [if_pos hlt]
  have h0 := steady_of_keeps (keeps_take_oracle s)
  generalize take_oracle s = r at h0
  obtain ⟨ok, s0⟩ := r
  cases ok with
  | false => exact ⟨_, rfl⟩
  | true =>
    simp only [if_true]
    have h2 : steady s (with_scene sl
        (fun sc => { sc with fence := some (lp_fence_create (max 1 s.num_threads)) })
        (record (event.fence_create (max 1 s.num_threads) true) s0)) :=
      steady_trans (steady_trans h0 (steady_of_keeps
        (keeps_record (event.fence_create (max 1 s.num_threads) true) rfl s0)))
        (steady_with_scene sl _ _)
    obtain ⟨r, hr⟩ := try_update_scene_state_total h _ sl (h2.scene.trans hsc)
      (by rw [h2.len]; exact hlt)
    rw [hr]
    obtain ⟨b, s3⟩ := r
    cases b with
    | false => exact ⟨_, rfl⟩
    | true => exact ⟨_, rfl⟩

theorem set_scene_state_active_total (h : lp_headers) (s : lp_setup_context)
    (hfl : s.state = setup_state.SETUP_FLUSHED) (hne : s.scenes ≠ []) :
    ∃ r, set_scene_state h s setup_state.SETUP_ACTIVE = some r := by
  obtain ⟨s1, hg⟩ := get_empty_scene_total h s hne
  obtain ⟨_, _, _, i, sc, q1, q2, _⟩ := get_empty_scene_some h s s1 hg
  have hlt : i < s1.scenes.length := by
    rw [List.get?_eq_some] at q2
    exact q2.1
  obtain ⟨r, hb⟩ := begin_binning_total h s1 i q1 hlt
  obtain ⟨b, s2⟩ := r
  cases b with
  | false =>
    exact ⟨(false, set_scene_state_fail s2), by
      simp [set_scene_state, set_scene_state_acquire, set_scene_state_switch, hfl, hg, hb]⟩
  | true =>
    exact ⟨(true, { s2 with state := setup_state.SETUP_ACTIVE }), by
      simp [set_scene_state, set_scene_state_acquire, set_scene_state_switch, hfl, hg, hb]⟩

theorem set_scene_state_active_scene (h : lp_headers) (s t : lp_setup_context)
    (hne : s.state ≠ setup_state.SETUP_ACTIVE)
    (hr : set_scene_state h s setup_state.SETUP_ACTIVE = some (true, t)) :
    t.state = setup_state.SETUP_ACTIVE ∧ queue_events t.trace = queue_events s.trace ∧
    ∃ i, t.scene = some i ∧ i < t.scenes.length := by
  obtain ⟨s1, s2, ha, hb, ht⟩ := set_scene_state_active_true h s t hne hr
  obtain ⟨_, hq, _⟩ := acquire_some h s s1 ha
  obtain ⟨hs, ⟨i, hi, hlt⟩, _⟩ := begin_binning_some h s1 s2 true hb
  subst ht
  refine ⟨rfl, hs.queued.trans hq, i, hs.scene.trans hi, ?_⟩
  show i < s2.scenes.length
  rw [hs.len]
  exact hlt

theorem set_scene_state_active_queue (h : lp_headers) (s t : lp_setup_context) (b : Bool)
    (hr : set_scene_state h s setup_state.SETUP_ACTIVE = some (b, t)) :
    queue_events t.trace = queue_events s.trace := by
  cases b with
  | false => exact (set_scene_state_false h s t _ hr).2.2.1
  | true =>
    by_cases he : s.state = setup_state.SETUP_ACTIVE
    · rw [set_scene_state_same h s _ he] at hr
      simp only [Option.some.injEq, Prod.mk.injEq, true_and] at hr
      rw [hr]
    · exact (set_scene_state_active_scene h s t he hr).2.1

theorem set_scene_state_flushed_queue (h : lp_headers) (s t : lp_setup_context) (b : Bool)
    (hr : set_scene_state h s setup_state.SETUP_FLUSHED = some (b, t)) :
    ∃ l, queue_events t.trace = queue_events s.trace ++ l ∧ l.length ≤ 1 := by
  cases b with
  | false =>
    refine ⟨[], ?_, by simp⟩
    rw [List.append_nil]
    exact (set_scene_state_false h s t _ hr).2.2.1
  | true =>
    by_cases he : s.state = setup_state.SETUP_FLUSHED
    · rw [set_scene_state_same h s _ he] at hr
      simp only [Option.some.injEq, Prod.mk.injEq, true_and] at hr
      rw [hr]
      exact ⟨[], by rw [List.append_nil], by simp⟩
    · obtain ⟨_, _, _, _, _, _, _, sl, pre, _, _, h8, h9⟩ :=
        set_scene_state_flushed_true h s t he hr
      refine ⟨[sl], ?_, by simp⟩
      have : pre ++ [event.scene_end_binning sl, event.rast_queue_scene sl] =
          (pre ++ [event.scene_end_binning sl]) ++ [event.rast_queue_scene sl] := by simp
      rw [h8, this, queue_events_append_queue,
        queue_events_append_other _ (event.scene_end_binning sl) rfl, h9]

theorem try_update_scene_state_queue (h : lp_headers) (s t : lp_setup_context) (b : Bool)
    (hr : try_update_scene_state h s = some (b, t)) :
    queue_events t.trace = queue_events s.trace :=
  (try_update_scene_state_keeps h s t b hr).1.base.queued

/-- No call of `lp_setup_update_state` hands more than one scene to the rasterizer. -/
theorem lp_setup_update_state_queue (h : lp_headers) (u : Bool) (s : lp_setup_context)
    (r : Bool × lp_setup_context) (hr : lp_setup_update_state h u s = some r) :
    ∃ l, queue_events r.2.trace = queue_events s.trace ++ l ∧ l.length ≤ 1 := by
  unfold lp_setup_update_state at hr
  have hq1 : ∀ b1 s1, (if (u && decide (s.state ≠ setup_state.SETUP_ACTIVE)) = true then
      set_scene_state h s setup_state.SETUP_ACTIVE else some (true, s)) = some (b1, s1) →
      queue_events s1.trace = queue_events s.trace := by
    intro b1 s1 h1
    split at h1
    · exact set_scene_state_active_queue h s s1 b1 h1
    · simp only [Option.some.injEq, Prod.mk.injEq] at h1
      rw [← h1.2]
  split at hr
  · simp at hr
  · rename_i s1 h1
    simp only [Option.some.injEq] at hr
    rw [← hr]
    refine ⟨[], ?_, by simp⟩
    rw [List.append_nil]
    exact hq1 _ _ h1
  · rename_i s1 h1
    have e1 := hq1 _ _ h1
    split at hr
    · split at hr
      · simp at hr
      · rename_i s2 h2
        simp only [Option.some.injEq] at hr
        rw [← hr]
        refine ⟨[], ?_, by simp⟩
        rw [List.append_nil]
        exact (try_update_scene_state_queue h s1 s2 true h2).trans e1
      · rename_i s2 h2
        have e2 := (try_update_scene_state_queue h s1 s2 false h2).trans e1
        split at hr
        · simp at hr
        · rename_i s3 h3
          simp only [Option.some.injEq] at hr
          rw [← hr]
          obtain ⟨l, hl, hn⟩ := set_scene_state_flushed_queue h s2 s3 false h3
          exact ⟨l, by rw [hl, e2], hn⟩
        · rename_i s3 h3
          obtain ⟨l, hl, hn⟩ := set_scene_state_flushed_queue h s2 s3 true h3
          rw [e2] at hl
          split at hr
          · simp at hr
          · rename_i s4 h4
            simp only [Option.some.injEq] at hr
            rw [← hr]
            exact ⟨l, by rw [← hl]; exact set_scene_state_active_queue h s3 s4 false h4, hn⟩
          · rename_i s4 h4
            have e4 := (set_scene_state_active_queue h s3 s4 true h4).trans hl
            split at hr
            · simp only [Option.some.injEq] at hr
              rw [← hr]
              exact ⟨l, e4, hn⟩
            · obtain ⟨b5, s5⟩ := r
              exact ⟨l, (try_update_scene_state_queue h s4 s5 b5 hr).trans e4, hn⟩
    · simp only [Option.some.injEq] at hr
      rw [← hr]
      refine ⟨[], ?_, by simp⟩
      rw [List.append_nil]
      exact e1

/-! ## The completion fence -/

theorem get?_map_fence (l : List lp_scene) (n : Nat) :
    (l.map (fun sc => sc.fence)).get? n = (l.get? n).map (fun sc => sc.fence) := by
  induction l generalizing n with
  | nil => rfl
  | cons a rest ih =>
    cases n with
    | zero => rfl
    | succ k => exact ih k

theorem begin_binning_clears_fences (sl : Nat) (s : lp_setup_context) :
    fences_of (begin_binning_clears sl s).2 = fences_of s := by
  unfold begin_binning_clears
  have h1 : keeps s (if s.clear.flags &&& PIPE_CLEAR_COLOR ≠ 0 then
      begin_binning_clear_color sl s.fb.nr_cbufs 0 s else (true, s)).2 := by
    split
    · exact keeps_begin_binning_clear_color sl _ _ s
    · exact keeps_refl s
  generalize (if s.clear.flags &&& PIPE_CLEAR_COLOR ≠ 0 then
      begin_binning_clear_color sl s.fb.nr_cbufs 0 s else (true, s)) = r1 at h1 ⊢
  obtain ⟨ok1, s1⟩ := r1
  cases ok1 with
  | false => exact h1.fences
  | true =>
    dsimp only
    simp only [if_true]
    have h2 : keeps s1 (if s1.fb.zsbuf.isSome &&
        decide (s1.clear.flags &&& PIPE_CLEAR_DEPTHSTENCIL ≠ 0) then
        lp_scene_bin_everywhere sl
          (lp_rast_cmd.LP_RAST_OP_CLEAR_ZSTENCIL s1.clear.zsvalue s1.clear.zsmask) s1
      else (true, s1)).2 := by
      split
      · exact keeps_bin_everywhere sl _ s1
      · exact keeps_refl s1
    generalize (if s1.fb.zsbuf.isSome &&
        decide (s1.clear.flags &&& PIPE_CLEAR_DEPTHSTENCIL ≠ 0) then
        lp_scene_bin_everywhere sl
          (lp_rast_cmd.LP_RAST_OP_CLEAR_ZSTENCIL s1.clear.zsvalue s1.clear.zsmask) s1
      else (true, s1)) = r2 at h2 ⊢
    obtain ⟨ok2, s2⟩ := r2
    cases ok2 with
    | false => exact (keeps_trans h1 h2).fences
    | true =>
      dsimp only
      simp only [if_true]
      have h3 : fences_of (with_scene sl
          (fun sc => { sc with had_queries := decide (s2.active_binned_queries ≠ 0) })
          { s2 with clear := { s2.clear with flags := 0, zsmask := 0, zsvalue := 0 } }) =
          fences_of s2 :=
        modify_scene_map (fun sc => sc.fence)
          (fun sc => { sc with had_queries := decide (s2.active_binned_queries ≠ 0) })
          (fun _ => rfl) sl s2.scenes
      exact h3.trans (keeps_trans h1 h2).fences

/-- A successful `begin_binning` leaves the current scene with a fresh fence sized
`MAX2(1, num_threads)`. -/
theorem begin_binning_fence (h : lp_headers) (s t : lp_setup_context)
    (hr : begin_binning h s = some (true, t)) :
    ∃ sl, s.scene = some sl ∧ sl < s.scenes.length ∧
      (fences_of t).get? sl = some (some (lp_fence_create (max 1 s.num_threads))) := by
  unfold begin_binning at hr
  cases hsc : s.scene with
  | none => simp [hsc] at hr
  | some sl =>
    simp only [hsc] at hr
    split at hr
    · rename_i hlt
      refine ⟨sl, rfl, hlt, ?_⟩
      have h0 := keeps_take_oracle s
      generalize take_oracle s = r at hr h0
      obtain ⟨ok, s0⟩ := r
      cases ok with
      | false => simp at hr
      | true =>
        simp only [if_true] at hr
        have hf : (fences_of (with_scene sl
            (fun sc => { sc with fence := some (lp_fence_create (max 1 s.num_threads)) })
            (record (event.fence_create (max 1 s.num_threads) true) s0))).get? sl =
            some (some (lp_fence_create (max 1 s.num_threads))) := by
          unfold fences_of with_scene
          rw [get?_map_fence]
          show ((modify_scene _ sl s0.scenes).get? sl).map _ = _
          rw [modify_scene_get]
          have hl : sl < s0.scenes.length := by
            have := h0.len
            simp only at this
            rw [this]
            exact hlt
          rw [List.get?_eq_get hl]
          rfl
        cases htu : try_update_scene_state h (with_scene sl
            (fun sc => { sc with fence := some (lp_fence_create (max 1 s.num_threads)) })
            (record (event.fence_create (max 1 s.num_threads) true) s0)) with
        | none => simp [htu] at hr
        | some x =>
          obtain ⟨b3, s3⟩ := x
          have h3 := (try_update_scene_state_keeps h _ s3 b3 htu).1.base
          simp only [htu] at hr
          cases b3 with
          | false => simp at hr
          | true =>
            simp only [Option.some.injEq] at hr
            have h4 := begin_binning_clears_fences sl s3
            rw [hr] at h4
            simp only at h4
            rw [h4, h3.fences]
            exact hf
    · simp at hr

theorem fence_signals (r k : Nat) :
    Nat.iterate lp_fence_signal k (lp_fence_create r) = { rank := r, count := k } := by
  induction k with
  | zero => rfl
  | succ k ih =>
    rw [Function.iterate_succ_apply', ih]
    rfl

/-! ## The comparison of the stored fragment state with the current one -/

/-- A record written by the snapshot never compares equal to `fs.current` when the current
descriptor does not carry the anisotropic filter table: the table is written into the stored
copy only. -/
theorem fs_differs_of_aniso_filter_table (h : lp_headers) (s u : lp_setup_context)
    (serial variant : Nat) (hst : s.fs.stored = some (new_stored_rast_state h serial u))
    (hcur : s.fs.current.jit_context.aniso_filter_table ≠
      h.lp_build_sample_aniso_filter_table) :
    fs_differs (lp_setup_set_fs_variant variant s) = true := by
  unfold fs_differs lp_setup_set_fs_variant
  simp only [hst, decide_eq_true_eq]
  intro he
  apply hcur
  have := congrArg (fun r => r.jit_context.aniso_filter_table) he
  simp only [new_stored_rast_state] at this
  exact this.symm

/-! ## The resource reference query -/

theorem fb_has_texture_false (fb : pipe_framebuffer_state) (texture : Nat) :
    fb_has_texture fb texture = false ↔
      (∀ i surf, i < fb.nr_cbufs → fb.cbufs.getD i none = some surf → surf.texture ≠ texture) ∧
      (∀ zsbuf, fb.zsbuf = some zsbuf → zsbuf.texture ≠ texture) := by
  unfold fb_has_texture
  rw [Bool.or_eq_false_iff]
  constructor
  · rintro ⟨h1, h2⟩
    constructor
    · intro i surf hi hg he
      have hall := List.any_eq_false.mp h1 i (List.mem_range.mpr hi)
      rw [hg] at hall
      simp only [decide_eq_true_eq] at hall
      exact hall he
    · intro z hz he
      rw [hz] at h2
      simp only [decide_eq_false_iff_not] at h2
      exact h2 he
  · rintro ⟨h1, h2⟩
    constructor
    · rw [List.any_eq_false]
      intro i hi
      cases hg : fb.cbufs.getD i none with
      | none => simp
      | some surf =>
        simp only [decide_eq_true_eq]
        exact h1 i surf (List.mem_range.mp hi) hg
    · cases hz : fb.zsbuf with
      | none => rfl
      | some z =>
        simp only [decide_eq_false_iff_not]
        exact h2 z hz

theorem read_write_ne_zero : LP_REFERENCED_FOR_READ ||| LP_REFERENCED_FOR_WRITE ≠ 0 := by
  decide

theorem scenes_referenced_zero (scene_referenced : lp_scene → Nat → Nat) (texture : Nat)
    (l : List lp_scene) :
    scenes_referenced scene_referenced texture l = 0 ↔
      ∀ sc ∈ l, fb_has_texture sc.fb texture = false ∧ scene_referenced sc texture = 0 := by
  induction l with
  | nil => simp [scenes_referenced, LP_UNREFERENCED]
  | cons sc rest ih =>
    unfold scenes_referenced
    by_cases hf : fb_has_texture sc.fb texture = true
    · rw [if_pos hf]
      constructor
      · intro h0
        exact absurd h0 read_write_ne_zero
      · intro hall
        have := (hall sc (List.mem_cons_self _ _)).1
        rw [hf] at this
        exact Bool.noConfusion this
    · rw [if_neg hf]
      have hf2 : fb_has_texture sc.fb texture = false := by
        cases hx : fb_has_texture sc.fb texture with
        | true => exact absurd hx hf
        | false => rfl
      by_cases hr : scene_referenced sc texture ≠ 0
      · rw [if_pos hr]
        constructor
        · intro h0
          exact absurd h0 hr
        · intro hall
          exact absurd (hall sc (List.mem_cons_self _ _)).2 hr
      · rw [if_neg hr, ih]
        have hr0 : scene_referenced sc texture = 0 := not_not.mp hr
        constructor
        · intro hall x hx
          rcases List.mem_cons.mp hx with rfl | hx
          · exact ⟨hf2, hr0⟩
          · exact hall x hx
        · intro hall x hx
          exact hall x (List.mem_cons_of_mem _ hx)

theorem lor_land_self (d b : Nat) : (d ||| b) &&& b = b := by
  apply Nat.eq_of_testBit_eq
  intro i
  simp only [Nat.testBit_land, Nat.testBit_lor]
  cases d.testBit i <;> cases b.testBit i <;> rfl

/-! ## The mask of a padded depth format -/

theorem testBit_not32 (m i : Nat) :
    (not32 m).testBit i = (decide (i < 32) && !m.testBit i) := by
  unfold not32
  have hlt : m % 2 ^ 32 < 2 ^ 32 := Nat.mod_lt _ (by decide)
  have h1 : 0xFFFFFFFF - m % 2 ^ 32 = 2 ^ 32 - (m % 2 ^ 32 + 1) := by omega
  rw [h1, Nat.testBit_two_pow_sub_succ hlt, Nat.testBit_mod_two_pow]
  by_cases hi : i < 32 <;> simp [hi]

theorem testBit_all_ones32 (i : Nat) : (0xFFFFFFFF : Nat).testBit i = decide (i < 32) := by
  have h1 : (0xFFFFFFFF : Nat) = 2 ^ 32 - (0 + 1) := by decide
  rw [h1, Nat.testBit_two_pow_sub_succ (by decide)]
  simp

theorem lor_not32_self (full : Nat) (hlt : full < 2 ^ 32) : full ||| not32 full = 0xFFFFFFFF := by
  apply Nat.eq_of_testBit_eq
  intro i
  rw [Nat.testBit_lor, testBit_not32, testBit_all_ones32]
  by_cases hi : i < 32
  · simp only [hi, decide_True, Bool.true_and]
    cases full.testBit i <;> rfl
  · have h0 : full.testBit i = false :=
      Nat.testBit_lt_two_pow (lt_of_lt_of_le hlt (Nat.pow_le_pow_right (by decide) (by omega)))
    simp [hi, h0]

theorem land_land_not32 (v full : Nat) : (v &&& full) &&& not32 full = 0 := by
  apply Nat.eq_of_testBit_eq
  intro i
  simp only [Nat.testBit_land, testBit_not32, Nat.zero_testBit]
  cases v.testBit i <;> cases full.testBit i <;> simp

/-! ## The query snapshot taken by a flush -/

theorem get?_take_append {α : Type} (l r : List α) (n i : Nat) (hi : i < n)
    (hn : n ≤ l.length) : (l.take n ++ r).get? i = l.get? i := by
  have h1 : i < (l.take n).length := by
    rw [List.length_take]
    omega
  rw [List.get?_eq_getElem?, List.get?_eq_getElem?, List.getElem?_append_left h1,
    List.getElem?_take_of_lt hi]

/-- The function `lp_setup_rasterize_scene` copies the count and the first `count` entries of
the active-query list into the scene and leaves the list of the context alone. -/
theorem rasterize_scene_queries (s t : lp_setup_context)
    (hr : lp_setup_rasterize_scene s = some t)
    (hq : s.active_binned_queries ≤ s.active_queries.length) :
    ∃ sl sc, s.scene = some sl ∧ sl < s.scenes.length ∧ t.scenes.get? sl = some sc ∧
      sc.num_active_queries = s.active_binned_queries ∧
      (∀ i, i < s.active_binned_queries →
        sc.active_queries.get? i = s.active_queries.get? i) ∧
      t.active_queries = s.active_queries ∧
      t.active_binned_queries = s.active_binned_queries := by
  unfold lp_setup_rasterize_scene at hr
  cases hsc : s.scene with
  | none => simp [hsc] at hr
  | some sl =>
    simp only [hsc] at hr
    split at hr
    · rename_i hlt
      simp only [Option.some.injEq] at hr
      subst hr
      obtain ⟨sc0, hg⟩ : ∃ sc0, s.scenes.get? sl = some sc0 :=
        ⟨s.scenes.get ⟨sl, hlt⟩, List.get?_eq_get hlt⟩
      refine ⟨sl, { sc0 with
        num_active_queries := s.active_binned_queries,
        active_queries := s.active_queries.take s.active_binned_queries ++
          sc0.active_queries.drop s.active_binned_queries }, rfl, hlt, ?_, rfl, ?_, rfl, rfl⟩
      · show (modify_scene _ sl s.scenes).get? sl = _
        rw [modify_scene_get, hg]
        rfl
      · intro i hi
        exact get?_take_append _ _ _ i hi hq
    · simp at hr

/-! ## Totality of the transitions and the frame of the active-query list -/

theorem same_queries_refl (s : lp_setup_context) : same_queries s s := ⟨rfl, rfl⟩

theorem same_queries_trans {s t u : lp_setup_context} (a : same_queries s t)
    (b : same_queries t u) : same_queries s u :=
  ⟨b.1.trans a.1, b.2.trans a.2⟩

theorem same_queries_of_keeps {s t : lp_setup_context} (k : keeps s t) : same_queries s t :=
  k.queries

theorem same_queries_of_steady {s t : lp_setup_context} (k : steady s t) : same_queries s t :=
  k.queries

theorem same_queries_of_pool_only {s t : lp_setup_context} (hp : pool_only s t) :
    same_queries s t :=
  (pool_only_fields hp).2.2.2.2.2.2.2.1

theorem pool_ok_of_keeps {s t : lp_setup_context} (k : keeps s t) (hp : pool_ok s) :
    pool_ok t := by
  obtain ⟨h1, h2⟩ := hp
  constructor
  · intro hn
    have := k.len
    rw [hn] at this
    exact h1 (List.length_eq_zero.mp this.symm)
  · intro sl hsl
    rw [k.len]
    exact h2 sl (k.scene ▸ hsl)

theorem pool_ok_of_steady {s t : lp_setup_context} (k : steady s t) (hp : pool_ok s) :
    pool_ok t := by
  obtain ⟨h1, h2⟩ := hp
  constructor
  · intro hn
    have := k.len
    rw [hn] at this
    exact h1 (List.length_eq_zero.mp this.symm)
  · intro sl hsl
    rw [k.len]
    exact h2 sl (k.scene ▸ hsl)

theorem pool_ok_of_reset {s t : lp_setup_context} (hl : s.scenes.length ≤ t.scenes.length)
    (hr : t.scene = none) (hp : pool_ok s) : pool_ok t := by
  constructor
  · intro hn
    rw [hn] at hl
    exact hp.1 (List.length_eq_zero.mp (Nat.le_zero.mp hl))
  · intro sl hsl
    rw [hr] at hsl
    exact Option.noConfusion hsl

/-- In a context that satisfies the invariant of the state machine and has no dangling scene
pointer, a scene is owned in every state but FLUSHED, and it is a pool slot. -/
theorem owned_scene (s : lp_setup_context) (hi : sm_inv s) (hp : pool_ok s)
    (hne : s.state ≠ setup_state.SETUP_FLUSHED) :
    ∃ sl, s.scene = some sl ∧ sl < s.scenes.length := by
  cases hsc : s.scene with
  | none => exact absurd (hi.1.mpr hsc) hne
  | some sl => exact ⟨sl, rfl, hp.2 sl hsc⟩

theorem acquire_total (h : lp_headers) (s : lp_setup_context) (hp : pool_ok s) :
    ∃ s1, set_scene_state_acquire h s = some s1 := by
  unfold set_scene_state_acquire
  split
  · exact get_empty_scene_total h s hp.1
  · exact ⟨s, rfl⟩

theorem acquire_pool_ok (h : lp_headers) (s s1 : lp_setup_context)
    (hr : set_scene_state_acquire h s = some s1) (hi : sm_inv s) (hp : pool_ok s) :
    pool_ok s1 ∧ same_queries s s1 ∧ ∃ sl, s1.scene = some sl ∧ sl < s1.scenes.length := by
  obtain ⟨hpo, _, hlen, hsame, hfl⟩ := acquire_some h s s1 hr
  by_cases hst : s.state = setup_state.SETUP_FLUSHED
  · obtain ⟨i, sc, q1, q2, _⟩ := hfl hst
    have hlt : i < s1.scenes.length := by
      rw [List.get?_eq_some] at q2
      exact q2.1
    refine ⟨⟨?_, ?_⟩, same_queries_of_pool_only hpo, i, q1, hlt⟩
    · intro hn
      rw [hn] at hlt
      exact Nat.not_lt_zero _ hlt
    · intro sl hsl
      rw [q1] at hsl
      rw [← Option.some.inj hsl]
      exact hlt
  · have := hsame hst
    subst this
    exact ⟨hp, same_queries_refl _, owned_scene s1 hi hp hst⟩

theorem set_scene_state_fail_queries (s : lp_setup_context) :
    same_queries s (set_scene_state_fail s) := by
  unfold set_scene_state_fail
  cases s.scene <;> exact ⟨rfl, rfl⟩

theorem rasterize_scene_total (s : lp_setup_context) (sl : Nat) (hsc : s.scene = some sl)
    (hlt : sl < s.scenes.length) : ∃ t, lp_setup_rasterize_scene s = some t := by
  unfold lp_setup_rasterize_scene
  rw [hsc]
  simp only [if_pos hlt]
  exact ⟨_, rfl⟩

/-- The function `set_scene_state` always returns when no scene pointer dangles. -/
theorem set_scene_state_total (h : lp_headers) (s : lp_setup_context) (new_state : setup_state)
    (hi : sm_inv s) (hp : pool_ok s) : ∃ r, set_scene_state h s new_state = some r := by
  by_cases he : s.state = new_state
  · exact ⟨_, set_scene_state_same h s new_state he⟩
  · obtain ⟨s1, ha⟩ := acquire_total h s hp
    obtain ⟨hp1, _, sl, hsc, hlt⟩ := acquire_pool_ok h s s1 ha hi hp
    unfold set_scene_state
    simp only [he, if_false, ha]
    unfold set_scene_state_switch
    cases new_state with
    | SETUP_CLEARED => exact ⟨_, rfl⟩
    | SETUP_ACTIVE =>
      obtain ⟨r, hb⟩ := begin_binning_total h s1 sl hsc hlt
      obtain ⟨b, s2⟩ := r
      simp only [hb]
      cases b <;> exact ⟨_, rfl⟩
    | SETUP_FLUSHED =>
      simp only
      have hex : ∃ r, (if s.state = setup_state.SETUP_CLEARED then execute_clears h s1
          else some (true, s1)) = some r ∧ steady s1 r.2 := by
        split
        · obtain ⟨r, hb⟩ := begin_binning_total h s1 sl hsc hlt
          obtain ⟨b, s2⟩ := r
          exact ⟨(b, s2), hb, (begin_binning_some h s1 s2 b hb).1⟩
        · exact ⟨(true, s1), rfl, steady_refl s1⟩
      obtain ⟨r, hr, hst⟩ := hex
      obtain ⟨b, s2⟩ := r
      rw [hr]
      cases b with
      | false => exact ⟨_, rfl⟩
      | true =>
        simp only
        obtain ⟨t, ht⟩ := rasterize_scene_total s2 sl (hst.scene.trans hsc)
          (by rw [hst.len]; exact hlt)
        rw [ht]
        exact ⟨_, rfl⟩

/-- The function `set_scene_state` leaves no dangling scene pointer and does not touch the
active-query list. -/
theorem set_scene_state_frame (h : lp_headers) (s t : lp_setup_context)
    (new_state : setup_state) (b : Bool)
    (hr : set_scene_state h s new_state = some (b, t)) (hi : sm_inv s) (hp : pool_ok s) :
    pool_ok t ∧ same_queries s t := by
  by_cases he : s.state = new_state
  · rw [set_scene_state_same h s new_state he] at hr
    simp only [Option.some.injEq, Prod.mk.injEq] at hr
    rw [← hr.2]
    exact ⟨hp, same_queries_refl s⟩
  · obtain ⟨s1, ha, hsw⟩ := set_scene_state_ne h s new_state he _ hr
    obtain ⟨hp1, hq1, _⟩ := acquire_pool_ok h s s1 ha hi hp
    cases b with
    | false =>
      obtain ⟨s2, sl, hst, hsc, hlt, ht⟩ := switch_false h _ _ s1 t hsw
      obtain ⟨_, hres, _, _, hlen, _⟩ := set_scene_state_fail_spec s2 sl hsc hlt
      subst ht
      refine ⟨pool_ok_of_reset ?_ hres.scene (pool_ok_of_steady hst hp1), ?_⟩
      · rw [hlen]
      · exact same_queries_trans hq1
          (same_queries_trans (same_queries_of_steady hst) (set_scene_state_fail_queries s2))
    | true =>
      cases new_state with
      | SETUP_CLEARED =>
        unfold set_scene_state_switch at hsw
        simp only [Option.some.injEq, Prod.mk.injEq, true_and] at hsw
        subst hsw
        exact ⟨hp1, hq1⟩
      | SETUP_ACTIVE =>
        unfold set_scene_state_switch at hsw
        simp only at hsw
        cases hb : begin_binning h s1 with
        | none => simp [hb] at hsw
        | some x =>
          obtain ⟨b2, s2⟩ := x
          have hst := (begin_binning_some h s1 s2 b2 hb).1
          cases b2 with
          | false => simp [hb] at hsw
          | true =>
            simp only [hb, Option.some.injEq, Prod.mk.injEq, true_and] at hsw
            subst hsw
            have hp2 : pool_ok s2 := pool_ok_of_steady hst hp1
            have hq2 : same_queries s s2 := same_queries_trans hq1 (same_queries_of_steady hst)
            exact ⟨hp2, hq2⟩
      | SETUP_FLUSHED =>
        obtain ⟨s2, s3, hst, hras, ht⟩ := switch_flushed_true h _ s1 t hsw
        obtain ⟨sl, _, _, hres, _, _, _, hlen, _, q1, q2⟩ := rasterize_scene_some s2 s3 hras
        subst ht
        refine ⟨pool_ok_of_reset ?_ hres.scene (pool_ok_of_steady hst hp1), ?_⟩
        · show s2.scenes.length ≤ s3.scenes.length
          rw [hlen]
        · exact same_queries_trans hq1
            (same_queries_trans (same_queries_of_steady hst) ⟨q1, q2⟩)

theorem try_update_scene_state_frame (h : lp_headers) (s t : lp_setup_context) (b : Bool)
    (hr : try_update_scene_state h s = some (b, t)) (hp : pool_ok s) :
    pool_ok t ∧ same_queries s t := by
  have k := (try_update_scene_state_keeps h s t b hr).1.base
  exact ⟨pool_ok_of_keeps k hp, same_queries_of_keeps k⟩

/-- The function `lp_setup_update_state` always returns when no scene pointer dangles, and
then it leaves no dangling scene pointer and does not touch the active-query list. -/
theorem lp_setup_update_state_total (h : lp_headers) (u : Bool) (s : lp_setup_context)
    (hi : sm_inv s) (hp : pool_ok s) :
    ∃ r, lp_setup_update_state h u s = some r ∧ sm_inv r.2 ∧ pool_ok r.2 ∧
      same_queries s r.2 := by
  have key : ∀ r, lp_setup_update_state h u s = some r →
      sm_inv r.2 ∧ pool_ok r.2 ∧ same_queries s r.2 := by
    intro r hr
    obtain ⟨b, t⟩ := r
    refine ⟨lp_setup_update_state_inv h u s t b hr hi, ?_⟩
    unfold lp_setup_update_state at hr
    split at hr
    · simp at hr
    · rename_i s1 h1
      simp only [Option.some.injEq, Prod.mk.injEq] at hr
      rw [← hr.2]
      split at h1
      · exact set_scene_state_frame h s s1 _ false h1 hi hp
      · simp at h1
    · rename_i s1 h1
      have f1 : sm_inv s1 ∧ pool_ok s1 ∧ same_queries s s1 := by
        split at h1
        · exact ⟨set_scene_state_inv h s s1 _ true h1 hi,
            set_scene_state_frame h s s1 _ true h1 hi hp⟩
        · simp only [Option.some.injEq, Prod.mk.injEq, true_and] at h1
          rw [← h1]
          exact ⟨hi, hp, same_queries_refl s⟩
      obtain ⟨i1, p1, q1⟩ := f1
      split at hr
      · split at hr
        · simp at hr
        · rename_i s2 h2
          simp only [Option.some.injEq, Prod.mk.injEq] at hr
          rw [← hr.2]
          obtain ⟨p2, q2⟩ := try_update_scene_state_frame h s1 s2 true h2 p1
          exact ⟨p2, same_queries_trans q1 q2⟩
        · rename_i s2 h2
          obtain ⟨p2, q2⟩ := try_update_scene_state_frame h s1 s2 false h2 p1
          have i2 := try_update_scene_state_inv h s1 s2 false h2 i1
          split at hr
          · simp at hr
          · rename_i s3 h3
            simp only [Option.some.injEq, Prod.mk.injEq] at hr
            rw [← hr.2]
            obtain ⟨p3, q3⟩ := set_scene_state_frame h s2 s3 _ false h3 i2 p2
            exact ⟨p3, same_queries_trans q1 (same_queries_trans q2 q3)⟩
          · rename_i s3 h3
            obtain ⟨p3, q3⟩ := set_scene_state_frame h s2 s3 _ true h3 i2 p2
            have i3 := set_scene_state_inv h s2 s3 _ true h3 i2
            split at hr
            · simp at hr
            · rename_i s4 h4
              simp only [Option.some.injEq, Prod.mk.injEq] at hr
              rw [← hr.2]
              obtain ⟨p4, q4⟩ := set_scene_state_frame h s3 s4 _ false h4 i3 p3
              exact ⟨p4, same_queries_trans q1
                (same_queries_trans q2 (same_queries_trans q3 q4))⟩
            · rename_i s4 h4
              obtain ⟨p4, q4⟩ := set_scene_state_frame h s3 s4 _ true h4 i3 p3
              have q04 := same_queries_trans q1
                (same_queries_trans q2 (same_queries_trans q3 q4))
              split at hr
              · simp only [Option.some.injEq, Prod.mk.injEq] at hr
                rw [← hr.2]
                exact ⟨p4, q04⟩
              · obtain ⟨p5, q5⟩ := try_update_scene_state_frame h s4 t b hr p4
                exact ⟨p5, same_queries_trans q04 q5⟩
      · simp only [Option.some.injEq, Prod.mk.injEq] at hr
        rw [← hr.2]
        exact ⟨p1, q1⟩
  suffices hex : ∃ r, lp_setup_update_state h u s = some r by
    obtain ⟨r, hr⟩ := hex
    exact ⟨r, hr, key r hr⟩
  unfold lp_setup_update_state
  have hfirst : ∃ b1 s1, (if (u && decide (s.state ≠ setup_state.SETUP_ACTIVE)) = true then
      set_scene_state h s setup_state.SETUP_ACTIVE else some (true, s)) = some (b1, s1) ∧
      sm_inv s1 ∧ pool_ok s1 := by
    split
    · obtain ⟨r, hr⟩ := set_scene_state_total h s setup_state.SETUP_ACTIVE hi hp
      obtain ⟨b1, s1⟩ := r
      exact ⟨b1, s1, hr, set_scene_state_inv h s s1 _ b1 hr hi,
        (set_scene_state_frame h s s1 _ b1 hr hi hp).1⟩
    · exact ⟨true, s, rfl, hi, hp⟩
  obtain ⟨b1, s1, h1, i1, p1⟩ := hfirst
  rw [h1]
  cases b1 with
  | false => exact ⟨_, rfl⟩
  | true =>
    simp only
    split
    · rename_i hc
      have hsome : ∃ sl, s1.scene = some sl := by
        simp only [Bool.and_eq_true] at hc
        exact Option.isSome_iff_exists.mp hc.2
      obtain ⟨sl, hsl⟩ := hsome
      obtain ⟨r2, h2⟩ := try_update_scene_state_total h s1 sl hsl (p1.2 sl hsl)
      obtain ⟨b2, s2⟩ := r2
      rw [h2]
      cases b2 with
      | true => exact ⟨_, rfl⟩
      | false =>
        simp only
        obtain ⟨p2, _⟩ := try_update_scene_state_frame h s1 s2 false h2 p1
        have i2 := try_update_scene_state_inv h s1 s2 false h2 i1
        obtain ⟨r3, h3⟩ := set_scene_state_total h s2 setup_state.SETUP_FLUSHED i2 p2
        obtain ⟨b3, s3⟩ := r3
        rw [h3]
        cases b3 with
        | false => exact ⟨_, rfl⟩
        | true =>
          simp only
          obtain ⟨p3, _⟩ := set_scene_state_frame h s2 s3 _ true h3 i2 p2
          have i3 := set_scene_state_inv h s2 s3 _ true h3 i2
          obtain ⟨r4, h4⟩ := set_scene_state_total h s3 setup_state.SETUP_ACTIVE i3 p3
          obtain ⟨b4, s4⟩ := r4
          rw [h4]
          cases b4 with
          | false => exact ⟨_, rfl⟩
          | true =>
            simp only
            obtain ⟨p4, _⟩ := set_scene_state_frame h s3 s4 _ true h4 i3 p3
            split
            · exact ⟨_, rfl⟩
            · rename_i hn
              have hsome4 : ∃ sl4, s4.scene = some sl4 := by
                cases hx : s4.scene with
                | none => simp [hx] at hn
                | some sl4 => exact ⟨sl4, rfl⟩
              obtain ⟨sl4, hsl4⟩ := hsome4
              exact try_update_scene_state_total h s4 sl4 hsl4 (p4.2 sl4 hsl4)
    · exact ⟨_, rfl⟩

theorem lp_setup_flush_and_restart_total (h : lp_headers) (s : lp_setup_context)
    (hi : sm_inv s) (hp : pool_ok s) :
    ∃ r, lp_setup_flush_and_restart h s = some r ∧ sm_inv r.2 ∧ pool_ok r.2 ∧
      same_queries s r.2 := by
  unfold lp_setup_flush_and_restart
  obtain ⟨r1, h1⟩ := set_scene_state_total h s setup_state.SETUP_FLUSHED hi hp
  obtain ⟨b1, s1⟩ := r1
  obtain ⟨p1, q1⟩ := set_scene_state_frame h s s1 _ b1 h1 hi hp
  have i1 := set_scene_state_inv h s s1 _ b1 h1 hi
  rw [h1]
  cases b1 with
  | false => exact ⟨_, rfl, i1, p1, q1⟩
  | true =>
    simp only
    obtain ⟨r, hr, i2, p2, q2⟩ := lp_setup_update_state_total h true s1 i1 p1
    exact ⟨r, hr, i2, p2, same_queries_trans q1 q2⟩

theorem mark_had_queries_frame (x : lp_setup_context) (hi : sm_inv x) (hp : pool_ok x) :
    sm_inv (match x.scene with
      | some i => with_scene i (fun sc => { sc with had_queries := true }) x
      | none => x) ∧
    pool_ok (match x.scene with
      | some i => with_scene i (fun sc => { sc with had_queries := true }) x
      | none => x) ∧
    same_queries x (match x.scene with
      | some i => with_scene i (fun sc => { sc with had_queries := true }) x
      | none => x) := by
  refine ⟨sm_inv_mark_had_queries x hi, ?_, ?_⟩
  · split
    · rename_i i _
      exact pool_ok_of_keeps
        (keeps_with_scene i (fun sc => { sc with had_queries := true }) (fun _ => rfl) x) hp
    · exact hp
  · split
    · exact ⟨rfl, rfl⟩
    · exact ⟨rfl, rfl⟩

/-- Binning a query command always returns when no scene pointer dangles, and leaves the
active-query list alone. -/
theorem bin_query_cmd_total (h : lp_headers) (cmd : lp_rast_cmd) (sl : Nat)
    (s : lp_setup_context) (hi : sm_inv s) (hp : pool_ok s) :
    ∃ r, bin_query_cmd h cmd sl s = some r ∧ sm_inv r.2 ∧ pool_ok r.2 ∧
      same_queries s r.2 := by
  unfold bin_query_cmd
  simp only
  have k := keeps_bin_everywhere sl cmd s
  generalize lp_scene_bin_everywhere sl cmd s = r0 at k
  obtain ⟨ok, s0⟩ := r0
  have i0 : sm_inv s0 := sm_inv_of_keeps k hi
  have p0 : pool_ok s0 := pool_ok_of_keeps k hp
  have q0 : same_queries s s0 := same_queries_of_keeps k
  cases ok with
  | true =>
    simp only [if_true]
    obtain ⟨a, b, c⟩ := mark_had_queries_frame s0 i0 p0
    exact ⟨_, rfl, a, b, same_queries_trans q0 c⟩
  | false =>
    simp only [Bool.false_eq_true, if_false]
    obtain ⟨r1, h1, i1, p1, q1⟩ := lp_setup_flush_and_restart_total h s0 i0 p0
    obtain ⟨b1, s1⟩ := r1
    rw [h1]
    cases b1 with
    | false => exact ⟨_, rfl, i1, p1, same_queries_trans q0 q1⟩
    | true =>
      simp only
      have hact : s1.state = setup_state.SETUP_ACTIVE := by
        unfold lp_setup_flush_and_restart at h1
        split at h1
        · simp at h1
        · simp at h1
        · rename_i s2 h2
          have hfl := set_scene_state_true_state h s0 s2 _ h2
          unfold lp_setup_update_state at h1
          have hdec : decide (s2.state ≠ setup_state.SETUP_ACTIVE) = true := by
            rw [hfl]; rfl
          simp only [Bool.true_and, hdec, if_true] at h1
          split at h1
          · simp at h1
          · simp at h1
          · rename_i s3 h3
            have hst3 := set_scene_state_true_state h s2 s3 _ h3
            split at h1
            · split at h1
              · simp at h1
              · rename_i s4 h4
                simp only [Option.some.injEq, Prod.mk.injEq, true_and] at h1
                rw [← h1, (try_update_scene_state_keeps h s3 s4 true h4).1.base.state]
                exact hst3
              · rename_i s4 h4
                split at h1
                · simp at h1
                · simp at h1
                · rename_i s5 h5
                  split at h1
                  · simp at h1
                  · simp at h1
                  · rename_i s6 h6
                    have hst6 := set_scene_state_true_state h s5 s6 _ h6
                    split at h1
                    · simp at h1
                    · rw [(try_update_scene_state_keeps h s6 s1 true h1).1.base.state]
                      exact hst6
            · simp only [Option.some.injEq, Prod.mk.injEq, true_and] at h1
              rw [← h1]
              exact hst3
      obtain ⟨sl1, hsl1, hlt1⟩ := owned_scene s1 i1 p1 (by rw [hact]; decide)
      simp only [hsl1, if_pos hlt1]
      have k1 := keeps_bin_everywhere sl1 cmd s1
      generalize lp_scene_bin_everywhere sl1 cmd s1 = r2 at k1
      obtain ⟨ok2, s2⟩ := r2
      have i2 : sm_inv s2 := sm_inv_of_keeps k1 i1
      have p2 : pool_ok s2 := pool_ok_of_keeps k1 p1
      have q2 : same_queries s s2 :=
        same_queries_trans q0 (same_queries_trans q1 (same_queries_of_keeps k1))
      cases ok2 with
      | true =>
        simp only [if_true]
        obtain ⟨a, b, c⟩ := mark_had_queries_frame s2 i2 p2
        exact ⟨_, rfl, a, b, same_queries_trans q2 c⟩
      | false =>
        simp only [Bool.false_eq_true, if_false]
        exact ⟨_, rfl, i2, p2, q2⟩

theorem queries_inv_of_same {h : lp_headers} {s t : lp_setup_context} (q : same_queries s t)
    (hi : queries_inv h s) : queries_inv h t := by
  unfold queries_inv
  rw [q.1, q.2]
  exact hi

theorem set_scene_state_queries (h : lp_headers) (s t : lp_setup_context)
    (new_state : setup_state) (b : Bool)
    (hr : set_scene_state h s new_state = some (b, t)) : same_queries s t := by
  by_cases he : s.state = new_state
  · rw [set_scene_state_same h s new_state he] at hr
    simp only [Option.some.injEq, Prod.mk.injEq] at hr
    rw [← hr.2]
    exact same_queries_refl s
  · obtain ⟨s1, ha, hsw⟩ := set_scene_state_ne h s new_state he _ hr
    have hq1 := same_queries_of_pool_only (acquire_some h s s1 ha).1
    cases b with
    | false =>
      obtain ⟨s2, sl, hst, _, _, ht⟩ := switch_false h _ _ s1 t hsw
      subst ht
      exact same_queries_trans hq1
        (same_queries_trans (same_queries_of_steady hst) (set_scene_state_fail_queries s2))
    | true =>
      cases new_state with
      | SETUP_CLEARED =>
        unfold set_scene_state_switch at hsw
        simp only [Option.some.injEq, Prod.mk.injEq, true_and] at hsw
        subst hsw
        exact hq1
      | SETUP_ACTIVE =>
        unfold set_scene_state_switch at hsw
        simp only at hsw
        cases hb : begin_binning h s1 with
        | none => simp [hb] at hsw
        | some x =>
          obtain ⟨b2, s2⟩ := x
          have hst := (begin_binning_some h s1 s2 b2 hb).1
          cases b2 with
          | false => simp [hb] at hsw
          | true =>
            simp only [hb, Option.some.injEq, Prod.mk.injEq, true_and] at hsw
            subst hsw
            have hq2 : same_queries s s2 := same_queries_trans hq1 (same_queries_of_steady hst)
            exact hq2
      | SETUP_FLUSHED =>
        obtain ⟨s2, s3, hst, hras, ht⟩ := switch_flushed_true h _ s1 t hsw
        obtain ⟨sl, _, _, _, _, _, _, _, _, q1, q2⟩ := rasterize_scene_some s2 s3 hras
        subst ht
        exact same_queries_trans hq1
          (same_queries_trans (same_queries_of_steady hst) ⟨q1, q2⟩)

theorem try_clear_color_buffer_queries (h : lp_headers) (color cbuf : Nat)
    (s t : lp_setup_context) (b : Bool)
    (hr : lp_setup_try_clear_color_buffer h color cbuf s = some (b, t)) :
    same_queries s t := by
  unfold lp_setup_try_clear_color_buffer at hr
  split at hr
  · rename_i surf _
    simp only at hr
    split at hr
    · split at hr
      · simp at hr
      · rename_i sl _
        split at hr
        · have h1 := (keeps_bins_lp_scene_alloc sl s).base
          generalize lp_scene_alloc sl s = r at hr h1
          obtain ⟨o, s1⟩ := r
          cases o with
          | none =>
            simp only [Option.some.injEq, Prod.mk.injEq] at hr
            rw [← hr.2]
            exact same_queries_of_keeps h1
          | some p =>
            simp only [Option.some.injEq] at hr
            have h2 := keeps_bin_everywhere sl
              (lp_rast_cmd.LP_RAST_OP_CLEAR_COLOR cbuf (h.util_pack_color_union surf.format color)) s1
            rw [hr] at h2
            exact same_queries_of_keeps (keeps_trans h1 h2)
        · simp at hr
    · cases hs : set_scene_state h s setup_state.SETUP_CLEARED with
      | none => simp [hs] at hr
      | some x =>
        obtain ⟨b1, s1⟩ := x
        simp only [hs, Option.some.injEq, Prod.mk.injEq] at hr
        have hq1 := set_scene_state_queries h s s1 _ b1 hs
        rw [← hr.2]
        exact hq1
  · simp at hr

theorem try_clear_zs_queries (h : lp_headers) (depth stencil flags : Nat)
    (s t : lp_setup_context) (b : Bool)
    (hr : lp_setup_try_clear_zs h depth stencil flags s = some (b, t)) :
    same_queries s t := by
  unfold lp_setup_try_clear_zs at hr
  split at hr
  · simp at hr
  · rename_i zsbuf _
    simp only at hr
    split at hr
    · split at hr
      · simp at hr
      · rename_i sl _
        split at hr
        · simp only [Option.some.injEq] at hr
          have h2 := keeps_bin_everywhere sl
            (lp_rast_cmd.LP_RAST_OP_CLEAR_ZSTENCIL
              (clear_zs_value_mask h zsbuf.format depth stencil flags).1
              (clear_zs_value_mask h zsbuf.format depth stencil flags).2) s
          rw [hr] at h2
          exact same_queries_of_keeps h2
        · simp at hr
    · cases hs : set_scene_state h s setup_state.SETUP_CLEARED with
      | none => simp [hs] at hr
      | some x =>
        obtain ⟨b1, s1⟩ := x
        simp only [hs, Option.some.injEq, Prod.mk.injEq] at hr
        have hq1 := set_scene_state_queries h s s1 _ b1 hs
        rw [← hr.2]
        exact hq1

theorem lp_setup_clear_zs_queries (h : lp_headers) (depth stencil flags : Nat)
    (s t : lp_setup_context) (hr : lp_setup_clear_zs h depth stencil flags s = some t) :
    same_queries s t := by
  unfold lp_setup_clear_zs at hr
  split at hr
  · simp only at hr
    split at hr
    · simp at hr
    · rename_i s1 h1
      simp only [Option.some.injEq] at hr
      rw [← hr]
      exact try_clear_zs_queries h _ _ _ s s1 true h1
    · rename_i s1 h1
      have q1 := try_clear_zs_queries h _ _ _ s s1 false h1
      split at hr
      · simp at hr
      · rename_i b2 s2 h2
        have q2 := set_scene_state_queries h s1 s2 _ b2 h2
        cases h3 : lp_setup_try_clear_zs h depth stencil (flags &&& PIPE_CLEAR_DEPTHSTENCIL) s2 with
        | none => simp [h3] at hr
        | some x =>
          obtain ⟨b3, s3⟩ := x
          simp only [h3, Option.map_some', Option.some.injEq] at hr
          rw [← hr]
          exact same_queries_trans q1
            (same_queries_trans q2 (try_clear_zs_queries h _ _ _ s2 s3 b3 h3))
  · simp only [Option.some.injEq] at hr
    rw [← hr]
    exact same_queries_refl s

theorem lp_setup_clear_color_queries (h : lp_headers) (color flags n i : Nat)
    (s t : lp_setup_context) (hr : lp_setup_clear_color h color flags n i s = some t) :
    same_queries s t := by
  induction n generalizing i s with
  | zero =>
    simp only [lp_setup_clear_color, Option.some.injEq] at hr
    rw [← hr]
    exact same_queries_refl s
  | succ n ih =>
    unfold lp_setup_clear_color at hr
    split at hr
    · split at hr
      · simp at hr
      · rename_i s1 h1
        exact same_queries_trans (try_clear_color_buffer_queries h _ _ s s1 true h1)
          (ih _ _ hr)
      · rename_i s1 h1
        have q1 := try_clear_color_buffer_queries h _ _ s s1 false h1
        split at hr
        · simp at hr
        · rename_i b2 s2 h2
          have q2 := set_scene_state_queries h s1 s2 _ b2 h2
          split at hr
          · simp at hr
          · rename_i b3 s3 h3
            exact same_queries_trans q1 (same_queries_trans q2
              (same_queries_trans (try_clear_color_buffer_queries h _ _ s2 s3 b3 h3)
                (ih _ _ hr)))
    · exact ih _ _ hr

theorem lp_setup_clear_queries (h : lp_headers) (color depth stencil flags : Nat)
    (s t : lp_setup_context) (hr : lp_setup_clear h color depth stencil flags s = some t) :
    same_queries s t := by
  unfold lp_setup_clear at hr
  split at hr
  · simp at hr
  · rename_i s1 h1
    have q1 := lp_setup_clear_zs_queries h _ _ _ s s1 h1
    split at hr
    · exact same_queries_trans q1 (lp_setup_clear_color_queries h _ _ _ _ s1 t hr)
    · simp only [Option.some.injEq] at hr
      rw [← hr]
      exact q1

theorem lp_setup_flush_queries (h : lp_headers) (s t : lp_setup_context)
    (hr : lp_setup_flush h s = some t) : same_queries s t := by
  unfold lp_setup_flush at hr
  cases h1 : set_scene_state h s setup_state.SETUP_FLUSHED with
  | none => simp [h1] at hr
  | some x =>
    obtain ⟨b, s1⟩ := x
    simp only [h1, Option.map_some', Option.some.injEq] at hr
    rw [← hr]
    exact set_scene_state_queries h s s1 _ b h1

theorem lp_setup_bind_framebuffer_queries (h : lp_headers) (fb : pipe_framebuffer_state)
    (s t : lp_setup_context) (hr : lp_setup_bind_framebuffer h fb s = some t) :
    same_queries s t := by
  unfold lp_setup_bind_framebuffer at hr
  cases h1 : set_scene_state h s setup_state.SETUP_FLUSHED with
  | none => simp [h1] at hr
  | some x =>
    obtain ⟨b, s1⟩ := x
    simp only [h1, Option.some.injEq] at hr
    rw [← hr]
    have q1 := set_scene_state_queries h s s1 _ b h1
    exact q1

theorem try_update_scene_state_queries (h : lp_headers) (s t : lp_setup_context) (b : Bool)
    (hr : try_update_scene_state h s = some (b, t)) : same_queries s t :=
  same_queries_of_keeps (try_update_scene_state_keeps h s t b hr).1.base

theorem lp_setup_update_state_queries (h : lp_headers) (u : Bool) (s t : lp_setup_context)
    (b : Bool) (hr : lp_setup_update_state h u s = some (b, t)) : same_queries s t := by
  unfold lp_setup_update_state at hr
  split at hr
  · simp at hr
  · rename_i s1 h1
    simp only [Option.some.injEq, Prod.mk.injEq] at hr
    rw [← hr.2]
    split at h1
    · exact set_scene_state_queries h s s1 _ false h1
    · simp at h1
  · rename_i s1 h1
    have q1 : same_queries s s1 := by
      split at h1
      · exact set_scene_state_queries h s s1 _ true h1
      · simp only [Option.some.injEq, Prod.mk.injEq, true_and] at h1
        rw [← h1]
        exact same_queries_refl s
    split at hr
    · split at hr
      · simp at hr
      · rename_i s2 h2
        simp only [Option.some.injEq, Prod.mk.injEq] at hr
        rw [← hr.2]
        exact same_queries_trans q1 (try_update_scene_state_queries h s1 s2 true h2)
      · rename_i s2 h2
        have q2 := same_queries_trans q1 (try_update_scene_state_queries h s1 s2 false h2)
        split at hr
        · simp at hr
        · rename_i s3 h3
          simp only [Option.some.injEq, Prod.mk.injEq] at hr
          rw [← hr.2]
          exact same_queries_trans q2 (set_scene_state_queries h s2 s3 _ false h3)
        · rename_i s3 h3
          have q3 := same_queries_trans q2 (set_scene_state_queries h s2 s3 _ true h3)
          split at hr
          · simp at hr
          · rename_i s4 h4
            simp only [Option.some.injEq, Prod.mk.injEq] at hr
            rw [← hr.2]
            exact same_queries_trans q3 (set_scene_state_queries h s3 s4 _ false h4)
          · rename_i s4 h4
            have q4 := same_queries_trans q3 (set_scene_state_queries h s3 s4 _ true h4)
            split at hr
            · simp only [Option.some.injEq, Prod.mk.injEq] at hr
              rw [← hr.2]
              exact q4
            · exact same_queries_trans q4 (try_update_scene_state_queries h s4 t b hr)
    · simp only [Option.some.injEq, Prod.mk.injEq] at hr
      rw [← hr.2]
      exact q1

theorem lp_setup_flush_and_restart_queries (h : lp_headers) (s t : lp_setup_context) (b : Bool)
    (hr : lp_setup_flush_and_restart h s = some (b, t)) : same_queries s t := by
  unfold lp_setup_flush_and_restart at hr
  split at hr
  · simp at hr
  · rename_i s1 h1
    simp only [Option.some.injEq, Prod.mk.injEq] at hr
    rw [← hr.2]
    exact set_scene_state_queries h s s1 _ false h1
  · rename_i s1 h1
    exact same_queries_trans (set_scene_state_queries h s s1 _ true h1)
      (lp_setup_update_state_queries h true s1 t b hr)

theorem same_queries_mark_had_queries (x : lp_setup_context) :
    same_queries x (match x.scene with
      | some i => with_scene i (fun sc => { sc with had_queries := true }) x
      | none => x) := by
  split
  · exact ⟨rfl, rfl⟩
  · exact ⟨rfl, rfl⟩

theorem bin_query_cmd_queries (h : lp_headers) (cmd : lp_rast_cmd) (sl : Nat)
    (s t : lp_setup_context) (b : Bool) (hr : bin_query_cmd h cmd sl s = some (b, t)) :
    same_queries s t := by
  unfold bin_query_cmd at hr
  simp only at hr
  have h1 := same_queries_of_keeps (keeps_bin_everywhere sl cmd s)
  generalize lp_scene_bin_everywhere sl cmd s = r at hr h1
  obtain ⟨ok, s1⟩ := r
  cases ok with
  | true =>
    simp only [if_true, Option.some.injEq, Prod.mk.injEq] at hr
    rw [← hr.2]
    exact same_queries_trans h1 (same_queries_mark_had_queries s1)
  | false =>
    simp only [Bool.false_eq_true, if_false] at hr
    split at hr
    · simp at hr
    · rename_i s2 h2
      simp only [Option.some.injEq, Prod.mk.injEq] at hr
      rw [← hr.2]
      exact same_queries_trans h1 (lp_setup_flush_and_restart_queries h s1 s2 false h2)
    · rename_i s2 h2
      have q2 := same_queries_trans h1 (lp_setup_flush_and_restart_queries h s1 s2 true h2)
      split at hr
      · simp at hr
      · rename_i sl1 _
        split at hr
        · have h3 := same_queries_of_keeps (keeps_bin_everywhere sl1 cmd s2)
          generalize lp_scene_bin_everywhere sl1 cmd s2 = r1 at hr h3
          obtain ⟨ok1, s3⟩ := r1
          cases ok1 with
          | true =>
            simp only [if_true, Option.some.injEq, Prod.mk.injEq] at hr
            rw [← hr.2]
            exact same_queries_trans q2
              (same_queries_trans h3 (same_queries_mark_had_queries s3))
          | false =>
            simp only [Bool.false_eq_true, if_false, Option.some.injEq, Prod.mk.injEq] at hr
            rw [← hr.2]
            exact same_queries_trans q2 h3
        · simp at hr

/-! ## Begin and end of a query -/

theorem is_binned_query_type_iff (ty : pipe_query_type) :
    is_binned_query_type ty = true ↔
      (ty = pipe_query_type.PIPE_QUERY_OCCLUSION_COUNTER ∨
       ty = pipe_query_type.PIPE_QUERY_OCCLUSION_PREDICATE ∨
       ty = pipe_query_type.PIPE_QUERY_OCCLUSION_PREDICATE_CONSERVATIVE ∨
       ty = pipe_query_type.PIPE_QUERY_PIPELINE_STATISTICS ∨
       ty = pipe_query_type.PIPE_QUERY_TIME_ELAPSED) := by
  cases ty <;> simp [is_binned_query_type]

/-- What `lp_setup_begin_query` does to the active-query list, whatever the outcome of the
transition and of the binning. -/
theorem begin_query_queries (h : lp_headers) (pq : llvmpipe_query) (s t : lp_setup_context)
    (hr : lp_setup_begin_query h pq s = some t) :
    (is_binned_query_type pq.type = true ∧
        s.active_binned_queries < h.LP_MAX_ACTIVE_BINNED_QUERIES →
      t.active_binned_queries = s.active_binned_queries + 1 ∧
      t.active_queries = s.active_queries.set s.active_binned_queries (some pq.ptr)) ∧
    (¬ (is_binned_query_type pq.type = true ∧
        s.active_binned_queries < h.LP_MAX_ACTIVE_BINNED_QUERIES) →
      same_queries s t) := by
  unfold lp_setup_begin_query at hr
  split at hr
  · simp at hr
  · rename_i b1 s1 h1
    have q1 := set_scene_state_queries h s s1 _ b1 h1
    split at hr
    · rename_i hty
      simp only [Option.some.injEq] at hr
      rw [← hr]
      constructor
      · rintro ⟨hb, _⟩
        rw [hb] at hty
        exact Bool.noConfusion hty
      · intro _
        exact q1
    · rename_i hty
      have hb : is_binned_query_type pq.type = true := by
        cases hx : is_binned_query_type pq.type with
        | true => rfl
        | false => simp [hx] at hty
      split at hr
      · rename_i hge
        simp only [Option.some.injEq] at hr
        rw [← hr]
        constructor
        · rintro ⟨_, hlt⟩
          rw [q1.1] at hge
          omega
        · intro _
          exact q1
      · rename_i hlt
        simp only at hr
        have key : same_queries
            { s1 with
              active_queries := s1.active_queries.set s1.active_binned_queries (some pq.ptr),
              active_binned_queries := s1.active_binned_queries + 1 } t := by
          split at hr
          · simp only [Option.some.injEq] at hr
            rw [← hr]
            exact ⟨rfl, rfl⟩
          · rename_i sl _
            split at hr
            · cases h3 : bin_query_cmd h (lp_rast_cmd.LP_RAST_OP_BEGIN_QUERY pq.ptr) sl
                  { s1 with
                    active_queries :=
                      s1.active_queries.set s1.active_binned_queries (some pq.ptr),
                    active_binned_queries := s1.active_binned_queries + 1 } with
              | none => simp [h3] at hr
              | some x =>
                obtain ⟨b3, s3⟩ := x
                simp only [h3, Option.map_some', Option.some.injEq] at hr
                rw [← hr]
                exact bin_query_cmd_queries h _ sl _ s3 b3 h3
            · simp at hr
        constructor
        · intro _
          refine ⟨?_, ?_⟩
          · rw [key.1]
            show s1.active_binned_queries + 1 = _
            rw [q1.1]
          · rw [key.2]
            show s1.active_queries.set s1.active_binned_queries (some pq.ptr) = _
            rw [q1.1, q1.2]
        · intro hn
          rw [q1.1] at hlt
          exact absurd ⟨hb, by omega⟩ hn

/-- The function `lp_setup_begin_query` always returns when no scene pointer dangles. -/
theorem begin_query_total (h : lp_headers) (pq : llvmpipe_query) (s : lp_setup_context)
    (hi : sm_inv s) (hp : pool_ok s) :
    ∃ t, lp_setup_begin_query h pq s = some t ∧ sm_inv t ∧ pool_ok t := by
  suffices hex : ∃ t, lp_setup_begin_query h pq s = some t ∧ pool_ok t by
    obtain ⟨t, ht, hpt⟩ := hex
    exact ⟨t, ht, lp_setup_begin_query_inv h pq s t ht hi, hpt⟩
  unfold lp_setup_begin_query
  obtain ⟨r1, h1⟩ := set_scene_state_total h s setup_state.SETUP_ACTIVE hi hp
  obtain ⟨b1, s1⟩ := r1
  obtain ⟨p1, _⟩ := set_scene_state_frame h s s1 _ b1 h1 hi hp
  have i1 := set_scene_state_inv h s s1 _ b1 h1 hi
  rw [h1]
  simp only
  split
  · exact ⟨_, rfl, p1⟩
  · split
    · exact ⟨_, rfl, p1⟩
    · have i2 : sm_inv { s1 with
          active_queries := s1.active_queries.set s1.active_binned_queries (some pq.ptr),
          active_binned_queries := s1.active_binned_queries + 1 } := i1
      have p2 : pool_ok { s1 with
          active_queries := s1.active_queries.set s1.active_binned_queries (some pq.ptr),
          active_binned_queries := s1.active_binned_queries + 1 } := p1
      split
      · exact ⟨_, rfl, p2⟩
      · rename_i sl hsc
        have hlt : sl < s1.scenes.length := p1.2 sl hsc
        obtain ⟨r3, h3, _, p3, _⟩ := bin_query_cmd_total h
          (lp_rast_cmd.LP_RAST_OP_BEGIN_QUERY pq.ptr) sl
          { s1 with
            active_queries := s1.active_queries.set s1.active_binned_queries (some pq.ptr),
            active_binned_queries := s1.active_binned_queries + 1 } i2 p2
        simp only [if_pos hlt, h3]
        exact ⟨_, rfl, p3⟩

/-- The search loop of `lp_setup_end_query`: the index of the first entry equal to `pq`
among the entries `i, ..., i + n - 1`, or `i + n` when there is none. -/
theorem find_active_query_spec (pq : Nat) (l : List (Option Nat)) (n i : Nat) :
    i ≤ find_active_query pq l n i ∧ find_active_query pq l n i ≤ i + n ∧
    (∀ j, i ≤ j → j < find_active_query pq l n i → l.getD j none ≠ some pq) ∧
    (find_active_query pq l n i < i + n →
      l.getD (find_active_query pq l n i) none = some pq) := by
  induction n generalizing i with
  | zero =>
    simp only [find_active_query]
    refine ⟨le_refl _, le_refl _, ?_, ?_⟩
    · intro j h1 h2
      omega
    · intro h1
      omega
  | succ n ih =>
    unfold find_active_query
    split
    · rename_i heq
      refine ⟨le_refl _, by omega, ?_, fun _ => heq⟩
      intro j h1 h2
      omega
    · rename_i hne
      obtain ⟨a, b, c, d⟩ := ih (i + 1)
      refine ⟨by omega, by omega, ?_, ?_⟩
      · intro j h1 h2
        by_cases hj : j = i
        · rw [hj]
          exact hne
        · exact c j (by omega) h2
      · intro hlt
        exact d (by omega)

/-- Removal by moving the last entry into the slot: the entries below `n - 1` afterwards are
the entries below `n` before, without the one at `i`. -/
theorem swap_remove_perm {α : Type} (d e : α) (l : List α) (i n : Nat) (hi : i < n)
    (hn : n ≤ l.length) :
    (((l.set i (l.getD (n - 1) d)).set (n - 1) e).take (n - 1)).Perm
      ((l.take n).eraseIdx i) := by
  induction i generalizing l n with
  | zero =>
    cases l with
    | nil => simp at hn; omega
    | cons x rest =>
      cases n with
      | zero => omega
      | succ m =>
        cases m with
        | zero => simp
        | succ k =>
          simp only [List.length_cons] at hn
          have hk : k < rest.length := by omega
          simp only [Nat.add_sub_cancel, List.set_cons_zero, List.set_cons_succ,
            List.take_succ_cons, List.eraseIdx_cons_zero, List.getD_cons_succ]
          have e0 : (rest.set k e).take k = rest.take k := by
            rw [List.set_take]
            apply List.set_eq_of_length_le
            rw [List.length_take]
            omega
          rw [e0]
          have e1 : rest.take (k + 1) = rest.take k ++ [rest.getD k d] := by
            rw [List.take_succ, List.getD_eq_getElem?_getD, List.getElem?_eq_getElem hk]
            simp
          rw [e1]
          exact (List.perm_append_singleton _ _).symm
  | succ i ih =>
    cases l with
    | nil => simp at hn; omega
    | cons x rest =>
      cases n with
      | zero => omega
      | succ m =>
        cases m with
        | zero => omega
        | succ k =>
          simp only [List.length_cons] at hn
          simp only [Nat.add_sub_cancel, List.set_cons_succ, List.take_succ_cons,
            List.eraseIdx_cons_succ, List.getD_cons_succ]
          have := ih rest (k + 1) (by omega) (by omega)
          simp only [Nat.add_sub_cancel] at this
          exact List.Perm.cons x this

/-- Whatever path `lp_setup_end_query` takes, it ends with the removal after the `fail:`
label, applied to a context with the active-query list of the start. -/
theorem end_query_shape (h : lp_headers) (pq : llvmpipe_query) (s t : lp_setup_context)
    (hr : lp_setup_end_query h pq s = some t) :
    ∃ u, t = remove_active_query pq u ∧ same_queries s u := by
  unfold lp_setup_end_query at hr
  split at hr
  · simp at hr
  · rename_i b1 s1 h1
    have q1 := set_scene_state_queries h s s1 _ b1 h1
    split at hr
    · rename_i sl _
      split at hr
      · simp only at hr
        have q2 : same_queries s (record (event.fence_reference pq.ptr sl) s1) := q1
        split at hr
        · split at hr
          · simp at hr
          · rename_i b3 s3 h3
            simp only [Option.some.injEq] at hr
            exact ⟨s3, hr.symm, same_queries_trans q2 (bin_query_cmd_queries h _ sl _ s3 b3 h3)⟩
        · simp only [Option.some.injEq] at hr
          exact ⟨_, hr.symm, q2⟩
      · simp at hr
    · simp only [Option.some.injEq] at hr
      have q2 : same_queries s (record (event.rast_fence pq.ptr) s1) := q1
      exact ⟨_, hr.symm, q2⟩

theorem pool_ok_remove_active_query (pq : llvmpipe_query) (s : lp_setup_context)
    (hp : pool_ok s) : pool_ok (remove_active_query pq s) := by
  unfold remove_active_query
  split
  · simp only
    split
    · exact hp
    · exact hp
  · exact hp

/-- The function `lp_setup_end_query` always returns when no scene pointer dangles. -/
theorem end_query_total (h : lp_headers) (pq : llvmpipe_query) (s : lp_setup_context)
    (hi : sm_inv s) (hp : pool_ok s) :
    ∃ t, lp_setup_end_query h pq s = some t ∧ sm_inv t ∧ pool_ok t := by
  suffices hex : ∃ t, lp_setup_end_query h pq s = some t ∧ pool_ok t by
    obtain ⟨t, ht, hpt⟩ := hex
    exact ⟨t, ht, lp_setup_end_query_inv h pq s t ht hi, hpt⟩
  unfold lp_setup_end_query
  obtain ⟨r1, h1⟩ := set_scene_state_total h s setup_state.SETUP_ACTIVE hi hp
  obtain ⟨b1, s1⟩ := r1
  obtain ⟨p1, _⟩ := set_scene_state_frame h s s1 _ b1 h1 hi hp
  have i1 := set_scene_state_inv h s s1 _ b1 h1 hi
  rw [h1]
  simp only
  split
  · rename_i sl hsc
    have hlt : sl < s1.scenes.length := p1.2 sl hsc
    rw [if_pos hlt]
    have i2 : sm_inv (record (event.fence_reference pq.ptr sl) s1) := i1
    have p2 : pool_ok (record (event.fence_reference pq.ptr sl) s1) := p1
    split
    · obtain ⟨r3, h3, _, p3, _⟩ := bin_query_cmd_total h
        (lp_rast_cmd.LP_RAST_OP_END_QUERY pq.ptr) sl _ i2 p2
      rw [h3]
      exact ⟨_, rfl, pool_ok_remove_active_query pq _ p3⟩
    · exact ⟨_, rfl, pool_ok_remove_active_query pq _ p2⟩
  · have p2 : pool_ok (record (event.rast_fence pq.ptr) s1) := p1
    exact ⟨_, rfl, pool_ok_remove_active_query pq _ p2⟩

/-- The removal after the `fail:` label, for a query of a binned type that is in the list:
`i` is its first index. -/
theorem remove_active_query_found (pq : llvmpipe_query) (u : lp_setup_context) (i : Nat)
    (hb : is_binned_query_type pq.type = true) (hi : i < u.active_binned_queries)
    (hg : u.active_queries.getD i none = some pq.ptr)
    (hfirst : ∀ j, j < i → u.active_queries.getD j none ≠ some pq.ptr) :
    (remove_active_query pq u).active_binned_queries = u.active_binned_queries - 1 ∧
    (remove_active_query pq u).active_queries =
      (u.active_queries.set i (u.active_queries.getD (u.active_binned_queries - 1) none)).set
        (u.active_binned_queries - 1) none := by
  obtain ⟨a, b, c, d⟩ := find_active_query_spec pq.ptr u.active_queries
    u.active_binned_queries 0
  have hidx : find_active_query pq.ptr u.active_queries u.active_binned_queries 0 = i := by
    rcases Nat.lt_trichotomy
      (find_active_query pq.ptr u.active_queries u.active_binned_queries 0) i with hlt | he | hgt
    · exact absurd (d (by omega)) (hfirst _ hlt)
    · exact he
    · exact absurd hg (c i (Nat.zero_le _) hgt)
  unfold remove_active_query
  rw [if_pos hb]
  simp only [hidx]
  rw [if_neg (by omega)]
  exact ⟨rfl, rfl⟩

theorem remove_active_query_absent (pq : llvmpipe_query) (u : lp_setup_context)
    (hno : is_binned_query_type pq.type = false ∨
      ∀ j, j < u.active_binned_queries → u.active_queries.getD j none ≠ some pq.ptr) :
    remove_active_query pq u = u := by
  unfold remove_active_query
  rcases hno with hb | hno
  · rw [hb]
    simp
  · split
    · obtain ⟨a, b, c, d⟩ := find_active_query_spec pq.ptr u.active_queries
        u.active_binned_queries 0
      have hidx : find_active_query pq.ptr u.active_queries u.active_binned_queries 0 =
          u.active_binned_queries := by
        by_contra hne
        have hlt : find_active_query pq.ptr u.active_queries u.active_binned_queries 0 <
            u.active_binned_queries := by omega
        exact hno _ hlt (d (by omega))
      simp only [hidx, if_true]
    · rfl

theorem remove_active_query_queries_inv (h : lp_headers) (pq : llvmpipe_query)
    (u : lp_setup_context) (hq : queries_inv h u) : queries_inv h (remove_active_query pq u) := by
  unfold remove_active_query
  split
  · simp only
    split
    · exact hq
    · unfold queries_inv at hq ⊢
      simp only [List.length_set]
      exact ⟨by omega, hq.2⟩
  · exact hq

theorem begin_query_queries_inv (h : lp_headers) (pq : llvmpipe_query) (s t : lp_setup_context)
    (hr : lp_setup_begin_query h pq s = some t) (hq : queries_inv h s) : queries_inv h t := by
  obtain ⟨h1, h2⟩ := begin_query_queries h pq s t hr
  by_cases hc : is_binned_query_type pq.type = true ∧
      s.active_binned_queries < h.LP_MAX_ACTIVE_BINNED_QUERIES
  · obtain ⟨a, b⟩ := h1 hc
    unfold queries_inv at hq ⊢
    rw [a, b, List.length_set]
    exact ⟨by omega, hq.2⟩
  · exact queries_inv_of_same (h2 hc) hq

theorem end_query_queries_inv (h : lp_headers) (pq : llvmpipe_query) (s t : lp_setup_context)
    (hr : lp_setup_end_query h pq s = some t) (hq : queries_inv h s) : queries_inv h t := by
  obtain ⟨u, ht, hsame⟩ := end_query_shape h pq s t hr
  rw [ht]
  exact remove_active_query_queries_inv h pq u (queries_inv_of_same hsame hq)

theorem apply_op_queries_inv (h : lp_headers) (op : setup_op) (s t : lp_setup_context)
    (hr : apply_op h op s = some t) (hq : queries_inv h s) : queries_inv h t := by
  cases op with
  | clear color depth stencil flags =>
    exact queries_inv_of_same (lp_setup_clear_queries h _ _ _ _ s t hr) hq
  | flush => exact queries_inv_of_same (lp_setup_flush_queries h s t hr) hq
  | bind_framebuffer fb =>
    exact queries_inv_of_same (lp_setup_bind_framebuffer_queries h fb s t hr) hq
  | update_state u =>
    simp only [apply_op] at hr
    cases h1 : lp_setup_update_state h u s with
    | none => simp [h1] at hr
    | some x =>
      obtain ⟨b, s1⟩ := x
      simp only [h1, Option.map_some', Option.some.injEq] at hr
      rw [← hr]
      exact queries_inv_of_same (lp_setup_update_state_queries h u s s1 b h1) hq
  | begin_query pq => exact begin_query_queries_inv h pq s t hr hq
  | end_query pq => exact end_query_queries_inv h pq s t hr hq
  | flush_and_restart =>
    simp only [apply_op] at hr
    cases h1 : lp_setup_flush_and_restart h s with
    | none => simp [h1] at hr
    | some x =>
      obtain ⟨b, s1⟩ := x
      simp only [h1, Option.map_some', Option.some.injEq] at hr
      rw [← hr]
      exact queries_inv_of_same (lp_setup_flush_and_restart_queries h s s1 b h1) hq
  | rast_signal slot =>
    simp only [apply_op, Option.some.injEq] at hr
    rw [← hr]
    exact hq

theorem run_ops_queries_inv (h : lp_headers) (ops : List setup_op) (s t : lp_setup_context)
    (hr : run_ops h ops s = some t) (hq : queries_inv h s) : queries_inv h t := by
  induction ops generalizing s with
  | nil =>
    simp only [run_ops, Option.some.injEq] at hr
    rw [← hr]
    exact hq
  | cons op rest ih =>
    unfold run_ops at hr
    cases h1 : apply_op h op s with
    | none => simp [h1] at hr
    | some s1 =>
      simp only [h1] at hr
      exact ih s1 hr (apply_op_queries_inv h op s s1 h1 hq)

theorem lp_setup_create_queries_inv (h : lp_headers) (num_threads : Nat)
    (pipe : llvmpipe_context) (oracle : List Bool) (s0 : lp_setup_context)
    (hc : lp_setup_create h num_threads pipe oracle = some s0) :
    queries_inv h s0 ∧ s0.active_binned_queries = 0 ∧ pool_ok s0 := by
  unfold lp_setup_create at hc
  simp only at hc
  split at hc
  · split at hc
    · split at hc
      · simp at hc
      · rename_i scene s2 hsc
        simp only [Option.some.injEq] at hc
        have h2 := lp_scene_create_spec
          (take_oracle { (take_oracle (zero_context h pipe oracle)).2 with
            num_threads := num_threads }).2
        rw [hsc] at h2
        obtain ⟨hp, _, _, hscene, _⟩ := h2
        have q2 := same_queries_of_pool_only hp
        have hto1 := keeps_take_oracle { (take_oracle (zero_context h pipe oracle)).2 with
            num_threads := num_threads }
        have hto0 := keeps_take_oracle (zero_context h pipe oracle)
        have q : s2.active_binned_queries = 0 ∧
            s2.active_queries = List.replicate h.LP_MAX_ACTIVE_BINNED_QUERIES none := by
          simp only [] at q2
          rw [q2.1, q2.2, hto1.queries.1, hto1.queries.2]
          simp only []
          rw [hto0.queries.1, hto0.queries.2]
          exact ⟨rfl, rfl⟩
        have hnone : s2.scene = none := by
          simp only [] at hscene
          rw [hscene, hto1.scene]
          simp only []
          rw [hto0.scene]
          rfl
        rw [← hc]
        refine ⟨?_, ?_, ?_⟩
        · show s2.active_binned_queries ≤ _ ∧ s2.active_queries.length = _
          rw [q.1, q.2]
          simp
        · exact q.1
        · constructor
          · show [scene] ≠ []
            simp
          · intro sl hsl
            have hsl2 : s2.scene = some sl := hsl
            rw [hnone] at hsl2
            exact Option.noConfusion hsl2
    · simp at hc
  · simp at hc

theorem get?_set_set_self {α : Type} (l : List α) (i m : Nat) (x e : α) (hm : m < l.length) :
    ((l.set i x).set m e).get? m = some e := by
  rw [List.get?_eq_getElem?, List.getElem?_set]
  simp [hm]

theorem get?_set_set_other {α : Type} (l : List α) (i m j : Nat) (x e : α) (h1 : j ≠ i)
    (h2 : j ≠ m) : ((l.set i x).set m e).get? j = l.get? j := by
  rw [List.get?_eq_getElem?, List.get?_eq_getElem?, List.getElem?_set, if_neg (Ne.symm h2),
    List.getElem?_set, if_neg (Ne.symm h1)]

theorem get?_set_set_first {α : Type} (l : List α) (i m : Nat) (x e : α) (h1 : i ≠ m)
    (hi : i < l.length) : ((l.set i x).set m e).get? i = some x := by
  rw [List.get?_eq_getElem?, List.getElem?_set, if_neg (Ne.symm h1), List.getElem?_set]
  simp [hi]

/-! ## The contexts reached from `lp_setup_create` -/

theorem try_clear_color_buffer_pool_ok (h : lp_headers) (color cbuf : Nat)
    (s t : lp_setup_context) (b : Bool)
    (hr : lp_setup_try_clear_color_buffer h color cbuf s = some (b, t))
    (hi : sm_inv s) (hp : pool_ok s) : pool_ok t := by
  unfold lp_setup_try_clear_color_buffer at hr
  split at hr
  · rename_i surf _
    simp only at hr
    split at hr
    · split at hr
      · simp at hr
      · rename_i sl _
        split at hr
        · have h1 := (keeps_bins_lp_scene_alloc sl s).base
          generalize lp_scene_alloc sl s = r at hr h1
          obtain ⟨o, s1⟩ := r
          cases o with
          | none =>
            simp only [Option.some.injEq, Prod.mk.injEq] at hr
            rw [← hr.2]
            exact pool_ok_of_keeps h1 hp
          | some p =>
            simp only [Option.some.injEq] at hr
            have h2 := keeps_bin_everywhere sl
              (lp_rast_cmd.LP_RAST_OP_CLEAR_COLOR cbuf (h.util_pack_color_union surf.format color)) s1
            rw [hr] at h2
            exact pool_ok_of_keeps (keeps_trans h1 h2) hp
        · simp at hr
    · cases hs : set_scene_state h s setup_state.SETUP_CLEARED with
      | none => simp [hs] at hr
      | some x =>
        obtain ⟨b1, s1⟩ := x
        simp only [hs, Option.some.injEq, Prod.mk.injEq] at hr
        have hp1 : pool_ok s1 := (set_scene_state_frame h s s1 _ b1 hs hi hp).1
        rw [← hr.2]
        exact hp1
  · simp at hr

theorem try_clear_zs_pool_ok (h : lp_headers) (depth stencil flags : Nat)
    (s t : lp_setup_context) (b : Bool)
    (hr : lp_setup_try_clear_zs h depth stencil flags s = some (b, t))
    (hi : sm_inv s) (hp : pool_ok s) : pool_ok t := by
  unfold lp_setup_try_clear_zs at hr
  split at hr
  · simp at hr
  · rename_i zsbuf _
    simp only at hr
    split at hr
    · split at hr
      · simp at hr
      · rename_i sl _
        split at hr
        · simp only [Option.some.injEq] at hr
          have h2 := keeps_bin_everywhere sl
            (lp_rast_cmd.LP_RAST_OP_CLEAR_ZSTENCIL
              (clear_zs_value_mask h zsbuf.format depth stencil flags).1
              (clear_zs_value_mask h zsbuf.format depth stencil flags).2) s
          rw [hr] at h2
          exact pool_ok_of_keeps h2 hp
        · simp at hr
    · cases hs : set_scene_state h s setup_state.SETUP_CLEARED with
      | none => simp [hs] at hr
      | some x =>
        obtain ⟨b1, s1⟩ := x
        simp only [hs, Option.some.injEq, Prod.mk.injEq] at hr
        have hp1 : pool_ok s1 := (set_scene_state_frame h s s1 _ b1 hs hi hp).1
        rw [← hr.2]
        exact hp1

theorem lp_setup_clear_zs_pool_ok (h : lp_headers) (depth stencil flags : Nat)
    (s t : lp_setup_context) (hr : lp_setup_clear_zs h depth stencil flags s = some t)
    (hi : sm_inv s) (hp : pool_ok s) : pool_ok t := by
  unfold lp_setup_clear_zs at hr
  split at hr
  · simp only at hr
    split at hr
    · simp at hr
    · rename_i s1 h1
      simp only [Option.some.injEq] at hr
      rw [← hr]
      exact try_clear_zs_pool_ok h _ _ _ s s1 true h1 hi hp
    · rename_i s1 h1
      have p1 := try_clear_zs_pool_ok h _ _ _ s s1 false h1 hi hp
      have i1 := try_clear_zs_inv h _ _ _ s s1 false h1 hi
      split at hr
      · simp at hr
      · rename_i b2 s2 h2
        have p2 := (set_scene_state_frame h s1 s2 _ b2 h2 i1 p1).1
        have i2 := set_scene_state_inv h s1 s2 _ b2 h2 i1
        cases h3 : lp_setup_try_clear_zs h depth stencil (flags &&& PIPE_CLEAR_DEPTHSTENCIL) s2 with
        | none => simp [h3] at hr
        | some x =>
          obtain ⟨b3, s3⟩ := x
          simp only [h3, Option.map_some', Option.some.injEq] at hr
          rw [← hr]
          exact try_clear_zs_pool_ok h _ _ _ s2 s3 b3 h3 i2 p2
  · simp only [Option.some.injEq] at hr
    rw [← hr]
    exact hp

theorem lp_setup_clear_color_pool_ok (h : lp_headers) (color flags n i : Nat)
    (s t : lp_setup_context) (hr : lp_setup_clear_color h color flags n i s = some t)
    (hi : sm_inv s) (hp : pool_ok s) : pool_ok t := by
  induction n generalizing i s with
  | zero =>
    simp only [lp_setup_clear_color, Option.some.injEq] at hr
    rw [← hr]
    exact hp
  | succ n ih =>
    unfold lp_setup_clear_color at hr
    split at hr
    · split at hr
      · simp at hr
      · rename_i s1 h1
        exact ih _ _ hr (try_clear_color_buffer_inv h _ _ s s1 true h1 hi)
          (try_clear_color_buffer_pool_ok h _ _ s s1 true h1 hi hp)
      · rename_i s1 h1
        have p1 := try_clear_color_buffer_pool_ok h _ _ s s1 false h1 hi hp
        have i1 := try_clear_color_buffer_inv h _ _ s s1 false h1 hi
        split at hr
        · simp at hr
        · rename_i b2 s2 h2
          have p2 := (set_scene_state_frame h s1 s2 _ b2 h2 i1 p1).1
          have i2 := set_scene_state_inv h s1 s2 _ b2 h2 i1
          split at hr
          · simp at hr
          · rename_i b3 s3 h3
            exact ih _ _ hr (try_clear_color_buffer_inv h _ _ s2 s3 b3 h3 i2)
              (try_clear_color_buffer_pool_ok h _ _ s2 s3 b3 h3 i2 p2)
    · exact ih _ _ hr hi hp

theorem lp_setup_clear_pool_ok (h : lp_headers) (color depth stencil flags : Nat)
    (s t : lp_setup_context) (hr : lp_setup_clear h color depth stencil flags s = some t)
    (hi : sm_inv s) (hp : pool_ok s) : pool_ok t := by
  unfold lp_setup_clear at hr
  split at hr
  · simp at hr
  · rename_i s1 h1
    have p1 := lp_setup_clear_zs_pool_ok h _ _ _ s s1 h1 hi hp
    have i1 := lp_setup_clear_zs_inv h _ _ _ s s1 h1 hi
    split at hr
    · exact lp_setup_clear_color_pool_ok h _ _ _ _ s1 t hr i1 p1
    · simp only [Option.some.injEq] at hr
      rw [← hr]
      exact p1

theorem apply_op_pool_ok (h : lp_headers) (op : setup_op) (s t : lp_setup_context)
    (hr : apply_op h op s = some t) (hi : sm_inv s) (hp : pool_ok s) : pool_ok t := by
  cases op with
  | clear color depth stencil flags => exact lp_setup_clear_pool_ok h _ _ _ _ s t hr hi hp
  | flush =>
    simp only [apply_op, lp_setup_flush] at hr
    cases h1 : set_scene_state h s setup_state.SETUP_FLUSHED with
    | none => simp [h1] at hr
    | some x =>
      obtain ⟨b, s1⟩ := x
      simp only [h1, Option.map_some', Option.some.injEq] at hr
      rw [← hr]
      exact (set_scene_state_frame h s s1 _ b h1 hi hp).1
  | bind_framebuffer fb =>
    simp only [apply_op, lp_setup_bind_framebuffer] at hr
    cases h1 : set_scene_state h s setup_state.SETUP_FLUSHED with
    | none => simp [h1] at hr
    | some x =>
      obtain ⟨b, s1⟩ := x
      simp only [h1, Option.some.injEq] at hr
      rw [← hr]
      have p1 : pool_ok s1 := (set_scene_state_frame h s s1 _ b h1 hi hp).1
      exact p1
  | update_state u =>
    simp only [apply_op] at hr
    obtain ⟨r, h1, _, p1, _⟩ := lp_setup_update_state_total h u s hi hp
    simp only [h1, Option.map_some', Option.some.injEq] at hr
    rw [← hr]
    exact p1
  | begin_query pq =>
    obtain ⟨r, h1, _, p1⟩ := begin_query_total h pq s hi hp
    simp only [apply_op, h1, Option.some.injEq] at hr
    rw [← hr]
    exact p1
  | end_query pq =>
    obtain ⟨r, h1, _, p1⟩ := end_query_total h pq s hi hp
    simp only [apply_op, h1, Option.some.injEq] at hr
    rw [← hr]
    exact p1
  | flush_and_restart =>
    simp only [apply_op] at hr
    obtain ⟨r, h1, _, p1, _⟩ := lp_setup_flush_and_restart_total h s hi hp
    simp only [h1, Option.map_some', Option.some.injEq] at hr
    rw [← hr]
    exact p1
  | rast_signal slot =>
    simp only [apply_op, Option.some.injEq] at hr
    rw [← hr]
    obtain ⟨a, b⟩ := hp
    constructor
    · intro hn
      have := modify_scene_length (fun sc => { sc with fence := sc.fence.map lp_fence_signal })
        slot s.scenes
      simp only [with_scene] at hn
      rw [hn] at this
      exact a (List.length_eq_zero.mp this.symm)
    · intro sl hsl
      simp only [with_scene, modify_scene_length]
      exact b sl hsl

/-- Every context reached from `lp_setup_create` by a sequence of operations satisfies the
invariant of the state machine, has no dangling scene pointer, and keeps the active-query
count within the array. -/
theorem run_ops_reachable (h : lp_headers) (ops : List setup_op) (s t : lp_setup_context)
    (hr : run_ops h ops s = some t) (hi : sm_inv s) (hp : pool_ok s) (hq : queries_inv h s) :
    sm_inv t ∧ pool_ok t ∧ queries_inv h t := by
  induction ops generalizing s with
  | nil =>
    simp only [run_ops, Option.some.injEq] at hr
    rw [← hr]
    exact ⟨hi, hp, hq⟩
  | cons op rest ih =>
    unfold run_ops at hr
    cases h1 : apply_op h op s with
    | none => simp [h1] at hr
    | some s1 =>
      simp only [h1] at hr
      exact ih s1 hr (apply_op_inv h op s s1 h1 hi) (apply_op_pool_ok h op s s1 h1 hi hp)
        (apply_op_queries_inv h op s s1 h1 hq)

theorem created_reachable (h : lp_headers) (num_threads : Nat) (pipe : llvmpipe_context)
    (oracle : List Bool) (ops : List setup_op) (t : lp_setup_context)
    (hr : (lp_setup_create h num_threads pipe oracle).bind (run_ops h ops) = some t) :
    sm_inv t ∧ pool_ok t ∧ queries_inv h t := by
  cases hc : lp_setup_create h num_threads pipe oracle with
  | none => simp [hc] at hr
  | some s0 =>
    simp only [hc, Option.some_bind] at hr
    obtain ⟨q, _, p⟩ := lp_setup_create_queries_inv h num_threads pipe oracle s0 hc
    exact run_ops_reachable h ops s0 t hr (lp_setup_create_inv h num_threads pipe oracle s0 hc)
      p q

/-! ## The constants block of `try_update_scene_state` -/

theorem dirty_bit_mono (d b c : Nat) (hd : d &&& c ≠ 0) : (d ||| b) &&& c ≠ 0 := by
  intro hz
  apply hd
  apply Nat.eq_of_testBit_eq
  intro i
  have hi := congrArg (fun x => x.testBit i) hz
  simp only [Nat.testBit_and, Nat.testBit_or, Nat.zero_testBit] at hi ⊢
  cases hdi : d.testBit i <;> cases hci : c.testBit i <;> simp_all

theorem DIV_ROUND_UP_zero (b : Nat) : DIV_ROUND_UP 0 b = 0 := by
  unfold DIV_ROUND_UP
  cases b with
  | zero => simp
  | succ n =>
    rw [Nat.zero_add, Nat.add_sub_cancel]
    exact Nat.div_eq_of_lt (Nat.lt_succ_self n)

theorem lp_scene_alloc_serial (i : Nat) (s : lp_setup_context) :
    s.next_serial ≤ (lp_scene_alloc i s).2.next_serial ∧
    (∀ serial, (lp_scene_alloc i s).1 = some serial → serial = s.next_serial) ∧
    ((lp_scene_alloc i s).1 = none ↔ s.oracle.head? = some false) ∧
    (lp_scene_alloc i s).2.scene = s.scene ∧
    (lp_scene_alloc i s).2.scenes.length = s.scenes.length := by
  unfold lp_scene_alloc take_oracle
  cases ho : s.oracle with
  | nil => simp [with_scene, record, modify_scene_length]
  | cons b rest =>
    cases b with
    | true => simp [with_scene, record, modify_scene_length]
    | false => simp [with_scene, record]

theorem before_constants_alloc (i : Nat) (s : lp_setup_context) :
    before_constants s (lp_scene_alloc i s).2 := by
  have hp := pool_only_eq (pool_only_lp_scene_alloc i s)
  obtain ⟨a, b, c, d, e, f, g, _⟩ := hp
  exact ⟨g, f, by rw [d], (lp_scene_alloc_serial i s).1, fun c hc => by rw [e]; exact hc⟩

theorem before_constants_update_viewports (sl : Nat) (s : lp_setup_context) :
    before_constants s (update_viewports sl s).2 := by
  have ha := before_constants_alloc sl s
  unfold update_viewports
  split
  · generalize lp_scene_alloc sl s = r at ha
    obtain ⟨o, s1⟩ := r
    cases o with
    | none => exact ha
    | some stored =>
      exact ⟨ha.constants, ha.pipe, ha.jit, ha.serial,
        fun c hc => dirty_bit_mono _ _ _ (ha.dirty c hc)⟩
  · exact ⟨rfl, rfl, rfl, le_refl _, fun _ hc => hc⟩

theorem before_constants_update_blend_color (sl : Nat) (s : lp_setup_context) :
    before_constants s (update_blend_color sl s).2 := by
  have ha := before_constants_alloc sl s
  unfold update_blend_color
  split
  · generalize lp_scene_alloc sl s = r at ha
    obtain ⟨o, s1⟩ := r
    cases o with
    | none => exact ha
    | some stored =>
      exact ⟨ha.constants, ha.pipe, ha.jit, ha.serial,
        fun c hc => dirty_bit_mono _ _ _ (ha.dirty c hc)⟩
  · exact ⟨rfl, rfl, rfl, le_refl _, fun _ hc => hc⟩

theorem before_constants_trans {s t u : lp_setup_context} (a : before_constants s t)
    (b : before_constants t u) : before_constants s u :=
  ⟨by rw [b.constants, a.constants], by rw [b.pipe, a.pipe], by rw [b.jit, a.jit],
   le_trans a.serial b.serial, fun c hc => b.dirty c (a.dirty c hc)⟩

theorem update_constant_absent (h : lp_headers) (sl i : Nat) (c : constants_state)
    (s : lp_setup_context)
    (hno : constant_current_data h c.current = none ∨ constant_current_size h c < 4) :
    update_constant h sl i c s =
      (true, finish_constant h i { c with stored_size := 0, stored_data := none }
        data_ptr.fake_const_buf s) := by
  unfold update_constant
  unfold constant_current_size at hno
  dsimp only
  split
  · rename_i data hd
    rcases hno with hno | hno
    · rw [hno] at hd
      exact Option.noConfusion hd
    · rw [if_neg (by omega)]
  · rfl

theorem update_constant_same (h : lp_headers) (sl i : Nat) (c : constants_state)
    (s : lp_setup_context) (data : List Nat)
    (hd : constant_current_data h c.current = some data)
    (hsz : 4 ≤ constant_current_size h c) (hn : ¬ constant_differs h c data) :
    ∃ sd, c.stored_data = some sd ∧ c.stored_size = constant_current_size h c ∧
      sd.2.take (constant_current_size h c) = constant_current_bytes h c data ∧
      update_constant h sl i c s = (true, finish_constant h i c (data_ptr.arena sd.1 0) s) := by
  have hn2 := hn
  unfold constant_differs at hn2
  simp only [not_or, not_exists, not_and, not_not] at hn2
  obtain ⟨a, b, d⟩ := hn2
  cases hs : c.stored_data with
  | none => exact absurd hs b
  | some sd =>
    refine ⟨sd, rfl, a, d sd hs, ?_⟩
    have d2 := d sd hs
    unfold update_constant
    unfold constant_current_bytes constant_current_size at d2
    unfold constant_current_size at hsz a
    simp only [hd]
    rw [if_pos hsz]
    split
    · rename_i hx
      exfalso
      rw [hs] at hx
      simp only [Bool.or_eq_true, decide_eq_true_eq] at hx
      rcases hx with hx | hx
      · exact hx a
      · exact hx d2
    · simp only [hs]

theorem update_constant_alloc (h : lp_headers) (sl i : Nat) (c : constants_state)
    (s : lp_setup_context) (data : List Nat)
    (hd : constant_current_data h c.current = some data)
    (hsz : 4 ≤ constant_current_size h c) (hy : constant_differs h c data) :
    update_constant h sl i c s =
      match lp_scene_alloc sl s with
      | (none, s1) => (false, s1)
      | (some stored, s1) =>
        (true, finish_constant h i
          { c with stored_size := constant_current_size h c,
                   stored_data := some (stored, constant_current_bytes h c data) }
          (data_ptr.arena stored 0) s1) := by
  unfold update_constant
  unfold constant_differs constant_current_bytes constant_current_size at hy
  unfold constant_current_bytes constant_current_size
  unfold constant_current_size at hsz
  simp only [hd]
  rw [if_pos hsz]
  split
  · rfl
  · rename_i hx
    exfalso
    apply hx
    cases hs : c.stored_data with
    | none => rfl
    | some sd =>
      simp only [Bool.or_eq_true, decide_eq_true_eq]
      rcases hy with hy | hy | hy
      · exact Or.inl hy
      · rw [hs] at hy
        exact Option.noConfusion hy
      · obtain ⟨sd2, e1, e2⟩ := hy
        rw [hs] at e1
        have e3 : sd = sd2 := Option.some.inj e1
        subst e3
        exact Or.inr e2

theorem finish_constant_fields (h : lp_headers) (i : Nat) (c1 : constants_state)
    (p : data_ptr) (s1 : lp_setup_context) :
    (finish_constant h i c1 p s1).constants = s1.constants.set i c1 ∧
    (finish_constant h i c1 p s1).fs.current.jit_context.constants =
      s1.fs.current.jit_context.constants.set i
        { ptr := p, num_elements := DIV_ROUND_UP c1.stored_size h.lp_get_constant_buffer_stride } ∧
    (finish_constant h i c1 p s1).next_serial = s1.next_serial ∧
    (finish_constant h i c1 p s1).pipe = s1.pipe ∧
    (finish_constant h i c1 p s1).trace = s1.trace ∧
    (finish_constant h i c1 p s1).scenes = s1.scenes ∧
    (finish_constant h i c1 p s1).oracle = s1.oracle :=
  ⟨rfl, rfl, rfl, rfl, rfl, rfl, rfl⟩

/-- One iteration of the constants loop: on success slot `i` and its JIT entry are written as
`constant_outcome` says and nothing else of the two arrays changes; on failure the arrays
are untouched. -/
theorem update_constant_step (h : lp_headers) (sl i : Nat) (c : constants_state)
    (s : lp_setup_context) :
    ((update_constant h sl i c s).1 = true → ∃ c1 e,
      (update_constant h sl i c s).2.constants = s.constants.set i c1 ∧
      (update_constant h sl i c s).2.fs.current.jit_context.constants =
        s.fs.current.jit_context.constants.set i e ∧
      constant_outcome h s.next_serial c c1 e) ∧
    ((update_constant h sl i c s).1 = false →
      (update_constant h sl i c s).2.constants = s.constants ∧
      (update_constant h sl i c s).2.fs.current.jit_context.constants =
        s.fs.current.jit_context.constants) ∧
    s.next_serial ≤ (update_constant h sl i c s).2.next_serial := by
  by_cases hno : constant_current_data h c.current = none ∨ constant_current_size h c < 4
  · rw [update_constant_absent h sl i c s hno]
    refine ⟨fun _ => ⟨_, _, rfl, rfl, ?_⟩, fun hf => Bool.noConfusion hf, le_refl _⟩
    refine ⟨fun data hd hsz => ?_, fun _ => ⟨rfl, ?_⟩⟩
    · rcases hno with hno | hno
      · rw [hno] at hd
        exact Option.noConfusion hd
      · omega
    · show ({ ptr := data_ptr.fake_const_buf,
              num_elements := DIV_ROUND_UP 0 h.lp_get_constant_buffer_stride } : lp_jit_buffer) = _
      rw [DIV_ROUND_UP_zero]
  · simp only [not_or, not_lt] at hno
    obtain ⟨hd0, hsz⟩ := hno
    cases hd : constant_current_data h c.current with
    | none => exact absurd hd hd0
    | some data =>
      by_cases hy : constant_differs h c data
      · rw [update_constant_alloc h sl i c s data hd hsz hy]
        have ha := before_constants_alloc sl s
        have hs := (lp_scene_alloc_serial sl s).2.1
        generalize lp_scene_alloc sl s = r at ha hs
        obtain ⟨o, s1⟩ := r
        cases o with
        | none =>
          exact ⟨fun hf => Bool.noConfusion hf, fun _ => ⟨ha.constants, ha.jit⟩, ha.serial⟩
        | some stored =>
          have hst : stored = s.next_serial := hs stored rfl
          refine ⟨fun _ => ⟨
            ({ c with stored_size := constant_current_size h c,
                      stored_data := some (stored, constant_current_bytes h c data) } :
              constants_state),
            ({ ptr := data_ptr.arena stored 0,
               num_elements :=
                 DIV_ROUND_UP (constant_current_size h c) h.lp_get_constant_buffer_stride } :
              lp_jit_buffer),
            ?_, ?_, ?_⟩, fun hf => Bool.noConfusion hf, ha.serial⟩
          · show s1.constants.set i _ = _
            rw [ha.constants]
          · show s1.fs.current.jit_context.constants.set i _ = _
            rw [ha.jit]
          · refine ⟨fun data2 hd2 _ => ?_, fun hno => ?_⟩
            · rw [hd] at hd2
              have hdd : data = data2 := Option.some.inj hd2
              subst hdd
              exact ⟨fun _ => ⟨stored, le_of_eq hst.symm, rfl, rfl⟩, fun hn => absurd hy hn⟩
            · rcases hno with hno | hno
              · rw [hno] at hd
                exact Option.noConfusion hd
              · omega
      · obtain ⟨sd, hsd, hsize, hbytes, he⟩ := update_constant_same h sl i c s data hd hsz hy
        rw [he]
        refine ⟨fun _ => ⟨_, _, rfl, rfl, ?_⟩, fun hf => Bool.noConfusion hf, le_refl _⟩
        refine ⟨fun data2 hd2 _ => ?_, fun hno => ?_⟩
        · rw [hd] at hd2
          have hdd : data = data2 := Option.some.inj hd2
          subst hdd
          exact ⟨fun hyes => absurd hyes hy, fun _ => ⟨rfl, sd, hsd, rfl⟩⟩
        · rcases hno with hno | hno
          · rw [hno] at hd
            exact Option.noConfusion hd
          · omega

theorem constant_outcome_mono (h : lp_headers) (lo lo2 : Nat) (c c1 : constants_state)
    (e : lp_jit_buffer) (hle : lo ≤ lo2) (ho : constant_outcome h lo2 c c1 e) :
    constant_outcome h lo c c1 e := by
  obtain ⟨a, b⟩ := ho
  refine ⟨fun data hd hsz => ⟨fun hy => ?_, (a data hd hsz).2⟩, b⟩
  obtain ⟨serial, h1, h2⟩ := (a data hd hsz).1 hy
  exact ⟨serial, le_trans hle h1, h2⟩

theorem get?_set_self {α : Type} (l : List α) (i : Nat) (x : α) (hi : i < l.length) :
    (l.set i x).get? i = some x := by
  rw [List.get?_eq_getElem?, List.getElem?_set]
  simp [hi]

theorem get?_set_other {α : Type} (l : List α) (i j : Nat) (x : α) (hne : j ≠ i) :
    (l.set i x).get? j = l.get? j := by
  rw [List.get?_eq_getElem?, List.get?_eq_getElem?, List.getElem?_set, if_neg (Ne.symm hne)]

theorem get?_some_lt {α : Type} (l : List α) (i : Nat) (x : α) (hg : l.get? i = some x) :
    i < l.length := by
  by_contra hn
  rw [List.get?_eq_none.mpr (by omega)] at hg
  exact Option.noConfusion hg

theorem set_fs_constants_loop_length (cs : List constants_state) (n : Nat)
    (bs : List pipe_constant_buffer) : (set_fs_constants_loop cs n bs).length = cs.length := by
  induction cs generalizing n bs with
  | nil => cases n <;> cases bs <;> rfl
  | cons c rest ih =>
    cases n with
    | zero => simp [set_fs_constants_loop, ih]
    | succ n =>
      cases bs with
      | nil => simp [set_fs_constants_loop, ih]
      | cons b bs => simp [set_fs_constants_loop, ih]

theorem constants_at_loop_length (s : lp_setup_context) :
    (constants_at_loop s).length = s.constants.length := by
  unfold constants_at_loop
  split
  · exact set_fs_constants_loop_length _ _ _
  · rfl

/-- The constants loop from slot `i` on: the slots below `i` are left alone, every slot from
`i` on is treated as `constant_outcome` says, starting from the entry it held at the start. -/
theorem update_constants_loop_spec (h : lp_headers) (sl : Nat) :
    ∀ (n i : Nat) (s t : lp_setup_context),
    update_constants_loop h sl n i s = (true, t) → i + n = s.constants.length →
    t.constants.length = s.constants.length ∧
    t.fs.current.jit_context.constants.length = s.fs.current.jit_context.constants.length ∧
    s.next_serial ≤ t.next_serial ∧
    (∀ j, j < i → t.constants.get? j = s.constants.get? j ∧
      t.fs.current.jit_context.constants.get? j = s.fs.current.jit_context.constants.get? j) ∧
    (∀ j c, i ≤ j → s.constants.get? j = some c → ∃ c1 e, t.constants.get? j = some c1 ∧
      (j < s.fs.current.jit_context.constants.length →
        t.fs.current.jit_context.constants.get? j = some e) ∧
      constant_outcome h s.next_serial c c1 e) := by
  intro n
  induction n with
  | zero =>
    intro i s t hr hlen
    unfold update_constants_loop at hr
    have ht : s = t := (Prod.mk.inj hr).2
    subst ht
    refine ⟨rfl, rfl, le_refl _, fun j _ => ⟨rfl, rfl⟩, fun j c hij hg => ?_⟩
    have := get?_some_lt _ _ _ hg
    omega
  | succ n ih =>
    intro i s t hr hlen
    unfold update_constants_loop at hr
    have hi : i < s.constants.length := by omega
    have hget : s.constants.get? i = some (s.constants.get ⟨i, hi⟩) := List.get?_eq_get hi
    rw [hget] at hr
    dsimp only at hr
    obtain ⟨st1, st2, st3⟩ := update_constant_step h sl i (s.constants.get ⟨i, hi⟩) s
    generalize update_constant h sl i (s.constants.get ⟨i, hi⟩) s = r at hr st1 st2 st3
    obtain ⟨ok, s1⟩ := r
    cases ok with
    | false => simp at hr
    | true =>
      simp only [if_true] at hr
      obtain ⟨c1, e, hc, hj, ho⟩ := st1 rfl
      dsimp only at hc hj st3
      have hlen1 : i + 1 + n = s1.constants.length := by
        rw [hc, List.length_set]
        omega
      obtain ⟨a1, a2, a3, a4, a5⟩ := ih (i + 1) s1 t hr hlen1
      refine ⟨?_, ?_, le_trans st3 a3, ?_, ?_⟩
      · rw [a1, hc, List.length_set]
      · rw [a2, hj, List.length_set]
      · intro j hji
        obtain ⟨b1, b2⟩ := a4 j (by omega)
        rw [b1, b2, hc, hj]
        exact ⟨get?_set_other _ _ _ _ (by omega), get?_set_other _ _ _ _ (by omega)⟩
      · intro j c hij hg
        by_cases hji : j = i
        · subst hji
          rw [hget] at hg
          have hcc : s.constants.get ⟨j, hi⟩ = c := Option.some.inj hg
          rw [hcc] at ho
          obtain ⟨b1, b2⟩ := a4 j (by omega)
          refine ⟨c1, e, ?_, ?_, ho⟩
          · rw [b1, hc]
            exact get?_set_self _ _ _ hi
          · intro hjl
            rw [b2, hj]
            exact get?_set_self _ _ _ hjl
        · have hg1 : s1.constants.get? j = some c := by
            rw [hc, get?_set_other _ _ _ _ hji]
            exact hg
          obtain ⟨c2, e2, b1, b2, b3⟩ := a5 j c (by omega) hg1
          refine ⟨c2, e2, b1, ?_, constant_outcome_mono h _ _ _ _ _ st3 b3⟩
          intro hjl
          apply b2
          rw [hj, List.length_set]
          exact hjl

theorem update_ssbos_constants (h : lp_headers) (s : lp_setup_context) :
    (update_ssbos h s).constants = s.constants ∧
    (update_ssbos h s).fs.current.jit_context.constants =
      s.fs.current.jit_context.constants := by
  unfold update_ssbos
  split
  · split
    · exact ⟨rfl, rfl⟩
    · exact ⟨rfl, rfl⟩
  · exact ⟨rfl, rfl⟩

theorem update_fs_constants (h : lp_headers) (sl : Nat) (s : lp_setup_context) :
    (update_fs h sl s).2.constants = s.constants ∧
    (update_fs h sl s).2.fs.current.jit_context.constants =
      s.fs.current.jit_context.constants := by
  have hp := (update_fs_spec h sl s).1
  have hf := (stored_only_fields hp).2.1
  unfold stored_only pool_only at hp
  refine ⟨?_, by rw [hf]⟩
  rw [hp]

theorem vp_scissor_constants (h : lp_headers) (s : lp_setup_context) :
    (vp_scissor h s).constants = s.constants := by
  unfold vp_scissor
  split
  · split
    · rfl
    · rfl
  · rfl

theorem update_scissor_constants (h : lp_headers) (s : lp_setup_context) :
    (update_scissor h s).constants = s.constants := by
  unfold update_scissor
  split
  · dsimp only
    split
    · exact vp_scissor_constants h _
    · split
      · exact vp_scissor_constants h _
      · rfl
  · rfl

/-- The stages of a successful `try_update_scene_state`: the blocks before the constants
loop, the loop, and the blocks after it. -/
theorem try_update_scene_state_stages (h : lp_headers) (s t : lp_setup_context)
    (hr : try_update_scene_state h s = some (true, t)) :
    ∃ sl s2 s4, s.scene = some sl ∧ before_constants s s2 ∧
      update_constants h sl (if s2.pipe.dirty_fs_constants then
          lp_setup_set_fs_constants s2.pipe.constants.length s2.pipe.constants s2
        else s2) = (true, s4) ∧
      t = { update_scissor h (update_fs h sl (update_ssbos h s4)).2 with dirty := 0 } := by
  unfold try_update_scene_state at hr
  cases hsc : s.scene with
  | none => simp [hsc] at hr
  | some sl =>
    simp only [hsc] at hr
    split at hr
    · have h1 := before_constants_update_viewports sl s
      generalize update_viewports sl s = r1 at h1 hr
      obtain ⟨ok1, s1⟩ := r1
      cases ok1 with
      | false => simp at hr
      | true =>
        simp only [if_true] at hr
        have h2 := before_constants_update_blend_color sl s1
        generalize update_blend_color sl s1 = r2 at h2 hr
        obtain ⟨ok2, s2⟩ := r2
        cases ok2 with
        | false => simp at hr
        | true =>
          simp only [if_true] at hr
          refine ⟨sl, s2, ?_⟩
          generalize update_constants h sl (if s2.pipe.dirty_fs_constants then
              lp_setup_set_fs_constants s2.pipe.constants.length s2.pipe.constants s2
            else s2) = r4 at hr ⊢
          obtain ⟨ok4, s4⟩ := r4
          cases ok4 with
          | false => simp at hr
          | true =>
            simp only [if_true] at hr
            refine ⟨s4, rfl, before_constants_trans h1 h2, rfl, ?_⟩
            cases hok : (update_fs h sl (update_ssbos h s4)).1 with
            | false =>
              rw [hok] at hr
              simp at hr
            | true =>
              rw [hok] at hr
              simp only [if_true, Option.some.injEq, Prod.mk.injEq] at hr
              exact hr.2.symm
    · simp at hr

/-- The constants block of a successful `try_update_scene_state` with the constants dirty:
every slot is treated as `constant_outcome` says, starting from the entry the loop finds. -/
theorem try_update_scene_state_constants (h : lp_headers) (s t : lp_setup_context)
    (hd : s.dirty &&& LP_SETUP_NEW_CONSTANTS ≠ 0)
    (hr : try_update_scene_state h s = some (true, t)) :
    t.constants.length = s.constants.length ∧
    ∀ j c, (constants_at_loop s).get? j = some c → ∃ c1 e, t.constants.get? j = some c1 ∧
      (j < s.fs.current.jit_context.constants.length →
        t.fs.current.jit_context.constants.get? j = some e) ∧
      constant_outcome h s.next_serial c c1 e := by
  obtain ⟨sl, s2, s4, _, hb, hu, ht⟩ := try_update_scene_state_stages h s t hr
  have hs3c : (if s2.pipe.dirty_fs_constants then
      lp_setup_set_fs_constants s2.pipe.constants.length s2.pipe.constants s2
    else s2).constants = constants_at_loop s := by
    unfold constants_at_loop
    rw [← hb.pipe, ← hb.constants]
    split
    · rfl
    · rfl
  have hs3j : (if s2.pipe.dirty_fs_constants then
      lp_setup_set_fs_constants s2.pipe.constants.length s2.pipe.constants s2
    else s2).fs.current.jit_context.constants = s.fs.current.jit_context.constants := by
    rw [← hb.jit]
    split
    · rfl
    · rfl
  have hs3n : (if s2.pipe.dirty_fs_constants then
      lp_setup_set_fs_constants s2.pipe.constants.length s2.pipe.constants s2
    else s2).next_serial = s2.next_serial := by
    split
    · rfl
    · rfl
  have hs3d : (if s2.pipe.dirty_fs_constants then
      lp_setup_set_fs_constants s2.pipe.constants.length s2.pipe.constants s2
    else s2).dirty &&& LP_SETUP_NEW_CONSTANTS ≠ 0 := by
    split
    · exact dirty_bit_mono _ _ _ (hb.dirty _ hd)
    · exact hb.dirty _ hd
  generalize (if s2.pipe.dirty_fs_constants then
      lp_setup_set_fs_constants s2.pipe.constants.length s2.pipe.constants s2
    else s2) = s3 at hu hs3c hs3j hs3n hs3d
  unfold update_constants at hu
  rw [if_pos hs3d] at hu
  obtain ⟨a1, a2, a3, _, a5⟩ :=
    update_constants_loop_spec h sl s3.constants.length 0 s3 s4 hu (by omega)
  have htc : t.constants = s4.constants := by
    rw [ht]
    show (update_scissor h (update_fs h sl (update_ssbos h s4)).2).constants = _
    rw [update_scissor_constants, (update_fs_constants h sl _).1,
      (update_ssbos_constants h s4).1]
  have htj : t.fs.current.jit_context.constants = s4.fs.current.jit_context.constants := by
    rw [ht]
    show (update_scissor h (update_fs h sl (update_ssbos h s4)).2).fs.current.jit_context.constants
      = _
    rw [(update_scissor_fields h _).1, (update_fs_constants h sl _).2,
      (update_ssbos_constants h s4).2]
  refine ⟨?_, ?_⟩
  · rw [htc, a1, hs3c, constants_at_loop_length]
  · intro j c hg
    rw [← hs3c] at hg
    obtain ⟨c1, e, b1, b2, b3⟩ := a5 j c (Nat.zero_le _) hg
    refine ⟨c1, e, by rw [htc]; exact b1, ?_, ?_⟩
    · intro hjl
      rw [htj]
      apply b2
      rw [hs3j]
      exact hjl
    · apply constant_outcome_mono h _ _ _ _ _ _ b3
      rw [hs3n]
      exact hb.serial

/-! ## The reference query over several scenes and the hand-over of a scene -/

theorem rasterize_scene_split (s : lp_setup_context) :
    lp_setup_rasterize_scene s = (rasterize_scene_queue s).map lp_setup_reset := by
  unfold lp_setup_rasterize_scene rasterize_scene_queue
  cases s.scene with
  | none => rfl
  | some sl =>
    dsimp only
    split
    · rfl
    · rfl

theorem rasterize_scene_queue_some (s u : lp_setup_context)
    (hr : rasterize_scene_queue s = some u) :
    ∃ sl, s.scene = some sl ∧ sl < s.scenes.length ∧ u.scene = some sl ∧
      u.trace = s.trace ++ [event.scene_end_binning sl, event.rast_queue_scene sl] := by
  unfold rasterize_scene_queue at hr
  cases hsc : s.scene with
  | none => simp [hsc] at hr
  | some sl =>
    simp only [hsc] at hr
    split at hr
    · rename_i hlt
      simp only [Option.some.injEq] at hr
      subst hr
      refine ⟨sl, rfl, hlt, hsc, ?_⟩
      simp [record, with_scene]
    · simp at hr

/-! ## The scissor planes -/

theorem to_int32_small (x : Int) (h1 : -2147483648 ≤ x) (h2 : x < 2147483648) :
    to_int32 x = x := by
  unfold to_int32
  omega

theorem to_int64_small (x : Int) (h1 : -9223372036854775808 ≤ x)
    (h2 : x < 9223372036854775808) : to_int64 x = x := by
  unfold to_int64
  omega

theorem all_ones_shl8_eq : all_ones_shl8 = -256 := by
  decide

theorem write_plane_cursor (p : lp_rast_plane) (w rest : List lp_rast_plane)
    (x : lp_rast_plane) :
    write_plane p (w ++ x :: rest, w.length) = some ((w ++ [p]) ++ rest, (w ++ [p]).length) := by
  unfold write_plane
  have hlt : w.length < (w ++ x :: rest).length := by
    rw [List.length_append, List.length_cons]
    omega
  simp only [hlt, if_true]
  congr 1
  rw [List.set_append_right _ _ (le_refl _)]
  simp

theorem write_plane_drop (p : lp_rast_plane) (w l : List lp_rast_plane)
    (hlt : w.length < l.length) :
    write_plane p (w ++ l.drop w.length, w.length) =
      some ((w ++ [p]) ++ l.drop (w ++ [p]).length, (w ++ [p]).length) := by
  have hd : l.drop w.length = l[w.length] :: l.drop (w.length + 1) :=
    List.drop_eq_getElem_cons hlt
  rw [hd, write_plane_cursor]
  simp

/-- One block `if (s_planes[k]) { ...; plane_s++; }` of `lp_setup_add_scissor_planes`, when
the planes `w` were written before it. -/
theorem emit_plane (flag : Bool) (p : lp_rast_plane) (w l : List lp_rast_plane)
    (hlen : (w ++ if flag then [p] else []).length ≤ l.length) :
    (if flag = true then
        (some (w ++ l.drop w.length, w.length)).bind (write_plane p)
      else some (w ++ l.drop w.length, w.length)) =
      some ((w ++ if flag then [p] else []) ++
              l.drop (w ++ if flag then [p] else []).length,
            (w ++ if flag then [p] else []).length) := by
  cases flag with
  | false => simp
  | true =>
    simp only [if_true, Option.some_bind]
    simp only [if_true, List.length_append, List.length_singleton] at hlen
    exact write_plane_drop p w l (by omega)

theorem left_plane_c (x : Int) (multisample : Bool) (h1 : -4194304 ≤ x) (h2 : x ≤ 4194304) :
    to_int64 (- to_int64 (shl8_int32 (to_int32 (x - 1)) + (if multisample then 127 else 0))) =
      -((x - 1) * 256 + (if multisample then 127 else 0)) := by
  unfold to_int64 shl8_int32 to_int32
  cases multisample <;> simp only [Bool.false_eq_true, if_false, if_true] <;> omega

theorem right_plane_c (x : Int) (multisample : Bool) (h1 : -4194304 ≤ x) (h2 : x ≤ 4194304) :
    to_int64 (shl8_int32 x + to_int32 (127 + (if multisample then 127 else 0))) =
      x * 256 + 127 + (if multisample then 127 else 0) := by
  unfold to_int64 shl8_int32 to_int32
  cases multisample <;> simp only [Bool.false_eq_true, if_false, if_true] <;> omega

theorem scissor_planes_spec_length (scissor : u_rect) (s_planes : Fin 4 → Bool)
    (multisample : Bool) :
    (scissor_planes_spec scissor s_planes multisample).length = count_planes s_planes := by
  unfold scissor_planes_spec count_planes
  cases s_planes 0 <;> cases s_planes 1 <;> cases s_planes 2 <;> cases s_planes 3 <;> rfl

/-! ## The phase of the calls -/

theorem phase_of_trace_append (tr evs : List event) :
    phase_of_trace (tr ++ evs) =
      evs.foldl (fun st e => st.bind (fun p => phase_step p e)) (phase_of_trace tr) := by
  unfold phase_of_trace
  rw [List.foldl_append]

theorem phase_of_trace_snoc (tr : List event) (e : event) :
    phase_of_trace (tr ++ [e]) = (phase_of_trace tr).bind (fun p => phase_step p e) := by
  rw [phase_of_trace_append]
  rfl

theorem phase_step_quiet (p : scene_phase) (e : event) (he : is_quiet_event e = true) :
    phase_step p e = some p := by
  cases e <;> first | rfl | exact Bool.noConfusion he

theorem phase_quiet_snoc (tr : List event) (e : event) (he : is_quiet_event e = true) :
    phase_of_trace (tr ++ [e]) = phase_of_trace tr := by
  rw [phase_of_trace_snoc]
  cases hp : phase_of_trace tr with
  | none => rfl
  | some p => exact phase_step_quiet p e he

theorem phase_quiet_append (tr evs : List event) (he : ∀ e ∈ evs, is_quiet_event e = true) :
    phase_of_trace (tr ++ evs) = phase_of_trace tr := by
  induction evs using List.reverseRecOn with
  | nil => simp
  | append_singleton l e ih =>
    rw [← List.append_assoc, phase_quiet_snoc _ e (he e (by simp))]
    exact ih (fun x hx => he x (by simp [hx]))

theorem scene_fenced_of_fences {s t : lp_setup_context} (hf : fences_of t = fences_of s)
    (sl : Nat) : scene_fenced t sl = scene_fenced s sl := by
  have hg : (fences_of t).get? sl = (fences_of s).get? sl := by rw [hf]
  unfold fences_of at hg
  rw [List.get?_eq_getElem?, List.get?_eq_getElem?, List.getElem?_map, List.getElem?_map] at hg
  unfold scene_fenced
  rw [List.get?_eq_getElem?, List.get?_eq_getElem?]
  cases h1 : t.scenes[sl]? with
  | none =>
    cases h2 : s.scenes[sl]? with
    | none => rfl
    | some b => simp [h1, h2] at hg
  | some a =>
    cases h2 : s.scenes[sl]? with
    | none => simp [h1, h2] at hg
    | some b =>
      simp only [h1, h2, Option.map_some', Option.some.injEq] at hg
      simp only [hg]

theorem lor_le_all_ones (a b : Nat) (ha : a ≤ ALL_ONES) (hb : b ≤ ALL_ONES) :
    a ||| b ≤ ALL_ONES := by
  have h1 : a < 2 ^ 32 := by unfold ALL_ONES at ha; omega
  have h2 : b < 2 ^ 32 := by unfold ALL_ONES at hb; omega
  have := Nat.or_lt_two_pow h1 h2
  unfold ALL_ONES
  omega

theorem all_ones_lor (b : Nat) (hb : b ≤ ALL_ONES) : ALL_ONES ||| b = ALL_ONES := by
  have h2 : b < 2 ^ 32 := by unfold ALL_ONES at hb; omega
  apply Nat.eq_of_testBit_eq
  intro i
  rw [Nat.testBit_or]
  by_cases hi : i < 32
  · have : ALL_ONES.testBit i = true := by
      unfold ALL_ONES
      have e : (0xFFFFFFFF : Nat) = 2 ^ 32 - 1 := by decide
      rw [e, Nat.testBit_two_pow_sub_one]
      exact decide_eq_true hi
    rw [this]
    rfl
  · have hb2 : b.testBit i = false := by
      apply Nat.testBit_lt_two_pow
      calc b < 2 ^ 32 := h2
        _ ≤ 2 ^ i := Nat.pow_le_pow_right (by decide) (by omega)
    rw [hb2, Bool.or_false]

theorem frame_step_refl (s : lp_setup_context) : frame_step s s :=
  ⟨rfl, rfl, fun _ => rfl, rfl, rfl, rfl, ⟨0, by decide, by simp⟩⟩

theorem frame_step_trans {s t u : lp_setup_context} (a : frame_step s t)
    (b : frame_step t u) : frame_step s u := by
  obtain ⟨b1, hb1, e1⟩ := a.dirty
  obtain ⟨b2, hb2, e2⟩ := b.dirty
  refine ⟨b.state.trans a.state, b.scene.trans a.scene,
    fun sl => (b.fenced sl).trans (a.fenced sl), b.quiet.trans a.quiet,
    b.stored.trans a.stored, b.constants.trans a.constants,
    ⟨b1 ||| b2, lor_le_all_ones b1 b2 hb1 hb2, ?_⟩⟩
  rw [e2, e1, Nat.lor_assoc]

/-- A helper that keeps state, scene and fences, writes only pool and ghost members and
makes only calls that leave the phase alone is a frame step. -/
theorem frame_step_of_keeps {s t : lp_setup_context} (k : keeps s t) (p : pool_only s t)
    (q : phase_of_trace t.trace = phase_of_trace s.trace) : frame_step s t := by
  obtain ⟨_, _, _, hfs, hd, _, hc, _⟩ := pool_only_eq p
  exact ⟨k.state, k.scene, scene_fenced_of_fences k.fences, q, by rw [hfs], by rw [hc],
    ⟨0, by decide, by rw [hd]; simp⟩⟩

theorem phase_of_frame {s t : lp_setup_context} (f : frame_step s t) :
    phase_of t = phase_of s := by
  unfold phase_of
  rw [f.scene]
  cases s.scene with
  | none => rfl
  | some sl => simp only [f.fenced sl]

theorem fence_inv_frame {s t : lp_setup_context} (f : frame_step s t) (hi : fence_inv s) :
    fence_inv t := by
  refine ⟨by rw [f.quiet, phase_of_frame f]; exact hi.phase, fun hst => ?_⟩
  obtain ⟨sl, h1, h2⟩ := hi.active (by rw [← f.state]; exact hst)
  exact ⟨sl, by rw [f.scene]; exact h1, by rw [f.fenced]; exact h2⟩

theorem unsnapped_frame {s t : lp_setup_context} (f : frame_step s t) (hi : unsnapped s) :
    unsnapped t := by
  intro hst
  obtain ⟨h1, h2, h3⟩ := hi (by rw [← f.state]; exact hst)
  obtain ⟨bits, hb, e⟩ := f.dirty
  refine ⟨by rw [e, h1]; exact all_ones_lor bits hb, by rw [f.stored]; exact h2, ?_⟩
  intro c hc
  have hm : (c.stored_size, c.stored_data) ∈
      t.constants.map (fun c => (c.stored_size, c.stored_data)) :=
    List.mem_map_of_mem _ hc
  rw [f.constants] at hm
  obtain ⟨c1, hc1, e1⟩ := List.mem_map.mp hm
  obtain ⟨a1, a2⟩ := h3 c1 hc1
  have e2 := (Prod.mk.inj e1)
  exact ⟨by rw [← e2.2]; exact a1, by rw [← e2.1]; exact a2⟩

theorem fs_inv_frame {s t : lp_setup_context} (f : frame_step s t) (hi : fs_inv s) :
    fs_inv t := by
  intro hst
  obtain ⟨bits, _, e⟩ := f.dirty
  rw [e]
  exact dirty_bit_mono _ _ _ (hi (by rw [← f.stored]; exact hst))

theorem quiet_lp_scene_alloc (i : Nat) (s : lp_setup_context) :
    phase_of_trace (lp_scene_alloc i s).2.trace = phase_of_trace s.trace := by
  rw [(lp_scene_alloc_spec i s).2]
  exact phase_quiet_snoc _ _ rfl

theorem quiet_add_resource_reference (i res : Nat) (w : Bool) (s : lp_setup_context) :
    phase_of_trace (lp_scene_add_resource_reference i res w s).2.trace =
      phase_of_trace s.trace := by
  rw [(add_resource_reference_spec i res w s).2]
  exact phase_quiet_snoc _ _ rfl

theorem quiet_add_frag_shader_reference (i v : Nat) (s : lp_setup_context) :
    phase_of_trace (lp_scene_add_frag_shader_reference i v s).2.trace =
      phase_of_trace s.trace := by
  rw [(add_frag_shader_reference_spec i v s).2]
  exact phase_quiet_snoc _ _ rfl

theorem trace_bin_everywhere (i : Nat) (cmd : lp_rast_cmd) (s : lp_setup_context) :
    (lp_scene_bin_everywhere i cmd s).2.trace = s.trace := by
  unfold lp_scene_bin_everywhere
  cases s.scenes.get? i with
  | none => rfl
  | some sc => rfl

theorem frame_step_lp_scene_alloc (i : Nat) (s : lp_setup_context) :
    frame_step s (lp_scene_alloc i s).2 :=
  frame_step_of_keeps (keeps_bins_lp_scene_alloc i s).base (pool_only_lp_scene_alloc i s)
    (quiet_lp_scene_alloc i s)

theorem frame_step_bin_everywhere (i : Nat) (cmd : lp_rast_cmd) (s : lp_setup_context) :
    frame_step s (lp_scene_bin_everywhere i cmd s).2 :=
  frame_step_of_keeps (keeps_bin_everywhere i cmd s) (pool_only_bin_everywhere i cmd s)
    (by rw [trace_bin_everywhere])

theorem quiet_add_tex_references (sl : Nat) (l : List (Option Nat)) (s : lp_setup_context) :
    phase_of_trace (add_tex_references sl l s).2.trace = phase_of_trace s.trace := by
  induction l generalizing s with
  | nil => rfl
  | cons o rest ih =>
    cases o with
    | none =>
      unfold add_tex_references
      exact ih s
    | some tex =>
      unfold add_tex_references
      have h1 := quiet_add_resource_reference sl tex false s
      dsimp only
      split
      · exact (ih _).trans h1
      · exact h1

theorem quiet_add_ssbo_references (sl mask : Nat) (l : List pipe_shader_buffer) (i : Nat)
    (s : lp_setup_context) :
    phase_of_trace (add_ssbo_references sl mask i l s).2.trace = phase_of_trace s.trace := by
  induction l generalizing i s with
  | nil =>
    unfold add_ssbo_references
    rfl
  | cons b rest ih =>
    unfold add_ssbo_references
    cases hb : b.buffer with
    | none => exact ih _ s
    | some buffer =>
      have h1 := quiet_add_resource_reference sl buffer (decide (mask &&& (1 <<< i) ≠ 0)) s
      dsimp only
      split
      · exact (ih _ _).trans h1
      · exact h1

theorem quiet_add_image_references (sl : Nat) (l : List pipe_image_view)
    (s : lp_setup_context) :
    phase_of_trace (add_image_references sl l s).2.trace = phase_of_trace s.trace := by
  induction l generalizing s with
  | nil => rfl
  | cons im rest ih =>
    unfold add_image_references
    cases hb : im.resource with
    | none => exact ih s
    | some res =>
      have h1 := quiet_add_resource_reference sl res
        (decide (im.shader_access &&& PIPE_IMAGE_ACCESS_WRITE ≠ 0)) s
      dsimp only
      split
      · exact (ih _).trans h1
      · exact h1

theorem quiet_update_fs_references (sl : Nat) (s : lp_setup_context) :
    phase_of_trace (update_fs_references sl s).2.trace = phase_of_trace s.trace := by
  unfold update_fs_references
  have h1 := quiet_add_tex_references sl s.fs.current_tex s
  dsimp only
  split
  · have h2 := quiet_add_ssbo_references sl
      (add_tex_references sl s.fs.current_tex s).2.ssbo_write_mask
      (add_tex_references sl s.fs.current_tex s).2.ssbos 0
      (add_tex_references sl s.fs.current_tex s).2
    split
    · exact ((quiet_add_image_references sl _ _).trans h2).trans h1
    · exact h2.trans h1
  · exact h1

theorem quiet_update_fs_store (h : lp_headers) (sl serial : Nat) (s : lp_setup_context) :
    phase_of_trace (update_fs_store h sl serial s).2.trace = phase_of_trace s.trace := by
  unfold update_fs_store
  have h1 := quiet_add_frag_shader_reference sl s.fs.current.variant s
  dsimp only
  split
  · exact (quiet_update_fs_references sl _).trans h1
  · exact h1

theorem quiet_update_fs (h : lp_headers) (sl : Nat) (s : lp_setup_context) :
    phase_of_trace (update_fs h sl s).2.trace = phase_of_trace s.trace := by
  unfold update_fs
  split
  · split
    · have h1 := quiet_lp_scene_alloc sl s
      generalize lp_scene_alloc sl s = r at h1 ⊢
      obtain ⟨o, s1⟩ := r
      cases o with
      | none => exact h1
      | some serial => exact (quiet_update_fs_store h sl serial s1).trans h1
    · rfl
  · rfl

theorem quiet_try_update_scene_state (h : lp_headers) (s t : lp_setup_context) (b : Bool)
    (hr : try_update_scene_state h s = some (b, t)) :
    phase_of_trace t.trace = phase_of_trace s.trace := by
  obtain ⟨sl, s5, _, _, hsn, hcase⟩ := try_update_scene_state_spec h s t b hr
  have h5 : phase_of_trace s5.trace = phase_of_trace s.trace := by
    obtain ⟨evs, he, hall⟩ := hsn.allocs
    rw [he]
    apply phase_quiet_append
    intro e hm
    obtain ⟨ok, hok⟩ := hall e hm
    rw [hok]
    rfl
  rcases hcase with ⟨_, ht⟩ | ⟨_, _, ht⟩ | ⟨_, _, ht⟩
  · rw [ht]
    exact h5
  · rw [ht]
    exact (quiet_update_fs h sl s5).trans h5
  · rw [ht]
    show phase_of_trace (update_scissor h (update_fs h sl s5).2).trace = _
    rw [(update_scissor_fields h _).2.1]
    exact (quiet_update_fs h sl s5).trans h5

theorem quiet_begin_binning_clear_color (sl n cbuf : Nat) (s : lp_setup_context) :
    phase_of_trace (begin_binning_clear_color sl n cbuf s).2.trace =
      phase_of_trace s.trace := by
  induction n generalizing cbuf s with
  | zero => rfl
  | succ n ih =>
    unfold begin_binning_clear_color
    split
    · have h1 := quiet_lp_scene_alloc sl s
      generalize lp_scene_alloc sl s = r at h1 ⊢
      obtain ⟨o, s1⟩ := r
      cases o with
      | none => exact h1
      | some x =>
        dsimp only
        have h2 : phase_of_trace (lp_scene_bin_everywhere sl
            (lp_rast_cmd.LP_RAST_OP_CLEAR_COLOR cbuf (s1.clear.color_val.getD cbuf 0))
            s1).2.trace = phase_of_trace s.trace := by
          rw [trace_bin_everywhere]
          exact h1
        split
        · exact (ih _ _).trans h2
        · exact h2
    · exact ih _ _

theorem quiet_begin_binning_clears (sl : Nat) (s : lp_setup_context) :
    phase_of_trace (begin_binning_clears sl s).2.trace = phase_of_trace s.trace := by
  unfold begin_binning_clears
  have h1 : phase_of_trace (if s.clear.flags &&& PIPE_CLEAR_COLOR ≠ 0 then
      begin_binning_clear_color sl s.fb.nr_cbufs 0 s else (true, s)).2.trace =
      phase_of_trace s.trace := by
    split
    · exact quiet_begin_binning_clear_color sl _ _ s
    · rfl
  generalize (if s.clear.flags &&& PIPE_CLEAR_COLOR ≠ 0 then
      begin_binning_clear_color sl s.fb.nr_cbufs 0 s else (true, s)) = r1 at h1 ⊢
  obtain ⟨ok1, s1⟩ := r1
  dsimp only
  cases ok1 with
  | false => exact h1
  | true =>
    simp only [if_true]
    have h2 : phase_of_trace (if s1.fb.zsbuf.isSome &&
        decide (s1.clear.flags &&& PIPE_CLEAR_DEPTHSTENCIL ≠ 0) then
        lp_scene_bin_everywhere sl
          (lp_rast_cmd.LP_RAST_OP_CLEAR_ZSTENCIL s1.clear.zsvalue s1.clear.zsmask) s1
      else (true, s1)).2.trace = phase_of_trace s.trace := by
      split
      · rw [trace_bin_everywhere]
        exact h1
      · exact h1
    generalize (if s1.fb.zsbuf.isSome &&
        decide (s1.clear.flags &&& PIPE_CLEAR_DEPTHSTENCIL ≠ 0) then
        lp_scene_bin_everywhere sl
          (lp_rast_cmd.LP_RAST_OP_CLEAR_ZSTENCIL s1.clear.zsvalue s1.clear.zsmask) s1
      else (true, s1)) = r2 at h2 ⊢
    obtain ⟨ok2, s2⟩ := r2
    cases ok2 with
    | false => exact h2
    | true => exact h2

theorem take_oracle_trace (s : lp_setup_context) : (take_oracle s).2.trace = s.trace := by
  unfold take_oracle
  split <;> rfl

theorem phase_idle_append (tr evs : List event)
    (hp : phase_of_trace tr = some scene_phase.idle)
    (he : ∀ e ∈ evs, phase_step scene_phase.idle e = some scene_phase.idle) :
    phase_of_trace (tr ++ evs) = some scene_phase.idle := by
  induction evs using List.reverseRecOn with
  | nil => simpa using hp
  | append_singleton l e ih =>
    rw [← List.append_assoc, phase_of_trace_snoc, ih (fun x hx => he x (by simp [hx]))]
    exact he e (by simp)

theorem scan_scenes_idle (i : Nat) (l : List lp_scene) (tr : List event)
    (hp : phase_of_trace tr = some scene_phase.idle) :
    phase_of_trace (scan_scenes i l tr).2.2 = some scene_phase.idle := by
  obtain ⟨evs, he, hall, _⟩ := scan_scenes_prov i l tr
  rw [he]
  apply phase_idle_append _ _ hp
  intro e hm
  rw [hall e hm]
  rfl

theorem wait_empty_scene_idle (s t : lp_setup_context) (i : Nat)
    (hr : lp_setup_wait_empty_scene s = some (i, t))
    (hp : phase_of_trace s.trace = some scene_phase.idle) :
    phase_of_trace t.trace = some scene_phase.idle := by
  obtain ⟨_, _, sc0, _, hc⟩ := wait_empty_scene_prov s t i hr
  rcases hc with ⟨_, ht⟩ | ⟨f, _, ht⟩
  · rw [ht]
    exact hp
  · rw [ht]
    apply phase_idle_append _ _ hp
    intro e hm
    simp only [List.mem_cons, List.mem_singleton, List.not_mem_nil, or_false] at hm
    rcases hm with hm | hm <;> rw [hm] <;> rfl

theorem lp_scene_create_trace (s : lp_setup_context) :
    (lp_scene_create s).2.trace = s.trace ++ [event.scene_create (take_oracle s).1] := by
  unfold lp_scene_create
  simp only [record, take_oracle_trace]

theorem choose_scene_idle (h : lp_headers) (k i : Nat) (s t : lp_setup_context)
    (hr : choose_scene h k s = some (i, t))
    (hp : phase_of_trace s.trace = some scene_phase.idle) :
    phase_of_trace t.trace = some scene_phase.idle := by
  unfold choose_scene at hr
  split at hr
  · exact wait_empty_scene_idle s t i hr hp
  · split at hr
    · have h1 : phase_of_trace (lp_scene_create s).2.trace = some scene_phase.idle := by
        rw [lp_scene_create_trace]
        apply phase_idle_append _ _ hp
        intro e hm
        simp only [List.mem_singleton] at hm
        rw [hm]
        rfl
      generalize lp_scene_create s = r at hr h1
      obtain ⟨o, s1⟩ := r
      cases o with
      | none => exact wait_empty_scene_idle s1 t i hr h1
      | some scene =>
        simp only [Option.some.injEq, Prod.mk.injEq] at hr
        rw [← hr.2]
        exact h1
    · simp only [Option.some.injEq, Prod.mk.injEq] at hr
      rw [← hr.2]
      exact hp

/-- The acquisition of a scene: made while no scene is owned, it ends with
`lp_scene_begin_binning` on the selected slot, whose scene has no fence. -/
theorem get_empty_scene_phase (h : lp_headers) (s t : lp_setup_context)
    (hr : lp_setup_get_empty_scene h s = some t)
    (hp : phase_of_trace s.trace = some scene_phase.idle) :
    ∃ i, t.scene = some i ∧ scene_fenced t i = false ∧
      phase_of_trace t.trace = some (scene_phase.owned i false) := by
  obtain ⟨_, _, _, i, sc, hi, hg, hf, _⟩ := get_empty_scene_some h s t hr
  refine ⟨i, hi, ?_, ?_⟩
  · unfold scene_fenced
    rw [hg]
    show sc.fence.isSome = false
    rw [hf]
    rfl
  · unfold lp_setup_get_empty_scene at hr
    dsimp only at hr
    have h1 := scan_scenes_idle 0 s.scenes s.trace hp
    cases hc : choose_scene h (scan_scenes 0 s.scenes s.trace).1
        { s with scenes := (scan_scenes 0 s.scenes s.trace).2.1,
                 trace := (scan_scenes 0 s.scenes s.trace).2.2 } with
    | none =>
      rw [hc] at hr
      exact Option.noConfusion hr
    | some x =>
      obtain ⟨j, s1⟩ := x
      have h2 := choose_scene_idle h _ j _ s1 hc h1
      rw [hc] at hr
      dsimp only at hr
      split at hr
      · simp only [Option.some.injEq] at hr
        have hj : t.scene = some j := by rw [← hr]; rfl
        rw [hi] at hj
        have hij : i = j := Option.some.inj hj
        have htr : t.trace = s1.trace ++ [event.scene_begin_binning j] := by
          rw [← hr]
          rfl
        rw [htr, phase_of_trace_snoc, h2, hij]
        rfl
      · exact Option.noConfusion hr

theorem scene_fenced_with_scene_fence (sl : Nat) (f : Option lp_fence) (s : lp_setup_context)
    (hlt : sl < s.scenes.length) :
    scene_fenced (with_scene sl (fun sc => { sc with fence := f }) s) sl = f.isSome := by
  unfold scene_fenced with_scene
  show (match (modify_scene _ sl s.scenes).get? sl with
    | some sc => sc.fence.isSome
    | none => false) = _
  rw [modify_scene_get, List.get?_eq_get hlt]
  rfl

/-- The function `begin_binning` as the calls see it: one fence creation for the current
scene, which has a fence afterwards exactly when the creation succeeded; TRUE is returned
only with a fence. -/
theorem begin_binning_phase (h : lp_headers) (s t : lp_setup_context) (b : Bool)
    (hr : begin_binning h s = some (b, t)) :
    ∃ sl ok, s.scene = some sl ∧ t.scene = some sl ∧
      phase_of_trace t.trace = (phase_of_trace s.trace).bind
        (fun p => phase_step p (event.fence_create (max 1 s.num_threads) ok)) ∧
      scene_fenced t sl = ok ∧ (b = true → ok = true) := by
  unfold begin_binning at hr
  cases hsc : s.scene with
  | none => simp [hsc] at hr
  | some sl =>
    simp only [hsc] at hr
    split at hr
    · rename_i hlt
      have h0 := keeps_take_oracle s
      have ht0 := take_oracle_trace s
      generalize take_oracle s = r at hr h0 ht0
      obtain ⟨ok, s0⟩ := r
      have hl0 : sl < s0.scenes.length := by
        have := h0.len
        simp only at this
        rw [this]
        exact hlt
      have hsc0 : s0.scene = some sl := by
        have := h0.scene
        simp only at this
        rw [this]
        exact hsc
      have htr : ∀ x : Bool, phase_of_trace
          (record (event.fence_create (max 1 s.num_threads) x) s0).trace =
          (phase_of_trace s.trace).bind
            (fun p => phase_step p (event.fence_create (max 1 s.num_threads) x)) := by
        intro x
        show phase_of_trace (s0.trace ++ [_]) = _
        rw [phase_of_trace_snoc]
        simp only at ht0
        rw [ht0]
      cases ok with
      | false =>
        simp only [Bool.false_eq_true, if_false, Option.some.injEq, Prod.mk.injEq] at hr
        obtain ⟨hb, ht⟩ := hr
        refine ⟨sl, false, rfl, ?_, ?_, ?_, ?_⟩
        · rw [← ht]
          exact hsc0
        · rw [← ht]
          exact htr false
        · rw [← ht]
          exact scene_fenced_with_scene_fence sl none _ hl0
        · intro hbt
          rw [← hb] at hbt
          exact Bool.noConfusion hbt
      | true =>
        simp only [if_true] at hr
        have hf : scene_fenced (with_scene sl
            (fun sc => { sc with fence := some (lp_fence_create (max 1 s.num_threads)) })
            (record (event.fence_create (max 1 s.num_threads) true) s0)) sl = true :=
          scene_fenced_with_scene_fence sl _ _ hl0
        cases htu : try_update_scene_state h (with_scene sl
            (fun sc => { sc with fence := some (lp_fence_create (max 1 s.num_threads)) })
            (record (event.fence_create (max 1 s.num_threads) true) s0)) with
        | none => simp [htu] at hr
        | some x =>
          obtain ⟨b3, s3⟩ := x
          have h3 := (try_update_scene_state_keeps h _ s3 b3 htu).1.base
          have q3 := quiet_try_update_scene_state h _ s3 b3 htu
          have hsc3 : s3.scene = some sl := by
            rw [h3.scene]
            exact hsc0
          have hf3 : scene_fenced s3 sl = true := by
            rw [scene_fenced_of_fences h3.fences]
            exact hf
          have htr3 : phase_of_trace s3.trace = (phase_of_trace s.trace).bind
              (fun p => phase_step p (event.fence_create (max 1 s.num_threads) true)) := by
            rw [q3]
            exact htr true
          simp only [htu] at hr
          cases b3 with
          | false =>
            simp only [Option.some.injEq, Prod.mk.injEq] at hr
            refine ⟨sl, true, rfl, ?_, ?_, ?_, fun _ => rfl⟩
            · rw [← hr.2]
              exact hsc3
            · rw [← hr.2]
              exact htr3
            · rw [← hr.2]
              exact hf3
          | true =>
            simp only [Option.some.injEq] at hr
            have h4 := begin_binning_clears_fences sl s3
            have h5 := (begin_binning_clears_spec sl s3).1.scene
            have h6 := quiet_begin_binning_clears sl s3
            rw [hr] at h4 h5 h6
            simp only at h4 h5 h6
            refine ⟨sl, true, rfl, ?_, ?_, ?_, fun _ => rfl⟩
            · rw [h5]
              exact hsc3
            · rw [h6]
              exact htr3
            · rw [scene_fenced_of_fences h4]
              exact hf3
    · simp at hr

theorem set_scene_state_fail_phase (s : lp_setup_context) (sl : Nat) (f : Bool)
    (hsc : s.scene = some sl) (hlt : sl < s.scenes.length)
    (hp : phase_of_trace s.trace = some (scene_phase.owned sl f)) :
    phase_of_trace (set_scene_state_fail s).trace = some scene_phase.idle ∧
    (set_scene_state_fail s).scene = none ∧
    (set_scene_state_fail s).state = setup_state.SETUP_FLUSHED := by
  obtain ⟨h1, h2, h3, _⟩ := set_scene_state_fail_spec s sl hsc hlt
  refine ⟨?_, h2.scene, h1⟩
  rw [h3, phase_of_trace_snoc, hp]
  simp [phase_step]

theorem rasterize_scene_phase (s t : lp_setup_context) (sl : Nat)
    (hr : lp_setup_rasterize_scene s = some t) (hsc : s.scene = some sl)
    (hp : phase_of_trace s.trace = some (scene_phase.owned sl true)) :
    phase_of_trace t.trace = some scene_phase.idle ∧ t.scene = none := by
  obtain ⟨sl1, h1, _, h2, _, h3, _⟩ := rasterize_scene_some s t hr
  rw [hsc] at h1
  have e : sl = sl1 := Option.some.inj h1
  subst e
  refine ⟨?_, h2.scene⟩
  rw [h3]
  have e2 : s.trace ++ [event.scene_end_binning sl, event.rast_queue_scene sl] =
      (s.trace ++ [event.scene_end_binning sl]) ++ [event.rast_queue_scene sl] := by simp
  rw [e2, phase_of_trace_snoc, phase_quiet_snoc s.trace (event.scene_end_binning sl) rfl, hp]
  simp [phase_step]

/-! ## Transitions keep the calls in order and drop the snapshots -/

/-- Every transition of the state machine keeps the calls in order: a scene is queued only
with a fence created since it was acquired. -/
theorem set_scene_state_fence (h : lp_headers) (s t : lp_setup_context)
    (new_state : setup_state) (b : Bool) (hi : sm_inv s) (hf : fence_inv s)
    (hr : set_scene_state h s new_state = some (b, t)) : fence_inv t := by
  by_cases hsame : s.state = new_state
  · rw [set_scene_state_same h s new_state hsame] at hr
    simp only [Option.some.injEq, Prod.mk.injEq] at hr
    rw [← hr.2]
    exact hf
  · obtain ⟨s1, ha, hsw⟩ := set_scene_state_ne h s new_state hsame _ hr
    -- the context after the acquisition
    have h1 : ∃ sl f, s1.scene = some sl ∧
        phase_of_trace s1.trace = some (scene_phase.owned sl f) ∧
        scene_fenced s1 sl = f ∧ (s.state = setup_state.SETUP_ACTIVE → f = true) := by
      by_cases hfl : s.state = setup_state.SETUP_FLUSHED
      · unfold set_scene_state_acquire at ha
        rw [if_pos hfl] at ha
        have hnone : s.scene = none := hi.1.mp hfl
        have hp : phase_of_trace s.trace = some scene_phase.idle := by
          have := hf.phase
          unfold phase_of at this
          rw [hnone] at this
          exact this
        obtain ⟨i, a1, a2, a3⟩ := get_empty_scene_phase h s s1 ha hp
        refine ⟨i, false, a1, a3, a2, ?_⟩
        intro hact
        rw [hfl] at hact
        exact setup_state.noConfusion hact
      · have hs1 : s1 = s := (acquire_some h s s1 ha).2.2.2.1 hfl
        subst hs1
        have hsome : s1.scene ≠ none := fun hn => hfl (hi.1.mpr hn)
        cases hsc : s1.scene with
        | none => exact absurd hsc hsome
        | some sl =>
          refine ⟨sl, scene_fenced s1 sl, rfl, ?_, rfl, ?_⟩
          · have := hf.phase
            unfold phase_of at this
            rw [hsc] at this
            exact this
          · intro hact
            obtain ⟨sl2, b1, b2⟩ := hf.active hact
            rw [hsc] at b1
            have e : sl = sl2 := Option.some.inj b1
            rw [e]
            exact b2
    obtain ⟨sl, f, hsc1, hp1, hf1, hact1⟩ := h1
    -- what `begin_binning` makes of it
    have hbb : ∀ b2 s2, begin_binning h s1 = some (b2, s2) →
        ∃ ok, s2.scene = some sl ∧ sl < s2.scenes.length ∧
          phase_of_trace s2.trace = some (scene_phase.owned sl ok) ∧
          scene_fenced s2 sl = ok ∧ (b2 = true → ok = true) := by
      intro b2 s2 hb
      obtain ⟨sl2, ok, c1, c2, c3, c4, c5⟩ := begin_binning_phase h s1 s2 b2 hb
      rw [hsc1] at c1
      have e : sl = sl2 := Option.some.inj c1
      subst e
      obtain ⟨hst, ⟨sl3, d1, d2⟩, _⟩ := begin_binning_some h s1 s2 b2 hb
      rw [hsc1] at d1
      have e3 : sl = sl3 := Option.some.inj d1
      subst e3
      refine ⟨ok, c2, by rw [hst.len]; exact d2, ?_, c4, c5⟩
      rw [c3, hp1]
      rfl
    have hfail : ∀ s2 ok, s2.scene = some sl → sl < s2.scenes.length →
        phase_of_trace s2.trace = some (scene_phase.owned sl ok) →
        fence_inv (set_scene_state_fail s2) := by
      intro s2 ok a1 a2 a3
      obtain ⟨e1, e2, e3⟩ := set_scene_state_fail_phase s2 sl ok a1 a2 a3
      refine ⟨?_, ?_⟩
      · rw [e1]
        unfold phase_of
        rw [e2]
      · intro hact
        rw [e3] at hact
        exact setup_state.noConfusion hact
    have hras : ∀ s2 s3, s2.scene = some sl →
        phase_of_trace s2.trace = some (scene_phase.owned sl true) →
        lp_setup_rasterize_scene s2 = some s3 →
        fence_inv { s3 with state := setup_state.SETUP_FLUSHED } := by
      intro s2 s3 a1 a2 a3
      obtain ⟨e1, e2⟩ := rasterize_scene_phase s2 s3 sl a3 a1 a2
      refine ⟨?_, ?_⟩
      · show phase_of_trace s3.trace = some (phase_of { s3 with state := _ })
        rw [e1]
        unfold phase_of
        show some scene_phase.idle = some (match s3.scene with
          | none => scene_phase.idle
          | some sl => scene_phase.owned sl (scene_fenced { s3 with state := _ } sl))
        rw [e2]
      · intro hact
        exact setup_state.noConfusion hact
    unfold set_scene_state_switch at hsw
    cases new_state with
    | SETUP_CLEARED =>
      simp only [Option.some.injEq, Prod.mk.injEq] at hsw
      rw [← hsw.2]
      refine ⟨?_, ?_⟩
      · show phase_of_trace s1.trace = some (phase_of { s1 with state := _ })
        rw [hp1]
        unfold phase_of
        show _ = some (match s1.scene with
          | none => scene_phase.idle
          | some sl => scene_phase.owned sl (scene_fenced { s1 with state := _ } sl))
        rw [hsc1]
        show _ = some (scene_phase.owned sl (scene_fenced s1 sl))
        rw [hf1]
      · intro hact
        exact setup_state.noConfusion hact
    | SETUP_ACTIVE =>
      simp only at hsw
      cases hb : begin_binning h s1 with
      | none =>
        rw [hb] at hsw
        exact Option.noConfusion hsw
      | some x =>
        obtain ⟨b2, s2⟩ := x
        obtain ⟨ok, c1, c2, c3, c4, c5⟩ := hbb b2 s2 hb
        rw [hb] at hsw
        cases b2 with
        | false =>
          simp only [Option.some.injEq, Prod.mk.injEq] at hsw
          rw [← hsw.2]
          exact hfail s2 ok c1 c2 c3
        | true =>
          simp only [Option.some.injEq, Prod.mk.injEq] at hsw
          rw [← hsw.2]
          have hok : ok = true := c5 rfl
          subst hok
          refine ⟨?_, fun _ => ⟨sl, c1, c4⟩⟩
          show phase_of_trace s2.trace = some (phase_of { s2 with state := _ })
          rw [c3]
          unfold phase_of
          show _ = some (match s2.scene with
            | none => scene_phase.idle
            | some sl => scene_phase.owned sl (scene_fenced { s2 with state := _ } sl))
          rw [c1]
          show _ = some (scene_phase.owned sl (scene_fenced s2 sl))
          rw [c4]
    | SETUP_FLUSHED =>
      simp only at hsw
      by_cases hcl : s.state = setup_state.SETUP_CLEARED
      · rw [if_pos hcl] at hsw
        unfold execute_clears at hsw
        cases hb : begin_binning h s1 with
        | none =>
          rw [hb] at hsw
          exact Option.noConfusion hsw
        | some x =>
          obtain ⟨b2, s2⟩ := x
          obtain ⟨ok, c1, c2, c3, c4, c5⟩ := hbb b2 s2 hb
          rw [hb] at hsw
          cases b2 with
          | false =>
            simp only [Option.some.injEq, Prod.mk.injEq] at hsw
            rw [← hsw.2]
            exact hfail s2 ok c1 c2 c3
          | true =>
            simp only at hsw
            have hok : ok = true := c5 rfl
            subst hok
            cases hq : lp_setup_rasterize_scene s2 with
            | none =>
              rw [hq] at hsw
              exact Option.noConfusion hsw
            | some s3 =>
              rw [hq] at hsw
              simp only [Option.some.injEq, Prod.mk.injEq] at hsw
              rw [← hsw.2]
              exact hras s2 s3 c1 c3 hq
      · rw [if_neg hcl] at hsw
        simp only at hsw
        have hact : s.state = setup_state.SETUP_ACTIVE := by
          cases hst : s.state with
          | SETUP_FLUSHED => exact absurd hst hsame
          | SETUP_CLEARED => exact absurd hst hcl
          | SETUP_ACTIVE => rfl
        have hft : f = true := hact1 hact
        subst hft
        cases hq : lp_setup_rasterize_scene s1 with
        | none =>
          rw [hq] at hsw
          exact Option.noConfusion hsw
        | some s3 =>
          rw [hq] at hsw
          simp only [Option.some.injEq, Prod.mk.injEq] at hsw
          rw [← hsw.2]
          exact hras s1 s3 hsc1 hp1 hq

/-- Every transition of the state machine that is not a step from ACTIVE to CLEARED leaves
no snapshot behind outside state ACTIVE. -/
theorem set_scene_state_unsnapped (h : lp_headers) (s t : lp_setup_context)
    (new_state : setup_state) (b : Bool)
    (hcl : new_state = setup_state.SETUP_CLEARED → s.state ≠ setup_state.SETUP_ACTIVE)
    (hu : unsnapped s) (hr : set_scene_state h s new_state = some (b, t)) : unsnapped t := by
  have hreset : is_reset t → unsnapped t := fun hx _ => ⟨hx.dirty, hx.fs_stored, hx.constants⟩
  by_cases hsame : s.state = new_state
  · rw [set_scene_state_same h s new_state hsame] at hr
    simp only [Option.some.injEq, Prod.mk.injEq] at hr
    rw [← hr.2]
    exact hu
  · cases b with
    | false => exact hreset (set_scene_state_false h s t new_state hr).2.1
    | true =>
      cases new_state with
      | SETUP_ACTIVE =>
        intro hst
        exact absurd (set_scene_state_true_state h s t _ hr) hst
      | SETUP_FLUSHED => exact hreset (set_scene_state_flushed_true h s t hsame hr).2.1
      | SETUP_CLEARED =>
        obtain ⟨_, s1, ha, ht⟩ := set_scene_state_cleared h s t true hsame hr
        obtain ⟨hp, _⟩ := acquire_some h s s1 ha
        obtain ⟨_, _, _, hfs, hd, _, hc, _⟩ := pool_only_eq hp
        obtain ⟨a1, a2, a3⟩ := hu (hcl rfl)
        intro _
        rw [ht]
        refine ⟨?_, ?_, ?_⟩
        · show s1.dirty = _
          rw [hd]
          exact a1
        · show s1.fs.stored = _
          rw [hfs]
          exact a2
        · show ∀ c ∈ s1.constants, _
          rw [hc]
          exact a3

/-- What holds in every context reached by steps of the engine. -/
theorem engine_move_keeps (h : lp_headers) (s t : lp_setup_context)
    (hm : engine_move h s t) (hq : fence_inv s ∧ unsnapped s ∧ fs_inv s) :
    fence_inv t ∧ unsnapped t ∧ fs_inv t := by
  obtain ⟨q1, q2, q3⟩ := hq
  cases hm with
  | transition new_state b hi hcl hr =>
    exact ⟨set_scene_state_fence h s t new_state b hi q1 hr,
      set_scene_state_unsnapped h s t new_state b hcl q2 hr,
      set_scene_state_fs h s t new_state b hr q3⟩
  | snapshot b hact hr =>
    have hk := (try_update_scene_state_keeps h s t b hr).1.base
    have hq := quiet_try_update_scene_state h s t b hr
    refine ⟨?_, ?_, (try_update_scene_state_fs h s t b hr q3).1⟩
    · have hph : phase_of t = phase_of s := by
        unfold phase_of
        rw [hk.scene]
        cases s.scene with
        | none => rfl
        | some sl => simp only [scene_fenced_of_fences hk.fences sl]
      refine ⟨by rw [hq, hph]; exact q1.phase, fun _ => ?_⟩
      obtain ⟨sl, a1, a2⟩ := q1.active hact
      exact ⟨sl, by rw [hk.scene]; exact a1, by
        rw [scene_fenced_of_fences hk.fences]; exact a2⟩
    · intro hst
      rw [hk.state] at hst
      exact absurd hact hst
  | frame hf =>
    exact ⟨fence_inv_frame hf q1, unsnapped_frame hf q2, fs_inv_frame hf q3⟩

theorem engine_moves_keep (h : lp_headers) (s t : lp_setup_context)
    (hm : engine_moves h s t) (hq : fence_inv s ∧ unsnapped s ∧ fs_inv s) :
    fence_inv t ∧ unsnapped t ∧ fs_inv t := by
  unfold engine_moves at hm
  induction hm with
  | refl => exact hq
  | tail _ hbc ih => exact engine_move_keeps h _ _ hbc ih

/-! ## Setters and other steps that leave the state machine alone -/

theorem set_fs_constants_loop_stored (cs : List constants_state) (n : Nat)
    (bs : List pipe_constant_buffer) :
    (set_fs_constants_loop cs n bs).map (fun c => (c.stored_size, c.stored_data)) =
      cs.map (fun c => (c.stored_size, c.stored_data)) := by
  induction cs generalizing n bs with
  | nil => cases n <;> cases bs <;> rfl
  | cons c rest ih =>
    cases n with
    | zero => simp [set_fs_constants_loop, ih]
    | succ k =>
      cases bs with
      | nil => simp [set_fs_constants_loop, ih]
      | cons b bs => simp [set_fs_constants_loop, ih]

/-- A write that touches neither the state machine, nor the pool, nor the calls, nor the
stored snapshots, and only adds dirty bits, leaves the state machine alone. -/
theorem frame_step_of_fields {s t : lp_setup_context} (h1 : t.state = s.state)
    (h2 : t.scene = s.scene) (h3 : t.scenes = s.scenes) (h4 : t.trace = s.trace)
    (h5 : t.fs.stored = s.fs.stored)
    (h6 : t.constants.map (fun c => (c.stored_size, c.stored_data)) =
      s.constants.map (fun c => (c.stored_size, c.stored_data)))
    (h7 : ∃ bits, bits ≤ ALL_ONES ∧ t.dirty = s.dirty ||| bits) : frame_step s t :=
  ⟨h1, h2, fun sl => by unfold scene_fenced; rw [h3], by rw [h4], h5, h6, h7⟩

theorem lor_zero_bits (d : Nat) : ∃ bits, bits ≤ ALL_ONES ∧ d = d ||| bits :=
  ⟨0, by decide, by simp⟩

/-- Every setter leaves the state machine alone and keeps the clear accumulator, the pool and
the calls. -/
theorem apply_setter_frame (h : lp_headers) (op : setter_op) (s t : lp_setup_context)
    (hr : apply_setter h op s = some t) :
    frame_step s t ∧ t.clear = s.clear ∧ t.scenes = s.scenes ∧ t.trace = s.trace := by
  cases op with
  | set_setup_variant v =>
    simp only [apply_setter, Option.some.injEq] at hr
    subst hr
    exact ⟨frame_step_refl s, rfl, rfl, rfl⟩
  | set_fs_variant v =>
    simp only [apply_setter, Option.some.injEq] at hr
    subst hr
    exact ⟨frame_step_of_fields rfl rfl rfl rfl rfl rfl ⟨LP_SETUP_NEW_FS, by decide, rfl⟩,
      rfl, rfl, rfl⟩
  | set_fs_constants num buffers =>
    simp only [apply_setter, Option.some.injEq] at hr
    subst hr
    exact ⟨frame_step_of_fields rfl rfl rfl rfl rfl
      (set_fs_constants_loop_stored s.constants num buffers)
      ⟨LP_SETUP_NEW_CONSTANTS, by decide, rfl⟩, rfl, rfl, rfl⟩
  | set_fs_ssbos num buffers mask =>
    simp only [apply_setter, Option.some.injEq] at hr
    subst hr
    exact ⟨frame_step_of_fields rfl rfl rfl rfl rfl rfl ⟨LP_SETUP_NEW_SSBOS, by decide, rfl⟩,
      rfl, rfl, rfl⟩
  | set_fs_images num images tables =>
    simp only [apply_setter, Option.some.injEq] at hr
    subst hr
    exact ⟨frame_step_of_fields rfl rfl rfl rfl rfl rfl ⟨LP_SETUP_NEW_FS, by decide, rfl⟩,
      rfl, rfl, rfl⟩
  | set_alpha_ref_value v =>
    simp only [apply_setter, Option.some.injEq] at hr
    subst hr
    unfold lp_setup_set_alpha_ref_value
    split
    · exact ⟨frame_step_of_fields rfl rfl rfl rfl rfl rfl ⟨LP_SETUP_NEW_FS, by decide, rfl⟩,
        rfl, rfl, rfl⟩
    · exact ⟨frame_step_refl s, rfl, rfl, rfl⟩
  | set_stencil_ref_values front back =>
    simp only [apply_setter, Option.some.injEq] at hr
    subst hr
    unfold lp_setup_set_stencil_ref_values
    split
    · exact ⟨frame_step_of_fields rfl rfl rfl rfl rfl rfl ⟨LP_SETUP_NEW_FS, by decide, rfl⟩,
        rfl, rfl, rfl⟩
    · exact ⟨frame_step_refl s, rfl, rfl, rfl⟩
  | set_blend_color c =>
    simp only [apply_setter, Option.some.injEq] at hr
    subst hr
    unfold lp_setup_set_blend_color
    split
    · exact ⟨frame_step_of_fields rfl rfl rfl rfl rfl rfl
        ⟨LP_SETUP_NEW_BLEND_COLOR, by decide, rfl⟩, rfl, rfl, rfl⟩
    · exact ⟨frame_step_refl s, rfl, rfl, rfl⟩
  | set_scissors scissors =>
    simp only [apply_setter] at hr
    unfold lp_setup_set_scissors at hr
    split at hr
    · simp only [Option.some.injEq] at hr
      subst hr
      exact ⟨frame_step_of_fields rfl rfl rfl rfl rfl rfl
        ⟨LP_SETUP_NEW_SCISSOR, by decide, rfl⟩, rfl, rfl, rfl⟩
    · exact Option.noConfusion hr
  | set_sample_mask m =>
    simp only [apply_setter, Option.some.injEq] at hr
    subst hr
    unfold lp_setup_set_sample_mask
    split
    · exact ⟨frame_step_of_fields rfl rfl rfl rfl rfl rfl ⟨LP_SETUP_NEW_FS, by decide, rfl⟩,
        rfl, rfl, rfl⟩
    · exact ⟨frame_step_refl s, rfl, rfl, rfl⟩
  | set_rasterizer_discard b =>
    simp only [apply_setter, Option.some.injEq] at hr
    subst hr
    unfold lp_setup_set_rasterizer_discard
    split
    · exact ⟨frame_step_of_fields rfl rfl rfl rfl rfl rfl (lor_zero_bits _), rfl, rfl, rfl⟩
    · exact ⟨frame_step_refl s, rfl, rfl, rfl⟩
  | set_vertex_info v =>
    simp only [apply_setter, Option.some.injEq] at hr
    subst hr
    exact ⟨frame_step_refl s, rfl, rfl, rfl⟩
  | set_linear_mode mode sse2 =>
    simp only [apply_setter, Option.some.injEq] at hr
    subst hr
    exact ⟨frame_step_of_fields rfl rfl rfl rfl rfl rfl (lor_zero_bits _), rfl, rfl, rfl⟩
  | set_viewports num vpwh depths =>
    simp only [apply_setter, Option.some.injEq] at hr
    subst hr
    refine ⟨frame_step_of_fields rfl rfl rfl rfl rfl rfl ?_, rfl, rfl, rfl⟩
    unfold lp_setup_set_viewports
    simp only
    split
    · exact ⟨LP_SETUP_NEW_SCISSOR ||| LP_SETUP_NEW_VIEWPORTS, by decide,
        Nat.lor_assoc _ _ _⟩
    · exact ⟨LP_SETUP_NEW_SCISSOR, by decide, rfl⟩
  | set_fragment_sampler_views num views tables =>
    simp only [apply_setter, Option.some.injEq] at hr
    subst hr
    exact ⟨frame_step_of_fields rfl rfl rfl rfl rfl rfl ⟨LP_SETUP_NEW_FS, by decide, rfl⟩,
      rfl, rfl, rfl⟩
  | set_fragment_sampler_state tables =>
    simp only [apply_setter, Option.some.injEq] at hr
    subst hr
    exact ⟨frame_step_of_fields rfl rfl rfl rfl rfl rfl ⟨LP_SETUP_NEW_FS, by decide, rfl⟩,
      rfl, rfl, rfl⟩
  | bind_rasterizer rast =>
    simp only [apply_setter, Option.some.injEq] at hr
    subst hr
    unfold lp_setup_bind_rasterizer
    simp only
    split
    · exact ⟨frame_step_of_fields rfl rfl rfl rfl rfl rfl
        ⟨LP_SETUP_NEW_SCISSOR, by decide, rfl⟩, rfl, rfl, rfl⟩
    · exact ⟨frame_step_of_fields rfl rfl rfl rfl rfl rfl (lor_zero_bits _), rfl, rfl, rfl⟩

theorem apply_setter_inv (h : lp_headers) (op : setter_op) (s t : lp_setup_context)
    (hr : apply_setter h op s = some t) (hi : sm_inv s) : sm_inv t := by
  obtain ⟨f, hc, _, _⟩ := apply_setter_frame h op s t hr
  unfold sm_inv at *
  rw [f.state, f.scene, hc]
  exact hi

theorem apply_setter_pool_ok (h : lp_headers) (op : setter_op) (s t : lp_setup_context)
    (hr : apply_setter h op s = some t) (hp : pool_ok s) : pool_ok t := by
  obtain ⟨f, _, hs, _⟩ := apply_setter_frame h op s t hr
  unfold pool_ok at *
  rw [f.scene, hs]
  exact hp

/-- A write through a scene pointer that keeps the presence of the fence leaves the state
machine alone. -/
theorem frame_step_with_scene (i : Nat) (f : lp_scene → lp_scene)
    (hf : ∀ sc, (f sc).fence.isSome = sc.fence.isSome) (s : lp_setup_context) :
    frame_step s (with_scene i f s) := by
  refine ⟨rfl, rfl, fun sl => ?_, rfl, rfl, rfl, lor_zero_bits _⟩
  unfold scene_fenced with_scene
  show (match (modify_scene f i s.scenes).get? sl with
    | some sc => sc.fence.isSome
    | none => false) = _
  by_cases hsl : sl = i
  · subst hsl
    rw [modify_scene_get]
    cases s.scenes.get? sl with
    | none => rfl
    | some sc => exact hf sc
  · rw [modify_scene_get_ne f i sl hsl]

theorem frame_step_record (e : event) (he : is_quiet_event e = true) (s : lp_setup_context) :
    frame_step s (record e s) :=
  ⟨rfl, rfl, fun _ => rfl, phase_quiet_snoc s.trace e he, rfl, rfl, lor_zero_bits _⟩

theorem frame_step_mark_had_queries (x : lp_setup_context) :
    frame_step x (match x.scene with
      | some i => with_scene i (fun sc => { sc with had_queries := true }) x
      | none => x) := by
  split
  · rename_i i _
    exact frame_step_with_scene i (fun sc => { sc with had_queries := true }) (fun _ => rfl) x
  · exact frame_step_refl x

theorem frame_step_remove_active_query (pq : llvmpipe_query) (s : lp_setup_context) :
    frame_step s (remove_active_query pq s) := by
  unfold remove_active_query
  split
  · simp only
    split
    · exact frame_step_refl s
    · exact frame_step_of_fields rfl rfl rfl rfl rfl rfl (lor_zero_bits _)
  · exact frame_step_refl s

theorem moves_refl (h : lp_headers) (s : lp_setup_context) : engine_moves h s s :=
  Relation.ReflTransGen.refl

theorem moves_trans {h : lp_headers} {s t u : lp_setup_context} (a : engine_moves h s t)
    (b : engine_moves h t u) : engine_moves h s u :=
  Relation.ReflTransGen.trans a b

theorem moves_frame {h : lp_headers} {s t : lp_setup_context} (f : frame_step s t) :
    engine_moves h s t :=
  Relation.ReflTransGen.single (engine_move.frame s t f)

theorem moves_transition {h : lp_headers} {s t : lp_setup_context} {new_state : setup_state}
    {b : Bool} (hi : sm_inv s)
    (hcl : new_state = setup_state.SETUP_CLEARED → s.state ≠ setup_state.SETUP_ACTIVE)
    (hr : set_scene_state h s new_state = some (b, t)) : engine_moves h s t :=
  Relation.ReflTransGen.single (engine_move.transition s t new_state b hi hcl hr)

theorem moves_snapshot {h : lp_headers} {s t : lp_setup_context} {b : Bool}
    (hact : s.state = setup_state.SETUP_ACTIVE)
    (hr : try_update_scene_state h s = some (b, t)) : engine_moves h s t :=
  Relation.ReflTransGen.single (engine_move.snapshot s t b hact hr)

theorem moves_flush {h : lp_headers} {s t : lp_setup_context} {b : Bool} (hi : sm_inv s)
    (hr : set_scene_state h s setup_state.SETUP_FLUSHED = some (b, t)) : engine_moves h s t :=
  moves_transition hi (fun hx => setup_state.noConfusion hx) hr

theorem moves_activate {h : lp_headers} {s t : lp_setup_context} {b : Bool} (hi : sm_inv s)
    (hr : set_scene_state h s setup_state.SETUP_ACTIVE = some (b, t)) : engine_moves h s t :=
  moves_transition hi (fun hx => setup_state.noConfusion hx) hr

/-! ## Public operations as sequences of steps -/

theorem try_clear_color_buffer_moves (h : lp_headers) (color cbuf : Nat)
    (s t : lp_setup_context) (b : Bool)
    (hr : lp_setup_try_clear_color_buffer h color cbuf s = some (b, t)) (hi : sm_inv s) :
    engine_moves h s t := by
  unfold lp_setup_try_clear_color_buffer at hr
  split at hr
  · rename_i surf _
    simp only at hr
    split at hr
    · split at hr
      · simp at hr
      · rename_i sl _
        split at hr
        · have h1 := frame_step_lp_scene_alloc sl s
          generalize lp_scene_alloc sl s = r at hr h1
          obtain ⟨o, s1⟩ := r
          cases o with
          | none =>
            simp only [Option.some.injEq, Prod.mk.injEq] at hr
            rw [← hr.2]
            exact moves_frame h1
          | some p =>
            simp only [Option.some.injEq] at hr
            have h2 := frame_step_bin_everywhere sl
              (lp_rast_cmd.LP_RAST_OP_CLEAR_COLOR cbuf (h.util_pack_color_union surf.format color)) s1
            rw [hr] at h2
            exact moves_frame (frame_step_trans h1 h2)
        · simp at hr
    · rename_i hna
      cases hs : set_scene_state h s setup_state.SETUP_CLEARED with
      | none => simp [hs] at hr
      | some x =>
        obtain ⟨b1, s1⟩ := x
        simp only [hs, Option.some.injEq, Prod.mk.injEq] at hr
        rw [← hr.2]
        exact moves_trans (moves_transition hi (fun _ => hna) hs)
          (moves_frame (frame_step_of_fields rfl rfl rfl rfl rfl rfl (lor_zero_bits _)))
  · simp at hr

theorem try_clear_zs_moves (h : lp_headers) (depth stencil flags : Nat)
    (s t : lp_setup_context) (b : Bool)
    (hr : lp_setup_try_clear_zs h depth stencil flags s = some (b, t)) (hi : sm_inv s) :
    engine_moves h s t := by
  unfold lp_setup_try_clear_zs at hr
  split at hr
  · simp at hr
  · rename_i zsbuf _
    simp only at hr
    split at hr
    · split at hr
      · simp at hr
      · rename_i sl _
        split at hr
        · simp only [Option.some.injEq] at hr
          have h2 := frame_step_bin_everywhere sl
            (lp_rast_cmd.LP_RAST_OP_CLEAR_ZSTENCIL
              (clear_zs_value_mask h zsbuf.format depth stencil flags).1
              (clear_zs_value_mask h zsbuf.format depth stencil flags).2) s
          rw [hr] at h2
          exact moves_frame h2
        · simp at hr
    · rename_i hna
      cases hs : set_scene_state h s setup_state.SETUP_CLEARED with
      | none => simp [hs] at hr
      | some x =>
        obtain ⟨b1, s1⟩ := x
        simp only [hs, Option.some.injEq, Prod.mk.injEq] at hr
        rw [← hr.2]
        exact moves_trans (moves_transition hi (fun _ => hna) hs)
          (moves_frame (frame_step_of_fields rfl rfl rfl rfl rfl rfl (lor_zero_bits _)))

theorem lp_setup_clear_zs_moves (h : lp_headers) (depth stencil flags : Nat)
    (s t : lp_setup_context) (hr : lp_setup_clear_zs h depth stencil flags s = some t)
    (hi : sm_inv s) : engine_moves h s t := by
  unfold lp_setup_clear_zs at hr
  split at hr
  · simp only at hr
    split at hr
    · simp at hr
    · rename_i s1 h1
      simp only [Option.some.injEq] at hr
      rw [← hr]
      exact try_clear_zs_moves h _ _ _ s s1 true h1 hi
    · rename_i s1 h1
      have hi1 := try_clear_zs_inv h _ _ _ s s1 false h1 hi
      have m1 := try_clear_zs_moves h _ _ _ s s1 false h1 hi
      split at hr
      · simp at hr
      · rename_i b2 s2 h2
        have hi2 := set_scene_state_inv h s1 s2 _ b2 h2 hi1
        have m2 := moves_trans m1 (moves_flush hi1 h2)
        cases h3 : lp_setup_try_clear_zs h depth stencil (flags &&& PIPE_CLEAR_DEPTHSTENCIL) s2 with
        | none => simp [h3] at hr
        | some x =>
          obtain ⟨b3, s3⟩ := x
          simp only [h3, Option.map_some', Option.some.injEq] at hr
          rw [← hr]
          exact moves_trans m2 (try_clear_zs_moves h _ _ _ s2 s3 b3 h3 hi2)
  · simp only [Option.some.injEq] at hr
    rw [← hr]
    exact moves_refl h s

theorem lp_setup_clear_color_moves (h : lp_headers) (color flags n i : Nat)
    (s t : lp_setup_context) (hr : lp_setup_clear_color h color flags n i s = some t)
    (hi : sm_inv s) : engine_moves h s t := by
  induction n generalizing i s with
  | zero =>
    simp only [lp_setup_clear_color, Option.some.injEq] at hr
    rw [← hr]
    exact moves_refl h s
  | succ n ih =>
    unfold lp_setup_clear_color at hr
    split at hr
    · split at hr
      · simp at hr
      · rename_i s1 h1
        exact moves_trans (try_clear_color_buffer_moves h _ _ s s1 true h1 hi)
          (ih _ _ hr (try_clear_color_buffer_inv h _ _ s s1 true h1 hi))
      · rename_i s1 h1
        have hi1 := try_clear_color_buffer_inv h _ _ s s1 false h1 hi
        have m1 := try_clear_color_buffer_moves h _ _ s s1 false h1 hi
        split at hr
        · simp at hr
        · rename_i b2 s2 h2
          have hi2 := set_scene_state_inv h s1 s2 _ b2 h2 hi1
          have m2 := moves_trans m1 (moves_flush hi1 h2)
          split at hr
          · simp at hr
          · rename_i b3 s3 h3
            exact moves_trans (moves_trans m2 (try_clear_color_buffer_moves h _ _ s2 s3 b3 h3 hi2))
              (ih _ _ hr (try_clear_color_buffer_inv h _ _ s2 s3 b3 h3 hi2))
    · exact ih _ _ hr hi

theorem lp_setup_clear_moves (h : lp_headers) (color depth stencil flags : Nat)
    (s t : lp_setup_context) (hr : lp_setup_clear h color depth stencil flags s = some t)
    (hi : sm_inv s) : engine_moves h s t := by
  unfold lp_setup_clear at hr
  split at hr
  · simp at hr
  · rename_i s1 h1
    have hi1 := lp_setup_clear_zs_inv h _ _ _ s s1 h1 hi
    have m1 := lp_setup_clear_zs_moves h _ _ _ s s1 h1 hi
    split at hr
    · exact moves_trans m1 (lp_setup_clear_color_moves h _ _ _ _ s1 t hr hi1)
    · simp only [Option.some.injEq] at hr
      rw [← hr]
      exact m1

theorem lp_setup_flush_moves (h : lp_headers) (s t : lp_setup_context)
    (hr : lp_setup_flush h s = some t) (hi : sm_inv s) : engine_moves h s t := by
  unfold lp_setup_flush at hr
  cases h1 : set_scene_state h s setup_state.SETUP_FLUSHED with
  | none => simp [h1] at hr
  | some x =>
    obtain ⟨b, s1⟩ := x
    simp only [h1, Option.map_some', Option.some.injEq] at hr
    rw [← hr]
    exact moves_flush hi h1

theorem lp_setup_bind_framebuffer_moves (h : lp_headers) (fb : pipe_framebuffer_state)
    (s t : lp_setup_context) (hr : lp_setup_bind_framebuffer h fb s = some t)
    (hi : sm_inv s) : engine_moves h s t := by
  unfold lp_setup_bind_framebuffer at hr
  cases h1 : set_scene_state h s setup_state.SETUP_FLUSHED with
  | none => simp [h1] at hr
  | some x =>
    obtain ⟨b, s1⟩ := x
    simp only [h1, Option.some.injEq] at hr
    rw [← hr]
    exact moves_trans (moves_flush hi h1)
      (moves_frame (frame_step_of_fields rfl rfl rfl rfl rfl rfl
        ⟨LP_SETUP_NEW_SCISSOR, by decide, rfl⟩))

theorem lp_setup_update_state_moves (h : lp_headers) (u : Bool) (s t : lp_setup_context)
    (b : Bool) (hr : lp_setup_update_state h u s = some (b, t)) (hi : sm_inv s) :
    engine_moves h s t := by
  unfold lp_setup_update_state at hr
  split at hr
  · simp at hr
  · rename_i s1 h1
    simp only [Option.some.injEq, Prod.mk.injEq] at hr
    rw [← hr.2]
    split at h1
    · exact moves_activate hi h1
    · simp at h1
  · rename_i s1 h1
    have hi1 : sm_inv s1 ∧ engine_moves h s s1 ∧
        (u = true → s1.state = setup_state.SETUP_ACTIVE) := by
      split at h1
      · exact ⟨set_scene_state_inv h s s1 _ true h1 hi, moves_activate hi h1,
          fun _ => set_scene_state_true_state h s s1 _ h1⟩
      · rename_i hc
        simp only [Option.some.injEq, Prod.mk.injEq, true_and] at h1
        rw [← h1]
        refine ⟨hi, moves_refl h s, fun hu => ?_⟩
        subst hu
        simp only [Bool.true_and, decide_eq_true_eq, ne_eq, not_not] at hc
        exact hc
    obtain ⟨hi1, m1, hact1⟩ := hi1
    split at hr
    · rename_i hc
      simp only [Bool.and_eq_true] at hc
      have ha1 := hact1 hc.1
      split at hr
      · simp at hr
      · rename_i s2 h2
        simp only [Option.some.injEq, Prod.mk.injEq] at hr
        rw [← hr.2]
        exact moves_trans m1 (moves_snapshot ha1 h2)
      · rename_i s2 h2
        have hi2 := try_update_scene_state_inv h s1 s2 false h2 hi1
        have m2 := moves_trans m1 (moves_snapshot ha1 h2)
        split at hr
        · simp at hr
        · rename_i s3 h3
          simp only [Option.some.injEq, Prod.mk.injEq] at hr
          rw [← hr.2]
          exact moves_trans m2 (moves_flush hi2 h3)
        · rename_i s3 h3
          have hi3 := set_scene_state_inv h s2 s3 _ true h3 hi2
          have m3 := moves_trans m2 (moves_flush hi2 h3)
          split at hr
          · simp at hr
          · rename_i s4 h4
            simp only [Option.some.injEq, Prod.mk.injEq] at hr
            rw [← hr.2]
            exact moves_trans m3 (moves_activate hi3 h4)
          · rename_i s4 h4
            have m4 := moves_trans m3 (moves_activate hi3 h4)
            split at hr
            · simp only [Option.some.injEq, Prod.mk.injEq] at hr
              rw [← hr.2]
              exact m4
            · exact moves_trans m4
                (moves_snapshot (set_scene_state_true_state h s3 s4 _ h4) hr)
    · simp only [Option.some.injEq, Prod.mk.injEq] at hr
      rw [← hr.2]
      exact m1

theorem lp_setup_flush_and_restart_moves (h : lp_headers) (s t : lp_setup_context) (b : Bool)
    (hr : lp_setup_flush_and_restart h s = some (b, t)) (hi : sm_inv s) :
    engine_moves h s t := by
  unfold lp_setup_flush_and_restart at hr
  split at hr
  · simp at hr
  · rename_i s1 h1
    simp only [Option.some.injEq, Prod.mk.injEq] at hr
    rw [← hr.2]
    exact moves_flush hi h1
  · rename_i s1 h1
    exact moves_trans (moves_flush hi h1)
      (lp_setup_update_state_moves h true s1 t b hr (set_scene_state_inv h s s1 _ true h1 hi))

theorem bin_query_cmd_moves (h : lp_headers) (cmd : lp_rast_cmd) (sl : Nat)
    (s t : lp_setup_context) (b : Bool) (hr : bin_query_cmd h cmd sl s = some (b, t))
    (hi : sm_inv s) : engine_moves h s t := by
  unfold bin_query_cmd at hr
  simp only at hr
  have h1 := sm_inv_of_keeps (keeps_bin_everywhere sl cmd s) hi
  have f1 := frame_step_bin_everywhere sl cmd s
  generalize lp_scene_bin_everywhere sl cmd s = r at hr h1 f1
  obtain ⟨ok, s1⟩ := r
  cases ok with
  | true =>
    simp only [if_true, Option.some.injEq, Prod.mk.injEq] at hr
    rw [← hr.2]
    exact moves_frame (frame_step_trans f1 (frame_step_mark_had_queries s1))
  | false =>
    simp only [Bool.false_eq_true, if_false] at hr
    split at hr
    · simp at hr
    · rename_i s2 h2
      simp only [Option.some.injEq, Prod.mk.injEq] at hr
      rw [← hr.2]
      exact moves_trans (moves_frame f1) (lp_setup_flush_and_restart_moves h s1 s2 false h2 h1)
    · rename_i s2 h2
      have hi2 := lp_setup_flush_and_restart_inv h s1 s2 true h2 h1
      have m2 := moves_trans (moves_frame f1)
        (lp_setup_flush_and_restart_moves h s1 s2 true h2 h1)
      split at hr
      · simp at hr
      · rename_i sl1 _
        split at hr
        · have f3 := frame_step_bin_everywhere sl1 cmd s2
          generalize lp_scene_bin_everywhere sl1 cmd s2 = r1 at hr f3
          obtain ⟨ok1, s3⟩ := r1
          cases ok1 with
          | true =>
            simp only [if_true, Option.some.injEq, Prod.mk.injEq] at hr
            rw [← hr.2]
            exact moves_trans m2
              (moves_frame (frame_step_trans f3 (frame_step_mark_had_queries s3)))
          | false =>
            simp only [Bool.false_eq_true, if_false, Option.some.injEq, Prod.mk.injEq] at hr
            rw [← hr.2]
            exact moves_trans m2 (moves_frame f3)
        · simp at hr

theorem lp_setup_begin_query_moves (h : lp_headers) (pq : llvmpipe_query)
    (s t : lp_setup_context) (hr : lp_setup_begin_query h pq s = some t) (hi : sm_inv s) :
    engine_moves h s t := by
  unfold lp_setup_begin_query at hr
  split at hr
  · simp at hr
  · rename_i b1 s1 h1
    have hi1 := set_scene_state_inv h s s1 _ b1 h1 hi
    have m1 : engine_moves h s s1 := moves_activate hi h1
    split at hr
    · simp only [Option.some.injEq] at hr
      rw [← hr]
      exact m1
    · split at hr
      · simp only [Option.some.injEq] at hr
        rw [← hr]
        exact m1
      · simp only at hr
        have hi2 : sm_inv { s1 with
            active_queries := s1.active_queries.set s1.active_binned_queries (some pq.ptr),
            active_binned_queries := s1.active_binned_queries + 1 } := hi1
        have m2 : engine_moves h s { s1 with
            active_queries := s1.active_queries.set s1.active_binned_queries (some pq.ptr),
            active_binned_queries := s1.active_binned_queries + 1 } :=
          moves_trans m1
            (moves_frame (frame_step_of_fields rfl rfl rfl rfl rfl rfl (lor_zero_bits _)))
        split at hr
        · simp only [Option.some.injEq] at hr
          rw [← hr]
          exact m2
        · rename_i sl _
          split at hr
          · cases h3 : bin_query_cmd h (lp_rast_cmd.LP_RAST_OP_BEGIN_QUERY pq.ptr) sl
                { s1 with
                  active_queries := s1.active_queries.set s1.active_binned_queries (some pq.ptr),
                  active_binned_queries := s1.active_binned_queries + 1 } with
            | none => simp [h3] at hr
            | some x =>
              obtain ⟨b3, s3⟩ := x
              simp only [h3, Option.map_some', Option.some.injEq] at hr
              rw [← hr]
              exact moves_trans m2 (bin_query_cmd_moves h _ sl _ s3 b3 h3 hi2)
          · simp at hr

theorem lp_setup_end_query_moves (h : lp_headers) (pq : llvmpipe_query)
    (s t : lp_setup_context) (hr : lp_setup_end_query h pq s = some t) (hi : sm_inv s) :
    engine_moves h s t := by
  unfold lp_setup_end_query at hr
  split at hr
  · simp at hr
  · rename_i b1 s1 h1
    have hi1 := set_scene_state_inv h s s1 _ b1 h1 hi
    have m1 : engine_moves h s s1 := moves_activate hi h1
    split at hr
    · rename_i sl _
      split at hr
      · simp only at hr
        have hi2 : sm_inv (record (event.fence_reference pq.ptr sl) s1) := hi1
        have m2 : engine_moves h s (record (event.fence_reference pq.ptr sl) s1) :=
          moves_trans m1 (moves_frame (frame_step_record (event.fence_reference pq.ptr sl) rfl s1))
        split at hr
        · split at hr
          · simp at hr
          · rename_i b3 s3 h3
            simp only [Option.some.injEq] at hr
            rw [← hr]
            exact moves_trans (moves_trans m2 (bin_query_cmd_moves h _ sl _ s3 b3 h3 hi2))
              (moves_frame (frame_step_remove_active_query pq s3))
        · simp only [Option.some.injEq] at hr
          rw [← hr]
          exact moves_trans m2 (moves_frame (frame_step_remove_active_query pq _))
      · simp at hr
    · simp only [Option.some.injEq] at hr
      rw [← hr]
      exact moves_trans (moves_trans m1 (moves_frame (frame_step_record (event.rast_fence pq.ptr) rfl s1)))
        (moves_frame (frame_step_remove_active_query pq _))

theorem apply_op_moves (h : lp_headers) (op : setup_op) (s t : lp_setup_context)
    (hr : apply_op h op s = some t) (hi : sm_inv s) : engine_moves h s t := by
  cases op with
  | clear color depth stencil flags => exact lp_setup_clear_moves h _ _ _ _ s t hr hi
  | flush => exact lp_setup_flush_moves h s t hr hi
  | bind_framebuffer fb => exact lp_setup_bind_framebuffer_moves h fb s t hr hi
  | update_state u =>
    simp only [apply_op] at hr
    cases h1 : lp_setup_update_state h u s with
    | none => simp [h1] at hr
    | some x =>
      obtain ⟨b, s1⟩ := x
      simp only [h1, Option.map_some', Option.some.injEq] at hr
      rw [← hr]
      exact lp_setup_update_state_moves h u s s1 b h1 hi
  | begin_query pq => exact lp_setup_begin_query_moves h pq s t hr hi
  | end_query pq => exact lp_setup_end_query_moves h pq s t hr hi
  | flush_and_restart =>
    simp only [apply_op] at hr
    cases h1 : lp_setup_flush_and_restart h s with
    | none => simp [h1] at hr
    | some x =>
      obtain ⟨b, s1⟩ := x
      simp only [h1, Option.map_some', Option.some.injEq] at hr
      rw [← hr]
      exact lp_setup_flush_and_restart_moves h s s1 b h1 hi
  | rast_signal slot =>
    simp only [apply_op, Option.some.injEq] at hr
    rw [← hr]
    refine moves_frame (frame_step_with_scene slot _ (fun sc => ?_) s)
    show (sc.fence.map lp_fence_signal).isSome = sc.fence.isSome
    cases sc.fence <;> rfl

theorem apply_public_moves (h : lp_headers) (op : public_op) (s t : lp_setup_context)
    (hr : apply_public h op s = some t) (hi : sm_inv s) :
    engine_moves h s t ∧ sm_inv t := by
  cases op with
  | engine o => exact ⟨apply_op_moves h o s t hr hi, apply_op_inv h o s t hr hi⟩
  | setter o =>
    exact ⟨moves_frame (apply_setter_frame h o s t hr).1, apply_setter_inv h o s t hr hi⟩

theorem run_public_moves (h : lp_headers) (ops : List public_op) (s t : lp_setup_context)
    (hr : run_public h ops s = some t) (hi : sm_inv s) :
    engine_moves h s t ∧ sm_inv t := by
  induction ops generalizing s with
  | nil =>
    simp only [run_public, Option.some.injEq] at hr
    rw [← hr]
    exact ⟨moves_refl h s, hi⟩
  | cons op rest ih =>
    unfold run_public at hr
    cases h1 : apply_public h op s with
    | none => simp [h1] at hr
    | some s1 =>
      simp only [h1] at hr
      obtain ⟨m1, hi1⟩ := apply_public_moves h op s s1 h1 hi
      obtain ⟨m2, hi2⟩ := ih s1 hr hi1
      exact ⟨moves_trans m1 m2, hi2⟩

theorem take_oracle_core (s : lp_setup_context) :
    (take_oracle s).2.state = s.state ∧ (take_oracle s).2.scene = s.scene ∧
    (take_oracle s).2.fs = s.fs ∧ (take_oracle s).2.constants = s.constants ∧
    (take_oracle s).2.trace = s.trace := by
  unfold take_oracle
  split <;> exact ⟨rfl, rfl, rfl, rfl, rfl⟩

theorem lp_scene_create_core (s : lp_setup_context) :
    (lp_scene_create s).2.state = s.state ∧ (lp_scene_create s).2.scene = s.scene ∧
    (lp_scene_create s).2.fs = s.fs ∧ (lp_scene_create s).2.constants = s.constants ∧
    (lp_scene_create s).2.trace = s.trace ++ [event.scene_create (take_oracle s).1] := by
  obtain ⟨a1, a2, a3, a4, a5⟩ := take_oracle_core s
  unfold lp_scene_create record
  simp only
  exact ⟨a1, a2, a3, a4, by rw [a5]⟩

/-- The context `lp_setup_create` returns: no scene is owned, no call is out of order, and
nothing is snapshotted. -/
theorem lp_setup_create_start (h : lp_headers) (num_threads : Nat) (pipe : llvmpipe_context)
    (oracle : List Bool) (s0 : lp_setup_context)
    (hc : lp_setup_create h num_threads pipe oracle = some s0) :
    fence_inv s0 ∧ unsnapped s0 := by
  unfold lp_setup_create at hc
  simp only at hc
  split at hc
  · split at hc
    · split at hc
      · simp at hc
      · rename_i scene s2 hsc
        simp only [Option.some.injEq] at hc
        have h2 := lp_scene_create_core
          (take_oracle { (take_oracle (zero_context h pipe oracle)).2 with
            num_threads := num_threads }).2
        rw [hsc] at h2
        simp only at h2
        obtain ⟨b1, b2, b3, b4, b5⟩ := h2
        obtain ⟨c1, c2, c3, c4, c5⟩ := take_oracle_core
          { (take_oracle (zero_context h pipe oracle)).2 with num_threads := num_threads }
        obtain ⟨d1, d2, d3, d4, d5⟩ := take_oracle_core (zero_context h pipe oracle)
        simp only at c1 c2 c3 c4 c5
        have e1 : s2.state = setup_state.SETUP_FLUSHED := by rw [b1, c1, d1]; rfl
        have e2 : s2.scene = none := by rw [b2, c2, d2]; rfl
        have e3 : s2.fs.stored = none := by rw [b3, c3, d3]; rfl
        have e4 : s2.constants = List.replicate h.LP_MAX_TGSI_CONST_BUFFERS
            { current := null_constant_buffer, stored_size := 0, stored_data := none } := by
          rw [b4, c4, d4]; rfl
        have e5 : phase_of_trace s2.trace = some scene_phase.idle := by
          rw [b5, c5, d5]
          rfl
        rw [← hc]
        refine ⟨⟨?_, ?_⟩, ?_⟩
        · show phase_of_trace s2.trace = some (match s2.scene with
            | none => scene_phase.idle
            | some sl => scene_phase.owned sl _)
          rw [e5, e2]
        · intro hst
          have hst2 : s2.state = setup_state.SETUP_ACTIVE := hst
          rw [e1] at hst2
          exact setup_state.noConfusion hst2
        · intro _
          refine ⟨rfl, e3, ?_⟩
          intro c hcm
          have hcm2 : c ∈ s2.constants := hcm
          rw [e4] at hcm2
          rw [List.eq_of_mem_replicate hcm2]
          exact ⟨rfl, rfl⟩
    · simp at hc
  · simp at hc

/-- Every context reached from a created one by public operations satisfies the invariants
of the engine. -/
theorem run_public_reachable (h : lp_headers) (num_threads : Nat) (pipe : llvmpipe_context)
    (oracle : List Bool) (ops : List public_op) (s0 t : lp_setup_context)
    (hc : lp_setup_create h num_threads pipe oracle = some s0)
    (hr : run_public h ops s0 = some t) :
    sm_inv t ∧ fence_inv t ∧ unsnapped t ∧ fs_inv t := by
  obtain ⟨q1, q2⟩ := lp_setup_create_start h num_threads pipe oracle s0 hc
  obtain ⟨m, hi⟩ := run_public_moves h ops s0 t hr
    (lp_setup_create_inv h num_threads pipe oracle s0 hc)
  exact ⟨hi, engine_moves_keep h s0 t m
    ⟨q1, q2, lp_setup_create_fs h num_threads pipe oracle s0 hc⟩⟩

/-! ## The hand-over in the sequence of calls -/

theorem phase_defined_before (pre post : List event) (p : scene_phase)
    (hp : phase_of_trace (pre ++ post) = some p) : ∃ q, phase_of_trace pre = some q := by
  induction post using List.reverseRecOn generalizing p with
  | nil =>
    rw [List.append_nil] at hp
    exact ⟨p, hp⟩
  | append_singleton l e ih =>
    rw [← List.append_assoc, phase_of_trace_snoc] at hp
    cases hq : phase_of_trace (pre ++ l) with
    | none =>
      rw [hq] at hp
      exact Option.noConfusion hp
    | some q => exact ih q hq

/-- When the calls lead to an owned scene, the last acquisition was of that scene and no
scene was acquired, released or handed over since; when the scene is fenced, the last
creation of a fence since the acquisition succeeded. -/
theorem owned_trace (tr : List event) (sl : Nat) (f : Bool)
    (hp : phase_of_trace tr = some (scene_phase.owned sl f)) :
    ∃ a b, tr = a ++ event.scene_begin_binning sl :: b ∧
      (∀ e ∈ b, is_handover_event e = false) ∧
      (f = true → ∃ b1 rank b2, b = b1 ++ event.fence_create rank true :: b2 ∧
        ∀ e ∈ b2, is_fence_event e = false) := by
  induction tr using List.reverseRecOn generalizing sl f with
  | nil =>
    have hp2 : some scene_phase.idle = some (scene_phase.owned sl f) := hp
    exact absurd (Option.some.inj hp2) (by intro hx; cases hx)
  | append_singleton tr e ih =>
    rw [phase_of_trace_snoc] at hp
    cases hq : phase_of_trace tr with
    | none =>
      rw [hq] at hp
      exact Option.noConfusion hp
    | some q =>
      rw [hq] at hp
      have hstep : phase_step q e = some (scene_phase.owned sl f) := hp
      have quiet : is_handover_event e = false → is_fence_event e = false →
          phase_step q e = some q →
          ∃ a b, tr ++ [e] = a ++ event.scene_begin_binning sl :: b ∧
            (∀ x ∈ b, is_handover_event x = false) ∧
            (f = true → ∃ b1 rank b2, b = b1 ++ event.fence_create rank true :: b2 ∧
              ∀ x ∈ b2, is_fence_event x = false) := by
        intro h1 h2 h3
        rw [h3] at hstep
        have hq2 : q = scene_phase.owned sl f := Option.some.inj hstep
        rw [hq2] at hq
        obtain ⟨a, b, e1, e2, e3⟩ := ih sl f hq
        refine ⟨a, b ++ [e], by rw [e1]; simp, ?_, ?_⟩
        · intro x hx
          rcases List.mem_append.mp hx with hx | hx
          · exact e2 x hx
          · rw [List.mem_singleton.mp hx]
            exact h1
        · intro hf
          obtain ⟨b1, rank, b2, e4, e5⟩ := e3 hf
          refine ⟨b1, rank, b2 ++ [e], by rw [e4]; simp, ?_⟩
          intro x hx
          rcases List.mem_append.mp hx with hx | hx
          · exact e5 x hx
          · rw [List.mem_singleton.mp hx]
            exact h2
      cases e with
      | scene_begin_binning sl1 =>
        cases q with
        | idle =>
          have e1 : scene_phase.owned sl1 false = scene_phase.owned sl f :=
            Option.some.inj hstep
          injection e1 with e2 e3
          subst e2
          subst e3
          exact ⟨tr, [], rfl, fun _ hx => absurd hx (List.not_mem_nil _),
            fun hf => Bool.noConfusion hf⟩
        | owned _ _ => exact Option.noConfusion hstep
      | fence_create rank ok =>
        cases q with
        | idle => exact Option.noConfusion hstep
        | owned sl0 f0 =>
          have e1 : scene_phase.owned sl0 ok = scene_phase.owned sl f :=
            Option.some.inj hstep
          injection e1 with e2 e3
          subst e2
          subst e3
          obtain ⟨a, b, c1, c2, _⟩ := ih sl0 f0 hq
          refine ⟨a, b ++ [event.fence_create rank ok], by rw [c1]; simp, ?_, ?_⟩
          · intro x hx
            rcases List.mem_append.mp hx with hx | hx
            · exact c2 x hx
            · rw [List.mem_singleton.mp hx]
              rfl
          · intro hf
            subst hf
            exact ⟨b, rank, [], rfl, fun _ hx => absurd hx (List.not_mem_nil _)⟩
      | scene_end_rasterization sl1 =>
        cases q with
        | idle => exact absurd (Option.some.inj hstep) (by intro hx; cases hx)
        | owned sl0 f0 =>
          simp only [phase_step] at hstep
          split at hstep
          · exact absurd (Option.some.inj hstep) (by intro hx; cases hx)
          · exact Option.noConfusion hstep
      | rast_queue_scene sl1 =>
        cases q with
        | idle => exact Option.noConfusion hstep
        | owned sl0 f0 =>
          simp only [phase_step] at hstep
          split at hstep
          · exact absurd (Option.some.inj hstep) (by intro hx; cases hx)
          · exact Option.noConfusion hstep
      | scene_create ok => exact quiet rfl rfl rfl
      | fence_wait slot => exact quiet rfl rfl rfl
      | scene_end_binning slot => exact quiet rfl rfl rfl
      | scene_alloc slot ok => exact quiet rfl rfl rfl
      | add_frag_shader_reference slot variant ok => exact quiet rfl rfl rfl
      | add_resource_reference slot res writeable ok => exact quiet rfl rfl rfl
      | fence_reference pq slot => exact quiet rfl rfl rfl
      | rast_fence pq => exact quiet rfl rfl rfl

/-- In a sequence of calls that is in order, every hand-over of a scene comes after the
acquisition of that scene and a successful creation of a fence, with no acquisition, release
or hand-over in between; after it no scene is owned. -/
theorem queue_after_fence (pre post : List event) (sl : Nat) (p : scene_phase)
    (hp : phase_of_trace (pre ++ event.rast_queue_scene sl :: post) = some p) :
    phase_of_trace (pre ++ [event.rast_queue_scene sl]) = some scene_phase.idle ∧
    ∃ a b1 rank b2,
      pre = a ++ event.scene_begin_binning sl :: (b1 ++ event.fence_create rank true :: b2) ∧
      (∀ e ∈ b1 ++ event.fence_create rank true :: b2, is_handover_event e = false) ∧
      (∀ e ∈ b2, is_fence_event e = false) := by
  have e0 : pre ++ event.rast_queue_scene sl :: post =
      (pre ++ [event.rast_queue_scene sl]) ++ post := by simp
  rw [e0] at hp
  obtain ⟨q, hq⟩ := phase_defined_before _ _ p hp
  have hq0 := hq
  rw [phase_of_trace_snoc] at hq
  cases hpre : phase_of_trace pre with
  | none =>
    rw [hpre] at hq
    exact Option.noConfusion hq
  | some r =>
    rw [hpre] at hq
    have hstep : phase_step r (event.rast_queue_scene sl) = some q := hq
    cases r with
    | idle => exact Option.noConfusion hstep
    | owned sl0 f0 =>
      simp only [phase_step] at hstep
      split at hstep
      · rename_i hc
        obtain ⟨c1, c2⟩ := hc
        subst c1
        subst c2
        have hqi : q = scene_phase.idle := (Option.some.inj hstep).symm
        rw [hqi] at hq0
        obtain ⟨a, b, d1, d2, d3⟩ := owned_trace pre sl true hpre
        obtain ⟨b1, rank, b2, d4, d5⟩ := d3 rfl
        subst d4
        exact ⟨hq0, a, b1, rank, b2, d1, d2, d5⟩
      · exact Option.noConfusion hstep

theorem rasterize_scene_fenced (s t : lp_setup_context)
    (hr : lp_setup_rasterize_scene s = some t) (sl : Nat) :
    scene_fenced t sl = scene_fenced s sl := by
  unfold lp_setup_rasterize_scene at hr
  cases hsc : s.scene with
  | none => simp [hsc] at hr
  | some i =>
    simp only [hsc] at hr
    split at hr
    · simp only [Option.some.injEq] at hr
      rw [← hr]
      exact (frame_step_with_scene i
        (fun sc => { sc with
          num_active_queries := s.active_binned_queries,
          active_queries := s.active_queries.take s.active_binned_queries ++
                            sc.active_queries.drop s.active_binned_queries })
        (fun _ => rfl) s).fenced sl
    · simp at hr

theorem queue_events_two (pre : List event) (sl : Nat) :
    queue_events (pre ++ [event.scene_end_binning sl, event.rast_queue_scene sl]) =
      queue_events pre ++ [sl] := by
  unfold queue_events
  rw [List.filterMap_append]
  rfl

/-- A transition that hands a scene to the rasterizer is a successful transition to FLUSHED
from ACTIVE, or from CLEARED after `execute_clears` succeeded; it hands over the current
scene, once, and that scene has a fence. -/
theorem set_scene_state_queues (h : lp_headers) (s t : lp_setup_context)
    (new_state : setup_state) (b : Bool) (hi : sm_inv s) (hf : fence_inv s)
    (hr : set_scene_state h s new_state = some (b, t))
    (hq : queue_events t.trace ≠ queue_events s.trace) :
    new_state = setup_state.SETUP_FLUSHED ∧ b = true ∧
    (s.state = setup_state.SETUP_ACTIVE ∨
      (s.state = setup_state.SETUP_CLEARED ∧ ∃ s2, execute_clears h s = some (true, s2))) ∧
    ∃ sl, s.scene = some sl ∧ queue_events t.trace = queue_events s.trace ++ [sl] ∧
      scene_fenced t sl = true ∧ t.scene = none := by
  by_cases hsame : s.state = new_state
  · rw [set_scene_state_same h s new_state hsame] at hr
    simp only [Option.some.injEq, Prod.mk.injEq] at hr
    rw [← hr.2] at hq
    exact absurd rfl hq
  · cases b with
    | false => exact absurd (set_scene_state_false h s t new_state hr).2.2.1 hq
    | true =>
      cases new_state with
      | SETUP_CLEARED =>
        obtain ⟨_, s1, ha, ht⟩ := set_scene_state_cleared h s t true hsame hr
        have := (acquire_some h s s1 ha).2.1
        rw [ht] at hq
        exact absurd this hq
      | SETUP_ACTIVE => exact absurd (set_scene_state_active_queue h s t true hr) hq
      | SETUP_FLUSHED =>
        obtain ⟨_, hreset, _, _, _, _, _, sl, pre, hsc, _, htr, hpre⟩ :=
          set_scene_state_flushed_true h s t hsame hr
        have hqe : queue_events t.trace = queue_events s.trace ++ [sl] := by
          rw [htr, queue_events_two, hpre]
        obtain ⟨s1, ha, hsw⟩ := set_scene_state_ne h s _ hsame _ hr
        have hs1 : s1 = s := (acquire_some h s s1 ha).2.2.2.1 hsame
        subst hs1
        unfold set_scene_state_switch at hsw
        simp only at hsw
        by_cases hcl : s1.state = setup_state.SETUP_CLEARED
        · rw [if_pos hcl] at hsw
          cases hb : execute_clears h s1 with
          | none =>
            rw [hb] at hsw
            exact Option.noConfusion hsw
          | some x =>
            obtain ⟨b2, s2⟩ := x
            rw [hb] at hsw
            cases b2 with
            | false =>
              simp only [Option.some.injEq, Prod.mk.injEq] at hsw
              exact Bool.noConfusion hsw.1
            | true =>
              simp only at hsw
              cases hras : lp_setup_rasterize_scene s2 with
              | none =>
                rw [hras] at hsw
                exact Option.noConfusion hsw
              | some s3 =>
                rw [hras] at hsw
                simp only [Option.some.injEq, Prod.mk.injEq, true_and] at hsw
                have hb2 := hb
                unfold execute_clears at hb2
                obtain ⟨sl2, ok, c1, _, _, c4, c5⟩ := begin_binning_phase h s1 s2 true hb2
                rw [hsc] at c1
                have e : sl = sl2 := Option.some.inj c1
                subst e
                have hok : ok = true := c5 rfl
                subst hok
                refine ⟨rfl, rfl, Or.inr ⟨hcl, s2, rfl⟩, sl, hsc, hqe, ?_, hreset.scene⟩
                rw [← hsw]
                show scene_fenced s3 sl = true
                rw [rasterize_scene_fenced s2 s3 hras sl]
                exact c4
        · rw [if_neg hcl] at hsw
          simp only at hsw
          have hact : s1.state = setup_state.SETUP_ACTIVE := by
            cases hst : s1.state with
            | SETUP_FLUSHED => exact absurd hst hsame
            | SETUP_CLEARED => exact absurd hst hcl
            | SETUP_ACTIVE => rfl
          obtain ⟨sl2, c1, c2⟩ := hf.active hact
          rw [hsc] at c1
          have e : sl = sl2 := Option.some.inj c1
          subst e
          cases hras : lp_setup_rasterize_scene s1 with
          | none =>
            rw [hras] at hsw
            exact Option.noConfusion hsw
          | some s3 =>
            rw [hras] at hsw
            simp only [Option.some.injEq, Prod.mk.injEq, true_and] at hsw
            refine ⟨rfl, rfl, Or.inl hact, sl, hsc, hqe, ?_, hreset.scene⟩
            rw [← hsw]
            show scene_fenced s3 sl = true
            rw [rasterize_scene_fenced s1 s3 hras sl]
            exact c2

/-! ## What the snapshot captures -/

theorem block_in_slot_of_scenes {s a : lp_setup_context} (hs : a.scenes = s.scenes)
    (sl serial : Nat) (hb : block_in_slot s sl serial) : block_in_slot a sl serial := by
  unfold block_in_slot at *
  rw [hs]
  exact hb

theorem block_in_slot_with_scene (i : Nat) (f : lp_scene → lp_scene)
    (hf : ∀ sc serial, serial ∈ sc.data → serial ∈ (f sc).data) (s : lp_setup_context)
    (sl serial : Nat) (hb : block_in_slot s sl serial) :
    block_in_slot (with_scene i f s) sl serial := by
  obtain ⟨sc, h1, h2⟩ := hb
  show ∃ sc, (modify_scene f i s.scenes).get? sl = some sc ∧ serial ∈ sc.data
  by_cases e : sl = i
  · subst e
    rw [modify_scene_get, h1]
    exact ⟨f sc, rfl, hf sc serial h2⟩
  · rw [modify_scene_get_ne f i sl e]
    exact ⟨sc, h1, h2⟩

theorem block_in_slot_new (i x : Nat) (s : lp_setup_context) (hlt : i < s.scenes.length) :
    block_in_slot (with_scene i (fun sc => { sc with data := sc.data ++ [x] }) s) i x := by
  show ∃ sc, (modify_scene _ i s.scenes).get? i = some sc ∧ x ∈ sc.data
  rw [modify_scene_get]
  cases hg : s.scenes.get? i with
  | none =>
    rw [List.get?_eq_none] at hg
    omega
  | some sc => exact ⟨_, rfl, by simp⟩

theorem kept_refl (sl : Nat) (s : lp_setup_context) : kept sl s s :=
  ⟨rfl, rfl, rfl, rfl, rfl, rfl, rfl, rfl, fun _ hb => hb, le_refl _⟩

theorem kept_trans {sl : Nat} {s a b : lp_setup_context} (x : kept sl s a) (y : kept sl a b) :
    kept sl s b :=
  ⟨y.scene.trans x.scene, y.len.trans x.len, y.fs.trans x.fs, y.constants.trans x.constants,
   y.blend_color.trans x.blend_color, y.draw_regions.trans x.draw_regions,
   y.dirty.trans x.dirty, y.sources.trans x.sources,
   fun serial hb => y.data serial (x.data serial hb), le_trans x.serial y.serial⟩

theorem kept_of_pool_only {sl : Nat} {s a : lp_setup_context} (hp : pool_only s a)
    (hsc : a.scene = s.scene) (hlen : a.scenes.length = s.scenes.length)
    (hd : ∀ serial, block_in_slot s sl serial → block_in_slot a sl serial)
    (hn : s.next_serial ≤ a.next_serial) : kept sl s a := by
  obtain ⟨_, _, _, e4, e5, _, e7, e8⟩ := pool_only_eq hp
  unfold pool_only at hp
  refine ⟨hsc, hlen, e4, e7, e8, ?_, e5, ?_, hd, hn⟩
  · rw [hp]
  · unfold snapshot_sources
    rw [hp]

theorem kept_take_oracle (sl : Nat) (s : lp_setup_context) : kept sl s (take_oracle s).2 := by
  unfold take_oracle
  split
  · exact kept_refl sl s
  · exact ⟨rfl, rfl, rfl, rfl, rfl, rfl, rfl, rfl, fun _ hb => hb, le_refl _⟩

theorem kept_record (sl : Nat) (e : event) (s : lp_setup_context) : kept sl s (record e s) :=
  ⟨rfl, rfl, rfl, rfl, rfl, rfl, rfl, rfl, fun _ hb => hb, le_refl _⟩

theorem kept_with_scene (sl i : Nat) (f : lp_scene → lp_scene)
    (hf : ∀ sc serial, serial ∈ sc.data → serial ∈ (f sc).data) (s : lp_setup_context) :
    kept sl s (with_scene i f s) :=
  ⟨rfl, modify_scene_length f i s.scenes, rfl, rfl, rfl, rfl, rfl, rfl,
   fun serial hb => block_in_slot_with_scene i f hf s sl serial hb, le_refl _⟩

/-- An allocation keeps every snapshot; the block it hands out is a new one and belongs to
the scene. -/
theorem lp_scene_alloc_kept (sl i : Nat) (s : lp_setup_context) :
    kept sl s (lp_scene_alloc i s).2 ∧
    (∀ serial, (lp_scene_alloc i s).1 = some serial → i < s.scenes.length →
      s.next_serial ≤ serial ∧ block_in_slot (lp_scene_alloc i s).2 i serial) := by
  unfold lp_scene_alloc
  have h1 := kept_take_oracle sl s
  generalize take_oracle s = r at h1 ⊢
  obtain ⟨ok, s1⟩ := r
  cases ok with
  | false =>
    refine ⟨kept_trans h1 (kept_record sl _ s1), ?_⟩
    intro serial hx
    simp at hx
  | true =>
    simp only [if_true]
    refine ⟨kept_trans h1 (kept_trans (kept_record sl _ s1) (kept_trans
      (⟨rfl, rfl, rfl, rfl, rfl, rfl, rfl, rfl, fun _ hb => hb, Nat.le_succ _⟩ :
        kept sl (record (event.scene_alloc i true) s1)
          { record (event.scene_alloc i true) s1 with
            next_serial := (record (event.scene_alloc i true) s1).next_serial + 1 })
      (kept_with_scene sl i
        (fun sc => { sc with data := sc.data ++ [(record (event.scene_alloc i true) s1).next_serial] })
        (fun sc serial hm => List.mem_append_left _ hm) _))), ?_⟩
    intro serial hx hlt
    simp only [Option.some.injEq] at hx
    subst hx
    have hl : i < s1.scenes.length := by rw [h1.len]; exact hlt
    exact ⟨h1.serial, block_in_slot_new i _ _ hl⟩

theorem kept_bin_everywhere (sl i : Nat) (cmd : lp_rast_cmd) (s : lp_setup_context) :
    kept sl s (lp_scene_bin_everywhere i cmd s).2 := by
  unfold lp_scene_bin_everywhere
  cases s.scenes.get? i with
  | none => exact kept_refl sl s
  | some sc =>
    exact kept_trans
      (⟨rfl, rfl, rfl, rfl, rfl, rfl, rfl, rfl, fun _ hb => hb, le_refl _⟩ :
        kept sl s { s with oracle := (bin_everywhere_loop cmd sc.bins s.oracle).2.2 })
      (kept_with_scene sl i
        (fun c => { c with bins := (bin_everywhere_loop cmd sc.bins s.oracle).2.1 })
        (fun _ _ hm => hm) _)

theorem kept_add_frag_shader_reference (sl i variant : Nat) (s : lp_setup_context) :
    kept sl s (lp_scene_add_frag_shader_reference i variant s).2 := by
  unfold lp_scene_add_frag_shader_reference
  have h1 := kept_take_oracle sl s
  generalize take_oracle s = r at h1 ⊢
  obtain ⟨ok, s1⟩ := r
  cases ok with
  | false => exact kept_trans h1 (kept_record sl _ s1)
  | true =>
    simp only [if_true]
    exact kept_trans h1 (kept_trans (kept_record sl _ s1)
      (kept_with_scene sl i (fun sc => { sc with frag_shaders := sc.frag_shaders ++ [variant] })
        (fun _ _ hm => hm) _))

theorem kept_add_resource_reference (sl i res : Nat) (w : Bool) (s : lp_setup_context) :
    kept sl s (lp_scene_add_resource_reference i res w s).2 := by
  unfold lp_scene_add_resource_reference
  have h1 := kept_take_oracle sl s
  generalize take_oracle s = r at h1 ⊢
  obtain ⟨ok, s1⟩ := r
  cases ok with
  | false => exact kept_trans h1 (kept_record sl _ s1)
  | true =>
    simp only [if_true]
    exact kept_trans h1 (kept_trans (kept_record sl _ s1)
      (kept_with_scene sl i (fun sc => { sc with resources := sc.resources ++ [(res, w)] })
        (fun _ _ hm => hm) _))

theorem kept_begin_binning_clear_color (sl i n cbuf : Nat) (s : lp_setup_context) :
    kept sl s (begin_binning_clear_color i n cbuf s).2 := by
  induction n generalizing cbuf s with
  | zero => exact kept_refl sl s
  | succ n ih =>
    unfold begin_binning_clear_color
    split
    · have h1 := (lp_scene_alloc_kept sl i s).1
      generalize lp_scene_alloc i s = r at h1 ⊢
      obtain ⟨o, s1⟩ := r
      cases o with
      | none => exact h1
      | some p =>
        dsimp only
        have h2 := kept_bin_everywhere sl i
          (lp_rast_cmd.LP_RAST_OP_CLEAR_COLOR cbuf (s1.clear.color_val.getD cbuf 0)) s1
        split
        · exact kept_trans h1 (kept_trans h2 (ih _ _))
        · exact kept_trans h1 h2
    · exact ih _ s

theorem kept_begin_binning_clears (sl i : Nat) (s : lp_setup_context) :
    kept sl s (begin_binning_clears i s).2 := by
  unfold begin_binning_clears
  have h1 : kept sl s (if s.clear.flags &&& PIPE_CLEAR_COLOR ≠ 0 then
      begin_binning_clear_color i s.fb.nr_cbufs 0 s else (true, s)).2 := by
    split
    · exact kept_begin_binning_clear_color sl i _ _ s
    · exact kept_refl sl s
  generalize (if s.clear.flags &&& PIPE_CLEAR_COLOR ≠ 0 then
      begin_binning_clear_color i s.fb.nr_cbufs 0 s else (true, s)) = r1 at h1 ⊢
  obtain ⟨ok1, s1⟩ := r1
  cases ok1 with
  | false => exact h1
  | true =>
    dsimp only
    simp only [if_true]
    have h2 : kept sl s1 (if s1.fb.zsbuf.isSome &&
        decide (s1.clear.flags &&& PIPE_CLEAR_DEPTHSTENCIL ≠ 0) then
        lp_scene_bin_everywhere i
          (lp_rast_cmd.LP_RAST_OP_CLEAR_ZSTENCIL s1.clear.zsvalue s1.clear.zsmask) s1
      else (true, s1)).2 := by
      split
      · exact kept_bin_everywhere sl i _ s1
      · exact kept_refl sl s1
    generalize (if s1.fb.zsbuf.isSome &&
        decide (s1.clear.flags &&& PIPE_CLEAR_DEPTHSTENCIL ≠ 0) then
        lp_scene_bin_everywhere i
          (lp_rast_cmd.LP_RAST_OP_CLEAR_ZSTENCIL s1.clear.zsvalue s1.clear.zsmask) s1
      else (true, s1)) = r2 at h2 ⊢
    obtain ⟨ok2, s2⟩ := r2
    dsimp only at h1 h2
    cases ok2 with
    | false => exact kept_trans h1 h2
    | true =>
      simp only [if_true]
      exact kept_trans h1 (kept_trans h2 (kept_trans
        (⟨rfl, rfl, rfl, rfl, rfl, rfl, rfl, rfl, fun _ hb => hb, le_refl _⟩ :
          kept sl s2 { s2 with clear := { s2.clear with flags := 0, zsmask := 0, zsvalue := 0 } })
        (kept_with_scene sl i
          (fun sc => { sc with had_queries := decide (s2.active_binned_queries ≠ 0) })
          (fun _ _ hm => hm) _)))

/-! What a step that keeps the snapshots does to the capture predicates. -/

theorem in_current_scene_kept {sl : Nat} {s a : lp_setup_context} (k : kept sl s a)
    (hsc : s.scene = some sl) (serial : Nat) (hb : in_current_scene s serial) :
    in_current_scene a serial := by
  obtain ⟨sl1, h1, h2⟩ := hb
  rw [hsc] at h1
  have e : sl = sl1 := Option.some.inj h1
  subst e
  exact ⟨sl, by rw [k.scene]; exact hsc, k.data serial h2⟩

theorem fs_captured_of_fs {h : lp_headers} {s a : lp_setup_context} (hfs : a.fs = s.fs)
    (hc : fs_captured h s) : fs_captured h a := by
  unfold fs_captured at *
  rw [hfs]
  exact hc

theorem sources_ssbos {s a : lp_setup_context}
    (hs : snapshot_sources a = snapshot_sources s) : a.ssbos = s.ssbos :=
  congrArg (fun p => p.1) hs

theorem sources_scissor {s a : lp_setup_context}
    (hs : snapshot_sources a = snapshot_sources s) :
    a.scissors = s.scissors ∧ a.scissor_test = s.scissor_test ∧
    a.framebuffer = s.framebuffer ∧ a.vpwh = s.vpwh ∧
    a.permit_linear_rasterizer = s.permit_linear_rasterizer ∧
    a.point_tri_clip = s.point_tri_clip :=
  ⟨congrArg (fun p => p.2.2.2.2.2.1) hs, congrArg (fun p => p.2.2.2.2.2.2.1) hs,
   congrArg (fun p => p.2.2.2.2.2.2.2.1) hs, congrArg (fun p => p.2.2.2.2.2.2.2.2.1) hs,
   congrArg (fun p => p.2.2.2.2.2.2.2.2.2.1) hs,
   congrArg (fun p => p.2.2.2.2.2.2.2.2.2.2.1) hs⟩

theorem sources_pipe {s a : lp_setup_context}
    (hs : snapshot_sources a = snapshot_sources s) : a.pipe = s.pipe :=
  congrArg (fun p => p.2.2.2.2.2.2.2.2.2.2.2.1) hs

theorem sources_viewports {s a : lp_setup_context}
    (hs : snapshot_sources a = snapshot_sources s) : a.viewports = s.viewports :=
  congrArg (fun p => p.2.2.2.2.1) hs

theorem sources_bindings {s a : lp_setup_context}
    (hs : snapshot_sources a = snapshot_sources s) :
    a.ssbo_write_mask = s.ssbo_write_mask ∧ a.images = s.images ∧
    a.fs.current_tex = s.fs.current_tex ∧ a.blend_color.current = s.blend_color.current ∧
    a.fs.current.variant = s.fs.current.variant :=
  ⟨congrArg (fun p => p.2.1) hs, congrArg (fun p => p.2.2.1) hs,
   congrArg (fun p => p.2.2.2.1) hs, congrArg (fun p => p.2.2.2.2.2.2.2.2.2.2.2.2.1) hs,
   congrArg (fun p => p.2.2.2.2.2.2.2.2.2.2.2.2.2) hs⟩

theorem draw_regions_spec_congr (h : lp_headers) {s a : lp_setup_context}
    (hs : snapshot_sources a = snapshot_sources s) :
    draw_regions_spec h a = draw_regions_spec h s := by
  obtain ⟨e1, e2, e3, e4, e5, e6⟩ := sources_scissor hs
  unfold draw_regions_spec
  rw [e1, e2, e3, e4, e5, e6]

/-- A step that keeps the snapshots keeps what is captured. -/
theorem captured_kept (h : lp_headers) (lo : Nat) {sl : Nat} {s a : lp_setup_context}
    (k : kept sl s a) (hsc : s.scene = some sl) :
    (fs_captured h s → fs_captured h a) ∧
    (viewports_captured h lo s → viewports_captured h lo a) ∧
    (blend_color_captured h lo s → blend_color_captured h lo a) ∧
    (constants_captured h s → constants_captured h a) ∧
    (ssbos_captured h s → ssbos_captured h a) ∧
    (s.draw_regions = draw_regions_spec h s → a.draw_regions = draw_regions_spec h a) ∧
    (snapshot_in_scene s → snapshot_in_scene a) := by
  have hfs : fs_captured h s → fs_captured h a := fs_captured_of_fs k.fs
  refine ⟨hfs, ?_, ?_, ?_, ?_, ?_, ?_⟩
  · rintro ⟨c1, serial, c0, c2, c3⟩
    exact ⟨hfs c1, serial, c0, in_current_scene_kept k hsc serial c2, by rw [k.fs]; exact c3⟩
  · rintro ⟨c1, serial, c0, c2, c3, c4, c5⟩
    exact ⟨hfs c1, serial, c0, in_current_scene_kept k hsc serial c2,
      by rw [k.blend_color]; exact c3, by rw [k.fs]; exact c4, by rw [k.fs]; exact c5⟩
  · intro hc i c hg
    rw [k.constants] at hg
    obtain ⟨c1, c2⟩ := hc i c hg
    exact ⟨hfs c1, by rw [k.fs]; exact c2⟩
  · intro hc i b hg
    rw [sources_ssbos k.sources] at hg
    obtain ⟨c1, c2⟩ := hc i b hg
    exact ⟨hfs c1, by rw [k.fs]; exact c2⟩
  · intro hd
    rw [k.draw_regions, draw_regions_spec_congr h k.sources]
    exact hd
  · rintro ⟨c1, c2⟩
    refine ⟨?_, ?_⟩
    · intro st hst
      rw [k.fs] at hst
      exact in_current_scene_kept k hsc _ (c1 st hst)
    · intro c hc sd hsd
      rw [k.constants] at hc
      exact in_current_scene_kept k hsc _ (c2 c hc sd hsd)

theorem lor_land_disjoint (x m bit : Nat) (hm : m &&& bit = 0) :
    (x ||| m) &&& bit = x &&& bit := by
  rw [Nat.land_comm, Nat.and_or_distrib_left, Nat.land_comm bit m, hm, Nat.or_zero,
    Nat.land_comm]

theorem lor_fs_land_fs (x : Nat) : (x ||| LP_SETUP_NEW_FS) &&& LP_SETUP_NEW_FS ≠ 0 := by
  rw [lor_land_self]
  decide

theorem capture_frame_of_kept {sl : Nat} {s a : lp_setup_context} (v b c sb : Bool)
    (k : kept sl s a) : capture_frame sl v b c sb s a :=
  ⟨k.scene, k.len, k.sources, k.data, fun _ hx => by rw [k.dirty]; exact hx,
   fun _ _ _ hx => by rw [← k.dirty]; exact hx, fun _ hx => by rw [← k.dirty]; exact hx,
   Or.inl (by rw [k.fs]), by rw [k.fs], k.draw_regions, fun _ => by rw [k.fs],
   fun _ => ⟨by rw [k.blend_color], by rw [k.fs], by rw [k.fs]⟩,
   fun _ => ⟨k.constants, by rw [k.fs]⟩, fun _ => by rw [k.fs], k.serial⟩

theorem capture_frame_refl (sl : Nat) (v b c sb : Bool) (s : lp_setup_context) :
    capture_frame sl v b c sb s s :=
  capture_frame_of_kept v b c sb (kept_refl sl s)

theorem capture_frame_trans {sl : Nat} {v b c sb : Bool} {s a a2 : lp_setup_context}
    (x : capture_frame sl v b c sb s a) (y : capture_frame sl v b c sb a a2) :
    capture_frame sl v b c sb s a2 := by
  refine ⟨y.scene.trans x.scene, y.len.trans x.len, y.sources.trans x.sources,
    fun serial hb => y.data serial (x.data serial hb),
    fun bit hx => y.dirty_up bit (x.dirty_up bit hx),
    fun bit h1 h2 hx => x.dirty_down bit h1 h2 (y.dirty_down bit h1 h2 hx),
    fun hc hx => x.dirty_constants hc (y.dirty_constants hc hx), ?_,
    y.stored.trans x.stored, y.regions.trans x.regions,
    fun hv => (y.viewports hv).trans (x.viewports hv),
    fun hb => ⟨(y.blend hb).1.trans (x.blend hb).1, (y.blend hb).2.1.trans (x.blend hb).2.1,
      (y.blend hb).2.2.trans (x.blend hb).2.2⟩,
    fun hc => ⟨(y.constants hc).1.trans (x.constants hc).1,
      (y.constants hc).2.trans (x.constants hc).2⟩,
    fun hs => (y.ssbos hs).trans (x.ssbos hs), le_trans x.serial y.serial⟩
  rcases y.current with h1 | h1
  · rcases x.current with h2 | h2
    · exact Or.inl (h1.trans h2)
    · exact Or.inr (y.dirty_up _ h2)
  · exact Or.inr h1

theorem capture_frame_weaken {sl : Nat} {v b c sb v1 b1 c1 sb1 : Bool}
    {s a : lp_setup_context} (x : capture_frame sl v b c sb s a)
    (hv : v1 = false → v = false) (hb : b1 = false → b = false)
    (hc : c1 = false → c = false) (hs : sb1 = false → sb = false) :
    capture_frame sl v1 b1 c1 sb1 s a :=
  ⟨x.scene, x.len, x.sources, x.data, x.dirty_up, x.dirty_down,
   fun h1 => x.dirty_constants (hc h1), x.current, x.stored, x.regions,
   fun h1 => x.viewports (hv h1), fun h1 => x.blend (hb h1), fun h1 => x.constants (hc h1),
   fun h1 => x.ssbos (hs h1), x.serial⟩

/-- A write to the current JIT context followed by `setup->dirty |= LP_SETUP_NEW_FS`. -/
theorem capture_frame_jit (sl : Nat) (v b c sb : Bool) (f : lp_jit_context → lp_jit_context)
    (hv : v = false → ∀ j, (f j).viewports = j.viewports)
    (hb : b = false → ∀ j, (f j).u8_blend_color = j.u8_blend_color ∧
      (f j).f_blend_color = j.f_blend_color)
    (hc : c = false → ∀ j, (f j).constants = j.constants)
    (hs : sb = false → ∀ j, (f j).ssbos = j.ssbos) (s : lp_setup_context) :
    capture_frame sl v b c sb s (mark_dirty LP_SETUP_NEW_FS (with_jit f s)) :=
  ⟨rfl, rfl, rfl, fun _ hx => hx, fun bit hx => dirty_bit_mono _ _ bit hx,
   fun bit h1 _ hx => by
     have e : (s.dirty ||| LP_SETUP_NEW_FS) &&& bit = s.dirty &&& bit :=
       lor_land_disjoint _ _ _ h1
     have hx2 : (s.dirty ||| LP_SETUP_NEW_FS) &&& bit ≠ 0 := hx
     rw [e] at hx2
     exact hx2,
   fun _ hx => by
     have e : (s.dirty ||| LP_SETUP_NEW_FS) &&& LP_SETUP_NEW_CONSTANTS =
         s.dirty &&& LP_SETUP_NEW_CONSTANTS := lor_land_disjoint _ _ _ (by decide)
     have hx2 : (s.dirty ||| LP_SETUP_NEW_FS) &&& LP_SETUP_NEW_CONSTANTS ≠ 0 := hx
     rw [e] at hx2
     exact hx2,
   Or.inr (lor_fs_land_fs s.dirty), rfl, rfl,
   fun h1 => hv h1 _, fun h1 => ⟨rfl, (hb h1 _).1, (hb h1 _).2⟩, fun h1 => ⟨rfl, hc h1 _⟩,
   fun h1 => hs h1 _, le_refl _⟩

/-- The viewport block. -/
theorem update_viewports_frame (sl : Nat) (s : lp_setup_context) :
    capture_frame sl true false false false s (update_viewports sl s).2 ∧
    ((update_viewports sl s).1 = true → s.dirty &&& LP_SETUP_NEW_VIEWPORTS ≠ 0 →
      sl < s.scenes.length →
      (update_viewports sl s).2.dirty &&& LP_SETUP_NEW_FS ≠ 0 ∧
      ∃ serial, s.next_serial ≤ serial ∧ block_in_slot (update_viewports sl s).2 sl serial ∧
        (update_viewports sl s).2.fs.current.jit_context.viewports =
          data_ptr.arena serial 0) ∧
    (¬ s.dirty &&& LP_SETUP_NEW_VIEWPORTS ≠ 0 → (update_viewports sl s).2 = s) := by
  obtain ⟨h1, h2⟩ := lp_scene_alloc_kept sl sl s
  unfold update_viewports
  split
  · rename_i hd
    generalize lp_scene_alloc sl s = r at h1 h2 ⊢
    obtain ⟨p, s1⟩ := r
    cases p with
    | none =>
      exact ⟨capture_frame_of_kept _ _ _ _ h1, fun hx => Bool.noConfusion hx,
        fun hn => absurd hd hn⟩
    | some stored =>
      refine ⟨capture_frame_trans (capture_frame_of_kept _ _ _ _ h1)
        (capture_frame_jit sl true false false false
          (fun j => { j with viewports := data_ptr.arena stored 0 })
          (fun hx => Bool.noConfusion hx) (fun _ _ => ⟨rfl, rfl⟩) (fun _ _ => rfl)
          (fun _ _ => rfl) s1), ?_, fun hn => absurd hd hn⟩
      intro _ _ hlt
      exact ⟨lor_fs_land_fs s1.dirty, stored, (h2 stored rfl hlt).1, (h2 stored rfl hlt).2, rfl⟩
  · rename_i hd
    exact ⟨capture_frame_refl sl _ _ _ _ s, fun _ hx => absurd hx hd, fun _ => rfl⟩

/-- The blend-colour block. -/
theorem update_blend_color_frame (sl : Nat) (s : lp_setup_context) :
    capture_frame sl false true false false s (update_blend_color sl s).2 ∧
    ((update_blend_color sl s).1 = true → s.dirty &&& LP_SETUP_NEW_BLEND_COLOR ≠ 0 →
      sl < s.scenes.length →
      (update_blend_color sl s).2.dirty &&& LP_SETUP_NEW_FS ≠ 0 ∧
      ∃ serial, s.next_serial ≤ serial ∧ block_in_slot (update_blend_color sl s).2 sl serial ∧
        (update_blend_color sl s).2.blend_color.stored = some serial ∧
        (update_blend_color sl s).2.fs.current.jit_context.u8_blend_color =
          data_ptr.arena serial 0 ∧
        (update_blend_color sl s).2.fs.current.jit_context.f_blend_color =
          data_ptr.arena serial (4 * 16)) ∧
    (¬ s.dirty &&& LP_SETUP_NEW_BLEND_COLOR ≠ 0 → (update_blend_color sl s).2 = s) := by
  obtain ⟨h1, h2⟩ := lp_scene_alloc_kept sl sl s
  unfold update_blend_color
  split
  · rename_i hd
    generalize lp_scene_alloc sl s = r at h1 h2 ⊢
    obtain ⟨p, s1⟩ := r
    cases p with
    | none =>
      exact ⟨capture_frame_of_kept _ _ _ _ h1, fun hx => Bool.noConfusion hx,
        fun hn => absurd hd hn⟩
    | some stored =>
      have hmid : capture_frame sl false true false false s1
          { s1 with blend_color := { s1.blend_color with stored := some stored } } :=
        ⟨rfl, rfl, rfl, fun _ hx => hx, fun _ hx => hx, fun _ _ _ hx => hx, fun _ hx => hx,
         Or.inl rfl, rfl, rfl, fun _ => rfl, fun hx => Bool.noConfusion hx,
         fun _ => ⟨rfl, rfl⟩, fun _ => rfl, le_refl _⟩
      refine ⟨capture_frame_trans (capture_frame_of_kept _ _ _ _ h1)
        (capture_frame_trans hmid
          (capture_frame_jit sl false true false false
            (fun j => { j with u8_blend_color := data_ptr.arena stored 0,
                               f_blend_color := data_ptr.arena stored (4 * 16) })
            (fun _ _ => rfl) (fun hx => Bool.noConfusion hx) (fun _ _ => rfl)
            (fun _ _ => rfl) _)), ?_, fun hn => absurd hd hn⟩
      intro _ _ hlt
      exact ⟨lor_fs_land_fs s1.dirty, stored, (h2 stored rfl hlt).1, (h2 stored rfl hlt).2,
        rfl, rfl, rfl⟩
  · rename_i hd
    exact ⟨capture_frame_refl sl _ _ _ _ s, fun _ hx => absurd hx hd, fun _ => rfl⟩

/-- The refresh of the constant bindings from the pipe context. -/
theorem set_fs_constants_frame (sl n : Nat) (bufs : List pipe_constant_buffer)
    (s : lp_setup_context) :
    capture_frame sl false false true false s (lp_setup_set_fs_constants n bufs s) ∧
    (lp_setup_set_fs_constants n bufs s).dirty &&& LP_SETUP_NEW_CONSTANTS ≠ 0 ∧
    (lp_setup_set_fs_constants n bufs s).fs = s.fs := by
  refine ⟨⟨rfl, rfl, rfl, fun _ hx => hx, fun bit hx => dirty_bit_mono _ _ bit hx,
    fun bit _ h2 hx => ?_, fun hx => Bool.noConfusion hx, Or.inl rfl, rfl, rfl, fun _ => rfl,
    fun _ => ⟨rfl, rfl, rfl⟩, fun hx => Bool.noConfusion hx, fun _ => rfl, le_refl _⟩, ?_,
    rfl⟩
  · have e : (s.dirty ||| LP_SETUP_NEW_CONSTANTS) &&& bit = s.dirty &&& bit :=
      lor_land_disjoint _ _ _ h2
    have hx2 : (s.dirty ||| LP_SETUP_NEW_CONSTANTS) &&& bit ≠ 0 := hx
    rw [e] at hx2
    exact hx2
  · show (s.dirty ||| LP_SETUP_NEW_CONSTANTS) &&& LP_SETUP_NEW_CONSTANTS ≠ 0
    rw [lor_land_self]
    decide

theorem ssbo_jit_buffer_eq (h : lp_headers) (b : pipe_shader_buffer) :
    ssbo_jit_buffer h b = ssbo_entry_spec h b := by
  unfold ssbo_jit_buffer ssbo_entry_spec
  cases b.buffer with
  | none => rfl
  | some buffer =>
    dsimp only
    cases h.llvmpipe_resource_data buffer with
    | none => rfl
    | some d => rfl

/-- The SSBO block. -/
theorem update_ssbos_frame (h : lp_headers) (sl : Nat) (s : lp_setup_context) :
    capture_frame sl false false false true s (update_ssbos h s) ∧
    (s.dirty &&& LP_SETUP_NEW_SSBOS ≠ 0 → ∀ i b, s.ssbos.get? i = some b →
      (update_ssbos h s).dirty &&& LP_SETUP_NEW_FS ≠ 0 ∧
      (update_ssbos h s).fs.current.jit_context.ssbos.get? i =
        some (ssbo_entry_spec h b)) ∧
    (¬ s.dirty &&& LP_SETUP_NEW_SSBOS ≠ 0 → update_ssbos h s = s) := by
  unfold update_ssbos
  split
  · rename_i hd
    cases hs : s.ssbos with
    | nil =>
      refine ⟨capture_frame_refl sl _ _ _ _ s, ?_, fun hn => absurd hd hn⟩
      intro _ i b hg
      simp at hg
    | cons b0 rest =>
      refine ⟨capture_frame_jit sl false false false true
        (fun j => { j with ssbos := (b0 :: rest).map (ssbo_jit_buffer h) })
        (fun _ _ => rfl) (fun _ _ => ⟨rfl, rfl⟩) (fun _ _ => rfl)
        (fun hx => Bool.noConfusion hx) s, ?_, fun hn => absurd hd hn⟩
      intro _ i b hg
      refine ⟨lor_fs_land_fs s.dirty, ?_⟩
      show ((b0 :: rest).map (ssbo_jit_buffer h)).get? i = _
      rw [List.get?_eq_getElem?, List.getElem?_map, ← List.get?_eq_getElem?, hg]
      show some (ssbo_jit_buffer h b) = _
      rw [ssbo_jit_buffer_eq]
  · rename_i hd
    exact ⟨capture_frame_refl sl _ _ _ _ s, fun hx => absurd hx hd, fun _ => rfl⟩

/-- The end of an iteration of the constants loop. -/
theorem finish_constant_frame (h : lp_headers) (sl i : Nat) (c1 : constants_state)
    (p : data_ptr) (s : lp_setup_context) :
    capture_frame sl false false true false s (finish_constant h i c1 p s) ∧
    (finish_constant h i c1 p s).dirty &&& LP_SETUP_NEW_FS ≠ 0 := by
  unfold finish_constant
  have hmid : capture_frame sl false false true false s
      { s with constants := s.constants.set i c1 } :=
    ⟨rfl, rfl, rfl, fun _ hx => hx, fun _ hx => hx, fun _ _ _ hx => hx,
     fun hx => Bool.noConfusion hx, Or.inl rfl, rfl, rfl, fun _ => rfl,
     fun _ => ⟨rfl, rfl, rfl⟩, fun hx => Bool.noConfusion hx, fun _ => rfl, le_refl _⟩
  exact ⟨capture_frame_trans hmid
    (capture_frame_jit sl false false true false
      (fun j => { j with constants := j.constants.set i ⟨p, DIV_ROUND_UP c1.stored_size h.lp_get_constant_buffer_stride⟩ })
      (fun _ _ => rfl) (fun _ _ => ⟨rfl, rfl⟩) (fun hx => Bool.noConfusion hx)
      (fun _ _ => rfl) _), lor_fs_land_fs _⟩

theorem constants_in_slot_finish (h : lp_headers) (sl i : Nat) (c1 : constants_state)
    (p : data_ptr) (s : lp_setup_context) (hp : constants_in_slot sl s)
    (h1 : ∀ sd, c1.stored_data = some sd → block_in_slot s sl sd.1) :
    constants_in_slot sl (finish_constant h i c1 p s) := by
  intro c hc sd hsd
  have hc2 : c ∈ s.constants.set i c1 := hc
  have hb : block_in_slot s sl sd.1 := by
    rcases List.mem_or_eq_of_mem_set hc2 with hm | hm
    · exact hp c hm sd hsd
    · subst hm
      exact h1 sd hsd
  exact block_in_slot_of_scenes rfl sl sd.1 hb

/-- One iteration of the constants loop. -/
theorem update_constant_frame (h : lp_headers) (sl i : Nat) (c : constants_state)
    (s : lp_setup_context) :
    capture_frame sl false false true false s (update_constant h sl i c s).2 ∧
    ((update_constant h sl i c s).1 = true →
      (update_constant h sl i c s).2.dirty &&& LP_SETUP_NEW_FS ≠ 0) ∧
    (sl < s.scenes.length → s.constants.get? i = some c → constants_in_slot sl s →
      constants_in_slot sl (update_constant h sl i c s).2) := by
  obtain ⟨h1, h2⟩ := lp_scene_alloc_kept sl sl s
  have hself : s.constants.get? i = some c → constants_in_slot sl s →
      ∀ sd, c.stored_data = some sd → block_in_slot s sl sd.1 := by
    intro hg hp sd hsd
    exact hp c (List.get?_mem hg) sd hsd
  unfold update_constant
  dsimp only
  split
  · split
    · split
      · generalize lp_scene_alloc sl s = r at h1 h2 ⊢
        obtain ⟨o, s1⟩ := r
        cases o with
        | none =>
          refine ⟨capture_frame_of_kept _ _ _ _ h1, fun hx => Bool.noConfusion hx, ?_⟩
          intro _ _ hp c0 hc0 sd hsd
          have hc1 : c0 ∈ s.constants := by
            have := h1.constants
            dsimp only at this
            rw [← this]
            exact hc0
          exact h1.data sd.1 (hp c0 hc1 sd hsd)
        | some stored =>
          dsimp only
          obtain ⟨f1, f2⟩ := finish_constant_frame h sl i
            { c with stored_size := min c.current.buffer_size h.LP_MAX_TGSI_CONST_BUFFER_SIZE,
                     stored_data := some (stored,
                       (List.drop c.current.buffer_offset _).take
                         (min c.current.buffer_size h.LP_MAX_TGSI_CONST_BUFFER_SIZE)) }
            (data_ptr.arena stored 0) s1
          refine ⟨capture_frame_trans (capture_frame_of_kept _ _ _ _ h1) f1, fun _ => f2, ?_⟩
          intro hlt _ hp
          refine constants_in_slot_finish h sl i _ _ s1 ?_ ?_
          · intro c0 hc0 sd hsd
            have hc1 : c0 ∈ s.constants := by
              have := h1.constants
              dsimp only at this
              rw [← this]
              exact hc0
            exact h1.data sd.1 (hp c0 hc1 sd hsd)
          · intro sd hsd
            simp only [Option.some.injEq] at hsd
            rw [← hsd]
            exact (h2 stored rfl hlt).2
      · obtain ⟨f1, f2⟩ := finish_constant_frame h sl i c
          (match c.stored_data with
           | some sd => data_ptr.arena sd.1 0
           | none => data_ptr.null) s
        exact ⟨f1, fun _ => f2, fun _ hg hp =>
          constants_in_slot_finish h sl i _ _ s hp (hself hg hp)⟩
    · obtain ⟨f1, f2⟩ := finish_constant_frame h sl i
        { c with stored_size := 0, stored_data := none } data_ptr.fake_const_buf s
      exact ⟨f1, fun _ => f2, fun _ _ hp =>
        constants_in_slot_finish h sl i _ _ s hp (fun sd hsd => Option.noConfusion hsd)⟩
  · obtain ⟨f1, f2⟩ := finish_constant_frame h sl i
      { c with stored_size := 0, stored_data := none } data_ptr.fake_const_buf s
    exact ⟨f1, fun _ => f2, fun _ _ hp =>
      constants_in_slot_finish h sl i _ _ s hp (fun sd hsd => Option.noConfusion hsd)⟩

theorem update_constants_loop_frame (h : lp_headers) (sl n i : Nat) (s : lp_setup_context) :
    capture_frame sl false false true false s (update_constants_loop h sl n i s).2 ∧
    ((update_constants_loop h sl n i s).1 = true → 0 < n → i < s.constants.length →
      (update_constants_loop h sl n i s).2.dirty &&& LP_SETUP_NEW_FS ≠ 0) ∧
    (sl < s.scenes.length → constants_in_slot sl s →
      constants_in_slot sl (update_constants_loop h sl n i s).2) := by
  induction n generalizing i s with
  | zero =>
    exact ⟨capture_frame_refl sl _ _ _ _ s, fun _ hn => absurd hn (Nat.lt_irrefl 0),
      fun _ hp => hp⟩
  | succ n ih =>
    unfold update_constants_loop
    cases hg : s.constants.get? i with
    | none =>
      refine ⟨capture_frame_refl sl _ _ _ _ s, ?_, fun _ hp => hp⟩
      intro _ _ hi
      rw [List.get?_eq_none] at hg
      omega
    | some c =>
      obtain ⟨f1, f2, f3⟩ := update_constant_frame h sl i c s
      dsimp only
      generalize update_constant h sl i c s = r at f1 f2 f3 ⊢
      obtain ⟨ok, s1⟩ := r
      cases ok with
      | false =>
        simp only [Bool.false_eq_true, if_false]
        exact ⟨f1, fun hx => by simp at hx, fun hlt hp => f3 hlt hg hp⟩
      | true =>
        simp only [if_true]
        obtain ⟨g1, _, g3⟩ := ih (i + 1) s1
        refine ⟨capture_frame_trans f1 g1, fun _ _ _ => g1.dirty_up _ (f2 rfl), ?_⟩
        intro hlt hp
        have hl1 : sl < s1.scenes.length := by
          have := f1.len
          dsimp only at this
          rw [this]
          exact hlt
        exact g3 hl1 (f3 hlt hg hp)

theorem constant_captured_of_outcome (h : lp_headers) (lo : Nat) (c c1 : constants_state)
    (e : lp_jit_buffer) (ho : constant_outcome h lo c c1 e) : constant_captured h c1 e := by
  obtain ⟨o1, o2⟩ := ho
  cases hd : constant_current_data h c.current with
  | none =>
    obtain ⟨e1, e2⟩ := o2 (Or.inl hd)
    subst e1
    subst e2
    refine ⟨?_, fun _ => ⟨rfl, rfl, rfl⟩⟩
    intro data hdata
    have hdata2 : constant_current_data h c.current = some data := hdata
    rw [hd] at hdata2
    exact Option.noConfusion hdata2
  | some data =>
    by_cases hsz : 4 ≤ constant_current_size h c
    · obtain ⟨p1, p2⟩ := o1 data hd hsz
      by_cases hdf : constant_differs h c data
      · obtain ⟨serial, _, e1, e2⟩ := p1 hdf
        subst e1
        subst e2
        refine ⟨?_, ?_⟩
        · intro data2 hdata2 _
          have hdata3 : constant_current_data h c.current = some data2 := hdata2
          rw [hd] at hdata3
          have e3 : data = data2 := Option.some.inj hdata3
          subst e3
          refine ⟨rfl, (serial, constant_current_bytes h c data), rfl, ?_, rfl⟩
          show (constant_current_bytes h c data).take (constant_current_size h c) = _
          unfold constant_current_bytes
          rw [List.take_take, Nat.min_self]
          rfl
        · intro hx
          rcases hx with hx | hx
          · have hx2 : constant_current_data h c.current = none := hx
            rw [hd] at hx2
            exact Option.noConfusion hx2
          · have hx2 : constant_current_size h c < 4 := hx
            omega
      · obtain ⟨e1, sd, e2, e3⟩ := p2 hdf
        rw [e1, e3]
        unfold constant_differs at hdf
        have n1 : c.stored_size = constant_current_size h c := by
          by_contra hx
          exact hdf (Or.inl hx)
        have n3 : sd.2.take (constant_current_size h c) = constant_current_bytes h c data := by
          by_contra hx
          exact hdf (Or.inr (Or.inr ⟨sd, e2, hx⟩))
        refine ⟨?_, ?_⟩
        · intro data2 hdata2 _
          rw [hd] at hdata2
          have e4 : data = data2 := Option.some.inj hdata2
          subst e4
          refine ⟨n1, sd, e2, n3, ?_⟩
          rw [n1]
          rfl
        · intro hx
          rcases hx with hx | hx
          · rw [hd] at hx
            exact Option.noConfusion hx
          · have hx2 : constant_current_size h c < 4 := hx
            omega
    · obtain ⟨e1, e2⟩ := o2 (Or.inr (by omega))
      subst e1
      subst e2
      refine ⟨?_, fun _ => ⟨rfl, rfl, rfl⟩⟩
      intro data2 _ hsz2
      have hsz3 : 4 ≤ constant_current_size h c := hsz2
      exact absurd hsz3 hsz

/-- The constants block. -/
theorem update_constants_frame (h : lp_headers) (sl : Nat) (s : lp_setup_context) :
    capture_frame sl false false true false s (update_constants h sl s).2 ∧
    ((update_constants h sl s).1 = true → s.dirty &&& LP_SETUP_NEW_CONSTANTS ≠ 0 →
      ∀ i c1, (update_constants h sl s).2.constants.get? i = some c1 →
        (update_constants h sl s).2.dirty &&& LP_SETUP_NEW_FS ≠ 0 ∧
        ∀ e, (update_constants h sl s).2.fs.current.jit_context.constants.get? i = some e →
          constant_captured h c1 e) ∧
    (¬ s.dirty &&& LP_SETUP_NEW_CONSTANTS ≠ 0 → (update_constants h sl s).2 = s) ∧
    (sl < s.scenes.length → constants_in_slot sl s →
      constants_in_slot sl (update_constants h sl s).2) := by
  unfold update_constants
  split
  · rename_i hd
    obtain ⟨f1, f2, f3⟩ := update_constants_loop_frame h sl s.constants.length 0 s
    refine ⟨f1, ?_, fun hn => absurd hd hn, f3⟩
    intro hok _ i c1 hg
    have hspec := update_constants_loop_spec h sl s.constants.length 0 s
      (update_constants_loop h sl s.constants.length 0 s).2
      (by rw [← hok])
      (by omega)
    obtain ⟨l1, l2, _, _, l5⟩ := hspec
    have hi : i < s.constants.length := by
      rw [← l1]
      by_contra hx
      rw [List.get?_eq_none.mpr (by omega)] at hg
      exact Option.noConfusion hg
    refine ⟨f2 hok (by omega) (by omega), ?_⟩
    intro e he
    cases hc0 : s.constants.get? i with
    | none =>
      rw [List.get?_eq_none] at hc0
      omega
    | some c0 =>
      obtain ⟨c2, e2, m1, m2, m3⟩ := l5 i c0 (Nat.zero_le i) hc0
      rw [hg] at m1
      have ec : c1 = c2 := Option.some.inj m1
      subst ec
      have hj : i < s.fs.current.jit_context.constants.length := by
        rw [← l2]
        by_contra hx
        rw [List.get?_eq_none.mpr (by omega)] at he
        exact Option.noConfusion he
      have m4 := m2 hj
      rw [he] at m4
      have ee : e = e2 := Option.some.inj m4
      subst ee
      exact constant_captured_of_outcome h _ c0 c1 e m3
  · rename_i hd
    exact ⟨capture_frame_refl sl _ _ _ _ s, fun _ hx => absurd hx hd, fun _ => rfl,
      fun _ hp => hp⟩

theorem kept_add_tex_references (sl i : Nat) (l : List (Option Nat)) (s : lp_setup_context) :
    kept sl s (add_tex_references i l s).2 := by
  induction l generalizing s with
  | nil => exact kept_refl sl s
  | cons x rest ih =>
    cases x with
    | none =>
      unfold add_tex_references
      exact ih s
    | some tex =>
      unfold add_tex_references
      have h1 := kept_add_resource_reference sl i tex false s
      dsimp only
      split
      · exact kept_trans h1 (ih _)
      · exact h1

theorem kept_add_ssbo_references (sl i mask : Nat) (l : List pipe_shader_buffer) (k : Nat)
    (s : lp_setup_context) : kept sl s (add_ssbo_references i mask k l s).2 := by
  induction l generalizing k s with
  | nil => exact kept_refl sl s
  | cons x rest ih =>
    unfold add_ssbo_references
    cases hb : x.buffer with
    | none => exact ih (k + 1) s
    | some buffer =>
      have h1 := kept_add_resource_reference sl i buffer (decide (mask &&& (1 <<< k) ≠ 0)) s
      dsimp only
      split
      · exact kept_trans h1 (ih _ _)
      · exact h1

theorem kept_add_image_references (sl i : Nat) (l : List pipe_image_view)
    (s : lp_setup_context) : kept sl s (add_image_references i l s).2 := by
  induction l generalizing s with
  | nil => exact kept_refl sl s
  | cons x rest ih =>
    unfold add_image_references
    cases hb : x.resource with
    | none => exact ih s
    | some res =>
      have h1 := kept_add_resource_reference sl i res
        (decide (x.shader_access &&& PIPE_IMAGE_ACCESS_WRITE ≠ 0)) s
      dsimp only
      split
      · exact kept_trans h1 (ih _)
      · exact h1

theorem kept_update_fs_references (sl i : Nat) (s : lp_setup_context) :
    kept sl s (update_fs_references i s).2 := by
  unfold update_fs_references
  have h1 := kept_add_tex_references sl i s.fs.current_tex s
  dsimp only
  split
  · have h2 := kept_add_ssbo_references sl i (add_tex_references i s.fs.current_tex s).2.ssbo_write_mask
      (add_tex_references i s.fs.current_tex s).2.ssbos 0
      (add_tex_references i s.fs.current_tex s).2
    split
    · exact kept_trans h1 (kept_trans h2 (kept_add_image_references sl i _ _))
    · exact kept_trans h1 h2
  · exact h1

/-- A step that keeps the snapshots does so whatever record is stored. -/
theorem kept_with_stored {sl : Nat} {s a : lp_setup_context} (k : kept sl s a)
    (y : Option stored_rast_state) :
    kept sl { s with fs := { s.fs with stored := y } }
      { a with fs := { a.fs with stored := y } } :=
  ⟨k.scene, k.len, by rw [k.fs], k.constants, k.blend_color, k.draw_regions, k.dirty,
   k.sources, k.data, k.serial⟩

/-- The body of the fragment-state block once the record was allocated. -/
theorem update_fs_store_frame (h : lp_headers) (sl serial : Nat) (s : lp_setup_context) :
    kept sl { s with fs := { s.fs with stored := (update_fs_store h sl serial s).2.fs.stored } }
      (update_fs_store h sl serial s).2 ∧
    ((update_fs_store h sl serial s).1 = true →
      (update_fs_store h sl serial s).2.fs.stored = some (new_stored_rast_state h serial s)) := by
  unfold update_fs_store
  have h1 := kept_add_frag_shader_reference sl sl s.fs.current.variant s
  generalize lp_scene_add_frag_shader_reference sl s.fs.current.variant s = r at h1 ⊢
  obtain ⟨ok, s1⟩ := r
  cases ok with
  | false =>
    simp only [Bool.false_eq_true, if_false]
    refine ⟨?_, fun hx => by simp at hx⟩
    have e : s1.fs.stored = s.fs.stored := by rw [h1.fs]
    rw [e]
    exact h1
  | true =>
    simp only [if_true]
    have h2 := kept_update_fs_references sl sl
      { s1 with fs := { s1.fs with stored := some (new_stored_rast_state h serial s) } }
    have e : (update_fs_references sl
        { s1 with fs := { s1.fs with stored := some (new_stored_rast_state h serial s) } }).2.fs.stored =
        some (new_stored_rast_state h serial s) := by
      rw [h2.fs]
    refine ⟨?_, fun _ => e⟩
    rw [e]
    exact kept_trans (kept_with_stored h1 (some (new_stored_rast_state h serial s))) h2

/-- The fragment-state block. -/
theorem update_fs_frame (h : lp_headers) (sl : Nat) (s : lp_setup_context) :
    kept sl { s with fs := { s.fs with stored := (update_fs h sl s).2.fs.stored } }
      (update_fs h sl s).2 ∧
    ((update_fs h sl s).1 = true → s.dirty &&& LP_SETUP_NEW_FS ≠ 0 → sl < s.scenes.length →
      ∃ st, (update_fs h sl s).2.fs.stored = some st ∧
        st.val.variant = s.fs.current.variant ∧
        st.val.jit_context =
          { s.fs.current.jit_context with
            aniso_filter_table := st.val.jit_context.aniso_filter_table } ∧
        (st.val.jit_context.aniso_filter_table = h.lp_build_sample_aniso_filter_table ∨
         st.val.jit_context.aniso_filter_table =
           s.fs.current.jit_context.aniso_filter_table) ∧
        ((update_fs h sl s).2.fs.stored = s.fs.stored ∨
         block_in_slot (update_fs h sl s).2 sl st.serial)) ∧
    (¬ s.dirty &&& LP_SETUP_NEW_FS ≠ 0 → (update_fs h sl s).2 = s) := by
  obtain ⟨h1, h2⟩ := lp_scene_alloc_kept sl sl s
  unfold update_fs
  split
  · rename_i hd
    split
    · generalize lp_scene_alloc sl s = r at h1 h2 ⊢
      obtain ⟨o, s1⟩ := r
      cases o with
      | none =>
        dsimp only
        refine ⟨?_, fun hx => by simp at hx, fun hn => absurd hd hn⟩
        have e : s1.fs.stored = s.fs.stored := by
          have := h1.fs
          dsimp only at this
          rw [this]
        rw [e]
        exact h1
      | some serial =>
        dsimp only
        dsimp only at h1 h2
        obtain ⟨g1, g2⟩ := update_fs_store_frame h sl serial s1
        refine ⟨?_, ?_, fun hn => absurd hd hn⟩
        · exact kept_trans (kept_with_stored h1 _) g1
        · intro hok _ hlt
          have e := g2 hok
          refine ⟨new_stored_rast_state h serial s1, e, ?_, ?_, Or.inl rfl, Or.inr ?_⟩
          · show s1.fs.current.variant = _
            rw [h1.fs]
          · show ({ s1.fs.current.jit_context with
                aniso_filter_table := h.lp_build_sample_aniso_filter_table } : lp_jit_context) = _
            rw [h1.fs]
            rfl
          · exact g1.data serial (block_in_slot_of_scenes rfl sl serial (h2 serial rfl hlt).2)
    · rename_i hdf
      refine ⟨kept_refl sl s, ?_, fun hn => absurd hd hn⟩
      intro _ _ _
      unfold fs_differs at hdf
      cases hst : s.fs.stored with
      | none =>
        rw [hst] at hdf
        exact absurd rfl hdf
      | some st =>
        rw [hst] at hdf
        have e : st.val = s.fs.current := by
          by_contra hx
          exact hdf (by simp [hx])
        exact ⟨st, rfl, by rw [e], by rw [e], Or.inr (by rw [e]), Or.inl rfl⟩
  · rename_i hd
    exact ⟨kept_refl sl s, fun _ hx => absurd hx hd, fun _ => rfl⟩

/-- The scissor block and the final `setup->dirty = 0`. -/
theorem update_scissor_frame (h : lp_headers) (e : lp_setup_context) :
    ({ update_scissor h e with dirty := 0 } : lp_setup_context).fs = e.fs ∧
    ({ update_scissor h e with dirty := 0 } : lp_setup_context).scene = e.scene ∧
    ({ update_scissor h e with dirty := 0 } : lp_setup_context).scenes = e.scenes ∧
    ({ update_scissor h e with dirty := 0 } : lp_setup_context).constants = e.constants ∧
    ({ update_scissor h e with dirty := 0 } : lp_setup_context).blend_color = e.blend_color ∧
    snapshot_sources ({ update_scissor h e with dirty := 0 } : lp_setup_context) =
      snapshot_sources e ∧
    (e.dirty &&& LP_SETUP_NEW_SCISSOR ≠ 0 →
      ({ update_scissor h e with dirty := 0 } : lp_setup_context).draw_regions =
        draw_regions_spec h e) ∧
    (¬ e.dirty &&& LP_SETUP_NEW_SCISSOR ≠ 0 →
      ({ update_scissor h e with dirty := 0 } : lp_setup_context).draw_regions =
        e.draw_regions) ∧
    ({ update_scissor h e with dirty := 0 } : lp_setup_context).next_serial =
      e.next_serial := by
  have hv : ∀ x : lp_setup_context, (vp_scissor h x).fs = x.fs ∧
      (vp_scissor h x).scene = x.scene ∧ (vp_scissor h x).scenes = x.scenes ∧
      (vp_scissor h x).constants = x.constants ∧
      (vp_scissor h x).blend_color = x.blend_color ∧
      snapshot_sources (vp_scissor h x) = snapshot_sources x ∧
      (vp_scissor h x).next_serial = x.next_serial := by
    intro x
    unfold vp_scissor
    split
    · split
      · exact ⟨rfl, rfl, rfl, rfl, rfl, rfl, rfl⟩
      · exact ⟨rfl, rfl, rfl, rfl, rfl, rfl, rfl⟩
    · exact ⟨rfl, rfl, rfl, rfl, rfl, rfl, rfl⟩
  have hu : (update_scissor h e).fs = e.fs ∧ (update_scissor h e).scene = e.scene ∧
      (update_scissor h e).scenes = e.scenes ∧ (update_scissor h e).constants = e.constants ∧
      (update_scissor h e).blend_color = e.blend_color ∧
      snapshot_sources (update_scissor h e) = snapshot_sources e ∧
      (update_scissor h e).next_serial = e.next_serial := by
    unfold update_scissor
    split
    · dsimp only
      split
      · exact hv _
      · split
        · exact hv _
        · exact ⟨rfl, rfl, rfl, rfl, rfl, rfl, rfl⟩
    · exact ⟨rfl, rfl, rfl, rfl, rfl, rfl, rfl⟩
  obtain ⟨u1, u2, u3, u4, u5, u6, u7⟩ := hu
  refine ⟨u1, u2, u3, u4, u5, u6, ?_, ?_, u7⟩
  · intro hd
    show (update_scissor h e).draw_regions = _
    unfold update_scissor draw_regions_spec vp_scissor
    rw [if_pos hd]
    dsimp only
    cases hp : e.permit_linear_rasterizer <;> cases hc : e.point_tri_clip <;>
      by_cases hw : e.vpwh = e.framebuffer <;>
      cases hm : e.scissors <;> simp [hw]
  · intro hd
    show (update_scissor h e).draw_regions = _
    unfold update_scissor
    rw [if_neg hd]

/-- The blocks of a call of `try_update_scene_state` that returns TRUE. -/
theorem try_update_blocks (h : lp_headers) (s t : lp_setup_context)
    (hr : try_update_scene_state h s = some (true, t)) :
    ∃ sl a b c e, s.scene = some sl ∧ sl < s.scenes.length ∧
      update_viewports sl s = (true, a) ∧ update_blend_color sl a = (true, b) ∧
      update_constants h sl (if b.pipe.dirty_fs_constants then
          lp_setup_set_fs_constants b.pipe.constants.length b.pipe.constants b
        else b) = (true, c) ∧
      update_fs h sl (update_ssbos h c) = (true, e) ∧
      t = { update_scissor h e with dirty := 0 } := by
  unfold try_update_scene_state at hr
  cases hsc : s.scene with
  | none => simp [hsc] at hr
  | some sl =>
    simp only [hsc] at hr
    split at hr
    · rename_i hlt
      generalize hV : update_viewports sl s = r1 at hr
      obtain ⟨ok1, a⟩ := r1
      cases ok1 with
      | false => simp at hr
      | true =>
        simp only [if_true] at hr
        generalize hB : update_blend_color sl a = r2 at hr
        obtain ⟨ok2, b⟩ := r2
        cases ok2 with
        | false => simp at hr
        | true =>
          simp only [if_true] at hr
          generalize hC : update_constants h sl (if b.pipe.dirty_fs_constants then
              lp_setup_set_fs_constants b.pipe.constants.length b.pipe.constants b
            else b) = r4 at hr
          obtain ⟨ok4, c⟩ := r4
          cases ok4 with
          | false => simp at hr
          | true =>
            simp only [if_true] at hr
            generalize hF : update_fs h sl (update_ssbos h c) = r5 at hr
            obtain ⟨ok5, e⟩ := r5
            cases ok5 with
            | false => simp at hr
            | true =>
              simp only [if_true, Option.some.injEq, Prod.mk.injEq, true_and] at hr
              exact ⟨sl, a, b, c, e, rfl, hlt, hV, hB, hC, hF, hr.symm⟩
    · simp at hr

theorem fs_captured_congr (h : lp_headers) {s a : lp_setup_context}
    (h1 : a.fs.stored = s.fs.stored) (h2 : a.fs.current = s.fs.current)
    (hc : fs_captured h s) : fs_captured h a := by
  unfold fs_captured at *
  rw [h1, h2]
  exact hc

theorem constants_in_slot_frame {sl : Nat} {v b sb : Bool} {s a : lp_setup_context}
    (f : capture_frame sl v b false sb s a) (hp : constants_in_slot sl s) :
    constants_in_slot sl a := by
  intro c hc sd hsd
  rw [(f.constants rfl).1] at hc
  exact f.data sd.1 (hp c hc sd hsd)

theorem constants_in_slot_refresh (sl n : Nat) (bufs : List pipe_constant_buffer)
    (s : lp_setup_context) (hp : constants_in_slot sl s) :
    constants_in_slot sl (lp_setup_set_fs_constants n bufs s) := by
  intro c hc sd hsd
  have hc2 : c ∈ set_fs_constants_loop s.constants n bufs := hc
  have hm : (c.stored_size, c.stored_data) ∈
      (set_fs_constants_loop s.constants n bufs).map
        (fun c => (c.stored_size, c.stored_data)) :=
    List.mem_map.mpr ⟨c, hc2, rfl⟩
  rw [set_fs_constants_loop_stored] at hm
  obtain ⟨c0, hc0, he⟩ := List.mem_map.mp hm
  have he2 : c0.stored_data = c.stored_data := congrArg Prod.snd he
  exact block_in_slot_of_scenes rfl sl sd.1 (hp c0 hc0 sd (by rw [he2]; exact hsd))

/-- What a call of `try_update_scene_state` that returns TRUE has captured: every category
that was dirty, in blocks it allocated itself, and every category that was captured before. -/
theorem try_update_captures (h : lp_headers) (s t : lp_setup_context) (lo : Nat)
    (hlo : lo ≤ s.next_serial) (hr : try_update_scene_state h s = some (true, t)) :
    ∃ sl, s.scene = some sl ∧ t.scene = some sl ∧ sl < s.scenes.length ∧
      t.scenes.length = s.scenes.length ∧ s.next_serial ≤ t.next_serial ∧
      snapshot_sources t = snapshot_sources s ∧
      (∀ serial, block_in_slot s sl serial → block_in_slot t sl serial) ∧
      ((s.dirty &&& LP_SETUP_NEW_FS ≠ 0 ∨ fs_captured h s) → fs_captured h t) ∧
      ((s.dirty &&& LP_SETUP_NEW_VIEWPORTS ≠ 0 ∨ viewports_captured h lo s) →
        viewports_captured h lo t) ∧
      ((s.dirty &&& LP_SETUP_NEW_BLEND_COLOR ≠ 0 ∨ blend_color_captured h lo s) →
        blend_color_captured h lo t) ∧
      ((s.dirty &&& LP_SETUP_NEW_CONSTANTS ≠ 0 ∨ constants_captured h s) →
        constants_captured h t) ∧
      ((s.dirty &&& LP_SETUP_NEW_SSBOS ≠ 0 ∨ ssbos_captured h s) → ssbos_captured h t) ∧
      ((s.dirty &&& LP_SETUP_NEW_SCISSOR ≠ 0 ∨ s.draw_regions = draw_regions_spec h s) →
        t.draw_regions = draw_regions_spec h t) ∧
      (snapshot_in_scene s → snapshot_in_scene t) := by
  obtain ⟨sl, a, b, c, e, hsc, hlt, hV, hB, hC, hF, ht⟩ := try_update_blocks h s t hr
  -- the blocks
  have BV := update_viewports_frame sl s
  rw [hV] at BV
  obtain ⟨fv, ov, nv⟩ := BV
  have fv1 : capture_frame sl true false false false s a := fv
  have BB := update_blend_color_frame sl a
  rw [hB] at BB
  obtain ⟨fb, ob, nb⟩ := BB
  have fb1 : capture_frame sl false true false false a b := fb
  have hR : ∃ r, r = (if b.pipe.dirty_fs_constants then
      lp_setup_set_fs_constants b.pipe.constants.length b.pipe.constants b else b) :=
    ⟨_, rfl⟩
  obtain ⟨r, hr0⟩ := hR
  rw [← hr0] at hC
  have fr : capture_frame sl false false true false b r := by
    rw [hr0]
    split
    · exact (set_fs_constants_frame sl _ _ b).1
    · exact capture_frame_refl sl _ _ _ _ b
  have hrfs : r.fs = b.fs := by
    rw [hr0]
    split
    · rfl
    · rfl
  have BC := update_constants_frame h sl r
  rw [hC] at BC
  obtain ⟨fc, oc, nc, pc⟩ := BC
  have fc1 : capture_frame sl false false true false r c := fc
  obtain ⟨fs0, os, ns⟩ := update_ssbos_frame h sl c
  have BF := update_fs_frame h sl (update_ssbos h c)
  rw [hF] at BF
  obtain ⟨kf, off, nf⟩ := BF
  have kf1 : kept sl { update_ssbos h c with
      fs := { (update_ssbos h c).fs with stored := e.fs.stored } } e := kf
  obtain ⟨u1, u2, u3, u4, u5, u6, u7, u8, u9⟩ := update_scissor_frame h e
  rw [← ht] at u1 u2 u3 u4 u5 u6 u7 u8 u9
  -- the frame from the start to the fragment-state block
  have w : ∀ {x y : lp_setup_context} {v1 b1 c1 s1 : Bool},
      capture_frame sl v1 b1 c1 s1 x y → capture_frame sl true true true true x y :=
    fun f => capture_frame_weaken f (fun hx => Bool.noConfusion hx)
      (fun hx => Bool.noConfusion hx) (fun hx => Bool.noConfusion hx)
      (fun hx => Bool.noConfusion hx)
  have fsd : capture_frame sl true true true true s (update_ssbos h c) :=
    capture_frame_trans (w fv1) (capture_frame_trans (w fb1) (capture_frame_trans (w fr)
      (capture_frame_trans (w fc1) (w fs0))))
  have hltd : sl < (update_ssbos h c).scenes.length := by
    rw [fsd.len]
    exact hlt
  -- from the fragment-state block to the end
  have tsc : t.scene = (update_ssbos h c).scene := by rw [u2, kf1.scene]
  have tcur : t.fs.current = (update_ssbos h c).fs.current := by rw [u1, kf1.fs]
  have tsto : t.fs.stored = e.fs.stored := by rw [u1]
  have tbl : t.blend_color = (update_ssbos h c).blend_color := by rw [u5, kf1.blend_color]
  have tco : t.constants = (update_ssbos h c).constants := by rw [u4, kf1.constants]
  have tso : snapshot_sources t = snapshot_sources (update_ssbos h c) := by
    rw [u6, kf1.sources]
    rfl
  have tda : ∀ serial, block_in_slot (update_ssbos h c) sl serial →
      block_in_slot t sl serial := by
    intro serial hb
    exact block_in_slot_of_scenes u3 sl serial
      (kf1.data serial (block_in_slot_of_scenes rfl sl serial hb))
  have tdirty : e.dirty = (update_ssbos h c).dirty := kf1.dirty
  have tscene : t.scene = some sl := by rw [tsc, fsd.scene]; exact hsc
  have inscene : ∀ {x : lp_setup_context}, x.scene = some sl →
      ∀ serial, in_current_scene x serial → block_in_slot x sl serial := by
    intro x hx serial hb
    obtain ⟨sl1, q1, q2⟩ := hb
    rw [hx] at q1
    have e1 : sl = sl1 := Option.some.inj q1
    subst e1
    exact q2
  -- the fragment state
  have gfs : ((update_ssbos h c).dirty &&& LP_SETUP_NEW_FS ≠ 0 ∨ fs_captured h s) →
      fs_captured h t := by
    intro hp
    by_cases hd : (update_ssbos h c).dirty &&& LP_SETUP_NEW_FS ≠ 0
    · obtain ⟨st, e1, e2, e3, e4, _⟩ := off rfl hd hltd
      have e1b : e.fs.stored = some st := e1
      exact ⟨st, by rw [tsto]; exact e1b, by rw [tcur]; exact e2, by rw [tcur]; exact e3,
        by rw [tcur]; exact e4⟩
    · have he : e = update_ssbos h c := nf hd
      rcases hp with hp | hp
      · exact absurd hp hd
      · rcases fsd.current with hcur | hcur
        · refine fs_captured_congr h ?_ ?_ hp
          · rw [tsto, he]
            exact fsd.stored
          · rw [tcur]
            exact hcur
        · exact absurd hcur hd
  have up : ∀ {x : lp_setup_context} {v1 b1 c1 s1 : Bool},
      capture_frame sl v1 b1 c1 s1 x (update_ssbos h c) → x.dirty &&& LP_SETUP_NEW_FS ≠ 0 →
      (update_ssbos h c).dirty &&& LP_SETUP_NEW_FS ≠ 0 :=
    fun f hx => f.dirty_up _ hx
  -- frames from the later blocks on
  have fad : capture_frame sl false true true true a (update_ssbos h c) :=
    capture_frame_trans
      (capture_frame_weaken fb1 (fun _ => rfl) (fun hx => Bool.noConfusion hx)
        (fun hx => Bool.noConfusion hx) (fun hx => Bool.noConfusion hx))
      (capture_frame_trans
        (capture_frame_weaken fr (fun _ => rfl) (fun hx => Bool.noConfusion hx)
          (fun hx => Bool.noConfusion hx) (fun hx => Bool.noConfusion hx))
        (capture_frame_trans
          (capture_frame_weaken fc1 (fun _ => rfl) (fun hx => Bool.noConfusion hx)
            (fun hx => Bool.noConfusion hx) (fun hx => Bool.noConfusion hx))
          (capture_frame_weaken fs0 (fun _ => rfl) (fun hx => Bool.noConfusion hx)
            (fun hx => Bool.noConfusion hx) (fun hx => Bool.noConfusion hx))))
  have fbd : capture_frame sl true false true true b (update_ssbos h c) :=
    capture_frame_trans
      (capture_frame_weaken fr (fun hx => Bool.noConfusion hx) (fun _ => rfl)
        (fun hx => Bool.noConfusion hx) (fun hx => Bool.noConfusion hx))
      (capture_frame_trans
        (capture_frame_weaken fc1 (fun hx => Bool.noConfusion hx) (fun _ => rfl)
          (fun hx => Bool.noConfusion hx) (fun hx => Bool.noConfusion hx))
        (capture_frame_weaken fs0 (fun hx => Bool.noConfusion hx) (fun _ => rfl)
          (fun hx => Bool.noConfusion hx) (fun hx => Bool.noConfusion hx)))
  have fsb : capture_frame sl true true false false s b :=
    capture_frame_trans
      (capture_frame_weaken fv1 (fun hx => Bool.noConfusion hx)
        (fun hx => Bool.noConfusion hx) (fun _ => rfl) (fun _ => rfl))
      (capture_frame_weaken fb1 (fun hx => Bool.noConfusion hx)
        (fun hx => Bool.noConfusion hx) (fun _ => rfl) (fun _ => rfl))
  have fsc : capture_frame sl true true true false s c :=
    capture_frame_trans
      (capture_frame_weaken fsb (fun hx => Bool.noConfusion hx)
        (fun hx => Bool.noConfusion hx) (fun hx => Bool.noConfusion hx) (fun _ => rfl))
      (capture_frame_trans
        (capture_frame_weaken fr (fun hx => Bool.noConfusion hx)
          (fun hx => Bool.noConfusion hx) (fun hx => Bool.noConfusion hx) (fun _ => rfl))
        (capture_frame_weaken fc1 (fun hx => Bool.noConfusion hx)
          (fun hx => Bool.noConfusion hx) (fun hx => Bool.noConfusion hx) (fun _ => rfl)))
  have tser : s.next_serial ≤ t.next_serial := by
    rw [u9]
    exact le_trans fsd.serial kf1.serial
  refine ⟨sl, hsc, tscene, hlt, by rw [u3, kf1.len]; exact fsd.len, tser,
    tso.trans fsd.sources, fun serial hb => tda serial (fsd.data serial hb), ?_, ?_, ?_, ?_, ?_,
    ?_, ?_⟩
  · -- fragment state
    intro hp
    rcases hp with hp | hp
    · exact gfs (Or.inl (fsd.dirty_up _ hp))
    · exact gfs (Or.inr hp)
  · -- viewports
    intro hp
    have hat : ((update_ssbos h c).dirty &&& LP_SETUP_NEW_FS ≠ 0 ∨ fs_captured h s) ∧
        ∃ serial, lo ≤ serial ∧ block_in_slot a sl serial ∧
          a.fs.current.jit_context.viewports = data_ptr.arena serial 0 := by
      by_cases hd : s.dirty &&& LP_SETUP_NEW_VIEWPORTS ≠ 0
      · obtain ⟨q1, serial, q0, q2, q3⟩ := ov rfl hd hlt
        exact ⟨Or.inl (up fad q1), serial, le_trans hlo q0, q2, q3⟩
      · have ea : a = s := nv hd
        rcases hp with hp | hp
        · exact absurd hp hd
        · obtain ⟨p1, serial, p0, p2, p3⟩ := hp
          rw [ea]
          exact ⟨Or.inr p1, serial, p0, inscene hsc serial p2, p3⟩
    obtain ⟨q0, serial, qlo, q2, q3⟩ := hat
    refine ⟨gfs q0, serial, qlo, ⟨sl, tscene, tda serial (fad.data serial q2)⟩, ?_⟩
    rw [tcur, fad.viewports rfl]
    exact q3
  · -- blend colour
    intro hp
    have hbt : ((update_ssbos h c).dirty &&& LP_SETUP_NEW_FS ≠ 0 ∨ fs_captured h s) ∧
        ∃ serial, lo ≤ serial ∧ block_in_slot b sl serial ∧
          b.blend_color.stored = some serial ∧
          b.fs.current.jit_context.u8_blend_color = data_ptr.arena serial 0 ∧
          b.fs.current.jit_context.f_blend_color = data_ptr.arena serial (4 * 16) := by
      by_cases hd : a.dirty &&& LP_SETUP_NEW_BLEND_COLOR ≠ 0
      · obtain ⟨q1, serial, q0, q2, q3, q4, q5⟩ := ob rfl hd (by rw [fv1.len]; exact hlt)
        exact ⟨Or.inl (up fbd q1), serial, le_trans hlo (le_trans fv1.serial q0), q2, q3, q4,
          q5⟩
      · have eb : b = a := nb hd
        rcases hp with hp | hp
        · exact absurd (fv1.dirty_up _ hp) hd
        · obtain ⟨p1, serial, p0, p2, p3, p4, p5⟩ := hp
          rw [eb]
          refine ⟨Or.inr p1, serial, p0, fv1.data serial (inscene hsc serial p2), ?_, ?_, ?_⟩
          · rw [(fv1.blend rfl).1]
            exact p3
          · rw [(fv1.blend rfl).2.1]
            exact p4
          · rw [(fv1.blend rfl).2.2]
            exact p5
    obtain ⟨q0, serial, qlo, q2, q3, q4, q5⟩ := hbt
    refine ⟨gfs q0, serial, qlo, ⟨sl, tscene, tda serial (fbd.data serial q2)⟩, ?_, ?_, ?_⟩
    · rw [tbl, (fbd.blend rfl).1]
      exact q3
    · rw [tcur, (fbd.blend rfl).2.1]
      exact q4
    · rw [tcur, (fbd.blend rfl).2.2]
      exact q5
  · -- constants
    intro hp i c1 hg
    rw [tco, (fs0.constants rfl).1] at hg
    have hjit : t.fs.current.jit_context.constants = c.fs.current.jit_context.constants := by
      rw [tcur, (fs0.constants rfl).2]
    rw [hjit]
    by_cases hd : r.dirty &&& LP_SETUP_NEW_CONSTANTS ≠ 0
    · obtain ⟨q1, q2⟩ := oc rfl hd i c1 hg
      exact ⟨gfs (Or.inl (fs0.dirty_up _ q1)), q2⟩
    · have ec : c = r := nc hd
      have er : r = b := by
        rw [hr0]
        split
        · rename_i hpd
          exfalso
          apply hd
          rw [hr0, if_pos hpd]
          exact (set_fs_constants_frame sl _ _ b).2.1
        · rfl
      rcases hp with hp | hp
      · exact absurd (fr.dirty_up _ (fsb.dirty_up _ hp)) hd
      · rw [ec, er, (fsb.constants rfl).1] at hg
        obtain ⟨p1, p2⟩ := hp i c1 hg
        refine ⟨gfs (Or.inr p1), ?_⟩
        rw [ec, er, (fsb.constants rfl).2]
        exact p2
  · -- SSBOs
    intro hp i b0 hg
    rw [sources_ssbos tso, sources_ssbos fs0.sources] at hg
    by_cases hd : c.dirty &&& LP_SETUP_NEW_SSBOS ≠ 0
    · obtain ⟨q1, q2⟩ := os hd i b0 hg
      refine ⟨gfs (Or.inl q1), ?_⟩
      rw [tcur]
      exact q2
    · have ed : update_ssbos h c = c := ns hd
      rcases hp with hp | hp
      · exact absurd (fsc.dirty_up _ hp) hd
      · rw [sources_ssbos fsc.sources] at hg
        obtain ⟨p1, p2⟩ := hp i b0 hg
        refine ⟨gfs (Or.inr p1), ?_⟩
        rw [tcur, ed, fsc.ssbos rfl]
        exact p2
  · -- scissor
    intro hp
    have hspec : draw_regions_spec h e = draw_regions_spec h t :=
      (draw_regions_spec_congr h u6).symm
    by_cases hd : e.dirty &&& LP_SETUP_NEW_SCISSOR ≠ 0
    · rw [u7 hd, hspec]
    · rw [u8 hd, kf1.draw_regions]
      show (update_ssbos h c).draw_regions = _
      rw [fsd.regions]
      rcases hp with hp | hp
      · exfalso
        apply hd
        rw [tdirty]
        exact fsd.dirty_up _ hp
      · rw [hp]
        exact (draw_regions_spec_congr h (tso.trans fsd.sources)).symm
  · -- where the snapshots live
    rintro ⟨p1, p2⟩
    refine ⟨?_, ?_⟩
    · intro st hst
      rw [tsto] at hst
      refine ⟨sl, tscene, ?_⟩
      by_cases hd : (update_ssbos h c).dirty &&& LP_SETUP_NEW_FS ≠ 0
      · obtain ⟨st1, e1, _, _, _, e5⟩ := off rfl hd hltd
        have e1b : e.fs.stored = some st1 := e1
        rw [hst] at e1b
        have es : st = st1 := Option.some.inj e1b
        subst es
        rcases e5 with e5 | e5
        · have e5b : e.fs.stored = (update_ssbos h c).fs.stored := e5
          rw [hst, fsd.stored] at e5b
          exact tda _ (fsd.data _ (inscene hsc _ (p1 st e5b.symm)))
        · exact block_in_slot_of_scenes u3 sl _ e5
      · have he : e = update_ssbos h c := nf hd
        rw [he, fsd.stored] at hst
        exact tda _ (fsd.data _ (inscene hsc _ (p1 st hst)))
    · have q0 : constants_in_slot sl s := fun c0 hc0 sd hsd =>
        inscene hsc _ (p2 c0 hc0 sd hsd)
      have q1 : constants_in_slot sl b := constants_in_slot_frame fsb q0
      have q2 : constants_in_slot sl r := by
        rw [hr0]
        split
        · exact constants_in_slot_refresh sl _ _ b q1
        · exact q1
      have q3 : constants_in_slot sl c :=
        pc (by rw [fr.len, fsb.len]; exact hlt) q2
      have q4 : constants_in_slot sl (update_ssbos h c) := constants_in_slot_frame fs0 q3
      intro c0 hc0 sd hsd
      rw [tco] at hc0
      exact ⟨sl, tscene, tda _ (q4 c0 hc0 sd hsd)⟩

theorem try_update_dirty_captured (h : lp_headers) (s t : lp_setup_context)
    (hr : try_update_scene_state h s = some (true, t)) :
    dirty_captured h s.next_serial s.dirty t := by
  obtain ⟨sl, _, _, _, _, _, _, _, c1, c2, c3, c4, c5, c6, _⟩ :=
    try_update_captures h s t s.next_serial (le_refl _) hr
  exact ⟨fun hd => c2 (Or.inl hd), fun hd => c3 (Or.inl hd), fun hd => c4 (Or.inl hd),
    fun hd => c5 (Or.inl hd), fun hd => c1 (Or.inl hd), fun hd => c6 (Or.inl hd)⟩

theorem try_update_keeps_captured (h : lp_headers) (s t : lp_setup_context) (lo d : Nat)
    (hlo : lo ≤ s.next_serial) (hr : try_update_scene_state h s = some (true, t))
    (hc : dirty_captured h lo d s) : dirty_captured h lo d t := by
  obtain ⟨sl, _, _, _, _, _, _, _, c1, c2, c3, c4, c5, c6, _⟩ :=
    try_update_captures h s t lo hlo hr
  obtain ⟨d1, d2, d3, d4, d5, d6⟩ := hc
  exact ⟨fun hd => c2 (Or.inr (d1 hd)), fun hd => c3 (Or.inr (d2 hd)),
    fun hd => c4 (Or.inr (d3 hd)), fun hd => c5 (Or.inr (d4 hd)),
    fun hd => c1 (Or.inr (d5 hd)), fun hd => c6 (Or.inr (d6 hd))⟩

theorem try_update_in_scene (h : lp_headers) (s t : lp_setup_context)
    (hr : try_update_scene_state h s = some (true, t)) (hc : snapshot_in_scene s) :
    snapshot_in_scene t := by
  obtain ⟨sl, _, _, _, _, _, _, _, _, _, _, _, _, _, c7⟩ :=
    try_update_captures h s t s.next_serial (le_refl _) hr
  exact c7 hc

theorem dirty_captured_kept (h : lp_headers) {sl : Nat} {s a : lp_setup_context} (lo d : Nat)
    (k : kept sl s a) (hsc : s.scene = some sl) (hc : dirty_captured h lo d s) :
    dirty_captured h lo d a := by
  obtain ⟨c1, c2, c3, c4, c5, c6, _⟩ := captured_kept h lo k hsc
  obtain ⟨d1, d2, d3, d4, d5, d6⟩ := hc
  exact ⟨fun hd => c2 (d1 hd), fun hd => c3 (d2 hd), fun hd => c4 (d3 hd),
    fun hd => c5 (d4 hd), fun hd => c1 (d5 hd), fun hd => c6 (d6 hd)⟩

theorem dirty_captured_of_all (h : lp_headers) (lo d : Nat) {t : lp_setup_context}
    (hc : dirty_captured h lo ALL_ONES t) : dirty_captured h lo d t := by
  obtain ⟨d1, d2, d3, d4, d5, d6⟩ := hc
  exact ⟨fun _ => d1 (by decide), fun _ => d2 (by decide), fun _ => d3 (by decide),
    fun _ => d4 (by decide), fun _ => d5 (by decide), fun _ => d6 (by decide)⟩

theorem dirty_captured_since (h : lp_headers) {lo lo1 : Nat} (d : Nat) {t : lp_setup_context}
    (hle : lo ≤ lo1) (hc : dirty_captured h lo1 d t) : dirty_captured h lo d t := by
  obtain ⟨d1, d2, d3, d4, d5, d6⟩ := hc
  refine ⟨fun hd => ?_, fun hd => ?_, d3, d4, d5, d6⟩
  · obtain ⟨c1, serial, c0, c2⟩ := d1 hd
    exact ⟨c1, serial, le_trans hle c0, c2⟩
  · obtain ⟨c1, serial, c0, c2⟩ := d2 hd
    exact ⟨c1, serial, le_trans hle c0, c2⟩

theorem wait_empty_scene_serial (s t : lp_setup_context) (i : Nat)
    (hr : lp_setup_wait_empty_scene s = some (i, t)) : s.next_serial ≤ t.next_serial := by
  unfold lp_setup_wait_empty_scene at hr
  cases hs : s.scenes with
  | nil => simp [hs] at hr
  | cons sc0 rest =>
    simp only [hs] at hr
    cases hf : sc0.fence with
    | none =>
      simp only [hf, Option.some.injEq, Prod.mk.injEq] at hr
      rw [← hr.2]
    | some f =>
      simp only [hf, Option.some.injEq, Prod.mk.injEq] at hr
      rw [← hr.2]
      exact le_refl _

theorem choose_scene_serial (h : lp_headers) (k i : Nat) (s t : lp_setup_context)
    (hr : choose_scene h k s = some (i, t)) : s.next_serial ≤ t.next_serial := by
  unfold choose_scene at hr
  split at hr
  · exact wait_empty_scene_serial s t i hr
  · split at hr
    · have h1 : s.next_serial ≤ (lp_scene_create s).2.next_serial :=
        (kept_trans (kept_take_oracle 0 s) (kept_record 0 _ _)).serial
      generalize lp_scene_create s = r at hr h1
      obtain ⟨o, s1⟩ := r
      cases o with
      | none =>
        simp only at hr
        exact le_trans h1 (wait_empty_scene_serial s1 t i hr)
      | some scn =>
        simp only [Option.some.injEq, Prod.mk.injEq] at hr
        rw [← hr.2]
        exact h1
    · simp only [Option.some.injEq, Prod.mk.injEq] at hr
      rw [← hr.2]

theorem get_empty_scene_serial (h : lp_headers) (s t : lp_setup_context)
    (hr : lp_setup_get_empty_scene h s = some t) : s.next_serial ≤ t.next_serial := by
  unfold lp_setup_get_empty_scene at hr
  generalize scan_scenes 0 s.scenes s.trace = r at hr
  obtain ⟨k, l, tr⟩ := r
  simp only [] at hr
  cases hc : choose_scene h k { s with scenes := l, trace := tr } with
  | none => simp [hc] at hr
  | some x =>
    obtain ⟨i, s1⟩ := x
    simp only [hc] at hr
    have h1 : s.next_serial ≤ s1.next_serial :=
      choose_scene_serial h k i { s with scenes := l, trace := tr } s1 hc
    split at hr
    · simp only [Option.some.injEq] at hr
      rw [← hr]
      exact h1
    · simp at hr

theorem acquire_serial (h : lp_headers) (s s1 : lp_setup_context)
    (hr : set_scene_state_acquire h s = some s1) : s.next_serial ≤ s1.next_serial := by
  unfold set_scene_state_acquire at hr
  split at hr
  · exact get_empty_scene_serial h s s1 hr
  · simp only [Option.some.injEq] at hr
    rw [← hr]

theorem sources_of_pool_only {s a : lp_setup_context} (hp : pool_only s a) :
    snapshot_sources a = snapshot_sources s := by
  unfold pool_only at hp
  unfold snapshot_sources
  rw [hp]

theorem reads_only_refl (s : lp_setup_context) : reads_only s s :=
  ⟨rfl, le_refl _⟩

theorem reads_only_trans {s a b : lp_setup_context} (x : reads_only s a) (y : reads_only a b) :
    reads_only s b :=
  ⟨y.1.trans x.1, le_trans x.2 y.2⟩

theorem reads_only_of_kept {sl : Nat} {s a : lp_setup_context} (k : kept sl s a) :
    reads_only s a :=
  ⟨k.sources, k.serial⟩

theorem reads_only_of_frame {sl : Nat} {v b c sb : Bool} {s a : lp_setup_context}
    (f : capture_frame sl v b c sb s a) : reads_only s a :=
  ⟨f.sources, f.serial⟩

/-- The function `try_update_scene_state` only reads the state it takes the snapshot of. -/
theorem try_update_reads (h : lp_headers) (s t : lp_setup_context) (b : Bool)
    (hr : try_update_scene_state h s = some (b, t)) : reads_only s t := by
  unfold try_update_scene_state at hr
  cases hsc : s.scene with
  | none => simp [hsc] at hr
  | some sl =>
    simp only [hsc] at hr
    split at hr
    · have f1 := reads_only_of_frame (update_viewports_frame sl s).1
      generalize update_viewports sl s = r1 at hr f1
      obtain ⟨ok1, a⟩ := r1
      cases ok1 with
      | false =>
        simp only [Bool.false_eq_true, if_false, Option.some.injEq, Prod.mk.injEq] at hr
        rw [← hr.2]
        exact f1
      | true =>
        simp only [if_true] at hr
        have f2 := reads_only_trans f1 (reads_only_of_frame (update_blend_color_frame sl a).1)
        generalize update_blend_color sl a = r2 at hr f2
        obtain ⟨ok2, b2⟩ := r2
        cases ok2 with
        | false =>
          simp only [Bool.false_eq_true, if_false, Option.some.injEq, Prod.mk.injEq] at hr
          rw [← hr.2]
          exact f2
        | true =>
          simp only [if_true] at hr
          have f3 : reads_only b2 (if b2.pipe.dirty_fs_constants then
              lp_setup_set_fs_constants b2.pipe.constants.length b2.pipe.constants b2
            else b2) := by
            split
            · exact reads_only_of_frame (set_fs_constants_frame sl _ _ b2).1
            · exact reads_only_refl b2
          have f3b := reads_only_trans f2 f3
          generalize (if b2.pipe.dirty_fs_constants then
              lp_setup_set_fs_constants b2.pipe.constants.length b2.pipe.constants b2
            else b2) = r at hr f3b
          have f4 := reads_only_trans f3b (reads_only_of_frame (update_constants_frame h sl r).1)
          generalize update_constants h sl r = r4 at hr f4
          obtain ⟨ok4, c⟩ := r4
          cases ok4 with
          | false =>
            simp only [Bool.false_eq_true, if_false, Option.some.injEq, Prod.mk.injEq] at hr
            rw [← hr.2]
            exact f4
          | true =>
            simp only [if_true] at hr
            have f5 := reads_only_trans f4 (reads_only_of_frame (update_ssbos_frame h sl c).1)
            have f6 : reads_only (update_ssbos h c) (update_fs h sl (update_ssbos h c)).2 :=
              ⟨(update_fs_frame h sl (update_ssbos h c)).1.sources,
               (update_fs_frame h sl (update_ssbos h c)).1.serial⟩
            have f6b := reads_only_trans f5 f6
            generalize update_fs h sl (update_ssbos h c) = r5 at hr f6b
            obtain ⟨ok5, e⟩ := r5
            have f7 : reads_only e { update_scissor h e with dirty := 0 } :=
              ⟨(update_scissor_frame h e).2.2.2.2.2.1,
               le_of_eq (update_scissor_frame h e).2.2.2.2.2.2.2.2.symm⟩
            cases ok5 with
            | false =>
              simp only [Bool.false_eq_true, if_false, Option.some.injEq, Prod.mk.injEq] at hr
              rw [← hr.2]
              exact f6b
            | true =>
              simp only [if_true, Option.some.injEq, Prod.mk.injEq] at hr
              rw [← hr.2]
              exact reads_only_trans f6b f7
    · simp at hr

/-- The function `begin_binning` only reads the state the snapshot is taken of. -/
theorem begin_binning_reads (h : lp_headers) (s t : lp_setup_context) (b : Bool)
    (hr : begin_binning h s = some (b, t)) : reads_only s t := by
  unfold begin_binning at hr
  cases hsc : s.scene with
  | none => simp [hsc] at hr
  | some sl =>
    simp only [hsc] at hr
    split at hr
    · have h0 := reads_only_of_kept (kept_take_oracle sl s)
      generalize take_oracle s = r at hr h0
      obtain ⟨ok, s0⟩ := r
      cases ok with
      | false =>
        simp only [Bool.false_eq_true, if_false, Option.some.injEq, Prod.mk.injEq] at hr
        rw [← hr.2]
        exact h0
      | true =>
        simp only [if_true] at hr
        cases htu : try_update_scene_state h (with_scene sl
            (fun sc => { sc with fence := some (lp_fence_create (max 1 s.num_threads)) })
            (record (event.fence_create (max 1 s.num_threads) true) s0)) with
        | none => simp [htu] at hr
        | some x =>
          obtain ⟨b3, s3⟩ := x
          have h3 := try_update_reads h _ s3 b3 htu
          have h3b : reads_only s s3 := reads_only_trans h0 h3
          simp only [htu] at hr
          cases b3 with
          | false =>
            simp only [Option.some.injEq, Prod.mk.injEq] at hr
            rw [← hr.2]
            exact h3b
          | true =>
            simp only [Option.some.injEq] at hr
            have h4 := reads_only_of_kept (kept_begin_binning_clears sl sl s3)
            rw [hr] at h4
            exact reads_only_trans h3b h4
    · simp at hr

theorem set_scene_state_fail_reads (s : lp_setup_context) :
    reads_only s (set_scene_state_fail s) := by
  unfold set_scene_state_fail
  cases s.scene with
  | none => exact ⟨rfl, le_refl _⟩
  | some sl => exact ⟨rfl, le_refl _⟩

/-- A transition of the state machine only reads the state the snapshot is taken of. -/
theorem set_scene_state_reads (h : lp_headers) (s t : lp_setup_context)
    (new_state : setup_state) (b : Bool) (hr : set_scene_state h s new_state = some (b, t)) :
    reads_only s t := by
  by_cases he : s.state = new_state
  · rw [set_scene_state_same h s new_state he] at hr
    simp only [Option.some.injEq, Prod.mk.injEq] at hr
    rw [← hr.2]
    exact reads_only_refl s
  · obtain ⟨s1, ha, hsw⟩ := set_scene_state_ne h s new_state he _ hr
    have h1 : reads_only s s1 :=
      ⟨sources_of_pool_only (acquire_some h s s1 ha).1, acquire_serial h s s1 ha⟩
    unfold set_scene_state_switch at hsw
    cases new_state with
    | SETUP_CLEARED =>
      simp only [Option.some.injEq, Prod.mk.injEq] at hsw
      rw [← hsw.2]
      exact h1
    | SETUP_ACTIVE =>
      simp only at hsw
      cases hb : begin_binning h s1 with
      | none => simp [hb] at hsw
      | some x =>
        obtain ⟨b2, s2⟩ := x
        have h2 := begin_binning_reads h s1 s2 b2 hb
        cases b2 with
        | false =>
          simp only [hb, Option.some.injEq, Prod.mk.injEq] at hsw
          rw [← hsw.2]
          exact reads_only_trans h1 (reads_only_trans h2 (set_scene_state_fail_reads s2))
        | true =>
          simp only [hb, Option.some.injEq, Prod.mk.injEq] at hsw
          rw [← hsw.2]
          exact reads_only_trans h1 h2
    | SETUP_FLUSHED =>
      simp only at hsw
      have h2 : ∀ b2 s2, (if s.state = setup_state.SETUP_CLEARED then execute_clears h s1
          else some (true, s1)) = some (b2, s2) → reads_only s1 s2 := by
        intro b2 s2 hx
        split at hx
        · exact begin_binning_reads h s1 s2 b2 hx
        · simp only [Option.some.injEq, Prod.mk.injEq] at hx
          rw [← hx.2]
          exact reads_only_refl s1
      generalize (if s.state = setup_state.SETUP_CLEARED then execute_clears h s1
          else some (true, s1)) = r at hsw h2
      cases r with
      | none => simp at hsw
      | some x =>
        obtain ⟨b2, s2⟩ := x
        have h3 := h2 b2 s2 rfl
        cases b2 with
        | false =>
          simp only [Option.some.injEq, Prod.mk.injEq] at hsw
          rw [← hsw.2]
          exact reads_only_trans h1 (reads_only_trans h3 (set_scene_state_fail_reads s2))
        | true =>
          simp only at hsw
          cases hrs : lp_setup_rasterize_scene s2 with
          | none => simp [hrs] at hsw
          | some s3 =>
            simp only [hrs, Option.some.injEq, Prod.mk.injEq] at hsw
            rw [← hsw.2]
            have h4 : reads_only s2 s3 := by
              unfold lp_setup_rasterize_scene at hrs
              cases hsc : s2.scene with
              | none => simp [hsc] at hrs
              | some sl =>
                simp only [hsc] at hrs
                split at hrs
                · simp only [Option.some.injEq] at hrs
                  rw [← hrs]
                  exact ⟨rfl, le_refl _⟩
                · simp at hrs
            exact reads_only_trans h1 (reads_only_trans h3 h4)

/-- A successful transition to ACTIVE captures every category that was dirty, in the scene
it made current and in blocks it allocated itself, and leaves the snapshots where they
are. -/
theorem activation_captures (h : lp_headers) (s u : lp_setup_context)
    (hne : s.state ≠ setup_state.SETUP_ACTIVE) (hi : sm_inv s)
    (hr : set_scene_state h s setup_state.SETUP_ACTIVE = some (true, u)) :
    dirty_captured h s.next_serial s.dirty u ∧ (snapshot_in_scene s → snapshot_in_scene u) := by
  obtain ⟨s1, s2, ha, hb, hu⟩ := set_scene_state_active_true h s u hne hr
  obtain ⟨hp, _, _, hsame, hfl⟩ := acquire_some h s s1 ha
  have hser1 := acquire_serial h s s1 ha
  obtain ⟨_, _, _, _, hd1, hfs1, hco1, _, _⟩ := pool_only_fields hp
  have hin1 : snapshot_in_scene s → snapshot_in_scene s1 := by
    intro hc
    by_cases hst : s.state = setup_state.SETUP_FLUSHED
    · have hnone : s.scene = none := hi.1.mp hst
      obtain ⟨c1, c2⟩ := hc
      refine ⟨?_, ?_⟩
      · intro st hst1
        rw [hfs1] at hst1
        obtain ⟨sl, q, _⟩ := c1 st hst1
        rw [hnone] at q
        exact Option.noConfusion q
      · intro c hc1 sd hsd
        rw [hco1] at hc1
        obtain ⟨sl, q, _⟩ := c2 c hc1 sd hsd
        rw [hnone] at q
        exact Option.noConfusion q
    · rw [hsame hst]
      exact hc
  unfold begin_binning at hb
  cases hsc : s1.scene with
  | none => simp [hsc] at hb
  | some sl =>
    simp only [hsc] at hb
    split at hb
    · have k0 := kept_take_oracle sl s1
      generalize take_oracle s1 = r at hb k0
      obtain ⟨ok, s0⟩ := r
      cases ok with
      | false => simp at hb
      | true =>
        simp only [if_true] at hb
        have k1 : kept sl s1 (with_scene sl
            (fun sc => { sc with fence := some (lp_fence_create (max 1 s1.num_threads)) })
            (record (event.fence_create (max 1 s1.num_threads) true) s0)) :=
          kept_trans k0 (kept_trans
            (kept_record sl (event.fence_create (max 1 s1.num_threads) true) s0)
            (kept_with_scene sl sl
              (fun sc => { sc with fence := some (lp_fence_create (max 1 s1.num_threads)) })
              (fun _ _ hx => hx) _))
        cases htu : try_update_scene_state h (with_scene sl
            (fun sc => { sc with fence := some (lp_fence_create (max 1 s1.num_threads)) })
            (record (event.fence_create (max 1 s1.num_threads) true) s0)) with
        | none => simp [htu] at hb
        | some x =>
          obtain ⟨b3, s3⟩ := x
          simp only [htu] at hb
          cases b3 with
          | false => simp at hb
          | true =>
            simp only [Option.some.injEq] at hb
            have k4 := kept_begin_binning_clears sl sl s3
            rw [hb] at k4
            have k4b : kept sl s3 s2 := k4
            have k5 : kept sl s3 u := by
              rw [hu]
              exact ⟨k4b.scene, k4b.len, k4b.fs, k4b.constants, k4b.blend_color,
                k4b.draw_regions, k4b.dirty, k4b.sources, k4b.data, k4b.serial⟩
            obtain ⟨sl3, e1, e3, _⟩ := try_update_captures h _ s3 0 (Nat.zero_le _) htu
            have e1b : some sl = some sl3 := by
              rw [← hsc, ← k1.scene]
              exact e1
            have esl : sl3 = sl := (Option.some.inj e1b).symm
            rw [esl] at e3
            have hdirty := try_update_dirty_captured h _ s3 htu
            rw [k1.dirty, hd1] at hdirty
            refine ⟨dirty_captured_kept h _ s.dirty k5 e3
              (dirty_captured_since h s.dirty (le_trans hser1 k1.serial) hdirty),
              fun hc => ?_⟩
            have c1 := (captured_kept h 0 k1 hsc).2.2.2.2.2.2 (hin1 hc)
            have c3 := try_update_in_scene h _ s3 htu c1
            exact (captured_kept h 0 k5 e3).2.2.2.2.2.2 c3
    · simp at hb

theorem snapshot_in_scene_of_reset {t : lp_setup_context} (hr : is_reset t) :
    snapshot_in_scene t := by
  refine ⟨?_, ?_⟩
  · intro st hst
    rw [hr.fs_stored] at hst
    exact Option.noConfusion hst
  · intro c hc sd hsd
    rw [(hr.constants c hc).1] at hsd
    exact Option.noConfusion hsd

/-- What a TRUE return of `lp_setup_update_state(setup, TRUE)` has captured. -/
theorem update_state_captures (h : lp_headers) (s t : lp_setup_context) (hi : sm_inv s)
    (hr : lp_setup_update_state h true s = some (true, t)) :
    dirty_captured h s.next_serial s.dirty t ∧ reads_only s t ∧
    (snapshot_in_scene s → snapshot_in_scene t) := by
  unfold lp_setup_update_state at hr
  split at hr
  · simp at hr
  · simp at hr
  · rename_i s1 h1
    have hs1 : s1.state = setup_state.SETUP_ACTIVE ∧ sm_inv s1 ∧
        (dirty_captured h s.next_serial s.dirty s1 ∨ s1 = s) ∧
        reads_only s s1 ∧
        (snapshot_in_scene s → snapshot_in_scene s1) := by
      split at h1
      · rename_i hc
        simp only [Bool.true_and, decide_eq_true_eq] at hc
        obtain ⟨a1, a2⟩ := activation_captures h s s1 hc hi h1
        exact ⟨set_scene_state_true_state h s s1 _ h1, set_scene_state_inv h s s1 _ true h1 hi,
          Or.inl a1, set_scene_state_reads h s s1 _ true h1, a2⟩
      · rename_i hc
        simp only [Option.some.injEq, Prod.mk.injEq, true_and] at h1
        rw [← h1]
        simp only [Bool.true_and, decide_eq_true_eq, ne_eq, not_not] at hc
        exact ⟨hc, hi, Or.inr rfl, reads_only_refl s, fun x => x⟩
    obtain ⟨hst1, hi1, hc1, hso1, hin1⟩ := hs1
    have hsc1 : s1.scene.isSome = true := by
      cases hsc : s1.scene with
      | some _ => rfl
      | none =>
        have := hi1.1.mpr hsc
        rw [hst1] at this
        exact setup_state.noConfusion this
    simp only [Bool.true_and, hsc1, if_true] at hr
    split at hr
    · simp at hr
    · rename_i s2 h2
      simp only [Option.some.injEq, Prod.mk.injEq, true_and] at hr
      rw [← hr]
      refine ⟨?_, reads_only_trans hso1 (try_update_reads h s1 s2 true h2),
        fun x => try_update_in_scene h s1 s2 h2 (hin1 x)⟩
      rcases hc1 with hc1 | hc1
      · exact try_update_keeps_captured h s1 s2 _ _ hso1.2 h2 hc1
      · rw [hc1] at h2
        exact try_update_dirty_captured h s s2 h2
    · rename_i s2 h2
      have hst2 : s2.state = setup_state.SETUP_ACTIVE :=
        ((try_update_scene_state_keeps h s1 s2 false h2).1.base.state).trans hst1
      have hso2 := reads_only_trans hso1 (try_update_reads h s1 s2 false h2)
      split at hr
      · simp at hr
      · simp at hr
      · rename_i s3 h3
        have hne2 : s2.state ≠ setup_state.SETUP_FLUSHED := by
          rw [hst2]
          exact fun x => setup_state.noConfusion x
        obtain ⟨hst3, hres3, _⟩ := set_scene_state_flushed_true h s2 s3 hne2 h3
        have hso3 := reads_only_trans hso2 (set_scene_state_reads h s2 s3 _ true h3)
        split at hr
        · simp at hr
        · simp at hr
        · rename_i s4 h4
          have hne3 : s3.state ≠ setup_state.SETUP_ACTIVE := by
            rw [hst3]
            exact fun x => setup_state.noConfusion x
          obtain ⟨a1, a2⟩ := activation_captures h s3 s4 hne3 (sm_inv_of_reset hst3 hres3) h4
          rw [hres3.dirty] at a1
          have hso4 := reads_only_trans hso3 (set_scene_state_reads h s3 s4 _ true h4)
          split at hr
          · simp at hr
          · exact ⟨try_update_keeps_captured h s4 t _ _ hso4.2 hr
                (dirty_captured_of_all h _ s.dirty (dirty_captured_since h _ hso3.2 a1)),
              reads_only_trans hso4 (try_update_reads h s4 t true hr),
              fun _ => try_update_in_scene h s4 t hr (a2 (snapshot_in_scene_of_reset hres3))⟩

/-- The draw on `demo_capture` captures all six categories in blocks 0 to 3 of scene 0: the
SSBO with storage points into its resource at the offset of the binding and the one without
is null, the eight user constants from offset 2 on are stored in block 2, the first draw
region is the framebuffer cut by the first scissor and by the viewport rectangle. -/
theorem demo_capture_values :
    demo_capture.state = setup_state.SETUP_FLUSHED ∧ demo_capture.dirty = ALL_ONES ∧
    demo_capture.next_serial = 0 ∧
    lp_setup_update_state demo_capture_headers true demo_capture = some (true, demo_captured) ∧
    demo_captured.scene = some 0 ∧
    demo_captured.scenes.map (fun sc => sc.data) = [[0, 1, 2, 3]] ∧
    demo_captured.fs.current.jit_context.viewports = data_ptr.arena 0 0 ∧
    demo_captured.blend_color.stored = some 1 ∧
    demo_captured.fs.current.jit_context.u8_blend_color = data_ptr.arena 1 0 ∧
    demo_captured.fs.current.jit_context.f_blend_color = data_ptr.arena 1 64 ∧
    demo_captured.constants.map (fun c => (c.stored_size, c.stored_data)) =
      [(8, some (2, [7, 6, 5, 4, 3, 2, 1, 0])), (0, none)] ∧
    demo_captured.fs.current.jit_context.constants =
      [{ ptr := data_ptr.arena 2 0, num_elements := 1 },
       { ptr := data_ptr.fake_const_buf, num_elements := 0 }] ∧
    demo_captured.fs.current.jit_context.ssbos =
      [{ ptr := data_ptr.resource 31 4, num_elements := 16 },
       { ptr := data_ptr.null, num_elements := 0 }] ∧
    demo_captured.fs.stored.map (fun st => (st.serial, st.val.variant)) = some (3, 3) ∧
    demo_captured.fs.stored.map (fun st => st.val.jit_context) =
      some { demo_captured.fs.current.jit_context with aniso_filter_table := 7 } ∧
    demo_captured.draw_regions =
      [{ x0 := 1, x1 := 2, y0 := 1, y1 := 2 }, { x0 := 2, x1 := 3, y0 := 0, y1 := 3 }] := by
  refine ⟨by rfl, by rfl, by rfl, by rfl, by rfl, by rfl, by rfl, by rfl, by rfl, by rfl,
    by rfl, by rfl, by rfl, by rfl, by rfl, by rfl⟩

/-- A TRUE return of `lp_setup_update_state(setup, TRUE)` leaves the state ACTIVE, a scene
owned, nothing dirty and a fragment state stored. -/
theorem update_state_ready (h : lp_headers) (s t : lp_setup_context)
    (hi : sm_inv s) (hf : fs_inv s)
    (hr : lp_setup_update_state h true s = some (true, t)) :
    t.state = setup_state.SETUP_ACTIVE ∧ t.scene ≠ none ∧ t.dirty = 0 ∧ t.fs.stored ≠ none := by
  unfold lp_setup_update_state at hr
  split at hr
  · simp at hr
  · simp at hr
  · rename_i s1 h1
    have hs1 : s1.state = setup_state.SETUP_ACTIVE ∧ sm_inv s1 ∧ fs_inv s1 := by
      split at h1
      · exact ⟨set_scene_state_true_state h s s1 _ h1,
          set_scene_state_inv h s s1 _ true h1 hi, set_scene_state_fs h s s1 _ true h1 hf⟩
      · rename_i hc
        simp only [Option.some.injEq, Prod.mk.injEq, true_and] at h1
        rw [← h1]
        simp only [Bool.true_and, decide_eq_true_eq, ne_eq, not_not] at hc
        exact ⟨hc, hi, hf⟩
    obtain ⟨hst1, hi1, hf1⟩ := hs1
    have hsc1 : s1.scene.isSome = true := by
      cases hsc : s1.scene with
      | some _ => rfl
      | none =>
        have := hi1.1.mpr hsc
        rw [hst1] at this
        exact setup_state.noConfusion this
    simp only [Bool.true_and, hsc1, if_true] at hr
    split at hr
    · simp at hr
    · rename_i s2 h2
      simp only [Option.some.injEq, Prod.mk.injEq, true_and] at hr
      rw [← hr]
      exact try_update_scene_state_ready h s1 s2 hst1 hf1 h2
    · rename_i s2 h2
      have hf2 := (try_update_scene_state_fs h s1 s2 false h2 hf1).1
      split at hr
      · simp at hr
      · simp at hr
      · rename_i s3 h3
        have hf3 := set_scene_state_fs h s2 s3 _ true h3 hf2
        split at hr
        · simp at hr
        · simp at hr
        · rename_i s4 h4
          have hf4 := set_scene_state_fs h s3 s4 _ true h4 hf3
          have hst4 := set_scene_state_true_state h s3 s4 _ h4
          split at hr
          · simp at hr
          · exact try_update_scene_state_ready h s4 t hst4 hf4 hr


/-! ## The claims -/

/-- Claim C1: for every sequence of the public operations (clear, flush, bind_framebuffer,
update_state, begin_query, end_query, flush_and_restart, interleaved with fence signals of
the rasterizer) applied to a freshly created context, after the sequence the state is
SETUP_FLUSHED if and only if no scene is owned, in SETUP_FLUSHED the pending-clear flags are
zero, in SETUP_ACTIVE a scene is owned and the flags are zero, so that pending clears are
non-empty only in SETUP_CLEARED. -/
theorem state_machine_invariant (h : lp_headers) (num_threads : Nat) (pipe : llvmpipe_context)
    (oracle : List Bool) (ops : List setup_op) (s : lp_setup_context)
    (hr : (lp_setup_create h num_threads pipe oracle).bind (run_ops h ops) = some s) :
    (s.state = setup_state.SETUP_FLUSHED ↔ s.scene = none) ∧
    (s.state = setup_state.SETUP_FLUSHED → s.clear.flags = 0) ∧
    (s.state = setup_state.SETUP_ACTIVE → s.scene ≠ none ∧ s.clear.flags = 0) ∧
    (s.clear.flags ≠ 0 → s.state = setup_state.SETUP_CLEARED) := by
  cases hc : lp_setup_create h num_threads pipe oracle with
  | none => simp [hc] at hr
  | some s0 =>
    simp only [hc, Option.some_bind] at hr
    have hi := run_ops_inv h ops s0 s hr (lp_setup_create_inv h num_threads pipe oracle s0 hc)
    obtain ⟨h1, h2⟩ := hi
    refine ⟨h1, fun hf => h2 (by rw [hf]; decide), fun ha => ⟨?_, h2 (by rw [ha]; decide)⟩, ?_⟩
    · intro hn
      have := h1.mpr hn
      rw [ha] at this
      exact setup_state.noConfusion this
    · intro hne
      by_contra hc2
      exact hne (h2 hc2)

theorem state_machine_invariant_witness :
    (lp_setup_create demo_headers 1 demo_pipe []).bind (run_ops demo_headers demo_ops) =
      some demo_final ∧
    ((demo_final.state = setup_state.SETUP_FLUSHED ↔ demo_final.scene = none) ∧
     (demo_final.state = setup_state.SETUP_FLUSHED → demo_final.clear.flags = 0) ∧
     (demo_final.state = setup_state.SETUP_ACTIVE →
       demo_final.scene ≠ none ∧ demo_final.clear.flags = 0) ∧
     (demo_final.clear.flags ≠ 0 → demo_final.state = setup_state.SETUP_CLEARED)) :=
  ⟨by rfl, state_machine_invariant demo_headers 1 demo_pipe [] demo_ops demo_final (by rfl)⟩

/-- Claim C2, as stated, fails: on a freshly created context (state SETUP_FLUSHED, no scene)
the transition to SETUP_CLEARED returns TRUE and leaves state SETUP_CLEARED with scene 0 of
the pool owned, not NULL. -/
theorem cleared_owns_scene_counterexample :
    demo_fresh.state = setup_state.SETUP_FLUSHED ∧ demo_fresh.scene = none ∧
    (set_scene_state demo_headers demo_fresh setup_state.SETUP_CLEARED).map
      (fun r => (r.1, r.2.state, r.2.scene)) =
      some (true, setup_state.SETUP_CLEARED, some 0) := by
  decide

/-- Claim C2, amended: the transition SETUP_FLUSHED -> SETUP_CLEARED never fails and records
nothing but the new state, yet it does acquire a scene from the pool: afterwards a scene is
owned, it has no fence and one empty bin per tile, nothing was queued to the rasterizer, and
every member of the context other than the state, the pool, the scene pointer and the ghost
members is unchanged (the clear accumulator in particular). -/
theorem flushed_to_cleared_acquires_scene (h : lp_headers) (s : lp_setup_context)
    (hfl : s.state = setup_state.SETUP_FLUSHED) (hne : s.scenes ≠ []) :
    ∃ t i sc, set_scene_state h s setup_state.SETUP_CLEARED = some (true, t) ∧
      t.state = setup_state.SETUP_CLEARED ∧ t.scene = some i ∧
      t.scenes.get? i = some sc ∧ sc.fence = none ∧
      sc.bins = List.replicate (h.num_tiles s.fb) [] ∧
      t.clear = s.clear ∧ queue_events t.trace = queue_events s.trace ∧
      t = { s with state := setup_state.SETUP_CLEARED, scenes := t.scenes, scene := t.scene,
                   oracle := t.oracle, trace := t.trace, next_serial := t.next_serial } := by
  obtain ⟨s1, hg⟩ := get_empty_scene_total h s hne
  obtain ⟨hp, hq, _, i, sc, h1, h2, h3, h4, _⟩ := get_empty_scene_some h s s1 hg
  refine ⟨{ s1 with state := setup_state.SETUP_CLEARED }, i, sc, ?_, rfl, h1, h2, h3, h4,
    (pool_only_fields hp).2.1, hq, ?_⟩
  · simp [set_scene_state, set_scene_state_acquire, set_scene_state_switch, hfl, hg]
  · unfold pool_only at hp
    simp only []
    rw [hp]

theorem flushed_to_cleared_acquires_scene_witness :
    demo_fresh.state = setup_state.SETUP_FLUSHED ∧ demo_fresh.scenes ≠ [] ∧
    ∃ t i sc, set_scene_state demo_headers demo_fresh setup_state.SETUP_CLEARED = some (true, t) ∧
      t.state = setup_state.SETUP_CLEARED ∧ t.scene = some i ∧
      t.scenes.get? i = some sc ∧ sc.fence = none ∧
      sc.bins = List.replicate (demo_headers.num_tiles demo_fresh.fb) [] ∧
      t.clear = demo_fresh.clear ∧ queue_events t.trace = queue_events demo_fresh.trace ∧
      t = { demo_fresh with state := setup_state.SETUP_CLEARED, scenes := t.scenes,
                            scene := t.scene, oracle := t.oracle, trace := t.trace,
                            next_serial := t.next_serial } :=
  ⟨by decide, by decide,
   flushed_to_cleared_acquires_scene demo_headers demo_fresh (by decide) (by decide)⟩

/-- Claim C3: whenever `set_scene_state` returns FALSE (any old state, any requested state,
any failing step), the context is unwound: state SETUP_FLUSHED, no scene owned, the scene
that was owned (the one owned on entry, or the one acquired by this call when coming from
FLUSHED) released by `lp_scene_end_rasterization` as the last call and left without fence and
bins, no scene queued to the rasterizer by the call, and the derived state reset: dirty all
ones, `fs.stored` null, every `stored_data` null with `stored_size` 0, the clear accumulator
all zero. -/
theorem set_scene_state_failure_unwinds (h : lp_headers) (s t : lp_setup_context)
    (new_state : setup_state) (hr : set_scene_state h s new_state = some (false, t)) :
    t.state = setup_state.SETUP_FLUSHED ∧ t.scene = none ∧
    (∃ sl pre, t.trace = pre ++ [event.scene_end_rasterization sl] ∧
      (s.state ≠ setup_state.SETUP_FLUSHED → s.scene = some sl) ∧
      (s.state = setup_state.SETUP_FLUSHED →
        ∃ s1, lp_setup_get_empty_scene h s = some s1 ∧ s1.scene = some sl) ∧
      ∃ sc, t.scenes.get? sl = some sc ∧ sc.fence = none ∧ sc.bins = []) ∧
    queue_events t.trace = queue_events s.trace ∧
    t.dirty = ALL_ONES ∧ t.fs.stored = none ∧
    (∀ c ∈ t.constants, c.stored_data = none ∧ c.stored_size = 0) ∧
    t.clear.flags = 0 ∧ t.clear.zsmask = 0 ∧ t.clear.zsvalue = 0 ∧
    (∀ v ∈ t.clear.color_val, v = 0) := by
  obtain ⟨h1, h2, h3, _, _, _, h7⟩ := set_scene_state_false h s t new_state hr
  exact ⟨h1, h2.scene, h7, h3, h2.dirty, h2.fs_stored, h2.constants, h2.clear_flags,
    h2.clear_zsmask, h2.clear_zsvalue, h2.clear_color⟩

theorem set_scene_state_failure_unwinds_witness :
    set_scene_state demo_headers demo_fence_fails setup_state.SETUP_ACTIVE =
      some (false, demo_unwound) ∧
    (demo_unwound.state = setup_state.SETUP_FLUSHED ∧ demo_unwound.scene = none ∧
    (∃ sl pre, demo_unwound.trace = pre ++ [event.scene_end_rasterization sl] ∧
      (demo_fence_fails.state ≠ setup_state.SETUP_FLUSHED → demo_fence_fails.scene = some sl) ∧
      (demo_fence_fails.state = setup_state.SETUP_FLUSHED →
        ∃ s1, lp_setup_get_empty_scene demo_headers demo_fence_fails = some s1 ∧
          s1.scene = some sl) ∧
      ∃ sc, demo_unwound.scenes.get? sl = some sc ∧ sc.fence = none ∧ sc.bins = []) ∧
    queue_events demo_unwound.trace = queue_events demo_fence_fails.trace ∧
    demo_unwound.dirty = ALL_ONES ∧ demo_unwound.fs.stored = none ∧
    (∀ c ∈ demo_unwound.constants, c.stored_data = none ∧ c.stored_size = 0) ∧
    demo_unwound.clear.flags = 0 ∧ demo_unwound.clear.zsmask = 0 ∧
    demo_unwound.clear.zsvalue = 0 ∧ (∀ v ∈ demo_unwound.clear.color_val, v = 0)) :=
  ⟨by rfl, set_scene_state_failure_unwinds demo_headers demo_fence_fails demo_unwound
    setup_state.SETUP_ACTIVE (by rfl)⟩

/-- Claim C4: a successful transition to SETUP_FLUSHED from SETUP_ACTIVE or SETUP_CLEARED
queues the owned scene to the rasterizer exactly once, right after `lp_scene_end_binning`
(these are the last two calls and no other scene is queued by the transition), and leaves
state SETUP_FLUSHED, no scene, dirty all ones, `fs.stored` null, every `stored_data` null
with `stored_size` 0, the clear accumulator zeroed and the four primitive pointers bound to
their first-call stubs. -/
theorem flush_queues_scene_once_and_resets (h : lp_headers) (s t : lp_setup_context)
    (hne : s.state = setup_state.SETUP_ACTIVE ∨ s.state = setup_state.SETUP_CLEARED)
    (hr : set_scene_state h s setup_state.SETUP_FLUSHED = some (true, t)) :
    (∃ sl pre, s.scene = some sl ∧
      t.trace = pre ++ [event.scene_end_binning sl, event.rast_queue_scene sl] ∧
      queue_events pre = queue_events s.trace ∧
      queue_events t.trace = queue_events s.trace ++ [sl]) ∧
    t.state = setup_state.SETUP_FLUSHED ∧ t.scene = none ∧ t.dirty = ALL_ONES ∧
    t.fs.stored = none ∧ (∀ c ∈ t.constants, c.stored_data = none ∧ c.stored_size = 0) ∧
    t.clear.flags = 0 ∧ t.clear.zsmask = 0 ∧ t.clear.zsvalue = 0 ∧
    (∀ v ∈ t.clear.color_val, v = 0) ∧
    t.point = prim_fn.first_point ∧ t.line = prim_fn.first_line ∧
    t.triangle = prim_fn.first_triangle ∧ t.rect = prim_fn.first_rectangle := by
  have hne1 : s.state ≠ setup_state.SETUP_FLUSHED := by
    rcases hne with hx | hx <;> rw [hx] <;> decide
  obtain ⟨h1, h2, _, _, _, _, _, sl, pre, h3, _, h5, h6⟩ :=
    set_scene_state_flushed_true h s t hne1 hr
  refine ⟨⟨sl, pre, h3, h5, h6, ?_⟩, h1, h2.scene, h2.dirty, h2.fs_stored, h2.constants,
    h2.clear_flags, h2.clear_zsmask, h2.clear_zsvalue, h2.clear_color, h2.point, h2.line,
    h2.triangle, h2.rect⟩
  rw [h5]
  have : pre ++ [event.scene_end_binning sl, event.rast_queue_scene sl] =
      (pre ++ [event.scene_end_binning sl]) ++ [event.rast_queue_scene sl] := by simp
  rw [this, queue_events_append_queue,
    queue_events_append_other _ (event.scene_end_binning sl) rfl, h6]

theorem flush_queues_scene_once_and_resets_witness :
    (demo_active.state = setup_state.SETUP_ACTIVE ∨
      demo_active.state = setup_state.SETUP_CLEARED) ∧
    set_scene_state demo_headers demo_active setup_state.SETUP_FLUSHED =
      some (true, demo_flushed) ∧
    ((∃ sl pre, demo_active.scene = some sl ∧
      demo_flushed.trace = pre ++ [event.scene_end_binning sl, event.rast_queue_scene sl] ∧
      queue_events pre = queue_events demo_active.trace ∧
      queue_events demo_flushed.trace = queue_events demo_active.trace ++ [sl]) ∧
    demo_flushed.state = setup_state.SETUP_FLUSHED ∧ demo_flushed.scene = none ∧
    demo_flushed.dirty = ALL_ONES ∧ demo_flushed.fs.stored = none ∧
    (∀ c ∈ demo_flushed.constants, c.stored_data = none ∧ c.stored_size = 0) ∧
    demo_flushed.clear.flags = 0 ∧ demo_flushed.clear.zsmask = 0 ∧
    demo_flushed.clear.zsvalue = 0 ∧ (∀ v ∈ demo_flushed.clear.color_val, v = 0) ∧
    demo_flushed.point = prim_fn.first_point ∧ demo_flushed.line = prim_fn.first_line ∧
    demo_flushed.triangle = prim_fn.first_triangle ∧
    demo_flushed.rect = prim_fn.first_rectangle) :=
  ⟨Or.inl (by decide), by rfl,
   flush_queues_scene_once_and_resets demo_headers demo_active demo_flushed
     (Or.inl (by decide)) (by rfl)⟩

/-- Claim C5: for every pool with at least one scene, `lp_setup_get_empty_scene` returns
with a selected scene that is not claimed by an unfinished consumer job: it was newly
created by this call, or it had no fence, or it had a fence that was signalled or waited for
with `lp_fence_wait` and was reclaimed with `lp_scene_end_rasterization` by this call; with
`lp_scene_end_rasterization` clearing the fence, the selected scene has no fence, which is
what `begin_binning` asserts. -/
theorem get_empty_scene_selects_unclaimed (h : lp_headers) (s : lp_setup_context)
    (hne : s.scenes ≠ []) :
    ∃ t i sc evs, lp_setup_get_empty_scene h s = some t ∧ t.scene = some i ∧
      t.scenes.get? i = some sc ∧ sc.fence = none ∧ t.trace = s.trace ++ evs ∧
      ((i = s.scenes.length ∧ event.scene_create true ∈ evs) ∨
       ∃ old, s.scenes.get? i = some old ∧
         (old.fence = none ∨
          ∃ f, old.fence = some f ∧
            (lp_fence_signalled f = true ∨ event.fence_wait i ∈ evs) ∧
            event.scene_end_rasterization i ∈ evs)) := by
  obtain ⟨t, hg⟩ := get_empty_scene_total h s hne
  obtain ⟨_, _, _, i, sc, h1, h2, h3, _⟩ := get_empty_scene_some h s t hg
  obtain ⟨j, evs, q1, q2, q3, _⟩ := get_empty_scene_prov h s t hg
  have hij : j = i := by
    rw [h1] at q1
    exact (Option.some.inj q1).symm
  subst hij
  exact ⟨t, j, sc, evs, hg, h1, h2, h3, q2, q3⟩

theorem get_empty_scene_selects_unclaimed_witness :
    demo_busy_busy.scenes ≠ [] ∧
    ∃ t i sc evs, lp_setup_get_empty_scene demo_headers demo_busy_busy = some t ∧
      t.scene = some i ∧ t.scenes.get? i = some sc ∧ sc.fence = none ∧
      t.trace = demo_busy_busy.trace ++ evs ∧
      ((i = demo_busy_busy.scenes.length ∧ event.scene_create true ∈ evs) ∨
       ∃ old, demo_busy_busy.scenes.get? i = some old ∧
         (old.fence = none ∨
          ∃ f, old.fence = some f ∧
            (lp_fence_signalled f = true ∨ event.fence_wait i ∈ evs) ∧
            event.scene_end_rasterization i ∈ evs)) :=
  ⟨by decide, get_empty_scene_selects_unclaimed demo_headers demo_busy_busy (by decide)⟩

/-- Claim C6, evaluated at a pool at capacity (two scenes, `MAX_SCENES = 2`) whose slot 0 has
an unsignalled fence and whose slot 1 has no fence: the lowest-index free slot is 1, yet
`lp_setup_get_empty_scene` waits for the fence of slot 0, reclaims that scene and selects
slot 0. -/
theorem get_empty_scene_at_capacity_takes_slot0 :
    demo_busy_free.state = setup_state.SETUP_FLUSHED ∧
    demo_busy_free.scenes.length = demo_headers.MAX_SCENES ∧
    demo_busy_free.scenes.map scene_free = [false, true] ∧
    first_free demo_busy_free.scenes = 1 ∧
    (lp_setup_get_empty_scene demo_headers demo_busy_free).map
      (fun t => (t.scene, t.trace.drop demo_busy_free.trace.length)) =
      some (some 0, [event.fence_wait 0, event.scene_end_rasterization 0,
        event.scene_begin_binning 0]) := by
  decide

/-- Claim C7: the pool is bounded.  A call of `lp_setup_get_empty_scene` keeps
`num_active_scenes <= MAX_SCENES`; it calls `lp_scene_create` only when the scan found no
free slot and `num_active_scenes < MAX_SCENES`, and the pool grows (by one scene) only when
that call succeeded; and at capacity with every fence unsignalled it allocates nothing
(no outcome is read from the oracle, the pool keeps its size) and selects slot 0 after
`lp_fence_wait` on slot 0 and the reclaim of that scene. -/
theorem pool_is_bounded (h : lp_headers) (s t : lp_setup_context)
    (hr : lp_setup_get_empty_scene h s = some t)
    (hbound : num_active_scenes s ≤ h.MAX_SCENES) :
    num_active_scenes t ≤ h.MAX_SCENES ∧
    (∃ evs, t.trace = s.trace ++ evs ∧
      (∀ ok, event.scene_create ok ∈ evs →
        first_free s.scenes = num_active_scenes s ∧ num_active_scenes s < h.MAX_SCENES) ∧
      (num_active_scenes t = num_active_scenes s ∧ event.scene_create true ∉ evs ∨
       num_active_scenes t = num_active_scenes s + 1 ∧ event.scene_create true ∈ evs)) ∧
    (num_active_scenes s = h.MAX_SCENES → first_free s.scenes = num_active_scenes s →
      t.scene = some 0 ∧ num_active_scenes t = num_active_scenes s ∧ t.oracle = s.oracle ∧
      t.trace = s.trace ++ [event.fence_wait 0, event.scene_end_rasterization 0,
        event.scene_begin_binning 0]) := by
  unfold num_active_scenes at *
  obtain ⟨i, evs, _, q2, _, q4, q5⟩ := get_empty_scene_prov h s t hr
  refine ⟨?_, ⟨evs, q2, fun ok hm => ?_, q5⟩, ?_⟩
  · rcases q5 with ⟨a, _⟩ | ⟨a, b⟩
    · omega
    · have := (q4 true b).2
      omega
  · have := q4 ok hm
    exact ⟨this.1, by omega⟩
  · intro hcap hbusy
    have hne : s.scenes ≠ [] := by
      intro he
      have h0 : lp_setup_get_empty_scene h s = none := by
        unfold lp_setup_get_empty_scene
        simp [he, scan_scenes, choose_scene, num_active_scenes, lp_setup_wait_empty_scene,
          ← hcap]
      rw [h0] at hr
      exact Option.noConfusion hr
    obtain ⟨t1, _, g1, g2, g3, g4, g5, _⟩ :=
      get_empty_scene_at_capacity_busy h s hne hbusy (by omega)
    rw [hr] at g1
    have := Option.some.inj g1
    subst this
    exact ⟨g2, g3, g4, g5⟩

theorem pool_is_bounded_witness :
    lp_setup_get_empty_scene demo_headers demo_busy_busy = some (got_scene demo_busy_busy) ∧
    num_active_scenes demo_busy_busy ≤ demo_headers.MAX_SCENES ∧
    num_active_scenes demo_busy_busy = demo_headers.MAX_SCENES ∧
    first_free demo_busy_busy.scenes = num_active_scenes demo_busy_busy ∧
    (num_active_scenes (got_scene demo_busy_busy) ≤ demo_headers.MAX_SCENES ∧
    (∃ evs, (got_scene demo_busy_busy).trace = demo_busy_busy.trace ++ evs ∧
      (∀ ok, event.scene_create ok ∈ evs →
        first_free demo_busy_busy.scenes = num_active_scenes demo_busy_busy ∧
        num_active_scenes demo_busy_busy < demo_headers.MAX_SCENES) ∧
      (num_active_scenes (got_scene demo_busy_busy) = num_active_scenes demo_busy_busy ∧
        event.scene_create true ∉ evs ∨
       num_active_scenes (got_scene demo_busy_busy) = num_active_scenes demo_busy_busy + 1 ∧
        event.scene_create true ∈ evs)) ∧
    (num_active_scenes demo_busy_busy = demo_headers.MAX_SCENES →
      first_free demo_busy_busy.scenes = num_active_scenes demo_busy_busy →
      (got_scene demo_busy_busy).scene = some 0 ∧
      num_active_scenes (got_scene demo_busy_busy) = num_active_scenes demo_busy_busy ∧
      (got_scene demo_busy_busy).oracle = demo_busy_busy.oracle ∧
      (got_scene demo_busy_busy).trace = demo_busy_busy.trace ++
        [event.fence_wait 0, event.scene_end_rasterization 0,
         event.scene_begin_binning 0])) :=
  ⟨by rfl, by decide, by decide, by decide,
   pool_is_bounded demo_headers demo_busy_busy (got_scene demo_busy_busy) (by rfl)
     (by decide)⟩

/-- Claim C8: when the scan finds no free slot (every fence unsignalled), the pool has spare
capacity and `lp_scene_create` returns NULL, `lp_setup_get_empty_scene` does not fail: it
leaves `num_active_scenes` unchanged and selects slot 0 after waiting on its fence and
reclaiming the scene, the same blocking path as at capacity. -/
theorem create_failure_degrades_to_wait (h : lp_headers) (s : lp_setup_context)
    (o : List Bool) (hne : s.scenes ≠ [])
    (hbusy : first_free s.scenes = num_active_scenes s)
    (hcap : num_active_scenes s + 1 ≤ h.MAX_SCENES) (ho : s.oracle = false :: o) :
    ∃ t sc, lp_setup_get_empty_scene h s = some t ∧ t.scene = some 0 ∧
      num_active_scenes t = num_active_scenes s ∧
      t.trace = s.trace ++ [event.scene_create false, event.fence_wait 0,
        event.scene_end_rasterization 0, event.scene_begin_binning 0] ∧
      t.scenes.get? 0 = some sc ∧ sc.fence = none := by
  unfold num_active_scenes at *
  obtain ⟨t, sc, g1, g2, g3, _, g5, g6, g7⟩ :=
    get_empty_scene_create_fails h s o hne hbusy hcap ho
  exact ⟨t, sc, g1, g2, g3, g5, g6, g7⟩

theorem create_failure_degrades_to_wait_witness :
    demo_busy_nomem.scenes ≠ [] ∧
    first_free demo_busy_nomem.scenes = num_active_scenes demo_busy_nomem ∧
    num_active_scenes demo_busy_nomem + 1 ≤ demo_headers.MAX_SCENES ∧
    demo_busy_nomem.oracle = false :: [] ∧
    ∃ t sc, lp_setup_get_empty_scene demo_headers demo_busy_nomem = some t ∧
      t.scene = some 0 ∧ num_active_scenes t = num_active_scenes demo_busy_nomem ∧
      t.trace = demo_busy_nomem.trace ++ [event.scene_create false, event.fence_wait 0,
        event.scene_end_rasterization 0, event.scene_begin_binning 0] ∧
      t.scenes.get? 0 = some sc ∧ sc.fence = none :=
  ⟨by decide, by decide, by decide, by rfl,
   create_failure_degrades_to_wait demo_headers demo_busy_nomem [] (by decide) (by decide)
     (by decide) (by rfl)⟩

/-- Claim C9: when the transition to SETUP_ACTIVE succeeds on a freshly begun scene with
empty bins (and a framebuffer with at most `PIPE_MAX_COLOR_BUFS` colour buffers), every bin
of the scene holds exactly the accumulated clears: one clear-colour command for each colour
buffer below `fb.nr_cbufs` whose accumulator bit is set, in ascending order, carrying
`clear.color_val[cbuf]`, followed by one depth/stencil clear carrying `(zsvalue, zsmask)` iff
`fb.zsbuf` is bound and a depth/stencil flag is set.  Nothing precedes them, so any command
binned afterwards follows them, and the accumulator's flags, mask and value are then 0. -/
theorem activation_replays_clears (h : lp_headers) (s t : lp_setup_context)
    (hne : s.state ≠ setup_state.SETUP_ACTIVE)
    (hnr : s.fb.nr_cbufs ≤ PIPE_MAX_COLOR_BUFS)
    (hempty : s.state = setup_state.SETUP_CLEARED →
      ∀ sl, s.scene = some sl → ∀ b ∈ scene_bins s sl, b = [])
    (hr : set_scene_state h s setup_state.SETUP_ACTIVE = some (true, t)) :
    ∃ sl, t.scene = some sl ∧ sl < t.scenes.length ∧ t.state = setup_state.SETUP_ACTIVE ∧
      (∀ b ∈ scene_bins t sl, b = accumulated_clear_cmds s) ∧
      (∀ cmd, (lp_scene_bin_everywhere sl cmd t).1 = true →
        ∀ b ∈ scene_bins (lp_scene_bin_everywhere sl cmd t).2 sl,
          b = accumulated_clear_cmds s ++ [cmd]) ∧
      t.clear.flags = 0 ∧ t.clear.zsmask = 0 ∧ t.clear.zsvalue = 0 := by
  obtain ⟨s1, s2, ha, hb, ht⟩ := set_scene_state_active_true h s t hne hr
  obtain ⟨hp, _, _, hsame, hfl⟩ := acquire_some h s s1 ha
  obtain ⟨_, p2, p3, _⟩ := pool_only_fields hp
  obtain ⟨hst, _, hcl⟩ := begin_binning_some h s1 s2 true hb
  obtain ⟨sl, hsl, hlt, hbins⟩ := begin_binning_bins h s1 s2 (by rw [p3]; exact hnr) hb
  have hacc : accumulated_clear_cmds s1 = accumulated_clear_cmds s :=
    accumulated_clear_cmds_congr p2 p3
  have he1 : ∀ b ∈ scene_bins s1 sl, b = [] := by
    by_cases hf : s.state = setup_state.SETUP_FLUSHED
    · obtain ⟨i, sc, q1, q2, _, q4, _⟩ := hfl hf
      have hi : i = sl := by
        rw [hsl] at q1
        exact (Option.some.inj q1).symm
      subst hi
      intro b hb1
      unfold scene_bins at hb1
      rw [q2] at hb1
      simp only [Option.map_some', Option.getD_some, q4] at hb1
      exact List.eq_of_mem_replicate hb1
    · have hs1 := hsame hf
      subst hs1
      have hc : s1.state = setup_state.SETUP_CLEARED := by
        cases hs : s1.state with
        | SETUP_FLUSHED => exact absurd hs hf
        | SETUP_CLEARED => rfl
        | SETUP_ACTIVE => exact absurd hs hne
      exact hempty hc sl hsl
  have hall : ∀ b ∈ scene_bins s2 sl, b = accumulated_clear_cmds s := by
    intro b hb1
    rw [hbins] at hb1
    simp only [List.mem_map] at hb1
    obtain ⟨b0, hb0, rfl⟩ := hb1
    rw [he1 b0 hb0, hacc]
    rfl
  have hsb : scene_bins t sl = scene_bins s2 sl := by
    rw [ht]
    rfl
  subst ht
  refine ⟨sl, hst.scene.trans hsl, ?_, rfl, hall, ?_, hcl rfl⟩
  · show sl < s2.scenes.length
    rw [hst.len]
    exact hlt
  · intro cmd hok b hb1
    rw [bin_everywhere_bins sl cmd _ hok] at hb1
    simp only [List.mem_map] at hb1
    obtain ⟨b0, hb0, rfl⟩ := hb1
    rw [hsb] at hb0
    rw [hall b0 hb0]

theorem activation_replays_clears_witness :
    demo_pending.state ≠ setup_state.SETUP_ACTIVE ∧
    demo_pending.fb.nr_cbufs ≤ PIPE_MAX_COLOR_BUFS ∧
    set_scene_state demo_headers demo_pending setup_state.SETUP_ACTIVE =
      some (true, demo_activated) ∧
    accumulated_clear_cmds demo_pending =
      [lp_rast_cmd.LP_RAST_OP_CLEAR_COLOR 0 5,
       lp_rast_cmd.LP_RAST_OP_CLEAR_ZSTENCIL 50331657 4294967295] ∧
    ∃ sl, demo_activated.scene = some sl ∧ sl < demo_activated.scenes.length ∧
      demo_activated.state = setup_state.SETUP_ACTIVE ∧
      (∀ b ∈ scene_bins demo_activated sl, b = accumulated_clear_cmds demo_pending) ∧
      (∀ cmd, (lp_scene_bin_everywhere sl cmd demo_activated).1 = true →
        ∀ b ∈ scene_bins (lp_scene_bin_everywhere sl cmd demo_activated).2 sl,
          b = accumulated_clear_cmds demo_pending ++ [cmd]) ∧
      demo_activated.clear.flags = 0 ∧ demo_activated.clear.zsmask = 0 ∧
      demo_activated.clear.zsvalue = 0 :=
  ⟨by decide, by decide, by rfl, by decide,
   activation_replays_clears demo_headers demo_pending demo_activated (by decide) (by decide)
     (by
       intro _ sl hsl b hb
       have h0 : demo_pending.scene = some 0 := by decide
       rw [h0] at hsl
       have hsl0 : sl = 0 := (Option.some.inj hsl).symm
       subst hsl0
       have hb0 : scene_bins demo_pending 0 = [[], []] := by decide
       rw [hb0] at hb
       simp only [List.mem_cons, List.mem_singleton] at hb
       rcases hb with hb | hb | hb
       · exact hb
       · exact hb
       · simp at hb)
     (by rfl)⟩

/-- Claim C10: when no scene is active (state other than SETUP_ACTIVE) and the buffer is
bound, `lp_setup_try_clear_zs` with request flags `f`, packed value `v` and packed mask `m`
(the function's locals `zsvalue` and `zsmask`) returns TRUE, leaves the state SETUP_CLEARED
and the accumulator with flags `flags | f`, mask `zsmask | m` and value
`(zsvalue & ~m) | (v & m)`; and `lp_setup_try_clear_color_buffer` for buffer `cbuf` returns
TRUE, leaves the state SETUP_CLEARED, sets flag bit `1 << (cbuf + 2)` and stores the packed
colour in `color_val[cbuf]`. -/
theorem deferred_clear_merges (h : lp_headers) (s : lp_setup_context)
    (hna : s.state ≠ setup_state.SETUP_ACTIVE) (hne : s.scenes ≠ []) :
    (∀ zsbuf depth stencil f, s.fb.zsbuf = some zsbuf →
      ∃ t, lp_setup_try_clear_zs h depth stencil f s = some (true, t) ∧
        t.state = setup_state.SETUP_CLEARED ∧
        t.clear.flags = s.clear.flags ||| f ∧
        t.clear.zsmask =
          s.clear.zsmask ||| (clear_zs_value_mask h zsbuf.format depth stencil f).2 ∧
        t.clear.zsvalue =
          (s.clear.zsvalue &&& not64 (clear_zs_value_mask h zsbuf.format depth stencil f).2) |||
          ((clear_zs_value_mask h zsbuf.format depth stencil f).1 &&&
            (clear_zs_value_mask h zsbuf.format depth stencil f).2) ∧
        t.clear.color_val = s.clear.color_val) ∧
    (∀ surf color cbuf, s.fb.cbufs.get? cbuf = some (some surf) →
      ∃ t, lp_setup_try_clear_color_buffer h color cbuf s = some (true, t) ∧
        t.state = setup_state.SETUP_CLEARED ∧
        t.clear.flags = s.clear.flags ||| (1 <<< (cbuf + 2)) ∧
        t.clear.color_val = s.clear.color_val.set cbuf (h.util_pack_color_union surf.format color) ∧
        (cbuf < s.clear.color_val.length →
          t.clear.color_val.get? cbuf = some (h.util_pack_color_union surf.format color)) ∧
        t.clear.zsmask = s.clear.zsmask ∧ t.clear.zsvalue = s.clear.zsvalue) := by
  obtain ⟨t1, h1, h2, h3, _⟩ := set_scene_state_cleared_total h s hna hne
  constructor
  · intro zsbuf depth stencil f hz
    refine ⟨{ t1 with clear := { t1.clear with
        flags := t1.clear.flags ||| f,
        zsmask := t1.clear.zsmask ||| (clear_zs_value_mask h zsbuf.format depth stencil f).2,
        zsvalue :=
          (t1.clear.zsvalue &&& not64 (clear_zs_value_mask h zsbuf.format depth stencil f).2) |||
          ((clear_zs_value_mask h zsbuf.format depth stencil f).1 &&&
            (clear_zs_value_mask h zsbuf.format depth stencil f).2) } }, ?_, ?_⟩
    · unfold lp_setup_try_clear_zs
      simp only [hz, hna, if_false, h1]
    · simp only [h2, h3, and_self]
  · intro surf color cbuf hc
    refine ⟨{ t1 with clear := { t1.clear with
        flags := t1.clear.flags ||| (1 <<< (cbuf + 2)),
        color_val := t1.clear.color_val.set cbuf (h.util_pack_color_union surf.format color) } },
      ?_, ?_⟩
    · unfold lp_setup_try_clear_color_buffer
      simp only [hc, hna, if_false, h1]
    · simp only [h2, h3, true_and, and_true]
      intro hlt
      simp [hlt]

theorem deferred_clear_merges_witness :
    demo_bound.state ≠ setup_state.SETUP_ACTIVE ∧ demo_bound.scenes ≠ [] ∧
    demo_bound.fb.zsbuf = some { format := pipe_format.other 2, texture := 11 } ∧
    demo_bound.fb.cbufs.get? 0 = some (some { format := pipe_format.other 1, texture := 10 }) ∧
    ((∀ zsbuf depth stencil f, demo_bound.fb.zsbuf = some zsbuf →
      ∃ t, lp_setup_try_clear_zs demo_headers depth stencil f demo_bound = some (true, t) ∧
        t.state = setup_state.SETUP_CLEARED ∧
        t.clear.flags = demo_bound.clear.flags ||| f ∧
        t.clear.zsmask = demo_bound.clear.zsmask |||
          (clear_zs_value_mask demo_headers zsbuf.format depth stencil f).2 ∧
        t.clear.zsvalue =
          (demo_bound.clear.zsvalue &&&
            not64 (clear_zs_value_mask demo_headers zsbuf.format depth stencil f).2) |||
          ((clear_zs_value_mask demo_headers zsbuf.format depth stencil f).1 &&&
            (clear_zs_value_mask demo_headers zsbuf.format depth stencil f).2) ∧
        t.clear.color_val = demo_bound.clear.color_val) ∧
    (∀ surf color cbuf, demo_bound.fb.cbufs.get? cbuf = some (some surf) →
      ∃ t, lp_setup_try_clear_color_buffer demo_headers color cbuf demo_bound = some (true, t) ∧
        t.state = setup_state.SETUP_CLEARED ∧
        t.clear.flags = demo_bound.clear.flags ||| (1 <<< (cbuf + 2)) ∧
        t.clear.color_val = demo_bound.clear.color_val.set cbuf
          (demo_headers.util_pack_color_union surf.format color) ∧
        (cbuf < demo_bound.clear.color_val.length →
          t.clear.color_val.get? cbuf =
            some (demo_headers.util_pack_color_union surf.format color)) ∧
        t.clear.zsmask = demo_bound.clear.zsmask ∧
        t.clear.zsvalue = demo_bound.clear.zsvalue)) :=
  ⟨by decide, by decide, by decide, by decide,
   deferred_clear_merges demo_headers demo_bound (by decide) (by decide)⟩

/-- Claim C11: clears issued before any draw coalesce.  In a state other than SETUP_ACTIVE
(pool not empty, a depth/stencil buffer bound when depth or stencil is requested) two calls
of `lp_setup_clear` with the same flags, first with colour `c1` (depth `d1`, stencil `st1`),
then with `c2` (`d2`, `st2`), leave exactly the context that the single call with the second
values leaves.  For every requested bound colour buffer `cbuf` the state is then
SETUP_CLEARED, `color_val[cbuf]` is the packed `c2`, the commands replayed at activation
contain exactly one LP_RAST_OP_CLEAR_COLOR for `cbuf`, carrying the packed `c2` and no other
value, and a successful transition to SETUP_ACTIVE appends exactly these commands to every
bin of the scene. -/
theorem clears_coalesce (h : lp_headers) (s : lp_setup_context)
    (hna : s.state ≠ setup_state.SETUP_ACTIVE) (hne : s.scenes ≠ [])
    (c1 d1 st1 c2 d2 st2 flags : Nat)
    (hz : flags &&& PIPE_CLEAR_DEPTHSTENCIL ≠ 0 → s.fb.zsbuf.isSome = true) :
    ∃ t, (lp_setup_clear h c1 d1 st1 flags s).bind (lp_setup_clear h c2 d2 st2 flags) = some t ∧
      lp_setup_clear h c2 d2 st2 flags s = some t ∧
      ∀ cbuf surf, cbuf < s.fb.nr_cbufs → s.fb.nr_cbufs ≤ PIPE_MAX_COLOR_BUFS →
        cbuf < s.clear.color_val.length → flags &&& (1 <<< (2 + cbuf)) ≠ 0 →
        s.fb.cbufs.get? cbuf = some (some surf) →
        t.state = setup_state.SETUP_CLEARED ∧
        t.clear.color_val.get? cbuf = some (h.util_pack_color_union surf.format c2) ∧
        (accumulated_clear_cmds t).count
          (lp_rast_cmd.LP_RAST_OP_CLEAR_COLOR cbuf (h.util_pack_color_union surf.format c2)) = 1 ∧
        (∀ w, lp_rast_cmd.LP_RAST_OP_CLEAR_COLOR cbuf w ∈ accumulated_clear_cmds t →
          w = h.util_pack_color_union surf.format c2) ∧
        ∀ t2, set_scene_state h t setup_state.SETUP_ACTIVE = some (true, t2) →
          ∃ sl, t.scene = some sl ∧ t2.scene = some sl ∧
            t2.state = setup_state.SETUP_ACTIVE ∧
            scene_bins t2 sl = (scene_bins t sl).map (fun b => b ++ accumulated_clear_cmds t) := by
  obtain ⟨t1, hc⟩ := cleared_of_total h s hna hne
  have hseq := lp_setup_clear_seq h s t1 hna hc c1 d1 st1 flags c2 d2 st2 flags hz hz
  have hone := lp_setup_clear_deferred h c2 d2 st2 flags s t1 hna hc hz
  rw [Bool.or_self, clear_accumulate_absorb] at hseq
  refine ⟨_, hseq, hone, ?_⟩
  intro cbuf surf hn hmax hlen hbit hg
  have hh := clear_hits_of_color s.fb flags cbuf surf hn (by omega) hbit hg
  rw [if_pos hh]
  have hp : color_pending cbuf (h.util_pack_color_union surf.format c2)
      (clear_accumulate h s.fb c2 d2 st2 flags s.clear) :=
    clear_accumulate_pending h s.fb c2 d2 st2 flags cbuf surf s.clear hn (by omega) hlen hbit hg
  have hone2 := accumulated_one_color
    { t1 with clear := clear_accumulate h s.fb c2 d2 st2 flags s.clear } cbuf _
    (by show cbuf < t1.fb.nr_cbufs; rw [hc.fb]; exact hn) hp
  refine ⟨hc.state, hp.2.2, hone2.1, hone2.2, ?_⟩
  intro t2 ht2
  exact activation_appends h _ t2 hc.state (by show t1.fb.nr_cbufs ≤ _; rw [hc.fb]; exact hmax) ht2

theorem clears_coalesce_witness :
    demo_bound.state ≠ setup_state.SETUP_ACTIVE ∧ demo_bound.scenes ≠ [] ∧
    ∃ t, (lp_setup_clear demo_headers 5 9 3 7 demo_bound).bind
        (lp_setup_clear demo_headers 6 9 3 7) = some t ∧
      lp_setup_clear demo_headers 6 9 3 7 demo_bound = some t ∧
      ∀ cbuf surf, cbuf < demo_bound.fb.nr_cbufs → demo_bound.fb.nr_cbufs ≤ PIPE_MAX_COLOR_BUFS →
        cbuf < demo_bound.clear.color_val.length → 7 &&& (1 <<< (2 + cbuf)) ≠ 0 →
        demo_bound.fb.cbufs.get? cbuf = some (some surf) →
        t.state = setup_state.SETUP_CLEARED ∧
        t.clear.color_val.get? cbuf = some (demo_headers.util_pack_color_union surf.format 6) ∧
        (accumulated_clear_cmds t).count
          (lp_rast_cmd.LP_RAST_OP_CLEAR_COLOR cbuf
            (demo_headers.util_pack_color_union surf.format 6)) = 1 ∧
        (∀ w, lp_rast_cmd.LP_RAST_OP_CLEAR_COLOR cbuf w ∈ accumulated_clear_cmds t →
          w = demo_headers.util_pack_color_union surf.format 6) ∧
        ∀ t2, set_scene_state demo_headers t setup_state.SETUP_ACTIVE = some (true, t2) →
          ∃ sl, t.scene = some sl ∧ t2.scene = some sl ∧
            t2.state = setup_state.SETUP_ACTIVE ∧
            scene_bins t2 sl = (scene_bins t sl).map (fun b => b ++ accumulated_clear_cmds t) :=
  ⟨by decide, by decide,
   clears_coalesce demo_headers demo_bound (by decide) (by decide) 5 9 3 6 9 3 7
     (fun _ => by decide)⟩

/-- Claim C12: `lp_setup_clear` is order-independent for disjoint targets.  When no scene is
active (pool not empty, a depth/stencil buffer bound when depth or stencil is requested), two
clear requests with disjoint flag sets (different colour buffers, colour versus
depth/stencil, or depth versus stencil, in which case their packed masks are disjoint) leave
the same context in either order, so in particular the same accumulator (flags, color_val,
zsmask, zsvalue) and the same state. -/
theorem clear_order_independent (h : lp_headers) (s : lp_setup_context)
    (hna : s.state ≠ setup_state.SETUP_ACTIVE) (hne : s.scenes ≠ [])
    (ca da sta fa cb db stb fb2 : Nat)
    (hza : fa &&& PIPE_CLEAR_DEPTHSTENCIL ≠ 0 → s.fb.zsbuf.isSome = true)
    (hzb : fb2 &&& PIPE_CLEAR_DEPTHSTENCIL ≠ 0 → s.fb.zsbuf.isSome = true)
    (hd : fa &&& fb2 = 0)
    (hm : ∀ z, s.fb.zsbuf = some z → fa &&& PIPE_CLEAR_DEPTHSTENCIL ≠ 0 →
      fb2 &&& PIPE_CLEAR_DEPTHSTENCIL ≠ 0 →
      (clear_zs_value_mask h z.format da sta (fa &&& PIPE_CLEAR_DEPTHSTENCIL)).2 &&&
        (clear_zs_value_mask h z.format db stb (fb2 &&& PIPE_CLEAR_DEPTHSTENCIL)).2 = 0) :
    ∃ t, (lp_setup_clear h ca da sta fa s).bind (lp_setup_clear h cb db stb fb2) = some t ∧
      (lp_setup_clear h cb db stb fb2 s).bind (lp_setup_clear h ca da sta fa) = some t := by
  obtain ⟨t1, hc⟩ := cleared_of_total h s hna hne
  have h1 := lp_setup_clear_seq h s t1 hna hc ca da sta fa cb db stb fb2 hza hzb
  have h2 := lp_setup_clear_seq h s t1 hna hc cb db stb fb2 ca da sta fa hzb hza
  rw [Bool.or_comm, clear_accumulate_comm h s.fb ca da sta fa cb db stb fb2 s.clear hd hm] at h2
  exact ⟨_, h1, h2⟩

theorem clear_order_independent_witness :
    demo_bound.state ≠ setup_state.SETUP_ACTIVE ∧ demo_bound.scenes ≠ [] ∧ 5 &&& 2 = 0 ∧
    ∃ t, (lp_setup_clear demo_headers 5 9 0 5 demo_bound).bind
           (lp_setup_clear demo_headers 0 0 3 2) = some t ∧
      (lp_setup_clear demo_headers 0 0 3 2 demo_bound).bind
           (lp_setup_clear demo_headers 5 9 0 5) = some t :=
  ⟨by decide, by decide, by decide,
   clear_order_independent demo_headers demo_bound (by decide) (by decide) 5 9 0 5 0 0 3 2
     (fun _ => by decide) (fun _ => by decide) (by decide)
     (by
       intro z hz _ _
       have hzb : demo_bound.fb.zsbuf = some { format := pipe_format.other 2, texture := 11 } := by
         decide
       rw [hzb] at hz
       cases hz
       decide)⟩

/-- Claim C13: for a depth/stencil buffer whose packed depth mask `md` and packed stencil mask
`ms` are disjoint, a depth-only `lp_setup_clear` followed by a stencil-only one in a state
other than SETUP_ACTIVE returns a context in state SETUP_CLEARED whose accumulated mask is
`zsmask | md | ms` and whose accumulated value equals the packed depth on the bits of `md`
and the packed stencil on the bits of `ms`; the commands replayed at activation end with
the single LP_RAST_OP_CLEAR_ZSTENCIL carrying this value and mask, and a successful
transition to SETUP_ACTIVE appends them to every bin.  The result does not depend on the
stencil argument of the first call nor on the depth argument of the second, as far as the
packing function keeps the depth bits apart from the stencil argument and the stencil bits
apart from the depth argument. -/
theorem depth_then_stencil_merge (h : lp_headers) (s : lp_setup_context)
    (hna : s.state ≠ setup_state.SETUP_ACTIVE) (hne : s.scenes ≠ [])
    (z : pipe_surface) (hz : s.fb.zsbuf = some z)
    (c1 depth st1 c2 d2 stencil : Nat)
    (hd : (clear_zs_value_mask h z.format depth st1 PIPE_CLEAR_DEPTH).2 &&&
          (clear_zs_value_mask h z.format d2 stencil PIPE_CLEAR_STENCIL).2 = 0) :
    ∃ t, (lp_setup_clear h c1 depth st1 PIPE_CLEAR_DEPTH s).bind
           (lp_setup_clear h c2 d2 stencil PIPE_CLEAR_STENCIL) = some t ∧
      t.state = setup_state.SETUP_CLEARED ∧ t.fb = s.fb ∧
      t.clear.flags = s.clear.flags ||| PIPE_CLEAR_DEPTH ||| PIPE_CLEAR_STENCIL ∧
      t.clear.zsmask = s.clear.zsmask |||
        (clear_zs_value_mask h z.format depth st1 PIPE_CLEAR_DEPTH).2 |||
        (clear_zs_value_mask h z.format d2 stencil PIPE_CLEAR_STENCIL).2 ∧
      t.clear.zsvalue &&& (clear_zs_value_mask h z.format depth st1 PIPE_CLEAR_DEPTH).2 =
        h.util_pack64_z_stencil z.format depth st1 % 2 ^ 64 &&&
          (h.util_pack64_mask_z_stencil z.format 0xFFFFFFFF 0 % 2 ^ 64) ∧
      t.clear.zsvalue &&& (clear_zs_value_mask h z.format d2 stencil PIPE_CLEAR_STENCIL).2 =
        h.util_pack64_z_stencil z.format d2 stencil % 2 ^ 64 &&&
          (h.util_pack64_mask_z_stencil z.format 0 0xFF % 2 ^ 64) ∧
      accumulated_clear_cmds t = color_clear_cmds t 0 t.fb.nr_cbufs ++
        [lp_rast_cmd.LP_RAST_OP_CLEAR_ZSTENCIL t.clear.zsvalue t.clear.zsmask] ∧
      (∀ t2, t.fb.nr_cbufs ≤ PIPE_MAX_COLOR_BUFS →
        set_scene_state h t setup_state.SETUP_ACTIVE = some (true, t2) →
        ∃ sl, t.scene = some sl ∧ t2.scene = some sl ∧ t2.state = setup_state.SETUP_ACTIVE ∧
          scene_bins t2 sl = (scene_bins t sl).map (fun b => b ++ accumulated_clear_cmds t)) ∧
      (∀ st1x d2x,
        h.util_pack64_z_stencil z.format depth st1x % 2 ^ 64 &&&
            (h.util_pack64_mask_z_stencil z.format 0xFFFFFFFF 0 % 2 ^ 64) =
          h.util_pack64_z_stencil z.format depth st1 % 2 ^ 64 &&&
            (h.util_pack64_mask_z_stencil z.format 0xFFFFFFFF 0 % 2 ^ 64) →
        h.util_pack64_z_stencil z.format d2x stencil % 2 ^ 64 &&&
            (h.util_pack64_mask_z_stencil z.format 0 0xFF % 2 ^ 64) =
          h.util_pack64_z_stencil z.format d2 stencil % 2 ^ 64 &&&
            (h.util_pack64_mask_z_stencil z.format 0 0xFF % 2 ^ 64) →
        (lp_setup_clear h c1 depth st1x PIPE_CLEAR_DEPTH s).bind
           (lp_setup_clear h c2 d2x stencil PIPE_CLEAR_STENCIL) = some t) := by
  obtain ⟨t1, hc⟩ := cleared_of_total h s hna hne
  have hzs : s.fb.zsbuf.isSome = true := by rw [hz]; rfl
  have hseq := fun a b => lp_setup_clear_seq h s t1 hna hc c1 depth a PIPE_CLEAR_DEPTH
    c2 b stencil PIPE_CLEAR_STENCIL (fun _ => hzs) (fun _ => hzs)
  simp only [clear_hits_depth, Bool.true_or, if_true, clear_accumulate_depth,
    clear_accumulate_stencil, zs_accumulate_some h s.fb z hz] at hseq
  refine ⟨_, hseq st1 d2, hc.state, hc.fb, rfl, rfl, ?_, ?_, ?_, ?_, ?_⟩
  · show ((((s.clear.zsvalue &&& not64 _) ||| _) &&& not64 _) ||| _) &&& _ = _
    rw [zs_two_merge_left _ _ _ _ _ hd (clear_zs_mask_lt _ _ _ _ _), clear_zs_value_land_mask,
      clear_zs_value_depth]
  · show ((((s.clear.zsvalue &&& not64 _) ||| _) &&& not64 _) ||| _) &&& _ = _
    rw [zs_two_merge_right, clear_zs_value_land_mask, clear_zs_value_stencil]
  · rw [accumulated_clear_cmds_eq, if_pos]
    refine ⟨?_, lor_depth_stencil_land _⟩
    show t1.fb.zsbuf.isSome = true
    rw [hc.fb]
    exact hzs
  · intro t2 hnr ht2
    exact activation_appends h _ t2 hc.state hnr ht2
  · intro st1x d2x hx1 hx2
    rw [hseq st1x d2x]
    have e1 : clear_zs_value_mask h z.format depth st1x PIPE_CLEAR_DEPTH =
        clear_zs_value_mask h z.format depth st1 PIPE_CLEAR_DEPTH :=
      Prod.ext (by rw [clear_zs_value_depth, clear_zs_value_depth, hx1])
        (clear_zs_mask_indep _ _ _ _ _ _ _)
    have e2 : clear_zs_value_mask h z.format d2x stencil PIPE_CLEAR_STENCIL =
        clear_zs_value_mask h z.format d2 stencil PIPE_CLEAR_STENCIL :=
      Prod.ext (by rw [clear_zs_value_stencil, clear_zs_value_stencil, hx2])
        (clear_zs_mask_indep _ _ _ _ _ _ _)
    rw [e1, e2]

theorem depth_then_stencil_merge_witness :
    demo_bound.state ≠ setup_state.SETUP_ACTIVE ∧ demo_bound.scenes ≠ [] ∧
    demo_bound.fb.zsbuf = some { format := pipe_format.other 2, texture := 11 } ∧
    (clear_zs_value_mask demo_headers (pipe_format.other 2) 9 0 PIPE_CLEAR_DEPTH).2 &&&
      (clear_zs_value_mask demo_headers (pipe_format.other 2) 0 3 PIPE_CLEAR_STENCIL).2 = 0 ∧
    ∃ t, (lp_setup_clear demo_headers 0 9 0 PIPE_CLEAR_DEPTH demo_bound).bind
           (lp_setup_clear demo_headers 0 0 3 PIPE_CLEAR_STENCIL) = some t ∧
      t.state = setup_state.SETUP_CLEARED ∧
      accumulated_clear_cmds t =
        [lp_rast_cmd.LP_RAST_OP_CLEAR_ZSTENCIL (9 + 3 * 2 ^ 24) (2 ^ 24 - 1 + 255 * 2 ^ 24)] := by
  refine ⟨by decide, by decide, by decide, by decide, ?_⟩
  obtain ⟨t, h1, h2, _⟩ := depth_then_stencil_merge demo_headers demo_bound (by decide)
    (by decide) { format := pipe_format.other 2, texture := 11 } (by decide) 0 9 0 0 0 3
    (by decide)
  refine ⟨t, h1, h2, ?_⟩
  have e : (lp_setup_clear demo_headers 0 9 0 PIPE_CLEAR_DEPTH demo_bound).bind
      (lp_setup_clear demo_headers 0 0 3 PIPE_CLEAR_STENCIL) =
      some (((lp_setup_clear demo_headers 0 9 0 PIPE_CLEAR_DEPTH demo_bound).bind
        (lp_setup_clear demo_headers 0 0 3 PIPE_CLEAR_STENCIL)).getD demo_fresh) := by rfl
  rw [e] at h1
  cases h1
  decide

/-- Claim C14: when a scene is active (state SETUP_ACTIVE, a valid current scene) and every
allocation and binning call succeeds, `lp_setup_clear` returns with the requested clears
appended to every bin of the current scene, one LP_RAST_OP_CLEAR_ZSTENCIL for a
depth/stencil request on a bound buffer, then one LP_RAST_OP_CLEAR_COLOR per requested bound
colour buffer, and leaves the pending-clear accumulator, the state SETUP_ACTIVE and the
current scene unchanged; no scene is handed to the rasterizer. -/
theorem active_clear_binds_immediately (h : lp_headers) (s : lp_setup_context) (sl : Nat)
    (color depth stencil flags : Nat)
    (hst : s.state = setup_state.SETUP_ACTIVE) (hsc : s.scene = some sl)
    (hlt : sl < s.scenes.length) (ha : all_succeed s)
    (hz : flags &&& PIPE_CLEAR_DEPTHSTENCIL ≠ 0 → s.fb.zsbuf.isSome = true)
    (hnr : s.fb.nr_cbufs ≤ PIPE_MAX_COLOR_BUFS) :
    ∃ t, lp_setup_clear h color depth stencil flags s = some t ∧
      t.state = setup_state.SETUP_ACTIVE ∧ t.scene = some sl ∧ t.clear = s.clear ∧
      queue_events t.trace = queue_events s.trace ∧
      scene_bins t sl = (scene_bins s sl).map (fun b => b ++
        immediate_clear_cmds h s.fb color depth stencil flags) := by
  unfold lp_setup_clear immediate_clear_cmds
  obtain ⟨s1, e1, k1, a1, b1⟩ := clear_zs_active h s sl depth stencil flags hst hsc hlt ha hz
  rw [e1]
  dsimp only
  by_cases hcol : flags &&& PIPE_CLEAR_COLOR ≠ 0
  · rw [if_pos hcol]
    obtain ⟨t, e2, k2, a2, b2⟩ := clear_color_active h color flags sl s1.fb.nr_cbufs 0 s1
      (k1.state.trans hst) (k1.scene.trans hsc) (by rw [k1.len]; exact hlt) a1
    have k := keeps_trans k1 k2
    refine ⟨t, e2, k.state.trans hst, k.scene.trans hsc, k.clear, k.queued, ?_⟩
    rw [b2, b1, List.map_map, k1.fb]
    apply List.map_congr_left
    intro b _
    simp [Function.comp]
  · rw [if_neg hcol]
    have hzero : flags &&& PIPE_CLEAR_COLOR = 0 := by
      by_contra hx
      exact hcol hx
    refine ⟨s1, rfl, k1.state.trans hst, k1.scene.trans hsc, k1.clear, k1.queued, ?_⟩
    rw [b1, immediate_color_cmds_nil h s.fb color flags 0 _ hzero (by omega)]
    simp

theorem active_clear_binds_immediately_witness :
    demo_active.state = setup_state.SETUP_ACTIVE ∧ demo_active.scene = some 0 ∧
    0 < demo_active.scenes.length ∧ all_succeed demo_active ∧
    demo_active.fb.nr_cbufs ≤ PIPE_MAX_COLOR_BUFS ∧
    immediate_clear_cmds demo_headers demo_active.fb 5 9 3 7 =
      [lp_rast_cmd.LP_RAST_OP_CLEAR_ZSTENCIL (9 + 3 * 2 ^ 24) (2 ^ 24 - 1 + 255 * 2 ^ 24),
       lp_rast_cmd.LP_RAST_OP_CLEAR_COLOR 0 5] ∧
    ∃ t, lp_setup_clear demo_headers 5 9 3 7 demo_active = some t ∧
      t.state = setup_state.SETUP_ACTIVE ∧ t.scene = some 0 ∧ t.clear = demo_active.clear ∧
      queue_events t.trace = queue_events demo_active.trace ∧
      scene_bins t 0 = (scene_bins demo_active 0).map (fun b => b ++
        immediate_clear_cmds demo_headers demo_active.fb 5 9 3 7) :=
  ⟨by decide, by decide, by decide, by unfold all_succeed; decide, by decide, by decide,
   active_clear_binds_immediately demo_headers demo_active 0 5 9 3 7 (by decide) (by decide)
     (by decide) (by unfold all_succeed; decide) (fun _ => by decide) (by decide)⟩

/-- Claim C15: the retry of a failed clear in `lp_setup_clear` cannot fail.  Whatever
`set_scene_state(setup, SETUP_FLUSHED)` returns, the state is SETUP_FLUSHED afterwards;
outside SETUP_ACTIVE both try-clear functions return TRUE whenever they return; so when the
first `lp_setup_try_clear_zs` (or `lp_setup_try_clear_color_buffer`) returns FALSE, the
state was SETUP_ACTIVE, the flush succeeds and submits the current scene, and the second
attempt returns TRUE through the deferred path on a newly acquired empty scene, with only
the retried buffer pending in the accumulator; `lp_setup_clear_zs` returns that context and
the colour loop goes on with the next buffer from it. -/
theorem clear_retry_never_fails (h : lp_headers) (s s1 : lp_setup_context)
    (color depth stencil flags cbuf : Nat) :
    (∀ u b t, set_scene_state h u setup_state.SETUP_FLUSHED = some (b, t) →
      t.state = setup_state.SETUP_FLUSHED) ∧
    (∀ u, u.state ≠ setup_state.SETUP_ACTIVE → ∀ r t,
      (lp_setup_try_clear_zs h depth stencil flags u = some (r, t) → r = true) ∧
      (lp_setup_try_clear_color_buffer h color cbuf u = some (r, t) → r = true)) ∧
    (lp_setup_try_clear_zs h depth stencil (flags &&& PIPE_CLEAR_DEPTHSTENCIL) s =
        some (false, s1) →
      ∃ sl s2 s3, s.state = setup_state.SETUP_ACTIVE ∧ s.scene = some sl ∧
        set_scene_state h s1 setup_state.SETUP_FLUSHED = some (true, s2) ∧
        s2.state = setup_state.SETUP_FLUSHED ∧
        queue_events s2.trace = queue_events s.trace ++ [sl] ∧
        lp_setup_try_clear_zs h depth stencil (flags &&& PIPE_CLEAR_DEPTHSTENCIL) s2 =
          some (true, s3) ∧
        s3.state = setup_state.SETUP_CLEARED ∧
        s3.clear.flags = flags &&& PIPE_CLEAR_DEPTHSTENCIL ∧
        (∀ v ∈ s3.clear.color_val, v = 0) ∧
        queue_events s3.trace = queue_events s2.trace ∧
        (∃ sl3, s3.scene = some sl3 ∧ ∀ b ∈ scene_bins s3 sl3, b = []) ∧
        (flags &&& PIPE_CLEAR_DEPTHSTENCIL ≠ 0 →
          lp_setup_clear_zs h depth stencil flags s = some s3)) ∧
    (lp_setup_try_clear_color_buffer h color cbuf s = some (false, s1) →
      ∃ sl s2 s3, s.state = setup_state.SETUP_ACTIVE ∧ s.scene = some sl ∧
        set_scene_state h s1 setup_state.SETUP_FLUSHED = some (true, s2) ∧
        s2.state = setup_state.SETUP_FLUSHED ∧
        queue_events s2.trace = queue_events s.trace ++ [sl] ∧
        lp_setup_try_clear_color_buffer h color cbuf s2 = some (true, s3) ∧
        s3.state = setup_state.SETUP_CLEARED ∧
        s3.clear.flags = 1 <<< (cbuf + 2) ∧ s3.clear.zsmask = 0 ∧ s3.clear.zsvalue = 0 ∧
        queue_events s3.trace = queue_events s2.trace ∧
        (∃ sl3, s3.scene = some sl3 ∧ ∀ b ∈ scene_bins s3 sl3, b = []) ∧
        (∀ n, flags &&& (1 <<< (2 + cbuf)) ≠ 0 →
          lp_setup_clear_color h color flags (n + 1) cbuf s =
            lp_setup_clear_color h color flags n (cbuf + 1) s3)) := by
  refine ⟨?_, ?_, ?_, ?_⟩
  · intro u b t hr
    cases b with
    | false => exact (set_scene_state_false h u t _ hr).1
    | true => exact set_scene_state_true_state h u t _ hr
  · intro u hna r t
    constructor
    · intro hr
      cases r with
      | true => rfl
      | false => exact absurd (try_clear_zs_false h _ _ _ u t hr).1 hna
    · intro hr
      cases r with
      | true => rfl
      | false => exact absurd (try_clear_color_false h _ _ u t hr).1 hna
  · intro hr
    obtain ⟨hst, k, ⟨sl, hsc, hlt⟩, hz⟩ := try_clear_zs_false h _ _ _ s s1 hr
    obtain ⟨s2, e2, p1, p2, p3, p4, _, p6⟩ := flush_from_active h s1 sl (k.state.trans hst)
      (k.scene.trans hsc) (by rw [k.len]; exact hlt)
    have hne2 : s2.scenes ≠ [] := by
      intro he
      rw [he, k.len] at p4
      simp only [List.length_nil] at p4
      omega
    obtain ⟨t1, hc, hq, sl3, q1, q2⟩ := cleared_of_flushed h s2 p1 hne2
    have hna2 : s2.state ≠ setup_state.SETUP_ACTIVE := by rw [p1]; decide
    have hz2 : s2.fb.zsbuf.isSome = true := by rw [p3, k.fb]; exact hz
    have e3 := try_clear_zs_deferred h depth stencil (flags &&& PIPE_CLEAR_DEPTHSTENCIL) s2 t1
      hna2 hc hz2
    have hflags : (zs_accumulate h s2.fb depth stencil (flags &&& PIPE_CLEAR_DEPTHSTENCIL)
        s2.clear).flags = flags &&& PIPE_CLEAR_DEPTHSTENCIL := by
      unfold zs_accumulate
      cases hzb : s2.fb.zsbuf with
      | none => rw [hzb] at hz2; exact absurd hz2 (by decide)
      | some z =>
        dsimp only
        rw [p2.clear_flags, Nat.zero_or]
    refine ⟨sl, s2, _, hst, hsc, e2, p1, ?_, e3, hc.state, hflags, ?_, hq, ⟨sl3, q1, q2⟩, ?_⟩
    · rw [p6, k.queued]
    · show ∀ v ∈ (zs_accumulate h s2.fb depth stencil (flags &&& PIPE_CLEAR_DEPTHSTENCIL)
        s2.clear).color_val, v = 0
      rw [zs_accumulate_color_val]
      exact p2.clear_color
    · intro hf
      unfold lp_setup_clear_zs
      rw [if_pos hf]
      dsimp only
      rw [hr]
      dsimp only
      rw [e2]
      dsimp only
      rw [e3]
      rfl
  · intro hr
    obtain ⟨hst, k, ⟨sl, hsc, hlt⟩, surf, hg⟩ := try_clear_color_false h _ _ s s1 hr
    obtain ⟨s2, e2, p1, p2, p3, p4, _, p6⟩ := flush_from_active h s1 sl (k.state.trans hst)
      (k.scene.trans hsc) (by rw [k.len]; exact hlt)
    have hne2 : s2.scenes ≠ [] := by
      intro he
      rw [he, k.len] at p4
      simp only [List.length_nil] at p4
      omega
    obtain ⟨t1, hc, hq, sl3, q1, q2⟩ := cleared_of_flushed h s2 p1 hne2
    have hna2 : s2.state ≠ setup_state.SETUP_ACTIVE := by rw [p1]; decide
    have hg2 : s2.fb.cbufs.get? cbuf = some (some surf) := by rw [p3, k.fb]; exact hg
    have hs2 : (s2.fb.cbufs.getD cbuf none).isSome = true := by
      rw [List.getD_eq_getElem?_getD]
      simp only [List.get?_eq_getElem?] at hg2
      rw [hg2]
      rfl
    have e3 := try_clear_color_deferred h color cbuf s2 t1 hna2 hc hs2
    have hacc := color_accumulate_some h s2.fb color cbuf s2.clear surf hg2
    refine ⟨sl, s2, _, hst, hsc, e2, p1, ?_, e3, hc.state, ?_, ?_, ?_, hq, ⟨sl3, q1, q2⟩, ?_⟩
    · rw [p6, k.queued]
    · show (color_accumulate h s2.fb color cbuf s2.clear).flags = _
      rw [hacc]
      show s2.clear.flags ||| 1 <<< (cbuf + 2) = _
      rw [p2.clear_flags, Nat.zero_or]
    · show (color_accumulate h s2.fb color cbuf s2.clear).zsmask = _
      rw [hacc]
      exact p2.clear_zsmask
    · show (color_accumulate h s2.fb color cbuf s2.clear).zsvalue = _
      rw [hacc]
      exact p2.clear_zsvalue
    · intro n hbit
      have hs : (s.fb.cbufs.getD cbuf none).isSome = true := by
        rw [List.getD_eq_getElem?_getD]
        simp only [List.get?_eq_getElem?] at hg
        rw [hg]
        rfl
      rw [lp_setup_clear_color, if_pos ⟨hbit, hs⟩, hr]
      dsimp only
      rw [e2]
      dsimp only
      rw [e3]

theorem clear_retry_never_fails_witness :
    lp_setup_try_clear_zs demo_headers 9 3 (7 &&& PIPE_CLEAR_DEPTHSTENCIL) demo_full =
      some (false, demo_zs_failed) ∧
    lp_setup_try_clear_color_buffer demo_headers 5 0 demo_full =
      some (false, demo_color_failed) ∧
    (∃ sl s2 s3, demo_full.state = setup_state.SETUP_ACTIVE ∧ demo_full.scene = some sl ∧
        set_scene_state demo_headers demo_zs_failed setup_state.SETUP_FLUSHED = some (true, s2) ∧
        s2.state = setup_state.SETUP_FLUSHED ∧
        queue_events s2.trace = queue_events demo_full.trace ++ [sl] ∧
        lp_setup_try_clear_zs demo_headers 9 3 (7 &&& PIPE_CLEAR_DEPTHSTENCIL) s2 =
          some (true, s3) ∧
        s3.state = setup_state.SETUP_CLEARED ∧
        s3.clear.flags = 7 &&& PIPE_CLEAR_DEPTHSTENCIL ∧
        (∀ v ∈ s3.clear.color_val, v = 0) ∧
        queue_events s3.trace = queue_events s2.trace ∧
        (∃ sl3, s3.scene = some sl3 ∧ ∀ b ∈ scene_bins s3 sl3, b = []) ∧
        (7 &&& PIPE_CLEAR_DEPTHSTENCIL ≠ 0 →
          lp_setup_clear_zs demo_headers 9 3 7 demo_full = some s3)) ∧
    (∃ sl s2 s3, demo_full.state = setup_state.SETUP_ACTIVE ∧ demo_full.scene = some sl ∧
        set_scene_state demo_headers demo_color_failed setup_state.SETUP_FLUSHED =
          some (true, s2) ∧
        s2.state = setup_state.SETUP_FLUSHED ∧
        queue_events s2.trace = queue_events demo_full.trace ++ [sl] ∧
        lp_setup_try_clear_color_buffer demo_headers 5 0 s2 = some (true, s3) ∧
        s3.state = setup_state.SETUP_CLEARED ∧
        s3.clear.flags = 1 <<< (0 + 2) ∧ s3.clear.zsmask = 0 ∧ s3.clear.zsvalue = 0 ∧
        queue_events s3.trace = queue_events s2.trace ∧
        (∃ sl3, s3.scene = some sl3 ∧ ∀ b ∈ scene_bins s3 sl3, b = []) ∧
        (∀ n, 7 &&& (1 <<< (2 + 0)) ≠ 0 →
          lp_setup_clear_color demo_headers 5 7 (n + 1) 0 demo_full =
            lp_setup_clear_color demo_headers 5 7 n (0 + 1) s3)) :=
  ⟨by rfl, by rfl,
   (clear_retry_never_fails demo_headers demo_full demo_zs_failed 5 9 3 7 0).2.2.1 (by rfl),
   (clear_retry_never_fails demo_headers demo_full demo_color_failed 5 9 3 7 0).2.2.2 (by rfl)⟩

/-- Claim C16 does not hold of the code: a second snapshot is stored.  In `demo_drawn` a
draw has stored the fragment state in the active scene (record 2 of the arena) and nothing
is dirty; `lp_setup_set_fs_variant` with the same variant leaves `fs.current` and
`fs.stored` unchanged and only LP_SETUP_NEW_FS dirty; yet the next
`try_update_scene_state` calls `lp_scene_alloc`, adds a shader reference and replaces
`fs.stored` by a new record (record 4).  The stored record carries the anisotropic filter
table written after the copy, `fs.current` never does, so the two always compare
different. -/
theorem identical_rebind_stores_again :
    demo_drawn.state = setup_state.SETUP_ACTIVE ∧ demo_drawn.dirty = 0 ∧
    demo_drawn.fs.current.variant = 77 ∧
    demo_drawn.fs.stored.map (fun st => (st.serial, st.val.variant)) = some (2, 77) ∧
    demo_rebound.fs.current = demo_drawn.fs.current ∧
    demo_rebound.fs.stored = demo_drawn.fs.stored ∧
    demo_rebound.dirty = LP_SETUP_NEW_FS ∧
    (try_update_scene_state demo_headers demo_rebound).map
      (fun r => (r.1, r.2.trace.drop demo_rebound.trace.length,
        r.2.fs.stored.map (fun st => (st.serial, st.val.variant)))) =
      some (true, [event.scene_alloc 0 true, event.add_frag_shader_reference 0 77 true],
        some (4, 77)) := by
  decide

/-- Claim C17, as stated, fails when the new scene cannot be started: in state SETUP_ACTIVE
with a dirty fragment state, the first snapshot fails (no memory in scene 0), the flush
submits scene 0, scene 1 is created and acquired, and the creation of its fence fails;
`lp_setup_update_state` returns FALSE in state SETUP_FLUSHED with no scene owned, and no
snapshot was attempted on the new scene. -/
theorem restart_without_snapshot_counterexample :
    (demo_restart [false, true, false]).state = setup_state.SETUP_ACTIVE ∧
    (try_update_scene_state demo_headers (demo_restart [false, true, false])).map Prod.fst =
      some false ∧
    (lp_setup_update_state demo_headers true (demo_restart [false, true, false])).map
      (fun r => (r.1, r.2.state, r.2.scene,
        r.2.trace.drop (demo_restart [false, true, false]).trace.length)) =
      some (false, setup_state.SETUP_FLUSHED, none,
        [event.scene_alloc 0 false, event.scene_end_binning 0, event.rast_queue_scene 0,
         event.scene_create true, event.scene_begin_binning 1, event.fence_create 1 false,
         event.scene_end_rasterization 1]) := by
  decide

/-- Claim C17, amended: when the first `try_update_scene_state` of
`lp_setup_update_state(setup, TRUE)` fails in state SETUP_ACTIVE, the transition to
SETUP_FLUSHED succeeds and submits the current scene, and one transition to SETUP_ACTIVE is
attempted, which submits nothing.  If that transition fails the call returns FALSE in state
SETUP_FLUSHED with no scene owned; if it succeeds a scene is owned in state SETUP_ACTIVE and
the call returns the result of `try_update_scene_state` on it; in both cases exactly the
one scene was submitted.  No call of `lp_setup_update_state` submits more than one scene. -/
theorem update_state_restarts_once (h : lp_headers) (s s2 : lp_setup_context)
    (hst : s.state = setup_state.SETUP_ACTIVE)
    (h1 : try_update_scene_state h s = some (false, s2)) :
    (∃ sl s3 b4 s4, s.scene = some sl ∧
      set_scene_state h s2 setup_state.SETUP_FLUSHED = some (true, s3) ∧
      s3.state = setup_state.SETUP_FLUSHED ∧ s3.scene = none ∧
      queue_events s3.trace = queue_events s.trace ++ [sl] ∧
      set_scene_state h s3 setup_state.SETUP_ACTIVE = some (b4, s4) ∧
      queue_events s4.trace = queue_events s3.trace ∧
      (b4 = false →
        lp_setup_update_state h true s = some (false, s4) ∧
        s4.state = setup_state.SETUP_FLUSHED ∧ s4.scene = none) ∧
      (b4 = true →
        s4.state = setup_state.SETUP_ACTIVE ∧ (∃ i, s4.scene = some i ∧ i < s4.scenes.length) ∧
        ∃ r, try_update_scene_state h s4 = some r ∧
          lp_setup_update_state h true s = some r ∧
          queue_events r.2.trace = queue_events s.trace ++ [sl])) ∧
    (∀ (u : Bool) (x : lp_setup_context) (r : Bool × lp_setup_context),
      lp_setup_update_state h u x = some r →
      ∃ l, queue_events r.2.trace = queue_events x.trace ++ l ∧ l.length ≤ 1) := by
  refine ⟨?_, fun u x r hr => lp_setup_update_state_queue h u x r hr⟩
  obtain ⟨sl, hsc, hlt⟩ := try_update_scene_state_scene h s _ h1
  have hk := (try_update_scene_state_keeps h s s2 false h1).1.base
  obtain ⟨s3, hf, hf1, hf2, _, hf4, _, hf6⟩ := flush_from_active h s2 sl
    (hk.state.trans hst) (hk.scene.trans hsc) (by rw [hk.len]; exact hlt)
  rw [hk.queued] at hf6
  have hne3 : s3.scenes ≠ [] := by
    intro hn
    rw [hn, hk.len] at hf4
    rw [← hf4] at hlt
    exact Nat.not_lt_zero _ hlt
  obtain ⟨r4, ha⟩ := set_scene_state_active_total h s3 hf1 hne3
  obtain ⟨b4, s4⟩ := r4
  have hq4 := set_scene_state_active_queue h s3 s4 b4 ha
  have hsome : s.scene.isSome = true := by rw [hsc]; rfl
  have hdec : decide (s.state ≠ setup_state.SETUP_ACTIVE) = false := by
    rw [hst]; rfl
  refine ⟨sl, s3, b4, s4, hsc, hf, hf1, hf2.scene, hf6, ha, hq4, ?_, ?_⟩
  · intro hb
    subst hb
    obtain ⟨q1, q2, _⟩ := set_scene_state_false h s3 s4 _ ha
    refine ⟨?_, q1, q2.scene⟩
    unfold lp_setup_update_state
    simp only [hdec, Bool.and_false, Bool.false_eq_true, if_false, Bool.true_and, hsome, if_true,
      h1, hf, ha]
  · intro hb
    subst hb
    obtain ⟨q1, _, i, q3, q4⟩ := set_scene_state_active_scene h s3 s4
      (by rw [hf1]; decide) ha
    obtain ⟨r, hr⟩ := try_update_scene_state_total h s4 i q3 q4
    have hn4 : s4.scene.isNone = false := by rw [q3]; rfl
    refine ⟨q1, ⟨i, q3, q4⟩, r, hr, ?_, ?_⟩
    · unfold lp_setup_update_state
      simp only [hdec, Bool.and_false, Bool.false_eq_true, if_false, Bool.true_and, hsome,
        if_true, h1, hf, ha, hn4, hr]
    · obtain ⟨b5, s5⟩ := r
      rw [try_update_scene_state_queue h s4 s5 b5 hr, hq4, hf6]

theorem update_state_restarts_once_witness :
    (demo_restart [false]).state = setup_state.SETUP_ACTIVE ∧
    try_update_scene_state demo_headers (demo_restart [false]) =
      some (false, demo_snapshot_failed) ∧
    (lp_setup_update_state demo_headers true (demo_restart [false])).map
      (fun r => (r.1, r.2.state, r.2.scene, queue_events r.2.trace)) =
      some (true, setup_state.SETUP_ACTIVE, some 1, [0]) ∧
    ((∃ sl s3 b4 s4, (demo_restart [false]).scene = some sl ∧
      set_scene_state demo_headers demo_snapshot_failed setup_state.SETUP_FLUSHED =
        some (true, s3) ∧
      s3.state = setup_state.SETUP_FLUSHED ∧ s3.scene = none ∧
      queue_events s3.trace = queue_events (demo_restart [false]).trace ++ [sl] ∧
      set_scene_state demo_headers s3 setup_state.SETUP_ACTIVE = some (b4, s4) ∧
      queue_events s4.trace = queue_events s3.trace ∧
      (b4 = false →
        lp_setup_update_state demo_headers true (demo_restart [false]) = some (false, s4) ∧
        s4.state = setup_state.SETUP_FLUSHED ∧ s4.scene = none) ∧
      (b4 = true →
        s4.state = setup_state.SETUP_ACTIVE ∧ (∃ i, s4.scene = some i ∧ i < s4.scenes.length) ∧
        ∃ r, try_update_scene_state demo_headers s4 = some r ∧
          lp_setup_update_state demo_headers true (demo_restart [false]) = some r ∧
          queue_events r.2.trace = queue_events (demo_restart [false]).trace ++ [sl])) ∧
    (∀ (u : Bool) (x : lp_setup_context) (r : Bool × lp_setup_context),
      lp_setup_update_state demo_headers u x = some r →
      ∃ l, queue_events r.2.trace = queue_events x.trace ++ l ∧ l.length ≤ 1)) :=
  ⟨by decide, by rfl, by decide,
   update_state_restarts_once demo_headers (demo_restart [false]) demo_snapshot_failed
     (by decide) (by rfl)⟩

/-- Claim C18: in every context that satisfies the two invariants of the engine (FLUSHED
exactly when no scene is owned; while no fragment state is stored the fragment-state
category is dirty), if `lp_setup_update_state(setup, TRUE)` returns TRUE then the state is
SETUP_ACTIVE, a scene is owned, no category is dirty, a fragment state is stored, and every
category whose dirty bit was set at the call is captured in the current scene: for
viewports and blend colour the JIT context points to a block of the current scene that the
call allocated; every constant slot holds the bytes of its binding (or nothing, with the
JIT entry on `fake_const_buf`) and its JIT entry points to them; every SSBO entry of the JIT
context is the resource memory at the offset of the binding with `buffer_size` elements, or
NULL; the stored fragment-state record has the current variant and the current JIT context;
the draw regions are the framebuffer cut by the scissors and the viewport rectangle.  The
call only reads the bindings it captures, and snapshots that lived in the current scene
before live in the current scene afterwards.  Both invariants hold after `lp_setup_create`
and are kept by every operation (`run_ops_inv`, `run_ops_fs`). -/
theorem update_state_true_is_ready (h : lp_headers) (s t : lp_setup_context)
    (hi : sm_inv s) (hf : fs_inv s)
    (hr : lp_setup_update_state h true s = some (true, t)) :
    t.state = setup_state.SETUP_ACTIVE ∧ t.scene ≠ none ∧ t.dirty = 0 ∧ t.fs.stored ≠ none ∧
    dirty_captured h s.next_serial s.dirty t ∧
    snapshot_sources t = snapshot_sources s ∧
    (snapshot_in_scene s → snapshot_in_scene t) := by
  obtain ⟨c1, c2, c3⟩ := update_state_captures h s t hi hr
  obtain ⟨q1, q2, q3, q4⟩ := update_state_ready h s t hi hf hr
  exact ⟨q1, q2, q3, q4, c1, c2.1, c3⟩

theorem update_state_true_is_ready_witness :
    sm_inv demo_capture ∧ fs_inv demo_capture ∧
    lp_setup_update_state demo_capture_headers true demo_capture = some (true, demo_captured) ∧
    (demo_captured.state = setup_state.SETUP_ACTIVE ∧ demo_captured.scene ≠ none ∧
      demo_captured.dirty = 0 ∧ demo_captured.fs.stored ≠ none ∧
      dirty_captured demo_capture_headers demo_capture.next_serial demo_capture.dirty
        demo_captured ∧
      snapshot_sources demo_captured = snapshot_sources demo_capture ∧
      (snapshot_in_scene demo_capture → snapshot_in_scene demo_captured)) :=
  ⟨by unfold sm_inv; decide, by unfold fs_inv; decide, by rfl,
    update_state_true_is_ready demo_capture_headers demo_capture demo_captured
      (by unfold sm_inv; decide) (by unfold fs_inv; decide) (by rfl)⟩

/-- Claim C19: whenever `try_update_scene_state` returns TRUE with a new fragment-state
record stored (`fs.stored` changed, or the shader reference call was made, or `fs.stored`
was NULL with LP_SETUP_NEW_FS dirty), the calls it made end with: the allocation of the record, the call
`lp_scene_add_frag_shader_reference` for the current variant, then
`lp_scene_add_resource_reference` on the current scene for every non-null
`fs.current_tex[i]` (read), every non-null `ssbos[i].current.buffer` (write iff bit `i` of
`ssbo_write_mask` is set) and every non-null `images[i].current.resource` (write iff
`shader_access` has PIPE_IMAGE_ACCESS_WRITE), all successful; the calls before them are
arena allocations.  If any reference call of the function fails, it returns FALSE. -/
theorem new_fs_record_takes_references (h : lp_headers) (s t : lp_setup_context) (b : Bool)
    (hr : try_update_scene_state h s = some (b, t)) :
    ∃ sl evs, s.scene = some sl ∧ t.trace = s.trace ++ evs ∧
      (b = true →
        (t.fs.stored ≠ s.fs.stored ∨
         (∃ v ok, event.add_frag_shader_reference sl v ok ∈ evs) ∨
         (s.fs.stored = none ∧ s.dirty &&& LP_SETUP_NEW_FS ≠ 0)) →
        (∃ pre, evs = pre ++ fs_store_events sl s ∧
          ∀ e ∈ pre, ∃ ok, e = event.scene_alloc sl ok) ∧
        ∃ serial, t.fs.stored = some (new_stored_rast_state h serial t)) ∧
      ((∃ e ∈ evs, is_failed_reference e = true) → b = false) := by
  obtain ⟨sl, s5, hsc, _, hsn, hcase⟩ := try_update_scene_state_spec h s t b hr
  obtain ⟨evs5, ht5, ha5⟩ := hsn.allocs
  have hok5 : ∀ e ∈ evs5, is_failed_reference e = false := by
    intro e he
    obtain ⟨ok, hx⟩ := ha5 e he
    rw [hx]
    rfl
  obtain ⟨q1, q2, q3, q4⟩ := update_fs_spec h sl s5
  rcases hcase with ⟨hb, ht⟩ | ⟨hok, hb, ht⟩ | ⟨hok, hb, ht⟩
  · subst hb; subst ht
    exact ⟨sl, evs5, hsc, ht5, fun hx => by simp at hx, fun _ => rfl⟩
  · subst hb
    have hstore : s5.dirty &&& LP_SETUP_NEW_FS ≠ 0 ∧ fs_differs s5 = true := by
      by_contra hx
      rw [q3 hx] at hok
      exact Bool.noConfusion hok
    rcases (q4 hstore.1 hstore.2).2 hok with hx | ⟨pre, e, hx, _⟩
    · exact ⟨sl, evs5 ++ [event.scene_alloc sl false], hsc,
        by rw [ht, hx, ht5, List.append_assoc], fun hx => by simp at hx, fun _ => rfl⟩
    · exact ⟨sl, evs5 ++ (pre ++ [e]), hsc,
        by rw [ht, hx, ht5]; simp, fun hx => by simp at hx, fun _ => rfl⟩
  · subst hb
    have hfs : t.fs = (update_fs h sl s5).2.fs := by
      rw [ht]
      exact (update_scissor_fields h _).1
    have htr : t.trace = (update_fs h sl s5).2.trace := by
      rw [ht]
      exact (update_scissor_fields h _).2.1
    by_cases hstore : s5.dirty &&& LP_SETUP_NEW_FS ≠ 0 ∧ fs_differs s5 = true
    · obtain ⟨⟨serial, a1⟩, a2⟩ := (q4 hstore.1 hstore.2).1 hok
      have hev := fs_store_events_congr sl hsn.variant hsn.current_tex hsn.ssbos
        hsn.ssbo_write_mask hsn.images
      refine ⟨sl, evs5 ++ fs_store_events sl s, hsc,
        by rw [htr, a2, ht5, hev, List.append_assoc], fun _ _ => ⟨⟨evs5, rfl, ha5⟩, serial, ?_⟩,
        fun hx => ?_⟩
      · rw [hfs, a1]
        have hcur : t.fs.current = s5.fs.current := by
          rw [hfs]
          exact (stored_only_fields q1).2.1
        rw [new_stored_rast_state_congr h serial s5 t hcur]
      · obtain ⟨e, he, hf⟩ := hx
        rcases List.mem_append.mp he with he | he
        · rw [hok5 e he] at hf
          exact Bool.noConfusion hf
        · rw [fs_store_events_ok sl s e he] at hf
          exact Bool.noConfusion hf
    · have hskip := q3 hstore
      refine ⟨sl, evs5, hsc, by rw [htr, hskip, ht5], fun _ hne => ?_, fun hx => ?_⟩
      · exfalso
        rcases hne with hne | ⟨v, ok, he⟩ | ⟨hnone, hdirty⟩
        · apply hne
          rw [hfs, hskip]
          exact hsn.stored
        · obtain ⟨ok2, hx⟩ := ha5 _ he
          exact event.noConfusion hx
        · apply hstore
          refine ⟨hsn.dirty_fs hdirty, ?_⟩
          unfold fs_differs
          rw [hsn.stored, hnone]
      · obtain ⟨e, he, hf⟩ := hx
        rw [hok5 e he] at hf
        exact Bool.noConfusion hf

theorem new_fs_record_takes_references_witness :
    try_update_scene_state demo_headers demo_textured = some (true, demo_snapshot) ∧
    demo_snapshot.fs.stored ≠ demo_textured.fs.stored ∧
    fs_store_events 0 demo_textured =
      [event.scene_alloc 0 true, event.add_frag_shader_reference 0 0 true,
       event.add_resource_reference 0 21 false true,
       event.add_resource_reference 0 31 false true,
       event.add_resource_reference 0 32 true true,
       event.add_resource_reference 0 41 true true] ∧
    ∃ sl evs, demo_textured.scene = some sl ∧ demo_snapshot.trace = demo_textured.trace ++ evs ∧
      (true = true →
        (demo_snapshot.fs.stored ≠ demo_textured.fs.stored ∨
         (∃ v ok, event.add_frag_shader_reference sl v ok ∈ evs) ∨
         (demo_textured.fs.stored = none ∧ demo_textured.dirty &&& LP_SETUP_NEW_FS ≠ 0)) →
        (∃ pre, evs = pre ++ fs_store_events sl demo_textured ∧
          ∀ e ∈ pre, ∃ ok, e = event.scene_alloc sl ok) ∧
        ∃ serial, demo_snapshot.fs.stored =
          some (new_stored_rast_state demo_headers serial demo_snapshot)) ∧
      ((∃ e ∈ evs, is_failed_reference e = true) → true = false) :=
  ⟨by rfl, by decide, by decide,
   new_fs_record_takes_references demo_headers demo_textured demo_snapshot true (by rfl)⟩

/-- Claim C20, as stated, fails for a context without worker threads: with
`num_threads = 0` the fence created at the transition to SETUP_ACTIVE is sized 1, not 0. -/
theorem fence_rank_counterexample :
    demo_unthreaded.state = setup_state.SETUP_ACTIVE ∧ demo_unthreaded.num_threads = 0 ∧
    (demo_unthreaded.scene.bind (fun i => demo_unthreaded.scenes.get? i)).map
      (fun sc => sc.fence) = some (some { rank := 1, count := 0 }) ∧
    event.fence_create 1 true ∈ demo_unthreaded.trace := by
  decide

/-- Claim C20, amended: a successful transition to SETUP_ACTIVE leaves the current scene
with a fence created with the count `MAX2(1, num_threads)`: the number of worker threads
when there is at least one, and 1 otherwise, so that the fence is signalled exactly after
that many signals. -/
theorem activation_fence_rank (h : lp_headers) (s t : lp_setup_context)
    (hne : s.state ≠ setup_state.SETUP_ACTIVE)
    (hr : set_scene_state h s setup_state.SETUP_ACTIVE = some (true, t)) :
    ∃ sl sc, t.scene = some sl ∧ t.scenes.get? sl = some sc ∧
      t.num_threads = s.num_threads ∧
      sc.fence = some (lp_fence_create (max 1 s.num_threads)) ∧
      (1 ≤ s.num_threads → sc.fence = some (lp_fence_create s.num_threads)) ∧
      ∀ k, lp_fence_signalled
          (Nat.iterate lp_fence_signal k (lp_fence_create (max 1 s.num_threads))) = true ↔
        max 1 s.num_threads ≤ k := by
  obtain ⟨s1, s2, ha, hb, ht⟩ := set_scene_state_active_true h s t hne hr
  obtain ⟨hp, _⟩ := acquire_some h s s1 ha
  obtain ⟨hs, _, _⟩ := begin_binning_some h s1 s2 true hb
  obtain ⟨sl, hsc, hlt, hf⟩ := begin_binning_fence h s1 s2 hb
  have hnt : s1.num_threads = s.num_threads := by
    unfold pool_only at hp
    rw [hp]
  subst ht
  unfold fences_of at hf
  rw [get?_map_fence] at hf
  cases hg : s2.scenes.get? sl with
  | none =>
    rw [hg] at hf
    exact Option.noConfusion hf
  | some sc =>
    rw [hg] at hf
    simp only [Option.map_some', Option.some.injEq] at hf
    rw [hnt] at hf
    refine ⟨sl, sc, hs.scene.trans hsc, hg, hs.num_threads.trans hnt, hf, ?_, ?_⟩
    · intro h1
      rw [hf, Nat.max_eq_right h1]
    · intro k
      rw [fence_signals]
      simp [lp_fence_signalled]

theorem activation_fence_rank_witness :
    demo_pending.state ≠ setup_state.SETUP_ACTIVE ∧
    set_scene_state demo_headers demo_pending setup_state.SETUP_ACTIVE =
      some (true, demo_activated) ∧
    ∃ sl sc, demo_activated.scene = some sl ∧ demo_activated.scenes.get? sl = some sc ∧
      demo_activated.num_threads = demo_pending.num_threads ∧
      sc.fence = some (lp_fence_create (max 1 demo_pending.num_threads)) ∧
      (1 ≤ demo_pending.num_threads →
        sc.fence = some (lp_fence_create demo_pending.num_threads)) ∧
      ∀ k, lp_fence_signalled
          (Nat.iterate lp_fence_signal k (lp_fence_create (max 1 demo_pending.num_threads))) =
            true ↔
        max 1 demo_pending.num_threads ≤ k :=
  ⟨by decide, by rfl,
    activation_fence_rank demo_headers demo_pending demo_activated (by decide) (by rfl)⟩

/-- Claim C21: `lp_setup_is_resource_referenced` returns LP_UNREFERENCED if and only if the
resource is not the texture of a non-null colour buffer below `nr_cbufs` nor of the
depth/stencil buffer of the bound framebuffer, nor of the framebuffer of any of the
`num_active_scenes` pool scenes, and `lp_scene_is_resource_referenced` (the parameter
`scene_referenced`) returns 0 for every pool scene; when the resource is a render target of
the bound framebuffer the result is `LP_REFERENCED_FOR_READ | LP_REFERENCED_FOR_WRITE`. -/
theorem is_resource_referenced_spec (scene_referenced : lp_scene → Nat → Nat)
    (s : lp_setup_context) (texture : Nat) :
    (lp_setup_is_resource_referenced scene_referenced s texture = LP_UNREFERENCED ↔
      (∀ i surf, i < s.fb.nr_cbufs → s.fb.cbufs.getD i none = some surf →
        surf.texture ≠ texture) ∧
      (∀ zsbuf, s.fb.zsbuf = some zsbuf → zsbuf.texture ≠ texture) ∧
      ∀ i scene, i < num_active_scenes s → s.scenes.get? i = some scene →
        (∀ j surf, j < scene.fb.nr_cbufs → scene.fb.cbufs.getD j none = some surf →
          surf.texture ≠ texture) ∧
        (∀ zsbuf, scene.fb.zsbuf = some zsbuf → zsbuf.texture ≠ texture) ∧
        scene_referenced scene texture = 0) ∧
    (((∃ i surf, i < s.fb.nr_cbufs ∧ s.fb.cbufs.getD i none = some surf ∧
          surf.texture = texture) ∨
        (∃ zsbuf, s.fb.zsbuf = some zsbuf ∧ zsbuf.texture = texture)) →
      lp_setup_is_resource_referenced scene_referenced s texture =
        LP_REFERENCED_FOR_READ ||| LP_REFERENCED_FOR_WRITE) := by
  unfold lp_setup_is_resource_referenced
  constructor
  · by_cases hf : fb_has_texture s.fb texture = true
    · rw [if_pos hf]
      constructor
      · intro h0
        exact absurd h0 read_write_ne_zero
      · rintro ⟨h1, h2, _⟩
        have := (fb_has_texture_false s.fb texture).mpr ⟨h1, h2⟩
        rw [hf] at this
        exact Bool.noConfusion this
    · rw [if_neg hf]
      have hf2 : fb_has_texture s.fb texture = false := by
        cases hx : fb_has_texture s.fb texture with
        | true => exact absurd hx hf
        | false => rfl
      obtain ⟨g1, g2⟩ := (fb_has_texture_false s.fb texture).mp hf2
      show scenes_referenced scene_referenced texture s.scenes = 0 ↔ _
      rw [scenes_referenced_zero]
      constructor
      · intro hall
        refine ⟨g1, g2, ?_⟩
        intro i scene _ hg
        have hm : scene ∈ s.scenes := List.get?_mem hg
        obtain ⟨a, b⟩ := hall scene hm
        obtain ⟨a1, a2⟩ := (fb_has_texture_false scene.fb texture).mp a
        exact ⟨a1, a2, b⟩
      · rintro ⟨_, _, hall⟩ sc hm
        obtain ⟨i, hi, hg⟩ := List.getElem_of_mem hm
        have hg2 : s.scenes.get? i = some sc := by
          rw [List.get?_eq_getElem?, List.getElem?_eq_getElem hi, hg]
        obtain ⟨a1, a2, b⟩ := hall i sc hi hg2
        exact ⟨(fb_has_texture_false sc.fb texture).mpr ⟨a1, a2⟩, b⟩
  · intro hrt
    have hf : fb_has_texture s.fb texture = true := by
      cases hx : fb_has_texture s.fb texture with
      | true => rfl
      | false =>
        obtain ⟨g1, g2⟩ := (fb_has_texture_false s.fb texture).mp hx
        rcases hrt with ⟨i, surf, hi, hg, he⟩ | ⟨z, hz, he⟩
        · exact absurd he (g1 i surf hi hg)
        · exact absurd he (g2 z hz)
    rw [if_pos hf]

theorem is_resource_referenced_spec_witness :
    lp_setup_is_resource_referenced lp_scene_is_resource_referenced demo_snapshot 10 =
      LP_REFERENCED_FOR_READ ||| LP_REFERENCED_FOR_WRITE ∧
    lp_setup_is_resource_referenced lp_scene_is_resource_referenced demo_snapshot 21 =
      LP_REFERENCED_FOR_READ ∧
    lp_setup_is_resource_referenced lp_scene_is_resource_referenced demo_fresh 10 =
      LP_UNREFERENCED ∧
    (∀ i scene, i < num_active_scenes demo_fresh → demo_fresh.scenes.get? i = some scene →
      lp_scene_is_resource_referenced scene 10 = 0) :=
  ⟨(is_resource_referenced_spec lp_scene_is_resource_referenced demo_snapshot 10).2
      (Or.inl ⟨0, { format := pipe_format.other 1, texture := 10 }, by decide, by decide, rfl⟩),
   by decide, by decide,
   fun i scene hi hg =>
     (((is_resource_referenced_spec lp_scene_is_resource_referenced demo_fresh 10).1.mp
       (by decide)).2.2 i scene hi hg).2.2⟩

/-- Claim C22: in a context that satisfies the state-machine invariant and whose scene
pointer is not dangling, `lp_setup_begin_query` returns; it stores `pq` at index
`active_binned_queries` and increments the count if and only if the type of `pq` is one of
OCCLUSION_COUNTER, OCCLUSION_PREDICATE, OCCLUSION_PREDICATE_CONSERVATIVE,
PIPELINE_STATISTICS, TIME_ELAPSED and the count is below LP_MAX_ACTIVE_BINNED_QUERIES;
otherwise list and count are unchanged; a count within the bound stays within it.  Every
context reached from `lp_setup_create` by a sequence of operations (begin and end of queries
among them) has `active_binned_queries <= LP_MAX_ACTIVE_BINNED_QUERIES`, a list of that
capacity, and satisfies the two hypotheses. -/
theorem begin_query_appends (h : lp_headers) (pq : llvmpipe_query) (s : lp_setup_context)
    (hi : sm_inv s) (hp : pool_ok s) :
    (∃ t, lp_setup_begin_query h pq s = some t ∧
      (((pq.type = pipe_query_type.PIPE_QUERY_OCCLUSION_COUNTER ∨
          pq.type = pipe_query_type.PIPE_QUERY_OCCLUSION_PREDICATE ∨
          pq.type = pipe_query_type.PIPE_QUERY_OCCLUSION_PREDICATE_CONSERVATIVE ∨
          pq.type = pipe_query_type.PIPE_QUERY_PIPELINE_STATISTICS ∨
          pq.type = pipe_query_type.PIPE_QUERY_TIME_ELAPSED) ∧
          s.active_binned_queries < h.LP_MAX_ACTIVE_BINNED_QUERIES) →
        t.active_binned_queries = s.active_binned_queries + 1 ∧
        t.active_queries = s.active_queries.set s.active_binned_queries (some pq.ptr) ∧
        (s.active_binned_queries < s.active_queries.length →
          t.active_queries.get? s.active_binned_queries = some (some pq.ptr))) ∧
      (¬ ((pq.type = pipe_query_type.PIPE_QUERY_OCCLUSION_COUNTER ∨
          pq.type = pipe_query_type.PIPE_QUERY_OCCLUSION_PREDICATE ∨
          pq.type = pipe_query_type.PIPE_QUERY_OCCLUSION_PREDICATE_CONSERVATIVE ∨
          pq.type = pipe_query_type.PIPE_QUERY_PIPELINE_STATISTICS ∨
          pq.type = pipe_query_type.PIPE_QUERY_TIME_ELAPSED) ∧
          s.active_binned_queries < h.LP_MAX_ACTIVE_BINNED_QUERIES) →
        t.active_binned_queries = s.active_binned_queries ∧
        t.active_queries = s.active_queries) ∧
      (s.active_binned_queries ≤ h.LP_MAX_ACTIVE_BINNED_QUERIES →
        t.active_binned_queries ≤ h.LP_MAX_ACTIVE_BINNED_QUERIES)) ∧
    (∀ num_threads pipe oracle ops u,
      (lp_setup_create h num_threads pipe oracle).bind (run_ops h ops) = some u →
      u.active_binned_queries ≤ h.LP_MAX_ACTIVE_BINNED_QUERIES ∧
      u.active_queries.length = h.LP_MAX_ACTIVE_BINNED_QUERIES ∧ sm_inv u ∧ pool_ok u) := by
  constructor
  · obtain ⟨t, ht, _, _⟩ := begin_query_total h pq s hi hp
    obtain ⟨h1, h2⟩ := begin_query_queries h pq s t ht
    rw [is_binned_query_type_iff] at h1 h2
    refine ⟨t, ht, ?_, ?_, ?_⟩
    · intro hc
      obtain ⟨a, b⟩ := h1 hc
      refine ⟨a, b, ?_⟩
      intro hlt
      rw [b, List.get?_eq_getElem?, List.getElem?_set]
      simp [hlt]
    · intro hc
      exact h2 hc
    · intro hle
      by_cases hc : (pq.type = pipe_query_type.PIPE_QUERY_OCCLUSION_COUNTER ∨
          pq.type = pipe_query_type.PIPE_QUERY_OCCLUSION_PREDICATE ∨
          pq.type = pipe_query_type.PIPE_QUERY_OCCLUSION_PREDICATE_CONSERVATIVE ∨
          pq.type = pipe_query_type.PIPE_QUERY_PIPELINE_STATISTICS ∨
          pq.type = pipe_query_type.PIPE_QUERY_TIME_ELAPSED) ∧
          s.active_binned_queries < h.LP_MAX_ACTIVE_BINNED_QUERIES
      · rw [(h1 hc).1]
        omega
      · rw [(h2 hc).1]
        exact hle
  · intro num_threads pipe oracle ops u hu
    obtain ⟨a, b, c⟩ := created_reachable h num_threads pipe oracle ops u hu
    exact ⟨c.1, c.2, a, b⟩

theorem begin_query_appends_witness :
    sm_inv demo_active ∧ pool_ok demo_active ∧
    lp_setup_begin_query demo_headers demo_query demo_active = some demo_querying ∧
    demo_active.active_binned_queries = 0 ∧ demo_querying.active_binned_queries = 1 ∧
    demo_querying.active_queries = [some 51, none, none, none] ∧
    ∃ t, lp_setup_begin_query demo_headers demo_query demo_active = some t ∧
      t.active_binned_queries ≤ demo_headers.LP_MAX_ACTIVE_BINNED_QUERIES :=
  ⟨(created_reachable demo_headers 1 demo_pipe [] (demo_ops.take 3) demo_active (by rfl)).1,
   (created_reachable demo_headers 1 demo_pipe [] (demo_ops.take 3) demo_active (by rfl)).2.1,
   by rfl, by decide, by decide, by decide,
   (begin_query_appends demo_headers demo_query demo_active
      (created_reachable demo_headers 1 demo_pipe [] (demo_ops.take 3) demo_active (by rfl)).1
      (created_reachable demo_headers 1 demo_pipe [] (demo_ops.take 3) demo_active
        (by rfl)).2.1).1.elim
     (fun t ht => ⟨t, ht.1, ht.2.2.2 (by decide)⟩)⟩

/-- Claim C23, as stated, fails when `pq` is itself the last entry: with the single active
query `demo_query` in slot 0 (count 1), `lp_setup_end_query` leaves count 0 and NULL in
slot 0, the slot of the first occurrence of `pq`, not the former last entry (which was
`pq`). -/
theorem end_query_last_entry_counterexample :
    demo_querying.active_binned_queries = 1 ∧
    demo_querying.active_queries.get? 0 = some (some demo_query.ptr) ∧
    (lp_setup_end_query demo_headers demo_query demo_querying).map
      (fun t => (t.active_binned_queries, t.active_queries.get? 0)) = some (0, some none) := by
  decide

/-- Claim C23, amended: in a context that satisfies the state-machine invariant, whose scene
pointer is not dangling and whose count `n = active_binned_queries` is within the list,
`lp_setup_end_query` returns, whether or not binning the end command succeeded.  If `pq` has
a binned type and first occurs at index `i < n`, the count becomes `n - 1` and the list is
the old one with slot `i` overwritten by the former last entry and then slot `n - 1`
overwritten by NULL: slot `n - 1` is NULL, slot `i` holds the former last entry when
`i < n - 1`, every other entry is unchanged, and the first `n - 1` entries are a permutation
of the old first `n` entries without the occurrence at `i`.  If the type is not binned or
`pq` does not occur among the first `n` entries, list and count are unchanged. -/
theorem end_query_swaps_with_last (h : lp_headers) (pq : llvmpipe_query)
    (s : lp_setup_context) (hi : sm_inv s) (hp : pool_ok s)
    (hq : s.active_binned_queries ≤ s.active_queries.length) :
    ∃ t, lp_setup_end_query h pq s = some t ∧
      (∀ i, (pq.type = pipe_query_type.PIPE_QUERY_OCCLUSION_COUNTER ∨
          pq.type = pipe_query_type.PIPE_QUERY_OCCLUSION_PREDICATE ∨
          pq.type = pipe_query_type.PIPE_QUERY_OCCLUSION_PREDICATE_CONSERVATIVE ∨
          pq.type = pipe_query_type.PIPE_QUERY_PIPELINE_STATISTICS ∨
          pq.type = pipe_query_type.PIPE_QUERY_TIME_ELAPSED) →
        i < s.active_binned_queries → s.active_queries.getD i none = some pq.ptr →
        (∀ j, j < i → s.active_queries.getD j none ≠ some pq.ptr) →
        t.active_binned_queries = s.active_binned_queries - 1 ∧
        t.active_queries =
          (s.active_queries.set i
            (s.active_queries.getD (s.active_binned_queries - 1) none)).set
            (s.active_binned_queries - 1) none ∧
        t.active_queries.get? (s.active_binned_queries - 1) = some none ∧
        (i < s.active_binned_queries - 1 →
          t.active_queries.get? i =
            some (s.active_queries.getD (s.active_binned_queries - 1) none)) ∧
        (∀ j, j ≠ i → j ≠ s.active_binned_queries - 1 →
          t.active_queries.get? j = s.active_queries.get? j) ∧
        (t.active_queries.take t.active_binned_queries).Perm
          ((s.active_queries.take s.active_binned_queries).eraseIdx i)) ∧
      ((¬ (pq.type = pipe_query_type.PIPE_QUERY_OCCLUSION_COUNTER ∨
          pq.type = pipe_query_type.PIPE_QUERY_OCCLUSION_PREDICATE ∨
          pq.type = pipe_query_type.PIPE_QUERY_OCCLUSION_PREDICATE_CONSERVATIVE ∨
          pq.type = pipe_query_type.PIPE_QUERY_PIPELINE_STATISTICS ∨
          pq.type = pipe_query_type.PIPE_QUERY_TIME_ELAPSED) ∨
        ∀ j, j < s.active_binned_queries → s.active_queries.getD j none ≠ some pq.ptr) →
        t.active_binned_queries = s.active_binned_queries ∧
        t.active_queries = s.active_queries) := by
  obtain ⟨t, ht, _, _⟩ := end_query_total h pq s hi hp
  obtain ⟨u, hu, hsame⟩ := end_query_shape h pq s t ht
  refine ⟨t, ht, ?_, ?_⟩
  · intro i hty hlt hg hfirst
    have hb := (is_binned_query_type_iff pq.type).mpr hty
    obtain ⟨a, b⟩ := remove_active_query_found pq u i hb (by rw [hsame.1]; exact hlt)
      (by rw [hsame.2]; exact hg) (by rw [hsame.2]; exact hfirst)
    rw [hsame.1] at a b
    rw [hsame.2] at b
    subst hu
    have hn : s.active_binned_queries - 1 < s.active_queries.length := by omega
    refine ⟨a, b, ?_, ?_, ?_, ?_⟩
    · rw [b]
      exact get?_set_set_self _ _ _ _ _ hn
    · intro hlt2
      rw [b]
      exact get?_set_set_first _ _ _ _ _ (by omega) (by omega)
    · intro j h1 h2
      rw [b]
      exact get?_set_set_other _ _ _ _ _ _ h1 h2
    · rw [a, b]
      exact swap_remove_perm none none s.active_queries i s.active_binned_queries hlt hq
  · intro hno
    have hno2 : is_binned_query_type pq.type = false ∨
        ∀ j, j < u.active_binned_queries → u.active_queries.getD j none ≠ some pq.ptr := by
      rcases hno with hty | hno
      · left
        cases hx : is_binned_query_type pq.type with
        | false => rfl
        | true => exact absurd ((is_binned_query_type_iff pq.type).mp hx) hty
      · right
        rw [hsame.1, hsame.2]
        exact hno
    rw [hu, remove_active_query_absent pq u hno2]
    exact hsame

theorem end_query_swaps_with_last_witness :
    sm_inv demo_querying ∧ pool_ok demo_querying ∧
    demo_querying.active_binned_queries ≤ demo_querying.active_queries.length ∧
    demo_querying.active_queries.getD 0 none = some demo_query.ptr ∧
    ∃ t, lp_setup_end_query demo_headers demo_query demo_querying = some t ∧
      t.active_binned_queries = demo_querying.active_binned_queries - 1 ∧
      t.active_queries.get? (demo_querying.active_binned_queries - 1) = some none :=
  ⟨(created_reachable demo_headers 1 demo_pipe []
      (demo_ops.take 3 ++ [setup_op.begin_query demo_query]) demo_querying (by rfl)).1,
   (created_reachable demo_headers 1 demo_pipe []
      (demo_ops.take 3 ++ [setup_op.begin_query demo_query]) demo_querying (by rfl)).2.1,
   by decide, by decide,
   (end_query_swaps_with_last demo_headers demo_query demo_querying
      (created_reachable demo_headers 1 demo_pipe []
        (demo_ops.take 3 ++ [setup_op.begin_query demo_query]) demo_querying (by rfl)).1
      (created_reachable demo_headers 1 demo_pipe []
        (demo_ops.take 3 ++ [setup_op.begin_query demo_query]) demo_querying (by rfl)).2.1
      (by decide)).elim
     (fun t ht => ⟨t, ht.1,
       (ht.2.1 0 (Or.inl rfl) (by decide) (by decide) (fun j hj => absurd hj (by omega))).1,
       (ht.2.1 0 (Or.inl rfl) (by decide) (by decide)
         (fun j hj => absurd hj (by omega))).2.2.1⟩)⟩

/-- Claim C24 does not hold of the code: after a successful `lp_setup_create` the pointers
`point`, `line` and `triangle` are their first-call stubs, but `rect` is still the null
pointer of the zeroed structure, not `first_rectangle`. -/
theorem create_leaves_rect_null (h : lp_headers) (num_threads : Nat) (pipe : llvmpipe_context)
    (oracle : List Bool) (s0 : lp_setup_context)
    (hc : lp_setup_create h num_threads pipe oracle = some s0) :
    s0.point = prim_fn.first_point ∧ s0.line = prim_fn.first_line ∧
    s0.triangle = prim_fn.first_triangle ∧ s0.rect = prim_fn.null ∧
    s0.rect ≠ prim_fn.first_rectangle := by
  unfold lp_setup_create at hc
  simp only at hc
  split at hc
  · split at hc
    · have h1 := lp_scene_create_spec (take_oracle
        { (take_oracle (zero_context h pipe oracle)).2 with num_threads := num_threads }).2
      generalize lp_scene_create (take_oracle
        { (take_oracle (zero_context h pipe oracle)).2 with num_threads := num_threads }).2 = r
        at hc h1
      obtain ⟨o, s2⟩ := r
      cases o with
      | none => simp at hc
      | some scene =>
        simp only [Option.some.injEq] at hc
        have hrect : s2.rect = prim_fn.null := by
          have hp := h1.1
          simp only at hp
          unfold pool_only at hp
          rw [hp]
          have e1 := pool_only_take_oracle
            { (take_oracle (zero_context h pipe oracle)).2 with num_threads := num_threads }
          unfold pool_only at e1
          show (take_oracle
            { (take_oracle (zero_context h pipe oracle)).2 with
              num_threads := num_threads }).2.rect = _
          rw [e1]
          have e0 := pool_only_take_oracle (zero_context h pipe oracle)
          unfold pool_only at e0
          show (take_oracle (zero_context h pipe oracle)).2.rect = _
          rw [e0]
          rfl
        rw [← hc]
        refine ⟨rfl, rfl, rfl, hrect, ?_⟩
        show s2.rect ≠ _
        rw [hrect]
        decide
    · simp at hc
  · simp at hc

theorem create_leaves_rect_null_witness :
    lp_setup_create demo_headers 1 demo_pipe [] = some demo_fresh ∧
    (demo_fresh.point = prim_fn.first_point ∧ demo_fresh.line = prim_fn.first_line ∧
     demo_fresh.triangle = prim_fn.first_triangle ∧ demo_fresh.rect = prim_fn.null ∧
     demo_fresh.rect ≠ prim_fn.first_rectangle) :=
  ⟨by rfl, create_leaves_rect_null demo_headers 1 demo_pipe [] demo_fresh (by rfl)⟩

/-- Claim C25: for the padded depth formats PIPE_FORMAT_Z24X8_UNORM and
PIPE_FORMAT_X8Z24_UNORM the mask computed by `lp_setup_try_clear_zs` is `m | ~full`, where
`m` is the packed 64-bit mask of the request and `full` the 32-bit mask
`util_pack_mask_z_stencil(format, ~0, ~0)`, and the value is the packed value on the bits of
`m`.  For a depth clear (`m = full`) the mask is 0xFFFFFFFF: its low 32 bits are all ones,
its upper 32 bits are zero, and the value is zero on the padding bits `~full`.  Outside
SETUP_ACTIVE this mask is merged into the accumulator; in SETUP_ACTIVE, when binning
succeeds, it is the mask of the command appended to every bin. -/
theorem padded_depth_mask (h : lp_headers) (format : pipe_format)
    (depth stencil flags m full : Nat)
    (hf : format = pipe_format.PIPE_FORMAT_Z24X8_UNORM ∨
      format = pipe_format.PIPE_FORMAT_X8Z24_UNORM)
    (hm : m = h.util_pack64_mask_z_stencil format
      (if flags &&& PIPE_CLEAR_DEPTH ≠ 0 then 0xFFFFFFFF else 0)
      (if flags &&& PIPE_CLEAR_STENCIL ≠ 0 then 0xFF else 0) % 2 ^ 64)
    (hfull : full = h.util_pack_mask_z_stencil format 0xFFFFFFFF 0xFF % 2 ^ 32) :
    (clear_zs_value_mask h format depth stencil flags).2 = m ||| not32 full ∧
    (clear_zs_value_mask h format depth stencil flags).1 =
      h.util_pack64_z_stencil format depth stencil % 2 ^ 64 &&& m ∧
    (m = full →
      (clear_zs_value_mask h format depth stencil flags).2 = 0xFFFFFFFF ∧
      (clear_zs_value_mask h format depth stencil flags).2 % 2 ^ 32 = 0xFFFFFFFF ∧
      (clear_zs_value_mask h format depth stencil flags).2 / 2 ^ 32 = 0 ∧
      (clear_zs_value_mask h format depth stencil flags).1 &&& not32 full = 0) ∧
    (∀ s zsbuf, s.fb.zsbuf = some zsbuf → zsbuf.format = format →
      s.state ≠ setup_state.SETUP_ACTIVE → s.scenes ≠ [] →
      ∃ t, lp_setup_try_clear_zs h depth stencil flags s = some (true, t) ∧
        t.clear.zsmask = s.clear.zsmask ||| (m ||| not32 full)) ∧
    (∀ s zsbuf sl, s.fb.zsbuf = some zsbuf → zsbuf.format = format →
      s.state = setup_state.SETUP_ACTIVE → s.scene = some sl → sl < s.scenes.length →
      all_succeed s →
      ∃ t, lp_setup_try_clear_zs h depth stencil flags s = some (true, t) ∧
        scene_bins t sl = (scene_bins s sl).map (fun b => b ++
          [lp_rast_cmd.LP_RAST_OP_CLEAR_ZSTENCIL
            (h.util_pack64_z_stencil format depth stencil % 2 ^ 64 &&& m)
            (m ||| not32 full)])) := by
  have e2 : (clear_zs_value_mask h format depth stencil flags).2 = m ||| not32 full := by
    unfold clear_zs_value_mask
    dsimp only
    rw [if_pos hf, hm, hfull]
  have e1 : (clear_zs_value_mask h format depth stencil flags).1 =
      h.util_pack64_z_stencil format depth stencil % 2 ^ 64 &&& m := by
    unfold clear_zs_value_mask
    dsimp only
    rw [if_pos hf, hm]
  have hlt : full < 2 ^ 32 := by
    rw [hfull]
    exact Nat.mod_lt _ (by decide)
  refine ⟨e2, e1, ?_, ?_, ?_⟩
  · intro he
    have e3 : (clear_zs_value_mask h format depth stencil flags).2 = 0xFFFFFFFF := by
      rw [e2, he, lor_not32_self full hlt]
    refine ⟨e3, by rw [e3]; decide, by rw [e3]; decide, ?_⟩
    rw [e1, he, land_land_not32]
  · intro s zsbuf hz hfmt hna hne
    obtain ⟨t1, hc⟩ := cleared_of_total h s hna hne
    have hd := try_clear_zs_deferred h depth stencil flags s t1 hna hc (by rw [hz]; rfl)
    refine ⟨_, hd, ?_⟩
    show (zs_accumulate h s.fb depth stencil flags s.clear).zsmask = _
    unfold zs_accumulate
    simp only [hz, hfmt, e2]
  · intro s zsbuf sl hz hfmt hst hsc hlt2 ha
    obtain ⟨t, ht, _, _, hb⟩ := try_clear_zs_active h depth stencil flags sl zsbuf s hst hsc hlt2
      ha hz
    refine ⟨t, ht, ?_⟩
    rw [hb, hfmt, e1, e2]

theorem padded_depth_mask_witness :
    (2 ^ 24 - 1 : Nat) = demo_headers.util_pack64_mask_z_stencil
      pipe_format.PIPE_FORMAT_Z24X8_UNORM
      (if PIPE_CLEAR_DEPTH &&& PIPE_CLEAR_DEPTH ≠ 0 then 0xFFFFFFFF else 0)
      (if PIPE_CLEAR_DEPTH &&& PIPE_CLEAR_STENCIL ≠ 0 then 0xFF else 0) % 2 ^ 64 ∧
    (2 ^ 24 - 1 : Nat) = demo_headers.util_pack_mask_z_stencil
      pipe_format.PIPE_FORMAT_Z24X8_UNORM 0xFFFFFFFF 0xFF % 2 ^ 32 ∧
    (clear_zs_value_mask demo_headers pipe_format.PIPE_FORMAT_Z24X8_UNORM 9 3
      PIPE_CLEAR_DEPTH).2 = 0xFFFFFFFF ∧
    (clear_zs_value_mask demo_headers pipe_format.PIPE_FORMAT_Z24X8_UNORM 9 3
      PIPE_CLEAR_DEPTH).1 = 9 ∧
    (∃ t, lp_setup_try_clear_zs demo_headers 9 3 PIPE_CLEAR_DEPTH demo_padded = some (true, t) ∧
      t.clear.zsmask = demo_padded.clear.zsmask ||| ((2 ^ 24 - 1) ||| not32 (2 ^ 24 - 1))) :=
  ⟨by decide, by decide,
   ((padded_depth_mask demo_headers pipe_format.PIPE_FORMAT_Z24X8_UNORM 9 3 PIPE_CLEAR_DEPTH
      (2 ^ 24 - 1) (2 ^ 24 - 1) (Or.inl rfl) (by decide) (by decide)).2.2.1 rfl).1,
   by decide,
   (padded_depth_mask demo_headers pipe_format.PIPE_FORMAT_Z24X8_UNORM 9 3 PIPE_CLEAR_DEPTH
      (2 ^ 24 - 1) (2 ^ 24 - 1) (Or.inl rfl) (by decide) (by decide)).2.2.2.1
      demo_padded { format := pipe_format.PIPE_FORMAT_Z24X8_UNORM, texture := 11 }
      (by decide) rfl (by decide) (by decide)⟩

/-- Claim C26: let `try_update_scene_state` return TRUE with LP_SETUP_NEW_CONSTANTS dirty,
and let `c` be the entry the constants loop finds in slot `i`.  If the current buffer has
data and `current_size = min(buffer_size, LP_MAX_TGSI_CONST_BUFFER_SIZE) >= 4`: when
`stored_size != current_size` or `stored_data` is NULL or the stored bytes differ from the
current bytes, the slot afterwards has `stored_size = current_size` and `stored_data` a
newly allocated block holding the current bytes; when nothing differs the slot is unchanged,
with `stored_size = current_size` and the stored bytes equal to the current bytes.  If there
is no data or `current_size < 4`, `stored_size` is 0, `stored_data` NULL and the JIT entry
is `fake_const_buf` with 0 elements.  For one iteration of the loop (`update_constant`):
when something differs exactly one `lp_scene_alloc` is called, the iteration fails iff that
allocation fails and then leaves the slots alone; when nothing differs it succeeds without
any call, leaving pool, serial numbers and allocation outcomes untouched. -/
theorem constants_snapshot (h : lp_headers) (s t : lp_setup_context)
    (hd : s.dirty &&& LP_SETUP_NEW_CONSTANTS ≠ 0)
    (hr : try_update_scene_state h s = some (true, t)) :
    (∀ i c, (constants_at_loop s).get? i = some c →
      ∃ c1, t.constants.get? i = some c1 ∧
        (∀ data, constant_current_data h c.current = some data →
          4 ≤ constant_current_size h c →
          (constant_differs h c data → ∃ serial, s.next_serial ≤ serial ∧
            c1 = { c with stored_size := constant_current_size h c,
                          stored_data := some (serial, constant_current_bytes h c data) }) ∧
          (¬ constant_differs h c data → c1 = c ∧
            ∃ sd, c1.stored_data = some sd ∧ c1.stored_size = constant_current_size h c ∧
              sd.2.take (constant_current_size h c) = constant_current_bytes h c data)) ∧
        ((constant_current_data h c.current = none ∨ constant_current_size h c < 4) →
          c1.stored_size = 0 ∧ c1.stored_data = none ∧
          (i < s.fs.current.jit_context.constants.length →
            t.fs.current.jit_context.constants.get? i =
              some { ptr := data_ptr.fake_const_buf, num_elements := 0 }))) ∧
    (∀ sl i c u data, constant_current_data h c.current = some data →
      4 ≤ constant_current_size h c →
      (constant_differs h c data →
        (update_constant h sl i c u).2.trace =
          u.trace ++ [event.scene_alloc sl (update_constant h sl i c u).1] ∧
        ((update_constant h sl i c u).1 = false ↔ u.oracle.head? = some false) ∧
        ((update_constant h sl i c u).1 = false →
          (update_constant h sl i c u).2.constants = u.constants)) ∧
      (¬ constant_differs h c data →
        (update_constant h sl i c u).1 = true ∧
        (update_constant h sl i c u).2.trace = u.trace ∧
        (update_constant h sl i c u).2.scenes = u.scenes ∧
        (update_constant h sl i c u).2.next_serial = u.next_serial ∧
        (update_constant h sl i c u).2.oracle = u.oracle)) := by
  constructor
  · intro i c hg
    obtain ⟨_, hall⟩ := try_update_scene_state_constants h s t hd hr
    obtain ⟨c1, e, h1, h2, h3, h4⟩ := hall i c hg
    refine ⟨c1, h1, fun data hdata hsz => ⟨fun hy => ?_, fun hn => ?_⟩, fun hno => ?_⟩
    · obtain ⟨serial, a, b, _⟩ := (h3 data hdata hsz).1 hy
      exact ⟨serial, a, b⟩
    · obtain ⟨a, _⟩ := (h3 data hdata hsz).2 hn
      refine ⟨a, ?_⟩
      have hn2 := hn
      unfold constant_differs at hn2
      simp only [not_or, not_exists, not_and, not_not] at hn2
      obtain ⟨x, y, z⟩ := hn2
      rw [a]
      cases hs : c.stored_data with
      | none => exact absurd hs y
      | some sd => exact ⟨sd, rfl, x, z sd hs⟩
    · obtain ⟨a, b⟩ := h4 hno
      refine ⟨by rw [a], by rw [a], fun hlt => ?_⟩
      rw [h2 hlt, b]
  · intro sl i c u data hdata hsz
    constructor
    · intro hy
      rw [update_constant_alloc h sl i c u data hdata hsz hy]
      have ha := (lp_scene_alloc_spec sl u).2
      have hb := (lp_scene_alloc_serial sl u).2.2.1
      have hc := (before_constants_alloc sl u).constants
      generalize lp_scene_alloc sl u = r at ha hb hc
      obtain ⟨o, s1⟩ := r
      cases o with
      | none =>
        refine ⟨ha, ⟨fun _ => hb.mp rfl, fun _ => rfl⟩, fun _ => hc⟩
      | some stored =>
        refine ⟨ha, ⟨fun hf => Bool.noConfusion hf, fun ho => ?_⟩, fun hf => Bool.noConfusion hf⟩
        exact Option.noConfusion (hb.mpr ho)
    · intro hn
      obtain ⟨sd, _, _, _, he⟩ := update_constant_same h sl i c u data hdata hsz hn
      rw [he]
      exact ⟨rfl, rfl, rfl, rfl, rfl⟩

theorem constants_snapshot_witness :
    demo_constants.dirty &&& LP_SETUP_NEW_CONSTANTS ≠ 0 ∧
    try_update_scene_state demo_headers demo_constants = some (true, demo_constants_stored) ∧
    (constants_at_loop demo_constants).get? 0 = some demo_constant_slot ∧
    (constants_at_loop demo_constants).get? 1 = some demo_constant_short ∧
    (∃ c1, demo_constants_stored.constants.get? 0 = some c1 ∧
      ∃ serial, demo_constants.next_serial ≤ serial ∧
        c1 = { demo_constant_slot with
               stored_size := constant_current_size demo_headers demo_constant_slot,
               stored_data := some (serial,
                 constant_current_bytes demo_headers demo_constant_slot
                   [1, 2, 3, 4, 5, 6, 7, 8]) }) ∧
    (∃ c1, demo_constants_stored.constants.get? 1 = some c1 ∧
      c1.stored_size = 0 ∧ c1.stored_data = none ∧
      (1 < demo_constants.fs.current.jit_context.constants.length →
        demo_constants_stored.fs.current.jit_context.constants.get? 1 =
          some { ptr := data_ptr.fake_const_buf, num_elements := 0 })) :=
  ⟨by decide, by rfl, by decide, by decide,
   ((constants_snapshot demo_headers demo_constants demo_constants_stored (by decide)
      (by rfl)).1 0 demo_constant_slot (by decide)).elim
     (fun c1 hc => ⟨c1, hc.1,
       (hc.2.1 [1, 2, 3, 4, 5, 6, 7, 8] rfl (by decide)).1 (Or.inr (Or.inl rfl))⟩),
   ((constants_snapshot demo_headers demo_constants demo_constants_stored (by decide)
      (by rfl)).1 1 demo_constant_short (by decide)).elim
     (fun c1 hc => ⟨c1, hc.1, hc.2.2 (Or.inr (by decide))⟩)⟩

/-- Claim C27, as stated, fails for `lp_setup_set_scissors`: in `demo_active` nothing is
dirty; the setter called with the scissors already held leaves `setup->scissors` as it was
and sets LP_SETUP_NEW_SCISSOR. -/
theorem set_scissors_always_marks_counterexample :
    demo_active.dirty = 0 ∧
    (lp_setup_set_scissors demo_headers demo_scissors demo_active).map
      (fun t => (decide (t.scissors = demo_active.scissors), t.dirty)) =
      some (true, LP_SETUP_NEW_SCISSOR) := by
  decide

/-- Claim C27, amended: `lp_setup_set_blend_color` compares before marking: called with the
colour currently held it leaves the context unchanged, otherwise it stores the colour and
sets LP_SETUP_NEW_BLEND_COLOR.  `lp_setup_set_scissors` does not compare: it always
overwrites the first PIPE_MAX_VIEWPORTS scissors and sets LP_SETUP_NEW_SCISSOR, also when no
field differs. -/
theorem setters_marking (h : lp_headers) (blend_color : List Nat)
    (scissors : List pipe_scissor_state) (s t : lp_setup_context)
    (hr : lp_setup_set_scissors h scissors s = some t) :
    (blend_color = s.blend_color.current → lp_setup_set_blend_color blend_color s = s) ∧
    (blend_color ≠ s.blend_color.current →
      lp_setup_set_blend_color blend_color s =
        { s with blend_color := { s.blend_color with current := blend_color },
                 dirty := s.dirty ||| LP_SETUP_NEW_BLEND_COLOR }) ∧
    t = { s with
          scissors := (scissors.take h.PIPE_MAX_VIEWPORTS).map scissor_rect ++
            s.scissors.drop h.PIPE_MAX_VIEWPORTS,
          dirty := s.dirty ||| LP_SETUP_NEW_SCISSOR } ∧
    t.dirty &&& LP_SETUP_NEW_SCISSOR ≠ 0 := by
  unfold lp_setup_set_scissors at hr
  split at hr
  · simp only [Option.some.injEq] at hr
    refine ⟨?_, ?_, hr.symm, ?_⟩
    · intro he
      unfold lp_setup_set_blend_color
      rw [if_neg (not_not.mpr he.symm)]
    · intro hne
      unfold lp_setup_set_blend_color
      rw [if_pos (Ne.symm hne)]
    · rw [← hr]
      show (s.dirty ||| LP_SETUP_NEW_SCISSOR) &&& LP_SETUP_NEW_SCISSOR ≠ 0
      rw [lor_land_self]
      decide
  · simp at hr

theorem setters_marking_witness :
    lp_setup_set_scissors demo_headers demo_scissors demo_active =
      some { demo_active with dirty := LP_SETUP_NEW_SCISSOR } ∧
    lp_setup_set_blend_color [0, 0, 0, 0] demo_active = demo_active ∧
    ({ demo_active with dirty := LP_SETUP_NEW_SCISSOR } : lp_setup_context).dirty &&&
      LP_SETUP_NEW_SCISSOR ≠ 0 :=
  ⟨by decide,
   (setters_marking demo_headers [0, 0, 0, 0] demo_scissors demo_active
     { demo_active with dirty := LP_SETUP_NEW_SCISSOR } (by decide)).1 (by decide),
   (setters_marking demo_headers [0, 0, 0, 0] demo_scissors demo_active
     { demo_active with dirty := LP_SETUP_NEW_SCISSOR } (by decide)).2.2.2⟩

/-- Claim C28: `lp_setup_set_rasterizer_discard` called with a flag that differs from
`setup->rasterizer_discard` stores the flag and rebinds `point`, `line`, `triangle` and
`rect` to their first-call stubs, changing nothing else; called with the current value it
returns the context unchanged. -/
theorem set_rasterizer_discard_rebinds (rasterizer_discard : Bool) (s : lp_setup_context) :
    (rasterizer_discard ≠ s.rasterizer_discard →
      lp_setup_set_rasterizer_discard rasterizer_discard s =
        { s with rasterizer_discard := rasterizer_discard, line := prim_fn.first_line,
                 point := prim_fn.first_point, triangle := prim_fn.first_triangle,
                 rect := prim_fn.first_rectangle } ∧
      (lp_setup_set_rasterizer_discard rasterizer_discard s).point = prim_fn.first_point ∧
      (lp_setup_set_rasterizer_discard rasterizer_discard s).line = prim_fn.first_line ∧
      (lp_setup_set_rasterizer_discard rasterizer_discard s).triangle =
        prim_fn.first_triangle ∧
      (lp_setup_set_rasterizer_discard rasterizer_discard s).rect = prim_fn.first_rectangle) ∧
    (rasterizer_discard = s.rasterizer_discard →
      lp_setup_set_rasterizer_discard rasterizer_discard s = s) := by
  unfold lp_setup_set_rasterizer_discard
  constructor
  · intro hne
    rw [if_pos (Ne.symm hne)]
    exact ⟨rfl, rfl, rfl, rfl, rfl⟩
  · intro he
    rw [if_neg (not_not.mpr he.symm)]

theorem set_rasterizer_discard_rebinds_witness :
    (lp_setup_set_rasterizer_discard true demo_chosen).point = prim_fn.first_point ∧
    (lp_setup_set_rasterizer_discard true demo_chosen).rect = prim_fn.first_rectangle ∧
    lp_setup_set_rasterizer_discard false demo_chosen = demo_chosen ∧
    demo_chosen.point = prim_fn.chosen 1 :=
  ⟨((set_rasterizer_discard_rebinds true demo_chosen).1 (by decide)).2.1,
   ((set_rasterizer_discard_rebinds true demo_chosen).1 (by decide)).2.2.2.2,
   (set_rasterizer_discard_rebinds false demo_chosen).2 (by decide), by decide⟩

/-- Claim C29, as stated, fails: `lp_setup_bind_rasterizer` on a context whose point and line
strategies were already chosen leaves `setup->point` and `setup->line` as they were, not at
their first-call stubs. -/
theorem bind_rasterizer_keeps_point_line_counterexample :
    demo_chosen.point = prim_fn.chosen 1 ∧ demo_chosen.line = prim_fn.chosen 2 ∧
    (lp_setup_bind_rasterizer demo_rast demo_chosen).point = prim_fn.chosen 1 ∧
    (lp_setup_bind_rasterizer demo_rast demo_chosen).line = prim_fn.chosen 2 ∧
    (lp_setup_bind_rasterizer demo_rast demo_chosen).point ≠ prim_fn.first_point ∧
    (lp_setup_bind_rasterizer demo_rast demo_chosen).line ≠ prim_fn.first_line := by
  decide

/-- Claim C29, amended: after `lp_setup_bind_rasterizer` the first-call stub is bound for
triangles and rectangles (`setup->triangle = first_triangle`,
`setup->rect = first_rectangle`), while `setup->point` and `setup->line` are unchanged. -/
theorem bind_rasterizer_rebinds_triangle_rect (rast : pipe_rasterizer_state)
    (s : lp_setup_context) :
    (lp_setup_bind_rasterizer rast s).triangle = prim_fn.first_triangle ∧
    (lp_setup_bind_rasterizer rast s).rect = prim_fn.first_rectangle ∧
    (lp_setup_bind_rasterizer rast s).point = s.point ∧
    (lp_setup_bind_rasterizer rast s).line = s.line := by
  unfold lp_setup_bind_rasterizer
  dsimp only
  split <;> exact ⟨rfl, rfl, rfl, rfl⟩

/-- Claim C30: a scene that is sealed receives a snapshot of the active-query list.  For a
successful transition to SETUP_FLUSHED from another state, with the count within the list:
the scene that was current has `num_active_queries` equal to `setup->active_binned_queries`
and `active_queries[i]` equal to `setup->active_queries[i]` for every `i` below the count,
the list and the count of the context are unchanged, the scene was queued to the rasterizer
and is no longer current.  The same holds for every call of `lp_setup_rasterize_scene` that
returns. -/
theorem flush_snapshots_active_queries (h : lp_headers) (s t : lp_setup_context)
    (hne : s.state ≠ setup_state.SETUP_FLUSHED)
    (hq : s.active_binned_queries ≤ s.active_queries.length)
    (hr : set_scene_state h s setup_state.SETUP_FLUSHED = some (true, t)) :
    (∃ sl sc, s.scene = some sl ∧ t.scenes.get? sl = some sc ∧
      sc.num_active_queries = s.active_binned_queries ∧
      (∀ i, i < s.active_binned_queries →
        sc.active_queries.get? i = s.active_queries.get? i) ∧
      t.active_queries = s.active_queries ∧
      t.active_binned_queries = s.active_binned_queries ∧
      t.scene = none ∧ event.rast_queue_scene sl ∈ t.trace) ∧
    (∀ u v, lp_setup_rasterize_scene u = some v →
      u.active_binned_queries ≤ u.active_queries.length →
      ∃ sl sc, u.scene = some sl ∧ v.scenes.get? sl = some sc ∧
        sc.num_active_queries = u.active_binned_queries ∧
        (∀ i, i < u.active_binned_queries →
          sc.active_queries.get? i = u.active_queries.get? i) ∧
        v.active_queries = u.active_queries ∧
        v.active_binned_queries = u.active_binned_queries) := by
  constructor
  · obtain ⟨s1, ha, hsw⟩ := set_scene_state_ne h s _ hne _ hr
    obtain ⟨_, _, _, hsame, _⟩ := acquire_some h s s1 ha
    have := hsame hne
    subst this
    obtain ⟨s2, s3, hst, hras, ht⟩ := switch_flushed_true h _ s1 t hsw
    have hq2 : s2.active_binned_queries ≤ s2.active_queries.length := by
      rw [hst.queries.1, hst.queries.2]
      exact hq
    obtain ⟨sl, sc, q1, _, q3, q4, q5, q6, q7⟩ := rasterize_scene_queries s2 s3 hras hq2
    obtain ⟨sl2, r1, _, r3, _, r5, _⟩ := rasterize_scene_some s2 s3 hras
    have hsl : sl2 = sl := by
      rw [q1] at r1
      exact (Option.some.inj r1).symm
    subst hsl
    subst ht
    refine ⟨sl2, sc, hst.scene ▸ q1, q3, ?_, ?_, ?_, ?_, r3.scene, ?_⟩
    · rw [q4, hst.queries.1]
    · intro i hi
      rw [q5 i (by rw [hst.queries.1]; exact hi), hst.queries.2]
    · show s3.active_queries = _
      rw [q6, hst.queries.2]
    · show s3.active_binned_queries = _
      rw [q7, hst.queries.1]
    · show _ ∈ s3.trace
      rw [r5]
      simp
  · intro u v hr2 hq2
    obtain ⟨sl, sc, q1, _, q3, q4, q5, q6, q7⟩ := rasterize_scene_queries u v hr2 hq2
    exact ⟨sl, sc, q1, q3, q4, q5, q6, q7⟩

theorem flush_snapshots_active_queries_witness :
    demo_querying.state ≠ setup_state.SETUP_FLUSHED ∧
    demo_querying.active_binned_queries ≤ demo_querying.active_queries.length ∧
    set_scene_state demo_headers demo_querying setup_state.SETUP_FLUSHED =
      some (true, demo_queried) ∧
    demo_querying.active_queries = [some 51, none, none, none] ∧
    ∃ sl sc, demo_querying.scene = some sl ∧ demo_queried.scenes.get? sl = some sc ∧
      sc.num_active_queries = demo_querying.active_binned_queries ∧
      (∀ i, i < demo_querying.active_binned_queries →
        sc.active_queries.get? i = demo_querying.active_queries.get? i) ∧
      demo_queried.active_queries = demo_querying.active_queries ∧
      demo_queried.active_binned_queries = demo_querying.active_binned_queries ∧
      demo_queried.scene = none ∧ event.rast_queue_scene sl ∈ demo_queried.trace :=
  ⟨by decide, by decide, by rfl, by decide,
   (flush_snapshots_active_queries demo_headers demo_querying demo_queried (by decide)
     (by decide) (by rfl)).1⟩

/-- Claim C31 does not hold of the code: the loop of `lp_setup_is_resource_referenced` over
the pool scenes returns at the first scene for which `lp_scene_is_resource_referenced` (the
parameter `scene_referenced`) is not zero.  When the resource is no render target of the
bound framebuffer nor of the first pool scene and that scene references it, the result is
the answer of the first scene alone; the scenes after it are not looked at, so a later scene
that writes the resource does not add LP_REFERENCED_FOR_WRITE. -/
theorem first_reference_hides_later_write (scene_referenced : lp_scene → Nat → Nat)
    (s : lp_setup_context) (texture : Nat) (sc : lp_scene) (rest : List lp_scene)
    (hs : s.scenes = sc :: rest) (hfb : fb_has_texture s.fb texture = false)
    (hsc : fb_has_texture sc.fb texture = false) (hne : scene_referenced sc texture ≠ 0) :
    lp_setup_is_resource_referenced scene_referenced s texture = scene_referenced sc texture := by
  unfold lp_setup_is_resource_referenced
  rw [hfb, hs]
  simp only [Bool.false_eq_true, if_false]
  unfold scenes_referenced
  rw [hsc]
  simp only [Bool.false_eq_true, if_false]
  rw [if_pos hne]

theorem first_reference_hides_later_write_witness :
    demo_hidden.scenes = demo_hidden_first :: demo_hidden.scenes.drop 1 ∧
    fb_has_texture demo_hidden.fb 21 = false ∧
    fb_has_texture demo_hidden_first.fb 21 = false ∧
    lp_scene_is_resource_referenced demo_hidden_first 21 = LP_REFERENCED_FOR_READ ∧
    (∃ sc, demo_hidden.scenes.get? 1 = some sc ∧ fb_has_texture sc.fb 21 = true ∧
      sc.fence = some { rank := 1, count := 0 }) ∧
    lp_setup_is_resource_referenced lp_scene_is_resource_referenced demo_hidden 21 =
      lp_scene_is_resource_referenced demo_hidden_first 21 ∧
    lp_setup_is_resource_referenced lp_scene_is_resource_referenced demo_hidden 21 &&&
      LP_REFERENCED_FOR_WRITE = 0 :=
  ⟨by decide, by decide, by decide, by decide,
   ⟨demo_hidden.scenes.getD 1 empty_scene, by decide, by decide, by decide⟩,
   first_reference_hides_later_write lp_scene_is_resource_referenced demo_hidden 21
     demo_hidden_first (demo_hidden.scenes.drop 1) (by decide) (by decide) (by decide)
     (by decide),
   by decide⟩

/-- Claim C32, as stated, fails: in `demo_active` (state SETUP_ACTIVE, scene 0 current),
right after the call `lp_rast_queue_scene` of `lp_setup_rasterize_scene` the pointer
`setup->scene` still is scene 0; it is NULL only once `lp_setup_reset` has run, after the
call. -/
theorem scene_pointer_live_at_queue_counterexample :
    demo_active.state = setup_state.SETUP_ACTIVE ∧ demo_active.scene = some 0 ∧
    (rasterize_scene_queue demo_active).map (fun u => (u.scene, u.trace.getLast?)) =
      some (some 0, some (event.rast_queue_scene 0)) ∧
    (lp_setup_rasterize_scene demo_active).map (fun t => t.scene) = some none := by
  decide

/-- Claim C32, amended: in a successful transition to SETUP_FLUSHED from another state the
scene is handed to the rasterizer while `setup->scene` still points to it: the last two calls
are `lp_scene_end_binning` and `lp_rast_queue_scene` of the current scene, and at that point
(`u`) the pointer is not NULL.  The rest of the transition is `lp_setup_reset` and the
assignment of the state: on return `setup->scene` is NULL, no call was made after
`lp_rast_queue_scene` and no field of any pool scene was written after it. -/
theorem flush_queues_then_forgets_scene (h : lp_headers) (s t : lp_setup_context)
    (hne : s.state ≠ setup_state.SETUP_FLUSHED)
    (hr : set_scene_state h s setup_state.SETUP_FLUSHED = some (true, t)) :
    ∃ s2 u sl, s.scene = some sl ∧ s2.scene = some sl ∧
      rasterize_scene_queue s2 = some u ∧
      u.trace = s2.trace ++ [event.scene_end_binning sl, event.rast_queue_scene sl] ∧
      u.scene = some sl ∧
      t = { lp_setup_reset u with state := setup_state.SETUP_FLUSHED } ∧
      t.scene = none ∧ t.scenes = u.scenes ∧ t.trace = u.trace := by
  obtain ⟨s1, ha, hsw⟩ := set_scene_state_ne h s _ hne _ hr
  obtain ⟨_, _, _, hsame, _⟩ := acquire_some h s s1 ha
  have := hsame hne
  subst this
  obtain ⟨s2, s3, hst, hras, ht⟩ := switch_flushed_true h _ s1 t hsw
  rw [rasterize_scene_split] at hras
  cases hq : rasterize_scene_queue s2 with
  | none =>
    rw [hq] at hras
    exact Option.noConfusion hras
  | some u =>
    rw [hq] at hras
    have h3 : lp_setup_reset u = s3 := Option.some.inj hras
    obtain ⟨sl, hsc, _, husc, htr⟩ := rasterize_scene_queue_some s2 u hq
    refine ⟨s2, u, sl, ?_, hsc, hq, htr, husc, ?_, ?_, ?_, ?_⟩
    · rw [← hst.scene]
      exact hsc
    · rw [ht, h3]
    · rw [ht, ← h3]
      rfl
    · rw [ht, ← h3]
      rfl
    · rw [ht, ← h3]
      rfl

theorem flush_queues_then_forgets_scene_witness :
    demo_active.state ≠ setup_state.SETUP_FLUSHED ∧
    set_scene_state demo_headers demo_active setup_state.SETUP_FLUSHED =
      some (true, demo_flushed) ∧
    ∃ s2 u sl, demo_active.scene = some sl ∧ s2.scene = some sl ∧
      rasterize_scene_queue s2 = some u ∧
      u.trace = s2.trace ++ [event.scene_end_binning sl, event.rast_queue_scene sl] ∧
      u.scene = some sl ∧
      demo_flushed = { lp_setup_reset u with state := setup_state.SETUP_FLUSHED } ∧
      demo_flushed.scene = none ∧ demo_flushed.scenes = u.scenes ∧
      demo_flushed.trace = u.trace :=
  ⟨by decide, by rfl,
   flush_queues_then_forgets_scene demo_headers demo_active demo_flushed (by decide) (by rfl)⟩

/-- Claim C33: in every context reached from `lp_setup_create` by public operations (the
operations that drive the state machine and the setters), the calls made so far are in
order.  Every call `lp_rast_queue_scene` of a scene comes after the call
`lp_scene_begin_binning` that acquired this scene and after a successful creation of a
fence, the last creation since the acquisition, with no acquisition, release or hand-over of
a scene in between; after the hand-over no scene is owned, so a scene is handed over at most
once per acquisition.  In state SETUP_ACTIVE the current scene has a fence.  A transition of
such a context that hands a scene over is a transition to SETUP_FLUSHED that returns TRUE,
from SETUP_ACTIVE, or from SETUP_CLEARED after `execute_clears` succeeded; it hands over the
current scene, once, the scene has a fence, and `setup->scene` is NULL afterwards. -/
theorem queued_scene_carries_fence (h : lp_headers) (num_threads : Nat)
    (pipe : llvmpipe_context) (oracle : List Bool) (ops : List public_op)
    (s0 t : lp_setup_context)
    (hc : lp_setup_create h num_threads pipe oracle = some s0)
    (hr : run_public h ops s0 = some t) :
    phase_of_trace t.trace = some (phase_of t) ∧
    (∀ pre sl post, t.trace = pre ++ event.rast_queue_scene sl :: post →
      phase_of_trace (pre ++ [event.rast_queue_scene sl]) = some scene_phase.idle ∧
      ∃ a b1 rank b2,
        pre = a ++ event.scene_begin_binning sl ::
          (b1 ++ event.fence_create rank true :: b2) ∧
        (∀ e ∈ b1 ++ event.fence_create rank true :: b2, is_handover_event e = false) ∧
        (∀ e ∈ b2, is_fence_event e = false)) ∧
    (t.state = setup_state.SETUP_ACTIVE →
      ∃ sl, t.scene = some sl ∧ scene_fenced t sl = true) ∧
    (∀ new_state b u, set_scene_state h t new_state = some (b, u) →
      queue_events u.trace ≠ queue_events t.trace →
      new_state = setup_state.SETUP_FLUSHED ∧ b = true ∧
      (t.state = setup_state.SETUP_ACTIVE ∨
        (t.state = setup_state.SETUP_CLEARED ∧
          ∃ s2, execute_clears h t = some (true, s2))) ∧
      ∃ sl, t.scene = some sl ∧ queue_events u.trace = queue_events t.trace ++ [sl] ∧
        scene_fenced u sl = true ∧ u.scene = none) := by
  obtain ⟨hi, hf, _, _⟩ := run_public_reachable h num_threads pipe oracle ops s0 t hc hr
  refine ⟨hf.phase, ?_, hf.active, ?_⟩
  · intro pre sl post htr
    have hp := hf.phase
    rw [htr] at hp
    exact queue_after_fence pre post sl _ hp
  · intro new_state b u hs hq
    exact set_scene_state_queues h t u new_state b hi hf hs hq

theorem queued_scene_carries_fence_witness :
    lp_setup_create demo_headers 1 demo_pipe [] = some demo_fresh ∧
    run_public demo_headers demo_public_ops demo_fresh = some demo_public ∧
    demo_public.trace =
      [event.scene_create true, event.scene_begin_binning 0, event.fence_create 1 true,
       event.scene_alloc 0 true, event.scene_alloc 0 true, event.scene_alloc 0 true,
       event.add_frag_shader_reference 0 3 true, event.scene_alloc 0 true,
       event.scene_end_binning 0] ++ event.rast_queue_scene 0 :: [] ∧
    phase_of_trace demo_public.trace = some (phase_of demo_public) ∧
    phase_of demo_public = scene_phase.idle ∧
    ∃ a b1 rank b2,
      [event.scene_create true, event.scene_begin_binning 0, event.fence_create 1 true,
       event.scene_alloc 0 true, event.scene_alloc 0 true, event.scene_alloc 0 true,
       event.add_frag_shader_reference 0 3 true, event.scene_alloc 0 true,
       event.scene_end_binning 0] =
        a ++ event.scene_begin_binning 0 :: (b1 ++ event.fence_create rank true :: b2) ∧
      (∀ e ∈ b1 ++ event.fence_create rank true :: b2, is_handover_event e = false) ∧
      (∀ e ∈ b2, is_fence_event e = false) :=
  ⟨by rfl, by rfl, by rfl,
   (queued_scene_carries_fence demo_headers 1 demo_pipe [] demo_public_ops demo_fresh
     demo_public (by rfl) (by rfl)).1,
   by rfl,
   ((queued_scene_carries_fence demo_headers 1 demo_pipe [] demo_public_ops demo_fresh
     demo_public (by rfl) (by rfl)).2.1 _ 0 [] (by rfl)).2⟩

/-- Claim C34: the invariant `fs_inv` (`setup->fs.stored == NULL` implies that
LP_SETUP_NEW_FS is set in `setup->dirty`) holds after `lp_setup_create`, is preserved by
every setter, holds after `lp_setup_reset`, and is preserved by `try_update_scene_state`
whether it returns TRUE or FALSE; when `try_update_scene_state` is entered with the
invariant and returns TRUE, that is, reaches `assert(setup->fs.stored)`, `setup->fs.stored`
is not NULL.  The invariant holds in every context reached from `lp_setup_create` by public
operations. -/
theorem fs_stored_or_dirty (h : lp_headers) :
    (∀ num_threads pipe oracle s0,
      lp_setup_create h num_threads pipe oracle = some s0 → fs_inv s0) ∧
    (∀ op s t, fs_inv s → apply_setter h op s = some t → fs_inv t) ∧
    (∀ s, fs_inv (lp_setup_reset s)) ∧
    (∀ s b t, fs_inv s → try_update_scene_state h s = some (b, t) →
      fs_inv t ∧ (b = true → t.fs.stored ≠ none)) ∧
    (∀ num_threads pipe oracle ops s0 t,
      lp_setup_create h num_threads pipe oracle = some s0 →
      run_public h ops s0 = some t → fs_inv t) := by
  refine ⟨?_, ?_, ?_, ?_, ?_⟩
  · intro num_threads pipe oracle s0 hc
    exact lp_setup_create_fs h num_threads pipe oracle s0 hc
  · intro op s t hi hr
    exact fs_inv_frame (apply_setter_frame h op s t hr).1 hi
  · intro s
    exact fs_inv_of_reset (is_reset_lp_setup_reset s)
  · intro s b t hi hr
    obtain ⟨h1, h2⟩ := try_update_scene_state_fs h s t b hr hi
    exact ⟨h1, fun hb => (h2 hb).1⟩
  · intro num_threads pipe oracle ops s0 t hc hr
    exact (run_public_reachable h num_threads pipe oracle ops s0 t hc hr).2.2.2

theorem fs_stored_or_dirty_witness :
    lp_setup_create demo_headers 1 demo_pipe [] = some demo_fresh ∧
    run_public demo_headers (demo_public_ops.take 6) demo_fresh = some demo_public_active ∧
    demo_public_active.fs.stored ≠ none ∧
    fs_inv demo_fresh ∧ fs_inv demo_public_active ∧
    apply_setter demo_headers (setter_op.set_fs_variant 3) demo_public_active =
      some (lp_setup_set_fs_variant 3 demo_public_active) ∧
    fs_inv (lp_setup_set_fs_variant 3 demo_public_active) :=
  ⟨by rfl, by rfl, by decide,
   (fs_stored_or_dirty demo_headers).1 1 demo_pipe [] demo_fresh (by rfl),
   (fs_stored_or_dirty demo_headers).2.2.2.2 1 demo_pipe [] (demo_public_ops.take 6)
     demo_fresh demo_public_active (by rfl) (by rfl),
   by rfl,
   (fs_stored_or_dirty demo_headers).2.1 (setter_op.set_fs_variant 3) demo_public_active
     (lp_setup_set_fs_variant 3 demo_public_active)
     ((fs_stored_or_dirty demo_headers).2.2.2.2 1 demo_pipe [] (demo_public_ops.take 6)
       demo_fresh demo_public_active (by rfl) (by rfl)) (by rfl)⟩

/-- Claim C35: in every context reached from `lp_setup_create` by public operations whose
state is not SETUP_ACTIVE, `setup->dirty` has every bit set, `setup->fs.stored` is NULL and
every `constants[i]` has `stored_data == NULL` and `stored_size == 0`.  The next draw
snapshots every category anew into the scene that is then current: after a transition to
SETUP_ACTIVE that returns TRUE, and after `lp_setup_update_state(setup, TRUE)` that returns
TRUE, the state is SETUP_ACTIVE, no dirty bit is left, and viewports, blend colour, constant
buffers, SSBOs, fragment state and draw regions are all captured, viewports and blend colour
in blocks allocated after the context was left, the stored record and every stored constant
block in the current scene, from bindings that the step only read. -/
theorem no_snapshot_outside_active (h : lp_headers) (num_threads : Nat)
    (pipe : llvmpipe_context) (oracle : List Bool) (ops : List public_op)
    (s0 t : lp_setup_context)
    (hc : lp_setup_create h num_threads pipe oracle = some s0)
    (hr : run_public h ops s0 = some t)
    (hst : t.state ≠ setup_state.SETUP_ACTIVE) :
    t.dirty = ALL_ONES ∧ t.fs.stored = none ∧
    (∀ c ∈ t.constants, c.stored_data = none ∧ c.stored_size = 0) ∧
    (∀ u, (set_scene_state h t setup_state.SETUP_ACTIVE = some (true, u) ∨
        lp_setup_update_state h true t = some (true, u)) →
      u.state = setup_state.SETUP_ACTIVE ∧ u.fs.stored ≠ none ∧ u.dirty = 0 ∧
      viewports_captured h t.next_serial u ∧ blend_color_captured h t.next_serial u ∧
      constants_captured h u ∧ ssbos_captured h u ∧ fs_captured h u ∧
      u.draw_regions = draw_regions_spec h u ∧ snapshot_in_scene u ∧
      snapshot_sources u = snapshot_sources t) := by
  obtain ⟨hi, _, hu, hfs⟩ := run_public_reachable h num_threads pipe oracle ops s0 t hc hr
  obtain ⟨h1, h2, h3⟩ := hu hst
  refine ⟨h1, h2, h3, ?_⟩
  have hin : snapshot_in_scene t := by
    refine ⟨?_, ?_⟩
    · intro st hs
      rw [h2] at hs
      exact Option.noConfusion hs
    · intro c hc1 sd hsd
      rw [(h3 c hc1).1] at hsd
      exact Option.noConfusion hsd
  intro u hs
  rcases hs with hs | hs
  · obtain ⟨a1, a2⟩ := activation_captures h t u hst hi hs
    rw [h1] at a1
    obtain ⟨d1, d2, d3, d4, d5, d6⟩ := a1
    obtain ⟨b1, b2⟩ := set_scene_state_active_fs h t u hst hs hfs
    exact ⟨set_scene_state_true_state h t u _ hs, b1, b2, d1 (by decide), d2 (by decide),
      d3 (by decide), d4 (by decide), d5 (by decide), d6 (by decide), a2 hin,
      (set_scene_state_reads h t u _ true hs).1⟩
  · obtain ⟨a1, a2, a3⟩ := update_state_captures h t u hi hs
    rw [h1] at a1
    obtain ⟨d1, d2, d3, d4, d5, d6⟩ := a1
    have q := update_state_ready h t u hi hfs hs
    exact ⟨q.1, q.2.2.2, q.2.2.1, d1 (by decide), d2 (by decide),
      d3 (by decide), d4 (by decide), d5 (by decide), d6 (by decide), a3 hin, a2.1⟩

theorem no_snapshot_outside_active_witness :
    lp_setup_create demo_capture_headers 1 demo_pipe [] = some demo_fresh ∧
    run_public demo_capture_headers demo_capture_ops demo_fresh = some demo_capture ∧
    demo_capture.state = setup_state.SETUP_FLUSHED ∧
    lp_setup_update_state demo_capture_headers true demo_capture = some (true, demo_captured) ∧
    (demo_capture.dirty = ALL_ONES ∧ demo_capture.fs.stored = none ∧
     (∀ c ∈ demo_capture.constants, c.stored_data = none ∧ c.stored_size = 0) ∧
     (∀ u, (set_scene_state demo_capture_headers demo_capture setup_state.SETUP_ACTIVE =
          some (true, u) ∨
         lp_setup_update_state demo_capture_headers true demo_capture = some (true, u)) →
       u.state = setup_state.SETUP_ACTIVE ∧ u.fs.stored ≠ none ∧ u.dirty = 0 ∧
       viewports_captured demo_capture_headers demo_capture.next_serial u ∧
       blend_color_captured demo_capture_headers demo_capture.next_serial u ∧
       constants_captured demo_capture_headers u ∧ ssbos_captured demo_capture_headers u ∧
       fs_captured demo_capture_headers u ∧
       u.draw_regions = draw_regions_spec demo_capture_headers u ∧ snapshot_in_scene u ∧
       snapshot_sources u = snapshot_sources demo_capture)) :=
  ⟨by rfl, by rfl, by rfl, by rfl,
   no_snapshot_outside_active demo_capture_headers 1 demo_pipe [] demo_capture_ops
     demo_fresh demo_capture (by rfl) (by rfl) (by decide)⟩

/-- Claim C36: after `lp_setup_flush` the state is SETUP_FLUSHED, whether the transition
returned TRUE or FALSE, and a second `lp_setup_flush` returns the same context: nothing is
changed, no scene acquired, no scene queued.  Every transition to SETUP_FLUSHED ends in
state SETUP_FLUSHED.  `set_scene_state` called with the current state returns TRUE and the
context unchanged.  In a context that satisfies the state-machine invariant and whose scene
pointer is not dangling, `lp_setup_flush` returns. -/
theorem flush_idempotent (h : lp_headers) :
    (∀ s t, lp_setup_flush h s = some t →
      t.state = setup_state.SETUP_FLUSHED ∧ lp_setup_flush h t = some t ∧
      set_scene_state h t setup_state.SETUP_FLUSHED = some (true, t)) ∧
    (∀ s b t, set_scene_state h s setup_state.SETUP_FLUSHED = some (b, t) →
      t.state = setup_state.SETUP_FLUSHED) ∧
    (∀ s new_state, s.state = new_state → set_scene_state h s new_state = some (true, s)) ∧
    (∀ s, sm_inv s → pool_ok s → ∃ t, lp_setup_flush h s = some t) := by
  have hstate : ∀ s b t, set_scene_state h s setup_state.SETUP_FLUSHED = some (b, t) →
      t.state = setup_state.SETUP_FLUSHED := by
    intro s b t hr
    cases b with
    | true => exact set_scene_state_true_state h s t _ hr
    | false => exact (set_scene_state_false h s t _ hr).1
  refine ⟨?_, hstate, fun s ns he => set_scene_state_same h s ns he, ?_⟩
  · intro s t hr
    unfold lp_setup_flush at hr
    cases hx : set_scene_state h s setup_state.SETUP_FLUSHED with
    | none =>
      rw [hx] at hr
      exact Option.noConfusion hr
    | some r =>
      obtain ⟨b, t1⟩ := r
      rw [hx] at hr
      have ht : t1 = t := Option.some.inj hr
      subst ht
      have hst := hstate s b t1 hx
      have hsame := set_scene_state_same h t1 setup_state.SETUP_FLUSHED hst
      refine ⟨hst, ?_, hsame⟩
      unfold lp_setup_flush
      rw [hsame]
      rfl
  · intro s hi hp
    obtain ⟨r, hr⟩ := set_scene_state_total h s setup_state.SETUP_FLUSHED hi hp
    refine ⟨r.2, ?_⟩
    unfold lp_setup_flush
    rw [hr]
    rfl

theorem flush_idempotent_witness :
    lp_setup_flush demo_headers demo_active = some demo_flushed ∧
    demo_active.state = setup_state.SETUP_ACTIVE ∧
    demo_flushed.state = setup_state.SETUP_FLUSHED ∧
    lp_setup_flush demo_headers demo_flushed = some demo_flushed :=
  ⟨by rfl, by decide,
   ((flush_idempotent demo_headers).1 demo_active demo_flushed (by rfl)).1,
   ((flush_idempotent demo_headers).1 demo_active demo_flushed (by rfl)).2.1⟩

/-- Claim C37: in a context that satisfies the state-machine invariant and whose scene
pointer is not dangling, `lp_setup_bind_framebuffer` returns, from any state and whether the
flush it implies returned TRUE or FALSE; afterwards the state is SETUP_FLUSHED,
`setup->scene` is NULL, `setup->fb` is the framebuffer passed in, the framebuffer rectangle
is `(x0, y0, x1, y1) = (0, 0, fb->width - 1, fb->height - 1)` and LP_SETUP_NEW_SCISSOR is set
in `setup->dirty`; the context is that of the transition to SETUP_FLUSHED with these three
members written. -/
theorem bind_framebuffer_drops_scene (h : lp_headers) (fb : pipe_framebuffer_state)
    (s : lp_setup_context) (hi : sm_inv s) (hp : pool_ok s) :
    ∃ t, lp_setup_bind_framebuffer h fb s = some t ∧
      t.state = setup_state.SETUP_FLUSHED ∧ t.scene = none ∧ t.fb = fb ∧
      t.framebuffer = { x0 := 0, y0 := 0, x1 := (fb.width : Int) - 1,
                        y1 := (fb.height : Int) - 1 } ∧
      t.dirty &&& LP_SETUP_NEW_SCISSOR ≠ 0 ∧
      ∃ b u, set_scene_state h s setup_state.SETUP_FLUSHED = some (b, u) ∧
        t = { u with fb := fb,
                     framebuffer := { x0 := 0, y0 := 0, x1 := (fb.width : Int) - 1,
                                      y1 := (fb.height : Int) - 1 },
                     dirty := u.dirty ||| LP_SETUP_NEW_SCISSOR } := by
  obtain ⟨r, hr⟩ := set_scene_state_total h s setup_state.SETUP_FLUSHED hi hp
  obtain ⟨b, u⟩ := r
  have hiu := set_scene_state_inv h s u _ b hr hi
  have hst : u.state = setup_state.SETUP_FLUSHED := by
    cases b with
    | true => exact set_scene_state_true_state h s u _ hr
    | false => exact (set_scene_state_false h s u _ hr).1
  have hsc : u.scene = none := hiu.1.mp hst
  refine ⟨{ u with fb := fb,
                   framebuffer := { x0 := 0, y0 := 0, x1 := (fb.width : Int) - 1,
                                    y1 := (fb.height : Int) - 1 },
                   dirty := u.dirty ||| LP_SETUP_NEW_SCISSOR }, ?_, hst, hsc, rfl, rfl, ?_,
    b, u, hr, rfl⟩
  · unfold lp_setup_bind_framebuffer
    rw [hr]
  · show (u.dirty ||| LP_SETUP_NEW_SCISSOR) &&& LP_SETUP_NEW_SCISSOR ≠ 0
    rw [lor_land_self]
    decide

theorem bind_framebuffer_drops_scene_witness :
    sm_inv demo_active ∧ pool_ok demo_active ∧
    demo_active.state = setup_state.SETUP_ACTIVE ∧
    ∃ t, lp_setup_bind_framebuffer demo_headers demo_fb_tex demo_active = some t ∧
      t.state = setup_state.SETUP_FLUSHED ∧ t.scene = none ∧ t.fb = demo_fb_tex ∧
      t.framebuffer = { x0 := 0, y0 := 0, x1 := ((demo_fb_tex.width : Nat) : Int) - 1,
                        y1 := ((demo_fb_tex.height : Nat) : Int) - 1 } :=
  ⟨(created_reachable demo_headers 1 demo_pipe [] (demo_ops.take 3) demo_active (by rfl)).1,
   (created_reachable demo_headers 1 demo_pipe [] (demo_ops.take 3) demo_active (by rfl)).2.1,
   by decide,
   (bind_framebuffer_drops_scene demo_headers demo_fb_tex demo_active
      (created_reachable demo_headers 1 demo_pipe [] (demo_ops.take 3) demo_active (by rfl)).1
      (created_reachable demo_headers 1 demo_pipe [] (demo_ops.take 3) demo_active
        (by rfl)).2.1).elim
     (fun t ht => ⟨t, ht.1, ht.2.1, ht.2.2.1, ht.2.2.2.1, ht.2.2.2.2.1⟩)⟩

/-- Claim C38: called with an array of at least PIPE_MAX_VIEWPORTS scissors,
`lp_setup_set_scissors` returns with `setup->scissors[i] = (x0, y0, x1, y1) =
(minx, miny, maxx - 1, maxy - 1)` for every `i` below PIPE_MAX_VIEWPORTS; the array keeps its
length PIPE_MAX_VIEWPORTS, and no other member changes except that LP_SETUP_NEW_SCISSOR is
set in `setup->dirty`. -/
theorem set_scissors_inclusive (h : lp_headers) (scissors : List pipe_scissor_state)
    (s : lp_setup_context) (hlen : h.PIPE_MAX_VIEWPORTS ≤ scissors.length) :
    ∃ t, lp_setup_set_scissors h scissors s = some t ∧
      (∀ i sc, i < h.PIPE_MAX_VIEWPORTS → scissors.get? i = some sc →
        t.scissors.get? i = some { x0 := (sc.minx : Int), y0 := (sc.miny : Int),
                                   x1 := (sc.maxx : Int) - 1, y1 := (sc.maxy : Int) - 1 }) ∧
      (∀ i, h.PIPE_MAX_VIEWPORTS ≤ i → s.scissors.length = h.PIPE_MAX_VIEWPORTS →
        t.scissors.get? i = s.scissors.get? i) ∧
      (s.scissors.length = h.PIPE_MAX_VIEWPORTS → t.scissors.length = h.PIPE_MAX_VIEWPORTS) ∧
      t = { s with scissors := t.scissors, dirty := s.dirty ||| LP_SETUP_NEW_SCISSOR } := by
  unfold lp_setup_set_scissors
  rw [if_pos hlen]
  have hl1 : ((scissors.take h.PIPE_MAX_VIEWPORTS).map scissor_rect).length =
      h.PIPE_MAX_VIEWPORTS := by
    rw [List.length_map, List.length_take]
    omega
  refine ⟨_, rfl, ?_, ?_, ?_, rfl⟩
  · intro i sc hi hg
    show ((scissors.take h.PIPE_MAX_VIEWPORTS).map scissor_rect ++
      s.scissors.drop h.PIPE_MAX_VIEWPORTS).get? i = _
    rw [List.get?_eq_getElem?, List.getElem?_append_left (by rw [hl1]; exact hi),
      List.getElem?_map, List.getElem?_take_of_lt hi, ← List.get?_eq_getElem?, hg]
    rfl
  · intro i hi hs
    show ((scissors.take h.PIPE_MAX_VIEWPORTS).map scissor_rect ++
      s.scissors.drop h.PIPE_MAX_VIEWPORTS).get? i = _
    rw [List.get?_eq_none.mpr (by rw [List.length_append, hl1, List.length_drop]; omega),
      List.get?_eq_none.mpr (by omega)]
  · intro hs
    show ((scissors.take h.PIPE_MAX_VIEWPORTS).map scissor_rect ++
      s.scissors.drop h.PIPE_MAX_VIEWPORTS).length = _
    rw [List.length_append, hl1, List.length_drop]
    omega

theorem set_scissors_inclusive_witness :
    demo_headers.PIPE_MAX_VIEWPORTS ≤
      [({ minx := 1, miny := 2, maxx := 3, maxy := 4 } : pipe_scissor_state),
       { minx := 0, miny := 0, maxx := 0, maxy := 0 }].length ∧
    ∃ t, lp_setup_set_scissors demo_headers
        [{ minx := 1, miny := 2, maxx := 3, maxy := 4 },
         { minx := 0, miny := 0, maxx := 0, maxy := 0 }] demo_active = some t ∧
      t.scissors.get? 0 = some { x0 := 1, y0 := 2, x1 := 2, y1 := 3 } ∧
      t.scissors.get? 1 = some { x0 := 0, y0 := 0, x1 := -1, y1 := -1 } :=
  ⟨by decide,
   (set_scissors_inclusive demo_headers
      [{ minx := 1, miny := 2, maxx := 3, maxy := 4 },
       { minx := 0, miny := 0, maxx := 0, maxy := 0 }] demo_active (by decide)).elim
     (fun t ht => ⟨t, ht.1,
       ht.2.1 0 { minx := 1, miny := 2, maxx := 3, maxy := 4 } (by decide) rfl,
       ht.2.1 1 { minx := 0, miny := 0, maxx := 0, maxy := 0 } (by decide) rfl⟩)⟩

/-- Claim C39: for coordinates of absolute value at most 2^22 (no shift overflows) and an
array with room for the planes, `lp_setup_add_scissor_planes` writes, from the start of the
array, exactly the planes of `scissor_planes_spec`: one plane for every flag of `s_planes`
that is set, in the order left, right, top, bottom, with `adj = 127` if multisample else 0,
left `(dcdx, dcdy, c, eo) = (~0U << 8, 0, -(((x0 - 1) << 8) + adj), 256)`, right
`(256, 0, (x1 << 8) + 127 + adj, 0)`, top `(0, 256, -(((y0 - 1) << 8) + adj), 256)`, bottom
`(0, ~0U << 8, (y1 << 8) + 127 + adj, 0)`; the planes beyond them are unchanged; the
`int32_t` value of `~0U << 8` is -256. -/
theorem add_scissor_planes_writes (scissor : u_rect) (plane_s : List lp_rast_plane)
    (s_planes : Fin 4 → Bool) (multisample : Bool)
    (hx0 : -4194304 ≤ scissor.x0 ∧ scissor.x0 ≤ 4194304)
    (hx1 : -4194304 ≤ scissor.x1 ∧ scissor.x1 ≤ 4194304)
    (hy0 : -4194304 ≤ scissor.y0 ∧ scissor.y0 ≤ 4194304)
    (hy1 : -4194304 ≤ scissor.y1 ∧ scissor.y1 ≤ 4194304)
    (hlen : count_planes s_planes ≤ plane_s.length) :
    lp_setup_add_scissor_planes scissor plane_s s_planes multisample =
      some (scissor_planes_spec scissor s_planes multisample ++
        plane_s.drop (count_planes s_planes)) ∧
    (scissor_planes_spec scissor s_planes multisample).length = count_planes s_planes ∧
    all_ones_shl8 = -256 := by
  refine ⟨?_, scissor_planes_spec_length scissor s_planes multisample, all_ones_shl8_eq⟩
  unfold lp_setup_add_scissor_planes scissor_planes_spec
  unfold count_planes at hlen ⊢
  dsimp only
  rw [left_plane_c scissor.x0 multisample hx0.1 hx0.2,
    right_plane_c scissor.x1 multisample hx1.1 hx1.2,
    left_plane_c scissor.y0 multisample hy0.1 hy0.2,
    right_plane_c scissor.y1 multisample hy1.1 hy1.2, all_ones_shl8_eq]
  have h0 : (some (plane_s, 0) : Option (List lp_rast_plane × Nat)) =
      some (([] : List lp_rast_plane) ++ plane_s.drop ([] : List lp_rast_plane).length,
        ([] : List lp_rast_plane).length) := by simp
  rw [h0]
  generalize s_planes 0 = f0 at hlen ⊢
  generalize s_planes 1 = f1 at hlen ⊢
  generalize s_planes 2 = f2 at hlen ⊢
  generalize s_planes 3 = f3 at hlen ⊢
  rw [emit_plane f0 _ [] plane_s (by
    cases f0 <;> cases f1 <;> cases f2 <;> cases f3 <;> simp at hlen ⊢ <;> omega)]
  rw [emit_plane f1 _ _ plane_s (by
    cases f0 <;> cases f1 <;> cases f2 <;> cases f3 <;> simp at hlen ⊢ <;> omega)]
  rw [emit_plane f2 _ _ plane_s (by
    cases f0 <;> cases f1 <;> cases f2 <;> cases f3 <;> simp at hlen ⊢ <;> omega)]
  rw [emit_plane f3 _ _ plane_s (by
    cases f0 <;> cases f1 <;> cases f2 <;> cases f3 <;> simp at hlen ⊢ <;> omega)]
  cases f0 <;> cases f1 <;> cases f2 <;> cases f3 <;> simp

theorem add_scissor_planes_writes_witness :
    count_planes demo_s_planes ≤ demo_planes.length ∧
    lp_setup_add_scissor_planes demo_scissor demo_planes demo_s_planes true =
      some (scissor_planes_spec demo_scissor demo_s_planes true ++
        demo_planes.drop (count_planes demo_s_planes)) ∧
    scissor_planes_spec demo_scissor demo_s_planes true ++
        demo_planes.drop (count_planes demo_s_planes) =
      [{ dcdx := -256, dcdy := 0, c := -383, eo := 256 },
       { dcdx := 0, dcdy := 256, c := -127, eo := 256 },
       { dcdx := 0, dcdy := -256, c := 2046, eo := 0 },
       { c := 0, dcdx := 0, dcdy := 0, eo := 0 }] :=
  ⟨by decide,
   (add_scissor_planes_writes demo_scissor demo_planes demo_s_planes true (by decide)
     (by decide) (by decide) (by decide) (by decide)).1,
   by decide⟩

end LpSetup
